import Mathlib

/-!
# CASIO SW-10 software synthesizer (`VLSG.c`): a shallow embedding

The module-level variables of `VLSG.c` are gathered in one record, `State`, and every
function of the source becomes a function on that record.

Conventions of the embedding:

* every machine integer is an `Int`; a store into a field of a narrower or unsigned type is
  a wrap (`u8`, `u16`, `u32`, `i8`, `i16`, `i32`), signed 32-bit arithmetic wraps, `>>` on a
  signed value is the arithmetic shift (floor division), and a shift count is taken modulo 32;
* a bit mask is written arithmetically: `x % 2 ^ k` keeps the low `k` bits,
  `x / 2 ^ k % 2` is bit `k`;
* an array is a function on `Int`; a pointer to a voice, or to a channel block, is its index;
* the ROM and the output buffer are memory of the caller: `rom_memory` is read only, and the
  output memory is passed to, and returned by, the functions that write it;
* the two readings of the clock (`VLSG_GetTime`) of one callback are arguments;
* a loop that the source cannot be shown to leave in every state is run with fuel and
  returns `none` when the fuel is used up.
-/

namespace VLSG

/-! ## Machine integers -/

/-- Conversion to `uint8_t`. -/
def u8 (x : Int) : Int := x % 256

/-- Conversion to `uint16_t`. -/
def u16 (x : Int) : Int := x % 65536

/-- Conversion to `uint32_t`. -/
def u32 (x : Int) : Int := x % 4294967296

/-- Conversion to `int8_t`. -/
def i8 (x : Int) : Int := (x + 128) % 256 - 128

/-- Conversion to `int16_t`. -/
def i16 (x : Int) : Int := (x + 32768) % 65536 - 32768

/-- Conversion to `int32_t`. -/
def i32 (x : Int) : Int := (x + 2147483648) % 4294967296 - 2147483648

/-- The factor `2 ^ (n mod 32)` of a shift by `n` on a 32-bit operand. -/
def shiftFactor (n : Int) : Int := 2 ^ (n % 32).toNat

/-- Signed 32-bit `x << n`. -/
def shl32 (x n : Int) : Int := i32 (x * shiftFactor n)

/-- Signed `x >> n` (arithmetic). -/
def sar32 (x n : Int) : Int := x / shiftFactor n

/-- Entry `i` of a constant table; `0` outside the table. -/
def tableAt (t : List Int) (i : Int) : Int := if 0 ≤ i then t.getD i.toNat 0 else 0

/-! ## Constants and tables -/

def MIDI_CHANNELS : Int := 16
def DRUM_CHANNEL : Int := 9
def MAX_VOICES : Int := 64

def PARAMETER_OutputBuffer : Int := 1
def PARAMETER_ROMAddress : Int := 2
def PARAMETER_Frequency : Int := 3
def PARAMETER_Polyphony : Int := 4
def PARAMETER_Effect : Int := 5

/-- Table `dword_C0032188[112+104+40]` of the source (exponent table of the pitch computation). -/
def dword_C0032188 : List Int :=
  [
   0, 0, 0, 0, 0, 0, 0, 0, 0, 0, 0, 0, 0, 0, 0, 0,
   0, 0, 0, 0, 0, 0, 0, 0, 0, 0, 0, 0, 0, 0, 0, 0,
   0, 0, 0, 0, 0, 0, 0, 0, 0, 0, 0, 0, 0, 0, 0, 0,
   0, 0, 0, 0, 0, 0, 0, 0, 0, 0, 0, 0, 1, 1, 1, 1,
   1, 1, 1, 1, 1, 1, 1, 1, 2, 2, 2, 2, 2, 2, 2, 2,
   3, 3, 3, 3, 4, 4, 4, 4, 5, 5, 5, 5, 6, 6, 7, 7,
   8, 8, 8, 9, 10, 10, 11, 11, 12, 13, 14, 15, 16, 16, 17, 19,
   20, 21, 22, 23, 25, 26, 28, 30, 32, 33, 35, 38, 40, 42, 45, 47,
   50, 53, 57, 60, 64, 67, 71, 76, 80, 85, 90, 95, 101, 107, 114, 120,
   128, 135, 143, 152, 161, 170, 181, 191, 203, 215, 228, 241, 256, 271, 287, 304,
   322, 341, 362, 383, 406, 430, 456, 483, 512, 542, 574, 608, 645, 683, 724, 767,
   812, 861, 912, 966, 1024, 1084, 1149, 1217, 1290, 1366, 1448, 1534, 1625, 1722, 1824, 1933,
   2048, 2169, 2298, 2435, 2580, 2733, 2896, 3068, 3250, 3444, 3649, 3866, 4096, 4339, 4597, 4870,
   5160, 5467, 5792, 6137, 6501, 6888, 7298, 7732, 8192, 8679, 9195, 9741, 10321, 10935, 11585, 12274,
   13003, 13777, 14596, 15464, 16384, 17358, 18390, 19483, 20642, 21870, 23170, 24548, 26007, 27554, 29192, 30928,
   32768, 34716, 36780, 38967, 41285, 43740, 46340, 49096, 52015, 55108, 58385, 61857, 65536, 69432, 73561, 77935
  ]

/-- Table `dword_C0032588[256]` of the source (mantissa table of the pitch computation). -/
def dword_C0032588 : List Int :=
  [
   32768, 32775, 32782, 32790, 32797, 32804, 32812, 32819, 32827, 32834, 32842, 32849, 32856, 32864, 32871, 32879,
   32886, 32893, 32901, 32908, 32916, 32923, 32931, 32938, 32945, 32953, 32960, 32968, 32975, 32983, 32990, 32998,
   33005, 33012, 33020, 33027, 33035, 33042, 33050, 33057, 33065, 33072, 33080, 33087, 33094, 33102, 33109, 33117,
   33124, 33132, 33139, 33147, 33154, 33162, 33169, 33177, 33184, 33192, 33199, 33207, 33214, 33222, 33229, 33237,
   33244, 33252, 33259, 33267, 33274, 33282, 33289, 33297, 33304, 33312, 33319, 33327, 33334, 33342, 33349, 33357,
   33364, 33372, 33379, 33387, 33394, 33402, 33410, 33417, 33425, 33432, 33440, 33447, 33455, 33462, 33470, 33477,
   33485, 33493, 33500, 33508, 33515, 33523, 33530, 33538, 33546, 33553, 33561, 33568, 33576, 33583, 33591, 33599,
   33606, 33614, 33621, 33629, 33636, 33644, 33652, 33659, 33667, 33674, 33682, 33690, 33697, 33705, 33712, 33720,
   33728, 33735, 33743, 33751, 33758, 33766, 33773, 33781, 33789, 33796, 33804, 33811, 33819, 33827, 33834, 33842,
   33850, 33857, 33865, 33873, 33880, 33888, 33896, 33903, 33911, 33918, 33926, 33934, 33941, 33949, 33957, 33964,
   33972, 33980, 33987, 33995, 34003, 34010, 34018, 34026, 34033, 34041, 34049, 34057, 34064, 34072, 34080, 34087,
   34095, 34103, 34110, 34118, 34126, 34133, 34141, 34149, 34157, 34164, 34172, 34180, 34187, 34195, 34203, 34211,
   34218, 34226, 34234, 34241, 34249, 34257, 34265, 34272, 34280, 34288, 34296, 34303, 34311, 34319, 34327, 34334,
   34342, 34350, 34358, 34365, 34373, 34381, 34389, 34396, 34404, 34412, 34420, 34427, 34435, 34443, 34451, 34458,
   34466, 34474, 34482, 34490, 34497, 34505, 34513, 34521, 34528, 34536, 34544, 34552, 34560, 34567, 34575, 34583,
   34591, 34599, 34606, 34614, 34622, 34630, 34638, 34646, 34653, 34661, 34669, 34677, 34685, 34692, 34700, 34708
  ]

/-- Table `dword_C0032988[38+34+1]` of the source (pairs of drum notes, the second of which is cut by the first). -/
def dword_C0032988 : List Int :=
  [
   42, 44, 42, 46, 44, 42, 44, 46, 46, 42, 46, 44, 71, 72, 72, 71,
   73, 74, 74, 73, 78, 79, 79, 78, 80, 81, 81, 80, 29, 30, 30, 29,
   86, 87, 87, 86, 255, 255, 27, 28, 27, 29, 28, 27, 28, 29, 29, 27,
   29, 28, 71, 72, 72, 71, 73, 74, 74, 73, 78, 79, 79, 78, 80, 81,
   81, 80, 86, 87, 87, 86, 255, 255, 0
  ]

/-- Table `dword_C0032AA8[12][128]` of the source (velocity curves), row after row. -/
def dword_C0032AA8_flat : List Int :=
  [
   0, 1, 1, 1, 2, 2, 2, 2, 3, 3, 4, 5, 6, 7, 8, 9,
   11, 13, 14, 16, 18, 20, 22, 24, 26, 28, 30, 32, 34, 36, 39, 41,
   43, 45, 47, 49, 51, 52, 54, 55, 57, 59, 60, 61, 63, 64, 66, 67,
   68, 69, 70, 72, 73, 74, 76, 77, 78, 79, 81, 82, 83, 84, 85, 86,
   87, 87, 88, 89, 90, 91, 91, 92, 93, 93, 94, 95, 95, 96, 97, 97,
   98, 99, 100, 100, 101, 102, 102, 103, 104, 104, 105, 106, 106, 107, 108, 108,
   109, 110, 111, 111, 112, 113, 113, 114, 115, 115, 116, 117, 117, 118, 119, 119,
   120, 121, 122, 122, 123, 123, 124, 124, 124, 125, 125, 125, 126, 126, 126, 127,
   0, 1, 1, 1, 2, 2, 2, 2, 3, 3, 4, 5, 6, 7, 8, 9,
   11, 13, 14, 16, 18, 20, 22, 24, 26, 28, 30, 32, 34, 36, 39, 41,
   43, 45, 47, 49, 51, 52, 54, 55, 57, 59, 60, 61, 63, 64, 66, 67,
   68, 69, 70, 72, 73, 74, 76, 77, 78, 79, 81, 82, 83, 84, 85, 86,
   87, 87, 88, 89, 90, 91, 91, 92, 93, 93, 94, 95, 95, 96, 97, 97,
   98, 99, 100, 100, 101, 102, 102, 103, 104, 104, 105, 106, 106, 107, 108, 108,
   109, 110, 111, 111, 112, 113, 113, 114, 115, 115, 116, 117, 117, 118, 119, 119,
   120, 121, 122, 122, 123, 123, 124, 124, 124, 125, 125, 125, 126, 126, 126, 127,
   0, 1, 1, 1, 2, 2, 2, 2, 3, 3, 4, 5, 6, 7, 8, 9,
   11, 12, 13, 15, 17, 19, 21, 23, 25, 27, 29, 31, 33, 35, 37, 39,
   41, 43, 45, 47, 49, 50, 52, 53, 55, 57, 58, 59, 60, 61, 63, 64,
   65, 66, 67, 69, 70, 71, 73, 74, 75, 76, 78, 79, 80, 81, 82, 83,
   83, 84, 85, 86, 87, 88, 88, 89, 90, 90, 91, 92, 92, 93, 94, 94,
   95, 96, 97, 97, 98, 99, 99, 101, 102, 102, 103, 104, 104, 105, 106, 106,
   107, 108, 109, 110, 111, 112, 112, 113, 114, 114, 115, 116, 117, 118, 119, 119,
   120, 121, 122, 122, 123, 123, 124, 124, 124, 125, 125, 125, 126, 126, 126, 127,
   0, 1, 1, 1, 2, 2, 2, 2, 3, 3, 4, 5, 6, 7, 7, 8,
   10, 12, 13, 15, 17, 18, 20, 22, 24, 26, 28, 29, 31, 33, 36, 38,
   40, 41, 43, 45, 47, 48, 50, 51, 52, 54, 55, 56, 58, 59, 61, 62,
   62, 63, 64, 66, 67, 68, 70, 71, 72, 73, 74, 75, 76, 77, 78, 79,
   80, 80, 81, 82, 83, 84, 84, 85, 86, 87, 88, 89, 89, 90, 91, 91,
   92, 93, 94, 95, 96, 97, 97, 98, 99, 99, 101, 102, 102, 103, 104, 104,
   106, 107, 108, 108, 109, 110, 111, 112, 113, 113, 115, 116, 116, 117, 118, 119,
   120, 121, 122, 122, 123, 123, 124, 124, 124, 125, 125, 125, 126, 126, 126, 127,
   0, 1, 1, 1, 2, 2, 2, 2, 3, 3, 4, 5, 5, 6, 7, 8,
   10, 11, 12, 14, 16, 18, 19, 21, 23, 25, 26, 28, 30, 32, 34, 36,
   38, 40, 41, 43, 45, 46, 47, 48, 50, 52, 53, 54, 55, 56, 58, 59,
   60, 61, 61, 63, 64, 65, 67, 68, 69, 69, 71, 72, 73, 74, 75, 76,
   76, 77, 78, 79, 80, 81, 81, 82, 83, 83, 84, 86, 86, 87, 88, 88,
   89, 91, 92, 92, 93, 94, 94, 96, 97, 97, 98, 100, 100, 101, 102, 103,
   104, 105, 106, 107, 108, 109, 110, 111, 112, 112, 114, 115, 116, 117, 118, 119,
   120, 121, 122, 122, 123, 123, 124, 124, 124, 125, 125, 125, 126, 126, 126, 127,
   0, 1, 1, 1, 2, 2, 2, 2, 3, 3, 4, 4, 5, 6, 7, 8,
   9, 11, 12, 13, 15, 17, 18, 20, 22, 23, 25, 27, 28, 30, 33, 34,
   36, 38, 39, 41, 43, 44, 45, 46, 48, 49, 50, 51, 53, 54, 55, 56,
   57, 58, 59, 60, 61, 62, 64, 65, 65, 66, 68, 69, 70, 70, 71, 72,
   73, 73, 74, 75, 76, 77, 78, 79, 80, 80, 81, 82, 83, 84, 85, 85,
   87, 88, 89, 89, 90, 92, 92, 93, 94, 95, 96, 97, 98, 99, 100, 101,
   102, 103, 105, 105, 107, 108, 108, 110, 111, 112, 113, 115, 115, 116, 118, 118,
   120, 121, 122, 122, 123, 123, 124, 124, 124, 125, 125, 125, 126, 126, 126, 127,
   0, 1, 1, 1, 2, 2, 2, 2, 3, 3, 3, 4, 5, 6, 7, 7,
   9, 10, 11, 13, 14, 16, 18, 19, 21, 22, 24, 26, 27, 29, 31, 33,
   34, 36, 37, 39, 41, 41, 43, 44, 45, 47, 48, 49, 50, 51, 53, 53,
   54, 55, 56, 57, 58, 59, 61, 61, 62, 63, 65, 65, 66, 67, 68, 69,
   69, 70, 71, 72, 73, 74, 74, 76, 77, 77, 78, 79, 80, 81, 82, 82,
   84, 85, 86, 87, 88, 89, 89, 91, 92, 93, 94, 95, 96, 97, 98, 99,
   100, 102, 103, 104, 105, 107, 107, 109, 110, 111, 112, 114, 115, 116, 118, 118,
   120, 121, 122, 122, 123, 123, 124, 124, 124, 125, 125, 125, 126, 126, 126, 127,
   0, 1, 1, 1, 2, 2, 2, 2, 3, 3, 3, 4, 5, 6, 6, 7,
   8, 10, 11, 12, 14, 15, 17, 18, 20, 21, 23, 24, 26, 27, 30, 31,
   33, 34, 36, 37, 39, 39, 41, 42, 43, 45, 45, 46, 48, 48, 50, 51,
   51, 52, 53, 54, 55, 56, 58, 58, 59, 60, 61, 62, 63, 64, 64, 65,
   66, 66, 67, 68, 70, 71, 71, 72, 73, 74, 75, 76, 77, 78, 79, 80,
   81, 82, 83, 84, 85, 86, 87, 88, 90, 90, 92, 93, 94, 95, 97, 97,
   99, 100, 102, 102, 104, 105, 106, 108, 109, 110, 112, 113, 114, 116, 117, 118,
   120, 121, 122, 122, 123, 123, 124, 124, 124, 125, 125, 125, 126, 126, 126, 127,
   0, 1, 1, 1, 2, 2, 2, 2, 3, 2, 3, 4, 5, 5, 6, 7,
   8, 9, 10, 11, 13, 14, 16, 17, 19, 20, 21, 23, 24, 26, 28, 29,
   31, 32, 34, 35, 37, 37, 39, 39, 41, 42, 43, 44, 45, 46, 47, 48,
   49, 49, 50, 52, 52, 53, 54, 55, 56, 57, 58, 59, 59, 60, 61, 62,
   62, 63, 64, 65, 66, 67, 68, 69, 70, 71, 72, 73, 74, 75, 76, 77,
   78, 79, 81, 81, 83, 84, 84, 86, 87, 88, 89, 91, 92, 93, 95, 95,
   97, 98, 100, 101, 102, 104, 105, 107, 108, 109, 111, 113, 114, 115, 117, 118,
   120, 121, 122, 122, 123, 123, 124, 124, 124, 125, 125, 125, 126, 126, 126, 127,
   0, 1, 1, 1, 2, 2, 2, 2, 2, 2, 3, 4, 4, 5, 6, 6,
   7, 9, 9, 11, 12, 14, 15, 16, 18, 19, 20, 22, 23, 24, 26, 28,
   29, 30, 32, 33, 34, 35, 36, 37, 39, 40, 41, 41, 43, 43, 45, 45,
   46, 47, 47, 49, 49, 50, 51, 52, 53, 53, 55, 55, 56, 57, 57, 58,
   59, 59, 60, 62, 63, 64, 64, 66, 67, 67, 69, 70, 70, 72, 73, 74,
   75, 76, 78, 78, 80, 81, 82, 83, 85, 86, 87, 89, 89, 91, 93, 93,
   95, 97, 99, 99, 101, 103, 104, 106, 107, 108, 110, 112, 113, 115, 117, 118,
   120, 121, 122, 122, 123, 123, 124, 124, 124, 125, 125, 125, 126, 126, 126, 127,
   0, 1, 1, 1, 2, 2, 2, 2, 2, 2, 3, 4, 4, 5, 5, 6,
   7, 8, 9, 10, 11, 13, 14, 15, 17, 18, 19, 20, 22, 23, 25, 26,
   27, 29, 30, 31, 32, 33, 34, 35, 36, 37, 38, 39, 40, 41, 42, 43,
   43, 44, 44, 46, 46, 47, 48, 49, 50, 50, 51, 52, 53, 53, 54, 55,
   55, 56, 57, 58, 59, 61, 61, 62, 64, 64, 65, 67, 67, 69, 70, 71,
   72, 74, 75, 76, 77, 79, 79, 81, 83, 83, 85, 87, 87, 89, 91, 92,
   93, 95, 97, 98, 100, 102, 103, 104, 106, 107, 109, 111, 113, 115, 117, 118,
   120, 121, 122, 122, 123, 123, 124, 124, 124, 125, 125, 125, 126, 126, 126, 127,
   0, 1, 1, 1, 2, 2, 2, 2, 2, 2, 3, 3, 4, 5, 5, 6,
   7, 8, 8, 10, 11, 12, 13, 14, 15, 17, 18, 19, 20, 21, 23, 24,
   26, 27, 28, 29, 30, 31, 32, 33, 34, 35, 36, 36, 37, 38, 39, 40,
   40, 41, 42, 43, 43, 44, 45, 46, 46, 47, 48, 49, 49, 50, 51, 51,
   52, 52, 53, 55, 56, 57, 58, 59, 60, 61, 62, 64, 64, 66, 67, 68,
   69, 71, 72, 73, 75, 76, 77, 79, 80, 81, 83, 84, 85, 87, 89, 90,
   92, 94, 95, 96, 98, 100, 101, 103, 105, 107, 109, 111, 112, 114, 116, 118,
   120, 121, 122, 122, 123, 123, 124, 124, 124, 125, 125, 125, 126, 126, 126, 127
  ]

/-- Entry `dword_C0032AA8[row][col]`. -/
def dword_C0032AA8 (row col : Int) : Int :=
  if 0 ≤ row ∧ 0 ≤ col then tableAt dword_C0032AA8_flat (128 * row + col) else 0

/-- Table `drum_kits[8]`. -/
def drum_kits : List Int := [0, 8, 16, 24, 25, 32, 40, 48]

/-- Table `drum_kit_numbers[8]`. -/
def drum_kit_numbers : List Int := [0, 1, 2, 3, 4, 5, 6, 7]

/-- Table `dword_C00342C0[4]`. -/
def dword_C00342C0 : List Int := [0, 1, 2, -1]

/-- Table `word_C00342D0[17]`. -/
def word_C00342D0 : List Int :=
  [0, 250, 561, 949, 1430, 2030, 2776, 3704, 4858, 6295, 8083, 10307, 13075, 16519, 20803,
   26135, 32768]

/-! ## Data model -/

/-- Record `Channel_Data`; `chflags` holds `CHFLAG_Sostenuto = 0x2000`,
`CHFLAG_Soft = 0x4000` and `CHFLAG_Sustain = 0x8000`. -/
structure Channel_Data where
  program_change : Int
  modulation : Int
  channel_pressure : Int
  expression : Int
  volume : Int
  pitch_bend : Int
  pan : Int
  chflags : Int
  pitch_bend_sense : Int
  fine_tune : Int
  coarse_tune : Int
  parameter_number_MSB : Int
  parameter_number_LSB : Int
  data_entry_MSB : Int
  data_entry_LSB : Int

/-- Record `Voice_Data`; `note_number = 255` marks a free voice, and `vflags` holds the two
envelope segments (bits 0 to 2 and 3 to 5), `VFLAG_Value40` and `VFLAG_Value80`. -/
structure Voice_Data where
  field_00 : Int
  field_04 : Int
  field_08 : Int
  field_0C : Int → Int
  field_1C : Int
  field_20 : Int
  field_24 : Int
  field_28 : Int
  field_2C : Int
  field_30 : Int
  field_34 : Int
  field_38 : Int
  note_number : Int
  note_velocity : Int
  channel_num_2 : Int
  field_44 : Int
  vflags : Int
  field_48 : Int
  field_4A : Int
  field_4C : Int
  field_4E : Int
  field_50 : Int
  field_52 : Int
  field_54 : Int
  field_56 : Int
  field_58 : Int
  field_5A : Int
  field_5C : Int
  field_5E : Int
  field_60 : Int
  field_62 : Int
  field_64 : Int
  field_66 : Int
  field_68 : Int
  field_6A : Int

/-- Record `struc_6`: the 28 words of program data of a channel (two layers of 14). -/
structure struc_6 where
  data : Int → Int

/-- The module-level variables of `VLSG.c`, and the ROM they point to.
`stru6_ptr` and `channel_data_ptr` hold a channel index, `reverb_data_ptr` is `1` when it
points to `reverb_data_buffer` and `0` when it is `NULL`. -/
structure State where
  dword_C0000000 : Int
  dword_C0000004 : Int
  dword_C0000008 : Int
  output_size_para : Int
  system_time_2 : Int
  event_data : Int → Int
  recent_voice_index : Int
  stru6_ptr : Int
  channel_data_ptr : Int
  event_type : Int
  event_length : Int
  reverb_data_buffer : Int → Int
  reverb_data_index : Int
  is_reverb_enabled : Int
  reverb_shift : Int
  midi_data_read_index : Int
  midi_data_buffer : Int → Int
  midi_data_write_index : Int
  processing_phase : Int
  rom_offset : Int
  stru_C0030080 : Int → struc_6
  channel_data : Int → Channel_Data
  voice_data : Int → Voice_Data
  effect_type : Int
  current_polyphony : Int
  romsxgm_ptr : Int
  output_frequency : Int
  maximum_polyphony_new_value : Int
  system_time_1 : Int
  maximum_polyphony : Int
  output_data_ptr : Int
  output_buffer_size_samples : Int
  output_buffer_size_bytes : Int
  effect_param_value : Int
  reverb_data_ptr : Int
  rom_memory : Int → Int
  /-- What the program reads at `dword_C0032188[i]` for an index `i` outside the 256 entries
  of the table: the source indexes the table without a range test, and what lies around the
  array is a matter of the build. No function of the source writes it. -/
  around_C0032188 : Int → Int

/-- Update of one voice. -/
def State.updVoice (s : State) (i : Int) (f : Voice_Data → Voice_Data) : State :=
  { s with voice_data := Function.update s.voice_data i (f (s.voice_data i)) }

/-- Update of one channel block. -/
def State.updChannel (s : State) (i : Int) (f : Channel_Data → Channel_Data) : State :=
  { s with channel_data := Function.update s.channel_data i (f (s.channel_data i)) }

/-- Store into `data[k]` of the program data of channel `i`. -/
def State.setStru6 (s : State) (i k v : Int) : State :=
  let d : struc_6 := struc_6.mk (Function.update (s.stru_C0030080 i).data k v)
  { s with stru_C0030080 := Function.update s.stru_C0030080 i d }

/-- Loop `for (i = lo; i < lo + n; i++) s = f i s`. -/
def forUp {σ : Type} (f : Int → σ → σ) : Nat → Int → σ → σ
  | 0, _, s => s
  | n + 1, lo, s => forUp f n (lo + 1) (f lo s)

/-- Loop `for (i = lo; i < hi; i++) s = f i s`. -/
def forRange {σ : Type} (lo hi : Int) (f : Int → σ → σ) (s : σ) : σ :=
  forUp f (hi - lo).toNat lo s

/-! ## ROM accessor -/

/-- Byte `romsxgm_ptr[off]`. -/
def romByte (s : State) (off : Int) : Int := u8 (s.rom_memory (s.romsxgm_ptr + off))

/-- Value `READ_LE_UINT16(&romsxgm_ptr[off])`. -/
def READ_LE_UINT16 (s : State) (off : Int) : Int := romByte s off + 256 * romByte s (off + 1)

/-- Source `sub_C00373A0`: seek to record `arg_4` of ROM section `arg_0`. -/
def sub_C00373A0 (s : State) (arg_0 arg_4 : Int) : State × Int :=
  let address1 := 4 * arg_0 + 65588
  let offset1 := u32 (READ_LE_UINT16 s (address1 + 2) * 256 + READ_LE_UINT16 s address1 / 256)
  let offset2 := i32 (4 + arg_4 * i16 (READ_LE_UINT16 s (offset1 + 2)))
  let r := u32 (offset1 + offset2)
  ({ s with rom_offset := r }, r)

/-- Source `sub_C0037400`: read the word at the cursor and advance the cursor. -/
def sub_C0037400 (s : State) : State × Int :=
  ({ s with rom_offset := u32 (s.rom_offset + 2) }, READ_LE_UINT16 s s.rom_offset)

/-- Source `sub_C0037420`: read the word at `arg_0` and leave the cursor behind it. -/
def sub_C0037420 (s : State) (arg_0 : Int) : State × Int :=
  ({ s with rom_offset := u32 (arg_0 + 2) }, i16 (READ_LE_UINT16 s arg_0))

/-! ## Pitch, program data and envelopes of one voice -/

/-- Value `dword_C0032188[i]` (a `uint32_t`) as the source reads it, with no range test: the
entry of the table for an index in 0..255, and the word that lies at that place around the
array for any other index. -/
def dword_C0032188_at (s : State) (i : Int) : Int :=
  if 0 ≤ i ∧ i < 256 then tableAt dword_C0032188 i else u32 (s.around_C0032188 i)

/-- Source `sub_C0034890`: the phase increment `field_24` of voice `vi` from the pitch
`arg_4`, the pitch bend and the fine tune of its channel. -/
def sub_C0034890 (s : State) (vi arg_4 : Int) : State :=
  let v := s.voice_data vi
  let channel_ptr := s.channel_data (v.channel_num_2 / 2)
  let value1 := i32 (i32 (channel_ptr.pitch_bend * channel_ptr.pitch_bend_sense) / 8192
    + arg_4 + channel_ptr.fine_tune + 2180)
  let value2 := u32 (dword_C0032188_at s (216 + value1 / 256)
    * tableAt dword_C0032588 (value1 % 256))
  let field_24 :=
    if s.output_frequency = 11025 then value2 / 131072
    else if s.output_frequency = 22050 then value2 / 262144
    else if s.output_frequency = 44100 then value2 / 524288
    else if s.output_frequency = 16538 then value2 / 3 / 65536
    else u32 (value2 / 131072 * 11025) / s.output_frequency
  s.updVoice vi (fun w => { w with field_24 := field_24 })

/-- The folding of a tuned note into the range of the ROM tables, as written in
`sub_C0034970` and in `StartPlayingVoice`: below 12 whole octaves are added, above 108
whole octaves are taken away (C division, which truncates). -/
def foldNote (note_number : Int) : Int :=
  let n1 := if note_number < 12 then note_number + 12 * Int.tdiv (23 - note_number) 12
    else note_number
  if n1 > 108 then n1 - 12 * Int.tdiv (n1 - 97) 12 else n1

/-- Source `sub_C0034970`: the entry of table `arg_4` of ROM section 3 for the (tuned and
folded) note of voice `vi`. -/
def sub_C0034970 (s : State) (vi arg_4 : Int) : State × Int :=
  let r1 := sub_C00373A0 s 3 arg_4
  let v := r1.1.voice_data vi
  let channel_num_2 := i16 (v.channel_num_2 - v.channel_num_2 % 2)
  let note_number :=
    if channel_num_2 ≠ 2 * DRUM_CHANNEL then
      foldNote (v.note_number + (r1.1.channel_data (channel_num_2 / 2)).coarse_tune
        + (v.field_56 + 128) / 256)
    else v.note_number
  sub_C0037420 r1.1 (u32 (r1.2 + 2 * note_number))

/-- One pass of the outer loop of `ProgramChange`: 14 words are read from the ROM cursor
into `data[base .. base + 13]`, and nine of them are shifted right by 8. -/
def ProgramChange_layer (s : State) (ci base : Int) : State :=
  let s1 := forRange 0 14
    (fun index t => (sub_C0037400 t).1.setStru6 ci (base + index) (i16 (sub_C0037400 t).2)) s
  let sh := fun (k : Int) (t : State) =>
    t.setStru6 ci (base + k) ((t.stru_C0030080 ci).data (base + k) / 256)
  sh 13 (sh 12 (sh 11 (sh 8 (sh 7 (sh 6 (sh 5 (sh 4 (sh 3 s1))))))))

/-- Source `ProgramChange`, for the program data of channel `ci`. -/
def ProgramChange (s : State) (ci program_number : Int) : State :=
  let program_number :=
    if ci = DRUM_CHANNEL then u32 (program_number % 8 + 128) else program_number
  let r1 := sub_C00373A0 s 19 0
  let r2 := sub_C0037420 r1.1 (u32 (r1.2 + 2 * program_number))
  let r3 := sub_C00373A0 r2.1 1 r2.2
  ProgramChange_layer (ProgramChange_layer r3.1 ci 0) ci 14

/-- The `do ... while (value2)` loop of `sub_C0036FB0`. -/
def sub_C0036FB0_loop (value3 : Int) : Nat → Int → Int → Int
  | 0, _, value1 => value1
  | n + 1, value2, value1 =>
    if value2 < value3 then value1
    else if value2 / 2 = 0 then value1 + 1
    else sub_C0036FB0_loop value3 n (value2 / 2) (value1 + 1)

/-- Source `sub_C0036FB0`: the attenuation shift of a pan level (the loop halves 16 down to
0, hence runs at most five times). -/
def sub_C0036FB0 (value3 : Int) : Int := sub_C0036FB0_loop value3 5 16 0

/-- Source `sub_C0036A20`: the two attenuation shifts of voice `vi` from its pan word. -/
def sub_C0036A20 (s : State) (vi : Int) : State :=
  s.updVoice vi (fun w => { w with
    field_34 := sub_C0036FB0 (i16 (w.field_6A / 256)),
    field_30 := sub_C0036FB0 (i16 (w.field_6A % 32)) })

/-- Source `sub_C0036A80`: target `field_48` and rate `field_4A` of the current segment of
the pitch envelope, from ROM section 10. -/
def sub_C0036A80 (s : State) (vi : Int) : State :=
  let v := s.voice_data vi
  let r1 := sub_C0034970 s vi (v.field_5C % 256)
  let r2 := sub_C00373A0 r1.1 10 (v.field_5C / 256 + r1.2)
  let w := r2.1.voice_data vi
  let offset1 := u32 (r2.2 + 4 * (w.vflags % 8))
  let offset1 := if w.vflags / 64 % 4 * 64 = 128 then u32 (offset1 + 32) else offset1
  let r3 := sub_C0037420 r2.1 offset1
  let r4 := sub_C0037400 (r3.1.updVoice vi (fun w => { w with field_48 := r3.2 }))
  r4.1.updVoice vi (fun w => { w with
    field_4A := i16 r4.2,
    vflags := u16 (w.vflags / 8 % 32 * 8 + w.field_48 % 8) })

/-- The rate `value3` of the amplitude envelope from the packed byte `value2`, as computed
in `sub_C0036B00`. -/
def sub_C0036B00_rate (value2 : Int) : Int :=
  let value3 :=
    if value2 / 32 % 8 * 32 = 32 then value2 % 32 * 256
    else if value2 / 32 % 8 * 32 ≠ 0 then shl32 (value2 % 32 + 32) (value2 / 32 + 6)
    else shl32 (value2 % 4) (value2 / 4)
  if value3 > 32767 then 32767 else value3

/-- Source `sub_C0036B00`: target `field_4E` and rate `field_50` of the current segment of
the amplitude envelope, from ROM section 11; the voice is freed when the word stored in
`field_4E` equals the segment number and the envelope is at 0. -/
def sub_C0036B00 (s : State) (vi : Int) : State :=
  let v := s.voice_data vi
  let r1 := sub_C0034970 s vi (v.field_5E % 256)
  let r2 := sub_C00373A0 r1.1 11 (v.field_5E / 256 + r1.2)
  let w := r2.1.voice_data vi
  let offset1 := u32 (r2.2 + w.vflags / 8 % 8 * 8 / 2)
  let offset1 := if w.vflags / 64 % 4 * 64 = 128 then u32 (offset1 + 32) else offset1
  let r3 := sub_C0037420 r2.1 offset1
  let value1 := u16 r3.2
  let value1 := u16 (w.field_62 * (value1 / 256) / 256 % 256 * 256 + value1 % 256)
  let s4 := r3.1.updVoice vi (fun w => { w with field_4E := value1 })
  if w.vflags / 8 % 8 = value1 ∧ w.field_52 = 0 then
    s4.updVoice vi (fun w => { w with note_number := 255 })
  else
    let r5 := sub_C0037400 s4
    let value3 := sub_C0036B00_rate (r5.2 / 256)
    r5.1.updVoice vi (fun w => { w with
      vflags := u16 (w.vflags % 8 + w.vflags / 64 % 4 * 64 + w.field_4E % 8 * 8),
      field_50 := value3 })

/-- Source `sub_C0036C20`: the amplitude multiplier `field_64` of voice `vi` from the
expression and volume of its channel, then the pan shifts. -/
def sub_C0036C20 (s : State) (vi : Int) : State :=
  let v := s.voice_data vi
  let channel := s.channel_data (v.channel_num_2 / 2)
  let value0 := i32 (channel.expression * channel.volume)
  let value0 := i32 (value0 * value0) / 8192
  sub_C0036A20 (s.updVoice vi (fun w => { w with field_64 := i16 (i32 (value0 * w.field_60) / 128) })) vi

/-- Source `VoiceSoundOff`: voice `vi` is put into its release with the fastest rate. -/
def VoiceSoundOff (s : State) (vi : Int) : State :=
  let s1 := s.updVoice vi (fun w =>
    let f1 := w.vflags - w.vflags / 64 % 2 * 64
    let f2 := f1 + (1 - f1 / 128 % 2) * 128
    { w with field_50 := 32767, vflags := f2 / 64 % 4 * 64 })
  sub_C0036A80 (sub_C0036B00 s1 vi) vi

/-- Source `VoiceNoteOff`: voice `vi` gets its note-off flag, and goes into its release
unless a pedal holds it. -/
def VoiceNoteOff (s : State) (vi : Int) : State :=
  let s1 := s.updVoice vi (fun w => { w with vflags := w.vflags + (1 - w.vflags / 128 % 2) * 128 })
  if (s1.voice_data vi).vflags / 64 % 2 = 0 then
    let s2 := s1.updVoice vi (fun w => { w with vflags := w.vflags / 64 % 4 * 64 })
    sub_C0036A80 (sub_C0036B00 s2 vi) vi
  else s1

/-- Source `AllChannelNotesOff`. -/
def AllChannelNotesOff (s : State) (channel_num : Int) : State :=
  forRange 0 MAX_VOICES (fun index t =>
    if (t.voice_data index).channel_num_2 / 2 = channel_num then VoiceNoteOff t index else t) s

/-- Source `AllChannelSoundsOff`. -/
def AllChannelSoundsOff (s : State) (channel_num : Int) : State :=
  forRange 0 MAX_VOICES (fun index t =>
    if (t.voice_data index).channel_num_2 / 2 = channel_num then VoiceSoundOff t index else t) s

/-- Source `ControllerSettingsOn`: a pedal goes down on channel `channel_num`. -/
def ControllerSettingsOn (s : State) (channel_num : Int) : State :=
  forRange 0 s.maximum_polyphony (fun index t =>
    let w := t.voice_data index
    if w.channel_num_2 / 2 = channel_num ∧ w.note_number ≠ 255 ∧ w.vflags / 128 % 2 = 0 then
      t.updVoice index (fun w => { w with vflags := w.vflags + (1 - w.vflags / 64 % 2) * 64 })
    else t) s

/-- Source `ControllerSettingsOff`: a pedal goes up on channel `channel_num`. -/
def ControllerSettingsOff (s : State) (channel_num : Int) : State :=
  forRange 0 s.maximum_polyphony (fun index t =>
    let w := t.voice_data index
    if w.channel_num_2 / 2 = channel_num ∧ w.note_number ≠ 255 then
      let t1 := t.updVoice index (fun w => { w with vflags := w.vflags - w.vflags / 64 % 2 * 64 })
      if (t1.voice_data index).vflags / 128 % 2 ≠ 0 then
        let t2 := t1.updVoice index (fun w => { w with vflags := w.vflags / 64 % 4 * 64 })
        sub_C0036A80 (sub_C0036B00 t2 index) index
      else t1
    else t) s

/-! ## Starting a voice -/

/-- The search loop of `StartPlayingVoice` under the sostenuto pedal: is there, among the
voices `index .. index + n - 1`, an active voice of the same note and channel layer as voice
`vi` with both `VFLAG_Value80` and `VFLAG_Value40` set? -/
def StartPlayingVoice_sostenuto (s : State) (vi : Int) : Nat → Int → Bool
  | 0, _ => false
  | n + 1, index =>
    let w := s.voice_data index
    let v := s.voice_data vi
    if w.note_number ≠ 255 ∧ v.note_number = w.note_number ∧ w.channel_num_2 = v.channel_num_2
        ∧ w.vflags / 128 % 2 ≠ 0 ∧ w.vflags / 64 % 2 ≠ 0 then true
    else StartPlayingVoice_sostenuto s vi n (index + 1)

/-- The loop of `StartPlayingVoice` over the pairs of `dword_C0032988` from entry `p` up to
the terminating 0: each pair whose first note is the note of voice `vi` frees the drum voices
that play the second note of the pair. -/
def StartPlayingVoice_drums (vi : Int) : Nat → Int → State → State
  | 0, _, s => s
  | n + 1, p, s =>
    if tableAt dword_C0032988 p = 0 then s
    else
      let s1 :=
        if tableAt dword_C0032988 p ≠ (s.voice_data vi).note_number then s
        else forRange 0 s.maximum_polyphony (fun index t =>
          let w := t.voice_data index
          if w.note_number = tableAt dword_C0032988 (p + 1)
              ∧ w.channel_num_2 - w.channel_num_2 % 2 = 2 * DRUM_CHANNEL then
            t.updVoice index (fun w => { w with note_number := 255 })
          else t) s
      StartPlayingVoice_drums vi n (p + 2) s1

/-- Source `StartPlayingVoice`, for voice `vi`, the channel block `ci` and the program data
`stru_C0030080[si].data[base ..]`. -/
def StartPlayingVoice (s : State) (vi ci si base : Int) : State :=
  let data := fun (k : Int) => (s.stru_C0030080 si).data (base + k)
  let s1 := s.updVoice vi (fun w => { w with
    field_56 := data 2, field_58 := data 7, field_5A := data 8,
    field_5C := u16 (data 9), field_5E := u16 (data 10) })
  let r1 := sub_C0034970 s1 vi (u16 (data 0) / 256)
  let r2 := sub_C00373A0 r1.1 2 (data 1 % 4096 + r1.2)
  let r3 := sub_C0037420 r2.1 r2.2
  let r4 := sub_C0037400 r3.1
  let r5 := sub_C0037400 r4.1
  let r6 := sub_C0037400 r5.1
  let r7 := sub_C0037400 r6.1
  let r8 := sub_C0037400 r7.1
  let r9 := sub_C0037400 r8.1
  let r10 := sub_C0037400 r9.1
  let field_00 := u32 ((u16 r3.2 + r4.2 % 256 * 65536) * 1024)
  let s2 := r10.1.updVoice vi (fun w => { w with
    field_00 := field_00,
    field_04 := (r4.2 / 256 + r5.2 * 256) % 4194304,
    field_68 := r8.2 / 256,
    field_66 := r8.2 % 256,
    field_08 := (r7.2 + r8.2 % 256 * 65536) % 4194304,
    field_44 := i16 r9.2,
    field_60 := r10.2 % 256,
    field_0C := Function.update (Function.update w.field_0C 3 0) 2 0,
    field_20 := u32 ((field_00 - field_00 / 1024 % 2 * 1024) / 1024 - 2),
    field_1C := r10.2 / 256 })
  let v := s2.voice_data vi
  let value3 := data 1 / 4096 % 8
  let value2 :=
    if value3 ≠ 7 then
      let channel_num_2 := i16 (v.channel_num_2 - v.channel_num_2 % 2)
      let note :=
        if channel_num_2 ≠ 2 * DRUM_CHANNEL then
          foldNote (v.note_number + (s2.channel_data (channel_num_2 / 2)).coarse_tune
            + (v.field_56 + 128) / 256)
        else v.note_number
      Nat.iterate (fun x => x / 2) value3.toNat (i32 ((note - v.field_68) * 256))
    else 0
  let value2 := i32 (i32 (value2 + v.field_44) + i8 v.field_56)
  let s3 := s2.updVoice vi (fun w => { w with field_44 := i16 value2 })
  let s4 := sub_C0036C20 (sub_C0034890 s3 vi value2) vi
  let value4 := data 12
  let value5 := dword_C0032AA8 (s4.effect_type + 1) (s4.voice_data vi).note_velocity
  let value6 :=
    if value4 ≥ 0 then 127 - i32 (value4 * (127 - value5)) / 128 + data 13
    else 127 - i32 (-value4 * value5) / 128 + data 13
  let value6 := if (s4.channel_data ci).chflags / 16384 % 2 ≠ 0 then value6 / 2 else value6
  let s5 := s4.updVoice vi (fun w => { w with
    field_62 := if value6 > 127 then 127 else if value6 ≤ 0 then 0 else value6,
    field_4C := 0, field_2C := 0, field_52 := 0, vflags := 0, field_4E := 0 })
  let s6 := sub_C0036B00 (sub_C0036A80 s5 vi) vi
  let s7 :=
    if (s6.channel_data ci).chflags / 8192 % 2 ≠ 0
        ∧ StartPlayingVoice_sostenuto s6 vi s6.maximum_polyphony.toNat 0 = true then
      s6.updVoice vi (fun w => { w with vflags := w.vflags + (1 - w.vflags / 64 % 2) * 64 })
    else s6
  let s8 :=
    if (s7.channel_data ci).chflags / 32768 % 2 ≠ 0 then
      s7.updVoice vi (fun w => { w with vflags := w.vflags + (1 - w.vflags / 64 % 2) * 64 })
    else s7
  let v8 := s8.voice_data vi
  if v8.channel_num_2 - v8.channel_num_2 % 2 = 2 * DRUM_CHANNEL then
    let q1 := sub_C00373A0 s8 18 0
    let q2 := sub_C0037420 q1.1 (u32 (q1.2 + 4 * v8.note_number))
    let s9 := sub_C0036A20 (q2.1.updVoice vi (fun w => { w with field_6A := q2.2 })) vi
    let start := if (s9.channel_data DRUM_CHANNEL).program_change ≠ 135 then 0 else 38
    StartPlayingVoice_drums vi 37 start s9
  else
    let q1 := sub_C00373A0 s8 17 0
    let value8 := (s8.channel_data ci).pan + data 5
    let value8 := if value8 > 127 then 127 else if value8 ≤ -127 then -127 else value8
    let q2 := sub_C0037420 q1.1 (u32 (q1.2 + 2 * value8 + 256))
    sub_C0036A20 (q2.1.updVoice vi (fun w => { w with field_6A := q2.2 })) vi

/-! ## The voice pool -/

/-- Source `AllVoicesSoundsOff`. -/
def AllVoicesSoundsOff (s : State) : State :=
  forRange 0 MAX_VOICES (fun index t =>
    if (t.voice_data index).note_number ≠ 255 then VoiceSoundOff t index else t) s

/-- Source `InitializeVariables`. -/
def InitializeVariables (s : State) : State × Int :=
  ({ s with recent_voice_index := 0, event_length := 0, event_type := 0 }, 0)

/-- The count of the voices `lo .. hi - 1` whose note is not 255. -/
def activeVoices (s : State) (lo hi : Int) : Int :=
  forRange lo hi (fun index n => if (s.voice_data index).note_number ≠ 255 then n + 1 else n) 0

/-- Source `CountActiveVoices`. -/
def CountActiveVoices (s : State) : State :=
  { s with current_polyphony := activeVoices s 0 s.maximum_polyphony }

/-- The index after `index` on the ring `[0, maximum_polyphony)`. -/
def nextIndex (s : State) (index : Int) : Int :=
  if index + 1 ≥ s.maximum_polyphony then 0 else index + 1

/-- First loop of `ReduceActiveVoices` (a `do ... while (index3 != recent_voice_index)`):
voices with `VFLAG_Value80` are freed. The result carries `true` when the loop has left
the function through its `return`. -/
def ReduceActiveVoices_loop1 (maximum_voices : Int) :
    Nat → Int → Int → State → Option (State × Int × Bool)
  | 0, _, _, _ => none
  | n + 1, index3, active_voices, s =>
    let w := s.voice_data index3
    let freed := w.note_number ≠ 255 ∧ w.vflags / 128 % 2 ≠ 0
    let s1 := if freed then s.updVoice index3 (fun w => { w with note_number := 255 }) else s
    let active1 := if freed then active_voices - 1 else active_voices
    if freed ∧ active1 ≤ maximum_voices then
      some ({ s1 with current_polyphony := active1 }, active1, true)
    else if u32 (nextIndex s index3) ≠ s.recent_voice_index then
      ReduceActiveVoices_loop1 maximum_voices n (nextIndex s index3) active1 s1
    else some (s1, active1, false)

/-- Second loop of `ReduceActiveVoices` (a `while (1)`): any active voice is freed. -/
def ReduceActiveVoices_loop2 (maximum_voices : Int) :
    Nat → Int → Int → State → Option State
  | 0, _, _, _ => none
  | n + 1, index2, active_voices, s =>
    let freed := (s.voice_data index2).note_number ≠ 255
    let s1 := if freed then s.updVoice index2 (fun w => { w with note_number := 255 }) else s
    let active1 := if freed then active_voices - 1 else active_voices
    if freed ∧ active1 ≤ maximum_voices then
      some { s1 with current_polyphony := active1 }
    else if u32 (nextIndex s index2) = s.recent_voice_index then some s1
    else ReduceActiveVoices_loop2 maximum_voices n (nextIndex s index2) active1 s1

/-- Source `ReduceActiveVoices`. Each of the two loops walks the ring
`[0, maximum_polyphony)` until it meets `recent_voice_index`; it is given the fuel of one
full turn, after which it can free nothing more, and `none` stands for a loop that is
never left. -/
def ReduceActiveVoices (s : State) (maximum_voices : Int) : Option State :=
  if maximum_voices ≥ s.maximum_polyphony then some s
  else if maximum_voices > 0 then
    let index2 := i32 (u32 (s.recent_voice_index + 1))
    let index2 := if index2 ≥ s.maximum_polyphony then 0 else index2
    let active_voices := activeVoices s 0 s.maximum_polyphony
    match ReduceActiveVoices_loop1 maximum_voices s.maximum_polyphony.toNat index2
        active_voices s with
    | none => none
    | some (s1, _, true) => some s1
    | some (s1, active1, false) =>
      ReduceActiveVoices_loop2 maximum_voices s.maximum_polyphony.toNat index2 active1 s1
  else
    some { forRange 0 s.maximum_polyphony
      (fun index1 t => t.updVoice index1 (fun w => { w with note_number := 255 })) s
      with current_polyphony := 0 }

/-- The inner `while` of `DefragmentVoices`: the first index from `index2` on whose voice is
active, or `none` when `maximum_polyphony` is reached (the function then returns). -/
def DefragmentVoices_scan (s : State) : Nat → Int → Option Int
  | 0, _ => none
  | n + 1, index2 =>
    if (s.voice_data index2).note_number = 255 then
      if index2 + 1 ≥ s.maximum_polyphony then none
      else DefragmentVoices_scan s n (index2 + 1)
    else some index2

/-- The `for` loop of `DefragmentVoices`, from `index1` on. -/
def DefragmentVoices_loop : Nat → Int → Int → State → State
  | 0, _, _, s => s
  | n + 1, index1, index2, s =>
    if (s.voice_data index1).note_number ≠ 255 then
      DefragmentVoices_loop n (index1 + 1) index2 s
    else
      let index2 := if index2 < index1 then index1 else index2
      match DefragmentVoices_scan s (s.maximum_polyphony - index2).toNat index2 with
      | none => s
      | some j =>
        let s1 := { s with voice_data := Function.update s.voice_data index1 (s.voice_data j) }
        DefragmentVoices_loop n (index1 + 1) j
          (s1.updVoice j (fun w => { w with note_number := 255 }))

/-- Source `DefragmentVoices`. -/
def DefragmentVoices (s : State) : State :=
  DefragmentVoices_loop s.maximum_polyphony.toNat 0 0 s

/-- Source `SetMaximumVoices`. -/
def SetMaximumVoices (s : State) (maximum_voices : Int) : Option State :=
  (ReduceActiveVoices s maximum_voices).map (fun s1 =>
    let s2 := { DefragmentVoices s1 with maximum_polyphony := maximum_voices }
    let s3 := forRange maximum_voices MAX_VOICES
      (fun index t => t.updVoice index (fun w => { w with note_number := 255 })) s2
    { CountActiveVoices s3 with recent_voice_index := 0 })

/-- A `for (index = 0; index < ...; index++)` search: the first index from `index` on, among
`n`, that satisfies `p`. -/
def findFirst (p : Int → Bool) : Nat → Int → Option Int
  | 0, _ => none
  | n + 1, index => if p index then some index else findFirst p n (index + 1)

/-- A `do ... while (index != index1)` search on the ring `[0, maximum_polyphony)`: the
first index from `index` on that satisfies `p`, or `none` when the walk is back at `index1`. -/
def findOnRing (s : State) (p : Int → Bool) (index1 : Int) : Nat → Int → Option Int
  | 0, _ => none
  | n + 1, index =>
    if p index then some index
    else if nextIndex s index ≠ index1 then findOnRing s p index1 n (nextIndex s index)
    else none

/-- The index that `FindAvailableVoice` returns. The ring has `max 1 maximum_polyphony`
places, which is the fuel of the two walks. -/
def FindAvailableVoice_index (s : State) : Int :=
  let index1 := i32 (u32 (s.recent_voice_index + 1))
  let index1 := if index1 ≥ s.maximum_polyphony then 0 else index1
  let ring := (max 1 s.maximum_polyphony).toNat
  match findFirst (fun i => decide ((s.voice_data i).note_number = 255))
      s.maximum_polyphony.toNat 0 with
  | some index2 => index2
  | none =>
    match findOnRing s (fun i => decide ((s.voice_data i).vflags / 128 % 2 ≠ 0)) index1
        ring index1 with
    | some index3 => index3
    | none =>
      match findOnRing s (fun i => decide ((s.voice_data i).channel_num_2
          - (s.voice_data i).channel_num_2 % 2 = 2 * DRUM_CHANNEL)) index1 ring index1 with
      | some index4 => index4
      | none => index1

/-- Source `FindAvailableVoice` (its two arguments are not used by the source). -/
def FindAvailableVoice (s : State) : State × Int :=
  ({ s with recent_voice_index := u32 (FindAvailableVoice_index s) }, FindAvailableVoice_index s)

/-- Source `FindVoice`; `none` is `NULL`. -/
def FindVoice (s : State) (channel_num_2 note_number : Int) : Option Int :=
  findFirst (fun index =>
    let w := s.voice_data index
    decide (w.note_number ≠ 255 ∧ w.channel_num_2 = channel_num_2
      ∧ w.note_number = note_number ∧ w.vflags / 128 % 2 = 0))
    s.maximum_polyphony.toNat 0

/-! ## MIDI handlers -/

/-- Source `NoteOff`. -/
def NoteOff (s : State) : State :=
  if s.event_data 0 % 16 = DRUM_CHANNEL
      ∧ ((s.channel_data s.channel_data_ptr).program_change ≠ 7 ∨ s.event_data 1 ≠ 88) then s
  else
    let s1 :=
      match FindVoice s (2 * (s.event_data 0 % 16)) (s.event_data 1) with
      | some vi => VoiceNoteOff s vi
      | none => s
    match FindVoice s1 (2 * (s1.event_data 0 % 16) + 1) (s1.event_data 1) with
    | some vi => VoiceNoteOff s1 vi
    | none => s1

/-- Source `NoteOn`, for layer `arg_0`. -/
def NoteOn (s : State) (arg_0 : Int) : State :=
  let r := FindAvailableVoice s
  let vi := r.2
  let s1 := if (r.1.voice_data vi).note_number ≠ 255 then VoiceSoundOff r.1 vi else r.1
  let s2 := s1.updVoice vi (fun w => { w with
    channel_num_2 := i16 (arg_0 + 2 * (s1.event_data 0 % 16)),
    note_number := s1.event_data 1,
    note_velocity := s1.event_data 2 })
  StartPlayingVoice s2 vi s2.channel_data_ptr s2.stru6_ptr (14 * arg_0)

/-- Source `ResetAllControllers`, for channel block `ci`. -/
def ResetAllControllers (s : State) (ci : Int) : State :=
  s.updChannel ci (fun c => { c with
    expression := 127, pitch_bend := 0, channel_pressure := 0, parameter_number_LSB := 255,
    modulation := 0, parameter_number_MSB := 255, data_entry_MSB := 0, data_entry_LSB := 0,
    chflags := c.chflags - c.chflags / 32768 % 2 * 32768 })

/-- Source `ResetChannel`, for channel block `ci`. -/
def ResetChannel (s : State) (ci : Int) : State :=
  s.updChannel ci (fun c => { c with
    volume := 100, program_change := 0, expression := 127, pitch_bend_sense := 512,
    chflags := c.chflags - c.chflags / 32768 % 2 * 32768,
    pitch_bend := 0, channel_pressure := 0, modulation := 0, parameter_number_LSB := 255,
    pan := 0, parameter_number_MSB := 255, fine_tune := 0, data_entry_MSB := 0,
    coarse_tune := 0, data_entry_LSB := 0 })

/-- The effect of a data entry on the registered parameter that is selected, as written
twice in `ControlChange` (controllers 0x06 and 0x26). -/
def ControlChange_dataEntry (c : Channel_Data) : Channel_Data :=
  if c.parameter_number_MSB = 0 then
    if c.parameter_number_LSB = 0 then
      if c.data_entry_MSB ≤ 12 then
        { c with pitch_bend_sense := i16 (2 * (c.data_entry_MSB * 128 + c.data_entry_LSB)) }
      else c
    else if c.parameter_number_LSB = 1 then
      { c with fine_tune := i16 (c.data_entry_LSB / 32 % 4 + 4 * c.data_entry_MSB - 256) }
    else if c.parameter_number_LSB = 2 then
      if c.data_entry_MSB ≥ 40 ∧ c.data_entry_MSB ≤ 88 then
        { c with coarse_tune := c.data_entry_MSB - 64 }
      else c
    else c
  else c

/-- Source `ControlChange`. -/
def ControlChange (s : State) : State :=
  let ci := s.channel_data_ptr
  let ctl := s.event_data 1
  let val := s.event_data 2
  let ch := s.event_data 0 % 16
  if ctl = 1 then s.updChannel ci (fun c => { c with modulation := val })
  else if ctl = 6 then
    s.updChannel ci (fun c => ControlChange_dataEntry { c with data_entry_MSB := val })
  else if ctl = 7 then s.updChannel ci (fun c => { c with volume := val })
  else if ctl = 10 then s.updChannel ci (fun c => { c with pan := 2 * val - 128 })
  else if ctl = 11 then s.updChannel ci (fun c => { c with expression := val })
  else if ctl = 38 then
    s.updChannel ci (fun c => ControlChange_dataEntry { c with data_entry_LSB := val })
  else if ctl = 64 then
    if val ≤ 63 then
      ControllerSettingsOff (s.updChannel ci (fun c => { c with
        chflags := c.chflags - c.chflags / 32768 % 2 * 32768 })) ch
    else
      ControllerSettingsOn (s.updChannel ci (fun c => { c with
        chflags := c.chflags + (1 - c.chflags / 32768 % 2) * 32768 })) ch
  else if ctl = 66 then
    if val ≤ 63 then
      ControllerSettingsOff (s.updChannel ci (fun c => { c with
        chflags := c.chflags - c.chflags / 8192 % 2 * 8192 })) ch
    else
      ControllerSettingsOn (s.updChannel ci (fun c => { c with
        chflags := c.chflags + (1 - c.chflags / 8192 % 2) * 8192 })) ch
  else if ctl = 67 then
    if val ≤ 63 then
      s.updChannel ci (fun c => { c with chflags := c.chflags - c.chflags / 16384 % 2 * 16384 })
    else
      s.updChannel ci (fun c => { c with
        chflags := c.chflags + (1 - c.chflags / 16384 % 2) * 16384 })
  else if ctl = 98 then s.updChannel ci (fun c => { c with parameter_number_LSB := 255 })
  else if ctl = 99 then s.updChannel ci (fun c => { c with parameter_number_MSB := 255 })
  else if ctl = 100 then s.updChannel ci (fun c => { c with parameter_number_LSB := val })
  else if ctl = 101 then s.updChannel ci (fun c => { c with parameter_number_MSB := val })
  else if ctl = 120 then AllChannelSoundsOff s ch
  else if ctl = 121 then ControllerSettingsOff (ResetAllControllers s ci) ch
  else if ctl = 123 then AllChannelNotesOff s ch
  else s

/-! ## Reverb settings -/

/-- Source `InitializeReverbBuffer`. -/
def InitializeReverbBuffer (s : State) : State × Int :=
  ({ s with reverb_data_ptr := 1, reverb_data_index := 0 }, 0)

/-- Source `DeinitializeReverbBuffer`. -/
def DeinitializeReverbBuffer (s : State) : State × Int :=
  ({ s with reverb_data_ptr := 0 }, 0)

/-- Source `EnableReverb`. -/
def EnableReverb (s : State) : State := { s with is_reverb_enabled := 1 }

/-- Source `DisableReverb`: the reverb is switched off and its buffer is cleared. -/
def DisableReverb (s : State) : State :=
  { s with is_reverb_enabled := 0, reverb_data_buffer := fun _ => 0 }

/-- Source `SetReverbShift`. -/
def SetReverbShift (s : State) (shift : Int) : State := { s with reverb_shift := shift }

/-! ## System exclusive messages -/

/-- The test of `SystemExclusive` for the GM reset and the GS reset. -/
def SystemExclusive_isReset (s : State) : Bool :=
  let e := s.event_data
  decide ((e 0 = 240 ∧ e 1 = 126 ∧ e 2 = 127 ∧ e 3 = 9 ∧ e 4 = 1)
    ∨ (e 0 = 240 ∧ e 1 = 65 ∧ e 2 = 16 ∧ e 3 = 66 ∧ e 4 = 18 ∧ e 5 = 64 ∧ e 6 = 0
      ∧ e 7 = 127 ∧ e 8 = 0 ∧ e 9 = 65))

/-- The test of `SystemExclusive` for the vendor message `F0 44 0E 03`. -/
def SystemExclusive_isVendor (s : State) : Bool :=
  let e := s.event_data
  decide (e 0 = 240 ∧ e 1 = 68 ∧ e 2 = 14 ∧ e 3 = 3)

/-- Source `SystemExclusive`. -/
def SystemExclusive (s : State) : Option State :=
  if SystemExclusive_isReset s = true then
    let s1 := AllVoicesSoundsOff s
    let s2 := forRange 0 MIDI_CHANNELS (fun index t => ResetChannel t index) s1
    some (forRange 0 MIDI_CHANNELS (fun index t => ProgramChange t index 0) s2)
  else if SystemExclusive_isVendor s = true then
    let x := s.event_data 4
    if x = 16 then
      (SetMaximumVoices s 24).map (fun t => { t with maximum_polyphony_new_value := 24 })
    else if x = 17 then
      (SetMaximumVoices s 32).map (fun t => { t with maximum_polyphony_new_value := 32 })
    else if x = 18 then
      (SetMaximumVoices s 48).map (fun t => { t with maximum_polyphony_new_value := 48 })
    else if x = 19 then
      some { s with maximum_polyphony := 64, maximum_polyphony_new_value := 64 }
    else if x = 32 then some (DisableReverb s)
    else if x = 33 then some (SetReverbShift (EnableReverb s) 1)
    else if x = 34 then some (SetReverbShift (EnableReverb s) 0)
    else if 64 ≤ x ∧ x ≤ 74 then some { s with effect_type := x - 64 }
    else some s
  else some s

/-! ## The MIDI ring buffer -/

/-- Source `InitializeMidiDataBuffer`. -/
def InitializeMidiDataBuffer (s : State) : State × Int :=
  ({ s with midi_data_write_index := 0, midi_data_read_index := 0 }, 0)

/-- Source `AddByteToMidiDataBuffer`. -/
def AddByteToMidiDataBuffer (s : State) (value : Int) : State :=
  { s with
    midi_data_buffer := Function.update s.midi_data_buffer s.midi_data_write_index (u8 value),
    midi_data_write_index := (s.midi_data_write_index + 1) % 65536 }

/-- The loop of `GetValueFromMidiDataBuffer` over the four bytes of the time stamp, from byte
`index` on: `Except.ok (event_time, read_index)` when the four bytes have been read, and
`Except.error read_index` when the read index has met the write index. -/
def GetValueFromMidiDataBuffer_time (s : State) : Nat → Int → Int → Int → Except Int (Int × Int)
  | 0, _, event_time, read_index => Except.ok (event_time, read_index)
  | n + 1, index, event_time, read_index =>
    let event_time1 := u32 (event_time + u8 (s.midi_data_buffer read_index) * 256 ^ index.toNat)
    let read_index1 := (read_index + 1) % 65536
    if s.midi_data_write_index = read_index1 then Except.error read_index1
    else GetValueFromMidiDataBuffer_time s n (index + 1) event_time1 read_index1

/-- Source `GetValueFromMidiDataBuffer`: the state after the call and the byte returned
(`0xFF` when no byte is delivered). -/
def GetValueFromMidiDataBuffer (s : State) : State × Int :=
  if s.midi_data_write_index = s.midi_data_read_index then (s, 255)
  else
    match GetValueFromMidiDataBuffer_time s 4 0 0 s.midi_data_read_index with
    | Except.error read_index => ({ s with midi_data_read_index := read_index }, 255)
    | Except.ok (event_time, read_index) =>
      let time_2 := if s.system_time_1 ≥ 600000 then s.system_time_1 - 600000 else 0
      if u32 (s.system_time_1 + 600000) ≤ event_time ∨ time_2 ≥ event_time then
        ({ AllVoicesSoundsOff s with midi_data_read_index := 0, midi_data_write_index := 0 }, 255)
      else if u32 (event_time + 100) > s.system_time_1 then (s, 255)
      else
        ({ s with midi_data_read_index := (read_index + 1) % 65536 },
          u8 (s.midi_data_buffer read_index))

/-! ## The MIDI dispatcher -/

/-- The `switch (event_type)` of `ProcessMidiData`, with the `event_length = 0` that follows. -/
def ProcessMidiData_dispatch (s : State) : Option State :=
  let r : Option State :=
    if s.event_type = 128 then some (NoteOff s)
    else if s.event_type = 144 then
      if s.event_data 2 ≠ 0 then
        let s1 := NoteOn s 0
        if (s1.stru_C0030080 s1.stru6_ptr).data 1 / 32768 % 2 ≠ 0 then some (NoteOn s1 1)
        else some s1
      else some (NoteOff s)
    else if s.event_type = 176 then some (ControlChange s)
    else if s.event_type = 192 then
      if s.event_data 0 % 16 = DRUM_CHANNEL then
        match findFirst (fun i => decide (tableAt drum_kits i = s.event_data 1)) 8 0 with
        | none => some s
        | some drum_kit_index =>
          some (ProgramChange (s.updChannel s.channel_data_ptr (fun c => { c with
            program_change := tableAt drum_kit_numbers drum_kit_index }))
            s.stru6_ptr (tableAt drum_kit_numbers drum_kit_index))
      else
        some (ProgramChange (s.updChannel s.channel_data_ptr (fun c => { c with
          program_change := s.event_data 1 })) s.stru6_ptr (s.event_data 1))
    else if s.event_type = 208 then
      some (s.updChannel s.channel_data_ptr (fun c => { c with
        channel_pressure := s.event_data 1 }))
    else if s.event_type = 224 then
      some (s.updChannel s.channel_data_ptr (fun c => { c with
        pitch_bend := i16 (s.event_data 1 + (s.event_data 2 - 64) * 128) }))
    else if s.event_type = 240 then SystemExclusive s
    else some s
  r.map (fun t => { t with event_length := 0 })

/-- The body of the loop of `ProcessMidiData` for one byte `midi_value` taken from the ring
buffer. -/
def ProcessMidiData_byte (s : State) (midi_value : Int) : Option State :=
  if midi_value > 247 then some s
  else if midi_value = 247 then
    if s.event_data 0 ≠ 240 then some s else ProcessMidiData_dispatch s
  else if midi_value / 128 % 2 ≠ 0 then
    some { s with
      event_length := 0,
      event_type := midi_value / 16 % 16 * 16,
      event_data := Function.update s.event_data 0 midi_value,
      channel_data_ptr := midi_value % 16,
      stru6_ptr := midi_value % 16 }
  else
    let s1 := { s with event_length := i32 (s.event_length + 1) }
    if s1.event_length ≥ 32 then some s1
    else
      let s2 := { s1 with event_data := Function.update s1.event_data s1.event_length midi_value }
      if s2.event_data 0 = 240 then some s2
      else if s2.event_type ≠ 192 ∧ s2.event_type ≠ 208 ∧ s2.event_length ≠ 2 then some s2
      else ProcessMidiData_dispatch s2

/-- The `while (1)` of `ProcessMidiData`, left when no byte is delivered. -/
def ProcessMidiData_loop : Nat → State → Option State
  | 0, _ => none
  | n + 1, s =>
    let r := GetValueFromMidiDataBuffer s
    if r.2 = 255 then some r.1
    else
      match ProcessMidiData_byte r.1 r.2 with
      | none => none
      | some s1 => ProcessMidiData_loop n s1

/-- Source `ProcessMidiData`. Every byte delivered moves the read index five places towards
the write index, so that the ring of 65536 bytes is empty after 13107 bytes at most; the
fuel is one call more. -/
def ProcessMidiData (s : State) : Option State := ProcessMidiData_loop 13108 s

/-! ## The tick scheduler -/

/-- Source `InitializePhase`. -/
def InitializePhase (s : State) : State × Int := ({ s with processing_phase := 0 }, 0)

/-- Source `sub_C0036FE0`: one step of the pitch envelope of every active voice. -/
def sub_C0036FE0 (s : State) : State :=
  forRange 0 s.maximum_polyphony (fun index t =>
    let w := t.voice_data index
    if w.note_number = 255 then t
    else
      let value1 := w.field_48
      let value2 := w.field_4C
      if value1 > value2 then
        let value3 := if value2 + w.field_4A > 32767 then 32767 else value2 + w.field_4A
        if value1 > value3 then t.updVoice index (fun w => { w with field_4C := i16 value3 })
        else sub_C0036A80 (t.updVoice index (fun w => { w with field_4C := i16 value1 })) index
      else
        let value3 := if value2 - w.field_4A < -32767 then -32767 else value2 - w.field_4A
        if value1 < value3 then t.updVoice index (fun w => { w with field_4C := i16 value3 })
        else sub_C0036A80 (t.updVoice index (fun w => { w with field_4C := i16 value1 })) index) s

/-- The level `field_28` of the envelope value `x`, interpolated in `word_C00342D0`, as
written twice in `sub_C0037140`. -/
def sub_C0037140_level (x : Int) : Int :=
  let index2 := x % 32768 / 2048
  tableAt word_C00342D0 index2
    + i32 ((tableAt word_C00342D0 (index2 + 1) - tableAt word_C00342D0 index2) * (x % 2048)) / 2048

/-- Source `sub_C0037140`: one step of the amplitude envelope of every active voice. -/
def sub_C0037140 (s : State) : State :=
  forRange 0 s.maximum_polyphony (fun index t =>
    let w := t.voice_data index
    if w.note_number = 255 then t
    else
      let value2 := w.field_50
      let value3 := w.field_4E / 256 % 256 * 256
      let value1 :=
        if value3 > w.field_52 then
          if w.field_52 + value2 > 32767 then 32767 else w.field_52 + value2
        else
          if w.field_52 - value2 < -32767 then -32767 else w.field_52 - value2
      let choice := if value3 > w.field_52 then decide (value3 ≤ value1) else decide (value3 ≥ value1)
      let t1 :=
        if choice = true then
          sub_C0036B00 (t.updVoice index (fun w => { w with
            field_52 := i16 value3, field_28 := sub_C0037140_level value3 })) index
        else
          t.updVoice index (fun w => { w with
            field_52 := i16 value1, field_28 := sub_C0037140_level value1 })
      t1.updVoice index (fun w => { w with field_38 := i32 (w.field_28 * w.field_64) / 16384 })) s

/-- The loop of phases 3 and 7 of `ProcessPhase`: the phase increment of every active voice
is rebuilt from its modulation. -/
def ProcessPhase_pitch (s : State) : State :=
  forRange 0 s.maximum_polyphony (fun index t =>
    let w := t.voice_data index
    if w.note_number ≠ 255 then
      let channel := t.channel_data (w.channel_num_2 / 2)
      let value := w.field_58 + channel.channel_pressure + channel.modulation
      let value := if value > 127 then 127 else if value < 0 then 0 else value
      sub_C0034890 t index
        (i16 (w.field_44 + i32 (value * (w.field_54 / 256)) / 128 + w.field_4C / 8))
    else t) s

/-- Source `ProcessPhase`. -/
def ProcessPhase (s : State) : State :=
  let phase := s.processing_phase % 8
  let s1 := { s with processing_phase := u32 (s.processing_phase + 1) }
  if phase = 0 then
    forRange 0 s1.maximum_polyphony (fun index t =>
      let w := t.voice_data index
      if w.note_number ≠ 255 then
        t.updVoice index (fun w => { w with
          field_54 := i16 (w.field_54 + dword_C0032188_at t (w.field_5A + 112)) })
      else t) (sub_C0037140 s1)
  else if phase = 1 then sub_C0036FE0 (sub_C0037140 s1)
  else if phase = 2 then sub_C0037140 s1
  else if phase = 3 then ProcessPhase_pitch (sub_C0037140 s1)
  else if phase = 4 then
    sub_C0037140 (forRange 0 s1.maximum_polyphony (fun index t =>
      if (t.voice_data index).note_number ≠ 255 then sub_C0036C20 t index else t) s1)
  else if phase = 5 then sub_C0036FE0 (sub_C0037140 s1)
  else if phase = 6 then sub_C0037140 s1
  else if phase = 7 then ProcessPhase_pitch (sub_C0037140 s1)
  else s1

/-! ## The wavetable player, the mixer and the reverb -/

/-- Expression `((int32_t)(x << 17)) >> 17`: the low 15 bits of `x`, sign extended. -/
def sext15 (x : Int) : Int := i32 (x * 131072) / 131072

/-- Expression `((int32_t)(x << 16)) >> 25`: bits 9 to 15 of `x`, sign extended. -/
def delta_hi (x : Int) : Int := i32 (x * 65536) / 33554432

/-- Expression `((int32_t)(x << 23)) >> 25`: bits 2 to 8 of `x`, sign extended. -/
def delta_lo (x : Int) : Int := i32 (x * 8388608) / 33554432

/-- The `while (field_20 <= (value2 & ~1))` of `GenerateOutputData` for voice `index1`:
the interpolation window moves on by one ROM word at a time. -/
def GenerateOutputData_window (index1 value2 : Int) : Nat → State → State
  | 0, s => s
  | n + 1, s =>
    let v := s.voice_data index1
    if v.field_20 ≤ value2 - value2 % 2 then
      let field_20 := u32 (v.field_20 + 2)
      let s1 :=
        if v.field_04 ≤ field_20 then
          let value4 := sext15 (READ_LE_UINT16 s v.field_04)
          let field_1C := romByte s (v.field_04 + 10) % 8
          if v.field_08 % 2 ≠ 0 then
            s.updVoice index1 (fun w => { w with
              field_20 := field_20, field_1C := field_1C,
              field_0C := Function.update (Function.update (Function.update w.field_0C
                0 (w.field_0C 2)) 1 (w.field_0C 3)) 2 value4 })
          else
            s.updVoice index1 (fun w => { w with
              field_20 := field_20, field_1C := field_1C,
              field_0C := Function.update (Function.update (Function.update (Function.update
                w.field_0C 0 (w.field_0C 2)) 1 (w.field_0C 3)) 3 value4) 2
                (i32 (value4
                  - shl32 (delta_hi (READ_LE_UINT16 s (w.field_08 - w.field_08 % 2))) field_1C)) })
        else
          let value5 := READ_LE_UINT16 s field_20
          let field_1C := u32 (v.field_1C + tableAt dword_C00342C0 (value5 % 4))
          let y2 := i32 (v.field_0C 3 + shl32 (delta_lo value5) field_1C)
          let y3 := i32 (y2 + shl32 (delta_hi value5) field_1C)
          s.updVoice index1 (fun w => { w with
            field_20 := field_20, field_1C := field_1C,
            field_0C := Function.update (Function.update (Function.update (Function.update
              w.field_0C 0 (w.field_0C 2)) 1 (w.field_0C 3)) 2 y2) 3 y3 })
      GenerateOutputData_window index1 value2 n s1
    else s

/-- The loop-reload branch of `GenerateOutputData` for voice `index1` (taken when the
phase has reached `field_04` and the sample is a looping one). -/
def GenerateOutputData_reload (s : State) (index1 : Int) : State :=
  let v := s.voice_data index1
  let value1 := v.field_04
  let value2 := v.field_00 / 1024
  let value3 := u32 (value2 + v.field_08 % 2 - value1)
  let value3 := value3 - value3 % 2
  let field_00 := if value3 ≥ 10 then u32 (v.field_00 + u32 ((8 - value3) * 1024)) else v.field_00
  let value3 := if value3 ≥ 10 then 8 else value3
  let value4 := sext15 (READ_LE_UINT16 s (v.field_04 + value3))
  let field_1C := sar32 (READ_LE_UINT16 s (v.field_04 + 10)) (value3 + value3 / 2) % 8
  let y1 := value4
  let y0 := i32 (value4 - shl32 (delta_hi (READ_LE_UINT16 s (v.field_08 - v.field_08 % 2))) field_1C)
  let field_00 := u32 (field_00 + u32 ((v.field_08 - v.field_04) * 1024))
  let value2 := field_00 / 1024
  let field_20 := u32 (value2 - value2 % 2 + 2)
  let value5 := READ_LE_UINT16 s field_20
  let field_1C := u32 (field_1C + tableAt dword_C00342C0 (value5 % 4))
  let y2 := i32 (y1 + shl32 (delta_lo value5) field_1C)
  let y3 := i32 (y2 + shl32 (delta_hi value5) field_1C)
  s.updVoice index1 (fun w => { w with
    field_00 := field_00, field_1C := field_1C, field_20 := field_20,
    field_0C := Function.update (Function.update (Function.update (Function.update
      w.field_0C 1 y1) 0 y0) 2 y2) 3 y3 })

/-- The body of the loop of `GenerateOutputData` over the voices: voice `index1` gives one
sample, which is added to the sums `left` and `right`. -/
def GenerateOutputData_voice (index1 : Int) (a : State × Int × Int) : State × Int × Int :=
  let s := a.1
  let v := s.voice_data index1
  if v.field_00 / 1024 ≥ v.field_04 ∧ v.field_04 = v.field_08 then
    (s.updVoice index1 (fun w => { w with note_number := 255, field_28 := 0 }), a.2.1, a.2.2)
  else
    let s1 :=
      if v.field_00 / 1024 ≥ v.field_04 then GenerateOutputData_reload s index1
      else
        let value2 := v.field_00 / 1024
        GenerateOutputData_window index1 value2
          ((value2 - value2 % 2 - v.field_20) / 2 + 1).toNat s
    let w := s1.voice_data index1
    let value2 := w.field_00 / 1024
    let value7 := w.field_0C (value2 % 2)
    let value7 := i32 (value7
      + i32 ((w.field_0C (value2 % 2 + 1) - value7) * (w.field_00 % 1024)) / 1024)
    let value6 := i32 (15 * w.field_2C + w.field_38) / 16
    let value7 := i32 (value7 * value6) / 4096
    (s1.updVoice index1 (fun w => { w with
        field_2C := value6, field_00 := u32 (w.field_00 + w.field_24) }),
      i32 (a.2.1 + sar32 value7 w.field_30),
      i32 (a.2.2 + sar32 value7 w.field_34))

/-- The reverb of `GenerateOutputData` for one sample: four all-pass stages and two comb
stages on the ring of 32768 words, whose output is added to `left` and `right`. -/
def GenerateOutputData_reverb (a : State × Int × Int) : State × Int × Int :=
  let s := a.1
  let tap := fun (k : Int) => (s.reverb_data_index + k) % 32768
  let b0 := s.reverb_data_buffer
  let x0 := i32 (a.2.1 + a.2.2) / 8
  let b1 := Function.update b0 (tap 500) (i32 (x0 - b0 (tap 0) / 2))
  let x1 := i32 (x0 / 2 + b0 (tap 0))
  let b2 := Function.update b1 (tap 826) (i32 (x1 - b1 (tap 501) / 2))
  let x2 := i32 (x1 / 2 + b1 (tap 501))
  let b3 := Function.update b2 (tap 1038) (i32 (x2 - b2 (tap 827) / 2))
  let x3 := i32 (x2 / 2 + b2 (tap 827))
  let b4 := Function.update b3 (tap 1176) (i32 (x3 - b3 (tap 1039) / 2))
  let x4 := i32 (x3 / 2 + b3 (tap 1039))
  let reverb_value3 := x4 / 2
  let y1 := i32 (b4 (tap 1177) - i32 (96 * b4 (tap 1179)) / 256)
  let b5 := Function.update b4 (tap 1178) (y1 / 8)
  let b6 := Function.update b5 (tap 3177) (i32 (y1 + reverb_value3))
  let y2 := i32 (b6 (tap 3178) - i32 (97 * b6 (tap 3180)) / 256)
  let b7 := Function.update b6 (tap 3179) (y2 / 8)
  let b8 := Function.update b7 (tap 5118) (i32 (y2 + reverb_value3))
  ({ s with reverb_data_buffer := b8, reverb_data_index := (s.reverb_data_index + 1) % 32768 },
    i32 (a.2.1 + sar32 (i32 (b8 (tap 1179) + b8 (tap 3335))) s.reverb_shift),
    i32 (a.2.2 + sar32 (i32 (b8 (tap 1339) + b8 (tap 3180))) s.reverb_shift))

/-- The final clip of `GenerateOutputData`. -/
def GenerateOutputData_clip (x : Int) : Int :=
  if x > 32767 then 32767 else if x ≤ -32767 then -32767 else x

/-- One pass of the loop of `GenerateOutputData` over the samples: the state after the pass
and the two values that are written. -/
def GenerateOutputData_sample (s : State) (max_active_index : Int) : State × Int × Int :=
  let a := forRange 0 (max_active_index + 1) GenerateOutputData_voice (s, 0, 0)
  let b := if a.1.is_reverb_enabled = 1 then GenerateOutputData_reverb a else a
  (b.1, GenerateOutputData_clip b.2.1, GenerateOutputData_clip b.2.2)

/-- Store of an `int16_t` at byte address `addr` (low byte first). -/
def storeI16 (mem : Int → Int) (addr v : Int) : Int → Int :=
  Function.update (Function.update mem addr (u16 v % 256)) (addr + 1) (u16 v / 256)

/-- Load of an `int16_t` from byte address `addr` (low byte first). -/
def loadI16 (mem : Int → Int) (addr : Int) : Int := i16 (mem addr + 256 * mem (addr + 1))

/-- The index of the last active voice below `maximum_polyphony`, or `-1`. -/
def maxActiveIndex (s : State) : Int :=
  forRange 0 s.maximum_polyphony
    (fun index1 m => if (s.voice_data index1).note_number ≠ 255 then index1 else m) (-1)

/-- Source `GenerateOutputData`: the samples `offset1 .. offset2 - 1` are computed and
written as pairs of `int16_t` from byte address `output_ptr` of the memory `mem`. -/
def GenerateOutputData (s : State) (mem : Int → Int) (output_ptr offset1 offset2 : Int) :
    State × (Int → Int) :=
  let s1 := DefragmentVoices s
  let max_active_index := maxActiveIndex s1
  forRange offset1 offset2 (fun index2 a =>
    let r := GenerateOutputData_sample a.1 max_active_index
    (r.1, storeI16 (storeI16 a.2 (output_ptr + 2 * u32 (2 * index2)) r.2.1)
      (output_ptr + 2 * u32 (2 * index2 + 1)) r.2.2)) (s1, mem)

/-! ## Initialisation -/

/-- Source `InitializeEffect`. -/
def InitializeEffect (s : State) : State × Int := ({ s with effect_type := 6 }, 0)

/-- Source `InitializeStructures`. -/
def InitializeStructures (s : State) : State × Int :=
  let s1 := forRange 0 MAX_VOICES
    (fun index t => t.updVoice index (fun w => { w with note_number := 255 })) s
  let s2 := forRange 0 MIDI_CHANNELS (fun index t => t.updChannel index (fun c => { c with
    program_change := 0, pitch_bend := 0, channel_pressure := 0, modulation := 0,
    volume := 100, pan := 0, expression := 127,
    chflags := c.chflags - c.chflags / 32768 % 2 * 32768,
    pitch_bend_sense := 512, fine_tune := 0, coarse_tune := 0,
    parameter_number_LSB := 255, parameter_number_MSB := 255,
    data_entry_MSB := 0, data_entry_LSB := 0 })) s1
  (forRange 0 MIDI_CHANNELS (fun index t => ProgramChange t index 0) s2, 0)

/-! ## The interface of the module -/

/-- Source `VLSG_SetParameter`: the state after the call and the value returned. -/
def VLSG_SetParameter (s : State) (type value : Int) : State × Int :=
  if type = PARAMETER_OutputBuffer then ({ s with output_data_ptr := value }, 1)
  else if type = PARAMETER_ROMAddress then ({ s with romsxgm_ptr := value }, 1)
  else if type = PARAMETER_Frequency then
    let s1 :=
      if value = 0 then
        { s with output_frequency := 11025, output_size_para := 64,
                 output_buffer_size_samples := 4096, output_buffer_size_bytes := 4 * 4096 }
      else if value = 2 then
        { s with output_frequency := 44100, output_size_para := 256,
                 output_buffer_size_samples := 16384, output_buffer_size_bytes := 4 * 16384 }
      else
        { s with output_frequency := 22050, output_size_para := 128,
                 output_buffer_size_samples := 8192, output_buffer_size_bytes := 4 * 8192 }
    ((InitializeReverbBuffer s1).1, 1)
  else if type = PARAMETER_Polyphony then
    let polyphony :=
      if value = 17 then 32 else if value = 18 then 48 else if value = 19 then 64 else 24
    ({ s with maximum_polyphony := polyphony, maximum_polyphony_new_value := polyphony }, 1)
  else if type = PARAMETER_Effect then
    let s1 := DisableReverb { s with effect_param_value := u32 value }
    if s1.effect_param_value = 32 then (DisableReverb s1, 1)
    else if s1.effect_param_value = 34 then (EnableReverb (SetReverbShift s1 0), 1)
    else (EnableReverb (SetReverbShift s1 1), 1)
  else (s, 0)

/-- Source `VLSG_PlaybackStart`: the state after the call and the value returned. The
`EMPTY_Deinitialize...` functions of the source do nothing and are left out. -/
def VLSG_PlaybackStart (s : State) : State × Int :=
  let s0 := { s with current_polyphony := 0, dword_C0000000 := 0 }
  let r1 := InitializeEffect s0
  if r1.2 ≠ 0 then (r1.1, 0)
  else
    let r2 := InitializeVariables r1.1
    if r2.2 ≠ 0 then (r2.1, 0)
    else
      let r3 := InitializeReverbBuffer r2.1
      if r3.2 ≠ 0 then (r3.1, 0)
      else
        let r4 := InitializePhase r3.1
        if r4.2 ≠ 0 then ((DeinitializeReverbBuffer r4.1).1, 0)
        else
          let r5 := InitializeMidiDataBuffer r4.1
          if r5.2 ≠ 0 then ((DeinitializeReverbBuffer r5.1).1, 0)
          else
            let r6 := InitializeStructures r5.1
            if r6.2 ≠ 0 then ((DeinitializeReverbBuffer r6.1).1, 0)
            else ({ r6.1 with dword_C0000004 := 2972 }, 1)

/-- Source `VLSG_PlaybackStop`. -/
def VLSG_PlaybackStop (s : State) : State × Int :=
  ((DeinitializeReverbBuffer { s with current_polyphony := 0 }).1, 0)

/-- Source `VLSG_AddMidiData`, for the bytes `ptr[0 .. len - 1]` given as a list. -/
def VLSG_AddMidiData (s : State) (bytes : List Int) : State :=
  bytes.foldl AddByteToMidiDataBuffer s

/-- The loop `for (counter = 4; counter != 0; counter--)` of `VLSG_FillOutputBuffer`. -/
def VLSG_FillOutputBuffer_loop (output_ptr : Int) :
    Nat → Int → State → (Int → Int) → Option (State × (Int → Int))
  | 0, _, s, mem => some (s, mem)
  | n + 1, offset1, s, mem =>
    match ProcessMidiData s with
    | none => none
    | some s1 =>
      let s2 := ProcessPhase s1
      let r := GenerateOutputData s2 mem output_ptr offset1 (u32 (offset1 + s2.output_size_para))
      let s3 := { r.1 with dword_C0000000 := u32 (r.1.dword_C0000000 + 1) }
      let s4 := { s3 with
        system_time_1 := u32 (u32 (s3.dword_C0000000 * s3.dword_C0000004) / 512 + s3.dword_C0000008) }
      VLSG_FillOutputBuffer_loop output_ptr n (u32 (offset1 + s4.output_size_para)) s4 r.2

/-- The first part of `VLSG_FillOutputBuffer`: the clock of the synthesizer is restarted, or
corrected once in 512 passes, from the reading `time1` of the clock of the caller. -/
def VLSG_FillOutputBuffer_clock (s : State) (output_buffer_counter time1 : Int) : State :=
  let restart := output_buffer_counter = 0 ∨ u32 (time1 - s.system_time_1) > 200
  let value1 := if restart then 0 else s.dword_C0000000
  let time2 := if restart then time1 else s.dword_C0000008
  let s1 := if restart then { s with system_time_1 := time1, system_time_2 := time1 } else s
  let s2 := { s1 with dword_C0000000 := value1, dword_C0000008 := time2 }
  if value1 ≥ 512 then
    let time2 := u32 (time2 + s2.dword_C0000004)
    let time3 := u32 (u32 (7 * s2.dword_C0000004 - s2.system_time_2) + time1)
    let time3 :=
      if time1 < time2 then u32 (time3 - u32 (time2 - time1) / 16)
      else if time1 > time2 then u32 (time3 + u32 (time1 - time2) / 16)
      else time3
    { s2 with dword_C0000000 := 0, dword_C0000008 := time2, system_time_2 := time1,
              dword_C0000004 := u32 (time3 / 8 + time3 / 4 % 2) }
  else s2

/-- The last part of `VLSG_FillOutputBuffer`: the active voices are counted and, when the
pass has taken `time4 - time1` of 16 ms or more, the polyphony is cut down. -/
def VLSG_FillOutputBuffer_governor (s : State) (time1 time4 : Int) : Option State :=
  let s1 := CountActiveVoices s
  let time4 := u32 (time4 - time1)
  let s2 := { s1 with maximum_polyphony := s1.maximum_polyphony_new_value }
  if time4 > 300 then SetMaximumVoices s2 2
  else if time4 ≥ 16 then
    if time4 ≥ 20 then SetMaximumVoices s2 (i32 (3 * s2.current_polyphony) / 4)
    else SetMaximumVoices s2 (i32 (7 * s2.current_polyphony) / 8)
  else some s2

/-- Source `VLSG_FillOutputBuffer`, with the two readings `time1` and `time4` of the clock
and the memory `mem` of the caller: the state and the memory after the call and the value
returned. -/
def VLSG_FillOutputBuffer (s : State) (mem : Int → Int)
    (output_buffer_counter time1 time4 : Int) : Option (State × (Int → Int) × Int) :=
  let s1 := VLSG_FillOutputBuffer_clock s output_buffer_counter time1
  let output_ptr := s1.output_data_ptr
    + u32 (u32 (output_buffer_counter % 16 * s1.output_size_para) * 16)
  match VLSG_FillOutputBuffer_loop output_ptr 4 0 s1 mem with
  | none => none
  | some r =>
    match VLSG_FillOutputBuffer_governor r.1 time1 time4 with
    | none => none
    | some s2 => some (s2, r.2, s2.current_polyphony)

/-! ## Definitions used to state the properties -/

/-- A voice with every field 0. -/
def zeroVoice : Voice_Data :=
  { field_00 := 0, field_04 := 0, field_08 := 0, field_0C := fun _ => 0, field_1C := 0,
    field_20 := 0, field_24 := 0, field_28 := 0, field_2C := 0, field_30 := 0, field_34 := 0,
    field_38 := 0, note_number := 0, note_velocity := 0, channel_num_2 := 0, field_44 := 0,
    vflags := 0, field_48 := 0, field_4A := 0, field_4C := 0, field_4E := 0, field_50 := 0,
    field_52 := 0, field_54 := 0, field_56 := 0, field_58 := 0, field_5A := 0, field_5C := 0,
    field_5E := 0, field_60 := 0, field_62 := 0, field_64 := 0, field_66 := 0, field_68 := 0,
    field_6A := 0 }

/-- A channel block with every field 0. -/
def zeroChannel : Channel_Data :=
  { program_change := 0, modulation := 0, channel_pressure := 0, expression := 0, volume := 0,
    pitch_bend := 0, pan := 0, chflags := 0, pitch_bend_sense := 0, fine_tune := 0,
    coarse_tune := 0, parameter_number_MSB := 0, parameter_number_LSB := 0,
    data_entry_MSB := 0, data_entry_LSB := 0 }

/-- The state of the module when the program is loaded: every variable is 0, as C
initialises static storage; the ROM is given, and the words around the table
`dword_C0032188` are taken as 0. -/
def zeroState (rom : Int → Int) : State :=
  { dword_C0000000 := 0, dword_C0000004 := 0, dword_C0000008 := 0, output_size_para := 0,
    system_time_2 := 0, event_data := fun _ => 0, recent_voice_index := 0, stru6_ptr := 0,
    channel_data_ptr := 0, event_type := 0, event_length := 0,
    reverb_data_buffer := fun _ => 0, reverb_data_index := 0, is_reverb_enabled := 0,
    reverb_shift := 0, midi_data_read_index := 0, midi_data_buffer := fun _ => 0,
    midi_data_write_index := 0, processing_phase := 0, rom_offset := 0,
    stru_C0030080 := fun _ => struc_6.mk (fun _ => 0), channel_data := fun _ => zeroChannel,
    voice_data := fun _ => zeroVoice, effect_type := 0, current_polyphony := 0,
    romsxgm_ptr := 0, output_frequency := 0, maximum_polyphony_new_value := 0,
    system_time_1 := 0, maximum_polyphony := 0, output_data_ptr := 0,
    output_buffer_size_samples := 0, output_buffer_size_bytes := 0, effect_param_value := 0,
    reverb_data_ptr := 0, rom_memory := rom, around_C0032188 := fun _ => 0 }

/-! ### The MIDI ring buffer -/

/-- Both indices of the ring buffer lie in `[0, 65536)`. -/
def ringOk (s : State) : Prop :=
  0 ≤ s.midi_data_read_index ∧ s.midi_data_read_index < 65536
    ∧ 0 ≤ s.midi_data_write_index ∧ s.midi_data_write_index < 65536

/-- The number of bytes written and not yet read. -/
def pendingBytes (s : State) : Int :=
  (s.midi_data_write_index - s.midi_data_read_index) % 65536

/-- The byte `k` places after the read index. -/
def pendingByte (s : State) (k : Int) : Int :=
  u8 (s.midi_data_buffer ((s.midi_data_read_index + k) % 65536))

/-- The time stamp of the pending record: the four bytes at the read index, low byte first. -/
def recordTime (s : State) : Int :=
  pendingByte s 0 + 256 * pendingByte s 1 + 65536 * pendingByte s 2
    + 16777216 * pendingByte s 3

/-- The MIDI byte of the pending record: the byte behind the time stamp. -/
def recordByte (s : State) : Int := pendingByte s 4

/-- The test by which `GetValueFromMidiDataBuffer` takes the time stamp `t_ev` as corrupt
at the time `now` of the synthesizer (32-bit unsigned arithmetic, as in the source). -/
def staleTime (now t_ev : Int) : Prop :=
  u32 (now + 600000) ≤ t_ev ∨ (if now ≥ 600000 then now - 600000 else 0) ≥ t_ev

instance (now t_ev : Int) : Decidable (staleTime now t_ev) := by
  unfold staleTime; infer_instance

/-- The state after the flush of `GetValueFromMidiDataBuffer`: every active voice is put
into its fast release and both indices are 0. -/
def flushed (s : State) : State :=
  { AllVoicesSoundsOff s with midi_data_read_index := 0, midi_data_write_index := 0 }

/-- The four bytes of the time stamp `t`, low byte first. -/
def timeBytes (t : Int) : List Int :=
  [t % 256, t / 256 % 256, t / 65536 % 256, t / 16777216 % 256]

/-- The consumer calls `GetValueFromMidiDataBuffer` `n` times: the state after the calls
and the values returned, in order. -/
def dequeue : Nat → State → State × List Int
  | 0, s => (s, [])
  | n + 1, s =>
    let r := GetValueFromMidiDataBuffer s
    let q := dequeue n r.1
    (q.1, r.2 :: q.2)

/-- The producer writes one record, as the drivers of the repository do: the four bytes of
the time stamp, then one MIDI byte. -/
def addRecord (s : State) (r : Int × Int) : State :=
  VLSG_AddMidiData (VLSG_AddMidiData s (timeBytes r.1)) [r.2]

/-- The bytes of a list of records, as they are written into the ring buffer. -/
def recordBytes : List (Int × Int) → List Int
  | [] => []
  | r :: rest => timeBytes r.1 ++ r.2 :: recordBytes rest

/-- The ring buffer `buf` holds the bytes `bytes` from place `a` on (places are taken modulo
65536). -/
def StoredBytes (buf : Int → Int) : Int → List Int → Prop
  | _, [] => True
  | a, b :: rest => u8 (buf (a % 65536)) = b ∧ StoredBytes buf (a + 1) rest

/-- A record the consumer delivers at the time `now`: a 32-bit time stamp that is neither
taken as corrupt nor held back by the latency gate, and a byte. -/
def dueRecord (now : Int) (r : Int × Int) : Prop :=
  0 ≤ r.1 ∧ r.1 < 4294967296 ∧ 0 ≤ r.2 ∧ r.2 < 256
    ∧ ¬ staleTime now r.1 ∧ u32 (r.1 + 100) ≤ now

/-- The state of the counterexample to C8: the module as loaded (its clock is 0), with one
record of time stamp 600000 and MIDI byte 0x90 in the ring buffer. -/
def C8_state : State := addRecord (zeroState (fun _ => 0)) (600000, 144)

/-- The state of the counterexample to C7: the clock of the synthesizer is 4294367286
(`2^32 - 600010`), and one record of time stamp 4294967246 (`2^32 - 50`) and MIDI byte
0x90 is in the ring buffer. -/
def C7_state : State :=
  addRecord { (zeroState (fun _ => 0)) with system_time_1 := 4294367286 } (4294967246, 144)

/-- The state of the counterexample to C6: the clock of the synthesizer is 1000, and one
submission of the time stamp 500 followed by the two MIDI bytes 0x90 and 0x3C is in the
ring buffer. -/
def C6_state : State :=
  VLSG_AddMidiData { (zeroState (fun _ => 0)) with system_time_1 := 1000 }
    (timeBytes 500 ++ [144, 60])

/-! ### The output buffer -/

/-- The `int16_t` at byte address `addr` of the memory `mem` lies in `[-32767, 32767]`. -/
def sampleOk (mem : Int → Int) (addr : Int) : Prop :=
  -32767 ≤ loadI16 mem addr ∧ loadI16 mem addr ≤ 32767

/-! ### What the handlers leave as it is -/

/-- The index `recent_voice_index` is a place of the ring of voices
`[0, max 1 maximum_polyphony)`, and the ring has 64 places at most. -/
def RecentOk (s : State) : Prop :=
  s.maximum_polyphony ≤ 64 ∧ 0 ≤ s.recent_voice_index
    ∧ s.recent_voice_index < max 1 s.maximum_polyphony

/-- The index `recent_voice_index` is below `max 2 maximum_polyphony`, and the ring of
voices has 64 places at most: the bound that also holds while the polyphony is 0 or 1, where
a voice is still found at slot 0 and the governor may have left the index at 1. -/
def RecentIn (s : State) : Prop :=
  s.maximum_polyphony ≤ 64 ∧ 0 ≤ s.recent_voice_index
    ∧ s.recent_voice_index < max 2 s.maximum_polyphony

/-- State `t` comes from state `s` by steps that keep the polyphony settings and the block
size, that, from slot `max 1 maximum_polyphony` on, at most free voices, that keep
`recent_voice_index` on the ring of voices (`RecentOk`, and the weaker `RecentIn`), that at
most take bytes from the MIDI ring buffer, and that leave the message being assembled, the
ROM, the output rate, the effect type, the clock and the stored MIDI bytes as they are. -/
structure Frame (s t : State) : Prop where
  mp : t.maximum_polyphony = s.maximum_polyphony
  nv : t.maximum_polyphony_new_value = s.maximum_polyphony_new_value
  osp : t.output_size_para = s.output_size_para
  notes : ∀ i, max 1 s.maximum_polyphony ≤ i →
    (t.voice_data i).note_number = (s.voice_data i).note_number
    ∨ (t.voice_data i).note_number = 255
  rv : RecentOk s → RecentOk t
  rw : RecentIn s → RecentIn t
  ring : ringOk s → ringOk t ∧ pendingBytes t ≤ pendingBytes s
  ev : t.event_type = s.event_type ∧ t.event_data = s.event_data
    ∧ t.event_length = s.event_length ∧ t.stru6_ptr = s.stru6_ptr
    ∧ t.channel_data_ptr = s.channel_data_ptr
  env : t.rom_memory = s.rom_memory ∧ t.romsxgm_ptr = s.romsxgm_ptr
    ∧ t.output_frequency = s.output_frequency ∧ t.effect_type = s.effect_type
    ∧ t.system_time_1 = s.system_time_1 ∧ t.midi_data_buffer = s.midi_data_buffer

/-- The polyphony settings are those of a configured module (the ceiling
`maximum_polyphony_new_value` is between 2 and 64, the current maximum is between 0 and the
ceiling), and no voice is active from slot `max 1 maximum_polyphony` on. -/
def PolyInv (s : State) : Prop :=
  2 ≤ s.maximum_polyphony_new_value ∧ s.maximum_polyphony_new_value ≤ 64
    ∧ 0 ≤ s.maximum_polyphony ∧ s.maximum_polyphony ≤ s.maximum_polyphony_new_value
    ∧ ∀ i, max 1 s.maximum_polyphony ≤ i → i < 64 → (s.voice_data i).note_number = 255

/-- The property `PolyInv`, and no voice is active from slot `maximum_polyphony` on. -/
def PolyBound (s : State) : Prop :=
  PolyInv s ∧ ∀ i, s.maximum_polyphony ≤ i → i < 64 → (s.voice_data i).note_number = 255

/-- State `t` comes from state `s` by steps that keep the block size and the property
`PolyInv`. -/
def Keeps (s t : State) : Prop :=
  t.output_size_para = s.output_size_para ∧ (PolyInv s → PolyInv t)

/-- The number of the 64 voices whose note is not 255. -/
def activeCount (s : State) : Nat :=
  ((List.range 64).filter
    (fun (i : Nat) => decide ((s.voice_data (Int.ofNat i)).note_number ≠ 255))).length

/-- The states the module goes through after `VLSG_PlaybackStart` in the state `s0`, by
calls of `VLSG_AddMidiData` (any bytes) and calls of `VLSG_FillOutputBuffer` that return
(any counter, any two readings of the clock, any output memory). -/
inductive Reachable (s0 : State) : State → Prop
  | start : Reachable s0 (VLSG_PlaybackStart s0).1
  | add (s : State) (bytes : List Int) : Reachable s0 s → Reachable s0 (VLSG_AddMidiData s bytes)
  | fill (s : State) (mem : Int → Int) (counter time1 time4 : Int)
      (r : State × (Int → Int) × Int) :
      Reachable s0 s → VLSG_FillOutputBuffer s mem counter time1 time4 = some r →
      Reachable s0 r.1

/-- State `t` differs from state `s` at most in the voices, the channel blocks, the program
data and the ROM cursor. -/
def SynthOnly (s t : State) : Prop :=
  t = { s with voice_data := t.voice_data, channel_data := t.channel_data,
               stru_C0030080 := t.stru_C0030080, rom_offset := t.rom_offset }

/-- The polyphony has been set before the start, as `VLSG_SetParameter` with
`PARAMETER_Polyphony` does it: the ceiling is between 2 and 64 (the source only ever sets
24, 32, 48 or 64) and the current maximum is between 0 and the ceiling. -/
def PolyphonySet (s : State) : Prop :=
  2 ≤ s.maximum_polyphony_new_value ∧ s.maximum_polyphony_new_value ≤ 64
    ∧ 0 ≤ s.maximum_polyphony ∧ s.maximum_polyphony ≤ s.maximum_polyphony_new_value

/-- The module of the counterexample to C4 before its start: the module as loaded, with a
ROM of which every byte is 1 at address 4096, the output buffer at address 8192 and
44100 Hz, and without any call of `VLSG_SetParameter` for the polyphony. -/
def C4_module : State :=
  (VLSG_SetParameter (VLSG_SetParameter (VLSG_SetParameter (zeroState (fun _ => 1))
    PARAMETER_ROMAddress 4096).1 PARAMETER_OutputBuffer 8192).1 PARAMETER_Frequency 2).1

/-- The state of the counterexample to C4 before the callback: `C4_module` is started and
the three bytes of a Note On (`90 3C 64`), each behind the time stamp 500, are written. -/
def C4_state : State :=
  VLSG_AddMidiData (VLSG_PlaybackStart C4_module).1
    (timeBytes 500 ++ 144 :: (timeBytes 500 ++ 60 :: (timeBytes 500 ++ [100])))


/-- The invariant of the running module: the polyphony settings are those of a configured
module, `recent_voice_index` is a place of the ring of voices, and both indices of the MIDI
ring buffer lie in the ring. -/
def Good (s : State) : Prop := PolyInv s ∧ RecentOk s ∧ ringOk s

/-- The block size of the state `s` is the one that `VLSG_SetParameter` with
`PARAMETER_Frequency` and the value `f` sets. -/
def FrequencySet (s : State) (f : Int) : Prop :=
  s.output_size_para = (VLSG_SetParameter s PARAMETER_Frequency f).1.output_size_para

/-- Every one of the 64 voices is free. -/
def AllFree (s : State) : Prop :=
  ∀ i, 0 ≤ i → i < 64 → (s.voice_data i).note_number = 255

/-- Every one of the 32768 words of a reverb buffer is 0. -/
def BufZero (b : Int → Int) : Prop := ∀ i, 0 ≤ i → i < 32768 → b i = 0

/-- The state of a module that plays nothing: every voice is free, the reverb buffer is
all-zero, the MIDI ring buffer is empty, the polyphony settings are within the 64 voices and
`recent_voice_index` is 0. -/
def Silent (s : State) : Prop :=
  AllFree s ∧ BufZero s.reverb_data_buffer
    ∧ s.midi_data_write_index = s.midi_data_read_index ∧ ringOk s
    ∧ s.maximum_polyphony ≤ 64 ∧ s.maximum_polyphony_new_value ≤ 64
    ∧ s.recent_voice_index = 0

/-- A sequence of calls of `VLSG_FillOutputBuffer`, each given by its counter and its two
readings of the clock, on the state `s` and the output memory `mem`; `none` when a call
does not return. -/
def runFills (s : State) (mem : Int → Int) : List (Int × Int × Int) → Option (State × (Int → Int))
  | [] => some (s, mem)
  | c :: rest =>
    match VLSG_FillOutputBuffer s mem c.1 c.2.1 c.2.2 with
    | none => none
    | some r => runFills r.1 r.2.1 rest

/-- State `t` has every voice free, and the reverb buffer, both indices of the MIDI ring
buffer and the ceiling of the polyphony of state `s`. -/
def Calm (s t : State) : Prop :=
  AllFree t ∧ t.reverb_data_buffer = s.reverb_data_buffer
    ∧ t.midi_data_read_index = s.midi_data_read_index
    ∧ t.midi_data_write_index = s.midi_data_write_index
    ∧ t.maximum_polyphony_new_value = s.maximum_polyphony_new_value

/-- Byte address `a` lies in the sub-buffer that a callback of counter `c` fills in the
state `s`: the `4 * output_size_para` frames of four bytes from frame
`(c & 15) * 4 * output_size_para` of the output buffer on. -/
def subBuffer (s : State) (c a : Int) : Prop :=
  s.output_data_ptr + c % 16 * (4 * s.output_size_para) * 4 ≤ a
    ∧ a < s.output_data_ptr + (c % 16 + 1) * (4 * s.output_size_para) * 4

/-- Byte address `a` lies in the sub-buffer of one of the callbacks of the sequence run by
`runFills`. -/
def writtenBy (s : State) (mem : Int → Int) : List (Int × Int × Int) → Int → Prop
  | [], _ => False
  | c :: rest, a =>
    subBuffer s c.1 a ∨
      match VLSG_FillOutputBuffer s mem c.1 c.2.1 c.2.2 with
      | none => False
      | some r => writtenBy r.1 r.2.1 rest a

/-- The invariant of the running module whose polyphony was never set: the ceiling is 0, the
current maximum is 0, or the 1 or 2 that the governor has put, `recent_voice_index` is below
2, and both indices of the MIDI ring buffer lie in the ring. -/
def Unset (s : State) : Prop :=
  s.maximum_polyphony_new_value = 0 ∧ 0 ≤ s.maximum_polyphony ∧ s.maximum_polyphony ≤ 2
    ∧ RecentIn s ∧ ringOk s

/-- The invariant of the running module, with the polyphony set or not. -/
def Live (s : State) : Prop := Good s ∨ Unset s

/-- The call that gave `o` in the state `s` has returned, in a state of the invariant `Live`
in which the MIDI ring buffer has no more pending bytes than before. -/
def ReturnsLive (s : State) (o : Option State) : Prop :=
  ∃ t, o = some t ∧ Live t ∧ pendingBytes t ≤ pendingBytes s

/-- The module after its load with the ROM memory `rom` and a sequence of calls of
`VLSG_SetParameter`, each given by its parameter id and its value. -/
def loadedWith (rom : Int → Int) (params : List (Int × Int)) : State :=
  params.foldl (fun s p => (VLSG_SetParameter s p.1 p.2).1) (zeroState rom)

/-! ### The dispatcher on a stream of bytes -/

/-- The loop of `ProcessMidiData` on the bytes `bs` that the successive calls of
`GetValueFromMidiDataBuffer` return: the byte `0xFF`, which is also what a call returns when
it delivers nothing, leaves the loop, and so does the end of the bytes. -/
def ProcessMidiData_bytes : State → List Int → Option State
  | s, [] => some s
  | s, b :: bs =>
    if b = 255 then some s
    else
      match ProcessMidiData_byte s b with
      | none => none
      | some s1 => ProcessMidiData_bytes s1 bs

/-- The dispatcher has taken the status byte `st` and is at the start of a group of data
bytes. -/
def Awaiting (st : Int) (s : State) : Prop :=
  s.event_length = 0 ∧ s.event_type = st / 16 % 16 * 16 ∧ s.event_data 0 = st
    ∧ s.channel_data_ptr = st % 16 ∧ s.stru6_ptr = st % 16

/-- The content of `event_data` after the data bytes `ds` have been taken one by one, when
it was `e` and `event_length` was `n` before: the bytes go to the places `n + 1`, `n + 2`
and so on, and a byte whose place would be 32 or more is not stored. -/
def storeData : (Int → Int) → Int → List Int → (Int → Int)
  | e, _, [] => e
  | e, n, d :: ds => storeData (if n + 1 < 32 then Function.update e (n + 1) d else e) (n + 1) ds

/-- The state in which the dispatcher calls `SystemExclusive` for the message `F0 ds F7` that
it has taken in the state `s`. -/
def sysexState (s : State) (ds : List Int) : State :=
  { s with
    event_length := ds.length,
    event_type := 240,
    event_data := storeData (Function.update s.event_data 0 240) 0 ds,
    channel_data_ptr := 0,
    stru6_ptr := 0 }

/-- The number of voices that the polyphony code `xx` stands for. -/
def voicesOfCode (xx : Int) : Int :=
  if xx = 16 then 24 else if xx = 17 then 32 else if xx = 18 then 48 else 64

/-- The code `xx` of a vendor message is one that `SystemExclusive` acts on. -/
def knownCode (xx : Int) : Prop :=
  (16 ≤ xx ∧ xx ≤ 19) ∨ (32 ≤ xx ∧ xx ≤ 34) ∨ (64 ≤ xx ∧ xx ≤ 74)

/-- A module in play: the module `C4_module` (a ROM of which every byte is 1, the output
buffer and 44100 Hz set) after `VLSG_SetParameter` with `PARAMETER_Polyphony` and the code
`0x10`, and after `VLSG_PlaybackStart`. -/
def playingModule : State :=
  (VLSG_PlaybackStart (VLSG_SetParameter C4_module PARAMETER_Polyphony 16).1).1

/-- The module in play at the time 1000 of its clock, with the bytes `bs` in the MIDI ring
buffer, each of them in a record of time stamp 500. -/
def C14_state (bs : List Int) : State :=
  VLSG_AddMidiData { playingModule with system_time_1 := 1000 }
    (recordBytes (bs.map (fun b => (500, b))))

/-- State `t` comes from state `s` by steps on the voice `vi` that leave the other voices,
the channel blocks, the program data and `recent_voice_index` as they are, and that leave
to the voice `vi` its channel layer, its note (unless they free it) and the two flags
`VFLAG_Value40` and `VFLAG_Value80`. -/
structure OneVoice (vi : Int) (s t : State) : Prop where
  other : ∀ j, j ≠ vi → t.voice_data j = s.voice_data j
  channels : t.channel_data = s.channel_data
  programs : t.stru_C0030080 = s.stru_C0030080
  recent : t.recent_voice_index = s.recent_voice_index
  chan : (t.voice_data vi).channel_num_2 = (s.voice_data vi).channel_num_2
  note : (t.voice_data vi).note_number = (s.voice_data vi).note_number
    ∨ (t.voice_data vi).note_number = 255
  flags : (t.voice_data vi).vflags / 64 % 4 = (s.voice_data vi).vflags / 64 % 4

/-! ### Resets -/

/-- The channel block `c` is the block `c0` after a reset: the program, the controllers, the
tuning, the registered parameter and the data entry have their defaults, the flag
`CHFLAG_Sustain` (bit 15 of `chflags`) is clear, and the flags `CHFLAG_Sostenuto` (bit 13)
and `CHFLAG_Soft` (bit 14) are those of `c0`. -/
def ChannelReset (c0 c : Channel_Data) : Prop :=
  c.program_change = 0 ∧ c.expression = 127 ∧ c.volume = 100 ∧ c.pan = 0 ∧ c.pitch_bend = 0
    ∧ c.pitch_bend_sense = 512 ∧ c.channel_pressure = 0 ∧ c.modulation = 0
    ∧ c.fine_tune = 0 ∧ c.coarse_tune = 0
    ∧ c.parameter_number_MSB = 255 ∧ c.parameter_number_LSB = 255
    ∧ c.data_entry_MSB = 0 ∧ c.data_entry_LSB = 0
    ∧ c.chflags / 32768 % 2 = 0
    ∧ c.chflags / 8192 % 2 = c0.chflags / 8192 % 2
    ∧ c.chflags / 16384 % 2 = c0.chflags / 16384 % 2

/-- The voice `w` is free, or in its release: `VFLAG_Value80` (bit 7 of `vflags`) is set and
`VFLAG_Value40` (bit 6) is clear. -/
def FreeOrReleased (w : Voice_Data) : Prop :=
  w.note_number = 255 ∨ (w.vflags / 128 % 2 = 1 ∧ w.vflags / 64 % 2 = 0)

/-- The state of the counterexample to C16: the module as loaded, with the flags
`CHFLAG_Sostenuto` and `CHFLAG_Soft` set on channel 0. -/
def C16_state : State :=
  (zeroState (fun _ => 0)).updChannel 0 (fun c => { c with chflags := 24576 })

/-- The state of the counterexample to C18 before the callback: the module in play, with the
controller message `B0 43 7F` (the soft pedal goes down on channel 0) in the MIDI ring
buffer, each byte in a record of time stamp 500. -/
def C18_state : State :=
  VLSG_AddMidiData playingModule (recordBytes [(500, 176), (500, 67), (500, 127)])

/-! ### Channel messages -/

/-- The state in which the dispatcher runs its `switch` for the channel message
`st d1 d2` that it has taken in the state `s`. -/
def messageState (s : State) (st d1 d2 : Int) : State :=
  { s with
    event_length := 2,
    event_type := st / 16 % 16 * 16,
    event_data := Function.update (Function.update (Function.update s.event_data 0 st) 1 d1) 2 d2,
    channel_data_ptr := st % 16,
    stru6_ptr := st % 16 }

/-- The module in play after the dispatcher has taken the Note On `90 3C 64`. -/
def C19_state : State :=
  (ProcessMidiData_bytes playingModule [144, 60, 100]).getD playingModule

/-- State `t` comes from state `s` by steps that leave to the voice `vi` its note and its
channel layer, and that leave the ROM. -/
structure KeepsNote (vi : Int) (s t : State) : Prop where
  note : (t.voice_data vi).note_number = (s.voice_data vi).note_number
  rom : t.rom_memory = s.rom_memory
  chan : (t.voice_data vi).channel_num_2 = (s.voice_data vi).channel_num_2

/-- The stored bytes of the data entry of the channel block `c` are bytes. -/
def DataBytes (c : Channel_Data) : Prop :=
  0 ≤ c.data_entry_MSB ∧ c.data_entry_MSB ≤ 255 ∧ 0 ≤ c.data_entry_LSB ∧ c.data_entry_LSB ≤ 255

/-- The registered parameter selected in the channel block `c` is one that `ControlChange`
interprets: MSB 0 and LSB 0, 1 or 2. -/
def KnownRpn (c : Channel_Data) : Prop :=
  c.parameter_number_MSB = 0
    ∧ (c.parameter_number_LSB = 0 ∨ c.parameter_number_LSB = 1 ∨ c.parameter_number_LSB = 2)

/-- The part of `NoteOff` behind the test for the drum channel: the voice of each of the two
layers of the channel that `FindVoice` returns for the note gets `VoiceNoteOff`. -/
def NoteOff_release (s : State) : State :=
  let s1 :=
    match FindVoice s (2 * (s.event_data 0 % 16)) (s.event_data 1) with
    | some vi => VoiceNoteOff s vi
    | none => s
  match FindVoice s1 (2 * (s1.event_data 0 % 16) + 1) (s1.event_data 1) with
  | some vi => VoiceNoteOff s1 vi
  | none => s1

/-- The channel block `c` after the data byte `val` of a data entry is stored: controller 6
stores the MSB, controller 38 the LSB. -/
def storedEntry (c : Channel_Data) (ctl val : Int) : Channel_Data :=
  if ctl = 6 then { c with data_entry_MSB := val } else { c with data_entry_LSB := val }

/-- The module in play with the registered parameter (0, 0), the bend sensitivity, selected
on channel 0. -/
def C27_state : State :=
  playingModule.updChannel 0 (fun c => { c with
    parameter_number_MSB := 0, parameter_number_LSB := 0 })

/-! ### The search for a voice -/

/-- The first lines of `FindAvailableVoice`: the slot `index1` behind `recent_voice_index`,
which is slot 0 when that is `maximum_polyphony` or more. -/
def FindAvailableVoice_start (s : State) : Int :=
  let index1 := i32 (u32 (s.recent_voice_index + 1))
  if index1 ≥ s.maximum_polyphony then 0 else index1

/-- The place of slot `j` in the walk over the ring of `mp` slots that starts at slot
`index1` and goes upwards, from slot `mp - 1` on to slot 0: the number of slots met before
`j`. -/
def ringPos (mp index1 j : Int) : Int :=
  if index1 ≤ j then j - index1 else j - index1 + mp

/-- Slot `i` of the pool is free. -/
def FreeSlot (s : State) (i : Int) : Prop := (s.voice_data i).note_number = 255

/-- The voice in slot `i` has its note-off flag `VFLAG_Value80` (bit 7 of `vflags`) set. -/
def NoteOffSlot (s : State) (i : Int) : Prop := (s.voice_data i).vflags / 128 % 2 ≠ 0

/-- The voice in slot `i` is on one of the two layers of the drum channel. -/
def DrumSlot (s : State) (i : Int) : Prop :=
  (s.voice_data i).channel_num_2 - (s.voice_data i).channel_num_2 % 2 = 2 * DRUM_CHANNEL

/-- The state of the counterexample to C30: the module in play (24 voices, all of them free)
with `recent_voice_index` at slot 5. -/
def C30_state : State := { playingModule with recent_voice_index := 5 }

/-! ### The compaction of the pool -/

/-- The active slots among the `n` slots from `lo` on, in increasing order. -/
def activeSlots (s : State) : Nat → Int → List Int
  | 0, _ => []
  | n + 1, lo =>
    if (s.voice_data lo).note_number ≠ 255 then lo :: activeSlots s n (lo + 1)
    else activeSlots s n (lo + 1)

/-! ### Voices that are started -/

/-- State `t` comes from state `s` by steps that leave each voice its note or free it, and
that leave the program data and the polyphony. -/
structure Drops (s t : State) : Prop where
  notes : ∀ i, (t.voice_data i).note_number = (s.voice_data i).note_number
    ∨ (t.voice_data i).note_number = 255
  programs : t.stru_C0030080 = s.stru_C0030080
  mp : t.maximum_polyphony = s.maximum_polyphony

/-! ### The load governor -/

/-- State `t` comes from state `s` by steps on the voice `vi` that leave the other voices,
the channel blocks and `maximum_polyphony` as they are, and that leave to the voice `vi` its
channel layer, its amplitude multiplier `field_64`, its smoothed amplitude `field_2C` and
its composite amplitude `field_38`. -/
structure AmpKept (vi : Int) (s t : State) : Prop where
  other : ∀ j, j ≠ vi → t.voice_data j = s.voice_data j
  channels : t.channel_data = s.channel_data
  mp : t.maximum_polyphony = s.maximum_polyphony
  chan : (t.voice_data vi).channel_num_2 = (s.voice_data vi).channel_num_2
  f64 : (t.voice_data vi).field_64 = (s.voice_data vi).field_64
  f2C : (t.voice_data vi).field_2C = (s.voice_data vi).field_2C
  f38 : (t.voice_data vi).field_38 = (s.voice_data vi).field_38

/-- The channel of the voice `vi` has the volume 0 or the expression 0. -/
def MutedChannel (s : State) (vi : Int) : Prop :=
  (s.channel_data ((s.voice_data vi).channel_num_2 / 2)).volume = 0
    ∨ (s.channel_data ((s.voice_data vi).channel_num_2 / 2)).expression = 0

/-- State `t` has the channel blocks and the `maximum_polyphony` of state `s`, and its voice
`vi` has the channel layer, the amplitude multiplier `field_64` and the smoothed amplitude
`field_2C` of the voice `vi` of `s`. -/
def AmpSame (vi : Int) (s t : State) : Prop :=
  t.channel_data = s.channel_data ∧ t.maximum_polyphony = s.maximum_polyphony
    ∧ (t.voice_data vi).channel_num_2 = (s.voice_data vi).channel_num_2
    ∧ (t.voice_data vi).field_64 = (s.voice_data vi).field_64
    ∧ (t.voice_data vi).field_2C = (s.voice_data vi).field_2C

/-- The state `t` has the channel blocks and the `maximum_polyphony` of state `s`, and its
voice `vi` has the channel layer, the note and the smoothed amplitude `field_2C` of the voice
`vi` of `s`. -/
def LevelSame (vi : Int) (s t : State) : Prop :=
  t.channel_data = s.channel_data ∧ t.maximum_polyphony = s.maximum_polyphony
    ∧ (t.voice_data vi).channel_num_2 = (s.voice_data vi).channel_num_2
    ∧ (t.voice_data vi).field_2C = (s.voice_data vi).field_2C
    ∧ (t.voice_data vi).note_number = (s.voice_data vi).note_number

/-- A module in play with a ROM that is not constant (byte `a % 251` at address `a`, from
address 0 on), the output buffer at address 0, 11025 Hz and the polyphony code `0x10`. -/
def C25_module : State :=
  (VLSG_PlaybackStart (loadedWith (fun a => a % 251)
    [(PARAMETER_ROMAddress, 0), (PARAMETER_OutputBuffer, 0), (PARAMETER_Frequency, 0),
      (PARAMETER_Polyphony, 16)])).1

/-- The state of the counterexample to C25 before the callback: `C25_module` with the Note On
`90 3C 64` and the controller message `B0 07 00` (volume 0 on channel 0) in the MIDI ring
buffer, each byte in a record of time stamp 500. -/
def C25_state : State :=
  VLSG_AddMidiData C25_module
    (recordBytes [(500, 144), (500, 60), (500, 100), (500, 176), (500, 7), (500, 0)])

/-- The state of the counterexample to C25 in which the first 64 samples of the callback are
computed: the clock is set to 1000, `ProcessMidiData` has run (it takes the six records) and
`ProcessPhase` has run. -/
def C25_tick : Option State :=
  (ProcessMidiData (VLSG_FillOutputBuffer_clock C25_state 0 1000)).map ProcessPhase

/-- The module in play after the dispatcher has taken the Note On `90 3C 64` and the
controller message `B0 07 00`, which sets the volume of channel 0 to 0. -/
def C25_muted : State :=
  (ProcessMidiData_bytes C19_state [176, 7, 0]).getD C19_state

/-! ## Definitions for the claims on the envelopes, the clock and the dispatcher -/

/-! ### The amplitude multiplier -/

/-- The multiplier that `sub_C0036C20` computes from the expression, the volume and the scale
`field_60` of a voice, before it is stored in the 16-bit `field_64`:
`((((expr * vol)^2) >> 13) * scale) >> 7`. -/
def multiplier (expr vol scale : Int) : Int :=
  (expr * vol) * (expr * vol) / 8192 * scale / 128

/-- The state of the counterexample to C34: the module in play after the Note On `90 3C 64`,
with the volume 127 on channel 0 (the expression is the default 127) and the scale
`field_60 = 255` in voice 0. -/
def C34_state : State :=
  (C19_state.updChannel 0 (fun c => { c with volume := 127 })).updVoice 0
    (fun w => { w with field_60 := 255 })

/-! ### What the handlers and the synthesis leave as it is -/

/-- The program number of the drum channel is one of the drum kit numbers 0 to 7. -/
def DrumRange (s : State) : Prop :=
  0 ≤ (s.channel_data DRUM_CHANNEL).program_change
    ∧ (s.channel_data DRUM_CHANNEL).program_change ≤ 7

/-- The program number of the drum channel is a drum kit number and, while a Program Change
is being assembled, `channel_data_ptr` is the channel of its status byte. -/
def DrumOk (s : State) : Prop :=
  DrumRange s ∧ (s.event_type = 192 → s.channel_data_ptr = s.event_data 0 % 16)

/-- State `t` comes from state `s` by steps that leave the phase counter, the three words of
the clock (`dword_C0000000`, `dword_C0000004`, `dword_C0000008`), `system_time_2` and the
message being assembled as they are, and that leave the program
number of the drum channel among the drum kit numbers. -/
structure Steady (s t : State) : Prop where
  phase : t.processing_phase = s.processing_phase
  ticks : t.dword_C0000000 = s.dword_C0000000
  rate : t.dword_C0000004 = s.dword_C0000004
  base : t.dword_C0000008 = s.dword_C0000008
  time2 : t.system_time_2 = s.system_time_2
  ev : t.event_type = s.event_type ∧ t.event_data = s.event_data
    ∧ t.channel_data_ptr = s.channel_data_ptr ∧ t.event_length = s.event_length
  drum : DrumOk s → DrumRange t

/-- The invariant of the dispatcher for the drum program: the program number of the drum
channel is a drum kit number and, while a Program Change is being assembled, the status
byte in `event_data[0]` is a Program Change, `channel_data_ptr` is its channel, and no data
byte is counted. -/
def DrumInv (s : State) : Prop :=
  DrumRange s ∧ (s.event_type = 192 →
    s.channel_data_ptr = s.event_data 0 % 16 ∧ s.event_data 0 / 16 % 16 = 12
      ∧ s.event_length = 0)

/-! ### The tick scheduler -/

/-- The state in which `ProcessPhase` runs its steps: the phase counter is incremented. -/
def ProcessPhase_count (s : State) : State :=
  { s with processing_phase := u32 (s.processing_phase + 1) }

/-- The clock of the synthesizer is in step: `system_time_1` is the value that the loop of
`VLSG_FillOutputBuffer` computes from the count of passes `dword_C0000000`, the rate
`dword_C0000004` and the base `dword_C0000008`, and the count is a multiple of 4 up to 512. -/
def ClockOk (s : State) : Prop :=
  s.system_time_1
      = u32 (u32 (s.dword_C0000000 * s.dword_C0000004) / 512 + s.dword_C0000008)
    ∧ 0 ≤ s.dword_C0000000 ∧ s.dword_C0000000 ≤ 512 ∧ s.dword_C0000000 % 4 = 0

/-- The 32-bit arithmetic of the clock does not wrap in state `s` within `n` more passes: the
product of the count and the rate, and the sum with the base, are below `2^32`. -/
def NoWrap (s : State) (n : Int) : Prop :=
  0 ≤ s.dword_C0000004 ∧ 0 ≤ s.dword_C0000008
    ∧ (s.dword_C0000000 + n) * s.dword_C0000004 < 4294967296
    ∧ (s.dword_C0000000 + n) * s.dword_C0000004 / 512 + s.dword_C0000008 < 4294967296

/-- The test of `VLSG_FillOutputBuffer` that restarts the clock from the reading `time1`. -/
def ClockRestart (s : State) (output_buffer_counter time1 : Int) : Prop :=
  output_buffer_counter = 0 ∨ u32 (time1 - s.system_time_1) > 200

instance (s : State) (c t : Int) : Decidable (ClockRestart s c t) := by
  unfold ClockRestart
  exact inferInstance

/-- The calls of the counterexample to C35: the counter and the two readings of the clock of
the caller, which do not decrease. -/
def C35_calls : List (Int × Int × Int) :=
  [(0, 1000, 1000), (1, 1023, 1023), (2, 1046, 1046), (3, 1069, 1069), (4, 1092, 1092)]

/-- State `t` has the phase counter, the three words of the clock and `system_time_2` of
state `s`. -/
structure SameClock (s t : State) : Prop where
  phase : t.processing_phase = s.processing_phase
  ticks : t.dword_C0000000 = s.dword_C0000000
  rate : t.dword_C0000004 = s.dword_C0000004
  base : t.dword_C0000008 = s.dword_C0000008
  time2 : t.system_time_2 = s.system_time_2

/-- State `t` comes from state `s` by steps of the dispatcher and of the synthesis: the phase
counter, the three words of the clock and `system_time_2` are as before, and the invariant
`DrumInv` is kept. -/
structure Paced (s t : State) : Prop where
  phase : t.processing_phase = s.processing_phase
  ticks : t.dword_C0000000 = s.dword_C0000000
  rate : t.dword_C0000004 = s.dword_C0000004
  base : t.dword_C0000008 = s.dword_C0000008
  time2 : t.system_time_2 = s.system_time_2
  drum : DrumInv s → DrumInv t


/-- The routine `StartPlayingVoice` with the scan of the pairs of `dword_C0032988` started at
the first entry of the table whatever the program of the drum channel is. -/
def StartPlayingVoice_fromFirst (s : State) (vi ci si base : Int) : State :=
  let data := fun (k : Int) => (s.stru_C0030080 si).data (base + k)
  let s1 := s.updVoice vi (fun w => { w with
    field_56 := data 2, field_58 := data 7, field_5A := data 8,
    field_5C := u16 (data 9), field_5E := u16 (data 10) })
  let r1 := sub_C0034970 s1 vi (u16 (data 0) / 256)
  let r2 := sub_C00373A0 r1.1 2 (data 1 % 4096 + r1.2)
  let r3 := sub_C0037420 r2.1 r2.2
  let r4 := sub_C0037400 r3.1
  let r5 := sub_C0037400 r4.1
  let r6 := sub_C0037400 r5.1
  let r7 := sub_C0037400 r6.1
  let r8 := sub_C0037400 r7.1
  let r9 := sub_C0037400 r8.1
  let r10 := sub_C0037400 r9.1
  let field_00 := u32 ((u16 r3.2 + r4.2 % 256 * 65536) * 1024)
  let s2 := r10.1.updVoice vi (fun w => { w with
    field_00 := field_00,
    field_04 := (r4.2 / 256 + r5.2 * 256) % 4194304,
    field_68 := r8.2 / 256,
    field_66 := r8.2 % 256,
    field_08 := (r7.2 + r8.2 % 256 * 65536) % 4194304,
    field_44 := i16 r9.2,
    field_60 := r10.2 % 256,
    field_0C := Function.update (Function.update w.field_0C 3 0) 2 0,
    field_20 := u32 ((field_00 - field_00 / 1024 % 2 * 1024) / 1024 - 2),
    field_1C := r10.2 / 256 })
  let v := s2.voice_data vi
  let value3 := data 1 / 4096 % 8
  let value2 :=
    if value3 ≠ 7 then
      let channel_num_2 := i16 (v.channel_num_2 - v.channel_num_2 % 2)
      let note :=
        if channel_num_2 ≠ 2 * DRUM_CHANNEL then
          foldNote (v.note_number + (s2.channel_data (channel_num_2 / 2)).coarse_tune
            + (v.field_56 + 128) / 256)
        else v.note_number
      Nat.iterate (fun x => x / 2) value3.toNat (i32 ((note - v.field_68) * 256))
    else 0
  let value2 := i32 (i32 (value2 + v.field_44) + i8 v.field_56)
  let s3 := s2.updVoice vi (fun w => { w with field_44 := i16 value2 })
  let s4 := sub_C0036C20 (sub_C0034890 s3 vi value2) vi
  let value4 := data 12
  let value5 := dword_C0032AA8 (s4.effect_type + 1) (s4.voice_data vi).note_velocity
  let value6 :=
    if value4 ≥ 0 then 127 - i32 (value4 * (127 - value5)) / 128 + data 13
    else 127 - i32 (-value4 * value5) / 128 + data 13
  let value6 := if (s4.channel_data ci).chflags / 16384 % 2 ≠ 0 then value6 / 2 else value6
  let s5 := s4.updVoice vi (fun w => { w with
    field_62 := if value6 > 127 then 127 else if value6 ≤ 0 then 0 else value6,
    field_4C := 0, field_2C := 0, field_52 := 0, vflags := 0, field_4E := 0 })
  let s6 := sub_C0036B00 (sub_C0036A80 s5 vi) vi
  let s7 :=
    if (s6.channel_data ci).chflags / 8192 % 2 ≠ 0
        ∧ StartPlayingVoice_sostenuto s6 vi s6.maximum_polyphony.toNat 0 = true then
      s6.updVoice vi (fun w => { w with vflags := w.vflags + (1 - w.vflags / 64 % 2) * 64 })
    else s6
  let s8 :=
    if (s7.channel_data ci).chflags / 32768 % 2 ≠ 0 then
      s7.updVoice vi (fun w => { w with vflags := w.vflags + (1 - w.vflags / 64 % 2) * 64 })
    else s7
  let v8 := s8.voice_data vi
  if v8.channel_num_2 - v8.channel_num_2 % 2 = 2 * DRUM_CHANNEL then
    let q1 := sub_C00373A0 s8 18 0
    let q2 := sub_C0037420 q1.1 (u32 (q1.2 + 4 * v8.note_number))
    let s9 := sub_C0036A20 (q2.1.updVoice vi (fun w => { w with field_6A := q2.2 })) vi
    let start : Int := 0
    StartPlayingVoice_drums vi 37 start s9
  else
    let q1 := sub_C00373A0 s8 17 0
    let value8 := (s8.channel_data ci).pan + data 5
    let value8 := if value8 > 127 then 127 else if value8 ≤ -127 then -127 else value8
    let q2 := sub_C0037420 q1.1 (u32 (q1.2 + 2 * value8 + 256))
    sub_C0036A20 (q2.1.updVoice vi (fun w => { w with field_6A := q2.2 })) vi

/-- State `t` has the bytes of `event_data` of state `s` outside the places 0 to 31, and its
`event_length` is not negative and at most `k` more than that of `s`. -/
def EventKept (k : Int) (s t : State) : Prop :=
  (∀ i : Int, i < 0 ∨ 32 ≤ i → t.event_data i = s.event_data i)
    ∧ 0 ≤ t.event_length ∧ t.event_length ≤ s.event_length + k

/-- The state of the counterexample to C33: the module in play after the Note On `90 3C 64`,
with voice 0 at segment 0 of its amplitude envelope, as it is when `StartPlayingVoice` calls
`sub_C0036B00`. -/
def C33_state : State :=
  C19_state.updVoice 0 (fun w => { w with vflags := 0 })

/-! ### The search for a voice, with its reads and its steps -/

/-- The `for` loop of `FindAvailableVoice` over the slots `index`, `index + 1`, ... (`n` of
them): the first slot that satisfies `p`, and the slots whose voice the loop has read. -/
def FindAvailableVoice_scan (p : Int → Bool) : Nat → Int → Option Int × List Int
  | 0, _ => (none, [])
  | n + 1, index =>
    if p index then (some index, [index])
    else ((FindAvailableVoice_scan p n (index + 1)).1,
      index :: (FindAvailableVoice_scan p n (index + 1)).2)

/-- A `do ... while (index != index1)` walk of `FindAvailableVoice` with a count of passes:
`none` when the walk is not over after `n` passes; otherwise the slot found (or `none` when
the walk is back at `index1`) and the slots whose voice the walk has read. -/
def FindAvailableVoice_walk (s : State) (p : Int → Bool) (index1 : Int) :
    Nat → Int → Option (Option Int × List Int)
  | 0, _ => none
  | n + 1, index =>
    if p index then some (some index, [index])
    else if nextIndex s index ≠ index1 then
      (FindAvailableVoice_walk s p index1 n (nextIndex s index)).map
        (fun r => (r.1, index :: r.2))
    else some (none, [index])

/-- Source `FindAvailableVoice` with at most `fuel` passes of each of its two `do ... while`
walks: `none` when a walk is not over by then, otherwise the slot returned and the slots
whose voice has been read. -/
def FindAvailableVoice_run (s : State) (fuel : Nat) : Option (Int × List Int) :=
  let index1 := i32 (u32 (s.recent_voice_index + 1))
  let index1 := if index1 ≥ s.maximum_polyphony then 0 else index1
  let r2 := FindAvailableVoice_scan (fun i => decide ((s.voice_data i).note_number = 255))
    s.maximum_polyphony.toNat 0
  match r2.1 with
  | some index2 => some (index2, r2.2)
  | none =>
    match FindAvailableVoice_walk s (fun i => decide ((s.voice_data i).vflags / 128 % 2 ≠ 0))
        index1 fuel index1 with
    | none => none
    | some (some index3, reads3) => some (index3, r2.2 ++ reads3)
    | some (none, reads3) =>
      match FindAvailableVoice_walk s (fun i => decide ((s.voice_data i).channel_num_2
          - (s.voice_data i).channel_num_2 % 2 = 2 * DRUM_CHANNEL)) index1 fuel index1 with
      | none => none
      | some (some index4, reads4) => some (index4, r2.2 ++ reads3 ++ reads4)
      | some (none, reads4) => some (index1, r2.2 ++ reads3 ++ reads4)

/-! ### The order in which `ReduceActiveVoices` frees voices -/

/-- The slots of a walk of `n` passes over the ring of voices, from slot `index` on. -/
def ringFrom (s : State) : Nat → Int → List Int
  | 0, _ => []
  | n + 1, index => index :: ringFrom s n (nextIndex s index)

/-- Free, in the order of the list `slots`, the voices that satisfy `p`, until `b` voices
are freed: the state, and the number of voices still to free. -/
def freeFirst (p : Voice_Data → Bool) : List Int → Int → State → State × Int
  | [], b, s => (s, b)
  | i :: rest, b, s =>
    if b ≤ 0 then (s, b)
    else if p (s.voice_data i) then
      freeFirst p rest (b - 1) (s.updVoice i (fun w => { w with note_number := 255 }))
    else freeFirst p rest b s

/-- The voices that `ReduceActiveVoices` frees, in the words of the specification and with
the count of the code: with `a` voices active, `max 1 (a - maximum_voices)` voices are to be
freed; they are taken from the slots in circular order from `recent_voice_index + 1` on (all
slots but `recent_voice_index` itself), first among the active voices with the note-off
flag, then among the active voices. The result is the state and the number of voices that
could not be freed. -/
def ReduceActiveVoices_order (s : State) (maximum_voices : Int) : State × Int :=
  let slots := ringFrom s (s.maximum_polyphony.toNat - 1) (FindAvailableVoice_start s)
  let a := activeVoices s 0 s.maximum_polyphony
  let r1 := freeFirst (fun w => decide (w.note_number ≠ 255 ∧ w.vflags / 128 % 2 ≠ 0)) slots
    (max 1 (a - maximum_voices)) s
  freeFirst (fun w => decide (w.note_number ≠ 255)) slots r1.2 r1.1

/-- The state of the counterexample to C31: the module in play (24 voices) after the Note
Ons `90 3C 64` and `90 3E 64`. -/
def C31_state : State :=
  (ProcessMidiData_bytes C19_state [144, 62, 100]).getD C19_state

/-- The pair `q` is what `freeFirst p l b s` may be: `q.2` voices are still to free,
`b - q.2` active voices of the pool of `m` slots have been freed, each of them in a slot of
`l` and passing the test `p`, no other voice is changed, and when voices are still to free
no voice in a slot of `l` passes the test any more. -/
structure FreedBy (p : Voice_Data → Bool) (l : List Int) (m b : Int) (s : State)
    (q : State × Int) : Prop where
  lo : 0 ≤ q.2
  hi : q.2 ≤ b
  count : activeVoices q.1 0 m = activeVoices s 0 m - (b - q.2)
  mp : q.1.maximum_polyphony = s.maximum_polyphony
  recent : q.1.recent_voice_index = s.recent_voice_index
  voices : ∀ j, q.1.voice_data j = s.voice_data j
    ∨ (j ∈ l ∧ p (s.voice_data j) = true
      ∧ q.1.voice_data j = { s.voice_data j with note_number := 255 })
  rest : 0 < q.2 → ∀ i ∈ l, p (q.1.voice_data i) = false
  same : q.2 = b → q.1 = s
  none : (∀ i ∈ l, p (s.voice_data i) = false) → q = (s, b)

/-! ### The amplitude envelope of one voice -/

/-- The amplitude envelope of the voice record `w` is in its ranges, where `w0` is the record
before the voice was started first: the velocity factor `field_62` is in `[0, 127]`, the
target `field_4E & 0xFF00` is at most `0x7E00`, the value `field_52` is in `[0, 0x7E00]`, the
rate `field_50` is in `[0, 0x7FFF]` unless the voice is free and no rate has been stored
since the start, and `field_28` is in `[0, 32768]` unless no amplitude step has stored it
since the start. -/
structure EnvelopeOk (w0 w : Voice_Data) : Prop where
  velocity : 0 ≤ w.field_62 ∧ w.field_62 ≤ 127
  target : w.field_4E / 256 % 256 * 256 ≤ 32256
  value : 0 ≤ w.field_52 ∧ w.field_52 ≤ 32256
  rate : (0 ≤ w.field_50 ∧ w.field_50 ≤ 32767)
    ∨ (w.note_number = 255 ∧ w.field_50 = w0.field_50)
  level : (0 ≤ w.field_28 ∧ w.field_28 ≤ 32768) ∨ w.field_28 = w0.field_28

/-- The record of the voice `vi` in state `t` has the five fields of the amplitude envelope
that it has in state `s`, and its note unless the voice was freed. -/
structure EnvKept (vi : Int) (s t : State) : Prop where
  f4E : (t.voice_data vi).field_4E = (s.voice_data vi).field_4E
  f50 : (t.voice_data vi).field_50 = (s.voice_data vi).field_50
  f52 : (t.voice_data vi).field_52 = (s.voice_data vi).field_52
  f62 : (t.voice_data vi).field_62 = (s.voice_data vi).field_62
  f28 : (t.voice_data vi).field_28 = (s.voice_data vi).field_28
  note : (t.voice_data vi).note_number = (s.voice_data vi).note_number
    ∨ (t.voice_data vi).note_number = 255

/-- State `t` comes from state `s` by a start of the voice `vi` with `StartPlayingVoice`
and then any number of amplitude steps `sub_C0037140`, of retargetings `sub_C0036B00`,
`VoiceSoundOff` and `VoiceNoteOff` of any voice, and of further starts of the voice `vi` in
a record that has the rate `field_50` it had, and the `field_28` it had or the 0 that
`GenerateOutputData` stores at the end of a sample. -/
inductive EnvelopeRun (vi : Int) : State → State → Prop
  | start (s : State) (ci si base : Int) : EnvelopeRun vi s (StartPlayingVoice s vi ci si base)
  | step {s t : State} : EnvelopeRun vi s t → EnvelopeRun vi s (sub_C0037140 t)
  | retarget {s t : State} (j : Int) : EnvelopeRun vi s t → EnvelopeRun vi s (sub_C0036B00 t j)
  | soundOff {s t : State} (j : Int) : EnvelopeRun vi s t → EnvelopeRun vi s (VoiceSoundOff t j)
  | noteOff {s t : State} (j : Int) : EnvelopeRun vi s t → EnvelopeRun vi s (VoiceNoteOff t j)
  | again {s t : State} (u : State) (ci si base : Int) : EnvelopeRun vi s t →
      (u.voice_data vi).field_50 = (t.voice_data vi).field_50 →
      ((u.voice_data vi).field_28 = (t.voice_data vi).field_28 ∨ (u.voice_data vi).field_28 = 0) →
      EnvelopeRun vi s (StartPlayingVoice u vi ci si base)
/-! ## `VLSG_SetParameter` -/

/-- Claim C9: for a parameter id that is none of 1, 2, 3, 4, 5, `VLSG_SetParameter` returns 0
and the state after the call is the state before it. -/
theorem C9_unknown_parameter (s : State) (type value : Int)
    (h : type ≠ 1 ∧ type ≠ 2 ∧ type ≠ 3 ∧ type ≠ 4 ∧ type ≠ 5) :
    VLSG_SetParameter s type value = (s, 0) := by
  obtain ⟨h1, h2, h3, h4, h5⟩ := h
  simp [VLSG_SetParameter, PARAMETER_OutputBuffer, PARAMETER_ROMAddress, PARAMETER_Frequency,
    PARAMETER_Polyphony, PARAMETER_Effect, h1, h2, h3, h4, h5]

/-- Witness of C9 at the parameter id 6 with the value 7. -/
theorem C9_unknown_parameter_witness :
    VLSG_SetParameter (zeroState (fun _ => 0)) 6 7 = (zeroState (fun _ => 0), 0) :=
  C9_unknown_parameter (zeroState (fun _ => 0)) 6 7 (by decide)

/-- Counterexample to C10 as stated: the frequency value 3 is none of 0, 1, 2, and
`VLSG_SetParameter` returns 1 (not the failure code 0) and changes the output frequency of
the state from 0 to 22050 and the block size from 0 to 128. -/
theorem C10_counterexample :
    (VLSG_SetParameter (zeroState (fun _ => 0)) PARAMETER_Frequency 3).2 = 1
    ∧ (zeroState (fun _ => 0)).output_frequency = 0
    ∧ (VLSG_SetParameter (zeroState (fun _ => 0)) PARAMETER_Frequency 3).1.output_frequency = 22050
    ∧ (zeroState (fun _ => 0)).output_size_para = 0
    ∧ (VLSG_SetParameter (zeroState (fun _ => 0)) PARAMETER_Frequency 3).1.output_size_para = 128 := by
  simp [VLSG_SetParameter, PARAMETER_OutputBuffer, PARAMETER_ROMAddress, PARAMETER_Frequency,
    InitializeReverbBuffer, zeroState]

/-- Claim C10, amended: for every frequency value other than 0 and 2 (the value 1 and every
unsupported value alike), `VLSG_SetParameter` returns 1 and selects 22050 Hz: the block
size is 128, the buffer sizes are 8192 samples and 32768 bytes, the reverb index is reset,
and no other variable changes. -/
theorem C10_frequency_default (s : State) (value : Int) (h : value ≠ 0 ∧ value ≠ 2) :
    VLSG_SetParameter s PARAMETER_Frequency value
      = ({ s with output_frequency := 22050, output_size_para := 128,
                  output_buffer_size_samples := 8192, output_buffer_size_bytes := 32768,
                  reverb_data_ptr := 1, reverb_data_index := 0 }, 1) := by
  obtain ⟨h0, h2⟩ := h
  simp [VLSG_SetParameter, PARAMETER_OutputBuffer, PARAMETER_ROMAddress, PARAMETER_Frequency,
    InitializeReverbBuffer, h0, h2]

/-- Witness of the amended C10 at the unsupported frequency value 3. -/
theorem C10_frequency_default_witness :
    VLSG_SetParameter (zeroState (fun _ => 0)) PARAMETER_Frequency 3
      = ({ (zeroState (fun _ => 0)) with
            output_frequency := 22050, output_size_para := 128,
            output_buffer_size_samples := 8192, output_buffer_size_bytes := 32768,
            reverb_data_ptr := 1, reverb_data_index := 0 }, 1) :=
  C10_frequency_default (zeroState (fun _ => 0)) 3 (by decide)

/-! ## The MIDI ring buffer -/

theorem u8_range (x : Int) : 0 ≤ u8 x ∧ u8 x < 256 := by
  unfold u8; omega

theorem time_loop_eq (s : State) (h : ringOk s) (hp : 5 ≤ pendingBytes s) :
    GetValueFromMidiDataBuffer_time s 4 0 0 s.midi_data_read_index
      = Except.ok (recordTime s, (s.midi_data_read_index + 4) % 65536) := by
  obtain ⟨h1, h2, h3, h4⟩ := h
  unfold pendingBytes at hp
  have e0 : (s.midi_data_read_index + 0) % 65536 = s.midi_data_read_index := by omega
  have e2 : ((s.midi_data_read_index + 1) % 65536 + 1) % 65536
      = (s.midi_data_read_index + 2) % 65536 := by omega
  have e3 : ((s.midi_data_read_index + 2) % 65536 + 1) % 65536
      = (s.midi_data_read_index + 3) % 65536 := by omega
  have e4 : ((s.midi_data_read_index + 3) % 65536 + 1) % 65536
      = (s.midi_data_read_index + 4) % 65536 := by omega
  have n1 : ¬ s.midi_data_write_index = (s.midi_data_read_index + 1) % 65536 := by omega
  have n2 : ¬ s.midi_data_write_index = (s.midi_data_read_index + 2) % 65536 := by omega
  have n3 : ¬ s.midi_data_write_index = (s.midi_data_read_index + 3) % 65536 := by omega
  have n4 : ¬ s.midi_data_write_index = (s.midi_data_read_index + 4) % 65536 := by omega
  have b0 := u8_range (s.midi_data_buffer s.midi_data_read_index)
  have b1 := u8_range (s.midi_data_buffer ((s.midi_data_read_index + 1) % 65536))
  have b2 := u8_range (s.midi_data_buffer ((s.midi_data_read_index + 2) % 65536))
  have b3 := u8_range (s.midi_data_buffer ((s.midi_data_read_index + 3) % 65536))
  simp only [GetValueFromMidiDataBuffer_time, e2, e3, e4, n1, n2, n3, n4, if_false,
    recordTime, pendingByte, e0]
  congr 2
  have t2 : Int.toNat 2 = 2 := rfl
  have t3 : Int.toNat 3 = 3 := rfl
  norm_num [u32, t2, t3]
  omega

theorem getValue_pending (s : State) (h : ringOk s) (hp : 5 ≤ pendingBytes s) :
    GetValueFromMidiDataBuffer s =
      if staleTime s.system_time_1 (recordTime s) then (flushed s, 255)
      else if u32 (recordTime s + 100) > s.system_time_1 then (s, 255)
      else ({ s with midi_data_read_index := (s.midi_data_read_index + 5) % 65536 },
        recordByte s) := by
  have hne : ¬ s.midi_data_write_index = s.midi_data_read_index := by
    obtain ⟨h1, h2, h3, h4⟩ := h
    unfold pendingBytes at hp
    omega
  have e5 : ((s.midi_data_read_index + 4) % 65536 + 1) % 65536
      = (s.midi_data_read_index + 5) % 65536 := by omega
  unfold GetValueFromMidiDataBuffer
  rw [if_neg hne, time_loop_eq s h hp]
  simp only [staleTime, flushed, recordByte, pendingByte, e5]

theorem getValue_empty (s : State) (h : s.midi_data_write_index = s.midi_data_read_index) :
    GetValueFromMidiDataBuffer s = (s, 255) := by
  unfold GetValueFromMidiDataBuffer
  rw [if_pos h]

/-- Claim C7, amended: for a pending record whose time stamp `t_ev` is not taken as
corrupt, the call returns `0xFF` and leaves the whole state (read index, write index and
buffer) as it is when `(t_ev + 100) mod 2^32 > system_time_1`, and returns the MIDI byte of
the record and moves the read index by 5 (modulo 65536) when
`(t_ev + 100) mod 2^32 <= system_time_1`: the sum is the 32-bit unsigned sum of the source,
which is `t_ev + 100` itself for every time stamp below `2^32 - 100`. -/
theorem C7_latency_gate (s : State) (h : ringOk s) (hp : 5 ≤ pendingBytes s)
    (hn : ¬ staleTime s.system_time_1 (recordTime s)) :
    (u32 (recordTime s + 100) > s.system_time_1 →
        GetValueFromMidiDataBuffer s = (s, 255))
    ∧ (u32 (recordTime s + 100) ≤ s.system_time_1 →
        GetValueFromMidiDataBuffer s
          = ({ s with midi_data_read_index := (s.midi_data_read_index + 5) % 65536 },
            recordByte s))
    ∧ (recordTime s < 4294967196 → u32 (recordTime s + 100) = recordTime s + 100) := by
  rw [getValue_pending s h hp, if_neg hn]
  refine ⟨?_, ?_, ?_⟩
  · intro hgt
    rw [if_pos hgt]
  · intro hle
    rw [if_neg (by omega)]
  · intro hlt
    unfold recordTime pendingByte u8 at *
    unfold u32
    omega

/-- Claim C8, amended: for a pending record with time stamp `t_ev` and `now = system_time_1`,
the call flushes (all voices get a sound-off, both indices become 0 and `0xFF` is returned)
exactly when `(now + 600000) mod 2^32 <= t_ev` or `max (now - 600000) 0 >= t_ev`; for every
other time stamp the voices and the write index are untouched, and the read index is either
untouched or moved by 5. -/
theorem C8_staleness (s : State) (h : ringOk s) (hp : 5 ≤ pendingBytes s) :
    (staleTime s.system_time_1 (recordTime s) →
        GetValueFromMidiDataBuffer s = (flushed s, 255))
    ∧ (¬ staleTime s.system_time_1 (recordTime s) →
        (GetValueFromMidiDataBuffer s).1 = s
        ∨ (GetValueFromMidiDataBuffer s).1
          = { s with midi_data_read_index := (s.midi_data_read_index + 5) % 65536 }) := by
  rw [getValue_pending s h hp]
  constructor
  · intro hs
    rw [if_pos hs]
  · intro hs
    rw [if_neg hs]
    split
    · exact Or.inl rfl
    · exact Or.inr rfl


/-! ### The reader never lets the number of pending bytes grow -/

theorem time_loop_short (s : State) (h : ringOk s) (h1 : 1 ≤ pendingBytes s)
    (h5 : pendingBytes s < 5) :
    GetValueFromMidiDataBuffer_time s 4 0 0 s.midi_data_read_index
      = Except.error s.midi_data_write_index := by
  obtain ⟨a1, a2, a3, a4⟩ := h
  unfold pendingBytes at h1 h5
  have e2 : ((s.midi_data_read_index + 1) % 65536 + 1) % 65536
      = (s.midi_data_read_index + 2) % 65536 := by omega
  have e3 : ((s.midi_data_read_index + 2) % 65536 + 1) % 65536
      = (s.midi_data_read_index + 3) % 65536 := by omega
  have e4 : ((s.midi_data_read_index + 3) % 65536 + 1) % 65536
      = (s.midi_data_read_index + 4) % 65536 := by omega
  have c : s.midi_data_write_index = (s.midi_data_read_index + 1) % 65536
      ∨ s.midi_data_write_index = (s.midi_data_read_index + 2) % 65536
      ∨ s.midi_data_write_index = (s.midi_data_read_index + 3) % 65536
      ∨ s.midi_data_write_index = (s.midi_data_read_index + 4) % 65536 := by omega
  simp only [GetValueFromMidiDataBuffer_time, e2, e3, e4]
  by_cases c1 : s.midi_data_write_index = (s.midi_data_read_index + 1) % 65536
  · rw [if_pos c1, c1]
  · rw [if_neg c1]
    by_cases c2 : s.midi_data_write_index = (s.midi_data_read_index + 2) % 65536
    · rw [if_pos c2, c2]
    · rw [if_neg c2]
      by_cases c3 : s.midi_data_write_index = (s.midi_data_read_index + 3) % 65536
      · rw [if_pos c3, c3]
      · rw [if_neg c3]
        have c4 : s.midi_data_write_index = (s.midi_data_read_index + 4) % 65536 := by omega
        rw [if_pos c4, c4]

theorem ring_zero (x : State) :
    ringOk { x with midi_data_read_index := 0, midi_data_write_index := 0 }
    ∧ pendingBytes { x with midi_data_read_index := 0, midi_data_write_index := 0 } = 0 := by
  unfold ringOk pendingBytes
  simp

theorem pendingBytes_nonneg (s : State) : 0 ≤ pendingBytes s := by
  unfold pendingBytes; omega

theorem ring_read_write (s : State) (h : ringOk s) :
    ringOk { s with midi_data_read_index := s.midi_data_write_index }
    ∧ pendingBytes { s with midi_data_read_index := s.midi_data_write_index } = 0 := by
  obtain ⟨a1, a2, a3, a4⟩ := h
  unfold ringOk pendingBytes
  simp only [sub_self, Int.zero_emod, and_true]
  exact ⟨a3, a4, a3, a4⟩

theorem ring_read_five (s : State) (h : ringOk s) (hp : 5 ≤ pendingBytes s) :
    ringOk { s with midi_data_read_index := (s.midi_data_read_index + 5) % 65536 }
    ∧ pendingBytes { s with midi_data_read_index := (s.midi_data_read_index + 5) % 65536 } + 5
        = pendingBytes s := by
  obtain ⟨a1, a2, a3, a4⟩ := h
  unfold pendingBytes at hp
  unfold ringOk pendingBytes
  refine ⟨⟨?_, ?_, a3, a4⟩, ?_⟩
  · show 0 ≤ (s.midi_data_read_index + 5) % 65536
    omega
  · show (s.midi_data_read_index + 5) % 65536 < 65536
    omega
  · show (s.midi_data_write_index - (s.midi_data_read_index + 5) % 65536) % 65536 + 5
      = (s.midi_data_write_index - s.midi_data_read_index) % 65536
    omega

/-- The reader keeps the indices in the ring and never lets the number of pending bytes
grow; a byte that it delivers takes five pending bytes away. -/
theorem getValue_ring (s : State) (h : ringOk s) :
    ringOk (GetValueFromMidiDataBuffer s).1
    ∧ pendingBytes (GetValueFromMidiDataBuffer s).1 ≤ pendingBytes s
    ∧ ((GetValueFromMidiDataBuffer s).2 ≠ 255 →
        pendingBytes (GetValueFromMidiDataBuffer s).1 + 5 ≤ pendingBytes s) := by
  have hn := pendingBytes_nonneg s
  by_cases h5 : 5 ≤ pendingBytes s
  · rw [getValue_pending s h h5]
    split
    · have z := ring_zero (AllVoicesSoundsOff s)
      refine ⟨z.1, ?_, fun hne => absurd rfl hne⟩
      show pendingBytes (flushed s) ≤ pendingBytes s
      unfold flushed
      rw [z.2]
      exact hn
    · split
      · exact ⟨h, le_refl _, fun hne => absurd rfl hne⟩
      · have r := ring_read_five s h h5
        refine ⟨r.1, ?_, fun _ => ?_⟩
        · show pendingBytes { s with
            midi_data_read_index := (s.midi_data_read_index + 5) % 65536 } ≤ pendingBytes s
          omega
        · show pendingBytes { s with
            midi_data_read_index := (s.midi_data_read_index + 5) % 65536 } + 5 ≤ pendingBytes s
          omega
  · by_cases h0 : s.midi_data_write_index = s.midi_data_read_index
    · rw [getValue_empty s h0]
      exact ⟨h, le_refl _, fun hne => absurd rfl hne⟩
    · have h1 : 1 ≤ pendingBytes s := by
        obtain ⟨a1, a2, a3, a4⟩ := h
        unfold pendingBytes
        omega
      have e : GetValueFromMidiDataBuffer s
          = ({ s with midi_data_read_index := s.midi_data_write_index }, 255) := by
        unfold GetValueFromMidiDataBuffer
        rw [if_neg h0, time_loop_short s h h1 (by omega)]
      rw [e]
      have r := ring_read_write s h
      refine ⟨r.1, ?_, fun hne => absurd rfl hne⟩
      show pendingBytes { s with midi_data_read_index := s.midi_data_write_index }
        ≤ pendingBytes s
      rw [r.2]
      exact hn

theorem C8_state_ring : ringOk C8_state := by
  unfold ringOk
  decide

/-- Witness of the amended C7: in the state `C6_state` (clock 1000, time stamp 500) the
record is due, and the call delivers its byte. -/
theorem C7_latency_gate_witness :
    ringOk C6_state ∧ 5 ≤ pendingBytes C6_state
    ∧ ¬ staleTime C6_state.system_time_1 (recordTime C6_state)
    ∧ ((u32 (recordTime C6_state + 100) > C6_state.system_time_1 →
        GetValueFromMidiDataBuffer C6_state = (C6_state, 255))
      ∧ (u32 (recordTime C6_state + 100) ≤ C6_state.system_time_1 →
        GetValueFromMidiDataBuffer C6_state
          = ({ C6_state with
                midi_data_read_index := (C6_state.midi_data_read_index + 5) % 65536 },
            recordByte C6_state))) :=
  ⟨by unfold ringOk; decide, by decide, by decide,
    (C7_latency_gate C6_state (by unfold ringOk; decide) (by decide) (by decide)).1,
    (C7_latency_gate C6_state (by unfold ringOk; decide) (by decide) (by decide)).2.1⟩

theorem C7_state_ring : ringOk C7_state := by
  unfold ringOk
  decide

/-- Counterexample to C7 as stated: with `now = 2^32 - 600010` and `t_ev = 2^32 - 50` the
record is not stale (it is 599960 ms ahead of the clock), and `t_ev + 100 > system_time_1`,
so the call should return no byte and leave the read index; the 32-bit sum `t_ev + 100` is
50, which is not above the clock, and the call delivers the byte 0x90 and moves the read
index from 0 to 5. -/
theorem C7_counterexample :
    C7_state.system_time_1 = 4294367286 ∧ recordTime C7_state = 4294967246
    ∧ ¬ (recordTime C7_state > C7_state.system_time_1 + 600000
        ∨ C7_state.system_time_1 > recordTime C7_state + 600000)
    ∧ ¬ staleTime C7_state.system_time_1 (recordTime C7_state)
    ∧ recordTime C7_state + 100 > C7_state.system_time_1
    ∧ C7_state.midi_data_read_index = 0
    ∧ (GetValueFromMidiDataBuffer C7_state).2 = 144
    ∧ (GetValueFromMidiDataBuffer C7_state).1.midi_data_read_index = 5 := by
  have hg : GetValueFromMidiDataBuffer C7_state
      = ({ C7_state with
            midi_data_read_index := (C7_state.midi_data_read_index + 5) % 65536 },
          recordByte C7_state) := by
    rw [getValue_pending C7_state C7_state_ring (by decide), if_neg (by decide),
      if_neg (by decide)]
  refine ⟨by decide, by decide, by decide, by decide, by decide, by decide, ?_, ?_⟩
  · rw [hg]
    decide
  · rw [hg]
    decide

/-- Counterexample to C8 as stated: with `now = 0` and `t_ev = 600000` neither
`t_ev > now + 600000` nor `now > t_ev + 600000` holds, and the call flushes all the same:
it returns `0xFF` and the write index goes from 5 to 0. -/
theorem C8_counterexample :
    C8_state.system_time_1 = 0 ∧ recordTime C8_state = 600000
    ∧ ¬ (recordTime C8_state > C8_state.system_time_1 + 600000
        ∨ C8_state.system_time_1 > recordTime C8_state + 600000)
    ∧ GetValueFromMidiDataBuffer C8_state = (flushed C8_state, 255)
    ∧ C8_state.midi_data_write_index = 5
    ∧ (GetValueFromMidiDataBuffer C8_state).1.midi_data_write_index = 0
    ∧ (GetValueFromMidiDataBuffer C8_state).1.midi_data_read_index = 0 := by
  have hg : GetValueFromMidiDataBuffer C8_state = (flushed C8_state, 255) := by
    rw [getValue_pending C8_state C8_state_ring (by decide), if_pos (by decide)]
  refine ⟨by decide, by decide, by decide, hg, by decide, ?_, ?_⟩
  · rw [hg]
    rfl
  · rw [hg]
    rfl

/-- Witness of the amended C8 at the state `C8_state`. -/
theorem C8_staleness_witness :
    ringOk C8_state ∧ 5 ≤ pendingBytes C8_state
    ∧ ((staleTime C8_state.system_time_1 (recordTime C8_state) →
        GetValueFromMidiDataBuffer C8_state = (flushed C8_state, 255))
      ∧ (¬ staleTime C8_state.system_time_1 (recordTime C8_state) →
        (GetValueFromMidiDataBuffer C8_state).1 = C8_state
        ∨ (GetValueFromMidiDataBuffer C8_state).1
          = { C8_state with
              midi_data_read_index := (C8_state.midi_data_read_index + 5) % 65536 })) :=
  ⟨C8_state_ring, by decide, C8_staleness C8_state C8_state_ring (by decide)⟩

/-- Counterexample to C6 as stated: one time stamp (500, due at the clock 1000) followed by
the two MIDI bytes 0x90 and 0x3C. The first call delivers 0x90; the second call takes 0x3C
as the first byte of a time stamp, returns 0xFF and leaves the buffer empty, so that 0x3C is
never delivered. -/
theorem C6_counterexample :
    (dequeue 2 C6_state).2 = [144, 255]
    ∧ (dequeue 2 C6_state).2 ≠ [144, 60]
    ∧ pendingBytes (dequeue 2 C6_state).1 = 0 := by
  decide

/-! ### The producer -/

theorem addMidi_cons (s : State) (b : Int) (rest : List Int) :
    VLSG_AddMidiData s (b :: rest) = VLSG_AddMidiData (AddByteToMidiDataBuffer s b) rest := rfl

theorem addMidi_append (s : State) (a b : List Int) :
    VLSG_AddMidiData s (a ++ b) = VLSG_AddMidiData (VLSG_AddMidiData s a) b := by
  unfold VLSG_AddMidiData
  rw [List.foldl_append]

theorem addMidi_read (bytes : List Int) : ∀ s : State,
    (VLSG_AddMidiData s bytes).midi_data_read_index = s.midi_data_read_index
    ∧ (VLSG_AddMidiData s bytes).system_time_1 = s.system_time_1 := by
  induction bytes with
  | nil => intro s; exact ⟨rfl, rfl⟩
  | cons b rest ih =>
    intro s
    rw [addMidi_cons]
    exact ih (AddByteToMidiDataBuffer s b)

theorem addMidi_write (bytes : List Int) : ∀ s : State,
    0 ≤ s.midi_data_write_index → s.midi_data_write_index < 65536 →
    (VLSG_AddMidiData s bytes).midi_data_write_index
      = (s.midi_data_write_index + bytes.length) % 65536 := by
  induction bytes with
  | nil =>
    intro s h1 h2
    show s.midi_data_write_index = (s.midi_data_write_index + ((0 : Nat) : Int)) % 65536
    omega
  | cons b rest ih =>
    intro s h1 h2
    rw [addMidi_cons, ih (AddByteToMidiDataBuffer s b) (by simp only [AddByteToMidiDataBuffer]; omega)
      (by simp only [AddByteToMidiDataBuffer]; omega)]
    simp only [AddByteToMidiDataBuffer, List.length_cons, Nat.cast_add, Nat.cast_one]
    omega

theorem addMidi_frame (bytes : List Int) : ∀ (s : State) (x : Int),
    0 ≤ s.midi_data_write_index → s.midi_data_write_index < 65536 →
    (∀ j : Int, 0 ≤ j → j < bytes.length → (s.midi_data_write_index + j) % 65536 ≠ x) →
    (VLSG_AddMidiData s bytes).midi_data_buffer x = s.midi_data_buffer x := by
  induction bytes with
  | nil => intro s x _ _ _; rfl
  | cons b rest ih =>
    intro s x h1 h2 hx
    rw [addMidi_cons, ih (AddByteToMidiDataBuffer s b) x
      (by simp only [AddByteToMidiDataBuffer]; omega)
      (by simp only [AddByteToMidiDataBuffer]; omega)]
    · have h0 := hx 0 (le_refl 0) (by simp only [List.length_cons, Nat.cast_add, Nat.cast_one]; omega)
      simp only [AddByteToMidiDataBuffer]
      rw [Function.update_noteq]
      intro hxe
      apply h0
      omega
    · intro j hj0 hj1
      have hj := hx (j + 1) (by omega)
        (by simp only [List.length_cons, Nat.cast_add, Nat.cast_one]; omega)
      simp only [AddByteToMidiDataBuffer]
      intro hxe
      apply hj
      omega

theorem storedBytes_mod (buf : Int → Int) (bytes : List Int) : ∀ a a' : Int,
    a % 65536 = a' % 65536 → StoredBytes buf a bytes → StoredBytes buf a' bytes := by
  induction bytes with
  | nil => intro a a' _ _; trivial
  | cons b rest ih =>
    intro a a' h hs
    obtain ⟨h1, h2⟩ := hs
    refine ⟨by rw [← h]; exact h1, ih (a + 1) (a' + 1) (by omega) h2⟩

theorem addMidi_stored (bytes : List Int) : ∀ s : State,
    0 ≤ s.midi_data_write_index → s.midi_data_write_index < 65536 →
    (bytes.length : Int) ≤ 65536 → (∀ b ∈ bytes, 0 ≤ b ∧ b < 256) →
    StoredBytes (VLSG_AddMidiData s bytes).midi_data_buffer s.midi_data_write_index bytes := by
  induction bytes with
  | nil => intro s _ _ _ _; trivial
  | cons b rest ih =>
    intro s h1 h2 hlen hb
    have hlen' : (rest.length : Int) + 1 ≤ 65536 := by
      simpa only [List.length_cons, Nat.cast_add, Nat.cast_one] using hlen
    have hw1 : 0 ≤ (AddByteToMidiDataBuffer s b).midi_data_write_index := by
      simp only [AddByteToMidiDataBuffer]; omega
    have hw2 : (AddByteToMidiDataBuffer s b).midi_data_write_index < 65536 := by
      simp only [AddByteToMidiDataBuffer]; omega
    rw [addMidi_cons]
    refine ⟨?_, ?_⟩
    · rw [addMidi_frame rest (AddByteToMidiDataBuffer s b) (s.midi_data_write_index % 65536)
        hw1 hw2]
      · have hbb := hb b (List.mem_cons_self b rest)
        have e : s.midi_data_write_index % 65536 = s.midi_data_write_index := by omega
        simp only [AddByteToMidiDataBuffer, e, Function.update_same, u8]
        omega
      · intro j hj0 hj1
        simp only [AddByteToMidiDataBuffer]
        omega
    · apply storedBytes_mod _ rest (AddByteToMidiDataBuffer s b).midi_data_write_index
      · simp only [AddByteToMidiDataBuffer]; omega
      · exact ih (AddByteToMidiDataBuffer s b) hw1 hw2 (by omega)
          (fun c hc => hb c (List.mem_cons_of_mem b hc))

theorem timeBytes_range (t : Int) : ∀ b ∈ timeBytes t, 0 ≤ b ∧ b < 256 := by
  intro b hb
  simp only [timeBytes, List.mem_cons, List.mem_singleton, List.not_mem_nil, or_false] at hb
  omega

theorem recordBytes_length (recs : List (Int × Int)) :
    ((recordBytes recs).length : Int) = 5 * recs.length := by
  induction recs with
  | nil => rfl
  | cons r rest ih =>
    simp only [recordBytes, timeBytes, List.length_append, List.length_cons, List.length_nil,
      Nat.cast_add, Nat.cast_one, List.cons_append, List.nil_append] at ih ⊢
    omega

theorem recordBytes_range (now : Int) (recs : List (Int × Int))
    (h : ∀ r ∈ recs, dueRecord now r) : ∀ b ∈ recordBytes recs, 0 ≤ b ∧ b < 256 := by
  induction recs with
  | nil => intro b hb; cases hb
  | cons r rest ih =>
    intro b hb
    simp only [recordBytes, List.mem_append, List.mem_cons] at hb
    rcases hb with hb | hb | hb
    · exact timeBytes_range r.1 b hb
    · have hr := h r (List.mem_cons_self r rest)
      unfold dueRecord at hr
      omega
    · exact ih (fun q hq => h q (List.mem_cons_of_mem r hq)) b hb

theorem foldl_addRecord (recs : List (Int × Int)) : ∀ s : State,
    recs.foldl addRecord s = VLSG_AddMidiData s (recordBytes recs) := by
  induction recs with
  | nil => intro s; rfl
  | cons r rest ih =>
    intro s
    rw [List.foldl_cons, ih]
    simp only [addRecord, recordBytes]
    rw [← addMidi_append, ← addMidi_append]
    simp only [List.append_assoc, List.singleton_append]

/-! ### The consumer -/

theorem ring_dist (a k : Int) : ((a + k) % 65536 - a) % 65536 = k % 65536 := by omega

theorem ring_add (a b k : Int) : ((a + b) % 65536 + k) % 65536 = (a + (k + b)) % 65536 := by
  omega

theorem stored_record (s : State) (r : Int × Int) (tail : List Int) (now : Int)
    (h : ringOk s) (hr : dueRecord now r)
    (hs : StoredBytes s.midi_data_buffer s.midi_data_read_index (timeBytes r.1 ++ r.2 :: tail)) :
    recordTime s = r.1 ∧ recordByte s = r.2
    ∧ StoredBytes s.midi_data_buffer (s.midi_data_read_index + 5) tail := by
  obtain ⟨h1, h2, h3, h4⟩ := h
  obtain ⟨t0, t1, b0, b1, _, _⟩ := hr
  simp only [timeBytes, List.cons_append, List.nil_append, StoredBytes] at hs
  obtain ⟨s0, s1, s2, s3, s4, s5⟩ := hs
  have a1 : (s.midi_data_read_index + 1 + 1) = s.midi_data_read_index + 2 := by ring
  have a2 : (s.midi_data_read_index + 2 + 1) = s.midi_data_read_index + 3 := by ring
  have a3 : (s.midi_data_read_index + 3 + 1) = s.midi_data_read_index + 4 := by ring
  have a4 : (s.midi_data_read_index + 4 + 1) = s.midi_data_read_index + 5 := by ring
  rw [a1] at s2
  rw [a1, a2] at s3
  rw [a1, a2, a3] at s4
  rw [a1, a2, a3, a4] at s5
  have e0 : (s.midi_data_read_index + 0) % 65536 = s.midi_data_read_index % 65536 := by
    rw [add_zero]
  refine ⟨?_, ?_, s5⟩
  · simp only [recordTime, pendingByte, e0, s0, s1, s2, s3]
    omega
  · simp only [recordByte, pendingByte, s4]

theorem dequeue_records (recs : List (Int × Int)) : ∀ s : State,
    ringOk s → 5 * (recs.length : Int) < 65536 →
    s.midi_data_write_index = (s.midi_data_read_index + 5 * recs.length) % 65536 →
    StoredBytes s.midi_data_buffer s.midi_data_read_index (recordBytes recs) →
    (∀ r ∈ recs, dueRecord s.system_time_1 r) →
    dequeue recs.length s
      = ({ s with midi_data_read_index := s.midi_data_write_index }, recs.map Prod.snd) := by
  induction recs with
  | nil =>
    intro s h _ hw _ _
    obtain ⟨h1, h2, h3, h4⟩ := h
    have e : s.midi_data_write_index = s.midi_data_read_index := by
      simp only [List.length_nil, Nat.cast_zero] at hw
      omega
    have hs : ({ s with midi_data_read_index := s.midi_data_write_index } : State) = s := by
      cases s
      simp only at e
      subst e
      rfl
    simp only [dequeue, List.length_nil, List.map_nil, hs]
  | cons r rest ih =>
    intro s h hlen hw hs hdue
    have hlen' : 5 * ((rest.length : Int) + 1) < 65536 := by
      simpa only [List.length_cons, Nat.cast_add, Nat.cast_one] using hlen
    have hw' : s.midi_data_write_index
        = (s.midi_data_read_index + 5 * ((rest.length : Int) + 1)) % 65536 := by
      simpa only [List.length_cons, Nat.cast_add, Nat.cast_one] using hw
    have hr := hdue r (List.mem_cons_self r rest)
    obtain ⟨ht, hb, hst⟩ := stored_record s r (recordBytes rest) s.system_time_1 h hr hs
    obtain ⟨h1, h2, h3, h4⟩ := h
    have hp : 5 ≤ pendingBytes s := by
      unfold pendingBytes
      rw [hw', ring_dist, Int.emod_eq_of_lt (by omega) hlen']
      omega
    have hg := getValue_pending s ⟨h1, h2, h3, h4⟩ hp
    rw [ht, hb] at hg
    obtain ⟨_, _, _, _, hns, hd⟩ := hr
    rw [if_neg hns, if_neg (by omega)] at hg
    have hih := ih { s with midi_data_read_index := (s.midi_data_read_index + 5) % 65536 }
      ⟨by show 0 ≤ (s.midi_data_read_index + 5) % 65536; omega,
        by show (s.midi_data_read_index + 5) % 65536 < 65536; omega, h3, h4⟩
      (by omega)
      (by show s.midi_data_write_index
            = ((s.midi_data_read_index + 5) % 65536 + 5 * (rest.length : Int)) % 65536
          rw [hw', ring_add]
          congr 2)
      (storedBytes_mod s.midi_data_buffer (recordBytes rest) (s.midi_data_read_index + 5)
        ((s.midi_data_read_index + 5) % 65536) (Int.emod_emod_of_dvd _ (dvd_refl _)).symm hst)
      (fun q hq => hdue q (List.mem_cons_of_mem r hq))
    simp only [List.length_cons, dequeue, hg, hih, List.map_cons]

/-- Claim C5: from an empty ring buffer, `n` records (a 32-bit time stamp, due and not taken
as corrupt, and one MIDI byte each; fewer than 65536 bytes in all) are written with
`VLSG_AddMidiData`; then `n` calls of `GetValueFromMidiDataBuffer` return the `n` MIDI bytes
in the order written, the buffer is empty again, and one more call returns `0xFF`. -/
theorem C5_fifo_order (s0 : State) (recs : List (Int × Int))
    (hring : ringOk s0) (hempty : s0.midi_data_read_index = s0.midi_data_write_index)
    (hlen : 5 * (recs.length : Int) < 65536)
    (hdue : ∀ r ∈ recs, dueRecord s0.system_time_1 r) :
    (dequeue recs.length (recs.foldl addRecord s0)).2 = recs.map Prod.snd
    ∧ pendingBytes (dequeue recs.length (recs.foldl addRecord s0)).1 = 0
    ∧ (GetValueFromMidiDataBuffer (dequeue recs.length (recs.foldl addRecord s0)).1).2
        = 255 := by
  obtain ⟨h1, h2, h3, h4⟩ := hring
  have hlenb := recordBytes_length recs
  have hrd := addMidi_read (recordBytes recs) s0
  have hwr := addMidi_write (recordBytes recs) s0 h3 h4
  have hst := addMidi_stored (recordBytes recs) s0 h3 h4 (by omega)
    (recordBytes_range s0.system_time_1 recs hdue)
  rw [foldl_addRecord]
  have hd := dequeue_records recs (VLSG_AddMidiData s0 (recordBytes recs))
    ⟨by rw [hrd.1]; exact h1, by rw [hrd.1]; exact h2, by rw [hwr]; omega, by rw [hwr]; omega⟩
    hlen
    (by rw [hwr, hrd.1, hlenb, hempty])
    (by rw [hrd.1, hempty]; exact hst)
    (by rw [hrd.2]; exact hdue)
  rw [hd]
  refine ⟨rfl, ?_, ?_⟩
  · simp only [pendingBytes, sub_self, Int.zero_emod]
  · rw [getValue_empty _ rfl]

/-- Witness of C5: two records (time stamps 500 and 600, bytes 0x90 and 0x3C) written at
the clock 1000 into the empty buffer. -/
theorem C5_fifo_order_witness :
    ringOk { (zeroState (fun _ => 0)) with system_time_1 := 1000 }
    ∧ (dequeue [((500 : Int), (144 : Int)), (600, 60)].length
        ([((500 : Int), (144 : Int)), (600, 60)].foldl addRecord
          { (zeroState (fun _ => 0)) with system_time_1 := 1000 })).2
        = [((500 : Int), (144 : Int)), (600, 60)].map Prod.snd
    ∧ pendingBytes (dequeue [((500 : Int), (144 : Int)), (600, 60)].length
        ([((500 : Int), (144 : Int)), (600, 60)].foldl addRecord
          { (zeroState (fun _ => 0)) with system_time_1 := 1000 })).1 = 0
    ∧ (GetValueFromMidiDataBuffer (dequeue [((500 : Int), (144 : Int)), (600, 60)].length
        ([((500 : Int), (144 : Int)), (600, 60)].foldl addRecord
          { (zeroState (fun _ => 0)) with system_time_1 := 1000 })).1).2 = 255 :=
  ⟨by unfold ringOk; decide,
    C5_fifo_order { (zeroState (fun _ => 0)) with system_time_1 := 1000 }
      [(500, 144), (600, 60)] (by unfold ringOk; decide) rfl (by decide)
      (by
        intro r hr
        simp only [List.mem_cons, List.mem_singleton, List.not_mem_nil, or_false] at hr
        rcases hr with rfl | rfl <;> (unfold dueRecord; decide))⟩

/-- Claim C6, amended: a submission of one time stamp (32-bit, due and not taken as corrupt)
followed by `b :: rest` into the empty buffer. The first call delivers the first MIDI byte
`b` and moves the read index behind it; when `b` is the only MIDI byte, the buffer is then
empty and the next call returns `0xFF`. (The consumer reads four bytes of time stamp before
every MIDI byte: the bytes of `rest` are not delivered as MIDI data of this time stamp.) -/
theorem C6_single_byte (s0 : State) (t b : Int) (rest : List Int)
    (hring : ringOk s0) (hempty : s0.midi_data_read_index = s0.midi_data_write_index)
    (hlen : 5 + (rest.length : Int) < 65536)
    (hrest : ∀ c ∈ rest, 0 ≤ c ∧ c < 256)
    (hdue : dueRecord s0.system_time_1 (t, b)) :
    GetValueFromMidiDataBuffer (VLSG_AddMidiData s0 (timeBytes t ++ b :: rest))
      = ({ (VLSG_AddMidiData s0 (timeBytes t ++ b :: rest)) with
            midi_data_read_index := (s0.midi_data_read_index + 5) % 65536 }, b)
    ∧ (rest = [] →
        (dequeue 2 (VLSG_AddMidiData s0 (timeBytes t ++ b :: rest))).2 = [b, 255]
        ∧ pendingBytes (dequeue 2 (VLSG_AddMidiData s0 (timeBytes t ++ b :: rest))).1 = 0) := by
  obtain ⟨h1, h2, h3, h4⟩ := hring
  have hl : ((timeBytes t ++ b :: rest).length : Int) = 5 + rest.length := by
    simp only [timeBytes, List.cons_append, List.nil_append, List.length_cons, Nat.cast_add,
      Nat.cast_one]
    omega
  have hrd := addMidi_read (timeBytes t ++ b :: rest) s0
  have hwr := addMidi_write (timeBytes t ++ b :: rest) s0 h3 h4
  have hbr : ∀ c ∈ timeBytes t ++ b :: rest, 0 ≤ c ∧ c < 256 := by
    intro c hc
    simp only [List.mem_append, List.mem_cons] at hc
    rcases hc with hc | hc | hc
    · exact timeBytes_range t c hc
    · unfold dueRecord at hdue
      simp only at hdue
      omega
    · exact hrest c hc
  have hst := addMidi_stored (timeBytes t ++ b :: rest) s0 h3 h4 (by omega) hbr
  have hok : ringOk (VLSG_AddMidiData s0 (timeBytes t ++ b :: rest)) :=
    ⟨by rw [hrd.1]; exact h1, by rw [hrd.1]; exact h2, by rw [hwr]; omega, by rw [hwr]; omega⟩
  have hdue' : dueRecord (VLSG_AddMidiData s0 (timeBytes t ++ b :: rest)).system_time_1 (t, b) := by
    rw [hrd.2]; exact hdue
  obtain ⟨ht, hb, _⟩ := stored_record (VLSG_AddMidiData s0 (timeBytes t ++ b :: rest)) (t, b) rest
    _ hok hdue' (by rw [hrd.1, hempty]; exact hst)
  have hp : 5 ≤ pendingBytes (VLSG_AddMidiData s0 (timeBytes t ++ b :: rest)) := by
    unfold pendingBytes
    rw [hwr, hrd.1, hl]
    omega
  have hg := getValue_pending _ hok hp
  rw [ht, hb] at hg
  obtain ⟨_, _, _, _, hns, hd⟩ := hdue'
  rw [if_neg hns, if_neg (by omega), hrd.1] at hg
  refine ⟨hg, ?_⟩
  intro hnil
  subst hnil
  have hw5 : (VLSG_AddMidiData s0 (timeBytes t ++ [b])).midi_data_write_index
      = (s0.midi_data_read_index + 5) % 65536 := by
    rw [hwr, hl, hempty]
    simp only [List.length_nil, Nat.cast_zero, add_zero]
  simp only [dequeue, hg]
  rw [getValue_empty _ (by show _ = (s0.midi_data_read_index + 5) % 65536; exact hw5)]
  refine ⟨rfl, ?_⟩
  show ((VLSG_AddMidiData s0 (timeBytes t ++ [b])).midi_data_write_index
    - (s0.midi_data_read_index + 5) % 65536) % 65536 = 0
  rw [hw5]
  simp only [sub_self, Int.zero_emod]

/-- Witness of the amended C6: the time stamp 500 and the single byte 0x90 at the clock
1000. -/
theorem C6_single_byte_witness :
    ringOk { (zeroState (fun _ => 0)) with system_time_1 := 1000 }
    ∧ dueRecord ({ (zeroState (fun _ => 0)) with system_time_1 := 1000 } : State).system_time_1
        (500, 144)
    ∧ (GetValueFromMidiDataBuffer (VLSG_AddMidiData
          { (zeroState (fun _ => 0)) with system_time_1 := 1000 } (timeBytes 500 ++ 144 :: [])))
        = ({ (VLSG_AddMidiData { (zeroState (fun _ => 0)) with system_time_1 := 1000 }
              (timeBytes 500 ++ 144 :: [])) with
            midi_data_read_index :=
              (({ (zeroState (fun _ => 0)) with system_time_1 := 1000 } : State).midi_data_read_index
                + 5) % 65536 }, 144)
      ∧ (([] : List Int) = [] →
        (dequeue 2 (VLSG_AddMidiData { (zeroState (fun _ => 0)) with system_time_1 := 1000 }
          (timeBytes 500 ++ 144 :: []))).2 = [144, 255]
        ∧ pendingBytes (dequeue 2 (VLSG_AddMidiData
            { (zeroState (fun _ => 0)) with system_time_1 := 1000 }
            (timeBytes 500 ++ 144 :: []))).1 = 0) :=
  ⟨by unfold ringOk; decide, by unfold dueRecord; decide,
    C6_single_byte { (zeroState (fun _ => 0)) with system_time_1 := 1000 } 500 144 []
      (by unfold ringOk; decide) rfl (by decide) (by intro c hc; cases hc)
      (by unfold dueRecord; decide)⟩

/-! ## Loops -/

theorem forUp_inv_bounded {σ : Type} (f : Int → σ → σ) (Q : Int → σ → Prop) (lo0 hi : Int)
    (hstep : ∀ i a, lo0 ≤ i → i < hi → Q i a → Q (i + 1) (f i a)) :
    ∀ (n : Nat) (lo : Int) (a : σ), lo0 ≤ lo → lo + n ≤ hi → Q lo a →
      Q (lo + n) (forUp f n lo a) := by
  intro n
  induction n with
  | zero =>
    intro lo a _ _ h
    simpa [forUp] using h
  | succ n ih =>
    intro lo a h0 h1 h
    have e : lo + ((n + 1 : Nat) : Int) = lo + 1 + (n : Int) := by push_cast; ring
    rw [e] at h1 ⊢
    exact ih (lo + 1) (f lo a) (by omega) h1 (hstep lo a h0 (by omega) h)

theorem forRange_inv {σ : Type} (f : Int → σ → σ) (Q : Int → σ → Prop) (lo hi : Int)
    (hle : lo ≤ hi) (hstep : ∀ i a, lo ≤ i → i < hi → Q i a → Q (i + 1) (f i a))
    (a : σ) (h : Q lo a) : Q hi (forRange lo hi f a) := by
  unfold forRange
  have e : lo + (((hi - lo).toNat : Nat) : Int) = hi := by
    rw [Int.toNat_of_nonneg (by omega)]
    ring
  have := forUp_inv_bounded f Q lo hi hstep (hi - lo).toNat lo a (le_refl lo) (by omega) h
  rw [e] at this
  exact this

theorem forRange_empty {σ : Type} (f : Int → σ → σ) (lo hi : Int) (hle : hi ≤ lo) (a : σ) :
    forRange lo hi f a = a := by
  unfold forRange
  have e : (hi - lo).toNat = 0 := by omega
  rw [e]
  rfl

/-- A property that every pass of a loop keeps holds after the loop. -/
theorem forRange_keeps {σ : Type} (f : Int → σ → σ) (P : σ → Prop) (lo hi : Int)
    (hstep : ∀ i a, lo ≤ i → i < hi → P a → P (f i a)) (a : σ) (h : P a) :
    P (forRange lo hi f a) := by
  by_cases hle : lo ≤ hi
  · exact forRange_inv f (fun _ a => P a) lo hi hle hstep a h
  · rw [forRange_empty f lo hi (by omega)]
    exact h

/-! ## The output samples -/

theorem clip_range (x : Int) :
    -32767 ≤ GenerateOutputData_clip x ∧ GenerateOutputData_clip x ≤ 32767 := by
  unfold GenerateOutputData_clip
  split
  · omega
  · split <;> omega

theorem load_store_same (mem : Int → Int) (addr v : Int) (h1 : -32768 ≤ v) (h2 : v ≤ 32767) :
    loadI16 (storeI16 mem addr v) addr = v := by
  unfold loadI16 storeI16
  rw [Function.update_same, Function.update_noteq (by omega), Function.update_same]
  unfold i16 u16
  omega

theorem load_store_other (mem : Int → Int) (addr addr2 v : Int)
    (h : addr2 + 2 ≤ addr ∨ addr + 2 ≤ addr2) :
    loadI16 (storeI16 mem addr v) addr2 = loadI16 mem addr2 := by
  unfold loadI16 storeI16
  rw [Function.update_noteq (by omega), Function.update_noteq (by omega),
    Function.update_noteq (by omega), Function.update_noteq (by omega)]

theorem store_sampleOk (mem : Int → Int) (p a c v : Int) (h1 : -32767 ≤ v) (h2 : v ≤ 32767)
    (h : sampleOk mem (p + 2 * c) ∨ c = a) :
    sampleOk (storeI16 mem (p + 2 * a) v) (p + 2 * c) := by
  unfold sampleOk
  by_cases hc : c = a
  · subst hc
    rw [load_store_same mem _ v (by omega) h2]
    exact ⟨h1, h2⟩
  · rcases h with h | h
    · rw [load_store_other mem _ _ v (by omega)]
      exact h
    · exact absurd h hc

/-- Claim C1: every left and every right sample that `GenerateOutputData` writes, for
whatever state (voices, ROM, reverb buffer and reverb setting), memory and range of
samples, lies in `[-32767, 32767]`. -/
theorem C1_output_range (s : State) (mem : Int → Int)
    (output_ptr offset1 offset2 index2 : Int) (h1 : offset1 ≤ index2) (h2 : index2 < offset2) :
    sampleOk (GenerateOutputData s mem output_ptr offset1 offset2).2
        (output_ptr + 2 * u32 (2 * index2))
    ∧ sampleOk (GenerateOutputData s mem output_ptr offset1 offset2).2
        (output_ptr + 2 * u32 (2 * index2 + 1)) := by
  unfold GenerateOutputData
  have key := forRange_inv
    (fun index2 (a : State × (Int → Int)) =>
      ((GenerateOutputData_sample a.1 (maxActiveIndex (DefragmentVoices s))).1,
        storeI16 (storeI16 a.2 (output_ptr + 2 * u32 (2 * index2))
            (GenerateOutputData_sample a.1 (maxActiveIndex (DefragmentVoices s))).2.1)
          (output_ptr + 2 * u32 (2 * index2 + 1))
          (GenerateOutputData_sample a.1 (maxActiveIndex (DefragmentVoices s))).2.2))
    (fun j a => ∀ i, offset1 ≤ i → i < j →
      sampleOk a.2 (output_ptr + 2 * u32 (2 * i))
      ∧ sampleOk a.2 (output_ptr + 2 * u32 (2 * i + 1)))
    offset1 offset2 (by omega)
    (by
      intro j a _ _ hq i hi1 hi2
      have hL := clip_range
        (if (forRange 0 (maxActiveIndex (DefragmentVoices s) + 1) GenerateOutputData_voice
              (a.1, 0, 0)).1.is_reverb_enabled = 1 then
            GenerateOutputData_reverb (forRange 0 (maxActiveIndex (DefragmentVoices s) + 1)
              GenerateOutputData_voice (a.1, 0, 0))
          else forRange 0 (maxActiveIndex (DefragmentVoices s) + 1) GenerateOutputData_voice
              (a.1, 0, 0)).2.1
      have hR := clip_range
        (if (forRange 0 (maxActiveIndex (DefragmentVoices s) + 1) GenerateOutputData_voice
              (a.1, 0, 0)).1.is_reverb_enabled = 1 then
            GenerateOutputData_reverb (forRange 0 (maxActiveIndex (DefragmentVoices s) + 1)
              GenerateOutputData_voice (a.1, 0, 0))
          else forRange 0 (maxActiveIndex (DefragmentVoices s) + 1) GenerateOutputData_voice
              (a.1, 0, 0)).2.2
      have hodd : u32 (2 * j + 1) = u32 (2 * j) + 1 := by unfold u32; omega
      simp only [GenerateOutputData_sample]
      rw [hodd]
      by_cases hij : i = j
      · subst hij
        constructor
        · apply store_sampleOk _ _ _ _ _ hR.1 hR.2
          left
          exact store_sampleOk _ _ _ _ _ hL.1 hL.2 (Or.inr rfl)
        · rw [hodd]
          exact store_sampleOk _ _ _ _ _ hR.1 hR.2 (Or.inr rfl)
      · have hq' := hq i hi1 (by omega)
        constructor
        · apply store_sampleOk _ _ _ _ _ hR.1 hR.2
          left
          exact store_sampleOk _ _ _ _ _ hL.1 hL.2 (Or.inl hq'.1)
        · apply store_sampleOk _ _ _ _ _ hR.1 hR.2
          left
          exact store_sampleOk _ _ _ _ _ hL.1 hL.2 (Or.inl hq'.2))
    (DefragmentVoices s, mem) (by intro i hi1 hi2; omega)
  exact key index2 h1 h2

/-- Witness of C1: four samples written from the state of the loaded module. -/
theorem C1_output_range_witness :
    (0 : Int) ≤ 1 ∧ (1 : Int) < 4
    ∧ sampleOk (GenerateOutputData (zeroState (fun _ => 0)) (fun _ => 0) 0 0 4).2
        (0 + 2 * u32 (2 * 1))
    ∧ sampleOk (GenerateOutputData (zeroState (fun _ => 0)) (fun _ => 0) 0 0 4).2
        (0 + 2 * u32 (2 * 1 + 1)) :=
  ⟨by decide, by decide,
    C1_output_range (zeroState (fun _ => 0)) (fun _ => 0) 0 0 4 1 (by decide) (by decide)⟩

/-! ## What the handlers leave as it is -/

theorem frame_refl (s : State) : Frame s s :=
  ⟨rfl, rfl, rfl, fun _ _ => Or.inl rfl, fun h => h, fun h => h, fun h => ⟨h, le_refl _⟩,
    ⟨rfl, rfl, rfl, rfl, rfl⟩, ⟨rfl, rfl, rfl, rfl, rfl, rfl⟩⟩

theorem frame_trans {s t u : State} (h1 : Frame s t) (h2 : Frame t u) : Frame s u := by
  refine ⟨h2.mp.trans h1.mp, h2.nv.trans h1.nv, h2.osp.trans h1.osp, ?_,
    fun h => h2.rv (h1.rv h), fun h => h2.rw (h1.rw h),
    fun h => ⟨(h2.ring (h1.ring h).1).1, le_trans (h2.ring (h1.ring h).1).2 (h1.ring h).2⟩,
    ⟨h2.ev.1.trans h1.ev.1, h2.ev.2.1.trans h1.ev.2.1, h2.ev.2.2.1.trans h1.ev.2.2.1,
      h2.ev.2.2.2.1.trans h1.ev.2.2.2.1, h2.ev.2.2.2.2.trans h1.ev.2.2.2.2⟩,
    ⟨h2.env.1.trans h1.env.1, h2.env.2.1.trans h1.env.2.1, h2.env.2.2.1.trans h1.env.2.2.1,
      h2.env.2.2.2.1.trans h1.env.2.2.2.1, h2.env.2.2.2.2.1.trans h1.env.2.2.2.2.1,
      h2.env.2.2.2.2.2.trans h1.env.2.2.2.2.2⟩⟩
  intro i hi
  have a := h1.notes i hi
  have b := h2.notes i (by rw [h1.mp]; exact hi)
  rcases b with b | b
  · rw [b]; exact a
  · exact Or.inr b

theorem frame_ite {s a b : State} (c : Prop) [Decidable c] (ha : Frame s a) (hb : Frame s b) :
    Frame s (if c then a else b) := by
  split
  · exact ha
  · exact hb

/-- A change of one voice that keeps its note, or frees it. -/
theorem frame_updVoice {s t : State} (vi : Int) (g : Voice_Data → Voice_Data)
    (h : Frame s t)
    (hg : ∀ w : Voice_Data, (g w).note_number = w.note_number ∨ (g w).note_number = 255) :
    Frame s (t.updVoice vi g) := by
  refine ⟨h.mp, h.nv, h.osp, ?_, h.rv, h.rw, h.ring, h.ev, h.env⟩
  intro i hi
  have a := h.notes i hi
  by_cases hiv : i = vi
  · subst hiv
    have b := hg (t.voice_data i)
    simp only [State.updVoice, Function.update_same]
    rcases b with b | b
    · rw [b]; exact a
    · exact Or.inr b
  · simp only [State.updVoice, Function.update_noteq hiv]
    exact a

/-- A change of one voice below slot `max 1 maximum_polyphony`. -/
theorem frame_updVoice_low {s t : State} (vi : Int) (g : Voice_Data → Voice_Data)
    (h : Frame s t) (hvi : vi < max 1 s.maximum_polyphony) :
    Frame s (t.updVoice vi g) := by
  refine ⟨h.mp, h.nv, h.osp, ?_, h.rv, h.rw, h.ring, h.ev, h.env⟩
  intro i hi
  have hiv : i ≠ vi := by omega
  simp only [State.updVoice, Function.update_noteq hiv]
  exact h.notes i hi

theorem frame_updChannel {s t : State} (ci : Int) (g : Channel_Data → Channel_Data)
    (h : Frame s t) : Frame s (t.updChannel ci g) :=
  ⟨h.mp, h.nv, h.osp, h.notes, h.rv, h.rw, h.ring, h.ev, h.env⟩

theorem frame_setStru6 {s t : State} (i k v : Int) (h : Frame s t) :
    Frame s (t.setStru6 i k v) :=
  ⟨h.mp, h.nv, h.osp, h.notes, h.rv, h.rw, h.ring, h.ev, h.env⟩

theorem frame_forRange {s : State} (lo hi : Int) (f : Int → State → State) (t : State)
    (hf : ∀ i u, Frame s u → Frame s (f i u)) (h : Frame s t) :
    Frame s (forRange lo hi f t) :=
  forRange_keeps f (fun u => Frame s u) lo hi (fun i u _ _ hu => hf i u hu) t h

theorem frame_A0 {s t : State} (a b : Int) (h : Frame s t) :
    Frame s (sub_C00373A0 t a b).1 :=
  ⟨h.mp, h.nv, h.osp, h.notes, h.rv, h.rw, h.ring, h.ev, h.env⟩

theorem frame_400 {s t : State} (h : Frame s t) : Frame s (sub_C0037400 t).1 :=
  ⟨h.mp, h.nv, h.osp, h.notes, h.rv, h.rw, h.ring, h.ev, h.env⟩

theorem frame_420 {s t : State} (a : Int) (h : Frame s t) :
    Frame s (sub_C0037420 t a).1 :=
  ⟨h.mp, h.nv, h.osp, h.notes, h.rv, h.rw, h.ring, h.ev, h.env⟩

theorem frame_sub_C0034890 {s t : State} (vi a : Int) (h : Frame s t) :
    Frame s (sub_C0034890 t vi a) := by
  unfold sub_C0034890
  exact frame_updVoice _ _ h (fun _ => Or.inl rfl)

theorem frame_sub_C0034970 {s t : State} (vi a : Int) (h : Frame s t) :
    Frame s (sub_C0034970 t vi a).1 := by
  unfold sub_C0034970
  exact frame_420 _ (frame_A0 _ _ h)

theorem frame_sub_C0036A20 {s t : State} (vi : Int) (h : Frame s t) :
    Frame s (sub_C0036A20 t vi) := by
  unfold sub_C0036A20
  exact frame_updVoice _ _ h (fun _ => Or.inl rfl)

theorem frame_sub_C0036A80 {s t : State} (vi : Int) (h : Frame s t) :
    Frame s (sub_C0036A80 t vi) := by
  unfold sub_C0036A80
  lift_lets
  intro v r1 r2 w offset1 offset2 r3 r4
  exact frame_updVoice _ _ (frame_400 (frame_updVoice _ _
    (frame_420 _ (frame_A0 _ _ (frame_sub_C0034970 _ _ h))) (fun _ => Or.inl rfl)))
    (fun _ => Or.inl rfl)

theorem frame_sub_C0036B00 {s t : State} (vi : Int) (h : Frame s t) :
    Frame s (sub_C0036B00 t vi) := by
  unfold sub_C0036B00
  lift_lets
  intro v r1 r2 w offset1 offset2 r3 value1 value2 s4
  have h4 : Frame s s4 := frame_updVoice _ _
    (frame_420 _ (frame_A0 _ _ (frame_sub_C0034970 _ _ h))) (fun _ => Or.inl rfl)
  split
  · exact frame_updVoice _ _ h4 (fun _ => Or.inr rfl)
  · exact frame_updVoice _ _ (frame_400 h4) (fun _ => Or.inl rfl)

theorem frame_sub_C0036C20 {s t : State} (vi : Int) (h : Frame s t) :
    Frame s (sub_C0036C20 t vi) := by
  unfold sub_C0036C20
  lift_lets
  intros
  exact frame_sub_C0036A20 _ (frame_updVoice _ _ h (fun _ => Or.inl rfl))

theorem frame_VoiceSoundOff {s t : State} (vi : Int) (h : Frame s t) :
    Frame s (VoiceSoundOff t vi) := by
  unfold VoiceSoundOff
  exact frame_sub_C0036A80 _ (frame_sub_C0036B00 _
    (frame_updVoice _ _ h (fun _ => Or.inl rfl)))

theorem frame_VoiceNoteOff {s t : State} (vi : Int) (h : Frame s t) :
    Frame s (VoiceNoteOff t vi) := by
  unfold VoiceNoteOff
  have h1 : Frame s (t.updVoice vi (fun w =>
      { w with vflags := w.vflags + (1 - w.vflags / 128 % 2) * 128 })) :=
    frame_updVoice _ _ h (fun _ => Or.inl rfl)
  lift_lets
  intro s1
  split
  · exact frame_sub_C0036A80 _ (frame_sub_C0036B00 _
      (frame_updVoice _ _ h1 (fun _ => Or.inl rfl)))
  · exact h1

theorem frame_AllChannelNotesOff {s t : State} (c : Int) (h : Frame s t) :
    Frame s (AllChannelNotesOff t c) := by
  unfold AllChannelNotesOff
  exact frame_forRange _ _ _ _ (fun i u hu => frame_ite _ (frame_VoiceNoteOff _ hu) hu) h

theorem frame_AllChannelSoundsOff {s t : State} (c : Int) (h : Frame s t) :
    Frame s (AllChannelSoundsOff t c) := by
  unfold AllChannelSoundsOff
  exact frame_forRange _ _ _ _ (fun i u hu => frame_ite _ (frame_VoiceSoundOff _ hu) hu) h

theorem frame_AllVoicesSoundsOff {s t : State} (h : Frame s t) :
    Frame s (AllVoicesSoundsOff t) := by
  unfold AllVoicesSoundsOff
  exact frame_forRange _ _ _ _ (fun i u hu => frame_ite _ (frame_VoiceSoundOff _ hu) hu) h

theorem frame_ControllerSettingsOn {s t : State} (c : Int) (h : Frame s t) :
    Frame s (ControllerSettingsOn t c) := by
  unfold ControllerSettingsOn
  refine frame_forRange _ _ _ _ (fun i u hu => ?_) h
  exact frame_ite _ (frame_updVoice _ _ hu (fun _ => Or.inl rfl)) hu

theorem frame_ControllerSettingsOff {s t : State} (c : Int) (h : Frame s t) :
    Frame s (ControllerSettingsOff t c) := by
  unfold ControllerSettingsOff
  refine frame_forRange _ _ _ _ (fun i u hu => ?_) h
  have h1 : Frame s (u.updVoice i (fun w =>
      { w with vflags := w.vflags - w.vflags / 64 % 2 * 64 })) :=
    frame_updVoice _ _ hu (fun _ => Or.inl rfl)
  refine frame_ite _ ?_ hu
  refine frame_ite _ ?_ h1
  exact frame_sub_C0036A80 _ (frame_sub_C0036B00 _
    (frame_updVoice _ _ h1 (fun _ => Or.inl rfl)))

theorem frame_ProgramChange_layer {s t : State} (ci base : Int) (h : Frame s t) :
    Frame s (ProgramChange_layer t ci base) := by
  unfold ProgramChange_layer
  have h1 : Frame s (forRange 0 14 (fun index u =>
      (sub_C0037400 u).1.setStru6 ci (base + index) (i16 (sub_C0037400 u).2)) t) :=
    frame_forRange _ _ _ _ (fun i u hu => frame_setStru6 _ _ _ (frame_400 hu)) h
  lift_lets
  intro s1 sh
  exact frame_setStru6 _ _ _ (frame_setStru6 _ _ _ (frame_setStru6 _ _ _ (frame_setStru6 _ _ _
    (frame_setStru6 _ _ _ (frame_setStru6 _ _ _ (frame_setStru6 _ _ _ (frame_setStru6 _ _ _
    (frame_setStru6 _ _ _ h1))))))))

theorem frame_ProgramChange {s t : State} (ci p : Int) (h : Frame s t) :
    Frame s (ProgramChange t ci p) := by
  unfold ProgramChange
  lift_lets
  intros
  exact frame_ProgramChange_layer _ _ (frame_ProgramChange_layer _ _
    (frame_A0 _ _ (frame_420 _ (frame_A0 _ _ h))))

theorem frame_StartPlayingVoice_drums {s : State} (vi : Int) :
    ∀ (n : Nat) (p : Int) (t : State), Frame s t →
      Frame s (StartPlayingVoice_drums vi n p t) := by
  intro n
  induction n with
  | zero => intro p t h; exact h
  | succ n ih =>
    intro p t h
    unfold StartPlayingVoice_drums
    split
    · exact h
    · apply ih
      refine frame_ite _ h ?_
      refine frame_forRange _ _ _ _ (fun i u hu => ?_) h
      exact frame_ite _ (frame_updVoice _ _ hu (fun _ => Or.inr rfl)) hu

theorem frame_StartPlayingVoice {s t : State} (vi ci si base : Int) (h : Frame s t) :
    Frame s (StartPlayingVoice t vi ci si base) := by
  unfold StartPlayingVoice
  lift_lets
  intro data s1 r1 r2 r3 r4 r5 r6 r7 r8 r9 r10 field_00 s2 v value3 channel_num_2 note value2a
    value2 s3 s4 value4 value5 value6a value6 s5 s6 s7 s8 v8 q1d q2d s9 start q1 value8a value8 q2
  have H1 : Frame s s1 := frame_updVoice _ _ h (fun _ => Or.inl rfl)
  have H2 : Frame s s2 := frame_updVoice _ _ (frame_400 (frame_400 (frame_400 (frame_400
    (frame_400 (frame_400 (frame_400 (frame_420 _ (frame_A0 _ _
      (frame_sub_C0034970 _ _ H1)))))))))) (fun _ => Or.inl rfl)
  have H3 : Frame s s3 := frame_updVoice _ _ H2 (fun _ => Or.inl rfl)
  have H4 : Frame s s4 := frame_sub_C0036C20 _ (frame_sub_C0034890 _ _ H3)
  have H5 : Frame s s5 := frame_updVoice _ _ H4 (fun _ => Or.inl rfl)
  have H6 : Frame s s6 := frame_sub_C0036B00 _ (frame_sub_C0036A80 _ H5)
  have H7 : Frame s s7 := frame_ite _ (frame_updVoice _ _ H6 (fun _ => Or.inl rfl)) H6
  have H8 : Frame s s8 := frame_ite _ (frame_updVoice _ _ H7 (fun _ => Or.inl rfl)) H7
  have H9 : Frame s s9 := frame_sub_C0036A20 _ (frame_updVoice _ _
    (frame_420 _ (frame_A0 _ _ H8)) (fun _ => Or.inl rfl))
  split
  · exact frame_StartPlayingVoice_drums vi 37 start s9 H9
  · exact frame_sub_C0036A20 _ (frame_updVoice _ _
      (frame_420 _ (frame_A0 _ _ H8)) (fun _ => Or.inl rfl))

/-! ### The voice that `FindAvailableVoice` returns -/

theorem findFirst_lt (p : Int → Bool) : ∀ (n : Nat) (index r : Int),
    findFirst p n index = some r → index ≤ r ∧ r < index + n := by
  intro n
  induction n with
  | zero => intro index r h; simp [findFirst] at h
  | succ n ih =>
    intro index r h
    unfold findFirst at h
    split at h
    · simp only [Option.some.injEq] at h
      subst h
      push_cast
      omega
    · have := ih (index + 1) r h
      push_cast
      omega

theorem nextIndex_lt (s : State) (index : Int) :
    nextIndex s index < max 1 s.maximum_polyphony := by
  unfold nextIndex
  split <;> omega

theorem findOnRing_lt (s : State) (p : Int → Bool) (index1 : Int) : ∀ (n : Nat) (index r : Int),
    index < max 1 s.maximum_polyphony → findOnRing s p index1 n index = some r →
    r < max 1 s.maximum_polyphony := by
  intro n
  induction n with
  | zero => intro index r _ h; simp [findOnRing] at h
  | succ n ih =>
    intro index r hi h
    unfold findOnRing at h
    split at h
    · simp only [Option.some.injEq] at h
      subst h
      exact hi
    · split at h
      · exact ih (nextIndex s index) r (nextIndex_lt s index) h
      · simp at h

theorem FindAvailableVoice_index_lt (s : State) :
    FindAvailableVoice_index s < max 1 s.maximum_polyphony := by
  unfold FindAvailableVoice_index
  lift_lets
  intro index1a index1 ring
  have h1 : index1 < max 1 s.maximum_polyphony := by
    show (if index1a ≥ s.maximum_polyphony then 0 else index1a) < max 1 s.maximum_polyphony
    split <;> omega
  split
  · rename_i index2 heq
    have := findFirst_lt _ _ _ _ heq
    have e : ((s.maximum_polyphony.toNat : Nat) : Int) = max 0 s.maximum_polyphony := by omega
    omega
  · split
    · rename_i index3 heq
      exact findOnRing_lt s _ index1 ring index1 index3 h1 heq
    · split
      · rename_i index4 heq
        exact findOnRing_lt s _ index1 ring index1 index4 h1 heq
      · exact h1

theorem nextIndex_nonneg (s : State) (index : Int) (h : 0 ≤ index) :
    0 ≤ nextIndex s index := by
  unfold nextIndex
  split <;> omega

theorem findOnRing_nonneg (s : State) (p : Int → Bool) (index1 : Int) :
    ∀ (n : Nat) (index r : Int), 0 ≤ index → findOnRing s p index1 n index = some r →
    0 ≤ r := by
  intro n
  induction n with
  | zero => intro index r _ h; simp [findOnRing] at h
  | succ n ih =>
    intro index r hi h
    unfold findOnRing at h
    split at h
    · simp only [Option.some.injEq] at h
      subst h
      exact hi
    · split at h
      · exact ih (nextIndex s index) r (nextIndex_nonneg s index hi) h
      · simp at h

theorem FindAvailableVoice_index_nonneg (s : State) (h2 : 0 ≤ s.recent_voice_index)
    (h3 : s.recent_voice_index < 64) :
    0 ≤ FindAvailableVoice_index s := by
  unfold FindAvailableVoice_index
  lift_lets
  intro index1a index1 ring
  have h0 : 0 ≤ index1 := by
    show 0 ≤ (if index1a ≥ s.maximum_polyphony then 0 else index1a)
    have e : index1a = s.recent_voice_index + 1 := by
      show i32 (u32 (s.recent_voice_index + 1)) = s.recent_voice_index + 1
      unfold i32 u32
      omega
    split <;> omega
  split
  · rename_i index2 heq
    have := findFirst_lt _ _ _ _ heq
    omega
  · split
    · rename_i index3 heq
      exact findOnRing_nonneg s _ index1 ring index1 index3 h0 heq
    · split
      · rename_i index4 heq
        exact findOnRing_nonneg s _ index1 ring index1 index4 h0 heq
      · exact h0

theorem recentOk_set (t : State) (v : Int) (h : RecentOk t) (h0 : 0 ≤ v)
    (h1 : v < max 1 t.maximum_polyphony) :
    RecentOk { t with recent_voice_index := u32 v } := by
  obtain ⟨a, _, _⟩ := h
  refine ⟨a, ?_, ?_⟩
  · show 0 ≤ u32 v
    unfold u32; omega
  · show u32 v < max 1 t.maximum_polyphony
    unfold u32; omega

theorem recentIn_set (t : State) (v : Int) (h : RecentIn t) (h0 : 0 ≤ v)
    (h1 : v < max 1 t.maximum_polyphony) :
    RecentIn { t with recent_voice_index := u32 v } := by
  obtain ⟨a, _, _⟩ := h
  refine ⟨a, ?_, ?_⟩
  · show 0 ≤ u32 v
    unfold u32; omega
  · show u32 v < max 2 t.maximum_polyphony
    unfold u32; omega

theorem recentOk_lt (t : State) (h : RecentOk t) : t.recent_voice_index < 64 := by
  obtain ⟨a, b, c⟩ := h
  omega

theorem recentIn_lt (t : State) (h : RecentIn t) : t.recent_voice_index < 64 := by
  obtain ⟨a, b, c⟩ := h
  omega

theorem frame_FindAvailableVoice {s t : State} (h : Frame s t) :
    Frame s (FindAvailableVoice t).1 :=
  ⟨h.mp, h.nv, h.osp, h.notes,
    fun hs => recentOk_set t _ (h.rv hs)
      (FindAvailableVoice_index_nonneg t (h.rv hs).2.1 (recentOk_lt t (h.rv hs)))
      (FindAvailableVoice_index_lt t),
    fun hs => recentIn_set t _ (h.rw hs)
      (FindAvailableVoice_index_nonneg t (h.rw hs).2.1 (recentIn_lt t (h.rw hs)))
      (FindAvailableVoice_index_lt t),
    h.ring, h.ev, h.env⟩

theorem frame_NoteOn {s t : State} (arg_0 : Int) (h : Frame s t) :
    Frame s (NoteOn t arg_0) := by
  unfold NoteOn
  lift_lets
  intro r vi s1 s2
  have hvi : vi < max 1 s.maximum_polyphony := by
    have := FindAvailableVoice_index_lt t
    rw [h.mp] at this
    exact this
  have H0 : Frame s r.1 := frame_FindAvailableVoice h
  have H1 : Frame s s1 := frame_ite _ (frame_VoiceSoundOff _ H0) H0
  have H2 : Frame s s2 := frame_updVoice_low _ _ H1 hvi
  exact frame_StartPlayingVoice _ _ _ _ H2

theorem frame_NoteOff {s t : State} (h : Frame s t) : Frame s (NoteOff t) := by
  unfold NoteOff
  split
  · exact h
  · lift_lets
    intro s1
    have H1 : Frame s s1 := by
      show Frame s (match FindVoice t (2 * (t.event_data 0 % 16)) (t.event_data 1) with
        | some vi => VoiceNoteOff t vi
        | none => t)
      split
      · exact frame_VoiceNoteOff _ h
      · exact h
    split
    · exact frame_VoiceNoteOff _ H1
    · exact H1

theorem frame_ResetAllControllers {s t : State} (ci : Int) (h : Frame s t) :
    Frame s (ResetAllControllers t ci) := by
  unfold ResetAllControllers
  exact frame_updChannel _ _ h

theorem frame_ResetChannel {s t : State} (ci : Int) (h : Frame s t) :
    Frame s (ResetChannel t ci) := by
  unfold ResetChannel
  exact frame_updChannel _ _ h

theorem frame_ControlChange {s t : State} (h : Frame s t) : Frame s (ControlChange t) := by
  unfold ControlChange
  lift_lets
  intro ci ctl val ch
  exact frame_ite _ (frame_updChannel _ _ h)
    (frame_ite _ (frame_updChannel _ _ h)
    (frame_ite _ (frame_updChannel _ _ h)
    (frame_ite _ (frame_updChannel _ _ h)
    (frame_ite _ (frame_updChannel _ _ h)
    (frame_ite _ (frame_updChannel _ _ h)
    (frame_ite _ (frame_ite _ (frame_ControllerSettingsOff _ (frame_updChannel _ _ h)) (frame_ControllerSettingsOn _ (frame_updChannel _ _ h)))
    (frame_ite _ (frame_ite _ (frame_ControllerSettingsOff _ (frame_updChannel _ _ h)) (frame_ControllerSettingsOn _ (frame_updChannel _ _ h)))
    (frame_ite _ (frame_ite _ (frame_updChannel _ _ h) (frame_updChannel _ _ h))
    (frame_ite _ (frame_updChannel _ _ h)
    (frame_ite _ (frame_updChannel _ _ h)
    (frame_ite _ (frame_updChannel _ _ h)
    (frame_ite _ (frame_updChannel _ _ h)
    (frame_ite _ (frame_AllChannelSoundsOff _ h)
    (frame_ite _ (frame_ControllerSettingsOff _ (frame_ResetAllControllers _ h))
    (frame_ite _ (frame_AllChannelNotesOff _ h)
    (h))))))))))))))))

theorem frame_DisableReverb {s t : State} (h : Frame s t) : Frame s (DisableReverb t) :=
  ⟨h.mp, h.nv, h.osp, h.notes, h.rv, h.rw, h.ring, h.ev, h.env⟩

theorem frame_EnableReverb {s t : State} (h : Frame s t) : Frame s (EnableReverb t) :=
  ⟨h.mp, h.nv, h.osp, h.notes, h.rv, h.rw, h.ring, h.ev, h.env⟩

theorem frame_SetReverbShift {s t : State} (x : Int) (h : Frame s t) :
    Frame s (SetReverbShift t x) :=
  ⟨h.mp, h.nv, h.osp, h.notes, h.rv, h.rw, h.ring, h.ev, h.env⟩

/-! ### The tick scheduler and the mixer -/

theorem frame_sub_C0036FE0 {s t : State} (h : Frame s t) : Frame s (sub_C0036FE0 t) := by
  unfold sub_C0036FE0
  refine frame_forRange _ _ _ _ (fun i u hu => ?_) h
  have hk : ∀ x : Int, Frame s (u.updVoice i (fun w => { w with field_4C := x })) :=
    fun x => frame_updVoice _ _ hu (fun _ => Or.inl rfl)
  exact frame_ite _ hu (frame_ite _
    (frame_ite _ (hk _) (frame_sub_C0036A80 _ (hk _)))
    (frame_ite _ (hk _) (frame_sub_C0036A80 _ (hk _))))

theorem frame_sub_C0037140 {s t : State} (h : Frame s t) : Frame s (sub_C0037140 t) := by
  unfold sub_C0037140
  refine frame_forRange _ _ _ _ (fun i u hu => ?_) h
  refine frame_ite _ hu ?_
  refine frame_updVoice _ _ (frame_ite _ ?_ ?_) (fun _ => Or.inl rfl)
  · exact frame_sub_C0036B00 _ (frame_updVoice _ _ hu (fun _ => Or.inl rfl))
  · exact frame_updVoice _ _ hu (fun _ => Or.inl rfl)

theorem frame_ProcessPhase_pitch {s t : State} (h : Frame s t) :
    Frame s (ProcessPhase_pitch t) := by
  unfold ProcessPhase_pitch
  refine frame_forRange _ _ _ _ (fun i u hu => ?_) h
  exact frame_ite _ (frame_sub_C0034890 _ _ hu) hu

theorem frame_ProcessPhase {s t : State} (h : Frame s t) : Frame s (ProcessPhase t) := by
  unfold ProcessPhase
  lift_lets
  intro phase s1
  have h1 : Frame s s1 := ⟨h.mp, h.nv, h.osp, h.notes, h.rv, h.rw, h.ring, h.ev, h.env⟩
  have h2 : Frame s (sub_C0037140 s1) := frame_sub_C0037140 h1
  refine frame_ite _ ?_ (frame_ite _ (frame_sub_C0036FE0 h2) (frame_ite _ h2
    (frame_ite _ (frame_ProcessPhase_pitch h2) (frame_ite _ ?_
    (frame_ite _ (frame_sub_C0036FE0 h2) (frame_ite _ h2
    (frame_ite _ (frame_ProcessPhase_pitch h2) h1)))))))
  · refine frame_forRange _ _ _ _ (fun i u hu => ?_) h2
    exact frame_ite _ (frame_updVoice _ _ hu (fun _ => Or.inl rfl)) hu
  · refine frame_sub_C0037140 (frame_forRange _ _ _ _ (fun i u hu => ?_) h1)
    exact frame_ite _ (frame_sub_C0036C20 _ hu) hu

theorem frame_GenerateOutputData_window {s : State} (index1 value2 : Int) :
    ∀ (n : Nat) (t : State), Frame s t →
      Frame s (GenerateOutputData_window index1 value2 n t) := by
  intro n
  induction n with
  | zero => intro t h; exact h
  | succ n ih =>
    intro t h
    unfold GenerateOutputData_window
    lift_lets
    intro v
    refine frame_ite _ ?_ h
    apply ih
    refine frame_ite _ (frame_ite _ ?_ ?_) ?_
    · exact frame_updVoice _ _ h (fun _ => Or.inl rfl)
    · exact frame_updVoice _ _ h (fun _ => Or.inl rfl)
    · exact frame_updVoice _ _ h (fun _ => Or.inl rfl)

theorem frame_GenerateOutputData_reload {s t : State} (index1 : Int) (h : Frame s t) :
    Frame s (GenerateOutputData_reload t index1) := by
  unfold GenerateOutputData_reload
  lift_lets
  intros
  exact frame_updVoice _ _ h (fun _ => Or.inl rfl)

theorem frame_GenerateOutputData_voice {s : State} (index1 : Int) (a : State × Int × Int)
    (h : Frame s a.1) : Frame s (GenerateOutputData_voice index1 a).1 := by
  unfold GenerateOutputData_voice
  lift_lets
  intros
  split
  · dsimp only
    exact frame_updVoice _ _ h (fun _ => Or.inr rfl)
  · dsimp only
    exact frame_updVoice _ _ (frame_ite _ (frame_GenerateOutputData_reload _ h)
      (frame_GenerateOutputData_window _ _ _ _ h)) (fun _ => Or.inl rfl)

theorem frame_GenerateOutputData_reverb {s : State} (a : State × Int × Int)
    (h : Frame s a.1) : Frame s (GenerateOutputData_reverb a).1 := by
  unfold GenerateOutputData_reverb
  exact ⟨h.mp, h.nv, h.osp, h.notes, h.rv, h.rw, h.ring, h.ev, h.env⟩

theorem frame_GenerateOutputData_sample {s t : State} (m : Int) (h : Frame s t) :
    Frame s (GenerateOutputData_sample t m).1 := by
  unfold GenerateOutputData_sample
  lift_lets
  intro a b
  have ha : Frame s a.1 :=
    forRange_keeps GenerateOutputData_voice (fun x => Frame s x.1) 0 (m + 1)
      (fun i x _ _ hx => frame_GenerateOutputData_voice i x hx) (t, 0, 0) h
  show Frame s b.1
  show Frame s (if a.1.is_reverb_enabled = 1 then GenerateOutputData_reverb a else a).1
  split
  · exact frame_GenerateOutputData_reverb a ha
  · exact ha

/-! ### Compaction of the voices -/

theorem frame_setVoice_low {s t : State} (vi : Int) (w : Voice_Data) (h : Frame s t)
    (hvi : vi < max 1 s.maximum_polyphony) :
    Frame s { t with voice_data := Function.update t.voice_data vi w } := by
  refine ⟨h.mp, h.nv, h.osp, ?_, h.rv, h.rw, h.ring, h.ev, h.env⟩
  intro i hi
  have hiv : i ≠ vi := by omega
  simp only [Function.update_noteq hiv]
  exact h.notes i hi

theorem frame_DefragmentVoices_loop {s : State} : ∀ (n : Nat) (index1 index2 : Int) (t : State),
    index1 + n ≤ max 1 s.maximum_polyphony → Frame s t →
    Frame s (DefragmentVoices_loop n index1 index2 t) := by
  intro n
  induction n with
  | zero => intro index1 index2 t _ h; exact h
  | succ n ih =>
    intro index1 index2 t hb h
    have hb' : index1 + 1 + (n : Int) ≤ max 1 s.maximum_polyphony := by
      push_cast at hb
      omega
    unfold DefragmentVoices_loop
    split
    · exact ih _ _ _ hb' h
    · lift_lets
      intro j0
      split
      · exact h
      · apply ih _ _ _ hb'
        exact frame_updVoice _ _ (frame_setVoice_low _ _ h (by omega)) (fun _ => Or.inr rfl)

theorem frame_DefragmentVoices {s t : State} (h : Frame s t) :
    Frame s (DefragmentVoices t) := by
  unfold DefragmentVoices
  apply frame_DefragmentVoices_loop
  · rw [h.mp]
    omega
  · exact h

theorem frame_GenerateOutputData {s t : State} (mem : Int → Int) (p o1 o2 : Int)
    (h : Frame s t) : Frame s (GenerateOutputData t mem p o1 o2).1 := by
  unfold GenerateOutputData
  lift_lets
  intro s1 m
  exact forRange_keeps _ (fun x : State × (Int → Int) => Frame s x.1) o1 o2
    (fun i x _ _ hx => frame_GenerateOutputData_sample _ hx) (s1, mem)
    (frame_DefragmentVoices h)

/-! ### The ring buffer and the reduction of the voices -/

theorem frame_setPolyphony {s t : State} (a : Int) (h : Frame s t) :
    Frame s { t with current_polyphony := a } :=
  ⟨h.mp, h.nv, h.osp, h.notes, h.rv, h.rw, h.ring, h.ev, h.env⟩

theorem fields_setIndices {t x : State} (a b : Int) (F : Frame t x) :
    ({ x with midi_data_read_index := a, midi_data_write_index := b } : State).maximum_polyphony
        = t.maximum_polyphony
    ∧ ({ x with midi_data_read_index := a,
                midi_data_write_index := b } : State).maximum_polyphony_new_value
        = t.maximum_polyphony_new_value
    ∧ ({ x with midi_data_read_index := a, midi_data_write_index := b } : State).output_size_para
        = t.output_size_para
    ∧ (∀ i, max 1 t.maximum_polyphony ≤ i →
        (({ x with midi_data_read_index := a,
                   midi_data_write_index := b } : State).voice_data i).note_number
          = (t.voice_data i).note_number
        ∨ (({ x with midi_data_read_index := a,
                     midi_data_write_index := b } : State).voice_data i).note_number = 255)
    ∧ (RecentOk t → RecentOk ({ x with midi_data_read_index := a,
                                       midi_data_write_index := b } : State))
    ∧ (RecentIn t → RecentIn ({ x with midi_data_read_index := a,
                                       midi_data_write_index := b } : State)) :=
  ⟨F.mp, F.nv, F.osp, F.notes, F.rv, F.rw⟩

theorem getValue_fields (t : State) :
    (GetValueFromMidiDataBuffer t).1.maximum_polyphony = t.maximum_polyphony
    ∧ (GetValueFromMidiDataBuffer t).1.maximum_polyphony_new_value
        = t.maximum_polyphony_new_value
    ∧ (GetValueFromMidiDataBuffer t).1.output_size_para = t.output_size_para
    ∧ (∀ i, max 1 t.maximum_polyphony ≤ i →
        ((GetValueFromMidiDataBuffer t).1.voice_data i).note_number
          = (t.voice_data i).note_number
        ∨ ((GetValueFromMidiDataBuffer t).1.voice_data i).note_number = 255)
    ∧ (RecentOk t → RecentOk (GetValueFromMidiDataBuffer t).1)
    ∧ (RecentIn t → RecentIn (GetValueFromMidiDataBuffer t).1) := by
  have triv : ∀ a : Int, (({ t with midi_data_read_index := a } : State).maximum_polyphony
        = t.maximum_polyphony)
      ∧ (({ t with midi_data_read_index := a } : State).maximum_polyphony_new_value
        = t.maximum_polyphony_new_value)
      ∧ (({ t with midi_data_read_index := a } : State).output_size_para = t.output_size_para)
      ∧ (∀ i, max 1 t.maximum_polyphony ≤ i →
        ((({ t with midi_data_read_index := a } : State).voice_data i).note_number
          = (t.voice_data i).note_number
        ∨ (({ t with midi_data_read_index := a } : State).voice_data i).note_number = 255))
      ∧ (RecentOk t → RecentOk ({ t with midi_data_read_index := a } : State))
      ∧ (RecentIn t → RecentIn ({ t with midi_data_read_index := a } : State)) :=
    fun a => ⟨rfl, rfl, rfl, fun _ _ => Or.inl rfl, fun h => h, fun h => h⟩
  have same : t.maximum_polyphony = t.maximum_polyphony
      ∧ t.maximum_polyphony_new_value = t.maximum_polyphony_new_value
      ∧ t.output_size_para = t.output_size_para
      ∧ (∀ i, max 1 t.maximum_polyphony ≤ i →
        ((t.voice_data i).note_number = (t.voice_data i).note_number
        ∨ (t.voice_data i).note_number = 255))
      ∧ (RecentOk t → RecentOk t) ∧ (RecentIn t → RecentIn t) :=
    ⟨rfl, rfl, rfl, fun _ _ => Or.inl rfl, fun h => h, fun h => h⟩
  unfold GetValueFromMidiDataBuffer
  split
  · exact same
  · split
    · exact triv _
    · lift_lets
      intro time_2
      split
      · exact fields_setIndices 0 0 (frame_AllVoicesSoundsOff (frame_refl t))
      · split
        · exact same
        · exact triv _

theorem event_setIndices {t x : State} (a b : Int) (F : Frame t x) :
    (({ x with midi_data_read_index := a, midi_data_write_index := b } : State).event_type
        = t.event_type
      ∧ ({ x with midi_data_read_index := a, midi_data_write_index := b } : State).event_data
        = t.event_data
      ∧ ({ x with midi_data_read_index := a, midi_data_write_index := b } : State).event_length
        = t.event_length
      ∧ ({ x with midi_data_read_index := a, midi_data_write_index := b } : State).stru6_ptr
        = t.stru6_ptr
      ∧ ({ x with midi_data_read_index := a,
                  midi_data_write_index := b } : State).channel_data_ptr = t.channel_data_ptr)
    ∧ (({ x with midi_data_read_index := a, midi_data_write_index := b } : State).rom_memory
        = t.rom_memory
      ∧ ({ x with midi_data_read_index := a, midi_data_write_index := b } : State).romsxgm_ptr
        = t.romsxgm_ptr
      ∧ ({ x with midi_data_read_index := a,
                  midi_data_write_index := b } : State).output_frequency = t.output_frequency
      ∧ ({ x with midi_data_read_index := a, midi_data_write_index := b } : State).effect_type
        = t.effect_type
      ∧ ({ x with midi_data_read_index := a, midi_data_write_index := b } : State).system_time_1
        = t.system_time_1
      ∧ ({ x with midi_data_read_index := a,
                  midi_data_write_index := b } : State).midi_data_buffer = t.midi_data_buffer) :=
  ⟨F.ev, F.env⟩

/-- Taking a byte from the ring buffer leaves the message being assembled, the ROM, the
output rate, the effect type, the clock and the stored bytes as they are. -/
theorem getValue_event (t : State) :
    ((GetValueFromMidiDataBuffer t).1.event_type = t.event_type
      ∧ (GetValueFromMidiDataBuffer t).1.event_data = t.event_data
      ∧ (GetValueFromMidiDataBuffer t).1.event_length = t.event_length
      ∧ (GetValueFromMidiDataBuffer t).1.stru6_ptr = t.stru6_ptr
      ∧ (GetValueFromMidiDataBuffer t).1.channel_data_ptr = t.channel_data_ptr)
    ∧ ((GetValueFromMidiDataBuffer t).1.rom_memory = t.rom_memory
      ∧ (GetValueFromMidiDataBuffer t).1.romsxgm_ptr = t.romsxgm_ptr
      ∧ (GetValueFromMidiDataBuffer t).1.output_frequency = t.output_frequency
      ∧ (GetValueFromMidiDataBuffer t).1.effect_type = t.effect_type
      ∧ (GetValueFromMidiDataBuffer t).1.system_time_1 = t.system_time_1
      ∧ (GetValueFromMidiDataBuffer t).1.midi_data_buffer = t.midi_data_buffer) := by
  have same : (t.event_type = t.event_type ∧ t.event_data = t.event_data
        ∧ t.event_length = t.event_length ∧ t.stru6_ptr = t.stru6_ptr
        ∧ t.channel_data_ptr = t.channel_data_ptr)
      ∧ (t.rom_memory = t.rom_memory ∧ t.romsxgm_ptr = t.romsxgm_ptr
        ∧ t.output_frequency = t.output_frequency ∧ t.effect_type = t.effect_type
        ∧ t.system_time_1 = t.system_time_1 ∧ t.midi_data_buffer = t.midi_data_buffer) :=
    ⟨⟨rfl, rfl, rfl, rfl, rfl⟩, ⟨rfl, rfl, rfl, rfl, rfl, rfl⟩⟩
  unfold GetValueFromMidiDataBuffer
  split
  · exact same
  · split
    · exact same
    · lift_lets
      intro time_2
      split
      · exact event_setIndices 0 0 (frame_AllVoicesSoundsOff (frame_refl t))
      · split
        · exact same
        · exact same

theorem frame_GetValue {s t : State} (h : Frame s t) :
    Frame s (GetValueFromMidiDataBuffer t).1 := by
  obtain ⟨a, b, c, d, e, e'⟩ := getValue_fields t
  exact frame_trans h ⟨a, b, c, d, e, e',
    fun hr => ⟨(getValue_ring t hr).1, (getValue_ring t hr).2.1⟩,
    (getValue_event t).1, (getValue_event t).2⟩

theorem frame_free {s t : State} (vi : Int) (c : Prop) [Decidable c] (h : Frame s t) :
    Frame s (if c then t.updVoice vi (fun w => { w with note_number := 255 }) else t) :=
  frame_ite _ (frame_updVoice _ _ h (fun _ => Or.inr rfl)) h

theorem frame_Reduce_loop1 {s : State} (mv : Int) : ∀ (n : Nat) (i a : Int) (t : State)
    (r : State × Int × Bool), ReduceActiveVoices_loop1 mv n i a t = some r →
    Frame s t → Frame s r.1 := by
  intro n
  induction n with
  | zero => intro i a t r hr; simp [ReduceActiveVoices_loop1] at hr
  | succ n ih =>
    intro i a t r hr h
    unfold ReduceActiveVoices_loop1 at hr
    lift_lets at hr
    extract_lets w freed s1 active1 at hr
    have h1 : Frame s s1 := frame_free _ _ h
    split at hr
    · simp only [Option.some.injEq] at hr
      subst hr
      exact frame_setPolyphony _ h1
    · split at hr
      · exact ih _ _ _ _ hr h1
      · simp only [Option.some.injEq] at hr
        subst hr
        exact h1

theorem frame_Reduce_loop2 {s : State} (mv : Int) : ∀ (n : Nat) (i a : Int) (t r : State),
    ReduceActiveVoices_loop2 mv n i a t = some r → Frame s t → Frame s r := by
  intro n
  induction n with
  | zero => intro i a t r hr; simp [ReduceActiveVoices_loop2] at hr
  | succ n ih =>
    intro i a t r hr h
    unfold ReduceActiveVoices_loop2 at hr
    lift_lets at hr
    extract_lets freed s1 active1 at hr
    have h1 : Frame s s1 := frame_free _ _ h
    split at hr
    · simp only [Option.some.injEq] at hr
      subst hr
      exact frame_setPolyphony _ h1
    · split at hr
      · simp only [Option.some.injEq] at hr
        subst hr
        exact h1
      · exact ih _ _ _ _ hr h1

theorem frame_ReduceActiveVoices {s t r : State} (mv : Int)
    (hr : ReduceActiveVoices t mv = some r) (h : Frame s t) : Frame s r := by
  unfold ReduceActiveVoices at hr
  split at hr
  · simp only [Option.some.injEq] at hr
    subst hr
    exact h
  · split at hr
    · lift_lets at hr
      extract_lets index2a index2 active_voices at hr
      split at hr
      · simp at hr
      · rename_i s1 a1 heq
        simp only [Option.some.injEq] at hr
        subst hr
        exact frame_Reduce_loop1 mv _ _ _ _ _ heq h
      · rename_i s1 a1 heq
        have h1 : Frame s s1 := frame_Reduce_loop1 mv _ _ _ _ _ heq h
        exact frame_Reduce_loop2 mv _ _ _ _ _ hr h1
    · simp only [Option.some.injEq] at hr
      subst hr
      refine frame_setPolyphony 0 ?_
      exact frame_forRange _ _ _ _
        (fun i u hu => frame_updVoice _ _ hu (fun _ => Or.inr rfl)) h

/-- After `SetMaximumVoices` the maximum is the argument, the ceiling and the block size
are as before, and every voice from slot `maximum_voices` on is free. -/
theorem SetMaximumVoices_spec {t r : State} (mv : Int) (hr : SetMaximumVoices t mv = some r) :
    r.maximum_polyphony = mv
    ∧ r.maximum_polyphony_new_value = t.maximum_polyphony_new_value
    ∧ r.output_size_para = t.output_size_para
    ∧ ∀ i, mv ≤ i → i < 64 → (r.voice_data i).note_number = 255 := by
  unfold SetMaximumVoices at hr
  cases hred : ReduceActiveVoices t mv with
  | none => rw [hred] at hr; simp at hr
  | some t1 =>
    rw [hred] at hr
    simp only [Option.map_some', Option.some.injEq] at hr
    have h1 : Frame t t1 := frame_ReduceActiveVoices mv hred (frame_refl t)
    have h2 : Frame t (DefragmentVoices t1) := frame_DefragmentVoices h1
    have key := forRange_keeps
      (fun index u => State.updVoice u index (fun w => { w with note_number := 255 }))
      (fun u => u.maximum_polyphony = mv
        ∧ u.maximum_polyphony_new_value = t.maximum_polyphony_new_value
        ∧ u.output_size_para = t.output_size_para) mv MAX_VOICES
      (fun i u _ _ hu => hu)
      { (DefragmentVoices t1) with maximum_polyphony := mv } ⟨rfl, h2.nv, h2.osp⟩
    have key2 : ∀ i, mv ≤ i → i < 64 →
        ((forRange mv MAX_VOICES
          (fun index u => State.updVoice u index (fun w => { w with note_number := 255 }))
          { (DefragmentVoices t1) with maximum_polyphony := mv }).voice_data i).note_number
          = 255 := by
      intro i hi1 hi2
      have := forRange_inv
        (fun index u => State.updVoice u index (fun w => { w with note_number := 255 }))
        (fun j u => ∀ i, mv ≤ i → i < j → (u.voice_data i).note_number = 255) mv MAX_VOICES
        (by unfold MAX_VOICES; omega)
        (by
          intro j u _ _ hq i hi1 hi2
          by_cases hij : i = j
          · subst hij
            simp only [State.updVoice, Function.update_same]
          · simp only [State.updVoice, Function.update_noteq hij]
            exact hq i hi1 (by omega))
        { (DefragmentVoices t1) with maximum_polyphony := mv } (by intro i h1 h2; omega)
      exact this i hi1 hi2
    subst hr
    exact ⟨key.1, key.2.1, key.2.2, key2⟩

theorem frame_keeps {s t : State} (h : Frame s t) : Keeps s t := by
  refine ⟨h.osp, ?_⟩
  rintro ⟨a, b, c, d, e⟩
  refine ⟨by rw [h.nv]; exact a, by rw [h.nv]; exact b, by rw [h.mp]; exact c,
    by rw [h.mp, h.nv]; exact d, ?_⟩
  intro i hi1 hi2
  rw [h.mp] at hi1
  rcases h.notes i hi1 with hn | hn
  · rw [hn]; exact e i hi1 hi2
  · exact hn

theorem keeps_refl (s : State) : Keeps s s := ⟨rfl, fun h => h⟩

theorem keeps_trans {s t u : State} (h1 : Keeps s t) (h2 : Keeps t u) : Keeps s u :=
  ⟨h2.1.trans h1.1, fun h => h2.2 (h1.2 h)⟩

theorem keeps_setNew {t r : State} (mv : Int) (h1 : 2 ≤ mv) (h2 : mv ≤ 64)
    (hr : SetMaximumVoices t mv = some r) :
    Keeps t { r with maximum_polyphony_new_value := mv } := by
  obtain ⟨a, _, c, d⟩ := SetMaximumVoices_spec mv hr
  refine ⟨c, fun _ => ⟨h1, h2, ?_, ?_, ?_⟩⟩
  · show 0 ≤ r.maximum_polyphony
    omega
  · show r.maximum_polyphony ≤ mv
    omega
  · intro i hi1 hi2
    have hi1' : max 1 r.maximum_polyphony ≤ i := hi1
    exact d i (by omega) hi2

theorem opt_ite {α : Type} {P : α → Prop} {c : Prop} [Decidable c] {a b : Option α} {t : α}
    (h : (if c then a else b) = some t)
    (ha : a = some t → P t) (hb : b = some t → P t) : P t := by
  split at h
  · exact ha h
  · exact hb h

theorem opt_some {α : Type} {P : α → Prop} (x t : α) (hx : P x) (h : some x = some t) :
    P t := by
  simp only [Option.some.injEq] at h
  subst h
  exact hx

theorem opt_map {α : Type} {P : α → Prop} {o : Option α} {f : α → α} {t : α}
    (h : o.map f = some t) (hk : ∀ r, o = some r → P (f r)) : P t := by
  cases ho : o with
  | none => rw [ho] at h; simp at h
  | some r =>
    rw [ho] at h
    simp only [Option.map_some', Option.some.injEq] at h
    subst h
    exact hk r ho

theorem keeps_sixtyfour (s : State) :
    Keeps s { s with maximum_polyphony := 64, maximum_polyphony_new_value := 64 } := by
  refine ⟨rfl, fun _ => ⟨by show (2 : Int) ≤ 64; omega, le_refl _,
    by show (0 : Int) ≤ 64; omega, le_refl _, ?_⟩⟩
  intro i hi1 hi2
  have hi1' : max 1 (64 : Int) ≤ i := hi1
  omega

theorem keeps_effect (s : State) (x : Int) : Keeps s { s with effect_type := x } :=
  ⟨rfl, fun hp => hp⟩

theorem keeps_SystemExclusive {s t : State} (h : SystemExclusive s = some t) : Keeps s t := by
  unfold SystemExclusive at h
  refine opt_ite h
    (opt_some _ t (frame_keeps (frame_forRange _ _ _ _ (fun i u hu => frame_ProgramChange _ _ hu)
      (frame_forRange _ _ _ _ (fun i u hu => frame_ResetChannel _ hu)
        (frame_AllVoicesSoundsOff (frame_refl s)))))) (fun h2 => ?_)
  refine opt_ite h2 (fun h3 => ?_) (opt_some _ t (keeps_refl s))
  refine opt_ite h3
    (fun hm => opt_map hm (fun r hr => keeps_setNew 24 (by omega) (by omega) hr))
    (fun h4 => ?_)
  refine opt_ite h4
    (fun hm => opt_map hm (fun r hr => keeps_setNew 32 (by omega) (by omega) hr))
    (fun h5 => ?_)
  refine opt_ite h5
    (fun hm => opt_map hm (fun r hr => keeps_setNew 48 (by omega) (by omega) hr))
    (fun h6 => ?_)
  refine opt_ite h6 (opt_some _ t (keeps_sixtyfour s)) (fun h7 => ?_)
  refine opt_ite h7 (opt_some _ t (frame_keeps (frame_DisableReverb (frame_refl s)))) (fun h8 => ?_)
  refine opt_ite h8
    (opt_some _ t (frame_keeps (frame_SetReverbShift _ (frame_EnableReverb (frame_refl s)))))
    (fun h9 => ?_)
  refine opt_ite h9
    (opt_some _ t (frame_keeps (frame_SetReverbShift _ (frame_EnableReverb (frame_refl s)))))
    (fun h10 => ?_)
  exact opt_ite h10 (opt_some _ t (keeps_effect s _)) (opt_some _ t (keeps_refl s))

theorem keeps_setEventLength {s t : State} (a : Int) (h : Keeps s t) :
    Keeps s { t with event_length := a } :=
  ⟨h.1, fun hp => h.2 hp⟩

theorem keeps_programChange (s : State) :
    (match findFirst (fun i => decide (tableAt drum_kits i = s.event_data 1)) 8 0 with
      | none => some s
      | some drum_kit_index =>
        some (ProgramChange (s.updChannel s.channel_data_ptr (fun c => { c with
          program_change := tableAt drum_kit_numbers drum_kit_index }))
          s.stru6_ptr (tableAt drum_kit_numbers drum_kit_index))) = some t → Keeps s t := by
  intro h
  split at h
  · exact opt_some _ t (keeps_refl s) h
  · exact opt_some _ t (frame_keeps (frame_ProgramChange _ _ (frame_updChannel _ _ (frame_refl s)))) h

theorem keeps_dispatch {s t : State} (h : ProcessMidiData_dispatch s = some t) :
    Keeps s t := by
  unfold ProcessMidiData_dispatch at h
  have f0 := frame_refl s
  refine opt_map h (fun u hu => keeps_setEventLength 0 ?_)
  refine opt_ite hu (opt_some _ u (frame_keeps (frame_NoteOff f0))) (fun h2 => ?_)
  refine opt_ite h2
    (fun ha => opt_ite ha
      (fun hb => opt_ite hb (opt_some _ u (frame_keeps (frame_NoteOn 1 (frame_NoteOn 0 f0))))
        (opt_some _ u (frame_keeps (frame_NoteOn 0 f0))))
      (opt_some _ u (frame_keeps (frame_NoteOff f0)))) (fun h3 => ?_)
  refine opt_ite h3 (opt_some _ u (frame_keeps (frame_ControlChange f0))) (fun h4 => ?_)
  refine opt_ite h4
    (fun ha => opt_ite ha (keeps_programChange s)
      (opt_some _ u (frame_keeps (frame_ProgramChange _ _ (frame_updChannel _ _ f0)))))
    (fun h5 => ?_)
  refine opt_ite h5 (opt_some _ u (frame_keeps (frame_updChannel _ _ f0))) (fun h6 => ?_)
  refine opt_ite h6 (opt_some _ u (frame_keeps (frame_updChannel _ _ f0))) (fun h7 => ?_)
  exact opt_ite h7 keeps_SystemExclusive (opt_some _ u (keeps_refl s))

theorem keeps_byte {s t : State} (v : Int) (h : ProcessMidiData_byte s v = some t) :
    Keeps s t := by
  unfold ProcessMidiData_byte at h
  refine opt_ite h (opt_some _ t (keeps_refl s)) (fun h2 => ?_)
  refine opt_ite h2
    (fun ha => opt_ite ha (opt_some _ t (keeps_refl s)) keeps_dispatch) (fun h3 => ?_)
  refine opt_ite h3 (opt_some _ t ⟨rfl, fun hp => hp⟩) (fun h4 => ?_)
  refine opt_ite h4 (opt_some _ t ⟨rfl, fun hp => hp⟩) (fun h5 => ?_)
  refine opt_ite h5 (opt_some _ t ⟨rfl, fun hp => hp⟩) (fun h6 => ?_)
  refine opt_ite h6 (opt_some _ t ⟨rfl, fun hp => hp⟩) (fun h7 => ?_)
  have hd := keeps_dispatch h7
  exact ⟨hd.1, fun hp => hd.2 hp⟩

theorem keeps_loop : ∀ (n : Nat) (s t : State), ProcessMidiData_loop n s = some t →
    Keeps s t := by
  intro n
  induction n with
  | zero => intro s t h; simp [ProcessMidiData_loop] at h
  | succ n ih =>
    intro s t h
    unfold ProcessMidiData_loop at h
    have hg : Keeps s (GetValueFromMidiDataBuffer s).1 := (frame_keeps (frame_GetValue (frame_refl s)))
    refine opt_ite h (opt_some _ t hg) (fun h2 => ?_)
    cases hb : ProcessMidiData_byte (GetValueFromMidiDataBuffer s).1
        (GetValueFromMidiDataBuffer s).2 with
    | none => rw [hb] at h2; simp at h2
    | some s1 =>
      rw [hb] at h2
      exact keeps_trans hg (keeps_trans (keeps_byte _ hb) (ih s1 t h2))

theorem keeps_ProcessMidiData {s t : State} (h : ProcessMidiData s = some t) : Keeps s t :=
  keeps_loop 13108 s t h

/-! ## The polyphony invariant through a callback -/

theorem activeVoices_range (s : State) (lo hi : Int) :
    0 ≤ activeVoices s lo hi ∧ activeVoices s lo hi ≤ max 0 (hi - lo) := by
  unfold activeVoices
  by_cases hle : lo ≤ hi
  · have := forRange_inv
      (fun index (n : Int) => if (s.voice_data index).note_number ≠ 255 then n + 1 else n)
      (fun j n => 0 ≤ n ∧ n ≤ j - lo) lo hi hle
      (by
        intro j n _ _ hq
        dsimp only
        split <;> omega)
      0 (by omega)
    omega
  · rw [forRange_empty _ lo hi (by omega)]
    omega

theorem filter_range_le (p : Nat → Bool) (M : Nat) : ∀ k : Nat,
    (∀ i, M ≤ i → i < k → p i = false) → ((List.range k).filter p).length ≤ min k M := by
  intro k
  induction k with
  | zero => intro _; simp
  | succ k ih =>
    intro hp
    have h1 := ih (fun i hi1 hi2 => hp i hi1 (by omega))
    rw [List.range_succ, List.filter_append, List.length_append]
    by_cases hk : M ≤ k
    · have := hp k hk (by omega)
      simp only [List.filter_cons, this, List.filter_nil, List.length_nil]
      simp only [Bool.false_eq_true, if_false, List.length_nil]
      omega
    · have : ((List.filter p [k]).length) ≤ 1 := by
        simp only [List.filter_cons, List.filter_nil]
        split <;> simp
      omega

theorem activeCount_le (s : State) (m : Int) (h0 : 0 ≤ m)
    (h : ∀ i, m ≤ i → i < 64 → (s.voice_data i).note_number = 255) :
    (activeCount s : Int) ≤ m := by
  unfold activeCount
  have := filter_range_le
    (fun (i : Nat) => decide ((s.voice_data (Int.ofNat i)).note_number ≠ 255)) m.toNat 64
    (by
      intro i hi1 hi2
      have := h (Int.ofNat i) (by simp only [Int.ofNat_eq_coe]; omega)
        (by simp only [Int.ofNat_eq_coe]; omega)
      simp only [this, ne_eq, not_true_eq_false, decide_False])
  omega

theorem keeps_fill_loop (p : Int) : ∀ (n : Nat) (off : Int) (s : State) (mem : Int → Int)
    (r : State × (Int → Int)), VLSG_FillOutputBuffer_loop p n off s mem = some r →
    Keeps s r.1 := by
  intro n
  induction n with
  | zero =>
    intro off s mem r h
    simp only [VLSG_FillOutputBuffer_loop, Option.some.injEq] at h
    subst h
    exact keeps_refl s
  | succ n ih =>
    intro off s mem r h
    unfold VLSG_FillOutputBuffer_loop at h
    cases hm : ProcessMidiData s with
    | none => rw [hm] at h; simp at h
    | some s1 =>
      rw [hm] at h
      have k1 : Keeps s s1 := keeps_ProcessMidiData hm
      have f2 : Frame s1 (GenerateOutputData (ProcessPhase s1) mem p off
          (u32 (off + (ProcessPhase s1).output_size_para))).1 :=
        frame_GenerateOutputData _ _ _ _ (frame_ProcessPhase (frame_refl s1))
      have k3 := ih _ _ _ _ h
      refine keeps_trans k1 (keeps_trans (frame_keeps f2) ?_)
      exact ⟨k3.1, fun hp => k3.2 hp⟩

theorem clock_fields (s : State) (c t1 : Int) :
    (VLSG_FillOutputBuffer_clock s c t1).maximum_polyphony = s.maximum_polyphony
    ∧ (VLSG_FillOutputBuffer_clock s c t1).maximum_polyphony_new_value
        = s.maximum_polyphony_new_value
    ∧ (VLSG_FillOutputBuffer_clock s c t1).output_size_para = s.output_size_para
    ∧ (VLSG_FillOutputBuffer_clock s c t1).output_data_ptr = s.output_data_ptr
    ∧ (VLSG_FillOutputBuffer_clock s c t1).voice_data = s.voice_data := by
  unfold VLSG_FillOutputBuffer_clock
  lift_lets
  intro restart value1 time2 s1 s2
  have e1 : s1.maximum_polyphony = s.maximum_polyphony
      ∧ s1.maximum_polyphony_new_value = s.maximum_polyphony_new_value
      ∧ s1.output_size_para = s.output_size_para
      ∧ s1.output_data_ptr = s.output_data_ptr
      ∧ s1.voice_data = s.voice_data := by
    show (if restart then _ else s).maximum_polyphony = _ ∧ (if restart then _ else s).maximum_polyphony_new_value = _
      ∧ (if restart then _ else s).output_size_para = _ ∧ (if restart then _ else s).output_data_ptr = _
      ∧ (if restart then _ else s).voice_data = _
    split <;> exact ⟨rfl, rfl, rfl, rfl, rfl⟩
  split
  · exact e1
  · exact e1

theorem keeps_clock (s : State) (c t1 : Int) : Keeps s (VLSG_FillOutputBuffer_clock s c t1) := by
  obtain ⟨a, b, c', _, e⟩ := clock_fields s c t1
  refine ⟨c', ?_⟩
  rintro ⟨h1, h2, h3, h4, h5⟩
  refine ⟨by rw [b]; exact h1, by rw [b]; exact h2, by rw [a]; exact h3,
    by rw [a, b]; exact h4, ?_⟩
  intro i hi1 hi2
  rw [a] at hi1
  rw [e]
  exact h5 i hi1 hi2

theorem polyBound_of_setMax {t r : State} (mv : Int) (hr : SetMaximumVoices t mv = some r)
    (h1 : 2 ≤ t.maximum_polyphony_new_value) (h2 : t.maximum_polyphony_new_value ≤ 64)
    (h3 : 0 ≤ mv) (h4 : mv ≤ t.maximum_polyphony_new_value) :
    PolyBound r ∧ r.output_size_para = t.output_size_para := by
  obtain ⟨a, b, c, d⟩ := SetMaximumVoices_spec mv hr
  refine ⟨⟨⟨by rw [b]; exact h1, by rw [b]; exact h2, by rw [a]; exact h3,
    by rw [a, b]; exact h4, ?_⟩, ?_⟩, c⟩
  · intro i hi1 hi2
    rw [a] at hi1
    exact d i (by omega) hi2
  · intro i hi1 hi2
    rw [a] at hi1
    exact d i hi1 hi2

theorem i32_id (x : Int) (h1 : -2147483648 ≤ x) (h2 : x < 2147483648) : i32 x = x := by
  unfold i32
  omega

theorem governor_spec {s r : State} (t1 t4 : Int) (hp : PolyInv s)
    (h : VLSG_FillOutputBuffer_governor s t1 t4 = some r) :
    PolyBound r ∧ r.output_size_para = s.output_size_para := by
  obtain ⟨h1, h2, h3, h4, h5⟩ := hp
  have hc := activeVoices_range s 0 s.maximum_polyphony
  unfold VLSG_FillOutputBuffer_governor at h
  lift_lets at h
  extract_lets s1 dt s2 at h
  have hcp : s2.current_polyphony = activeVoices s 0 s.maximum_polyphony := rfl
  have hnv : s2.maximum_polyphony_new_value = s.maximum_polyphony_new_value := rfl
  have hosp : s2.output_size_para = s.output_size_para := rfl
  have hmp : s2.maximum_polyphony = s.maximum_polyphony_new_value := rfl
  have hvd : s2.voice_data = s.voice_data := rfl
  have e3 : i32 (3 * s2.current_polyphony) = 3 * activeVoices s 0 s.maximum_polyphony := by
    rw [hcp]
    exact i32_id _ (by omega) (by omega)
  have e7 : i32 (7 * s2.current_polyphony) = 7 * activeVoices s 0 s.maximum_polyphony := by
    rw [hcp]
    exact i32_id _ (by omega) (by omega)
  rw [e3, e7] at h
  split at h
  · have := polyBound_of_setMax 2 h (by rw [hnv]; exact h1) (by rw [hnv]; exact h2)
      (by omega) (by rw [hnv]; exact h1)
    exact ⟨this.1, this.2.trans hosp⟩
  · split at h
    · split at h
      · have := polyBound_of_setMax _ h (by rw [hnv]; exact h1) (by rw [hnv]; exact h2)
          (by omega) (by rw [hnv]; omega)
        exact ⟨this.1, this.2.trans hosp⟩
      · have := polyBound_of_setMax _ h (by rw [hnv]; exact h1) (by rw [hnv]; exact h2)
          (by omega) (by rw [hnv]; omega)
        exact ⟨this.1, this.2.trans hosp⟩
    · simp only [Option.some.injEq] at h
      subst h
      refine ⟨⟨⟨by rw [hnv]; exact h1, by rw [hnv]; exact h2, by rw [hmp]; omega,
        by rw [hmp, hnv], ?_⟩, ?_⟩, hosp⟩
      · intro i hi1 hi2
        rw [hmp] at hi1
        rw [hvd]
        exact h5 i (by omega) hi2
      · intro i hi1 hi2
        rw [hmp] at hi1
        rw [hvd]
        exact h5 i (by omega) hi2

theorem fill_spec {s : State} {mem : Int → Int} {c t1 t4 : Int}
    {r : State × (Int → Int) × Int} (hp : PolyInv s)
    (h : VLSG_FillOutputBuffer s mem c t1 t4 = some r) : PolyBound r.1 := by
  unfold VLSG_FillOutputBuffer at h
  lift_lets at h
  extract_lets s1 output_ptr at h
  split at h
  · simp at h
  · rename_i q hq
    split at h
    · simp at h
    · rename_i s2 hg
      simp only [Option.some.injEq] at h
      subst h
      have k1 : Keeps s s1 := keeps_clock s c t1
      have k2 := keeps_fill_loop _ _ _ _ _ _ hq
      exact (governor_spec t1 t4 (k2.2 (k1.2 hp)) hg).1

/-! ## The state after `VLSG_PlaybackStart` -/

theorem synth_refl (s : State) : SynthOnly s s := rfl

theorem synth_updVoice {s t : State} (i : Int) (g : Voice_Data → Voice_Data)
    (h : SynthOnly s t) : SynthOnly s (t.updVoice i g) := by
  unfold SynthOnly at h ⊢
  unfold State.updVoice
  rw [h]

theorem synth_updChannel {s t : State} (i : Int) (g : Channel_Data → Channel_Data)
    (h : SynthOnly s t) : SynthOnly s (t.updChannel i g) := by
  unfold SynthOnly at h ⊢
  unfold State.updChannel
  rw [h]

theorem synth_setStru6 {s t : State} (i k v : Int)
    (h : SynthOnly s t) : SynthOnly s (t.setStru6 i k v) := by
  unfold SynthOnly at h ⊢
  unfold State.setStru6
  rw [h]

theorem synth_A0 {s t : State} (a b : Int) (h : SynthOnly s t) :
    SynthOnly s (sub_C00373A0 t a b).1 := by
  unfold SynthOnly at h ⊢
  unfold sub_C00373A0
  rw [h]

theorem synth_400 {s t : State} (h : SynthOnly s t) : SynthOnly s (sub_C0037400 t).1 := by
  unfold SynthOnly at h ⊢
  unfold sub_C0037400
  rw [h]

theorem synth_420 {s t : State} (a : Int) (h : SynthOnly s t) :
    SynthOnly s (sub_C0037420 t a).1 := by
  unfold SynthOnly at h ⊢
  unfold sub_C0037420
  rw [h]

theorem synth_forRange {s : State} (lo hi : Int) (f : Int → State → State) (t : State)
    (hf : ∀ i u, SynthOnly s u → SynthOnly s (f i u)) (h : SynthOnly s t) :
    SynthOnly s (forRange lo hi f t) :=
  forRange_keeps f (fun u => SynthOnly s u) lo hi (fun i u _ _ hu => hf i u hu) t h

theorem synth_ProgramChange_layer {s t : State} (ci base : Int) (h : SynthOnly s t) :
    SynthOnly s (ProgramChange_layer t ci base) := by
  unfold ProgramChange_layer
  have h1 : SynthOnly s (forRange 0 14 (fun index u =>
      (sub_C0037400 u).1.setStru6 ci (base + index) (i16 (sub_C0037400 u).2)) t) :=
    synth_forRange _ _ _ _ (fun i u hu => synth_setStru6 _ _ _ (synth_400 hu)) h
  lift_lets
  intro s1 sh
  exact synth_setStru6 _ _ _ (synth_setStru6 _ _ _ (synth_setStru6 _ _ _ (synth_setStru6 _ _ _
    (synth_setStru6 _ _ _ (synth_setStru6 _ _ _ (synth_setStru6 _ _ _ (synth_setStru6 _ _ _
    (synth_setStru6 _ _ _ h1))))))))

theorem synth_ProgramChange {s t : State} (ci p : Int) (h : SynthOnly s t) :
    SynthOnly s (ProgramChange t ci p) := by
  unfold ProgramChange
  lift_lets
  intros
  exact synth_ProgramChange_layer _ _ (synth_ProgramChange_layer _ _
    (synth_A0 _ _ (synth_420 _ (synth_A0 _ _ h))))

theorem setStru6_voices (t : State) (i k v : Int) :
    (t.setStru6 i k v).voice_data = t.voice_data := rfl

theorem ProgramChange_layer_voices (u : State) (ci base : Int) :
    (ProgramChange_layer u ci base).voice_data = u.voice_data := by
  unfold ProgramChange_layer
  lift_lets
  intro s1 sh
  have h1 : s1.voice_data = u.voice_data :=
    forRange_keeps (fun index (x : State) =>
        (sub_C0037400 x).1.setStru6 ci (base + index) (i16 (sub_C0037400 x).2))
      (fun x => x.voice_data = u.voice_data) 0 14 (fun i x _ _ hx => hx) u rfl
  simp only [sh, setStru6_voices]
  exact h1

theorem ProgramChange_voices (t : State) (ci p : Int) :
    (ProgramChange t ci p).voice_data = t.voice_data := by
  unfold ProgramChange
  lift_lets
  intros
  rw [ProgramChange_layer_voices, ProgramChange_layer_voices]
  rfl

theorem InitializeStructures_spec (s : State) :
    SynthOnly s (InitializeStructures s).1
    ∧ ∀ i, 0 ≤ i → i < 64 → ((InitializeStructures s).1.voice_data i).note_number = 255 := by
  unfold InitializeStructures
  lift_lets
  intro s1 s2
  have a1 : SynthOnly s s1 :=
    synth_forRange _ _ _ _ (fun i u hu => synth_updVoice _ _ hu) (synth_refl s)
  have a2 : SynthOnly s s2 :=
    synth_forRange _ _ _ _ (fun i u hu => synth_updChannel _ _ hu) a1
  have b1 : ∀ i, 0 ≤ i → i < 64 → (s1.voice_data i).note_number = 255 := by
    have := forRange_inv
      (fun index u => State.updVoice u index (fun w => { w with note_number := 255 }))
      (fun j u => ∀ i, 0 ≤ i → i < j → (u.voice_data i).note_number = 255) 0 MAX_VOICES
      (by unfold MAX_VOICES; omega)
      (by
        intro j u _ _ hq i hi1 hi2
        by_cases hij : i = j
        · subst hij
          simp only [State.updVoice, Function.update_same]
        · simp only [State.updVoice, Function.update_noteq hij]
          exact hq i hi1 (by omega))
      s (by intro i h1 h2; omega)
    exact this
  have b2 : s2.voice_data = s1.voice_data :=
    forRange_keeps _ (fun x : State => x.voice_data = s1.voice_data) 0 MIDI_CHANNELS
      (fun i x _ _ hx => hx) s1 rfl
  have b3 : (forRange 0 MIDI_CHANNELS (fun index t => ProgramChange t index 0) s2).voice_data
      = s2.voice_data :=
    forRange_keeps _ (fun x : State => x.voice_data = s2.voice_data) 0 MIDI_CHANNELS
      (fun i x _ _ hx => (ProgramChange_voices x i 0).trans hx) s2 rfl
  refine ⟨synth_forRange _ _ _ _ (fun i u hu => synth_ProgramChange _ _ hu) a2, ?_⟩
  intro i hi1 hi2
  show ((forRange 0 MIDI_CHANNELS (fun index t => ProgramChange t index 0) s2).voice_data
    i).note_number = 255
  rw [b3, b2]
  exact b1 i hi1 hi2

theorem PlaybackStart_eq (s : State) :
    (VLSG_PlaybackStart s).1 =
      { (InitializeStructures { s with
            current_polyphony := 0, dword_C0000000 := 0, effect_type := 6,
            recent_voice_index := 0, event_length := 0, event_type := 0,
            reverb_data_ptr := 1, reverb_data_index := 0, processing_phase := 0,
            midi_data_write_index := 0, midi_data_read_index := 0 }).1 with
        dword_C0000004 := 2972 } := by
  have e : ∀ x : State, (InitializeStructures x).2 = 0 := fun x => rfl
  simp only [VLSG_PlaybackStart, InitializeEffect, InitializeVariables, InitializeReverbBuffer,
    InitializePhase, InitializeMidiDataBuffer, e, ne_eq, not_true_eq_false, if_false]

/-! ## The polyphony invariant in every reachable state -/

theorem synth_fields {s t : State} (h : SynthOnly s t) :
    t.maximum_polyphony = s.maximum_polyphony
    ∧ t.maximum_polyphony_new_value = s.maximum_polyphony_new_value
    ∧ t.output_size_para = s.output_size_para
    ∧ t.midi_data_read_index = s.midi_data_read_index
    ∧ t.midi_data_write_index = s.midi_data_write_index
    ∧ t.reverb_data_buffer = s.reverb_data_buffer
    ∧ t.recent_voice_index = s.recent_voice_index
    ∧ t.is_reverb_enabled = s.is_reverb_enabled
    ∧ t.output_data_ptr = s.output_data_ptr := by
  unfold SynthOnly at h
  refine ⟨?_, ?_, ?_, ?_, ?_, ?_, ?_, ?_, ?_⟩ <;> (rw [h])

theorem polyBound_congr {s t : State} (h : PolyBound s)
    (a : t.maximum_polyphony = s.maximum_polyphony)
    (b : t.maximum_polyphony_new_value = s.maximum_polyphony_new_value)
    (c : t.voice_data = s.voice_data) : PolyBound t := by
  obtain ⟨⟨h1, h2, h3, h4, h5⟩, h6⟩ := h
  refine ⟨⟨by rw [b]; exact h1, by rw [b]; exact h2, by rw [a]; exact h3,
    by rw [a, b]; exact h4, ?_⟩, ?_⟩
  · intro i hi1 hi2
    rw [a] at hi1
    rw [c]
    exact h5 i hi1 hi2
  · intro i hi1 hi2
    rw [a] at hi1
    rw [c]
    exact h6 i hi1 hi2

theorem init_polyBound (x : State) (h : PolyphonySet x) :
    PolyBound (InitializeStructures x).1 := by
  obtain ⟨h1, h2, h3, h4⟩ := h
  obtain ⟨hs, hn⟩ := InitializeStructures_spec x
  obtain ⟨a, b, _⟩ := synth_fields hs
  refine ⟨⟨by rw [b]; exact h1, by rw [b]; exact h2, by rw [a]; exact h3,
    by rw [a, b]; exact h4, ?_⟩, ?_⟩
  · intro i hi1 hi2
    exact hn i (by omega) hi2
  · intro i hi1 hi2
    rw [a] at hi1
    exact hn i (by omega) hi2

theorem polyBound_setC4 (x : State) (v : Int) (h : PolyBound x) :
    PolyBound { x with dword_C0000004 := v } :=
  polyBound_congr h rfl rfl rfl

theorem start_polyBound (s0 : State) (h : PolyphonySet s0) :
    PolyBound (VLSG_PlaybackStart s0).1 := by
  rw [PlaybackStart_eq]
  have hp : PolyphonySet { s0 with
      current_polyphony := 0, dword_C0000000 := 0, effect_type := 6,
      recent_voice_index := 0, event_length := 0, event_type := 0,
      reverb_data_ptr := 1, reverb_data_index := 0, processing_phase := 0,
      midi_data_write_index := 0, midi_data_read_index := 0 } := h
  exact polyBound_setC4 _ _ (init_polyBound _ hp)

theorem addMidi_poly (bytes : List Int) : ∀ s : State,
    (VLSG_AddMidiData s bytes).maximum_polyphony = s.maximum_polyphony
    ∧ (VLSG_AddMidiData s bytes).maximum_polyphony_new_value = s.maximum_polyphony_new_value
    ∧ (VLSG_AddMidiData s bytes).voice_data = s.voice_data := by
  induction bytes with
  | nil => intro s; exact ⟨rfl, rfl, rfl⟩
  | cons b rest ih =>
    intro s
    rw [addMidi_cons]
    exact ih (AddByteToMidiDataBuffer s b)

theorem addMidi_polyBound (s : State) (bytes : List Int) (h : PolyBound s) :
    PolyBound (VLSG_AddMidiData s bytes) := by
  obtain ⟨a, b, c⟩ := addMidi_poly bytes s
  exact polyBound_congr h a b c

theorem reachable_polyBound (s0 s : State) (h0 : PolyphonySet s0) (hr : Reachable s0 s) :
    PolyBound s := by
  induction hr with
  | start => exact start_polyBound s0 h0
  | add s bytes _ ih => exact addMidi_polyBound s bytes ih
  | fill s mem counter time1 time4 r _ hf ih => exact fill_spec ih.1 hf

/-- Claim C4, amended: when the polyphony has been set before the start (the ceiling
`maximum_polyphony_new_value` is between 2 and 64 and the current maximum between 0 and the
ceiling, as after `VLSG_SetParameter` with `PARAMETER_Polyphony`), then in every state
reached from `VLSG_PlaybackStart` by calls of `VLSG_AddMidiData` and `VLSG_FillOutputBuffer`
(any bytes, any readings of the clock) the number of voices whose note is not 255 is at
most `maximum_polyphony`, and `maximum_polyphony` is at most 64. -/
theorem C4_polyphony_invariant (s0 s : State) (h0 : PolyphonySet s0)
    (hr : Reachable s0 s) :
    (activeCount s : Int) ≤ s.maximum_polyphony ∧ s.maximum_polyphony ≤ 64 := by
  obtain ⟨⟨h1, h2, h3, h4, _⟩, h6⟩ := reachable_polyBound s0 s h0 hr
  exact ⟨activeCount_le s s.maximum_polyphony h3 h6, by omega⟩

/-- Witness of the amended C4: the loaded module after `VLSG_SetParameter` with
`PARAMETER_Polyphony` and the value `0x10`, in the state after `VLSG_PlaybackStart`. -/
theorem C4_polyphony_invariant_witness :
    PolyphonySet (VLSG_SetParameter (zeroState (fun _ => 0)) PARAMETER_Polyphony 16).1
    ∧ Reachable (VLSG_SetParameter (zeroState (fun _ => 0)) PARAMETER_Polyphony 16).1
        (VLSG_PlaybackStart
          (VLSG_SetParameter (zeroState (fun _ => 0)) PARAMETER_Polyphony 16).1).1
    ∧ ((activeCount (VLSG_PlaybackStart
          (VLSG_SetParameter (zeroState (fun _ => 0)) PARAMETER_Polyphony 16).1).1 : Int)
        ≤ (VLSG_PlaybackStart
          (VLSG_SetParameter (zeroState (fun _ => 0)) PARAMETER_Polyphony 16).1).1.maximum_polyphony
      ∧ (VLSG_PlaybackStart
          (VLSG_SetParameter (zeroState (fun _ => 0)) PARAMETER_Polyphony 16).1).1.maximum_polyphony
        ≤ 64) :=
  ⟨by unfold PolyphonySet; decide, Reachable.start,
    C4_polyphony_invariant _ _ (by unfold PolyphonySet; decide) Reachable.start⟩

set_option maxRecDepth 100000 in
/-- Counterexample to C4 as stated: the module is started with its ROM, its output buffer and
its frequency set but without any call of `VLSG_SetParameter` for the polyphony (so that
`maximum_polyphony` and its ceiling are 0, as loaded), a Note On is written and one callback
runs. In the state reached, one voice is active while `maximum_polyphony` is 0. -/
theorem C4_counterexample :
    ∃ s, Reachable C4_module s
      ∧ activeCount s = 1 ∧ s.maximum_polyphony = 0
      ∧ ¬ ((activeCount s : Int) ≤ s.maximum_polyphony) := by
  have h : (VLSG_FillOutputBuffer C4_state (fun _ => 0) 0 1000 1000).map
      (fun r => (activeCount r.1, r.1.maximum_polyphony)) = some (1, 0) := by
    decide
  cases hf : VLSG_FillOutputBuffer C4_state (fun _ => 0) 0 1000 1000 with
  | none => rw [hf] at h; simp at h
  | some r =>
    rw [hf] at h
    simp only [Option.map_some', Option.some.injEq, Prod.mk.injEq] at h
    refine ⟨r.1, Reachable.fill _ _ _ _ _ r (Reachable.add _ _ Reachable.start) hf,
      h.1, h.2, ?_⟩
    rw [h.1, h.2]
    decide

/-! ## The calls return

The loops of `ReduceActiveVoices` walk the ring of voices until they meet
`recent_voice_index`; they are left within one turn when that index is a place of the
ring. -/

theorem free_fields (s : State) (vi : Int) (c : Prop) [Decidable c] :
    (if c then s.updVoice vi (fun w => { w with note_number := 255 }) else s).recent_voice_index
      = s.recent_voice_index
    ∧ (if c then s.updVoice vi (fun w => { w with note_number := 255 }) else s).maximum_polyphony
      = s.maximum_polyphony := by
  split <;> exact ⟨rfl, rfl⟩

theorem Reduce_loop1_total (mv r m : Int) (hr0 : 0 ≤ r) (hm : m ≤ 64) :
    ∀ (n : Nat) (index a : Int) (s : State),
    s.recent_voice_index = r → s.maximum_polyphony = m → 0 ≤ index → index < m → index ≠ r →
    (if index < r then r - index else r - index + m) ≤ n → r < m →
    ∃ q, ReduceActiveVoices_loop1 mv n index a s = some q
      ∧ q.1.recent_voice_index = r ∧ q.1.maximum_polyphony = m := by
  intro n
  induction n with
  | zero =>
    intro index a s _ _ h0 h1 h2 hd hrm
    exfalso
    split at hd <;> omega
  | succ n ih =>
    intro index a s hs1 hs2 h0 h1 h2 hd hrm
    unfold ReduceActiveVoices_loop1
    lift_lets
    intro w freed s1 active1
    have f := free_fields s index freed
    have f1 : s1.recent_voice_index = r := f.1.trans hs1
    have f2 : s1.maximum_polyphony = m := f.2.trans hs2
    split
    · exact ⟨_, rfl, f1, f2⟩
    · split
      · rename_i hne
        have hn : nextIndex s index = if index + 1 ≥ m then 0 else index + 1 := by
          unfold nextIndex; rw [hs2]
        rw [hs1] at hne
        rw [hn] at hne ⊢
        have hu : ∀ x : Int, 0 ≤ x → x < 64 → u32 x = x := by
          intro x a b; unfold u32; omega
        split at hd <;> split at hne
        · rw [hu 0 (by omega) (by omega)] at hne
          rw [if_pos (by assumption)]
          exact ih 0 active1 s1 f1 f2 (by omega) (by omega) (by omega)
            (by split <;> omega) hrm
        · rw [hu (index + 1) (by omega) (by omega)] at hne
          rw [if_neg (by assumption)]
          exact ih (index + 1) active1 s1 f1 f2 (by omega) (by omega) (by omega)
            (by split <;> omega) hrm
        · rw [hu 0 (by omega) (by omega)] at hne
          rw [if_pos (by assumption)]
          exact ih 0 active1 s1 f1 f2 (by omega) (by omega) (by omega)
            (by split <;> omega) hrm
        · rw [hu (index + 1) (by omega) (by omega)] at hne
          rw [if_neg (by assumption)]
          exact ih (index + 1) active1 s1 f1 f2 (by omega) (by omega) (by omega)
            (by split <;> omega) hrm
      · exact ⟨_, rfl, f1, f2⟩

theorem Reduce_loop2_total (mv r m : Int) (hr0 : 0 ≤ r) (hm : m ≤ 64) :
    ∀ (n : Nat) (index a : Int) (s : State),
    s.recent_voice_index = r → s.maximum_polyphony = m → 0 ≤ index → index < m → index ≠ r →
    (if index < r then r - index else r - index + m) ≤ n → r < m →
    ∃ q, ReduceActiveVoices_loop2 mv n index a s = some q := by
  intro n
  induction n with
  | zero =>
    intro index a s _ _ h0 h1 h2 hd hrm
    exfalso
    split at hd <;> omega
  | succ n ih =>
    intro index a s hs1 hs2 h0 h1 h2 hd hrm
    unfold ReduceActiveVoices_loop2
    lift_lets
    intro freed s1 active1
    have f := free_fields s index freed
    have f1 : s1.recent_voice_index = r := f.1.trans hs1
    have f2 : s1.maximum_polyphony = m := f.2.trans hs2
    split
    · exact ⟨_, rfl⟩
    · split
      · exact ⟨_, rfl⟩
      · rename_i hne
        have hn : nextIndex s index = if index + 1 ≥ m then 0 else index + 1 := by
          unfold nextIndex; rw [hs2]
        rw [hs1] at hne
        rw [hn] at hne ⊢
        have hu : ∀ x : Int, 0 ≤ x → x < 64 → u32 x = x := by
          intro x a b; unfold u32; omega
        split at hd <;> split at hne
        · rw [hu 0 (by omega) (by omega)] at hne
          rw [if_pos (by assumption)]
          exact ih 0 active1 s1 f1 f2 (by omega) (by omega) (by omega)
            (by split <;> omega) hrm
        · rw [hu (index + 1) (by omega) (by omega)] at hne
          rw [if_neg (by assumption)]
          exact ih (index + 1) active1 s1 f1 f2 (by omega) (by omega) (by omega)
            (by split <;> omega) hrm
        · rw [hu 0 (by omega) (by omega)] at hne
          rw [if_pos (by assumption)]
          exact ih 0 active1 s1 f1 f2 (by omega) (by omega) (by omega)
            (by split <;> omega) hrm
        · rw [hu (index + 1) (by omega) (by omega)] at hne
          rw [if_neg (by assumption)]
          exact ih (index + 1) active1 s1 f1 f2 (by omega) (by omega) (by omega)
            (by split <;> omega) hrm

theorem ReduceActiveVoices_total (s : State) (mv : Int) (h : RecentOk s) :
    ∃ t, ReduceActiveVoices s mv = some t := by
  obtain ⟨h1, h2, h3⟩ := h
  unfold ReduceActiveVoices
  split
  · exact ⟨_, rfl⟩
  · rename_i hlt
    split
    · rename_i hpos
      lift_lets
      intro index2a index2 active_voices
      have e : index2a = s.recent_voice_index + 1 := by
        show i32 (u32 (s.recent_voice_index + 1)) = s.recent_voice_index + 1
        unfold i32 u32
        omega
      have e2 : index2 = if s.recent_voice_index + 1 ≥ s.maximum_polyphony then 0
          else s.recent_voice_index + 1 := by
        show (if index2a ≥ s.maximum_polyphony then 0 else index2a) = _
        rw [e]
      have hfuel : ((s.maximum_polyphony.toNat : Nat) : Int) = s.maximum_polyphony := by omega
      have hrm : s.recent_voice_index < s.maximum_polyphony := by omega
      have b0 : 0 ≤ index2 := by rw [e2]; split <;> omega
      have b1 : index2 < s.maximum_polyphony := by rw [e2]; split <;> omega
      have b2 : index2 ≠ s.recent_voice_index := by rw [e2]; split <;> omega
      have b3 : (if index2 < s.recent_voice_index then s.recent_voice_index - index2
          else s.recent_voice_index - index2 + s.maximum_polyphony)
          ≤ ((s.maximum_polyphony.toNat : Nat) : Int) := by
        rw [hfuel, e2]
        split <;> split <;> omega
      obtain ⟨q, hq, q1, q2⟩ := Reduce_loop1_total mv s.recent_voice_index s.maximum_polyphony
        h2 h1 s.maximum_polyphony.toNat index2 active_voices s rfl rfl b0 b1 b2 b3 hrm
      rw [hq]
      obtain ⟨s1, a1, fl⟩ := q
      cases fl with
      | true => exact ⟨_, rfl⟩
      | false =>
        exact Reduce_loop2_total mv s.recent_voice_index s.maximum_polyphony
          h2 h1 s.maximum_polyphony.toNat index2 a1 s1 q1 q2 b0 b1 b2 b3 hrm
    · exact ⟨_, rfl⟩

/-- A call of `SetMaximumVoices` returns when `recent_voice_index` is a place of the ring of
voices; it puts that index to 0 and leaves the MIDI ring buffer as it is. -/
theorem SetMaximumVoices_total (s : State) (mv : Int) (h : RecentOk s) :
    ∃ t, SetMaximumVoices s mv = some t ∧ t.recent_voice_index = 0
      ∧ (ringOk s → ringOk t ∧ pendingBytes t ≤ pendingBytes s) := by
  obtain ⟨t1, ht1⟩ := ReduceActiveVoices_total s mv h
  unfold SetMaximumVoices
  rw [ht1]
  refine ⟨_, rfl, rfl, ?_⟩
  have h1 : Frame s t1 := frame_ReduceActiveVoices mv ht1 (frame_refl s)
  have h2 : Frame s (DefragmentVoices t1) := frame_DefragmentVoices h1
  exact forRange_keeps
    (fun index u => State.updVoice u index (fun w => { w with note_number := 255 }))
    (fun u => ringOk s → ringOk u ∧ pendingBytes u ≤ pendingBytes s) mv MAX_VOICES
    (fun i u _ _ hu => hu)
    { (DefragmentVoices t1) with maximum_polyphony := mv } h2.ring

/-! ### The invariant `Good` through the governor and at the start -/

theorem recentOk_setNew (t : State) (mv : Int) (h0 : t.recent_voice_index = 0)
    (h1 : t.maximum_polyphony ≤ 64) :
    RecentOk { t with maximum_polyphony_new_value := mv } := by
  refine ⟨h1, ?_, ?_⟩
  · show 0 ≤ t.recent_voice_index
    omega
  · show t.recent_voice_index < max 1 t.maximum_polyphony
    omega

theorem recentOk_governor (x : State) (hp : PolyInv x) (hr : RecentOk x) (ho : ringOk x) :
    RecentOk { CountActiveVoices x with
      maximum_polyphony := (CountActiveVoices x).maximum_polyphony_new_value }
    ∧ ringOk { CountActiveVoices x with
      maximum_polyphony := (CountActiveVoices x).maximum_polyphony_new_value } := by
  obtain ⟨p1, p2, p3, p4, _⟩ := hp
  obtain ⟨r1, r2, r3⟩ := hr
  refine ⟨⟨?_, ?_, ?_⟩, ho⟩
  · show x.maximum_polyphony_new_value ≤ 64
    exact p2
  · show 0 ≤ x.recent_voice_index
    exact r2
  · show x.recent_voice_index < max 1 x.maximum_polyphony_new_value
    omega

theorem governor_returns (s : State) (t1 t4 : Int) (hg : Good s) :
    ∃ r, VLSG_FillOutputBuffer_governor s t1 t4 = some r ∧ ringOk r
      ∧ 0 ≤ r.recent_voice_index
      ∧ (r.recent_voice_index = 0 ∨ r.recent_voice_index < max 1 r.maximum_polyphony) := by
  obtain ⟨hp, hr, ho⟩ := hg
  obtain ⟨a, b⟩ := recentOk_governor s hp hr ho
  unfold VLSG_FillOutputBuffer_governor
  lift_lets
  intro s1 dt s2
  have a2 : RecentOk s2 := a
  have b2 : ringOk s2 := b
  have k : ∀ mv, ∃ r, SetMaximumVoices s2 mv = some r ∧ ringOk r
      ∧ 0 ≤ r.recent_voice_index
      ∧ (r.recent_voice_index = 0 ∨ r.recent_voice_index < max 1 r.maximum_polyphony) := by
    intro mv
    obtain ⟨t, ht, h0, hring⟩ := SetMaximumVoices_total s2 mv a2
    exact ⟨t, ht, (hring b2).1, by omega, Or.inl h0⟩
  split
  · exact k 2
  · split
    · split
      · exact k _
      · exact k _
    · exact ⟨s2, rfl, b2, a2.2.1, Or.inr a2.2.2⟩

/-- The last part of `VLSG_FillOutputBuffer` returns and keeps the invariant. -/
theorem governor_total (s : State) (t1 t4 : Int) (hg : Good s) :
    ∃ r, VLSG_FillOutputBuffer_governor s t1 t4 = some r ∧ Good r ∧ PolyBound r := by
  obtain ⟨r, hr, g1, g2, g3⟩ := governor_returns s t1 t4 hg
  obtain ⟨pb, _⟩ := governor_spec t1 t4 hg.1 hr
  refine ⟨r, hr, ⟨pb.1, ⟨?_, g2, ?_⟩, g1⟩, pb⟩
  · obtain ⟨p1, p2, p3, p4, _⟩ := pb.1
    omega
  · rcases g3 with g3 | g3
    · omega
    · exact g3

theorem clock_good (s : State) (c t1 : Int) (h : Good s) :
    Good (VLSG_FillOutputBuffer_clock s c t1) := by
  obtain ⟨hp, hr, ho⟩ := h
  refine ⟨(keeps_clock s c t1).2 hp, ?_, ?_⟩
  · unfold VLSG_FillOutputBuffer_clock
    lift_lets
    intro restart value1 time2 s1 s2
    have e1 : RecentOk s1 := by
      show RecentOk (if restart then _ else s)
      split
      · exact hr
      · exact hr
    have e2 : RecentOk s2 := e1
    split
    · exact e2
    · exact e2
  · unfold VLSG_FillOutputBuffer_clock
    lift_lets
    intro restart value1 time2 s1 s2
    have e1 : ringOk s1 := by
      show ringOk (if restart then _ else s)
      split
      · exact ho
      · exact ho
    have e2 : ringOk s2 := e1
    split
    · exact e2
    · exact e2

theorem good_setC4 (x : State) (v : Int) (h : Good x) :
    Good { x with dword_C0000004 := v } := h

theorem init_good (x : State) (h : PolyphonySet x) (h0 : x.recent_voice_index = 0)
    (h1 : x.midi_data_read_index = 0) (h2 : x.midi_data_write_index = 0) :
    Good (InitializeStructures x).1 := by
  have pb := init_polyBound x h
  obtain ⟨hs, _⟩ := InitializeStructures_spec x
  obtain ⟨a, b, c, d, e, f, g, _⟩ := synth_fields hs
  obtain ⟨p1, p2, p3, p4, _⟩ := pb.1
  refine ⟨pb.1, ⟨by omega, ?_, ?_⟩, ?_⟩
  · rw [g, h0]
  · rw [g, h0]
    omega
  · unfold ringOk
    rw [d, e, h1, h2]
    omega

theorem start_good (s0 : State) (h : PolyphonySet s0) : Good (VLSG_PlaybackStart s0).1 := by
  rw [PlaybackStart_eq]
  have hp : PolyphonySet { s0 with
      current_polyphony := 0, dword_C0000000 := 0, effect_type := 6,
      recent_voice_index := 0, event_length := 0, event_type := 0,
      reverb_data_ptr := 1, reverb_data_index := 0, processing_phase := 0,
      midi_data_write_index := 0, midi_data_read_index := 0 } := h
  exact good_setC4 _ _ (init_good _ hp rfl rfl rfl)

theorem addByte_good (s : State) (b : Int) (h : Good s) :
    Good (AddByteToMidiDataBuffer s b) := by
  obtain ⟨hp, hr, a1, a2, a3, a4⟩ := h
  refine ⟨hp, hr, a1, a2, ?_, ?_⟩
  · show 0 ≤ (s.midi_data_write_index + 1) % 65536
    omega
  · show (s.midi_data_write_index + 1) % 65536 < 65536
    omega

/-! ## The bytes that a callback writes -/

theorem forUp_rel {σ : Type} (f : Int → σ → σ) (R : Int → σ → σ → Prop) (lo0 hi : Int)
    (hstep : ∀ i a b, lo0 ≤ i → i < hi → R i a b → R (i + 1) (f i a) (f i b)) :
    ∀ (n : Nat) (lo : Int) (a b : σ), lo0 ≤ lo → lo + n ≤ hi → R lo a b →
      R (lo + n) (forUp f n lo a) (forUp f n lo b) := by
  intro n
  induction n with
  | zero =>
    intro lo a b _ _ h
    simpa [forUp] using h
  | succ n ih =>
    intro lo a b h0 h1 h
    have e : lo + ((n + 1 : Nat) : Int) = lo + 1 + (n : Int) := by push_cast; ring
    rw [e] at h1 ⊢
    exact ih (lo + 1) (f lo a) (f lo b) (by omega) h1 (hstep lo a b h0 (by omega) h)

theorem forRange_rel {σ : Type} (f : Int → σ → σ) (R : Int → σ → σ → Prop) (lo hi : Int)
    (hle : lo ≤ hi)
    (hstep : ∀ i a b, lo ≤ i → i < hi → R i a b → R (i + 1) (f i a) (f i b))
    (a b : σ) (h : R lo a b) : R hi (forRange lo hi f a) (forRange lo hi f b) := by
  unfold forRange
  have e : lo + (((hi - lo).toNat : Nat) : Int) = hi := by
    rw [Int.toNat_of_nonneg (by omega)]
    ring
  have := forUp_rel f R lo hi hstep (hi - lo).toNat lo a b (le_refl lo) (by omega) h
  rw [e] at this
  exact this

/-- Two stores of an `int16_t` at `A` and `A + 2` leave every other byte as it is. -/
theorem store2_other (m : Int → Int) (A v1 v2 x : Int)
    (h : x < A ∨ A + 4 ≤ x) :
    storeI16 (storeI16 m A v1) (A + 2) v2 x = m x := by
  unfold storeI16
  rw [Function.update_noteq (by omega), Function.update_noteq (by omega),
    Function.update_noteq (by omega), Function.update_noteq (by omega)]

/-- The four bytes at `A` after two stores of an `int16_t` at `A` and `A + 2` do not depend
on the memory before. -/
theorem store2_same (m1 m2 : Int → Int) (A v1 v2 x : Int)
    (h1 : A ≤ x) (h2 : x < A + 4) :
    storeI16 (storeI16 m1 A v1) (A + 2) v2 x = storeI16 (storeI16 m2 A v1) (A + 2) v2 x := by
  unfold storeI16
  have c : x = A ∨ x = A + 1 ∨ x = A + 2 ∨ x = A + 2 + 1 := by omega
  rcases c with c | c | c | c
  · subst c
    rw [Function.update_noteq (by omega), Function.update_noteq (by omega),
      Function.update_noteq (by omega), Function.update_same,
      Function.update_noteq (by omega), Function.update_noteq (by omega),
      Function.update_noteq (by omega), Function.update_same]
  · subst c
    rw [Function.update_noteq (by omega), Function.update_noteq (by omega),
      Function.update_same,
      Function.update_noteq (by omega), Function.update_noteq (by omega),
      Function.update_same]
  · subst c
    rw [Function.update_noteq (by omega), Function.update_same,
      Function.update_noteq (by omega), Function.update_same]
  · subst c
    rw [Function.update_same, Function.update_same]

/-- The memory effect of `GenerateOutputData` on two memories: the states after the call are
the same, the bytes `[output_ptr + 4 * offset1, output_ptr + 4 * offset2)` are the same, and
every other byte is as before. -/
theorem GenerateOutputData_mem (s : State) (mem mem2 : Int → Int) (p o1 o2 : Int)
    (h0 : 0 ≤ o1) (h1 : o1 ≤ o2) (h2 : o2 ≤ 1073741824) :
    (GenerateOutputData s mem p o1 o2).1 = (GenerateOutputData s mem2 p o1 o2).1
    ∧ (∀ x, p + 4 * o1 ≤ x → x < p + 4 * o2 →
        (GenerateOutputData s mem p o1 o2).2 x = (GenerateOutputData s mem2 p o1 o2).2 x)
    ∧ (∀ x, ¬ (p + 4 * o1 ≤ x ∧ x < p + 4 * o2) →
        (GenerateOutputData s mem p o1 o2).2 x = mem x
        ∧ (GenerateOutputData s mem2 p o1 o2).2 x = mem2 x) := by
  unfold GenerateOutputData
  lift_lets
  intro s1 m
  refine forRange_rel _
    (fun i (a b : State × (Int → Int)) => a.1 = b.1
      ∧ (∀ x, p + 4 * o1 ≤ x → x < p + 4 * i → a.2 x = b.2 x)
      ∧ (∀ x, ¬ (p + 4 * o1 ≤ x ∧ x < p + 4 * i) → a.2 x = mem x ∧ b.2 x = mem2 x))
    o1 o2 h1 ?_ (s1, mem) (s1, mem2) ⟨rfl, fun x a b => by omega, fun x _ => ⟨rfl, rfl⟩⟩
  intro i a b hi1 hi2 hr
  obtain ⟨r1, r2, r3⟩ := hr
  have e1 : u32 (2 * i) = 2 * i := by unfold u32; omega
  have e2 : u32 (2 * i + 1) = 2 * i + 1 := by unfold u32; omega
  have e3 : p + 2 * (2 * i) = p + 4 * i := by ring
  have e4 : p + 2 * (2 * i + 1) = p + 4 * i + 2 := by ring
  simp only [e1, e2, e3, e4]
  rw [← r1]
  refine ⟨rfl, ?_, ?_⟩
  · intro x hx1 hx2
    by_cases hx : x < p + 4 * i
    · rw [store2_other _ _ _ _ _ (Or.inl hx), store2_other _ _ _ _ _ (Or.inl hx)]
      exact r2 x hx1 hx
    · exact store2_same _ _ _ _ _ _ (by omega) (by omega)
  · intro x hx
    have hx' : x < p + 4 * i ∨ p + 4 * i + 4 ≤ x := by omega
    rw [store2_other _ _ _ _ _ hx', store2_other _ _ _ _ _ hx']
    exact r3 x (by omega)

theorem fill_loop_succ (p : Int) (n : Nat) (off : Int) (s s1 : State) (mem : Int → Int)
    (hm : ProcessMidiData s = some s1) (A : State × (Int → Int))
    (hA : GenerateOutputData (ProcessPhase s1) mem p off
      (u32 (off + (ProcessPhase s1).output_size_para)) = A) :
    VLSG_FillOutputBuffer_loop p (n + 1) off s mem
      = VLSG_FillOutputBuffer_loop p n (u32 (off + A.1.output_size_para))
          { A.1 with
            dword_C0000000 := u32 (A.1.dword_C0000000 + 1),
            system_time_1 := u32 (u32 (u32 (A.1.dword_C0000000 + 1) * A.1.dword_C0000004) / 512
              + A.1.dword_C0000008) } A.2 := by
  subst hA
  rw [VLSG_FillOutputBuffer_loop, hm]

/-- The memory effect of the passes of `VLSG_FillOutputBuffer` on two memories, for the block
size `K`: the states after the passes are the same, the bytes written are the same, and
every other byte is as before. -/
theorem fill_loop_mem (p K : Int) (hK0 : 0 ≤ K) :
    ∀ (n : Nat) (off : Int) (s : State) (mem mem2 : Int → Int) (r : State × (Int → Int)),
    s.output_size_para = K → 0 ≤ off → off + n * K ≤ 1073741824 →
    VLSG_FillOutputBuffer_loop p n off s mem = some r →
    ∃ r2, VLSG_FillOutputBuffer_loop p n off s mem2 = some r2 ∧ r2.1 = r.1
      ∧ (∀ x, p + 4 * off ≤ x → x < p + 4 * (off + n * K) → r2.2 x = r.2 x)
      ∧ (∀ x, ¬ (p + 4 * off ≤ x ∧ x < p + 4 * (off + n * K)) →
          r.2 x = mem x ∧ r2.2 x = mem2 x) := by
  intro n
  induction n with
  | zero =>
    intro off s mem mem2 r _ _ _ h
    simp only [VLSG_FillOutputBuffer_loop, Option.some.injEq] at h
    subst h
    refine ⟨(s, mem2), rfl, rfl, ?_, fun x _ => ⟨rfl, rfl⟩⟩
    intro x a b
    simp only [Nat.cast_zero, zero_mul, add_zero] at b
    omega
  | succ n ih =>
    intro off s mem mem2 r hs h0 h1 h
    have en : (((n + 1 : Nat) : Int)) * K = (n : Int) * K + K := by push_cast; ring
    rw [en] at h1 ⊢
    have hnK : 0 ≤ (n : Int) * K := mul_nonneg (Int.ofNat_nonneg n) hK0
    cases hm : ProcessMidiData s with
    | none =>
      unfold VLSG_FillOutputBuffer_loop at h
      rw [hm] at h
      simp at h
    | some s1 =>
      have k1 : s1.output_size_para = K := (keeps_ProcessMidiData hm).1.trans hs
      have k2 : (ProcessPhase s1).output_size_para = K :=
        (frame_ProcessPhase (frame_refl s1)).osp.trans k1
      have eu : u32 (off + K) = off + K := by unfold u32; omega
      have G := GenerateOutputData_mem (ProcessPhase s1) mem mem2 p off
        (u32 (off + (ProcessPhase s1).output_size_para)) h0 (by rw [k2, eu]; omega)
        (by rw [k2, eu]; omega)
      have kA : (GenerateOutputData (ProcessPhase s1) mem p off
          (u32 (off + (ProcessPhase s1).output_size_para))).1.output_size_para = K :=
        (frame_GenerateOutputData _ _ _ _ (frame_refl (ProcessPhase s1))).osp.trans k2
      rw [fill_loop_succ p n off s s1 mem hm _ rfl] at h
      rw [fill_loop_succ p n off s s1 mem2 hm _ rfl]
      generalize GenerateOutputData (ProcessPhase s1) mem p off
        (u32 (off + (ProcessPhase s1).output_size_para)) = A at h kA G
      generalize GenerateOutputData (ProcessPhase s1) mem2 p off
        (u32 (off + (ProcessPhase s1).output_size_para)) = B at G ⊢
      rw [k2, eu] at G
      obtain ⟨g1, g2, g3⟩ := G
      rw [← g1]
      rw [kA, eu] at h ⊢
      obtain ⟨r2, q1, q2, q3, q4⟩ := ih (off + K) _ A.2 B.2 r (by exact kA) (by omega) (by omega) h
      refine ⟨r2, q1, q2, ?_, ?_⟩
      · intro x hx1 hx2
        by_cases hx : x < p + 4 * (off + K)
        · have a := q4 x (by omega)
          rw [a.1, a.2]
          exact (g2 x hx1 hx).symm
        · exact q3 x (by omega) (by omega)
      · intro x hx
        have a := q4 x (by omega)
        have b := g3 x (by omega)
        rw [a.1, a.2]
        exact b

theorem fill_ptr (c K : Int) (hK : K = 64 ∨ K = 128 ∨ K = 256) :
    u32 (u32 (c % 16 * K) * 16) = c % 16 * (4 * K) * 4 := by
  unfold u32
  rcases hK with rfl | rfl | rfl <;> omega

/-- The memory effect of `VLSG_FillOutputBuffer` for the block size `K` (64, 128 or 256):
the bytes of sub-buffer `c % 16` do not depend on the memory before the call, every other
byte is as before, and neither the state after the call nor the value returned depends on
the memory. -/
theorem fill_mem (s : State) (mem mem2 : Int → Int) (c t1 t4 K : Int)
    (r : State × (Int → Int) × Int) (hs : s.output_size_para = K)
    (hK : K = 64 ∨ K = 128 ∨ K = 256)
    (h : VLSG_FillOutputBuffer s mem c t1 t4 = some r) :
    ∃ r2, VLSG_FillOutputBuffer s mem2 c t1 t4 = some r2 ∧ r2.1 = r.1 ∧ r2.2.2 = r.2.2
      ∧ (∀ x, s.output_data_ptr + c % 16 * (4 * K) * 4 ≤ x →
          x < s.output_data_ptr + (c % 16 + 1) * (4 * K) * 4 → r2.2.1 x = r.2.1 x)
      ∧ (∀ x, ¬ (s.output_data_ptr + c % 16 * (4 * K) * 4 ≤ x
          ∧ x < s.output_data_ptr + (c % 16 + 1) * (4 * K) * 4) →
          r.2.1 x = mem x ∧ r2.2.1 x = mem2 x) := by
  obtain ⟨_, _, c3, c4, _⟩ := clock_fields s c t1
  have hK0 : 0 ≤ K := by omega
  unfold VLSG_FillOutputBuffer at h ⊢
  lift_lets at h
  extract_lets s1 output_ptr at h
  have e1 : s1.output_size_para = K := c3.trans hs
  have ep : output_ptr = s.output_data_ptr + c % 16 * (4 * K) * 4 := by
    show s1.output_data_ptr + u32 (u32 (c % 16 * s1.output_size_para) * 16) = _
    rw [e1, c4, fill_ptr c K hK]
  have es : VLSG_FillOutputBuffer_clock s c t1 = s1 := rfl
  have eo : s1.output_data_ptr + u32 (u32 (c % 16 * s1.output_size_para) * 16)
      = output_ptr := rfl
  clear_value output_ptr
  clear_value s1
  have e16 : (c % 16 + 1) * (4 * K) * 4 = c % 16 * (4 * K) * 4 + 16 * K := by ring
  cases hq : VLSG_FillOutputBuffer_loop output_ptr 4 0 s1 mem with
  | none => rw [hq] at h; simp at h
  | some q =>
    rw [hq] at h
    simp only at h
    cases hg : VLSG_FillOutputBuffer_governor q.1 t1 t4 with
    | none => rw [hg] at h; simp at h
    | some s2 =>
      rw [hg] at h
      simp only [Option.some.injEq] at h
      subst h
      obtain ⟨q2, a1, a2, a3, a4⟩ := fill_loop_mem output_ptr K hK0 4 0 s1 mem mem2 q e1
        (le_refl 0) (by push_cast; omega) hq
      simp only
      rw [es, eo, a1]
      simp only
      rw [a2, hg]
      refine ⟨_, rfl, rfl, rfl, ?_, ?_⟩
      · intro x hx1 hx2
        refine a3 x (by omega) ?_
        push_cast
        omega
      · intro x hx
        refine a4 x ?_
        push_cast
        omega

/-! ### The block size in the reachable states -/

theorem frequency_block (s : State) (f : Int) (hf : f = 0 ∨ f = 1 ∨ f = 2) :
    (VLSG_SetParameter s PARAMETER_Frequency f).1.output_size_para = 64 * 2 ^ f.toNat := by
  rcases hf with rfl | rfl | rfl
  · rfl
  · rfl
  · rfl

theorem governor_osp {s r : State} (t1 t4 : Int)
    (h : VLSG_FillOutputBuffer_governor s t1 t4 = some r) :
    r.output_size_para = s.output_size_para := by
  unfold VLSG_FillOutputBuffer_governor at h
  lift_lets at h
  extract_lets s1 dt s2 at h
  split at h
  · exact (SetMaximumVoices_spec _ h).2.2.1
  · split at h
    · split at h
      · exact (SetMaximumVoices_spec _ h).2.2.1
      · exact (SetMaximumVoices_spec _ h).2.2.1
    · simp only [Option.some.injEq] at h
      subst h
      rfl

theorem fill_osp {s : State} {mem : Int → Int} {c t1 t4 : Int}
    {r : State × (Int → Int) × Int} (h : VLSG_FillOutputBuffer s mem c t1 t4 = some r) :
    r.1.output_size_para = s.output_size_para := by
  obtain ⟨_, _, c3, _, _⟩ := clock_fields s c t1
  unfold VLSG_FillOutputBuffer at h
  lift_lets at h
  extract_lets s1 output_ptr at h
  split at h
  · simp at h
  · rename_i q hq
    split at h
    · simp at h
    · rename_i s2 hg
      simp only [Option.some.injEq] at h
      subst h
      have k2 := keeps_fill_loop _ _ _ _ _ _ hq
      exact (governor_osp t1 t4 hg).trans (k2.1.trans c3)

theorem init_osp (x : State) :
    (InitializeStructures x).1.output_size_para = x.output_size_para := by
  obtain ⟨hs, _⟩ := InitializeStructures_spec x
  exact (synth_fields hs).2.2.1

theorem osp_setC4 (x : State) (v K : Int) (h : x.output_size_para = K) :
    ({ x with dword_C0000004 := v } : State).output_size_para = K := h

theorem start_osp (s0 : State) :
    (VLSG_PlaybackStart s0).1.output_size_para = s0.output_size_para := by
  rw [PlaybackStart_eq]
  exact osp_setC4 _ _ _ (init_osp _)

theorem addMidi_osp (bytes : List Int) : ∀ s : State,
    (VLSG_AddMidiData s bytes).output_size_para = s.output_size_para := by
  induction bytes with
  | nil => intro s; rfl
  | cons b rest ih =>
    intro s
    rw [addMidi_cons]
    exact ih (AddByteToMidiDataBuffer s b)

theorem reachable_osp (s0 s : State) (hr : Reachable s0 s) :
    s.output_size_para = s0.output_size_para := by
  induction hr with
  | start => exact start_osp s0
  | add s bytes _ ih => exact (addMidi_osp bytes s).trans ih
  | fill s mem counter time1 time4 r _ hf ih => exact (fill_osp hf).trans ih

/-! ## The module that plays nothing -/

theorem forRange_id {σ : Type} (f : Int → σ → σ) (lo hi : Int) (a : σ)
    (h : ∀ i, lo ≤ i → i < hi → f i a = a) : forRange lo hi f a = a :=
  forRange_keeps f (fun u => u = a) lo hi (fun i u h1 h2 hu => by rw [hu]; exact h i h1 h2) a rfl

theorem sub_C0037140_free (s : State) (hf : AllFree s) (hm : s.maximum_polyphony ≤ 64) :
    sub_C0037140 s = s := by
  unfold sub_C0037140
  exact forRange_id _ _ _ _ (fun i h1 _ => if_pos (hf i h1 (by omega)))

theorem sub_C0036FE0_free (s : State) (hf : AllFree s) (hm : s.maximum_polyphony ≤ 64) :
    sub_C0036FE0 s = s := by
  unfold sub_C0036FE0
  exact forRange_id _ _ _ _ (fun i h1 _ => if_pos (hf i h1 (by omega)))

theorem ProcessPhase_pitch_free (s : State) (hf : AllFree s) (hm : s.maximum_polyphony ≤ 64) :
    ProcessPhase_pitch s = s := by
  unfold ProcessPhase_pitch
  exact forRange_id _ _ _ _ (fun i h1 _ => if_neg (not_not.mpr (hf i h1 (by omega))))

theorem phase0_free (x : State) (hf : AllFree x) (hm : x.maximum_polyphony ≤ 64) :
    forRange 0 x.maximum_polyphony (fun index t =>
      let w := t.voice_data index
      if w.note_number ≠ 255 then
        t.updVoice index (fun w => { w with
          field_54 := i16 (w.field_54 + dword_C0032188_at t (w.field_5A + 112)) })
      else t) x = x :=
  forRange_id _ _ _ _ (fun i h1 _ => if_neg (not_not.mpr (hf i h1 (by omega))))

theorem phase4_free (x : State) (hf : AllFree x) (hm : x.maximum_polyphony ≤ 64) :
    forRange 0 x.maximum_polyphony (fun index t =>
      if (t.voice_data index).note_number ≠ 255 then sub_C0036C20 t index else t) x = x :=
  forRange_id _ _ _ _ (fun i h1 _ => if_neg (not_not.mpr (hf i h1 (by omega))))

/-- With every voice free, `ProcessPhase` only counts the phase on. -/
theorem ProcessPhase_free (s : State) (hf : AllFree s) (hm : s.maximum_polyphony ≤ 64) :
    ProcessPhase s = { s with processing_phase := u32 (s.processing_phase + 1) } := by
  unfold ProcessPhase
  lift_lets
  intro phase s1
  have f1 : AllFree s1 := hf
  have m1 : s1.maximum_polyphony ≤ 64 := hm
  have e1 : sub_C0037140 s1 = s1 := sub_C0037140_free s1 f1 m1
  have e2 : sub_C0036FE0 s1 = s1 := sub_C0036FE0_free s1 f1 m1
  have e3 : ProcessPhase_pitch s1 = s1 := ProcessPhase_pitch_free s1 f1 m1
  have e5 := phase4_free s1 f1 m1
  rw [e5, e1, e2, e3]
  have e4 := phase0_free s1 f1 m1
  rw [e4]
  simp only [ite_self]

theorem ProcessMidiData_empty (s : State)
    (h : s.midi_data_write_index = s.midi_data_read_index) : ProcessMidiData s = some s := by
  unfold ProcessMidiData
  unfold ProcessMidiData_loop
  rw [getValue_empty s h]
  simp only [if_true]

theorem scan_none (s : State) (hf : AllFree s) (hm : s.maximum_polyphony ≤ 64) :
    ∀ (n : Nat) (idx : Int), 0 ≤ idx → (idx < s.maximum_polyphony ∨ n = 0) →
      DefragmentVoices_scan s n idx = none := by
  intro n
  induction n with
  | zero => intro idx _ _; rfl
  | succ n ih =>
    intro idx h0 h1
    have h1' : idx < s.maximum_polyphony := by
      rcases h1 with h1 | h1
      · exact h1
      · omega
    unfold DefragmentVoices_scan
    rw [if_pos (hf idx h0 (by omega))]
    split
    · rfl
    · exact ih (idx + 1) (by omega) (Or.inl (by omega))

theorem DefragmentVoices_free (s : State) (hf : AllFree s) (hm : s.maximum_polyphony ≤ 64) :
    DefragmentVoices s = s := by
  unfold DefragmentVoices
  by_cases hp : 0 < s.maximum_polyphony
  · obtain ⟨n, hn⟩ : ∃ n, s.maximum_polyphony.toNat = n + 1 :=
      ⟨s.maximum_polyphony.toNat - 1, by omega⟩
    rw [hn]
    unfold DefragmentVoices_loop
    rw [if_neg (by rw [hf 0 (le_refl 0) (by omega)]; simp)]
    simp only [lt_self_iff_false, if_false]
    rw [scan_none s hf hm _ 0 (le_refl 0) (Or.inl hp)]
  · have e : s.maximum_polyphony.toNat = 0 := by omega
    rw [e]
    rfl

theorem maxActiveIndex_free (s : State) (hf : AllFree s) (hm : s.maximum_polyphony ≤ 64) :
    maxActiveIndex s = -1 := by
  unfold maxActiveIndex
  exact forRange_id _ _ _ _ (fun i h1 _ => if_neg (not_not.mpr (hf i h1 (by omega))))

theorem bufZero_update (b : Int → Int) (k v : Int) (hb : BufZero b) (hv : v = 0) :
    BufZero (Function.update b k v) := by
  intro i h0 h1
  by_cases hik : i = k
  · subst hik
    rw [Function.update_same]
    exact hv
  · rw [Function.update_noteq hik]
    exact hb i h0 h1

theorem bufZero_tap (b : Int → Int) (hb : BufZero b) (x : Int) : b (x % 32768) = 0 :=
  hb _ (Int.emod_nonneg _ (by norm_num)) (Int.emod_lt_of_pos _ (by norm_num))

theorem sar32_zero (n : Int) : sar32 0 n = 0 := by
  unfold sar32
  exact Int.zero_ediv _

/-- The reverb of one sample on an all-zero buffer, with nothing to add to: both sums are
0 after it, the buffer is all-zero, and only the buffer and its index have changed. -/
theorem reverb_silent (s : State) (hb : BufZero s.reverb_data_buffer) :
    (GenerateOutputData_reverb (s, 0, 0)).2 = (0, 0)
    ∧ BufZero (GenerateOutputData_reverb (s, 0, 0)).1.reverb_data_buffer
    ∧ (GenerateOutputData_reverb (s, 0, 0)).1
        = { s with
            reverb_data_buffer := (GenerateOutputData_reverb (s, 0, 0)).1.reverb_data_buffer,
            reverb_data_index := (GenerateOutputData_reverb (s, 0, 0)).1.reverb_data_index } := by
  unfold GenerateOutputData_reverb
  lift_lets
  intro s' tap b0 x0 b1 x1 b2 x2 b3 x3 b4 x4 rv3 y1 b5 b6 y2 b7 b8
  have z : ∀ (b : Int → Int), BufZero b → ∀ k, b (tap k) = 0 :=
    fun b hb k => bufZero_tap b hb _
  have h0 : BufZero b0 := hb
  have hx0 : x0 = 0 := by
    show i32 (0 + 0) / 8 = 0
    decide
  have h1 : BufZero b1 := bufZero_update _ _ _ h0 (by
    show i32 (x0 - b0 (tap 0) / 2) = 0
    rw [hx0, z b0 h0]
    decide)
  have hx1 : x1 = 0 := by
    show i32 (x0 / 2 + b0 (tap 0)) = 0
    rw [hx0, z b0 h0]
    decide
  have h2 : BufZero b2 := bufZero_update _ _ _ h1 (by
    show i32 (x1 - b1 (tap 501) / 2) = 0
    rw [hx1, z b1 h1]
    decide)
  have hx2 : x2 = 0 := by
    show i32 (x1 / 2 + b1 (tap 501)) = 0
    rw [hx1, z b1 h1]
    decide
  have h3 : BufZero b3 := bufZero_update _ _ _ h2 (by
    show i32 (x2 - b2 (tap 827) / 2) = 0
    rw [hx2, z b2 h2]
    decide)
  have hx3 : x3 = 0 := by
    show i32 (x2 / 2 + b2 (tap 827)) = 0
    rw [hx2, z b2 h2]
    decide
  have h4 : BufZero b4 := bufZero_update _ _ _ h3 (by
    show i32 (x3 - b3 (tap 1039) / 2) = 0
    rw [hx3, z b3 h3]
    decide)
  have hx4 : x4 = 0 := by
    show i32 (x3 / 2 + b3 (tap 1039)) = 0
    rw [hx3, z b3 h3]
    decide
  have hr3 : rv3 = 0 := by
    show x4 / 2 = 0
    rw [hx4]
    decide
  have hy1 : y1 = 0 := by
    show i32 (b4 (tap 1177) - i32 (96 * b4 (tap 1179)) / 256) = 0
    rw [z b4 h4, z b4 h4]
    decide
  have h5 : BufZero b5 := bufZero_update _ _ _ h4 (by
    show y1 / 8 = 0
    rw [hy1]
    decide)
  have h6 : BufZero b6 := bufZero_update _ _ _ h5 (by
    show i32 (y1 + rv3) = 0
    rw [hy1, hr3]
    decide)
  have hy2 : y2 = 0 := by
    show i32 (b6 (tap 3178) - i32 (97 * b6 (tap 3180)) / 256) = 0
    rw [z b6 h6, z b6 h6]
    decide
  have h7 : BufZero b7 := bufZero_update _ _ _ h6 (by
    show y2 / 8 = 0
    rw [hy2]
    decide)
  have h8 : BufZero b8 := bufZero_update _ _ _ h7 (by
    show i32 (y2 + rv3) = 0
    rw [hy2, hr3]
    decide)
  refine ⟨?_, h8, rfl⟩
  have eL : i32 (0 + sar32 (i32 (b8 (tap 1179) + b8 (tap 3335))) s'.reverb_shift) = 0 := by
    rw [z b8 h8, z b8 h8]
    have : i32 (0 + 0) = 0 := by decide
    rw [this, sar32_zero]
    decide
  have eR : i32 (0 + sar32 (i32 (b8 (tap 1339) + b8 (tap 3180))) s'.reverb_shift) = 0 := by
    rw [z b8 h8, z b8 h8]
    have : i32 (0 + 0) = 0 := by decide
    rw [this, sar32_zero]
    decide
  exact Prod.ext eL eR

theorem silent_setReverb (x : State) (b : Int → Int) (k : Int) (h : Silent x)
    (hb : BufZero b) :
    Silent { x with reverb_data_buffer := b, reverb_data_index := k } := by
  obtain ⟨a1, _, a3, a4, a5, a6, a7⟩ := h
  exact ⟨a1, hb, a3, a4, a5, a6, a7⟩

theorem clip_zero : GenerateOutputData_clip 0 = 0 := by decide

/-- One sample of the module that plays nothing: both values written are 0. -/
theorem sample_silent (s : State) (h : Silent s) :
    (GenerateOutputData_sample s (-1)).2 = (0, 0)
    ∧ Silent (GenerateOutputData_sample s (-1)).1 := by
  obtain ⟨r1, r2, r3⟩ := reverb_silent s h.2.1
  have q1 : (GenerateOutputData_reverb (s, 0, 0)).2.1 = 0 := congrArg Prod.fst r1
  have q2 : (GenerateOutputData_reverb (s, 0, 0)).2.2 = 0 := congrArg Prod.snd r1
  have q3 : Silent (GenerateOutputData_reverb (s, 0, 0)).1 := by
    rw [r3]
    exact silent_setReverb s _ _ h r2
  unfold GenerateOutputData_sample
  rw [forRange_empty GenerateOutputData_voice 0 (-1 + 1) (by decide) (s, 0, 0)]
  by_cases he : s.is_reverb_enabled = 1
  · simp only [he, if_true, q1, q2, clip_zero]
    exact ⟨trivial, q3⟩
  · simp only [he, if_false, clip_zero]
    exact ⟨trivial, h⟩

theorem store_zero (m mem : Int → Int) (A : Int) (h : ∀ x, m x = mem x ∨ m x = 0) :
    ∀ x, storeI16 m A 0 x = mem x ∨ storeI16 m A 0 x = 0 := by
  intro x
  unfold storeI16
  by_cases h1 : x = A + 1
  · subst h1
    rw [Function.update_same]
    right
    decide
  · rw [Function.update_noteq h1]
    by_cases h2 : x = A
    · subst h2
      rw [Function.update_same]
      right
      decide
    · rw [Function.update_noteq h2]
      exact h x

/-- The samples that `GenerateOutputData` writes for the module that plays nothing are 0:
every byte of the memory is as before or 0. -/
theorem GenerateOutputData_silent (s : State) (mem0 mem : Int → Int) (p o1 o2 : Int)
    (h : Silent s) (hm : ∀ x, mem x = mem0 x ∨ mem x = 0) :
    Silent (GenerateOutputData s mem p o1 o2).1
    ∧ ∀ x, (GenerateOutputData s mem p o1 o2).2 x = mem0 x
        ∨ (GenerateOutputData s mem p o1 o2).2 x = 0 := by
  unfold GenerateOutputData
  rw [DefragmentVoices_free s h.1 h.2.2.2.2.1]
  simp only
  rw [maxActiveIndex_free s h.1 h.2.2.2.2.1]
  refine forRange_keeps _
    (fun (a : State × (Int → Int)) => Silent a.1 ∧ ∀ x, a.2 x = mem0 x ∨ a.2 x = 0) o1 o2
    ?_ (s, mem) ⟨h, hm⟩
  intro i a _ _ ha
  obtain ⟨e, hs⟩ := sample_silent a.1 ha.1
  have e1 : (GenerateOutputData_sample a.1 (-1)).2.1 = 0 := congrArg Prod.fst e
  have e2 : (GenerateOutputData_sample a.1 (-1)).2.2 = 0 := congrArg Prod.snd e
  simp only [e1, e2]
  exact ⟨hs, store_zero _ _ _ (store_zero _ _ _ ha.2)⟩

theorem silent_setClock (x : State) (a b : Int) (h : Silent x) :
    Silent { x with dword_C0000000 := a, system_time_1 := b } := h

theorem silent_setPhase (x : State) (a : Int) (h : Silent x) :
    Silent { x with processing_phase := a } := h

/-- The four passes of `VLSG_FillOutputBuffer` for the module that plays nothing. -/
theorem fill_loop_silent (p : Int) (mem0 : Int → Int) :
    ∀ (n : Nat) (off : Int) (s : State) (mem : Int → Int), Silent s →
    (∀ x, mem x = mem0 x ∨ mem x = 0) →
    ∃ r, VLSG_FillOutputBuffer_loop p n off s mem = some r ∧ Silent r.1
      ∧ ∀ x, r.2 x = mem0 x ∨ r.2 x = 0 := by
  intro n
  induction n with
  | zero => intro off s mem hs hm; exact ⟨(s, mem), rfl, hs, hm⟩
  | succ n ih =>
    intro off s mem hs hm
    have e1 := ProcessMidiData_empty s hs.2.2.1
    have e2 := ProcessPhase_free s hs.1 hs.2.2.2.2.1
    have hs2 : Silent (ProcessPhase s) := by
      rw [e2]
      exact silent_setPhase s _ hs
    rw [fill_loop_succ p n off s s mem e1 _ rfl]
    obtain ⟨g1, g2⟩ := GenerateOutputData_silent (ProcessPhase s) mem0 mem p off
      (u32 (off + (ProcessPhase s).output_size_para)) hs2 hm
    exact ih _ _ _ (silent_setClock _ _ _ g1) g2

theorem calm_free {s t : State} (vi : Int) (c : Prop) [Decidable c] (h : Calm s t) :
    Calm s (if c then t.updVoice vi (fun w => { w with note_number := 255 }) else t) := by
  split
  · obtain ⟨a1, a2, a3, a4, a5⟩ := h
    refine ⟨?_, a2, a3, a4, a5⟩
    intro i h0 h1
    by_cases hiv : i = vi
    · subst hiv
      simp only [State.updVoice, Function.update_same]
    · simp only [State.updVoice, Function.update_noteq hiv]
      exact a1 i h0 h1
  · exact h

theorem calm_setPolyphony {s t : State} (a : Int) (h : Calm s t) :
    Calm s { t with current_polyphony := a } := h

theorem calm_Reduce_loop1 {s : State} (mv : Int) : ∀ (n : Nat) (i a : Int) (t : State)
    (r : State × Int × Bool), ReduceActiveVoices_loop1 mv n i a t = some r →
    Calm s t → Calm s r.1 := by
  intro n
  induction n with
  | zero => intro i a t r hr; simp [ReduceActiveVoices_loop1] at hr
  | succ n ih =>
    intro i a t r hr h
    unfold ReduceActiveVoices_loop1 at hr
    lift_lets at hr
    extract_lets w freed s1 active1 at hr
    have h1 : Calm s s1 := calm_free _ _ h
    split at hr
    · simp only [Option.some.injEq] at hr
      subst hr
      exact calm_setPolyphony _ h1
    · split at hr
      · exact ih _ _ _ _ hr h1
      · simp only [Option.some.injEq] at hr
        subst hr
        exact h1

theorem calm_Reduce_loop2 {s : State} (mv : Int) : ∀ (n : Nat) (i a : Int) (t r : State),
    ReduceActiveVoices_loop2 mv n i a t = some r → Calm s t → Calm s r := by
  intro n
  induction n with
  | zero => intro i a t r hr; simp [ReduceActiveVoices_loop2] at hr
  | succ n ih =>
    intro i a t r hr h
    unfold ReduceActiveVoices_loop2 at hr
    lift_lets at hr
    extract_lets freed s1 active1 at hr
    have h1 : Calm s s1 := calm_free _ _ h
    split at hr
    · simp only [Option.some.injEq] at hr
      subst hr
      exact calm_setPolyphony _ h1
    · split at hr
      · simp only [Option.some.injEq] at hr
        subst hr
        exact h1
      · exact ih _ _ _ _ hr h1

theorem calm_ReduceActiveVoices {s t r : State} (mv : Int)
    (hr : ReduceActiveVoices t mv = some r) (h : Calm s t) : Calm s r := by
  unfold ReduceActiveVoices at hr
  split at hr
  · simp only [Option.some.injEq] at hr
    subst hr
    exact h
  · split at hr
    · lift_lets at hr
      extract_lets index2a index2 active_voices at hr
      split at hr
      · simp at hr
      · rename_i s1 a1 heq
        simp only [Option.some.injEq] at hr
        subst hr
        exact calm_Reduce_loop1 mv _ _ _ _ _ heq h
      · rename_i s1 a1 heq
        have h1 : Calm s s1 := calm_Reduce_loop1 mv _ _ _ _ _ heq h
        exact calm_Reduce_loop2 mv _ _ _ _ _ hr h1
    · simp only [Option.some.injEq] at hr
      subst hr
      refine calm_setPolyphony 0 ?_
      exact forRange_keeps _ (fun u => Calm s u) _ _
        (fun i u _ _ hu => calm_free i True hu) t h

theorem calm_setMaximum {s t : State} (mv : Int) (h : Calm s t) :
    Calm s { t with maximum_polyphony := mv } := h

theorem calm_setRecent {s t : State} (h : Calm s t) :
    Calm s { CountActiveVoices t with recent_voice_index := 0 } := h

/-- With every voice free, `SetMaximumVoices` leaves every voice free and does not touch the
reverb buffer, the MIDI ring buffer or the ceiling of the polyphony. -/
theorem SetMaximumVoices_calm {s t : State} (mv : Int) (hf : AllFree s)
    (hm : s.maximum_polyphony ≤ 64) (h : SetMaximumVoices s mv = some t) : Calm s t := by
  unfold SetMaximumVoices at h
  cases hred : ReduceActiveVoices s mv with
  | none => rw [hred] at h; simp at h
  | some t1 =>
    rw [hred] at h
    simp only [Option.map_some', Option.some.injEq] at h
    have c1 : Calm s t1 := calm_ReduceActiveVoices mv hred ⟨hf, rfl, rfl, rfl, rfl⟩
    have m1 : t1.maximum_polyphony ≤ 64 := by
      rw [(frame_ReduceActiveVoices mv hred (frame_refl s)).mp]
      exact hm
    have c2 : Calm s (DefragmentVoices t1) := by
      rw [DefragmentVoices_free t1 c1.1 m1]
      exact c1
    have c3 := forRange_keeps
      (fun index u => State.updVoice u index (fun w => { w with note_number := 255 }))
      (fun u => Calm s u) mv MAX_VOICES (fun i u _ _ hu => calm_free i True hu)
      { (DefragmentVoices t1) with maximum_polyphony := mv } (calm_setMaximum mv c2)
    subst h
    exact calm_setRecent c3

theorem silent_governor (x : State) (h : Silent x) :
    Silent { CountActiveVoices x with
      maximum_polyphony := (CountActiveVoices x).maximum_polyphony_new_value } := by
  obtain ⟨a1, a2, a3, a4, a5, a6, a7⟩ := h
  exact ⟨a1, a2, a3, a4, a6, a6, a7⟩

theorem governor_polyphony (x : State) :
    ({ CountActiveVoices x with
      maximum_polyphony := (CountActiveVoices x).maximum_polyphony_new_value }
        : State).current_polyphony = activeVoices x 0 x.maximum_polyphony := rfl

/-- The last part of `VLSG_FillOutputBuffer` for the module that plays nothing. -/
theorem governor_silent (s : State) (t1 t4 : Int) (h : Silent s) :
    ∃ r, VLSG_FillOutputBuffer_governor s t1 t4 = some r ∧ Silent r := by
  have hs2 := silent_governor s h
  have hcp := governor_polyphony s
  have hav := activeVoices_range s 0 s.maximum_polyphony
  have hm : s.maximum_polyphony ≤ 64 := h.2.2.2.2.1
  unfold VLSG_FillOutputBuffer_governor
  lift_lets
  intro s1 dt s2
  have hs2' : Silent s2 := hs2
  have hcp' : s2.current_polyphony = activeVoices s 0 s.maximum_polyphony := hcp
  have k : ∀ mv, mv ≤ 64 → ∃ r, SetMaximumVoices s2 mv = some r ∧ Silent r := by
    intro mv hmv
    obtain ⟨a1, a2, a3, a4, a5, a6, a7⟩ := hs2'
    obtain ⟨t, ht, h0, _⟩ := SetMaximumVoices_total s2 mv ⟨a5, by omega, by omega⟩
    obtain ⟨b1, _, _, _⟩ := SetMaximumVoices_spec mv ht
    obtain ⟨c1, c2, c3, c4, c5⟩ := SetMaximumVoices_calm mv a1 a5 ht
    refine ⟨t, ht, c1, by rw [c2]; exact a2, by rw [c3, c4]; exact a3, ?_, by omega,
      by rw [c5]; exact a6, h0⟩
    unfold ringOk at a4 ⊢
    rw [c3, c4]
    exact a4
  have i32s : ∀ x : Int, 0 ≤ x → x ≤ 1000 → i32 x = x := by
    intro x a b; unfold i32; omega
  split
  · exact k 2 (by omega)
  · split
    · split
      · refine k _ ?_
        rw [hcp', i32s _ (by omega) (by omega)]
        omega
      · refine k _ ?_
        rw [hcp', i32s _ (by omega) (by omega)]
        omega
    · exact ⟨s2, rfl, hs2'⟩

theorem clock_silent (s : State) (c t1 : Int) (h : Silent s) :
    Silent (VLSG_FillOutputBuffer_clock s c t1) := by
  unfold VLSG_FillOutputBuffer_clock
  lift_lets
  intro restart value1 time2 s1 s2
  have e1 : Silent s1 := by
    show Silent (if restart then _ else s)
    split
    · exact h
    · exact h
  have e2 : Silent s2 := e1
  split
  · exact e2
  · exact e2

/-- A callback of the module that plays nothing returns, the module plays nothing after it,
and every byte of the memory is as before or 0. -/
theorem fill_silent (s : State) (mem0 mem : Int → Int) (c t1 t4 : Int) (h : Silent s)
    (hm : ∀ x, mem x = mem0 x ∨ mem x = 0) :
    ∃ r, VLSG_FillOutputBuffer s mem c t1 t4 = some r ∧ Silent r.1
      ∧ ∀ x, r.2.1 x = mem0 x ∨ r.2.1 x = 0 := by
  have hc := clock_silent s c t1 h
  unfold VLSG_FillOutputBuffer
  lift_lets
  intro s1 output_ptr
  obtain ⟨q, hq, q1, q2⟩ := fill_loop_silent output_ptr mem0 4 0 s1 mem hc hm
  obtain ⟨r, hr, r1⟩ := governor_silent q.1 t1 t4 q1
  rw [hq]
  simp only
  rw [hr]
  exact ⟨_, rfl, r1, q2⟩

/-- A callback of the module that plays nothing, for the block size `K` (64, 128 or 256):
every byte of its sub-buffer is 0 after it, and every other byte is as before. -/
theorem fill_silent_bytes (s : State) (mem : Int → Int) (c t1 t4 K : Int) (h : Silent s)
    (hs : s.output_size_para = K) (hK : K = 64 ∨ K = 128 ∨ K = 256) :
    ∃ r, VLSG_FillOutputBuffer s mem c t1 t4 = some r ∧ Silent r.1
      ∧ r.1.output_size_para = K
      ∧ ∀ a, (subBuffer s c a → r.2.1 a = 0) ∧ (¬ subBuffer s c a → r.2.1 a = mem a) := by
  obtain ⟨r, hr, r1, r2⟩ := fill_silent s mem mem c t1 t4 h (fun x => Or.inl rfl)
  obtain ⟨q, hq, _, _, q3, q4⟩ := fill_mem s mem (fun x => mem x + 1) c t1 t4 K r hs hK hr
  obtain ⟨q', hq', _, q2'⟩ := fill_silent s (fun x => mem x + 1) (fun x => mem x + 1) c t1 t4 h
    (fun x => Or.inl rfl)
  rw [hq] at hq'
  simp only [Option.some.injEq] at hq'
  subst hq'
  refine ⟨r, hr, r1, (fill_osp hr).trans hs, fun a => ⟨fun ha => ?_, fun ha => ?_⟩⟩
  · unfold subBuffer at ha
    rw [hs] at ha
    have e := q3 a ha.1 ha.2
    have b1 := r2 a
    have b2 := q2' a
    simp only at b2
    omega
  · unfold subBuffer at ha
    rw [hs] at ha
    exact (q4 a ha).1

theorem runFills_silent (mem0 : Int → Int) : ∀ (calls : List (Int × Int × Int)) (s : State)
    (mem : Int → Int), Silent s → (∀ x, mem x = mem0 x ∨ mem x = 0) →
    ∃ r, runFills s mem calls = some r ∧ Silent r.1 ∧ ∀ x, r.2 x = mem0 x ∨ r.2 x = 0 := by
  intro calls
  induction calls with
  | nil => intro s mem hs hm; exact ⟨(s, mem), rfl, hs, hm⟩
  | cons c rest ih =>
    intro s mem hs hm
    obtain ⟨r1, h1, a1, a2⟩ := fill_silent s mem0 mem c.1 c.2.1 c.2.2 hs hm
    unfold runFills
    rw [h1]
    exact ih r1.1 r1.2.1 a1 a2

theorem runFills_written (K : Int) (hK : K = 64 ∨ K = 128 ∨ K = 256) :
    ∀ (calls : List (Int × Int × Int)) (s : State) (mem : Int → Int), Silent s →
    s.output_size_para = K →
    ∀ r, runFills s mem calls = some r →
      ∀ a, (writtenBy s mem calls a → r.2 a = 0) ∧ (¬ writtenBy s mem calls a → r.2 a = mem a) := by
  intro calls
  induction calls with
  | nil =>
    intro s mem _ _ r hr a
    simp only [runFills, Option.some.injEq] at hr
    subst hr
    exact ⟨fun h => absurd h (by unfold writtenBy; exact not_false), fun _ => rfl⟩
  | cons c rest ih =>
    intro s mem hs hosp r hr a
    obtain ⟨r1, h1, a1, a2, a3⟩ := fill_silent_bytes s mem c.1 c.2.1 c.2.2 K hs hosp hK
    unfold runFills at hr
    rw [h1] at hr
    have hw : writtenBy s mem (c :: rest) a
        ↔ (subBuffer s c.1 a ∨ writtenBy r1.1 r1.2.1 rest a) := by
      rw [writtenBy, h1]
    obtain ⟨i1, i2⟩ := ih r1.1 r1.2.1 a1 a2 r hr a
    obtain ⟨b1, b2⟩ := a3 a
    rw [hw]
    by_cases hr' : writtenBy r1.1 r1.2.1 rest a
    · exact ⟨fun _ => i1 hr', fun hn => absurd (Or.inr hr') hn⟩
    · by_cases hsb : subBuffer s c.1 a
      · exact ⟨fun _ => (i2 hr').trans (b1 hsb), fun hn => absurd (Or.inl hsb) hn⟩
      · refine ⟨fun hx => ?_, fun _ => (i2 hr').trans (b2 hsb)⟩
        rcases hx with hx | hx
        · exact absurd hx hsb
        · exact absurd hx hr'

theorem silent_setC4 (x : State) (v : Int) (h : Silent x) :
    Silent { x with dword_C0000004 := v } := h

theorem init_silent (x : State) (hb : BufZero x.reverb_data_buffer)
    (hmp : x.maximum_polyphony ≤ 64) (hnv : x.maximum_polyphony_new_value ≤ 64)
    (h0 : x.recent_voice_index = 0) (h1 : x.midi_data_read_index = 0)
    (h2 : x.midi_data_write_index = 0) : Silent (InitializeStructures x).1 := by
  obtain ⟨hs, hn⟩ := InitializeStructures_spec x
  obtain ⟨a, b, c, d, e, f, g, _⟩ := synth_fields hs
  refine ⟨hn, by rw [f]; exact hb, by rw [d, e, h1, h2], ?_, by rw [a]; exact hmp,
    by rw [b]; exact hnv, by rw [g]; exact h0⟩
  unfold ringOk
  rw [d, e, h1, h2]
  omega

theorem start_silent (s0 : State) (hb : BufZero s0.reverb_data_buffer)
    (hmp : s0.maximum_polyphony ≤ 64) (hnv : s0.maximum_polyphony_new_value ≤ 64) :
    Silent (VLSG_PlaybackStart s0).1 := by
  rw [PlaybackStart_eq]
  have hb' : BufZero ({ s0 with
      current_polyphony := 0, dword_C0000000 := 0, effect_type := 6,
      recent_voice_index := 0, event_length := 0, event_type := 0,
      reverb_data_ptr := 1, reverb_data_index := 0, processing_phase := 0,
      midi_data_write_index := 0, midi_data_read_index := 0 } : State).reverb_data_buffer := hb
  exact silent_setC4 _ _ (init_silent _ hb' hmp hnv rfl rfl rfl)

/-- Claim C3 (silence baseline): let the reverb buffer be all-zero and the polyphony
settings within the 64 voices of the module when `VLSG_PlaybackStart` is called, for whatever
ROM and whatever reverb setting (`is_reverb_enabled` and `reverb_shift` are free), and let
no MIDI data be added. Then every sequence of calls of `VLSG_FillOutputBuffer` (any counters
and readings of the clock, any output memory) returns, the reverb buffer is all-zero after
it, and every byte of the output memory is as before or 0; and for the block size of a
Frequency setting `f` in {0, 1, 2} every byte of every sub-buffer that one of the calls has
filled is 0, and every other byte is as before. -/
theorem C3_silence (s0 : State) (mem : Int → Int) (calls : List (Int × Int × Int))
    (hb : BufZero s0.reverb_data_buffer) (hmp : s0.maximum_polyphony ≤ 64)
    (hnv : s0.maximum_polyphony_new_value ≤ 64) :
    ∃ r, runFills (VLSG_PlaybackStart s0).1 mem calls = some r
      ∧ BufZero r.1.reverb_data_buffer
      ∧ (∀ a, r.2 a = mem a ∨ r.2 a = 0)
      ∧ ∀ f, (f = 0 ∨ f = 1 ∨ f = 2) → FrequencySet s0 f →
          ∀ a, (writtenBy (VLSG_PlaybackStart s0).1 mem calls a → r.2 a = 0)
            ∧ (¬ writtenBy (VLSG_PlaybackStart s0).1 mem calls a → r.2 a = mem a) := by
  have hs := start_silent s0 hb hmp hnv
  obtain ⟨r, hr, r1, r2⟩ := runFills_silent mem calls _ mem hs (fun x => Or.inl rfl)
  refine ⟨r, hr, r1.2.1, r2, fun f hf hfreq => ?_⟩
  have hK : (VLSG_PlaybackStart s0).1.output_size_para = 64 * 2 ^ f.toNat := by
    rw [start_osp, hfreq, frequency_block s0 f hf]
  have hK3 : (64 * 2 ^ f.toNat : Int) = 64 ∨ (64 * 2 ^ f.toNat : Int) = 128
      ∨ (64 * 2 ^ f.toNat : Int) = 256 := by
    rcases hf with rfl | rfl | rfl
    · exact Or.inl rfl
    · exact Or.inr (Or.inl rfl)
    · exact Or.inr (Or.inr rfl)
  exact runFills_written _ hK3 calls _ mem hs hK r hr

/-- Witness of C3: the loaded module (all-zero reverb buffer, polyphony never set) after
`VLSG_SetParameter` with `PARAMETER_Frequency` and the value 2, and two callbacks. -/
theorem C3_silence_witness :
    BufZero (VLSG_SetParameter (zeroState (fun _ => 0)) PARAMETER_Frequency 2).1.reverb_data_buffer
    ∧ (VLSG_SetParameter (zeroState (fun _ => 0)) PARAMETER_Frequency 2).1.maximum_polyphony ≤ 64
    ∧ (VLSG_SetParameter (zeroState (fun _ => 0))
        PARAMETER_Frequency 2).1.maximum_polyphony_new_value ≤ 64
    ∧ ∃ r, runFills (VLSG_PlaybackStart
          (VLSG_SetParameter (zeroState (fun _ => 0)) PARAMETER_Frequency 2).1).1
          (fun _ => 7) [(0, 0, 0), (1, 12, 12)] = some r
        ∧ BufZero r.1.reverb_data_buffer
        ∧ ∀ a, r.2 a = 7 ∨ r.2 a = 0 := by
  have hb : BufZero
      (VLSG_SetParameter (zeroState (fun _ => 0)) PARAMETER_Frequency 2).1.reverb_data_buffer :=
    fun _ _ _ => rfl
  obtain ⟨r, h1, h2, h3, _⟩ := C3_silence
    (VLSG_SetParameter (zeroState (fun _ => 0)) PARAMETER_Frequency 2).1 (fun _ => 7)
    [(0, 0, 0), (1, 12, 12)] hb (by decide) (by decide)
  exact ⟨hb, by decide, by decide, r, h1, h2, h3⟩

/-! ## The calls return, with the polyphony set or not -/

theorem good_ring {s : State} (h : Live s) : ringOk s := by
  rcases h with h | h
  · exact h.2.2
  · exact h.2.2.2.2

theorem live_frame {s t : State} (h : Frame s t) (hs : Live s) :
    Live t ∧ pendingBytes t ≤ pendingBytes s := by
  have hr := h.ring (good_ring hs)
  refine ⟨?_, hr.2⟩
  rcases hs with hs | hs
  · exact Or.inl ⟨(frame_keeps h).2 hs.1, h.rv hs.2.1, hr.1⟩
  · obtain ⟨a, b, c, d, _⟩ := hs
    exact Or.inr ⟨by rw [h.nv]; exact a, by rw [h.mp]; exact b, by rw [h.mp]; exact c,
      h.rw d, hr.1⟩

theorem returnsLive_some {s t : State} (hs : Live s) (h : Frame s t) :
    ReturnsLive s (some t) :=
  ⟨t, rfl, (live_frame h hs).1, (live_frame h hs).2⟩

theorem returnsLive_ite {s : State} (c : Prop) [Decidable c] {a b : Option State}
    (ha : ReturnsLive s a) (hb : ReturnsLive s b) : ReturnsLive s (if c then a else b) := by
  split
  · exact ha
  · exact hb

theorem polyInv_setNew {t r : State} (mv : Int) (h1 : 2 ≤ mv) (h2 : mv ≤ 64)
    (hr : SetMaximumVoices t mv = some r) :
    PolyInv { r with maximum_polyphony_new_value := mv } := by
  obtain ⟨a, _, c, d⟩ := SetMaximumVoices_spec mv hr
  refine ⟨h1, h2, ?_, ?_, ?_⟩
  · show 0 ≤ r.maximum_polyphony
    omega
  · show r.maximum_polyphony ≤ mv
    omega
  · intro i hi1 hi2
    have hi1' : max 1 r.maximum_polyphony ≤ i := hi1
    exact d i (by omega) hi2

/-- A call of `SetMaximumVoices` returns when `recent_voice_index` is a place of the ring of
voices, and also when the argument is not below the current maximum. -/
theorem SetMaximumVoices_returns (s : State) (mv : Int)
    (h : RecentOk s ∨ s.maximum_polyphony ≤ mv) :
    ∃ t, SetMaximumVoices s mv = some t ∧ t.recent_voice_index = 0
      ∧ (ringOk s → ringOk t ∧ pendingBytes t ≤ pendingBytes s) := by
  rcases h with h | h
  · exact SetMaximumVoices_total s mv h
  · have ht1 : ReduceActiveVoices s mv = some s := by
      unfold ReduceActiveVoices
      rw [if_pos h]
    unfold SetMaximumVoices
    rw [ht1]
    refine ⟨_, rfl, rfl, ?_⟩
    have h2 : Frame s (DefragmentVoices s) := frame_DefragmentVoices (frame_refl s)
    exact forRange_keeps
      (fun index u => State.updVoice u index (fun w => { w with note_number := 255 }))
      (fun u => ringOk s → ringOk u ∧ pendingBytes u ≤ pendingBytes s) mv MAX_VOICES
      (fun i u _ _ hu => hu)
      { (DefragmentVoices s) with maximum_polyphony := mv } h2.ring

theorem live_enough {s : State} (hs : Live s) (mv : Int) (h : 2 ≤ mv) :
    RecentOk s ∨ s.maximum_polyphony ≤ mv := by
  rcases hs with hs | hs
  · exact Or.inl hs.2.1
  · obtain ⟨_, _, c, _, _⟩ := hs
    exact Or.inr (by omega)

theorem returnsLive_setNew (s : State) (mv : Int) (h2 : 2 ≤ mv) (h64 : mv ≤ 64)
    (hs : Live s) :
    ReturnsLive s ((SetMaximumVoices s mv).map
      (fun t => { t with maximum_polyphony_new_value := mv })) := by
  obtain ⟨t, ht, h0, hring⟩ := SetMaximumVoices_returns s mv (live_enough hs mv h2)
  obtain ⟨a, _, _, _⟩ := SetMaximumVoices_spec mv ht
  have hr := hring (good_ring hs)
  rw [ht]
  exact ⟨_, rfl, Or.inl ⟨polyInv_setNew mv h2 h64 ht, recentOk_setNew t mv h0 (by omega), hr.1⟩,
    hr.2⟩

theorem live_recent {s : State} (hs : Live s) :
    0 ≤ s.recent_voice_index ∧ s.recent_voice_index < 64 := by
  rcases hs with hs | hs
  · exact ⟨hs.2.1.2.1, recentOk_lt s hs.2.1⟩
  · exact ⟨hs.2.2.2.1.2.1, recentIn_lt s hs.2.2.2.1⟩

theorem polyInv_sixtyfour (s : State) :
    PolyInv { s with maximum_polyphony := 64, maximum_polyphony_new_value := 64 } := by
  refine ⟨by show (2 : Int) ≤ 64; omega, le_refl _,
    by show (0 : Int) ≤ 64; omega, le_refl _, ?_⟩
  intro i hi1 hi2
  have hi1' : max 1 (64 : Int) ≤ i := hi1
  omega

theorem returnsLive_sixtyfour (s : State) (hs : Live s) :
    ReturnsLive s
      (some { s with maximum_polyphony := 64, maximum_polyphony_new_value := 64 }) := by
  obtain ⟨r0, r1⟩ := live_recent hs
  have hr : ringOk s := good_ring hs
  refine ⟨_, rfl, Or.inl ⟨polyInv_sixtyfour s, ⟨le_refl _, r0, ?_⟩, hr⟩, le_refl _⟩
  show s.recent_voice_index < max 1 64
  omega

theorem returnsLive_effect (s : State) (x : Int) (hs : Live s) :
    ReturnsLive s (some { s with effect_type := x }) :=
  ⟨_, rfl, hs, le_refl _⟩

theorem returnsLive_SystemExclusive (s : State) (hs : Live s) :
    ReturnsLive s (SystemExclusive s) := by
  unfold SystemExclusive
  have f0 := frame_refl s
  refine returnsLive_ite _
    (returnsLive_some hs (frame_forRange _ _ _ _ (fun i u hu => frame_ProgramChange _ _ hu)
      (frame_forRange _ _ _ _ (fun i u hu => frame_ResetChannel _ hu)
        (frame_AllVoicesSoundsOff f0)))) ?_
  refine returnsLive_ite _ ?_ (returnsLive_some hs f0)
  refine returnsLive_ite _ (returnsLive_setNew s 24 (by omega) (by omega) hs) ?_
  refine returnsLive_ite _ (returnsLive_setNew s 32 (by omega) (by omega) hs) ?_
  refine returnsLive_ite _ (returnsLive_setNew s 48 (by omega) (by omega) hs) ?_
  refine returnsLive_ite _ (returnsLive_sixtyfour s hs) ?_
  refine returnsLive_ite _ (returnsLive_some hs (frame_DisableReverb f0)) ?_
  refine returnsLive_ite _
    (returnsLive_some hs (frame_SetReverbShift _ (frame_EnableReverb f0))) ?_
  refine returnsLive_ite _
    (returnsLive_some hs (frame_SetReverbShift _ (frame_EnableReverb f0))) ?_
  exact returnsLive_ite _ (returnsLive_effect s _ hs) (returnsLive_some hs f0)

theorem returnsLive_setEventLength {s : State} {o : Option State} (a : Int)
    (h : ReturnsLive s o) :
    ReturnsLive s (o.map (fun t => { t with event_length := a })) := by
  obtain ⟨t, ht, h1, h2⟩ := h
  rw [ht]
  exact ⟨_, rfl, h1, h2⟩

theorem returnsLive_programChange (s : State) (hs : Live s) :
    ReturnsLive s
      (match findFirst (fun i => decide (tableAt drum_kits i = s.event_data 1)) 8 0 with
      | none => some s
      | some drum_kit_index =>
        some (ProgramChange (s.updChannel s.channel_data_ptr (fun c => { c with
          program_change := tableAt drum_kit_numbers drum_kit_index }))
          s.stru6_ptr (tableAt drum_kit_numbers drum_kit_index))) := by
  split
  · exact returnsLive_some hs (frame_refl s)
  · exact returnsLive_some hs (frame_ProgramChange _ _ (frame_updChannel _ _ (frame_refl s)))

theorem returnsLive_dispatch (s : State) (hs : Live s) :
    ReturnsLive s (ProcessMidiData_dispatch s) := by
  unfold ProcessMidiData_dispatch
  have f0 := frame_refl s
  refine returnsLive_setEventLength 0 ?_
  refine returnsLive_ite _ (returnsLive_some hs (frame_NoteOff f0)) ?_
  refine returnsLive_ite _
    (returnsLive_ite _
      (returnsLive_ite _ (returnsLive_some hs (frame_NoteOn 1 (frame_NoteOn 0 f0)))
        (returnsLive_some hs (frame_NoteOn 0 f0)))
      (returnsLive_some hs (frame_NoteOff f0))) ?_
  refine returnsLive_ite _ (returnsLive_some hs (frame_ControlChange f0)) ?_
  refine returnsLive_ite _
    (returnsLive_ite _ (returnsLive_programChange s hs)
      (returnsLive_some hs (frame_ProgramChange _ _ (frame_updChannel _ _ f0)))) ?_
  refine returnsLive_ite _ (returnsLive_some hs (frame_updChannel _ _ f0)) ?_
  refine returnsLive_ite _ (returnsLive_some hs (frame_updChannel _ _ f0)) ?_
  exact returnsLive_ite _ (returnsLive_SystemExclusive s hs) (returnsLive_some hs f0)

theorem returnsLive_byte (s : State) (v : Int) (hs : Live s) :
    ReturnsLive s (ProcessMidiData_byte s v) := by
  unfold ProcessMidiData_byte
  have f0 := frame_refl s
  have ev : ∀ t : State, Live t → pendingBytes t = pendingBytes s → ReturnsLive s (some t) :=
    fun t h1 h2 => ⟨t, rfl, h1, le_of_eq h2⟩
  refine returnsLive_ite _ (returnsLive_some hs f0) ?_
  refine returnsLive_ite _
    (returnsLive_ite _ (returnsLive_some hs f0) (returnsLive_dispatch s hs)) ?_
  refine returnsLive_ite _ (ev _ hs rfl) ?_
  lift_lets
  intro s1 s2
  refine returnsLive_ite _ (ev _ hs rfl) ?_
  refine returnsLive_ite _ (ev _ hs rfl) ?_
  refine returnsLive_ite _ (ev _ hs rfl) ?_
  have hs2 : Live s2 := hs
  obtain ⟨u, hu, a, b⟩ := returnsLive_dispatch s2 hs2
  exact ⟨u, hu, a, b⟩

/-- The loop of `ProcessMidiData` is left: every byte delivered takes five pending bytes
away, so `n` passes are enough for fewer than `5 * n` pending bytes. -/
theorem returnsLive_loop : ∀ (n : Nat) (s : State), Live s →
    pendingBytes s < 5 * (n : Int) → ReturnsLive s (ProcessMidiData_loop n s) := by
  intro n
  induction n with
  | zero =>
    intro s _ hp
    have := pendingBytes_nonneg s
    exfalso
    simp only [Nat.cast_zero, mul_zero] at hp
    omega
  | succ n ih =>
    intro s hs hp
    unfold ProcessMidiData_loop
    have fg : Frame s (GetValueFromMidiDataBuffer s).1 := frame_GetValue (frame_refl s)
    obtain ⟨g1, g2, g3⟩ := getValue_ring s (good_ring hs)
    obtain ⟨lg, _⟩ := live_frame fg hs
    lift_lets
    intro r
    split
    · exact returnsLive_some hs fg
    · rename_i hne
      obtain ⟨s1, hb, b1, b2⟩ := returnsLive_byte r.1 r.2 lg
      have hb' : ProcessMidiData_byte r.1 r.2 = some s1 := hb
      rw [hb']
      have d := g3 hne
      have c : pendingBytes s1 ≤ pendingBytes (GetValueFromMidiDataBuffer s).1 := b2
      have e : pendingBytes s1 < 5 * (n : Int) := by
        push_cast at hp
        omega
      obtain ⟨t, ht, t1, t2⟩ := ih s1 b1 e
      exact ⟨t, ht, t1, by omega⟩

theorem returnsLive_ProcessMidiData (s : State) (hs : Live s) :
    ReturnsLive s (ProcessMidiData s) := by
  unfold ProcessMidiData
  refine returnsLive_loop 13108 s hs ?_
  have : pendingBytes s < 65536 := by unfold pendingBytes; omega
  push_cast
  omega

theorem live_setClock (x : State) (a b : Int) (h : Live x) :
    Live { x with dword_C0000000 := a, system_time_1 := b } := h

/-- The four passes of `VLSG_FillOutputBuffer` return. -/
theorem fill_loop_returns (p : Int) : ∀ (n : Nat) (off : Int) (s : State) (mem : Int → Int),
    Live s → ∃ r, VLSG_FillOutputBuffer_loop p n off s mem = some r ∧ Live r.1 := by
  intro n
  induction n with
  | zero => intro off s mem hs; exact ⟨(s, mem), rfl, hs⟩
  | succ n ih =>
    intro off s mem hs
    obtain ⟨s1, h1, a1, _⟩ := returnsLive_ProcessMidiData s hs
    rw [fill_loop_succ p n off s s1 mem h1 _ rfl]
    have f2 : Frame s1 (GenerateOutputData (ProcessPhase s1) mem p off
        (u32 (off + (ProcessPhase s1).output_size_para))).1 :=
      frame_GenerateOutputData _ _ _ _ (frame_ProcessPhase (frame_refl s1))
    exact ih _ _ _ (live_setClock _ _ _ (live_frame f2 a1).1)

theorem unset_governor (x : State) (h : Unset x) :
    Unset { CountActiveVoices x with
      maximum_polyphony := (CountActiveVoices x).maximum_polyphony_new_value } := by
  obtain ⟨a, b, c, ⟨d1, d2, d3⟩, e⟩ := h
  refine ⟨a, ?_, ?_, ⟨?_, d2, ?_⟩, e⟩
  · show 0 ≤ x.maximum_polyphony_new_value
    omega
  · show x.maximum_polyphony_new_value ≤ 2
    omega
  · show x.maximum_polyphony_new_value ≤ 64
    omega
  · show x.recent_voice_index < max 2 x.maximum_polyphony_new_value
    omega

theorem governor_unset (s : State) (t1 t4 : Int) (h : Unset s) :
    ∃ r, VLSG_FillOutputBuffer_governor s t1 t4 = some r ∧ Unset r := by
  have hs2 := unset_governor s h
  have hcp := governor_polyphony s
  have hav := activeVoices_range s 0 s.maximum_polyphony
  obtain ⟨u1, u2, u3, _, _⟩ := h
  unfold VLSG_FillOutputBuffer_governor
  lift_lets
  intro s1 dt s2
  have hs2' : Unset s2 := hs2
  have hcp' : s2.current_polyphony = activeVoices s 0 s.maximum_polyphony := hcp
  have hmp2 : s2.maximum_polyphony = 0 := u1
  have k : ∀ mv, 0 ≤ mv → mv ≤ 2 → ∃ r, SetMaximumVoices s2 mv = some r ∧ Unset r := by
    intro mv hmv0 hmv2
    obtain ⟨a1, a2, a3, a4, a5⟩ := hs2'
    obtain ⟨t, ht, h0, hring⟩ := SetMaximumVoices_returns s2 mv (Or.inr (by omega))
    obtain ⟨b1, b2, _, _⟩ := SetMaximumVoices_spec mv ht
    exact ⟨t, ht, by rw [b2]; exact a1, by omega, by omega, ⟨by omega, by omega, by omega⟩,
      (hring a5).1⟩
  have i32s : ∀ x : Int, 0 ≤ x → x ≤ 1000 → i32 x = x := by
    intro x a b; unfold i32; omega
  split
  · exact k 2 (by omega) (by omega)
  · split
    · split
      · refine k _ ?_ ?_
        · rw [hcp', i32s _ (by omega) (by omega)]
          omega
        · rw [hcp', i32s _ (by omega) (by omega)]
          omega
      · refine k _ ?_ ?_
        · rw [hcp', i32s _ (by omega) (by omega)]
          omega
        · rw [hcp', i32s _ (by omega) (by omega)]
          omega
    · exact ⟨s2, rfl, hs2'⟩

theorem governor_live (s : State) (t1 t4 : Int) (h : Live s) :
    ∃ r, VLSG_FillOutputBuffer_governor s t1 t4 = some r ∧ Live r := by
  rcases h with h | h
  · obtain ⟨r, hr, g, _⟩ := governor_total s t1 t4 h
    exact ⟨r, hr, Or.inl g⟩
  · obtain ⟨r, hr, g⟩ := governor_unset s t1 t4 h
    exact ⟨r, hr, Or.inr g⟩

theorem clock_unset (s : State) (c t1 : Int) (h : Unset s) :
    Unset (VLSG_FillOutputBuffer_clock s c t1) := by
  unfold VLSG_FillOutputBuffer_clock
  lift_lets
  intro restart value1 time2 s1 s2
  have e1 : Unset s1 := by
    show Unset (if restart then _ else s)
    split
    · exact h
    · exact h
  have e2 : Unset s2 := e1
  split
  · exact e2
  · exact e2

theorem clock_live (s : State) (c t1 : Int) (h : Live s) :
    Live (VLSG_FillOutputBuffer_clock s c t1) := by
  rcases h with h | h
  · exact Or.inl (clock_good s c t1 h)
  · exact Or.inr (clock_unset s c t1 h)

/-- A call of `VLSG_FillOutputBuffer` returns in every state of the invariant `Live`, for
every output memory, every counter and every two readings of the clock, and it keeps the
invariant. -/
theorem fill_returns (s : State) (mem : Int → Int) (c t1 t4 : Int) (h : Live s) :
    ∃ r, VLSG_FillOutputBuffer s mem c t1 t4 = some r ∧ Live r.1 := by
  have hc := clock_live s c t1 h
  unfold VLSG_FillOutputBuffer
  lift_lets
  intro s1 output_ptr
  obtain ⟨q, hq, q1⟩ := fill_loop_returns output_ptr 4 0 s1 mem hc
  obtain ⟨r, hr, r1⟩ := governor_live q.1 t1 t4 q1
  rw [hq]
  simp only
  rw [hr]
  exact ⟨_, rfl, r1⟩

/-! ### The invariant holds in every state reached after a start -/

theorem unset_setC4 (x : State) (v : Int) (h : Unset x) :
    Unset { x with dword_C0000004 := v } := h

theorem init_unset (x : State) (hm : x.maximum_polyphony = 0)
    (hn : x.maximum_polyphony_new_value = 0) (h0 : x.recent_voice_index = 0)
    (h1 : x.midi_data_read_index = 0) (h2 : x.midi_data_write_index = 0) :
    Unset (InitializeStructures x).1 := by
  obtain ⟨hs, _⟩ := InitializeStructures_spec x
  obtain ⟨a, b, c, d, e, f, g, _⟩ := synth_fields hs
  refine ⟨by rw [b]; exact hn, by rw [a, hm], by rw [a, hm]; omega, ⟨?_, ?_, ?_⟩, ?_⟩
  · rw [a, hm]; omega
  · rw [g, h0]
  · rw [g, h0]; omega
  · unfold ringOk
    rw [d, e, h1, h2]
    omega

theorem start_live (s0 : State)
    (h : PolyphonySet s0
      ∨ (s0.maximum_polyphony = 0 ∧ s0.maximum_polyphony_new_value = 0)) :
    Live (VLSG_PlaybackStart s0).1 := by
  rcases h with h | h
  · exact Or.inl (start_good s0 h)
  · rw [PlaybackStart_eq]
    have hm : ({ s0 with
        current_polyphony := 0, dword_C0000000 := 0, effect_type := 6,
        recent_voice_index := 0, event_length := 0, event_type := 0,
        reverb_data_ptr := 1, reverb_data_index := 0, processing_phase := 0,
        midi_data_write_index := 0, midi_data_read_index := 0 } : State).maximum_polyphony
        = 0 := h.1
    have hn : ({ s0 with
        current_polyphony := 0, dword_C0000000 := 0, effect_type := 6,
        recent_voice_index := 0, event_length := 0, event_type := 0,
        reverb_data_ptr := 1, reverb_data_index := 0, processing_phase := 0,
        midi_data_write_index := 0,
        midi_data_read_index := 0 } : State).maximum_polyphony_new_value = 0 := h.2
    exact Or.inr (unset_setC4 _ _ (init_unset _ hm hn rfl rfl rfl))

theorem addByte_live (s : State) (b : Int) (h : Live s) :
    Live (AddByteToMidiDataBuffer s b) := by
  rcases h with h | h
  · exact Or.inl (addByte_good s b h)
  · obtain ⟨a1, a2, a3, a4, r1, r2, r3, r4⟩ := h
    refine Or.inr ⟨a1, a2, a3, a4, r1, r2, ?_, ?_⟩
    · show 0 ≤ (s.midi_data_write_index + 1) % 65536
      omega
    · show (s.midi_data_write_index + 1) % 65536 < 65536
      omega

theorem addMidi_live (bytes : List Int) : ∀ s : State, Live s →
    Live (VLSG_AddMidiData s bytes) := by
  induction bytes with
  | nil => intro s h; exact h
  | cons b rest ih =>
    intro s h
    rw [addMidi_cons]
    exact ih _ (addByte_live s b h)

/-- Every state reached from a start of a module whose polyphony is set, or is the 0 of the
load, has the invariant `Live`. -/
theorem reachable_live (s0 s : State)
    (h0 : PolyphonySet s0
      ∨ (s0.maximum_polyphony = 0 ∧ s0.maximum_polyphony_new_value = 0))
    (hr : Reachable s0 s) : Live s := by
  induction hr with
  | start => exact start_live s0 h0
  | add s bytes _ ih => exact addMidi_live bytes s ih
  | fill s mem counter time1 time4 r _ hf ih =>
    obtain ⟨q, hq, g⟩ := fill_returns s mem counter time1 time4 ih
    rw [hq] at hf
    simp only [Option.some.injEq] at hf
    subst hf
    exact g

/-- A call of `VLSG_SetParameter` leaves the two polyphony settings as they are, or sets both to
one of 24, 32, 48, 64. -/
theorem setParameter_polyphony (s : State) (type value : Int) :
    ((VLSG_SetParameter s type value).1.maximum_polyphony = s.maximum_polyphony
      ∧ (VLSG_SetParameter s type value).1.maximum_polyphony_new_value
          = s.maximum_polyphony_new_value)
    ∨ ((VLSG_SetParameter s type value).1.maximum_polyphony
          = (VLSG_SetParameter s type value).1.maximum_polyphony_new_value
      ∧ 24 ≤ (VLSG_SetParameter s type value).1.maximum_polyphony
      ∧ (VLSG_SetParameter s type value).1.maximum_polyphony ≤ 64) := by
  unfold VLSG_SetParameter
  split
  · exact Or.inl ⟨rfl, rfl⟩
  · split
    · exact Or.inl ⟨rfl, rfl⟩
    · split
      · left
        lift_lets
        intro s1
        have : s1.maximum_polyphony = s.maximum_polyphony
            ∧ s1.maximum_polyphony_new_value = s.maximum_polyphony_new_value := by
          show (if value = 0 then _ else if value = 2 then _ else _ : State).maximum_polyphony
              = s.maximum_polyphony
            ∧ (if value = 0 then _ else if value = 2 then _
                else _ : State).maximum_polyphony_new_value = s.maximum_polyphony_new_value
          split
          · exact ⟨rfl, rfl⟩
          · split
            · exact ⟨rfl, rfl⟩
            · exact ⟨rfl, rfl⟩
        exact this
      · split
        · right
          lift_lets
          intro polyphony
          have hp : 24 ≤ polyphony ∧ polyphony ≤ 64 := by
            show 24 ≤ (if value = 17 then 32 else if value = 18 then 48
                else if value = 19 then 64 else 24 : Int)
              ∧ (if value = 17 then 32 else if value = 18 then 48
                else if value = 19 then 64 else 24 : Int) ≤ 64
            split
            · omega
            · split
              · omega
              · split <;> omega
          exact ⟨rfl, hp.1, hp.2⟩
        · split
          · left
            lift_lets
            intro s1
            split
            · exact ⟨rfl, rfl⟩
            · split
              · exact ⟨rfl, rfl⟩
              · exact ⟨rfl, rfl⟩
          · exact Or.inl ⟨rfl, rfl⟩

/-- After the load and any calls of `VLSG_SetParameter` the polyphony is set, or is the 0 of
the load. -/
theorem loaded_polyphony (rom : Int → Int) (params : List (Int × Int)) :
    PolyphonySet (loadedWith rom params)
    ∨ ((loadedWith rom params).maximum_polyphony = 0
      ∧ (loadedWith rom params).maximum_polyphony_new_value = 0) := by
  unfold loadedWith
  have key : ∀ (ps : List (Int × Int)) (s : State),
      (PolyphonySet s ∨ (s.maximum_polyphony = 0 ∧ s.maximum_polyphony_new_value = 0)) →
      (PolyphonySet (ps.foldl (fun s p => (VLSG_SetParameter s p.1 p.2).1) s)
        ∨ ((ps.foldl (fun s p => (VLSG_SetParameter s p.1 p.2).1) s).maximum_polyphony = 0
          ∧ (ps.foldl (fun s p =>
              (VLSG_SetParameter s p.1 p.2).1) s).maximum_polyphony_new_value = 0)) := by
    intro ps
    induction ps with
    | nil => intro s h; exact h
    | cons p rest ih =>
      intro s h
      rw [List.foldl_cons]
      apply ih
      rcases setParameter_polyphony s p.1 p.2 with ⟨a, b⟩ | ⟨a, b, c⟩
      · rcases h with h | h
        · left
          unfold PolyphonySet at h ⊢
          rw [a, b]
          exact h
        · right
          rw [a, b]
          exact h
      · left
        unfold PolyphonySet
        rw [← a]
        omega
  exact key params (zeroState rom) (Or.inr ⟨rfl, rfl⟩)

/-! ## Claim C2 -/

/-- Claim C2: let the module be loaded and configured by any calls of `VLSG_SetParameter`, with
the block size of the Frequency setting `f` in {0, 1, 2}, so that a callback has
`4 * 64 * 2 ^ f` frames (4 * 64, 4 * 128, 4 * 256), and let `s` be any state reached after
`VLSG_PlaybackStart`. For every counter `idx` (of which the source takes `idx & 15`, here
`idx % 16`), every two readings of the clock and every output memory, the call of
`VLSG_FillOutputBuffer` returns, it leaves every byte outside
`[(idx & 15) * samples_per_callback * 4, ((idx & 15) + 1) * samples_per_callback * 4)` of the
output buffer as it was, and it writes every byte of that range: the bytes of the range, the
state and the value returned are the same from whatever memory the call starts. -/
theorem C2_frame_effect (rom : Int → Int) (params : List (Int × Int)) (s : State) (f : Int)
    (mem : Int → Int) (idx t1 t4 : Int)
    (hf : f = 0 ∨ f = 1 ∨ f = 2) (hfreq : FrequencySet (loadedWith rom params) f)
    (hr : Reachable (loadedWith rom params) s) :
    ∃ r, VLSG_FillOutputBuffer s mem idx t1 t4 = some r
      ∧ (∀ a, ¬ (s.output_data_ptr + idx % 16 * (4 * (64 * 2 ^ f.toNat)) * 4 ≤ a
            ∧ a < s.output_data_ptr + (idx % 16 + 1) * (4 * (64 * 2 ^ f.toNat)) * 4) →
          r.2.1 a = mem a)
      ∧ ∀ mem2, ∃ r2, VLSG_FillOutputBuffer s mem2 idx t1 t4 = some r2
          ∧ r2.1 = r.1 ∧ r2.2.2 = r.2.2
          ∧ ∀ a, s.output_data_ptr + idx % 16 * (4 * (64 * 2 ^ f.toNat)) * 4 ≤ a →
              a < s.output_data_ptr + (idx % 16 + 1) * (4 * (64 * 2 ^ f.toNat)) * 4 →
              r2.2.1 a = r.2.1 a := by
  have hK : s.output_size_para = 64 * 2 ^ f.toNat := by
    rw [reachable_osp _ s hr, hfreq, frequency_block _ f hf]
  have hK3 : (64 * 2 ^ f.toNat : Int) = 64 ∨ (64 * 2 ^ f.toNat : Int) = 128
      ∨ (64 * 2 ^ f.toNat : Int) = 256 := by
    rcases hf with rfl | rfl | rfl
    · exact Or.inl rfl
    · exact Or.inr (Or.inl rfl)
    · exact Or.inr (Or.inr rfl)
  obtain ⟨r, h, _⟩ := fill_returns s mem idx t1 t4
    (reachable_live _ s (loaded_polyphony rom params) hr)
  refine ⟨r, h, fun a ha => ?_, fun mem2 => ?_⟩
  · obtain ⟨r2, _, _, _, _, b⟩ := fill_mem s mem mem idx t1 t4 _ r hK hK3 h
    exact (b a ha).1
  · obtain ⟨r2, a1, a2, a3, a4, _⟩ := fill_mem s mem mem2 idx t1 t4 _ r hK hK3 h
    exact ⟨r2, a1, a2, a3, a4⟩

/-- Witness of C2: the loaded module after `VLSG_SetParameter` with `PARAMETER_Frequency`
and the value 2 and with `PARAMETER_Polyphony` and the value `0x10`, in the state after
`VLSG_PlaybackStart`, and the callback of counter 3. -/
theorem C2_frame_effect_witness :
    ((2 : Int) = 0 ∨ (2 : Int) = 1 ∨ (2 : Int) = 2)
    ∧ FrequencySet
        (loadedWith (fun _ => 0) [(PARAMETER_Frequency, 2), (PARAMETER_Polyphony, 16)]) 2
    ∧ Reachable
        (loadedWith (fun _ => 0) [(PARAMETER_Frequency, 2), (PARAMETER_Polyphony, 16)])
        (VLSG_PlaybackStart
          (loadedWith (fun _ => 0) [(PARAMETER_Frequency, 2), (PARAMETER_Polyphony, 16)])).1
    ∧ ∃ r, VLSG_FillOutputBuffer (VLSG_PlaybackStart
          (loadedWith (fun _ => 0) [(PARAMETER_Frequency, 2), (PARAMETER_Polyphony, 16)])).1
          (fun _ => 0) 3 0 0 = some r
        ∧ ∀ a, ¬ ((VLSG_PlaybackStart (loadedWith (fun _ => 0)
              [(PARAMETER_Frequency, 2), (PARAMETER_Polyphony, 16)])).1.output_data_ptr
              + 3 % 16 * (4 * (64 * 2 ^ (2 : Int).toNat)) * 4 ≤ a
            ∧ a < (VLSG_PlaybackStart (loadedWith (fun _ => 0)
              [(PARAMETER_Frequency, 2), (PARAMETER_Polyphony, 16)])).1.output_data_ptr
              + (3 % 16 + 1) * (4 * (64 * 2 ^ (2 : Int).toNat)) * 4) →
          r.2.1 a = (fun _ => 0) a := by
  have hfreq : FrequencySet
      (loadedWith (fun _ => 0) [(PARAMETER_Frequency, 2), (PARAMETER_Polyphony, 16)]) 2 := by
    unfold FrequencySet
    decide
  obtain ⟨r, h1, h2, _⟩ := C2_frame_effect (fun _ => 0)
    [(PARAMETER_Frequency, 2), (PARAMETER_Polyphony, 16)] _ 2 (fun _ => 0) 3 0 0
    (by decide) hfreq Reachable.start
  exact ⟨by decide, hfreq, Reachable.start, r, h1, h2⟩

/-! ## The dispatcher, byte by byte -/

theorem bytes_cons (s : State) (b : Int) (bs : List Int) (hb : b ≠ 255) :
    ProcessMidiData_bytes s (b :: bs)
      = (ProcessMidiData_byte s b).bind (fun s1 => ProcessMidiData_bytes s1 bs) := by
  rw [ProcessMidiData_bytes, if_neg hb]
  cases ProcessMidiData_byte s b <;> rfl

/-- A status byte below `0xF7` starts a message. -/
theorem byte_status (s : State) (st : Int) (h1 : 128 ≤ st) (h2 : st < 247) :
    ProcessMidiData_byte s st = some { s with
      event_length := 0,
      event_type := st / 16 % 16 * 16,
      event_data := Function.update s.event_data 0 st,
      channel_data_ptr := st % 16,
      stru6_ptr := st % 16 } := by
  unfold ProcessMidiData_byte
  rw [if_neg (by omega), if_neg (by omega), if_pos (by omega)]

/-- A data byte of a system exclusive message is stored, or counted only from the 32nd on. -/
theorem byte_sysex (s : State) (d : Int) (h1 : 0 ≤ d) (h2 : d ≤ 127)
    (h0 : s.event_data 0 = 240) (hn : 0 ≤ s.event_length) (hm : s.event_length < 2147483647) :
    ProcessMidiData_byte s d = some { s with
      event_length := s.event_length + 1,
      event_data := storeData s.event_data s.event_length [d] } := by
  have e1 : i32 (s.event_length + 1) = s.event_length + 1 := by unfold i32; omega
  unfold ProcessMidiData_byte
  rw [if_neg (by omega), if_neg (by omega), if_neg (by omega)]
  simp only [e1, storeData]
  by_cases hl : s.event_length + 1 < 32
  · rw [if_neg (by omega), if_pos hl, if_pos]
    rw [Function.update_noteq (by omega)]
    exact h0
  · rw [if_pos (by omega), if_neg hl]

theorem storeData_zero : ∀ (ds : List Int) (e : Int → Int) (n : Int), 0 ≤ n →
    storeData e n ds 0 = e 0 := by
  intro ds
  induction ds with
  | nil => intro e n _; rfl
  | cons d ds ih =>
    intro e n hn
    rw [storeData, ih _ _ (by omega)]
    split
    · rw [Function.update_noteq (by omega)]
    · rfl

theorem storeData_append : ∀ (ds cs : List Int) (e : Int → Int) (n : Int),
    storeData e n (ds ++ cs) = storeData (storeData e n ds) (n + ds.length) cs := by
  intro ds
  induction ds with
  | nil => intro cs e n; simp [storeData]
  | cons d ds ih =>
    intro cs e n
    rw [List.cons_append, storeData, storeData, ih]
    rw [List.length_cons]
    push_cast
    rw [show n + 1 + (ds.length : Int) = n + ((ds.length : Int) + 1) by ring]

/-- The data bytes of a system exclusive message: they are stored, and nothing else of the
state changes. -/
theorem bytes_sysex : ∀ (ds : List Int) (s : State) (rest : List Int),
    (∀ d ∈ ds, 0 ≤ d ∧ d ≤ 127) → s.event_data 0 = 240 → 0 ≤ s.event_length →
    s.event_length + ds.length < 2147483648 →
    ProcessMidiData_bytes s (ds ++ rest) = ProcessMidiData_bytes { s with
      event_length := s.event_length + ds.length,
      event_data := storeData s.event_data s.event_length ds } rest := by
  intro ds
  induction ds with
  | nil =>
    intro s rest _ _ _ _
    simp [storeData]
  | cons d ds ih =>
    intro s rest hd h0 hn hm
    have hd1 := hd d (List.mem_cons_self _ _)
    rw [List.length_cons] at hm
    push_cast at hm
    rw [List.cons_append, bytes_cons _ _ _ (by omega),
      byte_sysex s d hd1.1 hd1.2 h0 hn (by omega), Option.some_bind,
      ih _ rest (fun x hx => hd x (List.mem_cons_of_mem _ hx))
        (by
          show storeData s.event_data s.event_length [d] 0 = 240
          rw [storeData_zero _ _ _ hn]; exact h0)
        (by show 0 ≤ s.event_length + 1; omega)
        (by show s.event_length + 1 + (ds.length : Int) < 2147483648; omega)]
    congr 1
    rw [List.length_cons]
    push_cast
    have e2 : storeData (storeData s.event_data s.event_length [d]) (s.event_length + 1) ds
        = storeData s.event_data s.event_length (d :: ds) := by
      rw [show d :: ds = [d] ++ ds from rfl, storeData_append]
      simp
    simp only [e2]
    rw [show s.event_length + 1 + (ds.length : Int) = s.event_length + ((ds.length : Int) + 1)
      by ring]

/-- The state in which `SystemExclusive` is called for the message `F0 ds F7`. -/
theorem bytes_sysex_message (s : State) (ds rest : List Int)
    (hd : ∀ d ∈ ds, 0 ≤ d ∧ d ≤ 127) (hm : (ds.length : Int) < 2147483648) :
    ProcessMidiData_bytes s (240 :: (ds ++ 247 :: rest))
      = (ProcessMidiData_dispatch { s with
          event_length := ds.length,
          event_type := 240,
          event_data := storeData (Function.update s.event_data 0 240) 0 ds,
          channel_data_ptr := 0,
          stru6_ptr := 0 }).bind (fun t => ProcessMidiData_bytes t rest) := by
  rw [bytes_cons _ _ _ (by omega), byte_status s 240 (by omega) (by omega), Option.some_bind,
    bytes_sysex ds _ _ hd (by simp) (by simp) (by simpa using hm),
    bytes_cons _ _ _ (by omega)]
  congr 1
  unfold ProcessMidiData_byte
  rw [if_neg (by omega), if_pos rfl, if_neg]
  · simp
  · simp only [ne_eq, not_not]
    rw [storeData_zero _ _ _ (le_refl _)]
    simp

/-! ## System exclusive messages in the dispatcher -/

theorem dispatch_sysex (u : State) (h : u.event_type = 240) :
    ProcessMidiData_dispatch u
      = (SystemExclusive u).map (fun t => { t with event_length := 0 }) := by
  unfold ProcessMidiData_dispatch
  simp [h]

theorem bytes_sysex_state (s : State) (ds : List Int)
    (hd : ∀ d ∈ ds, 0 ≤ d ∧ d ≤ 127) (hm : (ds.length : Int) < 2147483648) :
    ProcessMidiData_bytes s (240 :: (ds ++ [247]))
      = (SystemExclusive (sysexState s ds)).map (fun t => { t with event_length := 0 }) := by
  rw [bytes_sysex_message s ds [] hd hm]
  show (ProcessMidiData_dispatch (sysexState s ds)).bind _ = _
  rw [dispatch_sysex _ rfl]
  cases SystemExclusive (sysexState s ds) <;> rfl

theorem live_sysexState (s : State) (ds : List Int) (h : Live s) : Live (sysexState s ds) := h

/-- The event data of the vendor message `F0 44 0E 03 xx F7`. -/
theorem vendor_data (s : State) (xx : Int) :
    SystemExclusive_isReset (sysexState s [68, 14, 3, xx]) = false
    ∧ SystemExclusive_isVendor (sysexState s [68, 14, 3, xx]) = true
    ∧ (sysexState s [68, 14, 3, xx]).event_data 4 = xx := by
  refine ⟨?_, ?_, ?_⟩
  · simp [SystemExclusive_isReset, sysexState, storeData, Function.update]
  · simp [SystemExclusive_isVendor, sysexState, storeData, Function.update]
  · simp [sysexState, storeData, Function.update]

theorem bytes_vendor (s : State) (xx : Int) (h1 : 0 ≤ xx) (h2 : xx ≤ 127) :
    ProcessMidiData_bytes s [240, 68, 14, 3, xx, 247]
      = (SystemExclusive (sysexState s [68, 14, 3, xx])).map
          (fun t => { t with event_length := 0 }) := by
  have := bytes_sysex_state s [68, 14, 3, xx]
    (by
      intro d hd
      simp only [List.mem_cons, List.mem_singleton, List.not_mem_nil, or_false] at hd
      omega)
    (by simp)
  exact this

/-! ## The polyphony codes and the reverb codes -/

theorem setParameter_effect (s : State) (xx : Int) :
    (VLSG_SetParameter s PARAMETER_Effect xx).1
      = if u32 xx = 32 then DisableReverb (DisableReverb { s with effect_param_value := u32 xx })
        else if u32 xx = 34 then
          EnableReverb (SetReverbShift (DisableReverb { s with effect_param_value := u32 xx }) 0)
        else
          EnableReverb (SetReverbShift (DisableReverb { s with effect_param_value := u32 xx }) 1)
      := by
  unfold VLSG_SetParameter
  rw [if_neg (by decide), if_neg (by decide), if_neg (by decide), if_neg (by decide),
    if_pos rfl]
  show (if u32 xx = 32 then _ else if u32 xx = 34 then _ else _ : State × Int).1 = _
  split
  · rfl
  · split <;> rfl

theorem setParameter_polyphony_code (s : State) (xx : Int) (h1 : 16 ≤ xx) (h2 : xx ≤ 19) :
    (VLSG_SetParameter s PARAMETER_Polyphony xx).1
      = { s with maximum_polyphony := voicesOfCode xx,
                 maximum_polyphony_new_value := voicesOfCode xx } := by
  unfold VLSG_SetParameter
  rw [if_neg (by decide), if_neg (by decide), if_neg (by decide), if_pos rfl]
  have e : (if xx = 17 then 32 else if xx = 18 then 48 else if xx = 19 then 64 else (24 : Int))
      = voicesOfCode xx := by
    unfold voicesOfCode
    split_ifs <;> first | rfl | omega
  simp only [e]

theorem sysex_vendor (s : State) (xx : Int) :
    SystemExclusive (sysexState s [68, 14, 3, xx])
      = if xx = 16 then
          (SetMaximumVoices (sysexState s [68, 14, 3, xx]) 24).map
            (fun t => { t with maximum_polyphony_new_value := 24 })
        else if xx = 17 then
          (SetMaximumVoices (sysexState s [68, 14, 3, xx]) 32).map
            (fun t => { t with maximum_polyphony_new_value := 32 })
        else if xx = 18 then
          (SetMaximumVoices (sysexState s [68, 14, 3, xx]) 48).map
            (fun t => { t with maximum_polyphony_new_value := 48 })
        else if xx = 19 then
          some { sysexState s [68, 14, 3, xx] with
            maximum_polyphony := 64, maximum_polyphony_new_value := 64 }
        else if xx = 32 then some (DisableReverb (sysexState s [68, 14, 3, xx]))
        else if xx = 33 then
          some (SetReverbShift (EnableReverb (sysexState s [68, 14, 3, xx])) 1)
        else if xx = 34 then
          some (SetReverbShift (EnableReverb (sysexState s [68, 14, 3, xx])) 0)
        else if 64 ≤ xx ∧ xx ≤ 74 then
          some { sysexState s [68, 14, 3, xx] with effect_type := xx - 64 }
        else some (sysexState s [68, 14, 3, xx]) := by
  obtain ⟨a, b, c⟩ := vendor_data s xx
  unfold SystemExclusive
  rw [a, b]
  simp only [c]
  rfl

/-- Claim C12. For the codes `0x20`, `0x21` and `0x22`, `VLSG_SetParameter` with
`PARAMETER_Effect` and the vendor message `F0 44 0E 03 xx F7` in the dispatcher both leave the
reverb disabled for `0x20`, enabled with `reverb_shift = 1` for `0x21` and enabled with
`reverb_shift = 0` for `0x22`; this in every state, and the dispatcher returns. -/
theorem C12_reverb_codes (s : State) :
    (VLSG_SetParameter s PARAMETER_Effect 32).1.is_reverb_enabled = 0
    ∧ ((VLSG_SetParameter s PARAMETER_Effect 33).1.is_reverb_enabled = 1
      ∧ (VLSG_SetParameter s PARAMETER_Effect 33).1.reverb_shift = 1)
    ∧ ((VLSG_SetParameter s PARAMETER_Effect 34).1.is_reverb_enabled = 1
      ∧ (VLSG_SetParameter s PARAMETER_Effect 34).1.reverb_shift = 0)
    ∧ (∃ t, ProcessMidiData_bytes s [240, 68, 14, 3, 32, 247] = some t
      ∧ t.is_reverb_enabled = 0)
    ∧ (∃ t, ProcessMidiData_bytes s [240, 68, 14, 3, 33, 247] = some t
      ∧ t.is_reverb_enabled = 1 ∧ t.reverb_shift = 1)
    ∧ (∃ t, ProcessMidiData_bytes s [240, 68, 14, 3, 34, 247] = some t
      ∧ t.is_reverb_enabled = 1 ∧ t.reverb_shift = 0) := by
  refine ⟨?_, ⟨?_, ?_⟩, ⟨?_, ?_⟩, ?_, ?_, ?_⟩
  · rw [setParameter_effect, if_pos (by decide)]; rfl
  · rw [setParameter_effect, if_neg (by decide), if_neg (by decide)]; rfl
  · rw [setParameter_effect, if_neg (by decide), if_neg (by decide)]; rfl
  · rw [setParameter_effect, if_neg (by decide), if_pos (by decide)]; rfl
  · rw [setParameter_effect, if_neg (by decide), if_pos (by decide)]; rfl
  · rw [bytes_vendor s 32 (by omega) (by omega), sysex_vendor]
    exact ⟨_, rfl, rfl⟩
  · rw [bytes_vendor s 33 (by omega) (by omega), sysex_vendor]
    exact ⟨_, rfl, rfl, rfl⟩
  · rw [bytes_vendor s 34 (by omega) (by omega), sysex_vendor]
    exact ⟨_, rfl, rfl, rfl⟩

/-- Claim C11. For the codes `0x10` to `0x13`, `VLSG_SetParameter` with `PARAMETER_Polyphony`
and the vendor message `F0 44 0E 03 xx F7` in the dispatcher both leave `maximum_polyphony`
and `maximum_polyphony_new_value` equal to 24, 32, 48 and 64 voices; the dispatcher is
taken in a state of the invariant `Live` of the running module, in which it returns. -/
theorem C11_polyphony_codes (s : State) (xx : Int) (h1 : 16 ≤ xx) (h2 : xx ≤ 19)
    (hs : Live s) :
    ((VLSG_SetParameter s PARAMETER_Polyphony xx).1.maximum_polyphony = voicesOfCode xx
      ∧ (VLSG_SetParameter s PARAMETER_Polyphony xx).1.maximum_polyphony_new_value
        = voicesOfCode xx)
    ∧ ∃ t, ProcessMidiData_bytes s [240, 68, 14, 3, xx, 247] = some t
      ∧ t.maximum_polyphony = voicesOfCode xx
      ∧ t.maximum_polyphony_new_value = voicesOfCode xx := by
  refine ⟨by rw [setParameter_polyphony_code s xx h1 h2]; exact ⟨rfl, rfl⟩, ?_⟩
  rw [bytes_vendor s xx (by omega) (by omega), sysex_vendor]
  have hl := live_sysexState s [68, 14, 3, xx] hs
  have key : ∀ mv : Int, 2 ≤ mv → ∃ t,
      ((SetMaximumVoices (sysexState s [68, 14, 3, xx]) mv).map
        (fun t => { t with maximum_polyphony_new_value := mv })).map
          (fun t => { t with event_length := 0 }) = some t
      ∧ t.maximum_polyphony = mv ∧ t.maximum_polyphony_new_value = mv := by
    intro mv hmv
    obtain ⟨t, ht, _, _⟩ := SetMaximumVoices_returns _ mv (live_enough hl mv hmv)
    obtain ⟨a, _⟩ := SetMaximumVoices_spec mv ht
    rw [ht]
    exact ⟨_, rfl, a, rfl⟩
  have hx : xx = 16 ∨ xx = 17 ∨ xx = 18 ∨ xx = 19 := by omega
  rcases hx with hx | hx | hx | hx
  · subst hx
    rw [if_pos rfl]
    exact key 24 (by omega)
  · subst hx
    rw [if_neg (by decide), if_pos rfl]
    exact key 32 (by omega)
  · subst hx
    rw [if_neg (by decide), if_neg (by decide), if_pos rfl]
    exact key 48 (by omega)
  · subst hx
    rw [if_neg (by decide), if_neg (by decide), if_neg (by decide), if_pos rfl]
    exact ⟨_, rfl, rfl, rfl⟩

theorem playing_live : Live playingModule :=
  start_live (VLSG_SetParameter C4_module PARAMETER_Polyphony 16).1
    (Or.inl (by unfold PolyphonySet; decide))

/-- Witness of C11: the code `0x11` in the module in play. -/
theorem C11_polyphony_codes_witness :
    Live playingModule
    ∧ ((VLSG_SetParameter playingModule PARAMETER_Polyphony 17).1.maximum_polyphony
        = voicesOfCode 17
      ∧ (VLSG_SetParameter playingModule PARAMETER_Polyphony 17).1.maximum_polyphony_new_value
        = voicesOfCode 17)
    ∧ ∃ t, ProcessMidiData_bytes playingModule [240, 68, 14, 3, 17, 247] = some t
      ∧ t.maximum_polyphony = voicesOfCode 17
      ∧ t.maximum_polyphony_new_value = voicesOfCode 17 :=
  ⟨playing_live, C11_polyphony_codes playingModule 17 (by decide) (by decide) playing_live⟩

/-! ## System exclusive messages that are not known -/

theorem storeData_get : ∀ (ds : List Int) (e : Int → Int) (n k : Int),
    storeData e n ds k
      = if n < k ∧ k ≤ n + ds.length ∧ k < 32 then ds.getD (k - n - 1).toNat 0 else e k := by
  intro ds
  induction ds with
  | nil =>
    intro e n k
    rw [storeData, if_neg]
    simp only [List.length_nil]
    push_cast
    omega
  | cons d ds ih =>
    intro e n k
    rw [storeData, ih, List.length_cons]
    push_cast
    by_cases h1 : k = n + 1
    · subst h1
      rw [if_neg (by omega)]
      by_cases h2 : n + 1 < 32
      · rw [if_pos h2, Function.update_same, if_pos (by omega)]
        have e0 : (n + 1 - n - 1).toNat = 0 := by omega
        rw [e0]
        rfl
      · rw [if_neg h2, if_neg (by omega)]
    · have e1 : (if n + 1 < 32 then Function.update e (n + 1) d else e) k = e k := by
        split
        · rw [Function.update_noteq h1]
        · rfl
      rw [e1]
      by_cases h3 : n + 1 < k ∧ k ≤ n + 1 + (ds.length : Int) ∧ k < 32
      · rw [if_pos h3, if_pos (by omega)]
        have e2 : (k - n - 1).toNat = (k - (n + 1) - 1).toNat + 1 := by omega
        rw [e2, List.getD_cons_succ]
      · rw [if_neg h3, if_neg (by omega)]

set_option maxRecDepth 100000 in
/-- Counterexample to C15 as stated: in the module in play, the dispatcher takes a GM reset
and the program change `C0 05`, which leaves program 5 on channel 0 and the bytes `7F 09 01`
of the reset in `event_data[2..4]`; the message `F0 7E F7`, whose own bytes are none of the
known messages, is then taken for a GM reset, and the program of channel 0 is 0 after it. -/
theorem C15_counterexample :
    (ProcessMidiData_bytes playingModule [240, 126, 127, 9, 1, 247, 192, 5]).bind
      (fun s1 => (ProcessMidiData_bytes s1 [240, 126, 247]).map
        (fun s2 => ((s1.channel_data 0).program_change, (s2.channel_data 0).program_change)))
      = some (5, 0) := by
  decide

theorem sysex_unknown (u : State) (h1 : SystemExclusive_isReset u = false)
    (h2 : SystemExclusive_isVendor u = true → ¬ knownCode (u.event_data 4)) :
    SystemExclusive u = some u := by
  unfold SystemExclusive
  rw [h1, if_neg (by decide)]
  by_cases hv : SystemExclusive_isVendor u = true
  · have hk := h2 hv
    unfold knownCode at hk
    rw [if_pos hv]
    simp only
    repeat rw [if_neg (by omega)]
  · rw [if_neg hv]

/-- Claim C15 (amended). A system exclusive message `F0 ds F7` is matched on the content of
`event_data` when `F7` is taken: the bytes of the message in the places 0 to 31, and behind
them the bytes that earlier messages have left there. When this content is neither the GM
reset, nor the GS reset, nor a vendor message with a known code, the message changes
nothing but the registers of the dispatcher (`event_data`, `event_length`, `event_type` and
the two channel pointers): the channels, the voices, the polyphony, the reverb and the
effect are as before. -/
theorem C15_unknown_sysex (s : State) (ds : List Int)
    (hd : ∀ d ∈ ds, 0 ≤ d ∧ d ≤ 127) (hm : (ds.length : Int) < 2147483648)
    (h1 : SystemExclusive_isReset (sysexState s ds) = false)
    (h2 : SystemExclusive_isVendor (sysexState s ds) = true
      → ¬ knownCode ((sysexState s ds).event_data 4)) :
    ProcessMidiData_bytes s (240 :: (ds ++ [247]))
      = some { s with
          event_length := 0,
          event_type := 240,
          event_data := (sysexState s ds).event_data,
          channel_data_ptr := 0,
          stru6_ptr := 0 }
    ∧ (sysexState s ds).event_data 0 = 240
    ∧ (∀ k : Int, 1 ≤ k → k ≤ ds.length → k < 32 →
        (sysexState s ds).event_data k = ds.getD (k - 1).toNat 0)
    ∧ (∀ k : Int, (ds.length : Int) < k ∨ 32 ≤ k →
        (sysexState s ds).event_data k = s.event_data k) := by
  refine ⟨?_, ?_, ?_, ?_⟩
  · rw [bytes_sysex_state s ds hd hm, sysex_unknown _ h1 h2]
    rfl
  · show storeData (Function.update s.event_data 0 240) 0 ds 0 = 240
    rw [storeData_zero _ _ _ (le_refl _), Function.update_same]
  · intro k k1 k2 k3
    show storeData (Function.update s.event_data 0 240) 0 ds k = _
    rw [storeData_get, if_pos (by omega)]
    rw [show k - 0 - 1 = k - 1 by ring]
  · intro k hk
    show storeData (Function.update s.event_data 0 240) 0 ds k = _
    have := Int.ofNat_nonneg ds.length
    rw [storeData_get, if_neg (by omega), Function.update_noteq (by omega)]

/-- Witness of the amended C15: the message `F0 01 02 03 F7` in the module in play. -/
theorem C15_unknown_sysex_witness :
    (∀ d ∈ ([1, 2, 3] : List Int), 0 ≤ d ∧ d ≤ 127)
    ∧ SystemExclusive_isReset (sysexState playingModule [1, 2, 3]) = false
    ∧ ProcessMidiData_bytes playingModule (240 :: ([1, 2, 3] ++ [247]))
      = some { playingModule with
          event_length := 0,
          event_type := 240,
          event_data := (sysexState playingModule [1, 2, 3]).event_data,
          channel_data_ptr := 0,
          stru6_ptr := 0 } :=
  ⟨by decide, by decide,
    (C15_unknown_sysex playingModule [1, 2, 3] (by decide) (by decide) (by decide)
      (fun h => absurd h (by decide))).1⟩

/-! ## Framing, running status and real-time bytes -/

/-- The body of the loop of `ProcessMidiData` for a data byte, with the new length `n`. -/
theorem byte_data (s : State) (d n : Int) (h1 : 0 ≤ d ∧ d ≤ 127)
    (hn : i32 (s.event_length + 1) = n) :
    ProcessMidiData_byte s d
      = if n ≥ 32 then some { s with event_length := n }
        else if Function.update s.event_data n d 0 = 240 then
          some { s with event_length := n, event_data := Function.update s.event_data n d }
        else if s.event_type ≠ 192 ∧ s.event_type ≠ 208 ∧ n ≠ 2 then
          some { s with event_length := n, event_data := Function.update s.event_data n d }
        else
          ProcessMidiData_dispatch { s with
            event_length := n, event_data := Function.update s.event_data n d } := by
  subst hn
  unfold ProcessMidiData_byte
  rw [if_neg (by omega), if_neg (by omega), if_neg (by omega)]

/-- The first data byte of a group under a status that takes two: it is stored, and no
handler runs. -/
theorem byte_first (s : State) (st d1 : Int) (hst : 128 ≤ st ∧ st ≤ 239)
    (h1 : 0 ≤ d1 ∧ d1 ≤ 127) (ha : Awaiting st s) (h2 : ¬ (192 ≤ st ∧ st ≤ 223)) :
    ProcessMidiData_byte s d1
      = some { s with event_length := 1, event_data := Function.update s.event_data 1 d1 } := by
  obtain ⟨a, b, c, _, _⟩ := ha
  rw [byte_data s d1 1 h1 (by rw [a]; decide), if_neg (by omega),
    Function.update_noteq (show (0 : Int) ≠ 1 by decide), c, if_neg (by omega), b,
    if_pos (by omega)]

/-- The data byte that completes a group: it is stored, and the `switch` runs once. -/
theorem byte_last (s : State) (st d n : Int) (hst : 128 ≤ st ∧ st ≤ 239)
    (h1 : 0 ≤ d ∧ d ≤ 127) (h0 : s.event_data 0 = st) (ht : s.event_type = st / 16 % 16 * 16)
    (hn : s.event_length = n)
    (h2 : (192 ≤ st ∧ st ≤ 223 ∧ n = 0) ∨ (¬ (192 ≤ st ∧ st ≤ 223) ∧ n = 1)) :
    ProcessMidiData_byte s d
      = ProcessMidiData_dispatch { s with
          event_length := n + 1, event_data := Function.update s.event_data (n + 1) d } := by
  rw [byte_data s d (n + 1) h1 (by rw [hn]; unfold i32; omega), if_neg (by omega),
    Function.update_noteq (show (0 : Int) ≠ n + 1 by omega), h0, if_neg (by omega), ht,
    if_neg (by omega)]

/-- One pass of the loop of `ProcessMidiData`: the loop is left when `0xFF` is dequeued, and
goes on with the body for the byte otherwise. -/
theorem loop_delivered (n : Nat) (s : State) :
    ProcessMidiData_loop (n + 1) s
      = if (GetValueFromMidiDataBuffer s).2 = 255 then some (GetValueFromMidiDataBuffer s).1
        else (ProcessMidiData_byte (GetValueFromMidiDataBuffer s).1
          (GetValueFromMidiDataBuffer s).2).bind (ProcessMidiData_loop n) := by
  rw [ProcessMidiData_loop]
  split
  · rfl
  · cases ProcessMidiData_byte (GetValueFromMidiDataBuffer s).1
      (GetValueFromMidiDataBuffer s).2 <;> rfl

/-- A byte `0xF8` to `0xFE` that `GetValueFromMidiDataBuffer` delivers is passed over by
`ProcessMidiData`: the loop goes on in the state in which the byte was dequeued. -/
theorem loop_realtime (n : Nat) (s : State)
    (h : 248 ≤ (GetValueFromMidiDataBuffer s).2 ∧ (GetValueFromMidiDataBuffer s).2 ≤ 254) :
    ProcessMidiData_loop (n + 1) s = ProcessMidiData_loop n (GetValueFromMidiDataBuffer s).1 := by
  rw [loop_delivered, if_neg (by omega)]
  have e : ProcessMidiData_byte (GetValueFromMidiDataBuffer s).1
      (GetValueFromMidiDataBuffer s).2 = some (GetValueFromMidiDataBuffer s).1 := by
    unfold ProcessMidiData_byte
    rw [if_pos (by omega)]
  rw [e]
  rfl

/-- Claim C14 (amended). The bytes `0xF8` to `0xFE` are ignored: the loop of
`ProcessMidiData` on a stream of dequeued bytes ends in the same state (and returns or not
alike) as on the stream without these bytes. The byte `0xFF` stays in the stream: it is the
value by which `GetValueFromMidiDataBuffer` tells that no byte is delivered, and the loop is
left when it is dequeued. -/
theorem C14_realtime_ignored (bs : List Int) : ∀ s : State,
    ProcessMidiData_bytes s (bs.filter (fun b => decide (¬ (248 ≤ b ∧ b ≤ 254))))
      = ProcessMidiData_bytes s bs := by
  induction bs with
  | nil => intro s; rfl
  | cons b bs ih =>
    intro s
    by_cases hb : 248 ≤ b ∧ b ≤ 254
    · rw [List.filter_cons_of_neg (by simp only [decide_eq_true_eq]; exact not_not.mpr hb), ih,
        bytes_cons _ _ _ (by omega)]
      have e : ProcessMidiData_byte s b = some s := by
        unfold ProcessMidiData_byte
        rw [if_pos (by omega)]
      rw [e]
      rfl
    · rw [List.filter_cons_of_pos (by simp only [decide_eq_true_eq]; exact hb)]
      by_cases h255 : b = 255
      · rw [ProcessMidiData_bytes, ProcessMidiData_bytes, if_pos h255, if_pos h255]
      · rw [bytes_cons _ _ _ h255, bytes_cons _ _ _ h255]
        cases ProcessMidiData_byte s b with
        | none => rfl
        | some t => exact ih t

set_option maxRecDepth 100000 in
/-- Counterexample to C14 as stated: the module in play, with the Note On `90 3C 64` in the
MIDI ring buffer, once with a byte `0xFF` behind the status byte and once without it, every
record due. With the byte `0xFF`, the call of `ProcessMidiData` returns when it has dequeued
it: voice 0 is free and two records are pending; without it, voice 0 plays note 60. The loop
on the dequeued bytes tells the same. -/
theorem C14_counterexample :
    (ProcessMidiData (C14_state [144, 255, 60, 100])).map
        (fun t => ((t.voice_data 0).note_number, pendingBytes t)) = some (255, 10)
    ∧ (ProcessMidiData (C14_state [144, 60, 100])).map
        (fun t => ((t.voice_data 0).note_number, pendingBytes t)) = some (60, 0)
    ∧ (ProcessMidiData_bytes playingModule [144, 255, 60, 100]).map
        (fun t => (t.voice_data 0).note_number) = some 255
    ∧ (ProcessMidiData_bytes playingModule [144, 60, 100]).map
        (fun t => (t.voice_data 0).note_number) = some 60 := by
  decide

/-! ## The steps on one voice -/

theorem one_refl (vi : Int) (s : State) : OneVoice vi s s :=
  ⟨fun _ _ => rfl, rfl, rfl, rfl, rfl, Or.inl rfl, rfl⟩

theorem one_trans {vi : Int} {s t u : State} (h1 : OneVoice vi s t) (h2 : OneVoice vi t u) :
    OneVoice vi s u := by
  refine ⟨fun j hj => (h2.other j hj).trans (h1.other j hj), h2.channels.trans h1.channels,
    h2.programs.trans h1.programs, h2.recent.trans h1.recent, h2.chan.trans h1.chan, ?_,
    h2.flags.trans h1.flags⟩
  rcases h2.note with b | b
  · rw [b]; exact h1.note
  · exact Or.inr b

theorem one_ite {vi : Int} {s a b : State} (c : Prop) [Decidable c] (ha : OneVoice vi s a)
    (hb : OneVoice vi s b) : OneVoice vi s (if c then a else b) := by
  split
  · exact ha
  · exact hb

/-- A change of the voice `vi` that keeps its channel layer, its note (or frees it) and its
two flags. -/
theorem one_updVoice {s t : State} (vi : Int) (g : Voice_Data → Voice_Data)
    (h : OneVoice vi s t)
    (hg : ∀ w : Voice_Data, (g w).channel_num_2 = w.channel_num_2
      ∧ ((g w).note_number = w.note_number ∨ (g w).note_number = 255)
      ∧ (g w).vflags / 64 % 4 = w.vflags / 64 % 4) :
    OneVoice vi s (t.updVoice vi g) := by
  obtain ⟨g1, g2, g3⟩ := hg (t.voice_data vi)
  refine ⟨?_, h.channels, h.programs, h.recent, ?_, ?_, ?_⟩
  · intro j hj
    simp only [State.updVoice, Function.update_noteq hj]
    exact h.other j hj
  · simp only [State.updVoice, Function.update_same]
    rw [g1]; exact h.chan
  · simp only [State.updVoice, Function.update_same]
    rcases g2 with b | b
    · rw [b]; exact h.note
    · exact Or.inr b
  · simp only [State.updVoice, Function.update_same]
    rw [g3]; exact h.flags

theorem one_A0 {s t : State} (vi a b : Int) (h : OneVoice vi s t) :
    OneVoice vi s (sub_C00373A0 t a b).1 :=
  ⟨h.other, h.channels, h.programs, h.recent, h.chan, h.note, h.flags⟩

theorem one_400 {s t : State} (vi : Int) (h : OneVoice vi s t) :
    OneVoice vi s (sub_C0037400 t).1 :=
  ⟨h.other, h.channels, h.programs, h.recent, h.chan, h.note, h.flags⟩

theorem one_420 {s t : State} (vi a : Int) (h : OneVoice vi s t) :
    OneVoice vi s (sub_C0037420 t a).1 :=
  ⟨h.other, h.channels, h.programs, h.recent, h.chan, h.note, h.flags⟩

theorem one_sub_C0034970 {s t : State} (vi u a : Int) (h : OneVoice vi s t) :
    OneVoice vi s (sub_C0034970 t u a).1 := by
  unfold sub_C0034970
  exact one_420 _ _ (one_A0 _ _ _ h)

theorem one_sub_C0036A80 {s t : State} (vi : Int) (h : OneVoice vi s t) :
    OneVoice vi s (sub_C0036A80 t vi) := by
  unfold sub_C0036A80
  lift_lets
  intro v r1 r2 w offset1 offset2 r3 r4
  exact one_updVoice _ _ (one_400 _ (one_updVoice _ _
    (one_420 _ _ (one_A0 _ _ _ (one_sub_C0034970 _ _ _ h))) (fun _ => ⟨rfl, Or.inl rfl, rfl⟩)))
    (fun x => ⟨rfl, Or.inl rfl, by
      show u16 (x.vflags / 8 % 32 * 8 + x.field_48 % 8) / 64 % 4 = x.vflags / 64 % 4
      unfold u16; omega⟩)

theorem one_sub_C0036B00 {s t : State} (vi : Int) (h : OneVoice vi s t) :
    OneVoice vi s (sub_C0036B00 t vi) := by
  unfold sub_C0036B00
  lift_lets
  intro v r1 r2 w offset1 offset2 r3 value1 value2 s4
  have h4 : OneVoice vi s s4 := one_updVoice _ _
    (one_420 _ _ (one_A0 _ _ _ (one_sub_C0034970 _ _ _ h))) (fun _ => ⟨rfl, Or.inl rfl, rfl⟩)
  split
  · exact one_updVoice _ _ h4 (fun _ => ⟨rfl, Or.inr rfl, rfl⟩)
  · exact one_updVoice _ _ (one_400 _ h4) (fun x => ⟨rfl, Or.inl rfl, by
      show u16 (x.vflags % 8 + x.vflags / 64 % 4 * 64 + x.field_4E % 8 * 8) / 64 % 4
        = x.vflags / 64 % 4
      unfold u16; omega⟩)

/-- The voice that `VoiceSoundOff` has put into its release. -/
theorem VoiceSoundOff_release (s : State) (vi : Int) :
    (∀ j, j ≠ vi → (VoiceSoundOff s vi).voice_data j = s.voice_data j)
    ∧ (VoiceSoundOff s vi).channel_data = s.channel_data
    ∧ (VoiceSoundOff s vi).stru_C0030080 = s.stru_C0030080
    ∧ (VoiceSoundOff s vi).recent_voice_index = s.recent_voice_index
    ∧ ((VoiceSoundOff s vi).voice_data vi).channel_num_2 = (s.voice_data vi).channel_num_2
    ∧ (((VoiceSoundOff s vi).voice_data vi).note_number = (s.voice_data vi).note_number
      ∨ ((VoiceSoundOff s vi).voice_data vi).note_number = 255)
    ∧ ((VoiceSoundOff s vi).voice_data vi).vflags / 64 % 4 = 2 := by
  unfold VoiceSoundOff
  lift_lets
  intro s1
  have H : OneVoice vi s1 (sub_C0036A80 (sub_C0036B00 s1 vi) vi) :=
    one_sub_C0036A80 _ (one_sub_C0036B00 _ (one_refl vi s1))
  have e1 : ∀ j, j ≠ vi → s1.voice_data j = s.voice_data j := by
    intro j hj
    simp only [s1, State.updVoice, Function.update_noteq hj]
  have e2 : (s1.voice_data vi).channel_num_2 = (s.voice_data vi).channel_num_2 := by
    simp only [s1, State.updVoice, Function.update_same]
  have e3 : (s1.voice_data vi).note_number = (s.voice_data vi).note_number := by
    simp only [s1, State.updVoice, Function.update_same]
  have e4 : (s1.voice_data vi).vflags / 64 % 4 = 2 := by
    simp only [s1, State.updVoice, Function.update_same]
    omega
  refine ⟨fun j hj => (H.other j hj).trans (e1 j hj), H.channels, H.programs, H.recent,
    H.chan.trans e2, ?_, H.flags.trans e4⟩
  rcases H.note with b | b
  · exact Or.inl (b.trans e3)
  · exact Or.inr b

theorem freeOrReleased_of_flags (w : Voice_Data) (h : w.vflags / 64 % 4 = 2) :
    FreeOrReleased w := Or.inr (by omega)

/-- After `AllVoicesSoundsOff`, each of the 64 voices is free or in its release. -/
theorem AllVoicesSoundsOff_released (s : State) :
    (∀ i, 0 ≤ i → i < 64 → FreeOrReleased ((AllVoicesSoundsOff s).voice_data i))
    ∧ (AllVoicesSoundsOff s).channel_data = s.channel_data := by
  unfold AllVoicesSoundsOff
  have := forRange_inv
    (fun index (t : State) =>
      if (t.voice_data index).note_number ≠ 255 then VoiceSoundOff t index else t)
    (fun j u => (∀ i, 0 ≤ i → i < j → FreeOrReleased (u.voice_data i))
      ∧ u.channel_data = s.channel_data) 0 MAX_VOICES
    (by unfold MAX_VOICES; omega)
    (by
      intro j u _ _ hq
      obtain ⟨q1, q2⟩ := hq
      obtain ⟨a, b, _, _, _, _, c⟩ := VoiceSoundOff_release u j
      by_cases hn : (u.voice_data j).note_number ≠ 255
      · simp only [if_pos hn]
        refine ⟨?_, b.trans q2⟩
        intro i hi1 hi2
        by_cases hij : i = j
        · subst hij
          exact freeOrReleased_of_flags _ c
        · rw [a i hij]
          exact q1 i hi1 (by omega)
      · simp only [if_neg hn]
        refine ⟨?_, q2⟩
        intro i hi1 hi2
        by_cases hij : i = j
        · subst hij
          exact Or.inl (not_not.mp hn)
        · exact q1 i hi1 (by omega))
    s ⟨by intro i h1 h2; omega, rfl⟩
  exact this

theorem ProgramChange_layer_channels (u : State) (ci base : Int) :
    (ProgramChange_layer u ci base).channel_data = u.channel_data := by
  unfold ProgramChange_layer
  lift_lets
  intro s1 sh
  have h1 : s1.channel_data = u.channel_data :=
    forRange_keeps (fun index (x : State) =>
        (sub_C0037400 x).1.setStru6 ci (base + index) (i16 (sub_C0037400 x).2))
      (fun x => x.channel_data = u.channel_data) 0 14 (fun i x _ _ hx => hx) u rfl
  have e : ∀ (x : State) (i k v : Int), (x.setStru6 i k v).channel_data = x.channel_data :=
    fun _ _ _ _ => rfl
  simp only [sh, e]
  exact h1

theorem ProgramChange_channels (t : State) (ci p : Int) :
    (ProgramChange t ci p).channel_data = t.channel_data := by
  unfold ProgramChange
  lift_lets
  intros
  rw [ProgramChange_layer_channels, ProgramChange_layer_channels]
  rfl

theorem programs_channels (t : State) :
    (forRange 0 MIDI_CHANNELS (fun index u => ProgramChange u index 0) t).channel_data
      = t.channel_data
    ∧ (forRange 0 MIDI_CHANNELS (fun index u => ProgramChange u index 0) t).voice_data
      = t.voice_data :=
  forRange_keeps _ (fun x : State => x.channel_data = t.channel_data
      ∧ x.voice_data = t.voice_data) 0 MIDI_CHANNELS
    (fun i x _ _ hx => ⟨(ProgramChange_channels x i 0).trans hx.1,
      (ProgramChange_voices x i 0).trans hx.2⟩) t ⟨rfl, rfl⟩

/-- What `ResetChannel` does to the channel block `ci`, and that it leaves the others. -/
theorem ResetChannel_spec (s : State) (ci : Int) :
    ChannelReset (s.channel_data ci) ((ResetChannel s ci).channel_data ci)
    ∧ (∀ j, j ≠ ci → (ResetChannel s ci).channel_data j = s.channel_data j)
    ∧ (ResetChannel s ci).voice_data = s.voice_data := by
  refine ⟨?_, ?_, rfl⟩
  · simp only [ResetChannel, State.updChannel, Function.update_same, ChannelReset, true_and]
    omega
  · intro j hj
    simp only [ResetChannel, State.updChannel, Function.update_noteq hj]

/-- The loop of the resets over the 16 channels. -/
theorem resets_channels (s : State) :
    (∀ ci, 0 ≤ ci → ci < 16 → ChannelReset (s.channel_data ci)
      ((forRange 0 MIDI_CHANNELS (fun index t => ResetChannel t index) s).channel_data ci))
    ∧ (forRange 0 MIDI_CHANNELS (fun index t => ResetChannel t index) s).voice_data
      = s.voice_data := by
  have := forRange_inv (fun index (t : State) => ResetChannel t index)
    (fun j u => (∀ ci, 0 ≤ ci → ci < j → ChannelReset (s.channel_data ci) (u.channel_data ci))
      ∧ (∀ ci, j ≤ ci → u.channel_data ci = s.channel_data ci)
      ∧ u.voice_data = s.voice_data) 0 MIDI_CHANNELS
    (by unfold MIDI_CHANNELS; omega)
    (by
      intro j u _ _ hq
      obtain ⟨q1, q2, q3⟩ := hq
      obtain ⟨a, b, c⟩ := ResetChannel_spec u j
      refine ⟨?_, ?_, c.trans q3⟩
      · intro ci h1 h2
        by_cases hij : ci = j
        · subst hij
          rw [← q2 ci (le_refl _)]
          exact a
        · rw [b ci hij]
          exact q1 ci h1 (by omega)
      · intro ci h1
        rw [b ci (by omega)]
        exact q2 ci (by omega))
    s ⟨by intro i h1 h2; omega, fun _ _ => rfl, rfl⟩
  exact ⟨this.1, this.2.2⟩

/-- What a GM reset or a GS reset leaves: each of the 64 voices free or in its release, and
each of the 16 channels reset. -/
theorem reset_loops (u x : State)
    (hv : ∀ i, 0 ≤ i → i < 64 → FreeOrReleased (x.voice_data i))
    (hc : x.channel_data = u.channel_data) :
    (∀ i, 0 ≤ i → i < 64 → FreeOrReleased
      ((forRange 0 MIDI_CHANNELS (fun index t => ProgramChange t index 0)
        (forRange 0 MIDI_CHANNELS (fun index t => ResetChannel t index) x)).voice_data i))
    ∧ (∀ ci, 0 ≤ ci → ci < 16 → ChannelReset (u.channel_data ci)
      ((forRange 0 MIDI_CHANNELS (fun index t => ProgramChange t index 0)
        (forRange 0 MIDI_CHANNELS (fun index t => ResetChannel t index) x)).channel_data ci)) := by
  obtain ⟨b1, b2⟩ := resets_channels x
  obtain ⟨c1, c2⟩ := programs_channels
    (forRange 0 MIDI_CHANNELS (fun index t => ResetChannel t index) x)
  refine ⟨?_, ?_⟩
  · intro i h1 h2
    rw [c2, b2]
    exact hv i h1 h2
  · intro ci h1 h2
    rw [c1, ← hc]
    exact b1 ci h1 h2

theorem sysex_reset (u : State) (h : SystemExclusive_isReset u = true) :
    ∃ t, SystemExclusive u = some t
      ∧ (∀ i, 0 ≤ i → i < 64 → FreeOrReleased (t.voice_data i))
      ∧ (∀ ci, 0 ≤ ci → ci < 16 → ChannelReset (u.channel_data ci) (t.channel_data ci)) := by
  obtain ⟨a1, a2⟩ := AllVoicesSoundsOff_released u
  obtain ⟨r1, r2⟩ := reset_loops u (AllVoicesSoundsOff u) a1 a2
  unfold SystemExclusive
  rw [if_pos h]
  exact ⟨_, rfl, r1, r2⟩

theorem gm_reset_data (s : State) :
    SystemExclusive_isReset (sysexState s [126, 127, 9, 1]) = true := by
  simp [SystemExclusive_isReset, sysexState, storeData, Function.update]

theorem gs_reset_data (s : State) :
    SystemExclusive_isReset (sysexState s [65, 16, 66, 18, 64, 0, 127, 0, 65]) = true := by
  simp [SystemExclusive_isReset, sysexState, storeData, Function.update]

/-- The dispatcher on a reset message `F0 ds F7`. -/
theorem bytes_reset (s : State) (ds : List Int) (hd : ∀ d ∈ ds, 0 ≤ d ∧ d ≤ 127)
    (hm : (ds.length : Int) < 2147483648)
    (h : SystemExclusive_isReset (sysexState s ds) = true) :
    ∃ t, ProcessMidiData_bytes s (240 :: (ds ++ [247])) = some t
      ∧ (∀ i, 0 ≤ i → i < 64 → FreeOrReleased (t.voice_data i))
      ∧ (∀ ci, 0 ≤ ci → ci < 16 → ChannelReset (s.channel_data ci) (t.channel_data ci)) := by
  obtain ⟨t, ht, a, b⟩ := sysex_reset _ h
  rw [bytes_sysex_state s ds hd hm, ht]
  exact ⟨_, rfl, a, b⟩

/-- Claim C17. After the dispatcher has taken the GM reset `F0 7E 7F 09 01 F7`, or the GS
reset `F0 41 10 42 12 40 00 7F 00 41 F7`, in any state and with any ROM, each of the 64
voices is free (`note_number = 255`) or has `VFLAG_Value80` (bit 7) set and `VFLAG_Value40`
(bit 6) clear; the dispatcher returns. -/
theorem C17_reset_voices (s : State) :
    (∃ t, ProcessMidiData_bytes s [240, 126, 127, 9, 1, 247] = some t
      ∧ ∀ i, 0 ≤ i → i < 64 → (t.voice_data i).note_number = 255
        ∨ ((t.voice_data i).vflags / 128 % 2 = 1 ∧ (t.voice_data i).vflags / 64 % 2 = 0))
    ∧ (∃ t, ProcessMidiData_bytes s [240, 65, 16, 66, 18, 64, 0, 127, 0, 65, 247] = some t
      ∧ ∀ i, 0 ≤ i → i < 64 → (t.voice_data i).note_number = 255
        ∨ ((t.voice_data i).vflags / 128 % 2 = 1 ∧ (t.voice_data i).vflags / 64 % 2 = 0)) := by
  constructor
  · obtain ⟨t, ht, a, _⟩ := bytes_reset s [126, 127, 9, 1] (by decide) (by decide)
      (gm_reset_data s)
    exact ⟨t, ht, a⟩
  · obtain ⟨t, ht, a, _⟩ := bytes_reset s [65, 16, 66, 18, 64, 0, 127, 0, 65] (by decide)
      (by decide) (gs_reset_data s)
    exact ⟨t, ht, a⟩

/-- Counterexample to C16 as stated: on a channel with `CHFLAG_Sostenuto` and `CHFLAG_Soft`
set (`chflags = 0x6000`), `ResetChannel` leaves both flags set. -/
theorem C16_counterexample :
    ((ResetChannel C16_state 0).channel_data 0).chflags = 24576
    ∧ ((ResetChannel C16_state 0).channel_data 0).chflags / 8192 % 2 = 1
    ∧ ((ResetChannel C16_state 0).channel_data 0).chflags / 16384 % 2 = 1 := by
  decide

/-- Claim C16 (amended). For every prior state, `ResetChannel` leaves the channel with
program 0, expression 127, volume 100, pan 0, pitch bend 0, bend sensitivity 512, channel
pressure 0, modulation 0, fine and coarse tune 0, RPN MSB and LSB 255, data entry MSB and
LSB 0 and the flag Sustain cleared; the flags Sostenuto and Soft are left as they were
(`ChannelReset`). The same holds of each of the 16 channels after the dispatcher has taken a
GM reset or a GS reset. -/
theorem C16_reset_channel (s : State) :
    (∀ ci, ChannelReset (s.channel_data ci) ((ResetChannel s ci).channel_data ci))
    ∧ (∃ t, ProcessMidiData_bytes s [240, 126, 127, 9, 1, 247] = some t
      ∧ ∀ ci, 0 ≤ ci → ci < 16 → ChannelReset (s.channel_data ci) (t.channel_data ci))
    ∧ (∃ t, ProcessMidiData_bytes s [240, 65, 16, 66, 18, 64, 0, 127, 0, 65, 247] = some t
      ∧ ∀ ci, 0 ≤ ci → ci < 16 → ChannelReset (s.channel_data ci) (t.channel_data ci)) := by
  refine ⟨fun ci => (ResetChannel_spec s ci).1, ?_, ?_⟩
  · obtain ⟨t, ht, _, b⟩ := bytes_reset s [126, 127, 9, 1] (by decide) (by decide)
      (gm_reset_data s)
    exact ⟨t, ht, b⟩
  · obtain ⟨t, ht, _, b⟩ := bytes_reset s [65, 16, 66, 18, 64, 0, 127, 0, 65] (by decide)
      (by decide) (gs_reset_data s)
    exact ⟨t, ht, b⟩

/-! ## A second start -/

theorem init_loop_eq (s1 : State) :
    forRange 0 MIDI_CHANNELS (fun index t => t.updChannel index (fun c => { c with
      program_change := 0, pitch_bend := 0, channel_pressure := 0, modulation := 0,
      volume := 100, pan := 0, expression := 127,
      chflags := c.chflags - c.chflags / 32768 % 2 * 32768,
      pitch_bend_sense := 512, fine_tune := 0, coarse_tune := 0,
      parameter_number_LSB := 255, parameter_number_MSB := 255,
      data_entry_MSB := 0, data_entry_LSB := 0 })) s1
    = forRange 0 MIDI_CHANNELS (fun index t => ResetChannel t index) s1 := by
  unfold ResetChannel
  rfl

/-- The second loop of `InitializeStructures` does to each channel what `ResetChannel`
does. -/
theorem InitializeStructures_eq (s : State) :
    (InitializeStructures s).1
      = forRange 0 MIDI_CHANNELS (fun index t => ProgramChange t index 0)
          (forRange 0 MIDI_CHANNELS (fun index t => ResetChannel t index)
            (forRange 0 MAX_VOICES
              (fun index t => t.updVoice index (fun w => { w with note_number := 255 })) s)) := by
  unfold InitializeStructures
  lift_lets
  intro s1 s2
  show forRange 0 MIDI_CHANNELS (fun index t => ProgramChange t index 0) s2 = _
  rw [← init_loop_eq]

theorem init_channels (s : State) : ∀ ci, 0 ≤ ci → ci < 16 →
    ChannelReset (s.channel_data ci) ((InitializeStructures s).1.channel_data ci) := by
  have hx : (forRange 0 MAX_VOICES
      (fun index (t : State) => t.updVoice index (fun w => { w with note_number := 255 }))
      s).channel_data = s.channel_data :=
    forRange_keeps
      (fun index (t : State) => t.updVoice index (fun w => { w with note_number := 255 }))
      (fun x : State => x.channel_data = s.channel_data) 0 MAX_VOICES
      (fun i x _ _ hx => hx) s rfl
  obtain ⟨b1, _⟩ := resets_channels (forRange 0 MAX_VOICES
    (fun index (t : State) => t.updVoice index (fun w => { w with note_number := 255 })) s)
  obtain ⟨c1, _⟩ := programs_channels (forRange 0 MIDI_CHANNELS
    (fun index t => ResetChannel t index) (forRange 0 MAX_VOICES
      (fun index (t : State) => t.updVoice index (fun w => { w with note_number := 255 })) s))
  intro ci h1 h2
  rw [InitializeStructures_eq, c1, ← hx]
  exact b1 ci h1 h2

theorem init_channels_of (s y : State) (h : y.channel_data = s.channel_data) :
    ∀ ci, 0 ≤ ci → ci < 16 →
      ChannelReset (s.channel_data ci) ((InitializeStructures y).1.channel_data ci) := by
  intro ci h1 h2
  rw [← h]
  exact init_channels y ci h1 h2

theorem defaults_setC4 (s x : State) (v : Int)
    (h : (∀ i, 0 ≤ i → i < 64 → (x.voice_data i).note_number = 255)
      ∧ (∀ ci, 0 ≤ ci → ci < 16 → ChannelReset (s.channel_data ci) (x.channel_data ci))) :
    (∀ i, 0 ≤ i → i < 64 →
      (({ x with dword_C0000004 := v } : State).voice_data i).note_number = 255)
    ∧ (∀ ci, 0 ≤ ci → ci < 16 → ChannelReset (s.channel_data ci)
      (({ x with dword_C0000004 := v } : State).channel_data ci)) := h

/-- What `VLSG_PlaybackStart` leaves of the voices and of the channels, in every state. -/
theorem start_defaults (s : State) :
    (∀ i, 0 ≤ i → i < 64 → ((VLSG_PlaybackStart s).1.voice_data i).note_number = 255)
    ∧ (∀ ci, 0 ≤ ci → ci < 16 →
      ChannelReset (s.channel_data ci) ((VLSG_PlaybackStart s).1.channel_data ci)) := by
  rw [PlaybackStart_eq]
  exact defaults_setC4 s _ _ ⟨(InitializeStructures_spec _).2, init_channels_of s _ rfl⟩

theorem channelReset_eq {a b c d : Channel_Data} (h1 : ChannelReset a c)
    (h2 : ChannelReset b d) : { c with chflags := 0 } = { d with chflags := 0 } := by
  obtain ⟨a1, a2, a3, a4, a5, a6, a7, a8, a9, a10, a11, a12, a13, a14, _⟩ := h1
  obtain ⟨b1, b2, b3, b4, b5, b6, b7, b8, b9, b10, b11, b12, b13, b14, _⟩ := h2
  rw [Channel_Data.mk.injEq]
  refine ⟨?_, ?_, ?_, ?_, ?_, ?_, ?_, rfl, ?_, ?_, ?_, ?_, ?_, ?_, ?_⟩ <;> omega

/-- Claim C18 (amended). Whatever has been done between the first `VLSG_PlaybackStart` (in
the state `s0`) and `VLSG_PlaybackStop` (in the state `s`), the second `VLSG_PlaybackStart`
ends in a state where all 64 voice slots are free and every channel has program 0,
expression 127, volume 100, pan 0, bend 0, sensitivity 512, pressure 0, modulation 0, tuning
0, RPN 255/255, data entry 0/0 and the flag Sustain cleared, while the flags Sostenuto and
Soft are those of the state `s`. The note numbers of the voices and the channel blocks apart
from `chflags` are those after the first start. -/
theorem C18_restart (s0 s : State) :
    (∀ i, 0 ≤ i → i < 64 →
      ((VLSG_PlaybackStart (VLSG_PlaybackStop s).1).1.voice_data i).note_number = 255)
    ∧ (∀ ci, 0 ≤ ci → ci < 16 → ChannelReset (s.channel_data ci)
      ((VLSG_PlaybackStart (VLSG_PlaybackStop s).1).1.channel_data ci))
    ∧ (∀ i, 0 ≤ i → i < 64 →
      ((VLSG_PlaybackStart (VLSG_PlaybackStop s).1).1.voice_data i).note_number
        = ((VLSG_PlaybackStart s0).1.voice_data i).note_number)
    ∧ (∀ ci, 0 ≤ ci → ci < 16 →
      { (VLSG_PlaybackStart (VLSG_PlaybackStop s).1).1.channel_data ci with chflags := 0 }
        = { (VLSG_PlaybackStart s0).1.channel_data ci with chflags := 0 })
    ∧ (VLSG_PlaybackStart (VLSG_PlaybackStop s).1).2 = 1 := by
  obtain ⟨a1, a2⟩ := start_defaults (VLSG_PlaybackStop s).1
  obtain ⟨b1, b2⟩ := start_defaults s0
  refine ⟨a1, a2, ?_, ?_, rfl⟩
  · intro i h1 h2
    rw [a1 i h1 h2, b1 i h1 h2]
  · intro ci h1 h2
    exact channelReset_eq (a2 ci h1 h2) (b2 ci h1 h2)

set_option maxRecDepth 100000 in
/-- Counterexample to C18 as stated: the module in play takes the controller message
`B0 43 7F` in one callback, is stopped and is started again. The flag Soft of channel 0,
clear after the first start, is set after the second. -/
theorem C18_counterexample :
    (playingModule.channel_data 0).chflags = 0
    ∧ (VLSG_FillOutputBuffer C18_state (fun _ => 0) 0 1000 1000).map
        (fun r => ((VLSG_PlaybackStart (VLSG_PlaybackStop r.1).1).1.channel_data 0).chflags)
      = some 16384 := by
  decide

/-! ## Channel messages and the voice they act on -/

/-- The dispatcher on a channel message of two data bytes: the bytes are stored and the
`switch` runs once. -/
theorem bytes_message (s : State) (st d1 d2 : Int) (hst : 128 ≤ st ∧ st ≤ 239)
    (hc : ¬ (192 ≤ st ∧ st ≤ 223)) (h1 : 0 ≤ d1 ∧ d1 ≤ 127) (h2 : 0 ≤ d2 ∧ d2 ≤ 127)
    (rest : List Int) :
    ProcessMidiData_bytes s (st :: d1 :: d2 :: rest)
      = (ProcessMidiData_dispatch (messageState s st d1 d2)).bind
          (fun t => ProcessMidiData_bytes t rest) := by
  have a0 : Awaiting st { s with
      event_length := 0,
      event_type := st / 16 % 16 * 16,
      event_data := Function.update s.event_data 0 st,
      channel_data_ptr := st % 16,
      stru6_ptr := st % 16 } :=
    ⟨rfl, rfl, (by show Function.update s.event_data 0 st 0 = st
                   exact Function.update_same _ _ _), rfl, rfl⟩
  rw [bytes_cons _ _ _ (by omega), byte_status s st hst.1 (by omega), Option.some_bind,
    bytes_cons _ _ _ (by omega), byte_first _ st d1 hst h1 a0 hc, Option.some_bind,
    bytes_cons _ _ _ (by omega)]
  have e := byte_last { s with
      event_length := 1,
      event_type := st / 16 % 16 * 16,
      event_data := Function.update (Function.update s.event_data 0 st) 1 d1,
      channel_data_ptr := st % 16,
      stru6_ptr := st % 16 } st d2 1 hst h2
    (by
      show Function.update (Function.update s.event_data 0 st) 1 d1 0 = st
      rw [Function.update_noteq (by decide), Function.update_same])
    rfl rfl (Or.inr ⟨hc, rfl⟩)
  exact congrArg (fun o => Option.bind o (fun t => ProcessMidiData_bytes t rest)) e

/-- The first index that a search finds. -/
theorem findFirst_first (p : Int → Bool) : ∀ (n : Nat) (index r : Int),
    index ≤ r → r < index + n → p r = true → (∀ j, index ≤ j → j < r → p j = false) →
    findFirst p n index = some r := by
  intro n
  induction n with
  | zero => intro index r h1 h2; exfalso; simp at h2; omega
  | succ n ih =>
    intro index r h1 h2 h3 h4
    rw [findFirst]
    by_cases he : index = r
    · subst he
      rw [if_pos h3]
    · have h5 : p index = false := h4 index (le_refl _) (by omega)
      rw [h5]
      simp only [Bool.false_eq_true, if_false]
      exact ih (index + 1) r (by omega) (by push_cast at h2; omega) h3
        (fun j hj1 hj2 => h4 j (by omega) hj2)

/-- A loop over the voices of which each pass changes its own voice only: what the pass
`vi` makes of the voice `vi` is what the loop leaves of it. -/
theorem forRange_voice (f : Int → State → State) (lo hi vi : Int) (R : Voice_Data → Prop)
    (s : State) (h1 : lo ≤ vi) (h2 : vi < hi)
    (hloc : ∀ i t j, j ≠ i → (f i t).voice_data j = t.voice_data j)
    (hstep : ∀ t, t.voice_data vi = s.voice_data vi → R ((f vi t).voice_data vi)) :
    R ((forRange lo hi f s).voice_data vi) := by
  have := forRange_inv f
    (fun j u => (j ≤ vi → u.voice_data vi = s.voice_data vi) ∧ (vi < j → R (u.voice_data vi)))
    lo hi (by omega)
    (by
      intro i t _ _ hq
      obtain ⟨q1, q2⟩ := hq
      refine ⟨?_, ?_⟩
      · intro hi1
        rw [hloc i t vi (by omega)]
        exact q1 (by omega)
      · intro hi1
        by_cases hiv : i = vi
        · subst hiv
          exact hstep t (q1 (le_refl _))
        · rw [hloc i t vi (fun h => hiv h.symm)]
          exact q2 (by omega))
    s ⟨fun _ => rfl, fun h => by omega⟩
  exact this.2 h2

/-- A loop over the voices of which each pass changes its own voice only leaves the voices
out of its range. -/
theorem forRange_voice_out (f : Int → State → State) (lo hi vi : Int) (s : State)
    (h : vi < lo ∨ hi ≤ vi)
    (hloc : ∀ i t j, j ≠ i → (f i t).voice_data j = t.voice_data j) :
    (forRange lo hi f s).voice_data vi = s.voice_data vi :=
  forRange_keeps f (fun u => u.voice_data vi = s.voice_data vi) lo hi
    (fun i t hi1 hi2 hq => by
      show (f i t).voice_data vi = s.voice_data vi
      rw [hloc i t vi (by omega)]; exact hq) s rfl

/-! ## The sustain pedal -/

theorem dispatch_controller (u : State) (h : u.event_type = 176) :
    ProcessMidiData_dispatch u = some { ControlChange u with event_length := 0 } := by
  unfold ProcessMidiData_dispatch
  simp [h]

theorem dispatch_noteOff (u : State) (h : u.event_type = 128) :
    ProcessMidiData_dispatch u = some { NoteOff u with event_length := 0 } := by
  unfold ProcessMidiData_dispatch
  simp [h]

theorem ControlChange_sustain (u : State) (h : u.event_data 1 = 64) :
    ControlChange u
      = if u.event_data 2 ≤ 63 then
          ControllerSettingsOff (u.updChannel u.channel_data_ptr (fun c => { c with
            chflags := c.chflags - c.chflags / 32768 % 2 * 32768 })) (u.event_data 0 % 16)
        else
          ControllerSettingsOn (u.updChannel u.channel_data_ptr (fun c => { c with
            chflags := c.chflags + (1 - c.chflags / 32768 % 2) * 32768 })) (u.event_data 0 % 16)
      := by
  unfold ControlChange
  simp [h]

/-- What `ControllerSettingsOn` does to each voice. -/
theorem ControllerSettingsOn_voice (s : State) (ch vi : Int) :
    (ControllerSettingsOn s ch).voice_data vi
      = if (0 ≤ vi ∧ vi < s.maximum_polyphony)
            ∧ (s.voice_data vi).channel_num_2 / 2 = ch ∧ (s.voice_data vi).note_number ≠ 255
            ∧ (s.voice_data vi).vflags / 128 % 2 = 0 then
          { s.voice_data vi with
            vflags := (s.voice_data vi).vflags + (1 - (s.voice_data vi).vflags / 64 % 2) * 64 }
        else s.voice_data vi := by
  have hloc : ∀ (i : Int) (t : State) (j : Int), j ≠ i →
      ((fun index (t : State) =>
        let w := t.voice_data index
        if w.channel_num_2 / 2 = ch ∧ w.note_number ≠ 255 ∧ w.vflags / 128 % 2 = 0 then
          t.updVoice index (fun w => { w with vflags := w.vflags + (1 - w.vflags / 64 % 2) * 64 })
        else t) i t).voice_data j = t.voice_data j := by
    intro i t j hj
    simp only
    split
    · simp only [State.updVoice, Function.update_noteq hj]
    · rfl
  unfold ControllerSettingsOn
  by_cases hr : 0 ≤ vi ∧ vi < s.maximum_polyphony
  · refine forRange_voice _ 0 s.maximum_polyphony vi
      (fun w => w = if (0 ≤ vi ∧ vi < s.maximum_polyphony)
            ∧ (s.voice_data vi).channel_num_2 / 2 = ch ∧ (s.voice_data vi).note_number ≠ 255
            ∧ (s.voice_data vi).vflags / 128 % 2 = 0 then
          { s.voice_data vi with
            vflags := (s.voice_data vi).vflags + (1 - (s.voice_data vi).vflags / 64 % 2) * 64 }
        else s.voice_data vi) s hr.1 hr.2 hloc ?_
    intro t ht
    simp only [ht]
    by_cases hc : (s.voice_data vi).channel_num_2 / 2 = ch ∧ (s.voice_data vi).note_number ≠ 255
        ∧ (s.voice_data vi).vflags / 128 % 2 = 0
    · rw [if_pos hc, if_pos ⟨hr, hc⟩]
      simp only [State.updVoice, Function.update_same, ht]
    · rw [if_neg hc, if_neg (fun h => hc h.2)]
      exact ht
  · rw [if_neg (fun h => hr h.1)]
    exact forRange_voice_out _ 0 s.maximum_polyphony vi s (by omega) hloc

theorem ControllerSettingsOn_channels (s : State) (ch : Int) :
    (ControllerSettingsOn s ch).channel_data = s.channel_data := by
  unfold ControllerSettingsOn
  refine forRange_keeps _ (fun x : State => x.channel_data = s.channel_data) 0 _ ?_ s rfl
  intro i x _ _ hx
  simp only
  split
  · exact hx
  · exact hx

/-- A voice that a pedal holds gets its note-off flag, and nothing else, from
`VoiceNoteOff`. -/
theorem VoiceNoteOff_held (s : State) (vi : Int) (h6 : (s.voice_data vi).vflags / 64 % 2 = 1) :
    VoiceNoteOff s vi = s.updVoice vi (fun w =>
      { w with vflags := w.vflags + (1 - w.vflags / 128 % 2) * 128 }) := by
  unfold VoiceNoteOff
  lift_lets
  intro s1 s2
  have e : (s1.voice_data vi).vflags / 64 % 2 = 1 := by
    simp only [s1, State.updVoice, Function.update_same]
    omega
  rw [if_neg (by omega)]

/-- The other voices, and the channel layer of its own voice, are left by `VoiceNoteOff`. -/
theorem VoiceNoteOff_other (s : State) (vi : Int) :
    (∀ j, j ≠ vi → (VoiceNoteOff s vi).voice_data j = s.voice_data j)
    ∧ ((VoiceNoteOff s vi).voice_data vi).channel_num_2 = (s.voice_data vi).channel_num_2 := by
  unfold VoiceNoteOff
  lift_lets
  intro s1 s2
  have a1 : ∀ j, j ≠ vi → s1.voice_data j = s.voice_data j := by
    intro j hj
    simp only [s1, State.updVoice, Function.update_noteq hj]
  have a2 : (s1.voice_data vi).channel_num_2 = (s.voice_data vi).channel_num_2 := by
    simp only [s1, State.updVoice, Function.update_same]
  split
  · have H : OneVoice vi s2 (sub_C0036A80 (sub_C0036B00 s2 vi) vi) :=
      one_sub_C0036A80 _ (one_sub_C0036B00 _ (one_refl vi s2))
    have b1 : ∀ j, j ≠ vi → s2.voice_data j = s1.voice_data j := by
      intro j hj
      simp only [s2, State.updVoice, Function.update_noteq hj]
    have b2 : (s2.voice_data vi).channel_num_2 = (s1.voice_data vi).channel_num_2 := by
      simp only [s2, State.updVoice, Function.update_same]
    exact ⟨fun j hj => ((H.other j hj).trans (b1 j hj)).trans (a1 j hj),
      (H.chan.trans b2).trans a2⟩
  · exact ⟨a1, a2⟩

theorem findFirst_sat (p : Int → Bool) : ∀ (n : Nat) (index r : Int),
    findFirst p n index = some r → p r = true := by
  intro n
  induction n with
  | zero => intro index r h; simp [findFirst] at h
  | succ n ih =>
    intro index r h
    rw [findFirst] at h
    by_cases hp : p index = true
    · rw [if_pos hp] at h
      cases h
      exact hp
    · rw [if_neg hp] at h
      exact ih _ _ h

/-- The voice that `FindVoice` returns: the first voice of the channel layer that plays the
note and has no note-off flag. -/
theorem FindVoice_first (u : State) (c2 n vi : Int) (h0 : 0 ≤ vi)
    (hm : vi < u.maximum_polyphony) (hn : n ≠ 255)
    (h1 : (u.voice_data vi).note_number = n) (h2 : (u.voice_data vi).channel_num_2 = c2)
    (h3 : (u.voice_data vi).vflags / 128 % 2 = 0)
    (hfirst : ∀ j, 0 ≤ j → j < vi → ¬ ((u.voice_data j).note_number = n
      ∧ (u.voice_data j).channel_num_2 = c2 ∧ (u.voice_data j).vflags / 128 % 2 = 0)) :
    FindVoice u c2 n = some vi := by
  unfold FindVoice
  refine findFirst_first _ _ 0 vi h0 ?_ ?_ ?_
  · rw [Int.toNat_of_nonneg (by omega)]
    omega
  · simp only [decide_eq_true_eq]
    exact ⟨by rw [h1]; exact hn, h2, h1, h3⟩
  · intro j hj1 hj2
    simp only [decide_eq_false_iff_not]
    intro hc
    exact hfirst j hj1 hj2 ⟨hc.2.2.1, hc.2.1, hc.2.2.2⟩

theorem FindVoice_sat (u : State) (c2 n vj : Int) (h : FindVoice u c2 n = some vj) :
    (u.voice_data vj).channel_num_2 = c2 := by
  unfold FindVoice at h
  have := findFirst_sat _ _ _ _ h
  simp only [decide_eq_true_eq] at this
  exact this.2.1
/-! ## Note Off under the pedal -/

theorem VoiceNoteOff_miss (a : State) (c2 m vj vi : Int) (hf : FindVoice a c2 m = some vj)
    (hc : (a.voice_data vi).channel_num_2 ≠ c2) :
    (VoiceNoteOff a vj).voice_data vi = a.voice_data vi :=
  (VoiceNoteOff_other a vj).1 vi (by
    intro h
    subst h
    exact hc (FindVoice_sat a c2 m _ hf))

theorem updVoice_same (s : State) (vi : Int) (g : Voice_Data → Voice_Data) :
    (s.updVoice vi g).voice_data vi = g (s.voice_data vi) := by
  simp only [State.updVoice, Function.update_same]

/-- The voice that `VoiceNoteOff` is called for by `NoteOff` while the pedal holds it. -/
theorem VoiceNoteOff_bump (a : State) (vi : Int) (h6 : (a.voice_data vi).vflags / 64 % 2 = 1)
    (h7 : (a.voice_data vi).vflags / 128 % 2 = 0) :
    (VoiceNoteOff a vi).voice_data vi
      = { a.voice_data vi with vflags := (a.voice_data vi).vflags + 128 } := by
  rw [VoiceNoteOff_held a vi h6, updVoice_same]
  have e : (a.voice_data vi).vflags + (1 - (a.voice_data vi).vflags / 128 % 2) * 128
      = (a.voice_data vi).vflags + 128 := by omega
  simp only [e]

/-- Note Off on a channel that is not the drum channel, for the first voice of a layer `k` of
the channel that plays the note, while a pedal holds the voice: the voice gets its note-off
flag and nothing else. -/
theorem NoteOff_held (u : State) (ch n k vi : Int)
    (hch : 0 ≤ ch ∧ ch ≤ 15 ∧ ch ≠ 9) (hk : k = 0 ∨ k = 1)
    (he0 : u.event_data 0 % 16 = ch) (he1 : u.event_data 1 = n)
    (h0 : 0 ≤ vi) (hm : vi < u.maximum_polyphony) (hn : n ≠ 255)
    (h1 : (u.voice_data vi).note_number = n)
    (h2 : (u.voice_data vi).channel_num_2 = 2 * ch + k)
    (h7 : (u.voice_data vi).vflags / 128 % 2 = 0)
    (h6 : (u.voice_data vi).vflags / 64 % 2 = 1)
    (hfirst : ∀ j, 0 ≤ j → j < vi → ¬ ((u.voice_data j).note_number = n
      ∧ (u.voice_data j).channel_num_2 = 2 * ch + k
      ∧ (u.voice_data j).vflags / 128 % 2 = 0)) :
    (NoteOff u).voice_data vi
      = { u.voice_data vi with vflags := (u.voice_data vi).vflags + 128 } := by
  unfold NoteOff
  rw [if_neg (by rw [he0]; unfold DRUM_CHANNEL; omega)]
  rcases hk with hk | hk
  · subst hk
    have f1 : FindVoice u (2 * (u.event_data 0 % 16)) (u.event_data 1) = some vi := by
      rw [he0, he1]
      exact FindVoice_first u (2 * ch) n vi h0 hm hn h1 (by rw [h2]; ring) h7
        (fun j a b c => hfirst j a b ⟨c.1, by rw [c.2.1]; ring, c.2.2⟩)
    simp only [f1]
    have b := VoiceNoteOff_bump u vi h6 h7
    have c : ((VoiceNoteOff u vi).voice_data vi).channel_num_2 = 2 * ch + 0 := by
      rw [b]; exact h2
    split
    · next vj hf =>
      rw [VoiceNoteOff_miss _ _ _ vj vi hf (by rw [c]; omega)]
      exact b
    · exact b
  · subst hk
    have key : ∀ a : State, a.maximum_polyphony = u.maximum_polyphony →
        a.event_data = u.event_data → a.voice_data vi = u.voice_data vi →
        (∀ j, a.voice_data j = u.voice_data j ∨ (a.voice_data j).channel_num_2 ≠ 2 * ch + 1) →
        (match FindVoice a (2 * (a.event_data 0 % 16) + 1) (a.event_data 1) with
          | some vi => VoiceNoteOff a vi
          | none => a).voice_data vi
          = { u.voice_data vi with vflags := (u.voice_data vi).vflags + 128 } := by
      intro a a1 a2 a3 a4
      have f2 : FindVoice a (2 * (a.event_data 0 % 16) + 1) (a.event_data 1) = some vi := by
        rw [a2, he0, he1]
        refine FindVoice_first a (2 * ch + 1) n vi h0 (by rw [a1]; exact hm) hn
          (by rw [a3]; exact h1) (by rw [a3]; exact h2) (by rw [a3]; exact h7) ?_
        intro j j1 j2 hc
        rcases a4 j with e | e
        · rw [e] at hc
          exact hfirst j j1 j2 hc
        · exact e hc.2.1
      simp only [f2]
      rw [VoiceNoteOff_bump a vi (by rw [a3]; exact h6) (by rw [a3]; exact h7), a3]
    split
    · next vj hf =>
      have hc := FindVoice_sat _ _ _ _ hf
      rw [he0] at hc
      have hne : vj ≠ vi := by
        intro h
        subst h
        omega
      have F := frame_VoiceNoteOff vj (frame_refl u)
      obtain ⟨o1, o2⟩ := VoiceNoteOff_other u vj
      refine key _ F.mp F.ev.2.1 (o1 vi (fun h => hne h.symm)) ?_
      intro j
      by_cases hj : j = vj
      · subst hj
        exact Or.inr (by rw [o2, hc]; omega)
      · exact Or.inl (o1 j hj)
    · exact key u rfl rfl rfl (fun j => Or.inl rfl)

/-! ## Pedal-held release -/

/-- A voice of the channel that has its note-off flag goes into its release when the pedal
goes up. -/
theorem ControllerSettingsOff_release (s : State) (ch vi : Int) (h0 : 0 ≤ vi)
    (hm : vi < s.maximum_polyphony) (hc : (s.voice_data vi).channel_num_2 / 2 = ch)
    (hn : (s.voice_data vi).note_number ≠ 255)
    (h7 : (s.voice_data vi).vflags / 128 % 2 = 1) :
    ((ControllerSettingsOff s ch).voice_data vi).vflags / 64 % 4 = 2 := by
  unfold ControllerSettingsOff
  refine forRange_voice _ 0 s.maximum_polyphony vi (fun w => w.vflags / 64 % 4 = 2) s h0 hm
    ?_ ?_
  · intro i t j hj
    simp only
    split
    · split
      · have H : OneVoice i
            ((t.updVoice i (fun w => { w with vflags := w.vflags - w.vflags / 64 % 2 * 64 })).updVoice
              i (fun w => { w with vflags := w.vflags / 64 % 4 * 64 }))
            (sub_C0036A80 (sub_C0036B00
              ((t.updVoice i (fun w =>
                { w with vflags := w.vflags - w.vflags / 64 % 2 * 64 })).updVoice
              i (fun w => { w with vflags := w.vflags / 64 % 4 * 64 })) i) i) :=
          one_sub_C0036A80 _ (one_sub_C0036B00 _ (one_refl i _))
        rw [H.other j hj]
        simp only [State.updVoice, Function.update_noteq hj]
      · simp only [State.updVoice, Function.update_noteq hj]
    · rfl
  · intro t ht
    simp only
    rw [if_pos (by rw [ht]; exact ⟨hc, hn⟩)]
    have e1 : ((t.updVoice vi (fun w =>
        { w with vflags := w.vflags - w.vflags / 64 % 2 * 64 })).voice_data vi).vflags
        = (s.voice_data vi).vflags - (s.voice_data vi).vflags / 64 % 2 * 64 := by
      rw [updVoice_same, ht]
    rw [if_pos (by rw [e1]; omega)]
    have H : OneVoice vi
        ((t.updVoice vi (fun w => { w with vflags := w.vflags - w.vflags / 64 % 2 * 64 })).updVoice
          vi (fun w => { w with vflags := w.vflags / 64 % 4 * 64 }))
        (sub_C0036A80 (sub_C0036B00
          ((t.updVoice vi (fun w =>
            { w with vflags := w.vflags - w.vflags / 64 % 2 * 64 })).updVoice
          vi (fun w => { w with vflags := w.vflags / 64 % 4 * 64 })) vi) vi) :=
      one_sub_C0036A80 _ (one_sub_C0036B00 _ (one_refl vi _))
    rw [H.flags, updVoice_same]
    show ((t.updVoice vi (fun w =>
        { w with vflags := w.vflags - w.vflags / 64 % 2 * 64 })).voice_data vi).vflags
      / 64 % 4 * 64 / 64 % 4 = 2
    rw [e1]
    omega

theorem messageState_fields (s : State) (st d1 d2 : Int) :
    (messageState s st d1 d2).event_data 0 = st
    ∧ (messageState s st d1 d2).event_data 1 = d1
    ∧ (messageState s st d1 d2).event_data 2 = d2
    ∧ (messageState s st d1 d2).event_type = st / 16 % 16 * 16
    ∧ (messageState s st d1 d2).channel_data_ptr = st % 16
    ∧ (messageState s st d1 d2).stru6_ptr = st % 16
    ∧ (messageState s st d1 d2).voice_data = s.voice_data
    ∧ (messageState s st d1 d2).maximum_polyphony = s.maximum_polyphony := by
  refine ⟨?_, ?_, ?_, rfl, rfl, rfl, rfl, rfl⟩
  · simp [messageState, Function.update]
  · simp [messageState, Function.update]
  · simp [messageState, Function.update]

/-- The sustain pedal goes down (`Bn 40 v`, `v ≥ 64`): the dispatcher returns, and every voice
is as `ControllerSettingsOn` leaves it. -/
theorem bytes_sustain_on (s : State) (ch v1 : Int) (hch : 0 ≤ ch ∧ ch ≤ 15)
    (hv1 : 64 ≤ v1 ∧ v1 ≤ 127) :
    ∃ s1, ProcessMidiData_bytes s [176 + ch, 64, v1] = some s1
      ∧ s1.maximum_polyphony = s.maximum_polyphony
      ∧ ∀ vi, s1.voice_data vi
        = if (0 ≤ vi ∧ vi < s.maximum_polyphony)
              ∧ (s.voice_data vi).channel_num_2 / 2 = ch ∧ (s.voice_data vi).note_number ≠ 255
              ∧ (s.voice_data vi).vflags / 128 % 2 = 0 then
            { s.voice_data vi with
              vflags := (s.voice_data vi).vflags + (1 - (s.voice_data vi).vflags / 64 % 2) * 64 }
          else s.voice_data vi := by
  obtain ⟨a0, a1, a2, a3, a4, _, a6, a7⟩ := messageState_fields s (176 + ch) 64 v1
  rw [bytes_message s (176 + ch) 64 v1 (by omega) (by omega) (by omega) (by omega) [],
    dispatch_controller _ (by rw [a3]; omega), ControlChange_sustain _ a1,
    if_neg (by rw [a2]; omega)]
  refine ⟨_, rfl, ?_, ?_⟩
  · exact (frame_ControllerSettingsOn _ (frame_refl _)).mp
  · intro vi
    have e : (messageState s (176 + ch) 64 v1).event_data 0 % 16 = ch := by rw [a0]; omega
    show (ControllerSettingsOn _ _).voice_data vi = _
    rw [ControllerSettingsOn_voice, e]
    rfl

/-- Note Off (`8n note vel`) for the first voice of a layer of the channel that plays the
note, while a pedal holds the voice. -/
theorem bytes_noteOff_held (s : State) (ch n k vi vel : Int)
    (hch : 0 ≤ ch ∧ ch ≤ 15 ∧ ch ≠ 9) (hk : k = 0 ∨ k = 1) (hn : 0 ≤ n ∧ n ≤ 127)
    (hvel : 0 ≤ vel ∧ vel ≤ 127) (h0 : 0 ≤ vi) (hm : vi < s.maximum_polyphony)
    (h1 : (s.voice_data vi).note_number = n)
    (h2 : (s.voice_data vi).channel_num_2 = 2 * ch + k)
    (h7 : (s.voice_data vi).vflags / 128 % 2 = 0)
    (h6 : (s.voice_data vi).vflags / 64 % 2 = 1)
    (hfirst : ∀ j, 0 ≤ j → j < vi → ¬ ((s.voice_data j).note_number = n
      ∧ (s.voice_data j).channel_num_2 = 2 * ch + k
      ∧ (s.voice_data j).vflags / 128 % 2 = 0)) :
    ∃ s2, ProcessMidiData_bytes s [128 + ch, n, vel] = some s2
      ∧ s2.maximum_polyphony = s.maximum_polyphony
      ∧ s2.voice_data vi = { s.voice_data vi with vflags := (s.voice_data vi).vflags + 128 } := by
  obtain ⟨a0, a1, a2, a3, a4, _, a6, a7⟩ := messageState_fields s (128 + ch) n vel
  rw [bytes_message s (128 + ch) n vel (by omega) (by omega) hn hvel [],
    dispatch_noteOff _ (by rw [a3]; omega)]
  refine ⟨_, rfl, ?_, ?_⟩
  · exact (frame_NoteOff (frame_refl _)).mp
  · show (NoteOff _).voice_data vi = _
    have := NoteOff_held (messageState s (128 + ch) n vel) ch n k vi hch hk
      (by rw [a0]; omega) a1 h0 (by rw [a7]; exact hm) (by omega)
      (by rw [a6]; exact h1) (by rw [a6]; exact h2) (by rw [a6]; exact h7)
      (by rw [a6]; exact h6) (by rw [a6]; exact hfirst)
    rw [a6] at this
    exact this

/-- The sustain pedal goes up (`Bn 40 v`, `v ≤ 63`): a voice of the channel with its
note-off flag goes into its release. -/
theorem bytes_sustain_off (s : State) (ch v2 vi : Int) (hch : 0 ≤ ch ∧ ch ≤ 15)
    (hv2 : 0 ≤ v2 ∧ v2 ≤ 63) (h0 : 0 ≤ vi) (hm : vi < s.maximum_polyphony)
    (hc : (s.voice_data vi).channel_num_2 / 2 = ch)
    (hn : (s.voice_data vi).note_number ≠ 255)
    (h7 : (s.voice_data vi).vflags / 128 % 2 = 1) :
    ∃ s3, ProcessMidiData_bytes s [176 + ch, 64, v2] = some s3
      ∧ (s3.voice_data vi).vflags / 64 % 4 = 2 := by
  obtain ⟨a0, a1, a2, a3, a4, _, a6, a7⟩ := messageState_fields s (176 + ch) 64 v2
  rw [bytes_message s (176 + ch) 64 v2 (by omega) (by omega) (by omega) (by omega) [],
    dispatch_controller _ (by rw [a3]; omega), ControlChange_sustain _ a1,
    if_pos (by rw [a2]; omega)]
  refine ⟨_, rfl, ?_⟩
  have e : (messageState s (176 + ch) 64 v2).event_data 0 % 16 = ch := by rw [a0]; omega
  show ((ControllerSettingsOff _ _).voice_data vi).vflags / 64 % 4 = 2
  rw [e]
  exact ControllerSettingsOff_release _ ch vi h0 hm hc hn h7

/-- Claim C19 (amended). On a channel `ch` that is not the drum channel, take an active
voice `vi` of the pool (below `maximum_polyphony`) that plays the note `n` on a layer of the
channel and has no note-off flag, and that is the first such voice: the one that Note Off
finds. After CC 64 with a value of 64 or more the voice has the hold flag (bit 6); after the
Note Off for the note it is still active with both the note-off flag (bit 7) and the hold
flag set, and the Note Off has changed nothing of it but the note-off flag (the envelope
segments, the targets and the rates are as before); after a CC 64 with a value of 63 or less
the hold flag is clear and the note-off flag is set (`vflags & 0xC0 = 0x80`). The dispatcher
returns on each of the three messages. -/
theorem C19_pedal_hold (s : State) (ch n k vi v1 vel v2 : Int)
    (hch : 0 ≤ ch ∧ ch ≤ 15 ∧ ch ≠ 9) (hk : k = 0 ∨ k = 1) (hn : 0 ≤ n ∧ n ≤ 127)
    (hv1 : 64 ≤ v1 ∧ v1 ≤ 127) (hvel : 0 ≤ vel ∧ vel ≤ 127) (hv2 : 0 ≤ v2 ∧ v2 ≤ 63)
    (hvi : 0 ≤ vi ∧ vi < s.maximum_polyphony)
    (h1 : (s.voice_data vi).note_number = n)
    (h2 : (s.voice_data vi).channel_num_2 = 2 * ch + k)
    (h7 : (s.voice_data vi).vflags / 128 % 2 = 0)
    (hfirst : ∀ j, 0 ≤ j → j < vi → ¬ ((s.voice_data j).note_number = n
      ∧ (s.voice_data j).channel_num_2 = 2 * ch + k
      ∧ (s.voice_data j).vflags / 128 % 2 = 0)) :
    ∃ s1 s2 s3,
      ProcessMidiData_bytes s [176 + ch, 64, v1] = some s1
      ∧ ProcessMidiData_bytes s1 [128 + ch, n, vel] = some s2
      ∧ ProcessMidiData_bytes s2 [176 + ch, 64, v2] = some s3
      ∧ (s1.voice_data vi).vflags / 64 % 4 = 1
      ∧ (s2.voice_data vi).note_number = n
      ∧ (s2.voice_data vi).vflags / 64 % 4 = 3
      ∧ s2.voice_data vi
        = { s1.voice_data vi with vflags := (s1.voice_data vi).vflags + 128 }
      ∧ (s3.voice_data vi).vflags / 64 % 4 = 2 := by
  obtain ⟨s1, e1, m1, w1⟩ := bytes_sustain_on s ch v1 ⟨hch.1, hch.2.1⟩ hv1
  have hc2 : (s.voice_data vi).channel_num_2 / 2 = ch := by rw [h2]; omega
  have x1 : s1.voice_data vi = { s.voice_data vi with
      vflags := (s.voice_data vi).vflags + (1 - (s.voice_data vi).vflags / 64 % 2) * 64 } := by
    rw [w1 vi, if_pos ⟨hvi, hc2, by rw [h1]; omega, h7⟩]
  have f1 : (s1.voice_data vi).vflags
      = (s.voice_data vi).vflags + (1 - (s.voice_data vi).vflags / 64 % 2) * 64 := by
    rw [x1]
  have n1 : (s1.voice_data vi).note_number = n := by rw [x1]; exact h1
  have c1 : (s1.voice_data vi).channel_num_2 = 2 * ch + k := by rw [x1]; exact h2
  have first1 : ∀ j, 0 ≤ j → j < vi → ¬ ((s1.voice_data j).note_number = n
      ∧ (s1.voice_data j).channel_num_2 = 2 * ch + k
      ∧ (s1.voice_data j).vflags / 128 % 2 = 0) := by
    intro j j1 j2 hc
    apply hfirst j j1 j2
    rw [w1 j] at hc
    split at hc
    · next hcond =>
      refine ⟨hc.1, hc.2.1, hcond.2.2.2⟩
    · exact hc
  obtain ⟨s2, e2, m2, w2⟩ := bytes_noteOff_held s1 ch n k vi vel hch hk hn hvel hvi.1
    (by rw [m1]; exact hvi.2) n1 c1 (by rw [f1]; omega) (by rw [f1]; omega) first1
  have f2 : (s2.voice_data vi).vflags = (s1.voice_data vi).vflags + 128 := by rw [w2]
  have n2 : (s2.voice_data vi).note_number = n := by rw [w2]; exact n1
  have c2 : (s2.voice_data vi).channel_num_2 = 2 * ch + k := by rw [w2]; exact c1
  obtain ⟨s3, e3, w3⟩ := bytes_sustain_off s2 ch v2 vi ⟨hch.1, hch.2.1⟩ hv2 hvi.1
    (by rw [m2, m1]; exact hvi.2) (by rw [c2]; omega) (by rw [n2]; omega)
    (by rw [f2, f1]; omega)
  exact ⟨s1, s2, s3, e1, e2, e3, by rw [f1]; omega, n2, by rw [f2, f1]; omega, w2, w3⟩

set_option maxRecDepth 100000 in
/-- Witness of the amended C19: voice 0 of the module in play after the Note On `90 3C 64`,
with the messages `B0 40 7F`, `80 3C 00` and `B0 40 00`. -/
theorem C19_pedal_hold_witness :
    ((0 : Int) ≤ 0 ∧ (0 : Int) < C19_state.maximum_polyphony)
    ∧ (C19_state.voice_data 0).note_number = 60
    ∧ (C19_state.voice_data 0).channel_num_2 = 2 * 0 + 0
    ∧ (C19_state.voice_data 0).vflags / 128 % 2 = 0
    ∧ ∃ s1 s2 s3,
      ProcessMidiData_bytes C19_state [176 + 0, 64, 127] = some s1
      ∧ ProcessMidiData_bytes s1 [128 + 0, 60, 0] = some s2
      ∧ ProcessMidiData_bytes s2 [176 + 0, 64, 0] = some s3
      ∧ (s1.voice_data 0).vflags / 64 % 4 = 1
      ∧ (s2.voice_data 0).note_number = 60
      ∧ (s2.voice_data 0).vflags / 64 % 4 = 3
      ∧ s2.voice_data 0
        = { s1.voice_data 0 with vflags := (s1.voice_data 0).vflags + 128 }
      ∧ (s3.voice_data 0).vflags / 64 % 4 = 2 :=
  ⟨by decide, by decide, by decide, by decide,
    C19_pedal_hold C19_state 0 60 0 0 127 0 0 (by decide) (by decide) (by decide) (by decide)
      (by decide) (by decide) (by decide) (by decide) (by decide) (by decide)
      (fun j h1 h2 => absurd h1 (by omega))⟩

set_option maxRecDepth 100000 in
/-- Counterexample to C19 as stated. In the module in play, note 60 is struck twice on
channel 0; after `B0 40 7F` and one Note Off for the note, voice 0 has both flags, and voice
1, started by the second Note On and still active, has the hold flag but no note-off flag.
In the module started without any setting of the polyphony (`maximum_polyphony = 0`), the
voice that the Note On has started is out of the pool: after `B0 40 7F` and the Note Off it
has neither flag. -/
theorem C19_counterexample :
    (ProcessMidiData_bytes playingModule
        [144, 60, 100, 144, 60, 100, 176, 64, 127, 128, 60, 0]).map
      (fun t => ((t.voice_data 0).note_number, (t.voice_data 0).vflags / 64 % 4,
        (t.voice_data 1).note_number, (t.voice_data 1).vflags / 64 % 4))
      = some (60, 3, 60, 1)
    ∧ (ProcessMidiData_bytes (VLSG_PlaybackStart C4_module).1
        [144, 60, 100, 176, 64, 127, 128, 60, 0]).map
      (fun t => ((t.voice_data 0).note_number, (t.voice_data 0).vflags / 64 % 4,
        t.maximum_polyphony))
      = some (60, 0, 0) := by
  decide

/-! ## The voice that a Note On starts -/

theorem kn_refl (vi : Int) (s : State) : KeepsNote vi s s := ⟨rfl, rfl, rfl⟩

theorem kn_updVoice {s t : State} (vi : Int) (g : Voice_Data → Voice_Data)
    (h : KeepsNote vi s t)
    (hg : ∀ w : Voice_Data, (g w).note_number = w.note_number
      ∧ (g w).channel_num_2 = w.channel_num_2) :
    KeepsNote vi s (t.updVoice vi g) :=
  ⟨by rw [updVoice_same, (hg _).1]; exact h.note, h.rom,
    by rw [updVoice_same, (hg _).2]; exact h.chan⟩

theorem kn_sub_C0036A20 {s t : State} (vi : Int) (h : KeepsNote vi s t) :
    KeepsNote vi s (sub_C0036A20 t vi) := by
  unfold sub_C0036A20
  exact kn_updVoice _ _ h (fun _ => ⟨rfl, rfl⟩)

theorem kn_sub_C0036C20 {s t : State} (vi : Int) (h : KeepsNote vi s t) :
    KeepsNote vi s (sub_C0036C20 t vi) := by
  unfold sub_C0036C20
  lift_lets
  intros
  exact kn_sub_C0036A20 _ (kn_updVoice _ _ h (fun _ => ⟨rfl, rfl⟩))

theorem getD_mem {α : Type} (d : α) : ∀ (l : List α) (k : Nat), k < l.length →
    l.getD k d ∈ l := by
  intro l
  induction l with
  | nil => intro k h; simp at h
  | cons x rest ih =>
    intro k h
    cases k with
    | zero => simp
    | succ k =>
      rw [List.getD_cons_succ]
      exact List.mem_cons_of_mem _ (ih k (by simpa using h))

theorem ControlChange_entry (u : State) (h : u.event_data 1 = 6 ∨ u.event_data 1 = 38) :
    ControlChange u
      = u.updChannel u.channel_data_ptr (fun c => ControlChange_dataEntry
          (if u.event_data 1 = 6 then { c with data_entry_MSB := u.event_data 2 }
           else { c with data_entry_LSB := u.event_data 2 })) := by
  unfold ControlChange
  rcases h with h | h <;> simp [h]

theorem ControlChange_nrpn (u : State) (h : u.event_data 1 = 98 ∨ u.event_data 1 = 99) :
    ControlChange u
      = u.updChannel u.channel_data_ptr (fun c =>
          if u.event_data 1 = 98 then { c with parameter_number_LSB := 255 }
          else { c with parameter_number_MSB := 255 }) := by
  unfold ControlChange
  rcases h with h | h <;> simp [h]

/-- The dispatcher on a controller message: the bytes are stored and `ControlChange` runs. -/
theorem bytes_controller (s : State) (ch ctl val : Int) (hch : 0 ≤ ch ∧ ch ≤ 15)
    (h1 : 0 ≤ ctl ∧ ctl ≤ 127) (h2 : 0 ≤ val ∧ val ≤ 127) (rest : List Int) :
    ProcessMidiData_bytes s ((176 + ch) :: ctl :: val :: rest)
      = ProcessMidiData_bytes
          { ControlChange (messageState s (176 + ch) ctl val) with event_length := 0 } rest := by
  rw [bytes_message s (176 + ch) ctl val (by omega) (by omega) h1 h2,
    dispatch_controller _ (by show (176 + ch) / 16 % 16 * 16 = 176; omega), Option.some_bind]

/-- What a data entry makes of a channel block: the byte is stored, and the registered
parameter that is selected, if `ControlChange` interprets it, is set from the two stored
bytes. -/
theorem dataEntry_spec (c : Channel_Data) (hb : DataBytes c) :
    (c.parameter_number_MSB = 0 → c.parameter_number_LSB = 0 →
      ControlChange_dataEntry c = { c with
        pitch_bend_sense := if c.data_entry_MSB ≤ 12
          then 2 * (c.data_entry_MSB * 128 + c.data_entry_LSB) else c.pitch_bend_sense })
    ∧ (c.parameter_number_MSB = 0 → c.parameter_number_LSB = 1 →
      ControlChange_dataEntry c = { c with
        fine_tune := c.data_entry_LSB / 32 % 4 + 4 * c.data_entry_MSB - 256 })
    ∧ (c.parameter_number_MSB = 0 → c.parameter_number_LSB = 2 →
      ControlChange_dataEntry c = { c with
        coarse_tune := if 40 ≤ c.data_entry_MSB ∧ c.data_entry_MSB ≤ 88
          then c.data_entry_MSB - 64 else c.coarse_tune })
    ∧ (¬ KnownRpn c → ControlChange_dataEntry c = c) := by
  obtain ⟨b1, b2, b3, b4⟩ := hb
  refine ⟨?_, ?_, ?_, ?_⟩
  · intro m l
    unfold ControlChange_dataEntry
    rw [if_pos m, if_pos l]
    split
    · have : i16 (2 * (c.data_entry_MSB * 128 + c.data_entry_LSB))
          = 2 * (c.data_entry_MSB * 128 + c.data_entry_LSB) := by
        unfold i16; omega
      rw [this]
    · rfl
  · intro m l
    unfold ControlChange_dataEntry
    rw [if_pos m, if_neg (by omega), if_pos l]
    have : i16 (c.data_entry_LSB / 32 % 4 + 4 * c.data_entry_MSB - 256)
        = c.data_entry_LSB / 32 % 4 + 4 * c.data_entry_MSB - 256 := by
      unfold i16; omega
    rw [this]
  · intro m l
    unfold ControlChange_dataEntry
    rw [if_pos m, if_neg (by omega), if_neg (by omega), if_pos l]
    by_cases h : 40 ≤ c.data_entry_MSB ∧ c.data_entry_MSB ≤ 88
    · rw [if_pos (show c.data_entry_MSB ≥ 40 ∧ c.data_entry_MSB ≤ 88 from h), if_pos h]
    · rw [if_neg (show ¬ (c.data_entry_MSB ≥ 40 ∧ c.data_entry_MSB ≤ 88) from h), if_neg h]
  · intro k
    unfold ControlChange_dataEntry
    unfold KnownRpn at k
    by_cases m : c.parameter_number_MSB = 0
    · rw [if_pos m, if_neg (fun l => k ⟨m, Or.inl l⟩), if_neg (fun l => k ⟨m, Or.inr (Or.inl l)⟩),
        if_neg (fun l => k ⟨m, Or.inr (Or.inr l)⟩)]
    · rw [if_neg m]

theorem storedEntry_fields (c : Channel_Data) (ctl val : Int) (hval : 0 ≤ val ∧ val ≤ 127)
    (hb : DataBytes c) :
    (storedEntry c ctl val).parameter_number_MSB = c.parameter_number_MSB
    ∧ (storedEntry c ctl val).parameter_number_LSB = c.parameter_number_LSB
    ∧ DataBytes (storedEntry c ctl val) := by
  unfold storedEntry DataBytes
  unfold DataBytes at hb
  split
  · exact ⟨rfl, rfl, hval.1, by show val ≤ 255; omega, hb.2.2.1, hb.2.2.2⟩
  · exact ⟨rfl, rfl, hb.1, hb.2.1, hval.1, by show val ≤ 255; omega⟩

/-- The state after the dispatcher has taken a data entry. -/
theorem bytes_dataEntry (s : State) (ch ctl val : Int) (hch : 0 ≤ ch ∧ ch ≤ 15)
    (hctl : ctl = 6 ∨ ctl = 38) (hval : 0 ≤ val ∧ val ≤ 127) (rest : List Int) :
    ∃ t, ProcessMidiData_bytes s ((176 + ch) :: ctl :: val :: rest)
        = ProcessMidiData_bytes t rest
      ∧ t.voice_data = s.voice_data
      ∧ (∀ j, j ≠ ch → t.channel_data j = s.channel_data j)
      ∧ t.channel_data ch = ControlChange_dataEntry (storedEntry (s.channel_data ch) ctl val) := by
  obtain ⟨f0, f1, f2, f3, f4, f5, f6, f7⟩ := messageState_fields s (176 + ch) ctl val
  have hp : (messageState s (176 + ch) ctl val).channel_data_ptr = ch := by
    rw [f4]; omega
  refine ⟨_, bytes_controller s ch ctl val hch (by omega) hval rest, ?_, ?_, ?_⟩
  · show (ControlChange (messageState s (176 + ch) ctl val)).voice_data = s.voice_data
    rw [ControlChange_entry _ (by rw [f1]; exact hctl)]
    rfl
  · intro j hj
    show (ControlChange (messageState s (176 + ch) ctl val)).channel_data j = s.channel_data j
    rw [ControlChange_entry _ (by rw [f1]; exact hctl), hp]
    show Function.update _ ch _ j = _
    rw [Function.update_noteq hj]
    rfl
  · show (ControlChange (messageState s (176 + ch) ctl val)).channel_data ch = _
    rw [ControlChange_entry _ (by rw [f1]; exact hctl), hp, f1, f2]
    show Function.update _ ch _ ch = _
    rw [Function.update_same]
    rfl

/-- The state after the dispatcher has taken a controller 98 or 99. -/
theorem bytes_nrpn (s : State) (ch nrpn v : Int) (hch : 0 ≤ ch ∧ ch ≤ 15)
    (hn : nrpn = 98 ∨ nrpn = 99) (hv : 0 ≤ v ∧ v ≤ 127) (rest : List Int) :
    ∃ t, ProcessMidiData_bytes s ((176 + ch) :: nrpn :: v :: rest)
        = ProcessMidiData_bytes t rest
      ∧ t.channel_data ch
        = (if nrpn = 98 then { (s.channel_data ch) with parameter_number_LSB := 255 }
           else { (s.channel_data ch) with parameter_number_MSB := 255 }) := by
  obtain ⟨f0, f1, f2, f3, f4, f5, f6, f7⟩ := messageState_fields s (176 + ch) nrpn v
  have hp : (messageState s (176 + ch) nrpn v).channel_data_ptr = ch := by
    rw [f4]; omega
  refine ⟨_, bytes_controller s ch nrpn v hch (by omega) hv rest, ?_⟩
  show (ControlChange (messageState s (176 + ch) nrpn v)).channel_data ch = _
  rw [ControlChange_nrpn _ (by rw [f1]; exact hn), hp, f1]
  show Function.update _ ch _ ch = _
  rw [Function.update_same]
  rfl

/-- Claim C27: a data entry (controller 6 or 38, any data byte `val`) on the channel `ch`, in
any state whose two stored data-entry bytes are bytes. The dispatcher returns, the voices and
the other channels are as before, and the channel block is the block `c1` with the byte
stored (`storedEntry`) in which: with the registered parameter (0, 0) the bend sensitivity is
`2 * (MSB * 128 + LSB)` when `MSB ≤ 12` and as before otherwise; with (0, 1) the fine tune is
`((LSB & 0x60) >> 5) + 4 * MSB - 256`; with (0, 2) the coarse tune is `MSB - 64` when
`40 ≤ MSB ≤ 88` and as before otherwise; with any other pair nothing but the stored byte
has changed. After a controller 98 or 99 the pair is such another pair: the data entry that
follows changes the stored byte only. -/
theorem C27_rpn_data_entry (s : State) (ch ctl val : Int) (hch : 0 ≤ ch ∧ ch ≤ 15)
    (hctl : ctl = 6 ∨ ctl = 38) (hval : 0 ≤ val ∧ val ≤ 127)
    (hb : DataBytes (s.channel_data ch)) :
    (∃ t, ProcessMidiData_bytes s [176 + ch, ctl, val] = some t
      ∧ t.voice_data = s.voice_data
      ∧ (∀ j, j ≠ ch → t.channel_data j = s.channel_data j)
      ∧ ((s.channel_data ch).parameter_number_MSB = 0 →
          (s.channel_data ch).parameter_number_LSB = 0 →
          t.channel_data ch = { (storedEntry (s.channel_data ch) ctl val) with
            pitch_bend_sense :=
              if (storedEntry (s.channel_data ch) ctl val).data_entry_MSB ≤ 12
              then 2 * ((storedEntry (s.channel_data ch) ctl val).data_entry_MSB * 128
                + (storedEntry (s.channel_data ch) ctl val).data_entry_LSB)
              else (s.channel_data ch).pitch_bend_sense })
      ∧ ((s.channel_data ch).parameter_number_MSB = 0 →
          (s.channel_data ch).parameter_number_LSB = 1 →
          t.channel_data ch = { (storedEntry (s.channel_data ch) ctl val) with
            fine_tune := (storedEntry (s.channel_data ch) ctl val).data_entry_LSB / 32 % 4
              + 4 * (storedEntry (s.channel_data ch) ctl val).data_entry_MSB - 256 })
      ∧ ((s.channel_data ch).parameter_number_MSB = 0 →
          (s.channel_data ch).parameter_number_LSB = 2 →
          t.channel_data ch = { (storedEntry (s.channel_data ch) ctl val) with
            coarse_tune :=
              if 40 ≤ (storedEntry (s.channel_data ch) ctl val).data_entry_MSB
                ∧ (storedEntry (s.channel_data ch) ctl val).data_entry_MSB ≤ 88
              then (storedEntry (s.channel_data ch) ctl val).data_entry_MSB - 64
              else (s.channel_data ch).coarse_tune })
      ∧ (¬ KnownRpn (s.channel_data ch) →
          t.channel_data ch = storedEntry (s.channel_data ch) ctl val))
    ∧ (∀ nrpn v, nrpn = 98 ∨ nrpn = 99 → 0 ≤ v ∧ v ≤ 127 →
        ∃ t, ProcessMidiData_bytes s [176 + ch, nrpn, v, 176 + ch, ctl, val] = some t
          ∧ t.channel_data ch
            = storedEntry
                (if nrpn = 98 then { (s.channel_data ch) with parameter_number_LSB := 255 }
                 else { (s.channel_data ch) with parameter_number_MSB := 255 }) ctl val) := by
  refine ⟨?_, ?_⟩
  · obtain ⟨t, e, v, o, c⟩ := bytes_dataEntry s ch ctl val hch hctl hval []
    obtain ⟨p1, p2, p3⟩ := storedEntry_fields (s.channel_data ch) ctl val hval hb
    obtain ⟨d0, d1, d2, d3⟩ := dataEntry_spec _ p3
    have sens : (storedEntry (s.channel_data ch) ctl val).pitch_bend_sense
        = (s.channel_data ch).pitch_bend_sense := by
      unfold storedEntry; split <;> rfl
    have coarse : (storedEntry (s.channel_data ch) ctl val).coarse_tune
        = (s.channel_data ch).coarse_tune := by
      unfold storedEntry; split <;> rfl
    refine ⟨t, e, v, o, ?_, ?_, ?_, ?_⟩
    · intro m l
      rw [c, d0 (p1.trans m) (p2.trans l), sens]
    · intro m l
      rw [c, d1 (p1.trans m) (p2.trans l)]
    · intro m l
      rw [c, d2 (p1.trans m) (p2.trans l), coarse]
    · intro k
      rw [c]
      refine d3 (fun q => k ?_)
      unfold KnownRpn at q ⊢
      rw [p1, p2] at q
      exact q
  · intro nrpn v hn hv
    obtain ⟨t1, e1, c1⟩ := bytes_nrpn s ch nrpn v hch hn hv [176 + ch, ctl, val]
    obtain ⟨t, e, _, _, c⟩ := bytes_dataEntry t1 ch ctl val hch hctl hval []
    refine ⟨t, e1.trans e, ?_⟩
    rw [c, c1]
    have hb1 : DataBytes (if nrpn = 98
        then { (s.channel_data ch) with parameter_number_LSB := 255 }
        else { (s.channel_data ch) with parameter_number_MSB := 255 }) := by
      split <;> exact hb
    obtain ⟨p1, p2, p3⟩ := storedEntry_fields _ ctl val hval hb1
    refine (dataEntry_spec _ p3).2.2.2 (fun q => ?_)
    unfold KnownRpn at q
    rw [p1, p2] at q
    rcases hn with hn | hn
    · rw [if_pos hn] at q
      have : (255 : Int) = 0 ∨ (255 : Int) = 1 ∨ (255 : Int) = 2 := q.2
      omega
    · rw [if_neg (by omega)] at q
      have : (255 : Int) = 0 := q.1
      omega

set_option maxRecDepth 100000 in
/-- Witness of C27: the module in play with the registered parameter (0, 0) selected on
channel 0; the controller 6 with the data byte 3 sets the bend sensitivity to 768. -/
theorem C27_rpn_data_entry_witness :
    DataBytes (C27_state.channel_data 0)
    ∧ (∃ t, ProcessMidiData_bytes C27_state [176 + 0, 6, 3] = some t
      ∧ t.voice_data = C27_state.voice_data
      ∧ (t.channel_data 0).pitch_bend_sense = 768) := by
  refine ⟨by unfold DataBytes; decide, ?_⟩
  obtain ⟨t, e, v, _, h0, _⟩ := (C27_rpn_data_entry C27_state 0 6 3 (by decide) (by decide)
    (by decide) (by unfold DataBytes; decide)).1
  refine ⟨t, e, v, ?_⟩
  rw [h0 (by decide) (by decide)]
  decide

/-! ## Note Off on the drum channel -/

theorem dispatch_noteOn_zero (u : State) (h : u.event_type = 144) (hv : u.event_data 2 = 0) :
    ProcessMidiData_dispatch u = some { NoteOff u with event_length := 0 } := by
  unfold ProcessMidiData_dispatch
  simp [h, hv]

theorem NoteOff_guarded (u : State) (h0 : u.event_data 0 % 16 = 9)
    (hg : (u.channel_data u.channel_data_ptr).program_change ≠ 7 ∨ u.event_data 1 ≠ 88) :
    NoteOff u = u := by
  unfold NoteOff
  rw [if_pos ⟨h0, hg⟩]

theorem NoteOff_unguarded (u : State)
    (hg : u.event_data 0 % 16 = 9 →
      (u.channel_data u.channel_data_ptr).program_change = 7 ∧ u.event_data 1 = 88) :
    NoteOff u = NoteOff_release u := by
  unfold NoteOff
  rw [if_neg (by
    rintro ⟨a, b⟩
    obtain ⟨c, d⟩ := hg a
    rcases b with b | b
    · exact b c
    · exact b d)]
  rfl

/-- The dispatcher on a Note Off, given as `8n` or as a Note On `9n` with the velocity 0:
the bytes are stored and `NoteOff` runs. -/
theorem bytes_noteOff (s : State) (st n v : Int)
    (hst : (128 ≤ st ∧ st ≤ 143) ∨ (144 ≤ st ∧ st ≤ 159 ∧ v = 0))
    (hn : 0 ≤ n ∧ n ≤ 127) (hv : 0 ≤ v ∧ v ≤ 127) :
    ProcessMidiData_bytes s [st, n, v]
      = some { NoteOff (messageState s st n v) with event_length := 0 } := by
  obtain ⟨f0, f1, f2, f3, f4, f5, f6, f7⟩ := messageState_fields s st n v
  rw [bytes_message s st n v (by omega) (by omega) hn hv]
  rcases hst with h | h
  · rw [dispatch_noteOff _ (by rw [f3]; omega), Option.some_bind]
    rfl
  · rw [dispatch_noteOn_zero _ (by rw [f3]; omega) (by rw [f2]; exact h.2.2), Option.some_bind]
    rfl

/-- Claim C28: a Note Off on channel 9, given as `89 n v` or as the Note On `99 n 00`, in any
state. Unless the program number of the drum channel is 7 and the note is 88, the dispatcher
returns and no voice, no channel block and no program data has changed; when the program
number is 7 and the note is 88, the message runs the release of the note
(`NoteOff_release`: `FindVoice` and `VoiceNoteOff` for both layers), which is what the same
message runs on every other channel `ch` (its status byte is then `st - 9 + ch`). -/
theorem C28_drum_note_off (s : State) (st n v : Int)
    (hst : st = 137 ∨ (st = 153 ∧ v = 0))
    (hn : 0 ≤ n ∧ n ≤ 127) (hv : 0 ≤ v ∧ v ≤ 127) :
    ((s.channel_data 9).program_change ≠ 7 ∨ n ≠ 88 →
      ∃ t, ProcessMidiData_bytes s [st, n, v] = some t
        ∧ t.voice_data = s.voice_data ∧ t.channel_data = s.channel_data
        ∧ t.stru_C0030080 = s.stru_C0030080)
    ∧ ((s.channel_data 9).program_change = 7 ∧ n = 88 →
      ProcessMidiData_bytes s [st, n, v]
        = some { NoteOff_release (messageState s st n v) with event_length := 0 })
    ∧ (∀ ch, 0 ≤ ch ∧ ch ≤ 15 → ch ≠ 9 →
      ProcessMidiData_bytes s [st - 9 + ch, n, v]
        = some { NoteOff_release (messageState s (st - 9 + ch) n v) with event_length := 0 }) := by
  obtain ⟨f0, f1, f2, f3, f4, f5, f6, f7⟩ := messageState_fields s st n v
  have e9 : (messageState s st n v).event_data 0 % 16 = 9 := by
    rw [f0]; omega
  have p9 : (messageState s st n v).channel_data_ptr = 9 := by
    rw [f4]; omega
  have b := bytes_noteOff s st n v (by omega) hn hv
  refine ⟨?_, ?_, ?_⟩
  · intro hg
    rw [NoteOff_guarded _ e9 (by rw [p9, f1]; exact hg)] at b
    exact ⟨_, b, rfl, rfl, rfl⟩
  · intro hg
    rw [NoteOff_unguarded _ (fun _ => by rw [p9, f1]; exact hg)] at b
    exact b
  · intro ch hch hne
    have c := bytes_noteOff s (st - 9 + ch) n v (by omega) hn hv
    rw [NoteOff_unguarded _ (fun a => by
      exfalso
      rw [(messageState_fields s (st - 9 + ch) n v).1] at a
      omega)] at c
    exact c

set_option maxRecDepth 100000 in
/-- Witness of C28: the module in play (the program number of its drum channel is 0), and the
Note Off `89 58 40`. -/
theorem C28_drum_note_off_witness :
    ((playingModule.channel_data 9).program_change ≠ 7 ∨ (88 : Int) ≠ 88)
    ∧ ∃ t, ProcessMidiData_bytes playingModule [137, 88, 64] = some t
        ∧ t.voice_data = playingModule.voice_data
        ∧ t.channel_data = playingModule.channel_data
        ∧ t.stru_C0030080 = playingModule.stru_C0030080 :=
  ⟨by decide,
    (C28_drum_note_off playingModule 137 88 64 (by decide) (by decide) (by decide)).1
      (by decide)⟩

/-! ## The slot that `FindAvailableVoice` returns -/

theorem ringPos_range (mp a j : Int) (ha : 0 ≤ a ∧ a < mp) (hj : 0 ≤ j ∧ j < mp) :
    0 ≤ ringPos mp a j ∧ ringPos mp a j < mp := by
  unfold ringPos
  split <;> omega

theorem ringPos_inj (mp a i j : Int) (hi : 0 ≤ i ∧ i < mp)
    (hj : 0 ≤ j ∧ j < mp) (h : ringPos mp a i = ringPos mp a j) : i = j := by
  unfold ringPos at h
  split at h <;> split at h <;> omega

theorem ringPos_next (s : State) (a i : Int) (ha : 0 ≤ a ∧ a < s.maximum_polyphony)
    (hi : 0 ≤ i ∧ i < s.maximum_polyphony) :
    (nextIndex s i ≠ a →
      ringPos s.maximum_polyphony a (nextIndex s i) = ringPos s.maximum_polyphony a i + 1
      ∧ 0 ≤ nextIndex s i ∧ nextIndex s i < s.maximum_polyphony)
    ∧ (nextIndex s i = a → ringPos s.maximum_polyphony a i = s.maximum_polyphony - 1) := by
  unfold ringPos nextIndex
  refine ⟨?_, ?_⟩
  · intro h
    split at h <;> split <;> split <;> omega
  · intro h
    split at h <;> split <;> omega

/-- The walk of `findOnRing` from slot `index1`, with the fuel of the slots that are left:
a slot returned satisfies `p` and no slot met before it does; when nothing is returned, no
slot from `index` on satisfies `p`. -/
theorem findOnRing_spec (s : State) (p : Int → Bool) (index1 : Int)
    (h1 : 0 ≤ index1 ∧ index1 < s.maximum_polyphony) :
    ∀ (n : Nat) (index : Int), 0 ≤ index ∧ index < s.maximum_polyphony →
      ringPos s.maximum_polyphony index1 index + n = s.maximum_polyphony →
      (∀ r, findOnRing s p index1 n index = some r →
        (0 ≤ r ∧ r < s.maximum_polyphony) ∧ p r = true
        ∧ ∀ j, 0 ≤ j ∧ j < s.maximum_polyphony →
            ringPos s.maximum_polyphony index1 index ≤ ringPos s.maximum_polyphony index1 j →
            ringPos s.maximum_polyphony index1 j < ringPos s.maximum_polyphony index1 r →
            p j = false)
      ∧ (findOnRing s p index1 n index = none →
        ∀ j, 0 ≤ j ∧ j < s.maximum_polyphony →
            ringPos s.maximum_polyphony index1 index ≤ ringPos s.maximum_polyphony index1 j →
            p j = false) := by
  intro n
  induction n with
  | zero =>
    intro index hi hn
    have := ringPos_range _ index1 index h1 hi
    exfalso
    simp at hn
    omega
  | succ n ih =>
    intro index hi hn
    obtain ⟨nx1, nx2⟩ := ringPos_next s index1 index h1 hi
    rw [findOnRing]
    by_cases hp : p index = true
    · rw [if_pos hp]
      refine ⟨?_, fun h => by simp at h⟩
      intro r hr
      simp only [Option.some.injEq] at hr
      subst hr
      exact ⟨hi, hp, fun j _ a b => by omega⟩
    · rw [if_neg hp]
      have hpf : p index = false := by
        cases h : p index
        · rfl
        · exact absurd h hp
      by_cases hx : nextIndex s index ≠ index1
      · rw [if_pos hx]
        obtain ⟨e, r1, r2⟩ := nx1 hx
        obtain ⟨a, b⟩ := ih (nextIndex s index) ⟨r1, r2⟩ (by rw [e]; push_cast at hn; omega)
        refine ⟨?_, ?_⟩
        · intro r hr
          obtain ⟨c1, c2, c3⟩ := a r hr
          refine ⟨c1, c2, ?_⟩
          intro j hj q1 q2
          by_cases hq : ringPos s.maximum_polyphony index1 index
              = ringPos s.maximum_polyphony index1 j
          · rw [← ringPos_inj _ index1 index j hi hj hq]
            exact hpf
          · exact c3 j hj (by rw [e]; omega) q2
        · intro hr j hj q1
          by_cases hq : ringPos s.maximum_polyphony index1 index
              = ringPos s.maximum_polyphony index1 j
          · rw [← ringPos_inj _ index1 index j hi hj hq]
            exact hpf
          · exact b hr j hj (by rw [e]; omega)
      · rw [if_neg hx]
        refine ⟨fun r h => by simp at h, ?_⟩
        intro _ j hj q1
        have e := nx2 (not_not.mp hx)
        have := ringPos_range _ index1 j h1 hj
        rw [← ringPos_inj _ index1 index j hi hj (by omega)]
        exact hpf

/-- The search of `findFirst`: an index returned satisfies `p` and no index before it does;
when nothing is returned, no index of the range satisfies `p`. -/
theorem findFirst_spec (p : Int → Bool) : ∀ (n : Nat) (index : Int),
    (∀ r, findFirst p n index = some r →
      (index ≤ r ∧ r < index + n) ∧ p r = true ∧ ∀ j, index ≤ j → j < r → p j = false)
    ∧ (findFirst p n index = none → ∀ j, index ≤ j → j < index + n → p j = false) := by
  intro n
  induction n with
  | zero =>
    intro index
    refine ⟨fun r h => by simp [findFirst] at h, fun _ j a b => ?_⟩
    exfalso
    simp at b
    omega
  | succ n ih =>
    intro index
    rw [findFirst]
    by_cases hp : p index = true
    · rw [if_pos hp]
      refine ⟨?_, fun h => by simp at h⟩
      intro r hr
      simp only [Option.some.injEq] at hr
      subst hr
      exact ⟨⟨le_refl _, by push_cast; omega⟩, hp, fun j a b => by omega⟩
    · rw [if_neg hp]
      have hpf : p index = false := by
        cases h : p index
        · rfl
        · exact absurd h hp
      obtain ⟨a, b⟩ := ih (index + 1)
      refine ⟨?_, ?_⟩
      · intro r hr
        obtain ⟨c1, c2, c3⟩ := a r hr
        refine ⟨⟨by omega, by push_cast; omega⟩, c2, ?_⟩
        intro j j1 j2
        by_cases hj : j = index
        · rw [hj]; exact hpf
        · exact c3 j (by omega) j2
      · intro hr j j1 j2
        by_cases hj : j = index
        · rw [hj]; exact hpf
        · exact b hr j (by omega) (by push_cast at j2; omega)

theorem FindAvailableVoice_start_range (s : State) (hm : 1 ≤ s.maximum_polyphony)
    (hr : 0 ≤ s.recent_voice_index ∧ s.recent_voice_index < 2147483647) :
    (0 ≤ FindAvailableVoice_start s ∧ FindAvailableVoice_start s < s.maximum_polyphony)
    ∧ FindAvailableVoice_start s
      = (if s.recent_voice_index + 1 ≥ s.maximum_polyphony then 0
         else s.recent_voice_index + 1) := by
  have e1 : i32 (u32 (s.recent_voice_index + 1)) = s.recent_voice_index + 1 := by
    unfold i32 u32; omega
  have e : FindAvailableVoice_start s
      = (if s.recent_voice_index + 1 ≥ s.maximum_polyphony then 0
         else s.recent_voice_index + 1) := by
    show (if i32 (u32 (s.recent_voice_index + 1)) ≥ s.maximum_polyphony then 0
      else i32 (u32 (s.recent_voice_index + 1))) = _
    rw [e1]
  refine ⟨?_, e⟩
  rw [e]
  split <;> omega

/-- The four ways in which `FindAvailableVoice` comes to the slot it returns. -/
theorem FindAvailableVoice_cases (s : State) (hm : 1 ≤ s.maximum_polyphony)
    (hr : 0 ≤ s.recent_voice_index ∧ s.recent_voice_index < 2147483647) :
    (0 ≤ FindAvailableVoice_index s ∧ FindAvailableVoice_index s < s.maximum_polyphony)
    ∧ ((FreeSlot s (FindAvailableVoice_index s)
        ∧ ∀ j, 0 ≤ j → j < FindAvailableVoice_index s → ¬ FreeSlot s j)
      ∨ ((∀ j, 0 ≤ j ∧ j < s.maximum_polyphony → ¬ FreeSlot s j)
        ∧ ((NoteOffSlot s (FindAvailableVoice_index s)
            ∧ ∀ j, 0 ≤ j ∧ j < s.maximum_polyphony →
              ringPos s.maximum_polyphony (FindAvailableVoice_start s) j
                < ringPos s.maximum_polyphony (FindAvailableVoice_start s)
                    (FindAvailableVoice_index s) → ¬ NoteOffSlot s j)
          ∨ ((∀ j, 0 ≤ j ∧ j < s.maximum_polyphony → ¬ NoteOffSlot s j)
            ∧ ((DrumSlot s (FindAvailableVoice_index s)
                ∧ ∀ j, 0 ≤ j ∧ j < s.maximum_polyphony →
                  ringPos s.maximum_polyphony (FindAvailableVoice_start s) j
                    < ringPos s.maximum_polyphony (FindAvailableVoice_start s)
                        (FindAvailableVoice_index s) → ¬ DrumSlot s j)
              ∨ ((∀ j, 0 ≤ j ∧ j < s.maximum_polyphony → ¬ DrumSlot s j)
                ∧ FindAvailableVoice_index s = FindAvailableVoice_start s)))))) := by
  obtain ⟨hs, _⟩ := FindAvailableVoice_start_range s hm hr
  have hpos : ∀ j, 0 ≤ j ∧ j < s.maximum_polyphony →
      ringPos s.maximum_polyphony (FindAvailableVoice_start s) (FindAvailableVoice_start s)
        ≤ ringPos s.maximum_polyphony (FindAvailableVoice_start s) j := by
    intro j hj
    have := ringPos_range _ (FindAvailableVoice_start s) j hs hj
    unfold ringPos
    rw [if_pos (le_refl _)]
    unfold ringPos at this
    omega
  have hfuel : ringPos s.maximum_polyphony (FindAvailableVoice_start s)
      (FindAvailableVoice_start s) + ((max 1 s.maximum_polyphony).toNat : Int)
      = s.maximum_polyphony := by
    unfold ringPos
    rw [if_pos (le_refl _), Int.toNat_of_nonneg (by omega)]
    omega
  obtain ⟨F1, F2⟩ := findFirst_spec (fun i => decide ((s.voice_data i).note_number = 255))
    s.maximum_polyphony.toNat 0
  obtain ⟨A1, A2⟩ := findOnRing_spec s (fun i => decide ((s.voice_data i).vflags / 128 % 2 ≠ 0))
    (FindAvailableVoice_start s) hs (max 1 s.maximum_polyphony).toNat
    (FindAvailableVoice_start s) hs hfuel
  obtain ⟨B1, B2⟩ := findOnRing_spec s (fun i => decide ((s.voice_data i).channel_num_2
      - (s.voice_data i).channel_num_2 % 2 = 2 * DRUM_CHANNEL))
    (FindAvailableVoice_start s) hs (max 1 s.maximum_polyphony).toNat
    (FindAvailableVoice_start s) hs hfuel
  have hdef : FindAvailableVoice_index s
      = match findFirst (fun i => decide ((s.voice_data i).note_number = 255))
          s.maximum_polyphony.toNat 0 with
        | some index2 => index2
        | none =>
          match findOnRing s (fun i => decide ((s.voice_data i).vflags / 128 % 2 ≠ 0))
              (FindAvailableVoice_start s) (max 1 s.maximum_polyphony).toNat
              (FindAvailableVoice_start s) with
          | some index3 => index3
          | none =>
            match findOnRing s (fun i => decide ((s.voice_data i).channel_num_2
                - (s.voice_data i).channel_num_2 % 2 = 2 * DRUM_CHANNEL))
                (FindAvailableVoice_start s) (max 1 s.maximum_polyphony).toNat
                (FindAvailableVoice_start s) with
            | some index4 => index4
            | none => FindAvailableVoice_start s := rfl
  rw [hdef]
  cases hf : findFirst (fun i => decide ((s.voice_data i).note_number = 255))
      s.maximum_polyphony.toNat 0 with
  | some r =>
    dsimp only
    obtain ⟨c1, c2, c3⟩ := F1 r hf
    simp only [decide_eq_true_eq] at c2
    rw [Int.toNat_of_nonneg (by omega)] at c1
    refine ⟨by omega, Or.inl ⟨c2, ?_⟩⟩
    intro j j1 j2
    have := c3 j j1 j2
    simp only [decide_eq_false_iff_not] at this
    exact this
  | none =>
    dsimp only
    have nofree : ∀ j, 0 ≤ j ∧ j < s.maximum_polyphony → ¬ FreeSlot s j := by
      intro j hj
      have := F2 hf j hj.1 (by rw [Int.toNat_of_nonneg (by omega)]; omega)
      simp only [decide_eq_false_iff_not] at this
      exact this
    cases ha : findOnRing s (fun i => decide ((s.voice_data i).vflags / 128 % 2 ≠ 0))
        (FindAvailableVoice_start s) (max 1 s.maximum_polyphony).toNat
        (FindAvailableVoice_start s) with
    | some r =>
      dsimp only
      obtain ⟨c1, c2, c3⟩ := A1 r ha
      simp only [decide_eq_true_eq] at c2
      refine ⟨c1, Or.inr ⟨nofree, Or.inl ⟨c2, ?_⟩⟩⟩
      intro j hj q
      have := c3 j hj (hpos j hj) q
      simp only [decide_eq_false_iff_not] at this
      exact this
    | none =>
      dsimp only
      have noflag : ∀ j, 0 ≤ j ∧ j < s.maximum_polyphony → ¬ NoteOffSlot s j := by
        intro j hj
        have := A2 ha j hj (hpos j hj)
        simp only [decide_eq_false_iff_not] at this
        exact this
      cases hb : findOnRing s (fun i => decide ((s.voice_data i).channel_num_2
          - (s.voice_data i).channel_num_2 % 2 = 2 * DRUM_CHANNEL))
          (FindAvailableVoice_start s) (max 1 s.maximum_polyphony).toNat
          (FindAvailableVoice_start s) with
      | some r =>
        dsimp only
        obtain ⟨c1, c2, c3⟩ := B1 r hb
        simp only [decide_eq_true_eq] at c2
        refine ⟨c1, Or.inr ⟨nofree, Or.inr ⟨noflag, Or.inl ⟨c2, ?_⟩⟩⟩⟩
        intro j hj q
        have := c3 j hj (hpos j hj) q
        simp only [decide_eq_false_iff_not] at this
        exact this
      | none =>
        dsimp only
        refine ⟨hs, Or.inr ⟨nofree, Or.inr ⟨noflag, Or.inr ⟨?_, rfl⟩⟩⟩⟩
        intro j hj
        have := B2 hb j hj (hpos j hj)
        simp only [decide_eq_false_iff_not] at this
        exact this

/-- Claim C29: in any state with `maximum_polyphony` between 1 and 64 and
`recent_voice_index` below `2^31 - 1`, `FindAvailableVoice` returns a slot of
`[0, maximum_polyphony)` which is a free slot when a slot of the pool is free; otherwise a
slot whose note-off flag (bit 7) is set when there is one in the pool; otherwise a slot of
the drum channel when there is one; otherwise the slot behind `recent_voice_index` (slot 0
when that is `maximum_polyphony` or more). `recent_voice_index` is set to the slot returned
and no voice is changed. -/
theorem C29_find_priority (s : State) (hm : 1 ≤ s.maximum_polyphony)
    (hm2 : s.maximum_polyphony ≤ 64)
    (hr : 0 ≤ s.recent_voice_index ∧ s.recent_voice_index < 2147483647) :
    (0 ≤ (FindAvailableVoice s).2 ∧ (FindAvailableVoice s).2 < s.maximum_polyphony)
    ∧ ((∃ j, (0 ≤ j ∧ j < s.maximum_polyphony) ∧ FreeSlot s j) →
        FreeSlot s (FindAvailableVoice s).2)
    ∧ ((∀ j, 0 ≤ j ∧ j < s.maximum_polyphony → ¬ FreeSlot s j) →
        ((∃ j, (0 ≤ j ∧ j < s.maximum_polyphony) ∧ NoteOffSlot s j) →
          NoteOffSlot s (FindAvailableVoice s).2)
        ∧ ((∀ j, 0 ≤ j ∧ j < s.maximum_polyphony → ¬ NoteOffSlot s j) →
          ((∃ j, (0 ≤ j ∧ j < s.maximum_polyphony) ∧ DrumSlot s j) →
            DrumSlot s (FindAvailableVoice s).2)
          ∧ ((∀ j, 0 ≤ j ∧ j < s.maximum_polyphony → ¬ DrumSlot s j) →
            (FindAvailableVoice s).2
              = (if s.recent_voice_index + 1 ≥ s.maximum_polyphony then 0
                 else s.recent_voice_index + 1))))
    ∧ (FindAvailableVoice s).1.recent_voice_index = (FindAvailableVoice s).2
    ∧ (FindAvailableVoice s).1.voice_data = s.voice_data := by
  obtain ⟨hin, hc⟩ := FindAvailableVoice_cases s hm hr
  obtain ⟨_, hst⟩ := FindAvailableVoice_start_range s hm hr
  have e2 : (FindAvailableVoice s).2 = FindAvailableVoice_index s := rfl
  rw [e2]
  refine ⟨hin, ?_, ?_, ?_, rfl⟩
  · rintro ⟨j, hj, fj⟩
    rcases hc with a | ⟨nf, _⟩
    · exact a.1
    · exact absurd fj (nf j hj)
  · intro nf
    have hc2 : (NoteOffSlot s (FindAvailableVoice_index s)
            ∧ ∀ j, 0 ≤ j ∧ j < s.maximum_polyphony →
              ringPos s.maximum_polyphony (FindAvailableVoice_start s) j
                < ringPos s.maximum_polyphony (FindAvailableVoice_start s)
                    (FindAvailableVoice_index s) → ¬ NoteOffSlot s j)
          ∨ ((∀ j, 0 ≤ j ∧ j < s.maximum_polyphony → ¬ NoteOffSlot s j)
            ∧ ((DrumSlot s (FindAvailableVoice_index s)
                ∧ ∀ j, 0 ≤ j ∧ j < s.maximum_polyphony →
                  ringPos s.maximum_polyphony (FindAvailableVoice_start s) j
                    < ringPos s.maximum_polyphony (FindAvailableVoice_start s)
                        (FindAvailableVoice_index s) → ¬ DrumSlot s j)
              ∨ ((∀ j, 0 ≤ j ∧ j < s.maximum_polyphony → ¬ DrumSlot s j)
                ∧ FindAvailableVoice_index s = FindAvailableVoice_start s))) := by
      rcases hc with a | ⟨_, b⟩
      · exact absurd a.1 (nf _ hin)
      · exact b
    refine ⟨?_, ?_⟩
    · rintro ⟨j, hj, fj⟩
      rcases hc2 with a | ⟨no, _⟩
      · exact a.1
      · exact absurd fj (no j hj)
    · intro no
      have hc3 : (DrumSlot s (FindAvailableVoice_index s)
                ∧ ∀ j, 0 ≤ j ∧ j < s.maximum_polyphony →
                  ringPos s.maximum_polyphony (FindAvailableVoice_start s) j
                    < ringPos s.maximum_polyphony (FindAvailableVoice_start s)
                        (FindAvailableVoice_index s) → ¬ DrumSlot s j)
              ∨ ((∀ j, 0 ≤ j ∧ j < s.maximum_polyphony → ¬ DrumSlot s j)
                ∧ FindAvailableVoice_index s = FindAvailableVoice_start s) := by
        rcases hc2 with a | ⟨_, b⟩
        · exact absurd a.1 (no _ hin)
        · exact b
      refine ⟨?_, ?_⟩
      · rintro ⟨j, hj, fj⟩
        rcases hc3 with a | ⟨nd, _⟩
        · exact a.1
        · exact absurd fj (nd j hj)
      · intro nd
        rcases hc3 with a | ⟨_, b⟩
        · exact absurd a.1 (nd _ hin)
        · rw [b, hst]
  · show u32 (FindAvailableVoice_index s) = FindAvailableVoice_index s
    unfold u32
    omega

set_option maxRecDepth 100000 in
/-- Witness of C29: the module in play after the Note On `90 3C 64` (24 voices, slot 0 plays
and `recent_voice_index` is 0): the slot returned is free. -/
theorem C29_find_priority_witness :
    (1 ≤ C19_state.maximum_polyphony ∧ C19_state.maximum_polyphony ≤ 64
      ∧ (0 ≤ C19_state.recent_voice_index ∧ C19_state.recent_voice_index < 2147483647)
      ∧ (0 ≤ (1 : Int) ∧ (1 : Int) < C19_state.maximum_polyphony) ∧ FreeSlot C19_state 1)
    ∧ FreeSlot C19_state (FindAvailableVoice C19_state).2 :=
  ⟨⟨by decide, by decide, by decide, by decide, by unfold FreeSlot; decide⟩,
    (C29_find_priority C19_state (by decide) (by decide) (by decide)).2.1
      ⟨1, by decide, by unfold FreeSlot; decide⟩⟩

/-- Claim C30, amended: in any state with `maximum_polyphony` of 1 or more and
`recent_voice_index` below `2^31 - 1`, the slot that `FindAvailableVoice` returns is, when a
slot of the pool is free, the free slot of the lowest number, wherever `recent_voice_index`
stands; otherwise, when a voice of the pool has its note-off flag, the first such voice met
in the walk over the ring `[0, maximum_polyphony)` that starts at the slot behind
`recent_voice_index`; otherwise, when a voice of the pool is on the drum channel, the first
such voice met in that walk. -/
theorem C30_find_scan_order (s : State) (hm : 1 ≤ s.maximum_polyphony)
    (hr : 0 ≤ s.recent_voice_index ∧ s.recent_voice_index < 2147483647) :
    FindAvailableVoice_start s
      = (if s.recent_voice_index + 1 ≥ s.maximum_polyphony then 0
         else s.recent_voice_index + 1)
    ∧ ((∃ j, (0 ≤ j ∧ j < s.maximum_polyphony) ∧ FreeSlot s j) →
        FreeSlot s (FindAvailableVoice s).2
        ∧ ∀ j, 0 ≤ j → j < (FindAvailableVoice s).2 → ¬ FreeSlot s j)
    ∧ ((∀ j, 0 ≤ j ∧ j < s.maximum_polyphony → ¬ FreeSlot s j) →
        ((∃ j, (0 ≤ j ∧ j < s.maximum_polyphony) ∧ NoteOffSlot s j) →
          NoteOffSlot s (FindAvailableVoice s).2
          ∧ ∀ j, 0 ≤ j ∧ j < s.maximum_polyphony →
              ringPos s.maximum_polyphony (FindAvailableVoice_start s) j
                < ringPos s.maximum_polyphony (FindAvailableVoice_start s)
                    (FindAvailableVoice s).2 → ¬ NoteOffSlot s j)
        ∧ ((∀ j, 0 ≤ j ∧ j < s.maximum_polyphony → ¬ NoteOffSlot s j) →
          (∃ j, (0 ≤ j ∧ j < s.maximum_polyphony) ∧ DrumSlot s j) →
          DrumSlot s (FindAvailableVoice s).2
          ∧ ∀ j, 0 ≤ j ∧ j < s.maximum_polyphony →
              ringPos s.maximum_polyphony (FindAvailableVoice_start s) j
                < ringPos s.maximum_polyphony (FindAvailableVoice_start s)
                    (FindAvailableVoice s).2 → ¬ DrumSlot s j)) := by
  obtain ⟨hin, hc⟩ := FindAvailableVoice_cases s hm hr
  obtain ⟨_, hst⟩ := FindAvailableVoice_start_range s hm hr
  have e2 : (FindAvailableVoice s).2 = FindAvailableVoice_index s := rfl
  rw [e2]
  refine ⟨hst, ?_, ?_⟩
  · rintro ⟨j, hj, fj⟩
    rcases hc with a | ⟨nf, _⟩
    · exact a
    · exact absurd fj (nf j hj)
  · intro nf
    rcases hc with a | ⟨_, hc2⟩
    · exact absurd a.1 (nf _ hin)
    · refine ⟨?_, ?_⟩
      · rintro ⟨j, hj, fj⟩
        rcases hc2 with a | ⟨no, _⟩
        · exact a
        · exact absurd fj (no j hj)
      · intro no
        rintro ⟨j, hj, fj⟩
        rcases hc2 with a | ⟨_, hc3⟩
        · exact absurd a.1 (no _ hin)
        · rcases hc3 with a | ⟨nd, _⟩
          · exact a
          · exact absurd fj (nd j hj)

set_option maxRecDepth 100000 in
/-- Witness of the amended C30: the state `C30_state` (24 free voices, `recent_voice_index`
at slot 5): the walk starts at slot 6 and the slot returned is free. -/
theorem C30_find_scan_order_witness :
    (1 ≤ C30_state.maximum_polyphony
      ∧ (0 ≤ C30_state.recent_voice_index ∧ C30_state.recent_voice_index < 2147483647))
    ∧ FindAvailableVoice_start C30_state = 6 :=
  ⟨⟨by decide, by decide⟩,
    (C30_find_scan_order C30_state (by decide) (by decide)).1.trans (by decide)⟩

set_option maxRecDepth 100000 in
/-- Counterexample to C30 as stated: in the state `C30_state` every slot of the pool of 24 is
free and `recent_voice_index` is 5, so that the walk over the ring starts at slot 6, which is
free and is met 18 places before slot 0; `FindAvailableVoice` returns slot 0. -/
theorem C30_counterexample :
    C30_state.maximum_polyphony = 24 ∧ C30_state.recent_voice_index = 5
    ∧ FindAvailableVoice_start C30_state = 6
    ∧ (C30_state.voice_data 6).note_number = 255
    ∧ (C30_state.voice_data 0).note_number = 255
    ∧ ringPos 24 6 6 = 0 ∧ ringPos 24 6 0 = 18
    ∧ (FindAvailableVoice C30_state).2 = 0
    ∧ (FindAvailableVoice C30_state).2 ≠ 6 := by
  decide

/-! ## The compaction of the pool by `DefragmentVoices` -/

theorem activeSlots_mem (s : State) : ∀ (n : Nat) (lo x : Int),
    x ∈ activeSlots s n lo ↔ (lo ≤ x ∧ x < lo + n) ∧ (s.voice_data x).note_number ≠ 255 := by
  intro n
  induction n with
  | zero =>
    intro lo x
    simp only [activeSlots, List.not_mem_nil, false_iff]
    rintro ⟨⟨a, b⟩, _⟩
    simp at b
    omega
  | succ n ih =>
    intro lo x
    rw [activeSlots]
    split
    · rename_i h
      rw [List.mem_cons, ih]
      constructor
      · rintro (e | ⟨⟨a, b⟩, c⟩)
        · subst e
          exact ⟨⟨le_refl _, by push_cast; omega⟩, h⟩
        · exact ⟨⟨by omega, by push_cast; omega⟩, c⟩
      · rintro ⟨⟨a, b⟩, c⟩
        by_cases e : x = lo
        · exact Or.inl e
        · exact Or.inr ⟨⟨by omega, by push_cast at b; omega⟩, c⟩
    · rename_i h
      rw [ih]
      constructor
      · rintro ⟨⟨a, b⟩, c⟩
        exact ⟨⟨by omega, by push_cast; omega⟩, c⟩
      · rintro ⟨⟨a, b⟩, c⟩
        by_cases e : x = lo
        · subst e
          exact absurd c h
        · exact ⟨⟨by omega, by push_cast at b; omega⟩, c⟩

theorem activeSlots_sorted (s : State) : ∀ (n : Nat) (lo : Int),
    List.Pairwise (fun a b => a < b) (activeSlots s n lo) := by
  intro n
  induction n with
  | zero => intro lo; exact List.Pairwise.nil
  | succ n ih =>
    intro lo
    rw [activeSlots]
    split
    · refine List.Pairwise.cons ?_ (ih _)
      intro x hx
      have := ((activeSlots_mem s n (lo + 1) x).mp hx).1.1
      omega
    · exact ih _

/-- Free slots at the front of a range are left out. -/
theorem activeSlots_skip (s : State) : ∀ (d n : Nat) (lo : Int),
    (∀ i, lo ≤ i → i < lo + d → (s.voice_data i).note_number = 255) →
    activeSlots s (d + n) lo = activeSlots s n (lo + d) := by
  intro d
  induction d with
  | zero => intro n lo _; simp
  | succ d ih =>
    intro n lo h
    have e : d + 1 + n = (d + n) + 1 := by omega
    rw [e, activeSlots, if_neg (by
      have := h lo (le_refl _) (by push_cast; omega)
      simp [this])]
    rw [ih n (lo + 1) (fun i a b => h i (by omega) (by push_cast; omega))]
    congr 1
    push_cast
    omega

theorem activeSlots_congr (s t : State) : ∀ (n : Nat) (lo : Int),
    (∀ i, lo ≤ i → i < lo + n → t.voice_data i = s.voice_data i) →
    activeSlots t n lo = activeSlots s n lo := by
  intro n
  induction n with
  | zero => intro lo _; rfl
  | succ n ih =>
    intro lo h
    rw [activeSlots, activeSlots, h lo (le_refl _) (by push_cast; omega),
      ih (lo + 1) (fun i a b => h i (by omega) (by push_cast; omega))]

theorem activeSlots_free (s : State) (n : Nat) (lo : Int)
    (h : ∀ i, lo ≤ i → i < lo + n → (s.voice_data i).note_number = 255) :
    activeSlots s n lo = [] := by
  have := activeSlots_skip s n 0 lo h
  simpa [activeSlots] using this

/-- The inner `while` of `DefragmentVoices`, with the fuel of the slots that are left: an
index returned is that of the first active voice from `index2` on; when nothing is returned,
every voice from `index2` on is free. -/
theorem DefragmentVoices_scan_spec (s : State) : ∀ (n : Nat) (index2 : Int),
    index2 + n = s.maximum_polyphony →
    (∀ j, DefragmentVoices_scan s n index2 = some j →
      (index2 ≤ j ∧ j < s.maximum_polyphony) ∧ (s.voice_data j).note_number ≠ 255
      ∧ ∀ i, index2 ≤ i → i < j → (s.voice_data i).note_number = 255)
    ∧ (DefragmentVoices_scan s n index2 = none →
      ∀ i, index2 ≤ i → i < s.maximum_polyphony → (s.voice_data i).note_number = 255) := by
  intro n
  induction n with
  | zero =>
    intro index2 h
    simp at h
    refine ⟨fun j hj => by simp [DefragmentVoices_scan] at hj, fun _ i a b => ?_⟩
    omega
  | succ n ih =>
    intro index2 h
    push_cast at h
    rw [DefragmentVoices_scan]
    by_cases hf : (s.voice_data index2).note_number = 255
    · rw [if_pos hf]
      by_cases hl : index2 + 1 ≥ s.maximum_polyphony
      · rw [if_pos hl]
        refine ⟨fun j hj => by simp at hj, fun _ i a b => ?_⟩
        have : i = index2 := by omega
        rw [this]; exact hf
      · rw [if_neg hl]
        obtain ⟨a, b⟩ := ih (index2 + 1) (by omega)
        refine ⟨?_, ?_⟩
        · intro j hj
          obtain ⟨c1, c2, c3⟩ := a j hj
          refine ⟨⟨by omega, c1.2⟩, c2, ?_⟩
          intro i i1 i2
          by_cases e : i = index2
          · rw [e]; exact hf
          · exact c3 i (by omega) i2
        · intro hn i i1 i2
          by_cases e : i = index2
          · rw [e]; exact hf
          · exact b hn i (by omega) i2
    · rw [if_neg hf]
      refine ⟨?_, fun h => by simp at h⟩
      intro j hj
      simp only [Option.some.injEq] at hj
      subst hj
      exact ⟨⟨le_refl _, by omega⟩, hf, fun i a b => by omega⟩

/-- The `for` loop of `DefragmentVoices` from `index1` on, when the voices between `index1`
and `index2` are free: the active voices of the slots from `index1` on are moved, in their
order and with all their fields, to the slots from `index1` on; the slots behind them are
free; the slots before `index1` and from `maximum_polyphony` on are left as they are. -/
theorem DefragmentVoices_loop_spec : ∀ (n : Nat) (index1 index2 : Int) (s : State),
    index1 + n = s.maximum_polyphony → index2 ≤ s.maximum_polyphony →
    (∀ i, index1 ≤ i → i < index2 → (s.voice_data i).note_number = 255) →
    (∀ k : Nat, k < (activeSlots s n index1).length →
      (DefragmentVoices_loop n index1 index2 s).voice_data (index1 + k)
        = s.voice_data ((activeSlots s n index1).getD k 0))
    ∧ (∀ j, index1 + (activeSlots s n index1).length ≤ j → j < s.maximum_polyphony →
      ((DefragmentVoices_loop n index1 index2 s).voice_data j).note_number = 255)
    ∧ (∀ j, j < index1 ∨ s.maximum_polyphony ≤ j →
      (DefragmentVoices_loop n index1 index2 s).voice_data j = s.voice_data j) := by
  intro n
  induction n with
  | zero =>
    intro index1 index2 s hn _ _
    simp at hn
    refine ⟨fun k hk => by simp [activeSlots] at hk, fun j a b => ?_, fun j _ => rfl⟩
    simp [activeSlots] at a
    omega
  | succ n ih =>
    intro index1 index2 s hn h2 hpre
    push_cast at hn
    by_cases hact : (s.voice_data index1).note_number ≠ 255
    · have el : activeSlots s (n + 1) index1 = index1 :: activeSlots s n (index1 + 1) := by
        rw [activeSlots, if_pos hact]
      have hstep : DefragmentVoices_loop (n + 1) index1 index2 s
          = DefragmentVoices_loop n (index1 + 1) index2 s := by
        rw [DefragmentVoices_loop, if_pos hact]
      obtain ⟨a, b, c⟩ := ih (index1 + 1) index2 s (by omega) h2
        (fun i i1 i2 => hpre i (by omega) i2)
      rw [el, hstep]
      refine ⟨?_, ?_, ?_⟩
      · intro k hk
        cases k with
        | zero =>
          simp only [Nat.cast_zero, add_zero, List.getD_cons_zero]
          exact c index1 (Or.inl (by omega))
        | succ k =>
          simp only [List.length_cons, Nat.succ_lt_succ_iff] at hk
          have := a k hk
          simp only [List.getD_cons_succ]
          rw [← this]
          congr 1
          push_cast
          omega
      · intro j j1 j2
        simp only [List.length_cons] at j1
        push_cast at j1
        exact b j (by omega) j2
      · intro j hj
        exact c j (by omega)
    · have hfree : (s.voice_data index1).note_number = 255 := not_not.mp hact
      have el : activeSlots s (n + 1) index1 = activeSlots s n (index1 + 1) := by
        rw [activeSlots, if_neg hact]
      have hi2 : index1 ≤ (if index2 < index1 then index1 else index2)
          ∧ (if index2 < index1 then index1 else index2) ≤ s.maximum_polyphony
          ∧ (index1 < (if index2 < index1 then index1 else index2) →
              (if index2 < index1 then index1 else index2) = index2) := by
        split <;> omega
      obtain ⟨S1, S2⟩ := DefragmentVoices_scan_spec s
        (s.maximum_polyphony - (if index2 < index1 then index1 else index2)).toNat
        (if index2 < index1 then index1 else index2)
        (by rw [Int.toNat_of_nonneg (by omega)]; omega)
      have hstep : DefragmentVoices_loop (n + 1) index1 index2 s
          = match DefragmentVoices_scan s
              (s.maximum_polyphony - (if index2 < index1 then index1 else index2)).toNat
              (if index2 < index1 then index1 else index2) with
            | none => s
            | some j =>
              DefragmentVoices_loop n (index1 + 1) j
                (State.updVoice { s with
                  voice_data := Function.update s.voice_data index1 (s.voice_data j) } j
                  (fun w => { w with note_number := 255 })) := by
        rw [DefragmentVoices_loop, if_neg hact]
      rw [el, hstep]
      cases hs : DefragmentVoices_scan s
          (s.maximum_polyphony - (if index2 < index1 then index1 else index2)).toNat
          (if index2 < index1 then index1 else index2) with
      | none =>
        dsimp only
        have hall : ∀ i, index1 ≤ i → i < s.maximum_polyphony →
            (s.voice_data i).note_number = 255 := by
          intro i i1 i2
          by_cases e : i = index1
          · rw [e]; exact hfree
          · by_cases e2 : i < (if index2 < index1 then index1 else index2)
            · exact hpre i i1 (by rw [← hi2.2.2 (by omega)]; exact e2)
            · exact S2 hs i (by omega) i2
        have l0 : activeSlots s n (index1 + 1) = [] :=
          activeSlots_free s n (index1 + 1) (fun i i1 i2 => hall i (by omega) (by omega))
        rw [l0]
        refine ⟨fun k hk => by simp at hk, fun j j1 j2 => ?_, fun j _ => rfl⟩
        simp only [List.length_nil, Nat.cast_zero, add_zero] at j1
        exact hall j j1 j2
      | some j =>
        dsimp only
        obtain ⟨⟨j1, j2⟩, jact, jfree⟩ := S1 j hs
        have jne : j ≠ index1 := fun e => jact (by rw [e]; exact hfree)
        have hall : ∀ i, index1 ≤ i → i < j → (s.voice_data i).note_number = 255 := by
          intro i i1 i2
          by_cases e : i = index1
          · rw [e]; exact hfree
          · by_cases e2 : i < (if index2 < index1 then index1 else index2)
            · exact hpre i i1 (by rw [← hi2.2.2 (by omega)]; exact e2)
            · exact jfree i (by omega) i2
        have V1 : (State.updVoice { s with
            voice_data := Function.update s.voice_data index1 (s.voice_data j) } j
            (fun w => { w with note_number := 255 })).voice_data index1 = s.voice_data j := by
          simp only [State.updVoice, Function.update_noteq (Ne.symm jne),
            Function.update_same]
        have V2 : ((State.updVoice { s with
            voice_data := Function.update s.voice_data index1 (s.voice_data j) } j
            (fun w => { w with note_number := 255 })).voice_data j).note_number = 255 := by
          simp only [State.updVoice, Function.update_same]
        have V3 : ∀ i, i ≠ index1 → i ≠ j → (State.updVoice { s with
            voice_data := Function.update s.voice_data index1 (s.voice_data j) } j
            (fun w => { w with note_number := 255 })).voice_data i = s.voice_data i := by
          intro i i1 i2
          simp only [State.updVoice, Function.update_noteq i2, Function.update_noteq i1]
        obtain ⟨a, b, c⟩ := ih (index1 + 1) j (State.updVoice { s with
            voice_data := Function.update s.voice_data index1 (s.voice_data j) } j
            (fun w => { w with note_number := 255 }))
          (by show index1 + 1 + (n : Int) = s.maximum_polyphony; omega)
          (by show j ≤ s.maximum_polyphony; omega)
          (by
            intro i i1 i2
            rw [V3 i (by omega) (by omega)]
            exact hall i (by omega) i2)
        obtain ⟨m, hm⟩ : ∃ m : Nat, n = (j - index1 - 1).toNat + 1 + m := by
          refine ⟨n - ((j - index1 - 1).toNat + 1), ?_⟩
          have : ((j - index1 - 1).toNat : Int) = j - index1 - 1 :=
            Int.toNat_of_nonneg (by omega)
          omega
        have hd : ((j - index1 - 1).toNat : Int) = j - index1 - 1 :=
          Int.toNat_of_nonneg (by omega)
        have L1 : activeSlots s n (index1 + 1) = j :: activeSlots s m (j + 1) := by
          rw [hm, Nat.add_assoc, activeSlots_skip s (j - index1 - 1).toNat (1 + m) (index1 + 1)
            (fun i i1 i2 => hall i (by omega) (by omega))]
          have e : index1 + 1 + ((j - index1 - 1).toNat : Int) = j := by omega
          rw [e, Nat.add_comm 1 m, activeSlots, if_pos jact]
        have L2 : activeSlots (State.updVoice { s with
            voice_data := Function.update s.voice_data index1 (s.voice_data j) } j
            (fun w => { w with note_number := 255 })) n (index1 + 1)
            = activeSlots s m (j + 1) := by
          rw [hm, activeSlots_skip _ ((j - index1 - 1).toNat + 1) m (index1 + 1)
            (by
              intro i i1 i2
              push_cast at i2
              by_cases e : i = j
              · rw [e]; exact V2
              · rw [V3 i (by omega) e]
                exact hall i (by omega) (by omega))]
          have e : index1 + 1 + (((j - index1 - 1).toNat + 1 : Nat) : Int) = j + 1 := by
            push_cast
            omega
          rw [e]
          exact activeSlots_congr s _ m (j + 1) (fun i i1 _ => V3 i (by omega) (by omega))
        rw [L2] at a b
        rw [L1]
        refine ⟨?_, ?_, ?_⟩
        · intro k hk
          cases k with
          | zero =>
            simp only [Nat.cast_zero, add_zero, List.getD_cons_zero]
            rw [c index1 (Or.inl (by omega)), V1]
          | succ k =>
            simp only [List.length_cons, Nat.succ_lt_succ_iff] at hk
            have h1 := a k hk
            have hmem := getD_mem (0 : Int) (activeSlots s m (j + 1)) k hk
            have hx := ((activeSlots_mem s m (j + 1) _).mp hmem).1.1
            rw [V3 _ (by omega) (by omega)] at h1
            simp only [List.getD_cons_succ]
            rw [← h1]
            congr 1
            push_cast
            omega
        · intro i i1 i2
          simp only [List.length_cons] at i1
          push_cast at i1
          exact b i (by omega) i2
        · intro i hi
          rw [c i (by
            rcases hi with hi | hi
            · exact Or.inl (by omega)
            · exact Or.inr hi)]
          exact V3 i (by omega) (by omega)

theorem forUp_count (s : State) : ∀ (n : Nat) (lo acc : Int),
    forUp (fun index (m : Int) => if (s.voice_data index).note_number ≠ 255 then m + 1 else m)
      n lo acc = acc + (activeSlots s n lo).length := by
  intro n
  induction n with
  | zero => intro lo acc; simp [forUp, activeSlots]
  | succ n ih =>
    intro lo acc
    rw [forUp, ih, activeSlots]
    split
    · simp only [List.length_cons]
      push_cast
      omega
    · rfl

/-- The count of `CountActiveVoices` is the number of the active slots. -/
theorem activeVoices_slots (s : State) (lo hi : Int) :
    activeVoices s lo hi = ((activeSlots s (hi - lo).toNat lo).length : Int) := by
  unfold activeVoices forRange
  rw [forUp_count]
  exact zero_add _

/-- Claim C23: `DefragmentVoices` in any state. With `l` the list of the active slots of
`[0, maximum_polyphony)` in increasing order (its members are exactly these slots, and its
length `k` is the count of `CountActiveVoices`), the slot `i` below `k` holds after the call
the voice, with all its fields, that the slot `l[i]` held before; the slots from `k` up to
`maximum_polyphony` are free; the slots from `maximum_polyphony` on are as before. -/
theorem C23_defragment_stable (s : State) :
    (∀ k : Nat, k < (activeSlots s s.maximum_polyphony.toNat 0).length →
      (DefragmentVoices s).voice_data k
        = s.voice_data ((activeSlots s s.maximum_polyphony.toNat 0).getD k 0))
    ∧ (∀ j : Int, ((activeSlots s s.maximum_polyphony.toNat 0).length : Int) ≤ j →
      j < s.maximum_polyphony → ((DefragmentVoices s).voice_data j).note_number = 255)
    ∧ (∀ j : Int, j < 0 ∨ s.maximum_polyphony ≤ j →
      (DefragmentVoices s).voice_data j = s.voice_data j)
    ∧ List.Pairwise (fun a b => a < b) (activeSlots s s.maximum_polyphony.toNat 0)
    ∧ (∀ x, x ∈ activeSlots s s.maximum_polyphony.toNat 0
        ↔ (0 ≤ x ∧ x < s.maximum_polyphony) ∧ (s.voice_data x).note_number ≠ 255)
    ∧ ((activeSlots s s.maximum_polyphony.toNat 0).length : Int)
        = activeVoices s 0 s.maximum_polyphony := by
  have hmem : ∀ x, x ∈ activeSlots s s.maximum_polyphony.toNat 0
      ↔ (0 ≤ x ∧ x < s.maximum_polyphony) ∧ (s.voice_data x).note_number ≠ 255 := by
    intro x
    rw [activeSlots_mem]
    constructor
    · rintro ⟨⟨a, b⟩, c⟩
      exact ⟨⟨a, by omega⟩, c⟩
    · rintro ⟨⟨a, b⟩, c⟩
      exact ⟨⟨a, by omega⟩, c⟩
  have hcount : ((activeSlots s s.maximum_polyphony.toNat 0).length : Int)
      = activeVoices s 0 s.maximum_polyphony := by
    rw [activeVoices_slots, sub_zero]
  have hneg : ¬ 0 ≤ s.maximum_polyphony → DefragmentVoices s = s := by
    intro hm
    have e : s.maximum_polyphony.toNat = 0 := by omega
    unfold DefragmentVoices
    rw [e]
    rfl
  have hpos := fun (hm : 0 ≤ s.maximum_polyphony) =>
    DefragmentVoices_loop_spec s.maximum_polyphony.toNat 0 0 s
      (by rw [Int.toNat_of_nonneg hm]; omega) hm (fun i _ _ => by omega)
  refine ⟨?_, ?_, ?_, activeSlots_sorted s _ 0, hmem, hcount⟩
  · intro k hk
    by_cases hm : 0 ≤ s.maximum_polyphony
    · have := (hpos hm).1 k hk
      rw [zero_add] at this
      exact this
    · exfalso
      have e : s.maximum_polyphony.toNat = 0 := by omega
      rw [e] at hk
      simp [activeSlots] at hk
  · intro j j1 j2
    by_cases hm : 0 ≤ s.maximum_polyphony
    · exact (hpos hm).2.1 j (by omega) j2
    · exfalso
      omega
  · intro j hj
    by_cases hm : 0 ≤ s.maximum_polyphony
    · exact (hpos hm).2.2 j hj
    · rw [hneg hm]

/-! ## Two Note Ons for the same note -/

theorem drops_trans {s t u : State} (h1 : Drops s t) (h2 : Drops t u) : Drops s u := by
  refine ⟨?_, h2.programs.trans h1.programs, h2.mp.trans h1.mp⟩
  intro i
  rcases h2.notes i with a | a
  · rw [a]; exact h1.notes i
  · exact Or.inr a

theorem activeSlots_append (s : State) : ∀ (n d : Nat) (lo : Int),
    activeSlots s (n + d) lo = activeSlots s n lo ++ activeSlots s d (lo + n) := by
  intro n
  induction n with
  | zero => intro d lo; simp [activeSlots]
  | succ n ih =>
    intro d lo
    have e : n + 1 + d = (n + d) + 1 := by omega
    rw [e, activeSlots, activeSlots, ih d (lo + 1)]
    have e2 : lo + 1 + (n : Int) = lo + ((n + 1 : Nat) : Int) := by push_cast; omega
    rw [e2]
    split <;> simp

theorem amp_refl (vi : Int) (s : State) : AmpKept vi s s :=
  ⟨fun _ _ => rfl, rfl, rfl, rfl, rfl, rfl, rfl⟩

theorem amp_trans {vi : Int} {s t u : State} (h1 : AmpKept vi s t) (h2 : AmpKept vi t u) :
    AmpKept vi s u :=
  ⟨fun j hj => (h2.other j hj).trans (h1.other j hj), h2.channels.trans h1.channels,
    h2.mp.trans h1.mp, h2.chan.trans h1.chan, h2.f64.trans h1.f64, h2.f2C.trans h1.f2C,
    h2.f38.trans h1.f38⟩

theorem amp_ite {vi : Int} {s a b : State} (c : Prop) [Decidable c] (ha : AmpKept vi s a)
    (hb : AmpKept vi s b) : AmpKept vi s (if c then a else b) := by
  split
  · exact ha
  · exact hb

/-- A change of the voice `vi` that keeps its channel layer and its three amplitudes. -/
theorem amp_updVoice {s t : State} (vi : Int) (g : Voice_Data → Voice_Data)
    (h : AmpKept vi s t)
    (hg : ∀ w : Voice_Data, (g w).channel_num_2 = w.channel_num_2
      ∧ (g w).field_64 = w.field_64 ∧ (g w).field_2C = w.field_2C
      ∧ (g w).field_38 = w.field_38) :
    AmpKept vi s (t.updVoice vi g) := by
  obtain ⟨g1, g2, g3, g4⟩ := hg (t.voice_data vi)
  refine ⟨?_, h.channels, h.mp, ?_, ?_, ?_, ?_⟩
  · intro j hj
    simp only [State.updVoice, Function.update_noteq hj]
    exact h.other j hj
  · simp only [State.updVoice, Function.update_same]
    rw [g1]; exact h.chan
  · simp only [State.updVoice, Function.update_same]
    rw [g2]; exact h.f64
  · simp only [State.updVoice, Function.update_same]
    rw [g3]; exact h.f2C
  · simp only [State.updVoice, Function.update_same]
    rw [g4]; exact h.f38

theorem amp_A0 {s t : State} (vi a b : Int) (h : AmpKept vi s t) :
    AmpKept vi s (sub_C00373A0 t a b).1 :=
  ⟨h.other, h.channels, h.mp, h.chan, h.f64, h.f2C, h.f38⟩

theorem amp_400 {s t : State} (vi : Int) (h : AmpKept vi s t) :
    AmpKept vi s (sub_C0037400 t).1 :=
  ⟨h.other, h.channels, h.mp, h.chan, h.f64, h.f2C, h.f38⟩

theorem amp_420 {s t : State} (vi a : Int) (h : AmpKept vi s t) :
    AmpKept vi s (sub_C0037420 t a).1 :=
  ⟨h.other, h.channels, h.mp, h.chan, h.f64, h.f2C, h.f38⟩

theorem amp_sub_C0034890 {s t : State} (vi a : Int) (h : AmpKept vi s t) :
    AmpKept vi s (sub_C0034890 t vi a) := by
  unfold sub_C0034890
  lift_lets
  intros
  exact amp_updVoice _ _ h (fun _ => ⟨rfl, rfl, rfl, rfl⟩)

theorem amp_sub_C0034970 {s t : State} (vi u a : Int) (h : AmpKept vi s t) :
    AmpKept vi s (sub_C0034970 t u a).1 := by
  unfold sub_C0034970
  exact amp_420 _ _ (amp_A0 _ _ _ h)

theorem amp_sub_C0036A20 {s t : State} (vi : Int) (h : AmpKept vi s t) :
    AmpKept vi s (sub_C0036A20 t vi) := by
  unfold sub_C0036A20
  exact amp_updVoice _ _ h (fun _ => ⟨rfl, rfl, rfl, rfl⟩)

theorem amp_sub_C0036A80 {s t : State} (vi : Int) (h : AmpKept vi s t) :
    AmpKept vi s (sub_C0036A80 t vi) := by
  unfold sub_C0036A80
  lift_lets
  intro v r1 r2 w offset1 offset2 r3 r4
  exact amp_updVoice _ _ (amp_400 _ (amp_updVoice _ _
    (amp_420 _ _ (amp_A0 _ _ _ (amp_sub_C0034970 _ _ _ h))) (fun _ => ⟨rfl, rfl, rfl, rfl⟩)))
    (fun _ => ⟨rfl, rfl, rfl, rfl⟩)

theorem amp_sub_C0036B00 {s t : State} (vi : Int) (h : AmpKept vi s t) :
    AmpKept vi s (sub_C0036B00 t vi) := by
  unfold sub_C0036B00
  lift_lets
  intro v r1 r2 w offset1 offset2 r3 value1 value2 s4
  have h4 : AmpKept vi s s4 := amp_updVoice _ _
    (amp_420 _ _ (amp_A0 _ _ _ (amp_sub_C0034970 _ _ _ h))) (fun _ => ⟨rfl, rfl, rfl, rfl⟩)
  split
  · exact amp_updVoice _ _ h4 (fun _ => ⟨rfl, rfl, rfl, rfl⟩)
  · exact amp_updVoice _ _ (amp_400 _ h4) (fun _ => ⟨rfl, rfl, rfl, rfl⟩)

theorem amp_window {s : State} (index1 value2 : Int) :
    ∀ (n : Nat) (t : State), AmpKept index1 s t →
      AmpKept index1 s (GenerateOutputData_window index1 value2 n t) := by
  intro n
  induction n with
  | zero => intro t h; exact h
  | succ n ih =>
    intro t h
    unfold GenerateOutputData_window
    lift_lets
    intro v
    refine amp_ite _ ?_ h
    apply ih
    refine amp_ite _ (amp_ite _ ?_ ?_) ?_
    · exact amp_updVoice _ _ h (fun _ => ⟨rfl, rfl, rfl, rfl⟩)
    · exact amp_updVoice _ _ h (fun _ => ⟨rfl, rfl, rfl, rfl⟩)
    · exact amp_updVoice _ _ h (fun _ => ⟨rfl, rfl, rfl, rfl⟩)

theorem amp_reload {s t : State} (index1 : Int) (h : AmpKept index1 s t) :
    AmpKept index1 s (GenerateOutputData_reload t index1) := by
  unfold GenerateOutputData_reload
  lift_lets
  intros
  exact amp_updVoice _ _ h (fun _ => ⟨rfl, rfl, rfl, rfl⟩)

/-- A loop over the voices of which each pass changes its own voice only and keeps a
property `P` of the states: what the pass `vi` makes of the voice `vi` is what the loop
leaves of it. -/
theorem forRange_voice_inv (f : Int → State → State) (lo hi vi : Int)
    (P : State → Prop) (R : Voice_Data → Prop)
    (s : State) (h1 : lo ≤ vi) (h2 : vi < hi) (hs : P s)
    (hP : ∀ i t, P t → P (f i t))
    (hloc : ∀ i t j, P t → j ≠ i → (f i t).voice_data j = t.voice_data j)
    (hstep : ∀ t, P t → t.voice_data vi = s.voice_data vi → R ((f vi t).voice_data vi)) :
    R ((forRange lo hi f s).voice_data vi) ∧ P (forRange lo hi f s) := by
  have := forRange_inv f
    (fun j u => P u ∧ (j ≤ vi → u.voice_data vi = s.voice_data vi)
      ∧ (vi < j → R (u.voice_data vi)))
    lo hi (by omega)
    (by
      intro i t _ _ hq
      obtain ⟨q0, q1, q2⟩ := hq
      refine ⟨hP i t q0, ?_, ?_⟩
      · intro hi1
        rw [hloc i t vi q0 (by omega)]
        exact q1 (by omega)
      · intro hi1
        by_cases hiv : i = vi
        · subst hiv
          exact hstep t q0 (q1 (le_refl _))
        · rw [hloc i t vi q0 (fun h => hiv h.symm)]
          exact q2 (by omega))
    s ⟨hs, fun _ => rfl, fun h => by omega⟩
  exact ⟨this.2.2 h2, this.1⟩

/-- A loop over the voices keeps a property `P` of the states that each pass keeps, and
leaves the voices out of its range when each pass changes its own voice only. -/
theorem forRange_voice_skip (f : Int → State → State) (lo hi vi : Int)
    (P : State → Prop) (s : State) (h : vi < lo ∨ hi ≤ vi) (hs : P s)
    (hP : ∀ i t, P t → P (f i t))
    (hloc : ∀ i t j, P t → j ≠ i → (f i t).voice_data j = t.voice_data j) :
    (forRange lo hi f s).voice_data vi = s.voice_data vi ∧ P (forRange lo hi f s) :=
  forRange_keeps f (fun u => u.voice_data vi = s.voice_data vi ∧ P u) lo hi
    (fun i t hi1 hi2 hq => by
      refine ⟨?_, hP i t hq.2⟩
      rw [hloc i t vi hq.2 (by omega)]
      exact hq.1) s ⟨rfl, hs⟩

theorem same_of_kept {vi : Int} {s t : State} (h : AmpKept vi s t) : AmpSame vi s t :=
  ⟨h.channels, h.mp, h.chan, h.f64, h.f2C⟩

/-- A loop over the voices of which each pass keeps the amplitudes of its voice and leaves
the other voices: the amplitudes of every voice are kept. -/
theorem amp_forRange (f : Int → State → State) (lo hi vi : Int) (s : State)
    (hf : ∀ i t, AmpKept i t (f i t)) :
    AmpSame vi s (forRange lo hi f s)
    ∧ ((forRange lo hi f s).voice_data vi).field_38 = (s.voice_data vi).field_38 := by
  refine forRange_keeps f
    (fun u => AmpSame vi s u ∧ (u.voice_data vi).field_38 = (s.voice_data vi).field_38)
    lo hi ?_ s ⟨⟨rfl, rfl, rfl, rfl, rfl⟩, rfl⟩
  intro i t _ _ hq
  obtain ⟨⟨q1, q2, q3, q4, q5⟩, q6⟩ := hq
  have k := hf i t
  by_cases e : i = vi
  · subst e
    exact ⟨⟨k.channels.trans q1, k.mp.trans q2, k.chan.trans q3, k.f64.trans q4,
      k.f2C.trans q5⟩, k.f38.trans q6⟩
  · have o := k.other vi (fun h => e h.symm)
    exact ⟨⟨k.channels.trans q1, k.mp.trans q2, by rw [o]; exact q3, by rw [o]; exact q4,
      by rw [o]; exact q5⟩, by rw [o]; exact q6⟩

/-- A loop over the voices of which each pass leaves the other voices, keeps the multiplier
and the smoothed amplitude of its voice, and puts the composite amplitude `field_38` of its
voice to 0 when the voice is active and its multiplier is 0. -/
theorem amp_forRange_zero (f : Int → State → State) (lo hi vi : Int) (s : State)
    (h1 : lo ≤ vi) (h2 : vi < hi)
    (hf : ∀ i t, (∀ j, j ≠ i → (f i t).voice_data j = t.voice_data j) ∧ AmpSame i t (f i t)
      ∧ ((t.voice_data i).note_number ≠ 255 → (t.voice_data i).field_64 = 0 →
          ((f i t).voice_data i).field_38 = 0)) :
    AmpSame vi s (forRange lo hi f s)
    ∧ ((s.voice_data vi).note_number ≠ 255 → (s.voice_data vi).field_64 = 0 →
        ((forRange lo hi f s).voice_data vi).field_38 = 0) := by
  have := forRange_inv f
    (fun j u => AmpSame vi s u ∧ (j ≤ vi → u.voice_data vi = s.voice_data vi)
      ∧ (vi < j → (s.voice_data vi).note_number ≠ 255 → (s.voice_data vi).field_64 = 0 →
          (u.voice_data vi).field_38 = 0))
    lo hi (by omega)
    (by
      intro i t _ _ hq
      obtain ⟨⟨q1, q2, q3, q4, q5⟩, q6, q7⟩ := hq
      obtain ⟨o, ⟨k1, k2, k3, k4, k5⟩, z⟩ := hf i t
      by_cases e : i = vi
      · subst e
        refine ⟨⟨k1.trans q1, k2.trans q2, k3.trans q3, k4.trans q4, k5.trans q5⟩,
          fun h => by omega, fun _ hact h64 => ?_⟩
        have e0 := q6 (le_refl _)
        exact z (by rw [e0]; exact hact) (by rw [e0]; exact h64)
      · have o' := o vi (fun h => e h.symm)
        refine ⟨⟨k1.trans q1, k2.trans q2, by rw [o']; exact q3, by rw [o']; exact q4,
          by rw [o']; exact q5⟩, fun h => ?_, fun h ha hb => ?_⟩
        · rw [o']; exact q6 (by omega)
        · rw [o']; exact q7 (by omega) ha hb)
    s ⟨⟨rfl, rfl, rfl, rfl, rfl⟩, fun _ => rfl, fun h => by omega⟩
  exact ⟨this.1, this.2.2 h2⟩

/-- A loop over the voices of which each pass leaves the other voices, keeps the note and the
smoothed amplitude of its voice, and puts the multiplier `field_64` of its voice to 0 when the
voice is active and its channel is muted. -/
theorem amp_forRange_mute (f : Int → State → State) (lo hi vi : Int) (s : State)
    (h1 : lo ≤ vi) (h2 : vi < hi)
    (hf : ∀ i t, (∀ j, j ≠ i → (f i t).voice_data j = t.voice_data j) ∧ LevelSame i t (f i t)
      ∧ ((t.voice_data i).note_number ≠ 255 → MutedChannel t i →
          ((f i t).voice_data i).field_64 = 0)) :
    LevelSame vi s (forRange lo hi f s)
    ∧ ((s.voice_data vi).note_number ≠ 255 → MutedChannel s vi →
        ((forRange lo hi f s).voice_data vi).field_64 = 0) := by
  have := forRange_inv f
    (fun j u => LevelSame vi s u ∧ (j ≤ vi → u.voice_data vi = s.voice_data vi)
      ∧ (vi < j → (s.voice_data vi).note_number ≠ 255 → MutedChannel s vi →
          (u.voice_data vi).field_64 = 0))
    lo hi (by omega)
    (by
      intro i t _ _ hq
      obtain ⟨⟨q1, q2, q3, q4, q5⟩, q6, q7⟩ := hq
      obtain ⟨o, ⟨k1, k2, k3, k4, k5⟩, z⟩ := hf i t
      by_cases e : i = vi
      · subst e
        refine ⟨⟨k1.trans q1, k2.trans q2, k3.trans q3, k4.trans q4, k5.trans q5⟩,
          fun h => by omega, fun _ hact hm => ?_⟩
        have e0 := q6 (le_refl _)
        refine z (by rw [e0]; exact hact) ?_
        unfold MutedChannel at hm ⊢
        rw [q1, e0]
        exact hm
      · have o' := o vi (fun h => e h.symm)
        refine ⟨⟨k1.trans q1, k2.trans q2, by rw [o']; exact q3, by rw [o']; exact q4,
          by rw [o']; exact q5⟩, fun h => ?_, fun h ha hb => ?_⟩
        · rw [o']; exact q6 (by omega)
        · rw [o']; exact q7 (by omega) ha hb)
    s ⟨⟨rfl, rfl, rfl, rfl, rfl⟩, fun _ => rfl, fun h => by omega⟩
  exact ⟨this.1, this.2.2 h2⟩

/-- The amplitude envelope step `sub_C0037140`: the multiplier and the smoothed amplitude of
every voice are kept, and an active voice of the pool whose multiplier `field_64` is 0 gets
the composite amplitude `field_38 = 0`. -/
theorem sub_C0037140_zero (s : State) (vi : Int)
    (hvi : 0 ≤ vi ∧ vi < s.maximum_polyphony) :
    AmpSame vi s (sub_C0037140 s)
    ∧ ((s.voice_data vi).note_number ≠ 255 → (s.voice_data vi).field_64 = 0 →
        ((sub_C0037140 s).voice_data vi).field_38 = 0) := by
  unfold sub_C0037140
  refine amp_forRange_zero _ 0 s.maximum_polyphony vi s hvi.1 hvi.2 ?_
  intro i t
  beta_reduce
  lift_lets
  intro w value2 value3 value1 choice t1
  by_cases hn : w.note_number = 255
  · rw [if_pos hn]
    exact ⟨fun _ _ => rfl, ⟨rfl, rfl, rfl, rfl, rfl⟩, fun h => absurd hn h⟩
  · rw [if_neg hn]
    have k : AmpKept i t t1 := by
      show AmpKept i t (if choice = true then _ else _)
      refine amp_ite _ (amp_sub_C0036B00 _ (amp_updVoice _ _ (amp_refl i t)
        (fun _ => ⟨rfl, rfl, rfl, rfl⟩))) (amp_updVoice _ _ (amp_refl i t)
        (fun _ => ⟨rfl, rfl, rfl, rfl⟩))
    refine ⟨?_, ⟨k.channels, k.mp, ?_, ?_, ?_⟩, ?_⟩
    · intro j hj
      simp only [State.updVoice, Function.update_noteq hj]
      exact k.other j hj
    · rw [updVoice_same]; exact k.chan
    · rw [updVoice_same]; exact k.f64
    · rw [updVoice_same]; exact k.f2C
    · intro _ z
      rw [updVoice_same]
      show i32 ((t1.voice_data i).field_28 * (t1.voice_data i).field_64) / 16384 = 0
      rw [k.f64, z]
      unfold i32
      simp

theorem same_trans {vi : Int} {s t u : State} (h1 : AmpSame vi s t) (h2 : AmpSame vi t u) :
    AmpSame vi s u :=
  ⟨h2.1.trans h1.1, h2.2.1.trans h1.2.1, h2.2.2.1.trans h1.2.2.1,
    h2.2.2.2.1.trans h1.2.2.2.1, h2.2.2.2.2.trans h1.2.2.2.2⟩

/-- With volume 0 or expression 0 on the channel of voice `vi`, `sub_C0036C20` stores the
multiplier `field_64 = 0`; in every case it keeps the note and the smoothed amplitude. -/
theorem sub_C0036C20_mute (s : State) (vi : Int) :
    (∀ j, j ≠ vi → (sub_C0036C20 s vi).voice_data j = s.voice_data j)
    ∧ LevelSame vi s (sub_C0036C20 s vi)
    ∧ ((sub_C0036C20 s vi).voice_data vi).field_38 = (s.voice_data vi).field_38
    ∧ (MutedChannel s vi → ((sub_C0036C20 s vi).voice_data vi).field_64 = 0) := by
  have kn := kn_sub_C0036C20 vi (kn_refl vi s)
  unfold sub_C0036C20 at kn ⊢
  lift_lets at kn ⊢
  intro v channel value0 value1
  have k := amp_sub_C0036A20 vi (amp_refl vi
    (s.updVoice vi (fun w => { w with field_64 := i16 (i32 (value1 * w.field_60) / 128) })))
  refine ⟨fun j hj => ?_, ⟨k.channels, k.mp, ?_, ?_, kn.note⟩, ?_, fun hm => ?_⟩
  · rw [k.other j hj]
    simp only [State.updVoice, Function.update_noteq hj]
  · rw [k.chan, updVoice_same]
  · rw [k.f2C, updVoice_same]
  · rw [k.f38, updVoice_same]
  · rw [k.f64, updVoice_same]
    show i16 (i32 (value1 * (s.voice_data vi).field_60) / 128) = 0
    have e0 : value0 = 0 := by
      show i32 (channel.expression * channel.volume) = 0
      rcases hm with hm | hm
      · have : channel.volume = 0 := hm
        rw [this]; unfold i32; simp
      · have : channel.expression = 0 := hm
        rw [this]; unfold i32; simp
    have e1 : value1 = 0 := by
      show i32 (value0 * value0) / 8192 = 0
      rw [e0]; unfold i32; simp
    rw [e1]
    unfold i16 i32
    simp

theorem sub_C0036FE0_amp (s : State) (vi : Int) :
    AmpSame vi s (sub_C0036FE0 s)
    ∧ ((sub_C0036FE0 s).voice_data vi).field_38 = (s.voice_data vi).field_38 := by
  unfold sub_C0036FE0
  refine amp_forRange _ 0 s.maximum_polyphony vi s ?_
  intro i t
  beta_reduce
  lift_lets
  intro w value1 value2 value3 value4
  have u : ∀ x : Int, AmpKept i t (t.updVoice i (fun w => { w with field_4C := x })) :=
    fun x => amp_updVoice _ _ (amp_refl i t) (fun _ => ⟨rfl, rfl, rfl, rfl⟩)
  exact amp_ite _ (amp_refl i t) (amp_ite _
    (amp_ite _ (u _) (amp_sub_C0036A80 _ (u _)))
    (amp_ite _ (u _) (amp_sub_C0036A80 _ (u _))))

theorem ProcessPhase_pitch_amp (s : State) (vi : Int) :
    AmpSame vi s (ProcessPhase_pitch s)
    ∧ ((ProcessPhase_pitch s).voice_data vi).field_38 = (s.voice_data vi).field_38 := by
  unfold ProcessPhase_pitch
  refine amp_forRange _ 0 s.maximum_polyphony vi s ?_
  intro i t
  exact amp_ite _ (amp_sub_C0034890 _ _ (amp_refl i t)) (amp_refl i t)

/-- A step of the phase scheduler that is `sub_C0037140` followed by a loop `f` that keeps
the amplitudes: an active voice of the pool whose multiplier is 0 has the composite
amplitude 0 behind it. -/
theorem phase_keep (f : State → State) (vi : Int) (x : State)
    (hvi : 0 ≤ vi ∧ vi < x.maximum_polyphony)
    (hf : ∀ y, AmpSame vi y (f y) ∧ ((f y).voice_data vi).field_38 = (y.voice_data vi).field_38) :
    AmpSame vi x (f (sub_C0037140 x))
    ∧ ((x.voice_data vi).note_number ≠ 255 → (x.voice_data vi).field_64 = 0 →
        ((f (sub_C0037140 x)).voice_data vi).field_38 = 0) := by
  obtain ⟨a1, a2⟩ := sub_C0037140_zero x vi hvi
  obtain ⟨b1, b2⟩ := hf (sub_C0037140 x)
  exact ⟨same_trans a1 b1, fun ha hz => by rw [b2]; exact a2 ha hz⟩

/-- One step of the phase scheduler on an active voice `vi` of the pool whose channel has the
volume 0 or the expression 0: the channel blocks, the channel layer and the smoothed
amplitude `field_2C` of the voice are kept; when the multiplier `field_64` is 0 already, or
when the step is the one of phase 4, the multiplier and the composite amplitude `field_38`
are 0 behind the step. -/
theorem ProcessPhase_muted (s : State) (vi : Int)
    (hvi : 0 ≤ vi ∧ vi < s.maximum_polyphony)
    (hact : (s.voice_data vi).note_number ≠ 255) (hm : MutedChannel s vi) :
    (ProcessPhase s).channel_data = s.channel_data
    ∧ (ProcessPhase s).maximum_polyphony = s.maximum_polyphony
    ∧ ((ProcessPhase s).voice_data vi).channel_num_2 = (s.voice_data vi).channel_num_2
    ∧ ((ProcessPhase s).voice_data vi).field_2C = (s.voice_data vi).field_2C
    ∧ ((s.voice_data vi).field_64 = 0 ∨ s.processing_phase % 8 = 4 →
        ((ProcessPhase s).voice_data vi).field_64 = 0
        ∧ ((ProcessPhase s).voice_data vi).field_38 = 0) := by
  unfold ProcessPhase
  lift_lets
  intro phase s1
  have hp : phase = s.processing_phase % 8 := rfl
  have hvi1 : 0 ≤ vi ∧ vi < s1.maximum_polyphony := hvi
  have hact1 : (s1.voice_data vi).note_number ≠ 255 := hact
  have hm1 : MutedChannel s1 vi := hm
  -- the steps other than phase 4
  have keep : ∀ f : State → State,
      (∀ y, AmpSame vi y (f y)
        ∧ ((f y).voice_data vi).field_38 = (y.voice_data vi).field_38) →
      phase ≠ 4 →
      (f (sub_C0037140 s1)).channel_data = s.channel_data
      ∧ (f (sub_C0037140 s1)).maximum_polyphony = s.maximum_polyphony
      ∧ ((f (sub_C0037140 s1)).voice_data vi).channel_num_2 = (s.voice_data vi).channel_num_2
      ∧ ((f (sub_C0037140 s1)).voice_data vi).field_2C = (s.voice_data vi).field_2C
      ∧ ((s.voice_data vi).field_64 = 0 ∨ s.processing_phase % 8 = 4 →
          ((f (sub_C0037140 s1)).voice_data vi).field_64 = 0
          ∧ ((f (sub_C0037140 s1)).voice_data vi).field_38 = 0) := by
    intro f hf h4
    obtain ⟨⟨c1, c2, c3, c4, c5⟩, z⟩ := phase_keep f vi s1 hvi1 hf
    refine ⟨c1, c2, c3, c5, fun h => ?_⟩
    rcases h with h | h
    · exact ⟨c4.trans h, z hact1 h⟩
    · exact absurd (hp.trans h) h4
  have keep0 := keep (fun y => y) (fun y => ⟨⟨rfl, rfl, rfl, rfl, rfl⟩, rfl⟩)
  split_ifs with c0 c1 c2 c3 c4 c5 c6 c7
  · refine keep (fun y => forRange 0 s1.maximum_polyphony _ y) (fun y => ?_) (by omega)
    refine amp_forRange _ 0 s1.maximum_polyphony vi y (fun i t => ?_)
    exact amp_ite _ (amp_updVoice _ _ (amp_refl i t) (fun _ => ⟨rfl, rfl, rfl, rfl⟩))
      (amp_refl i t)
  · exact keep sub_C0036FE0 (fun y => sub_C0036FE0_amp y vi) (by omega)
  · exact keep0 (by omega)
  · exact keep ProcessPhase_pitch (fun y => ProcessPhase_pitch_amp y vi) (by omega)
  · -- phase 4: the multipliers are rebuilt, then the envelope step
    have L := amp_forRange_mute
      (fun index t => if (t.voice_data index).note_number ≠ 255 then sub_C0036C20 t index else t)
      0 s1.maximum_polyphony vi s1 hvi1.1 hvi1.2 (fun i t => by
        beta_reduce
        by_cases hn : (t.voice_data i).note_number ≠ 255
        · rw [if_pos hn]
          obtain ⟨m1, m2, _, m4⟩ := sub_C0036C20_mute t i
          exact ⟨m1, m2, fun _ hh => m4 hh⟩
        · rw [if_neg hn]
          exact ⟨fun _ _ => rfl, ⟨rfl, rfl, rfl, rfl, rfl⟩, fun h => absurd h hn⟩)
    obtain ⟨⟨l1, l2, l3, l4, l5⟩, lz⟩ := L
    have z64 := lz hact1 hm1
    generalize forRange 0 s1.maximum_polyphony
      (fun index t => if (t.voice_data index).note_number ≠ 255 then sub_C0036C20 t index else t)
      s1 = x at l1 l2 l3 l4 l5 z64 ⊢
    obtain ⟨⟨a1, a2, a3, a4, a5⟩, az⟩ := sub_C0037140_zero x vi (by rw [l2]; exact hvi1)
    refine ⟨a1.trans l1, a2.trans l2, a3.trans l3, a5.trans l4, fun _ => ?_⟩
    exact ⟨a4.trans z64, az (by rw [l5]; exact hact1) z64⟩
  · exact keep sub_C0036FE0 (fun y => sub_C0036FE0_amp y vi) (by omega)
  · exact keep0 (by omega)
  · exact keep ProcessPhase_pitch (fun y => ProcessPhase_pitch_amp y vi) (by omega)
  · exfalso
    omega

/-- The two ways of the pass of `GenerateOutputData` for the voice `vi`: the voice ends and
the sums stay, or a sample `y` of the wavetable is weighted with the new smoothed amplitude
`(15 * field_2C + field_38) >> 4`, shifted and added to the sums. -/
theorem GenerateOutputData_voice_cases (vi : Int) (a : State × Int × Int) :
    GenerateOutputData_voice vi a
        = (a.1.updVoice vi (fun w => { w with note_number := 255, field_28 := 0 }), a.2.1, a.2.2)
    ∨ ∃ (s1 : State) (y : Int), AmpKept vi a.1 s1
        ∧ GenerateOutputData_voice vi a
          = (s1.updVoice vi (fun w => { w with
                field_2C := i32 (15 * (s1.voice_data vi).field_2C + (s1.voice_data vi).field_38) / 16,
                field_00 := u32 (w.field_00 + w.field_24) }),
              i32 (a.2.1 + sar32 (i32 (y * (i32 (15 * (s1.voice_data vi).field_2C
                + (s1.voice_data vi).field_38) / 16)) / 4096) (s1.voice_data vi).field_30),
              i32 (a.2.2 + sar32 (i32 (y * (i32 (15 * (s1.voice_data vi).field_2C
                + (s1.voice_data vi).field_38) / 16)) / 4096) (s1.voice_data vi).field_34)) := by
  unfold GenerateOutputData_voice
  lift_lets
  intro s v p s1 w value2 y0 y1 value6 value7
  by_cases c : v.field_00 / 1024 ≥ v.field_04 ∧ v.field_04 = v.field_08
  · rw [if_pos c]
    exact Or.inl rfl
  · rw [if_neg c]
    have k : AmpKept vi s s1 := by
      show AmpKept vi s (if v.field_00 / 1024 ≥ v.field_04 then _ else _)
      exact amp_ite _ (amp_reload _ (amp_refl vi s)) (amp_window _ _ _ _ (amp_refl vi s))
    exact Or.inr ⟨s1, y1, k, rfl⟩

/-- The pass of `GenerateOutputData` for a voice whose composite amplitude `field_38` is 0:
the channel blocks, the channel layer and the multiplier are kept, `field_38` stays 0, and
either the voice ends, with its smoothed amplitude `field_2C` and the sums as they are, or
`field_2C` becomes `(15 * field_2C) >> 4`; in that case a voice with `field_2C = 0` adds 0 to
both sums. -/
theorem GenerateOutputData_voice_level (vi : Int) (a : State × Int × Int)
    (h38 : (a.1.voice_data vi).field_38 = 0) :
    (GenerateOutputData_voice vi a).1.channel_data = a.1.channel_data
    ∧ ((GenerateOutputData_voice vi a).1.voice_data vi).channel_num_2
        = (a.1.voice_data vi).channel_num_2
    ∧ ((GenerateOutputData_voice vi a).1.voice_data vi).field_64 = (a.1.voice_data vi).field_64
    ∧ ((GenerateOutputData_voice vi a).1.voice_data vi).field_38 = 0
    ∧ ((((GenerateOutputData_voice vi a).1.voice_data vi).note_number = 255
          ∧ ((GenerateOutputData_voice vi a).1.voice_data vi).field_2C
              = (a.1.voice_data vi).field_2C
          ∧ (GenerateOutputData_voice vi a).2 = a.2)
        ∨ (((GenerateOutputData_voice vi a).1.voice_data vi).field_2C
              = i32 (15 * (a.1.voice_data vi).field_2C) / 16
          ∧ ((a.1.voice_data vi).field_2C = 0 →
              (GenerateOutputData_voice vi a).2 = (i32 (a.2.1 + 0), i32 (a.2.2 + 0))))) := by
  rcases GenerateOutputData_voice_cases vi a with e | ⟨s1, y, k, e⟩
  · rw [e]
    refine ⟨rfl, ?_, ?_, ?_, Or.inl ⟨?_, ?_, rfl⟩⟩
    · dsimp only
      rw [updVoice_same]
    · dsimp only
      rw [updVoice_same]
    · dsimp only
      rw [updVoice_same]; exact h38
    · dsimp only
      rw [updVoice_same]
    · dsimp only
      rw [updVoice_same]
  · rw [e]
    have w38 : (s1.voice_data vi).field_38 = 0 := k.f38.trans h38
    rw [w38, add_zero, k.f2C]
    refine ⟨k.channels, ?_, ?_, ?_, Or.inr ⟨?_, fun z => ?_⟩⟩
    · dsimp only
      rw [updVoice_same]; exact k.chan
    · dsimp only
      rw [updVoice_same]; exact k.f64
    · dsimp only
      rw [updVoice_same]; exact w38
    · dsimp only
      rw [updVoice_same]
    · rw [z]
      have e0 : i32 (15 * 0) / 16 = 0 := by decide
      rw [e0, mul_zero]
      have e1 : i32 0 / 4096 = 0 := by decide
      rw [e1]
      unfold sar32
      rw [Int.zero_ediv, Int.zero_ediv]


theorem muted_of_same {vi : Int} {s t : State} (h1 : t.channel_data = s.channel_data)
    (h2 : (t.voice_data vi).channel_num_2 = (s.voice_data vi).channel_num_2)
    (hm : MutedChannel s vi) : MutedChannel t vi := by
  unfold MutedChannel at hm ⊢
  rw [h1, h2]
  exact hm

/-- Claim C25, amended: let `vi` be an active voice of the pool whose channel has the volume 0
or the expression 0. (1) `sub_C0036C20`, which is run for the voice at its start and in
phase 4 of the phase scheduler, stores the amplitude multiplier `field_64 = 0`. (2) A step
of the phase scheduler leaves the channel muted and keeps the smoothed amplitude `field_2C`
of the voice; when the multiplier is 0 already, or when the step is the one of phase 4, the
multiplier and the composite amplitude `field_38` are 0 behind the step. (3) When `field_38`
is 0, the pass of `GenerateOutputData` for the voice leaves the channel muted, keeps the
multiplier and `field_38 = 0`, and the smoothed amplitude stays or becomes
`(15 * field_2C) >> 4`; and when `field_2C` is 0 as well, the two sums `left` and `right` of
the sample are returned as they are and `field_2C` stays 0: the voice adds 0 to both. -/
theorem C25_muted_voice (s : State) (vi left right : Int)
    (hvi : 0 ≤ vi ∧ vi < s.maximum_polyphony)
    (hact : (s.voice_data vi).note_number ≠ 255)
    (hm : MutedChannel s vi)
    (hl : -2147483648 ≤ left ∧ left < 2147483648)
    (hr : -2147483648 ≤ right ∧ right < 2147483648) :
    ((sub_C0036C20 s vi).voice_data vi).field_64 = 0
    ∧ (MutedChannel (ProcessPhase s) vi
      ∧ ((ProcessPhase s).voice_data vi).field_2C = (s.voice_data vi).field_2C
      ∧ ((s.voice_data vi).field_64 = 0 ∨ s.processing_phase % 8 = 4 →
          ((ProcessPhase s).voice_data vi).field_64 = 0
          ∧ ((ProcessPhase s).voice_data vi).field_38 = 0))
    ∧ ((s.voice_data vi).field_38 = 0 →
        MutedChannel (GenerateOutputData_voice vi (s, left, right)).1 vi
        ∧ ((GenerateOutputData_voice vi (s, left, right)).1.voice_data vi).field_64
            = (s.voice_data vi).field_64
        ∧ ((GenerateOutputData_voice vi (s, left, right)).1.voice_data vi).field_38 = 0
        ∧ (((GenerateOutputData_voice vi (s, left, right)).1.voice_data vi).field_2C
              = (s.voice_data vi).field_2C
          ∨ ((GenerateOutputData_voice vi (s, left, right)).1.voice_data vi).field_2C
              = i32 (15 * (s.voice_data vi).field_2C) / 16)
        ∧ ((s.voice_data vi).field_2C = 0 →
            (GenerateOutputData_voice vi (s, left, right)).2 = (left, right)
            ∧ ((GenerateOutputData_voice vi (s, left, right)).1.voice_data vi).field_2C = 0)) := by
  refine ⟨(sub_C0036C20_mute s vi).2.2.2 hm, ?_, fun h38 => ?_⟩
  · obtain ⟨p1, _, p3, p4, p5⟩ := ProcessPhase_muted s vi hvi hact hm
    exact ⟨muted_of_same p1 p3 hm, p4, p5⟩
  · obtain ⟨g1, g2, g3, g4, g5⟩ := GenerateOutputData_voice_level vi (s, left, right) h38
    have el : i32 (left + 0) = left := by unfold i32; omega
    have er : i32 (right + 0) = right := by unfold i32; omega
    refine ⟨muted_of_same g1 g2 hm, g3, g4, ?_, fun z => ?_⟩
    · rcases g5 with g5 | g5
      · exact Or.inl g5.2.1
      · exact Or.inr g5.1
    · rcases g5 with g5 | g5
      · exact ⟨g5.2.2, g5.2.1.trans z⟩
      · refine ⟨?_, ?_⟩
        · rw [g5.2 z]
          show (i32 (left + 0), i32 (right + 0)) = (left, right)
          rw [el, er]
        · rw [g5.1]
          show i32 (15 * (s.voice_data vi).field_2C) / 16 = 0
          rw [z]
          decide

set_option maxRecDepth 100000 in
/-- Witness of the amended C25: the module in play after the Note On `90 3C 64` and the
controller message `B0 07 00`, at phase 4 of the phase scheduler: the voice 0 is active on
channel 0, whose volume is 0; the step of the scheduler leaves the multiplier and the
composite amplitude of the voice at 0. -/
theorem C25_muted_voice_witness :
    (C25_muted.voice_data 0).note_number = 60
    ∧ (C25_muted.channel_data ((C25_muted.voice_data 0).channel_num_2 / 2)).volume = 0
    ∧ ((sub_C0036C20 { C25_muted with processing_phase := 4 } 0).voice_data 0).field_64 = 0
    ∧ ((ProcessPhase { C25_muted with processing_phase := 4 }).voice_data 0).field_64 = 0
    ∧ ((ProcessPhase { C25_muted with processing_phase := 4 }).voice_data 0).field_38 = 0 := by
  have h := C25_muted_voice { C25_muted with processing_phase := 4 } 0 0 0
    (by decide) (by decide) (Or.inl (by decide)) (by decide) (by decide)
  exact ⟨by decide, by decide, h.1, h.2.1.2.2 (Or.inr (by decide))⟩

set_option maxRecDepth 100000 in
/-- Counterexample to C25 as stated: the module `C25_module` takes the Note On `90 3C 64` and
the controller message `B0 07 00` in its first callback, before any sample is computed. The
note starts the voices 0 and 1, both on channel 0, whose volume is 0 from then on. The
multiplier `field_64` of voice 1 was computed at its start, with the volume 100, and is
3230; its composite amplitude is 1241. In the first sample the voice 1 adds 330752 to the
left sum and 10336 to the right sum, and the first frame of the output buffer is
(32767, 10336). -/
theorem C25_counterexample :
    C25_tick.map (fun s =>
      ((s.voice_data 1).note_number,
        (s.channel_data ((s.voice_data 1).channel_num_2 / 2)).volume,
        (s.voice_data 1).field_64, (s.voice_data 1).field_38))
      = some (60, 0, 3230, 1241)
    ∧ C25_tick.map (fun s =>
      ((GenerateOutputData_voice 0 (DefragmentVoices s, 0, 0)).2,
        (GenerateOutputData_voice 1
          (GenerateOutputData_voice 0 (DefragmentVoices s, 0, 0))).2))
      = some ((0, 0), (330752, 10336))
    ∧ (VLSG_FillOutputBuffer C25_state (fun _ => 0) 0 1000 1001).map (fun r =>
        ((r.1.channel_data 0).volume, r.1.is_reverb_enabled,
          loadI16 r.2.1 0, loadI16 r.2.1 2))
      = some (0, 0, 32767, 10336) := by
  refine ⟨?_, ?_, ?_⟩
  · decide!
  · decide!
  · decide!
/-! ## The amplitude multiplier of a voice -/

theorem multiplier_range (expr vol scale : Int) (he : 0 ≤ expr ∧ expr ≤ 127)
    (hv : 0 ≤ vol ∧ vol ≤ 127) (hs : 0 ≤ scale ∧ scale ≤ 255) :
    0 ≤ expr * vol ∧ expr * vol ≤ 16129
    ∧ 0 ≤ (expr * vol) * (expr * vol) ∧ (expr * vol) * (expr * vol) ≤ 260144641
    ∧ 0 ≤ (expr * vol) * (expr * vol) / 8192 * scale
    ∧ (expr * vol) * (expr * vol) / 8192 * scale ≤ 8097525
    ∧ (scale ≤ 132 → (expr * vol) * (expr * vol) / 8192 * scale ≤ 4191660) := by
  have p0 : 0 ≤ expr * vol := Int.mul_nonneg he.1 hv.1
  have p1 : expr * vol ≤ 127 * 127 := Int.mul_le_mul he.2 hv.2 hv.1 (by decide)
  have q0 : 0 ≤ (expr * vol) * (expr * vol) := Int.mul_nonneg p0 p0
  have q1 : (expr * vol) * (expr * vol) ≤ 16129 * 16129 :=
    Int.mul_le_mul p1 p1 p0 (by decide)
  have r0 : 0 ≤ (expr * vol) * (expr * vol) / 8192 := by omega
  have r1 : (expr * vol) * (expr * vol) / 8192 ≤ 31755 := by omega
  have t0 : 0 ≤ (expr * vol) * (expr * vol) / 8192 * scale := Int.mul_nonneg r0 hs.1
  have t1 : (expr * vol) * (expr * vol) / 8192 * scale ≤ 31755 * 255 :=
    Int.mul_le_mul r1 hs.2 hs.1 (by decide)
  refine ⟨p0, by omega, q0, by omega, t0, by omega, fun h => ?_⟩
  have t2 : (expr * vol) * (expr * vol) / 8192 * scale ≤ 31755 * 132 :=
    Int.mul_le_mul r1 h hs.1 (by decide)
  omega

/-- The value that `sub_C0036C20` stores in `field_64`. -/
theorem sub_C0036C20_field_64 (s : State) (vi : Int) :
    ((sub_C0036C20 s vi).voice_data vi).field_64
      = i16 (i32 (i32 (i32 ((s.channel_data ((s.voice_data vi).channel_num_2 / 2)).expression
          * (s.channel_data ((s.voice_data vi).channel_num_2 / 2)).volume)
        * i32 ((s.channel_data ((s.voice_data vi).channel_num_2 / 2)).expression
          * (s.channel_data ((s.voice_data vi).channel_num_2 / 2)).volume)) / 8192
        * (s.voice_data vi).field_60) / 128) := by
  unfold sub_C0036C20
  lift_lets
  intro v channel value0 value1
  have k := amp_sub_C0036A20 vi (amp_refl vi
    (s.updVoice vi (fun w => { w with field_64 := i16 (i32 (value1 * w.field_60) / 128) })))
  rw [k.f64, updVoice_same]

/-- Claim C34, amended: for every expression and volume in `[0, 127]` and every scale
`field_60` in `[0, 255]` of the voice, `sub_C0036C20` stores in `field_64` the value
`((((expr * vol)^2) >> 13) * scale) >> 7` converted to 16 bits; the value lies in
`[0, 63261]`, and it is stored without truncation or change of sign when it is 32767 at most,
which is so whenever the scale is 132 at most. -/
theorem C34_amplitude_multiplier (s : State) (vi : Int)
    (he : 0 ≤ (s.channel_data ((s.voice_data vi).channel_num_2 / 2)).expression
      ∧ (s.channel_data ((s.voice_data vi).channel_num_2 / 2)).expression ≤ 127)
    (hv : 0 ≤ (s.channel_data ((s.voice_data vi).channel_num_2 / 2)).volume
      ∧ (s.channel_data ((s.voice_data vi).channel_num_2 / 2)).volume ≤ 127)
    (hs : 0 ≤ (s.voice_data vi).field_60 ∧ (s.voice_data vi).field_60 ≤ 255) :
    ((sub_C0036C20 s vi).voice_data vi).field_64
      = i16 (multiplier (s.channel_data ((s.voice_data vi).channel_num_2 / 2)).expression
          (s.channel_data ((s.voice_data vi).channel_num_2 / 2)).volume
          (s.voice_data vi).field_60)
    ∧ 0 ≤ multiplier (s.channel_data ((s.voice_data vi).channel_num_2 / 2)).expression
          (s.channel_data ((s.voice_data vi).channel_num_2 / 2)).volume
          (s.voice_data vi).field_60
    ∧ multiplier (s.channel_data ((s.voice_data vi).channel_num_2 / 2)).expression
          (s.channel_data ((s.voice_data vi).channel_num_2 / 2)).volume
          (s.voice_data vi).field_60 ≤ 63261
    ∧ (multiplier (s.channel_data ((s.voice_data vi).channel_num_2 / 2)).expression
          (s.channel_data ((s.voice_data vi).channel_num_2 / 2)).volume
          (s.voice_data vi).field_60 ≤ 32767 →
        ((sub_C0036C20 s vi).voice_data vi).field_64
          = multiplier (s.channel_data ((s.voice_data vi).channel_num_2 / 2)).expression
              (s.channel_data ((s.voice_data vi).channel_num_2 / 2)).volume
              (s.voice_data vi).field_60)
    ∧ ((s.voice_data vi).field_60 ≤ 132 →
        multiplier (s.channel_data ((s.voice_data vi).channel_num_2 / 2)).expression
          (s.channel_data ((s.voice_data vi).channel_num_2 / 2)).volume
          (s.voice_data vi).field_60 ≤ 32767) := by
  obtain ⟨p0, p1, q0, q1, t0, t1, t2⟩ := multiplier_range _ _ _ he hv hs
  have e := sub_C0036C20_field_64 s vi
  generalize (s.channel_data ((s.voice_data vi).channel_num_2 / 2)).expression = x
    at he p0 p1 q0 q1 t0 t1 t2 e ⊢
  generalize (s.channel_data ((s.voice_data vi).channel_num_2 / 2)).volume = y
    at hv p0 p1 q0 q1 t0 t1 t2 e ⊢
  generalize (s.voice_data vi).field_60 = z at hs t0 t1 t2 e ⊢
  have e1 : i32 (x * y) = x * y := by unfold i32; omega
  have e2 : i32 (x * y * (x * y)) = x * y * (x * y) := by unfold i32; omega
  have e3 : i32 (x * y * (x * y) / 8192 * z) = x * y * (x * y) / 8192 * z := by
    unfold i32; omega
  rw [e1, e2, e3] at e
  unfold multiplier
  refine ⟨e, by omega, by omega, fun h => ?_, fun h => ?_⟩
  · rw [e]; unfold i16; omega
  · have := t2 h; omega

set_option maxRecDepth 100000 in
/-- Witness of the amended C34: the voice 0 of the module in play after the Note On
`90 3C 64`, with the scale 100: expression 127 and volume 100 give the multiplier 15381. -/
theorem C34_amplitude_multiplier_witness :
    multiplier 127 100 100 = 15381
    ∧ ((sub_C0036C20 (C19_state.updVoice 0 (fun w => { w with field_60 := 100 })) 0).voice_data
        0).field_64 = i16 (multiplier 127 100 100) := by
  have h := C34_amplitude_multiplier (C19_state.updVoice 0 (fun w => { w with field_60 := 100 }))
    0 (by decide) (by decide) (by decide)
  exact ⟨by decide, h.1⟩

set_option maxRecDepth 100000 in
/-- Counterexample to C34 as stated: expression 127, volume 127 and scale 255 give
`((((127 * 127)^2) >> 13) * 255) >> 7 = 63261`, which does not fit the `int16_t` field:
`sub_C0036C20` stores `-2275`. -/
theorem C34_counterexample :
    (C34_state.channel_data ((C34_state.voice_data 0).channel_num_2 / 2)).expression = 127
    ∧ (C34_state.channel_data ((C34_state.voice_data 0).channel_num_2 / 2)).volume = 127
    ∧ (C34_state.voice_data 0).field_60 = 255
    ∧ multiplier 127 127 255 = 63261
    ∧ ((sub_C0036C20 C34_state 0).voice_data 0).field_64 = -2275 := by
  decide
/-! ## The phase counter, the clock and the drum program under the handlers -/

theorem steady_refl (s : State) : Steady s s :=
  ⟨rfl, rfl, rfl, rfl, rfl, ⟨rfl, rfl, rfl, rfl⟩, fun h => h.1⟩

/-- The properties that `Steady` keeps. -/
theorem steady_ok {s t : State} (h : Steady s t) (hs : DrumOk s) : DrumOk t :=
  ⟨h.drum hs, fun e => by rw [h.ev.2.2.1, h.ev.2.1]; exact hs.2 (h.ev.1 ▸ e)⟩

theorem steady_trans {s t u : State} (h1 : Steady s t) (h2 : Steady t u) : Steady s u :=
  ⟨h2.phase.trans h1.phase, h2.ticks.trans h1.ticks, h2.rate.trans h1.rate,
    h2.base.trans h1.base, h2.time2.trans h1.time2,
    ⟨h2.ev.1.trans h1.ev.1, h2.ev.2.1.trans h1.ev.2.1, h2.ev.2.2.1.trans h1.ev.2.2.1,
      h2.ev.2.2.2.trans h1.ev.2.2.2⟩,
    fun h => h2.drum (steady_ok h1 h)⟩

theorem steady_ite {s a b : State} (c : Prop) [Decidable c] (ha : Steady s a)
    (hb : Steady s b) : Steady s (if c then a else b) := by
  split
  · exact ha
  · exact hb

theorem steady_updVoice {s t : State} (vi : Int) (g : Voice_Data → Voice_Data)
    (h : Steady s t) : Steady s (t.updVoice vi g) :=
  ⟨h.phase, h.ticks, h.rate, h.base, h.time2, h.ev, h.drum⟩

theorem steady_setVoices {s t : State} (v : Int → Voice_Data) (h : Steady s t) :
    Steady s { t with voice_data := v } :=
  ⟨h.phase, h.ticks, h.rate, h.base, h.time2, h.ev, h.drum⟩

/-- A change of a channel block that leaves a drum kit number a drum kit number. -/
theorem steady_updChannel {s t : State} (ci : Int) (g : Channel_Data → Channel_Data)
    (h : Steady s t)
    (hg : ∀ c : Channel_Data, 0 ≤ c.program_change ∧ c.program_change ≤ 7 →
      0 ≤ (g c).program_change ∧ (g c).program_change ≤ 7) :
    Steady s (t.updChannel ci g) := by
  refine ⟨h.phase, h.ticks, h.rate, h.base, h.time2, h.ev, fun hs => ?_⟩
  have a := h.drum hs
  unfold DrumRange at a ⊢
  by_cases e : DRUM_CHANNEL = ci
  · subst e
    simp only [State.updChannel, Function.update_same]
    exact hg _ a
  · simp only [State.updChannel, Function.update_noteq e]
    exact a

/-- A change of a channel block other than the one of the drum channel. -/
theorem steady_updChannel_other {s t : State} (ci : Int) (g : Channel_Data → Channel_Data)
    (h : Steady s t) (hci : ci ≠ DRUM_CHANNEL) : Steady s (t.updChannel ci g) := by
  refine ⟨h.phase, h.ticks, h.rate, h.base, h.time2, h.ev, fun hs => ?_⟩
  have a := h.drum hs
  unfold DrumRange at a ⊢
  simp only [State.updChannel, Function.update_noteq (fun e => hci e.symm)]
  exact a

theorem steady_setStru6 {s t : State} (i k v : Int) (h : Steady s t) :
    Steady s (t.setStru6 i k v) :=
  ⟨h.phase, h.ticks, h.rate, h.base, h.time2, h.ev, h.drum⟩

theorem steady_forRange {s : State} (lo hi : Int) (f : Int → State → State) (t : State)
    (hf : ∀ i u, Steady s u → Steady s (f i u)) (h : Steady s t) :
    Steady s (forRange lo hi f t) :=
  forRange_keeps f (fun u => Steady s u) lo hi (fun i u _ _ hu => hf i u hu) t h

theorem steady_A0 {s t : State} (a b : Int) (h : Steady s t) :
    Steady s (sub_C00373A0 t a b).1 :=
  ⟨h.phase, h.ticks, h.rate, h.base, h.time2, h.ev, h.drum⟩

theorem steady_400 {s t : State} (h : Steady s t) : Steady s (sub_C0037400 t).1 :=
  ⟨h.phase, h.ticks, h.rate, h.base, h.time2, h.ev, h.drum⟩

theorem steady_420 {s t : State} (a : Int) (h : Steady s t) :
    Steady s (sub_C0037420 t a).1 :=
  ⟨h.phase, h.ticks, h.rate, h.base, h.time2, h.ev, h.drum⟩

theorem steady_sub_C0034890 {s t : State} (vi a : Int) (h : Steady s t) :
    Steady s (sub_C0034890 t vi a) := by
  unfold sub_C0034890
  exact steady_updVoice _ _ h

theorem steady_sub_C0034970 {s t : State} (vi a : Int) (h : Steady s t) :
    Steady s (sub_C0034970 t vi a).1 := by
  unfold sub_C0034970
  exact steady_420 _ (steady_A0 _ _ h)

theorem steady_sub_C0036A20 {s t : State} (vi : Int) (h : Steady s t) :
    Steady s (sub_C0036A20 t vi) := by
  unfold sub_C0036A20
  exact steady_updVoice _ _ h

theorem steady_sub_C0036A80 {s t : State} (vi : Int) (h : Steady s t) :
    Steady s (sub_C0036A80 t vi) := by
  unfold sub_C0036A80
  lift_lets
  intro v r1 r2 w offset1 offset2 r3 r4
  exact steady_updVoice _ _ (steady_400 (steady_updVoice _ _
    (steady_420 _ (steady_A0 _ _ (steady_sub_C0034970 _ _ h)))))

theorem steady_sub_C0036B00 {s t : State} (vi : Int) (h : Steady s t) :
    Steady s (sub_C0036B00 t vi) := by
  unfold sub_C0036B00
  lift_lets
  intro v r1 r2 w offset1 offset2 r3 value1 value2 s4
  have h4 : Steady s s4 := steady_updVoice _ _
    (steady_420 _ (steady_A0 _ _ (steady_sub_C0034970 _ _ h)))
  split
  · exact steady_updVoice _ _ h4
  · exact steady_updVoice _ _ (steady_400 h4)

theorem steady_sub_C0036C20 {s t : State} (vi : Int) (h : Steady s t) :
    Steady s (sub_C0036C20 t vi) := by
  unfold sub_C0036C20
  lift_lets
  intros
  exact steady_sub_C0036A20 _ (steady_updVoice _ _ h)

theorem steady_VoiceSoundOff {s t : State} (vi : Int) (h : Steady s t) :
    Steady s (VoiceSoundOff t vi) := by
  unfold VoiceSoundOff
  exact steady_sub_C0036A80 _ (steady_sub_C0036B00 _ (steady_updVoice _ _ h))

theorem steady_VoiceNoteOff {s t : State} (vi : Int) (h : Steady s t) :
    Steady s (VoiceNoteOff t vi) := by
  unfold VoiceNoteOff
  have h1 : Steady s (t.updVoice vi (fun w =>
      { w with vflags := w.vflags + (1 - w.vflags / 128 % 2) * 128 })) :=
    steady_updVoice _ _ h
  lift_lets
  intro s1
  split
  · exact steady_sub_C0036A80 _ (steady_sub_C0036B00 _ (steady_updVoice _ _ h1))
  · exact h1

theorem steady_AllChannelNotesOff {s t : State} (c : Int) (h : Steady s t) :
    Steady s (AllChannelNotesOff t c) := by
  unfold AllChannelNotesOff
  exact steady_forRange _ _ _ _ (fun i u hu => steady_ite _ (steady_VoiceNoteOff _ hu) hu) h

theorem steady_AllChannelSoundsOff {s t : State} (c : Int) (h : Steady s t) :
    Steady s (AllChannelSoundsOff t c) := by
  unfold AllChannelSoundsOff
  exact steady_forRange _ _ _ _ (fun i u hu => steady_ite _ (steady_VoiceSoundOff _ hu) hu) h

theorem steady_AllVoicesSoundsOff {s t : State} (h : Steady s t) :
    Steady s (AllVoicesSoundsOff t) := by
  unfold AllVoicesSoundsOff
  exact steady_forRange _ _ _ _ (fun i u hu => steady_ite _ (steady_VoiceSoundOff _ hu) hu) h

theorem steady_ControllerSettingsOn {s t : State} (c : Int) (h : Steady s t) :
    Steady s (ControllerSettingsOn t c) := by
  unfold ControllerSettingsOn
  refine steady_forRange _ _ _ _ (fun i u hu => ?_) h
  exact steady_ite _ (steady_updVoice _ _ hu) hu

theorem steady_ControllerSettingsOff {s t : State} (c : Int) (h : Steady s t) :
    Steady s (ControllerSettingsOff t c) := by
  unfold ControllerSettingsOff
  refine steady_forRange _ _ _ _ (fun i u hu => ?_) h
  have h1 : Steady s (u.updVoice i (fun w =>
      { w with vflags := w.vflags - w.vflags / 64 % 2 * 64 })) :=
    steady_updVoice _ _ hu
  refine steady_ite _ ?_ hu
  refine steady_ite _ ?_ h1
  exact steady_sub_C0036A80 _ (steady_sub_C0036B00 _ (steady_updVoice _ _ h1))

theorem steady_ProgramChange_layer {s t : State} (ci base : Int) (h : Steady s t) :
    Steady s (ProgramChange_layer t ci base) := by
  unfold ProgramChange_layer
  have h1 : Steady s (forRange 0 14 (fun index u =>
      (sub_C0037400 u).1.setStru6 ci (base + index) (i16 (sub_C0037400 u).2)) t) :=
    steady_forRange _ _ _ _ (fun i u hu => steady_setStru6 _ _ _ (steady_400 hu)) h
  lift_lets
  intro s1 sh
  have k : ∀ (j : Int) (u : State), Steady s u → Steady s (sh j u) :=
    fun j u hu => steady_setStru6 _ _ _ hu
  exact k _ _ (k _ _ (k _ _ (k _ _ (k _ _ (k _ _ (k _ _ (k _ _ (k _ _ h1))))))))

theorem steady_ProgramChange {s t : State} (ci p : Int) (h : Steady s t) :
    Steady s (ProgramChange t ci p) := by
  unfold ProgramChange
  lift_lets
  intros
  exact steady_ProgramChange_layer _ _ (steady_ProgramChange_layer _ _
    (steady_A0 _ _ (steady_420 _ (steady_A0 _ _ h))))

theorem steady_StartPlayingVoice_drums {s : State} (vi : Int) :
    ∀ (n : Nat) (p : Int) (t : State), Steady s t →
      Steady s (StartPlayingVoice_drums vi n p t) := by
  intro n
  induction n with
  | zero => intro p t h; exact h
  | succ n ih =>
    intro p t h
    unfold StartPlayingVoice_drums
    split
    · exact h
    · apply ih
      refine steady_ite _ h ?_
      refine steady_forRange _ _ _ _ (fun i u hu => ?_) h
      exact steady_ite _ (steady_updVoice _ _ hu) hu

theorem steady_StartPlayingVoice {s t : State} (vi ci si base : Int) (h : Steady s t) :
    Steady s (StartPlayingVoice t vi ci si base) := by
  unfold StartPlayingVoice
  lift_lets
  intro data s1 r1 r2 r3 r4 r5 r6 r7 r8 r9 r10 field_00 s2 v value3 channel_num_2 note value2a
    value2 s3 s4 value4 value5 value6a value6 s5 s6 s7 s8 v8 q1d q2d s9 start q1 value8a value8 q2
  have H1 : Steady s s1 := steady_updVoice _ _ h
  have H2 : Steady s s2 := steady_updVoice _ _ (steady_400 (steady_400 (steady_400 (steady_400
    (steady_400 (steady_400 (steady_400 (steady_420 _ (steady_A0 _ _
      (steady_sub_C0034970 _ _ H1))))))))))
  have H3 : Steady s s3 := steady_updVoice _ _ H2
  have H4 : Steady s s4 := steady_sub_C0036C20 _ (steady_sub_C0034890 _ _ H3)
  have H5 : Steady s s5 := steady_updVoice _ _ H4
  have H6 : Steady s s6 := steady_sub_C0036B00 _ (steady_sub_C0036A80 _ H5)
  have H7 : Steady s s7 := steady_ite _ (steady_updVoice _ _ H6) H6
  have H8 : Steady s s8 := steady_ite _ (steady_updVoice _ _ H7) H7
  have H9 : Steady s s9 := steady_sub_C0036A20 _ (steady_updVoice _ _
    (steady_420 _ (steady_A0 _ _ H8)))
  split
  · exact steady_StartPlayingVoice_drums vi 37 start s9 H9
  · exact steady_sub_C0036A20 _ (steady_updVoice _ _ (steady_420 _ (steady_A0 _ _ H8)))

theorem steady_FindAvailableVoice {s t : State} (h : Steady s t) :
    Steady s (FindAvailableVoice t).1 :=
  ⟨h.phase, h.ticks, h.rate, h.base, h.time2, h.ev, h.drum⟩

theorem steady_NoteOn {s t : State} (arg_0 : Int) (h : Steady s t) :
    Steady s (NoteOn t arg_0) := by
  unfold NoteOn
  lift_lets
  intro r vi s1 s2
  have H0 : Steady s r.1 := steady_FindAvailableVoice h
  have H1 : Steady s s1 := steady_ite _ (steady_VoiceSoundOff _ H0) H0
  have H2 : Steady s s2 := steady_updVoice _ _ H1
  exact steady_StartPlayingVoice _ _ _ _ H2

theorem steady_NoteOff {s t : State} (h : Steady s t) : Steady s (NoteOff t) := by
  unfold NoteOff
  split
  · exact h
  · lift_lets
    intro s1
    have H1 : Steady s s1 := by
      show Steady s (match FindVoice t (2 * (t.event_data 0 % 16)) (t.event_data 1) with
        | some vi => VoiceNoteOff t vi
        | none => t)
      split
      · exact steady_VoiceNoteOff _ h
      · exact h
    split
    · exact steady_VoiceNoteOff _ H1
    · exact H1

theorem steady_ResetAllControllers {s t : State} (ci : Int) (h : Steady s t) :
    Steady s (ResetAllControllers t ci) := by
  unfold ResetAllControllers
  exact steady_updChannel _ _ h (fun _ hc => hc)

theorem steady_ResetChannel {s t : State} (ci : Int) (h : Steady s t) :
    Steady s (ResetChannel t ci) := by
  unfold ResetChannel
  exact steady_updChannel _ _ h (fun _ _ => ⟨le_refl (0 : Int), by show (0 : Int) ≤ 7; decide⟩)

theorem dataEntry_program (c : Channel_Data) :
    (ControlChange_dataEntry c).program_change = c.program_change := by
  unfold ControlChange_dataEntry
  repeat' split
  all_goals rfl

theorem steady_ControlChange {s t : State} (h : Steady s t) : Steady s (ControlChange t) := by
  unfold ControlChange
  lift_lets
  intro ci ctl val ch
  have k : ∀ g : Channel_Data → Channel_Data,
      (∀ c, (g c).program_change = c.program_change) → Steady s (t.updChannel ci g) :=
    fun g hg => steady_updChannel _ _ h (fun c hc => by rw [hg c]; exact hc)
  have kOff : ∀ g : Channel_Data → Channel_Data,
      (∀ c, (g c).program_change = c.program_change) →
      Steady s (ControllerSettingsOff (t.updChannel ci g) ch) :=
    fun g hg => steady_ControllerSettingsOff _ (k g hg)
  have kOn : ∀ g : Channel_Data → Channel_Data,
      (∀ c, (g c).program_change = c.program_change) →
      Steady s (ControllerSettingsOn (t.updChannel ci g) ch) :=
    fun g hg => steady_ControllerSettingsOn _ (k g hg)
  refine steady_ite _ (k _ (fun _ => rfl)) (steady_ite _ (k _ (fun _ => dataEntry_program _))
    (steady_ite _ (k _ (fun _ => rfl)) (steady_ite _ (k _ (fun _ => rfl))
    (steady_ite _ (k _ (fun _ => rfl)) (steady_ite _ (k _ (fun _ => dataEntry_program _))
    (steady_ite _ (steady_ite _ (kOff _ (fun _ => rfl)) (kOn _ (fun _ => rfl)))
    (steady_ite _ (steady_ite _ (kOff _ (fun _ => rfl)) (kOn _ (fun _ => rfl)))
    (steady_ite _ (steady_ite _ (k _ (fun _ => rfl)) (k _ (fun _ => rfl)))
    (steady_ite _ (k _ (fun _ => rfl)) (steady_ite _ (k _ (fun _ => rfl))
    (steady_ite _ (k _ (fun _ => rfl)) (steady_ite _ (k _ (fun _ => rfl))
    (steady_ite _ (steady_AllChannelSoundsOff _ h)
    (steady_ite _ (steady_ControllerSettingsOff _ (steady_ResetAllControllers _ h))
    (steady_ite _ (steady_AllChannelNotesOff _ h) h)))))))))))))))

theorem steady_DisableReverb {s t : State} (h : Steady s t) : Steady s (DisableReverb t) :=
  ⟨h.phase, h.ticks, h.rate, h.base, h.time2, h.ev, h.drum⟩

theorem steady_EnableReverb {s t : State} (h : Steady s t) : Steady s (EnableReverb t) :=
  ⟨h.phase, h.ticks, h.rate, h.base, h.time2, h.ev, h.drum⟩

theorem steady_SetReverbShift {s t : State} (x : Int) (h : Steady s t) :
    Steady s (SetReverbShift t x) :=
  ⟨h.phase, h.ticks, h.rate, h.base, h.time2, h.ev, h.drum⟩

/-! ### The tick scheduler, the mixer, the pool and the dispatcher -/

theorem steady_sub_C0036FE0 {s t : State} (h : Steady s t) : Steady s (sub_C0036FE0 t) := by
  unfold sub_C0036FE0
  refine steady_forRange _ _ _ _ (fun i u hu => ?_) h
  have hk : ∀ x : Int, Steady s (u.updVoice i (fun w => { w with field_4C := x })) :=
    fun x => steady_updVoice _ _ hu
  exact steady_ite _ hu (steady_ite _
    (steady_ite _ (hk _) (steady_sub_C0036A80 _ (hk _)))
    (steady_ite _ (hk _) (steady_sub_C0036A80 _ (hk _))))

theorem steady_sub_C0037140 {s t : State} (h : Steady s t) : Steady s (sub_C0037140 t) := by
  unfold sub_C0037140
  refine steady_forRange _ _ _ _ (fun i u hu => ?_) h
  refine steady_ite _ hu ?_
  refine steady_updVoice _ _ (steady_ite _ ?_ ?_)
  · exact steady_sub_C0036B00 _ (steady_updVoice _ _ hu)
  · exact steady_updVoice _ _ hu

theorem steady_ProcessPhase_pitch {s t : State} (h : Steady s t) :
    Steady s (ProcessPhase_pitch t) := by
  unfold ProcessPhase_pitch
  refine steady_forRange _ _ _ _ (fun i u hu => ?_) h
  exact steady_ite _ (steady_sub_C0034890 _ _ hu) hu

/-- The loop of phase 0 of `ProcessPhase` (the increment of the LFO). -/
theorem steady_phase0 {s t : State} (n : Int) (h : Steady s t) :
    Steady s (forRange 0 n (fun index t =>
      let w := t.voice_data index
      if w.note_number ≠ 255 then
        t.updVoice index (fun w => { w with
          field_54 := i16 (w.field_54 + dword_C0032188_at t (w.field_5A + 112)) })
      else t) t) :=
  steady_forRange _ _ _ _ (fun _ _ hu => steady_ite _ (steady_updVoice _ _ hu) hu) h

/-- The loop of phase 4 of `ProcessPhase` (the refresh of the multipliers). -/
theorem steady_phase4 {s t : State} (n : Int) (h : Steady s t) :
    Steady s (forRange 0 n (fun index t =>
      if (t.voice_data index).note_number ≠ 255 then sub_C0036C20 t index else t) t) :=
  steady_forRange _ _ _ _ (fun _ _ hu => steady_ite _ (steady_sub_C0036C20 _ hu) hu) h

theorem steady_GenerateOutputData_window {s : State} (index1 value2 : Int) :
    ∀ (n : Nat) (t : State), Steady s t →
      Steady s (GenerateOutputData_window index1 value2 n t) := by
  intro n
  induction n with
  | zero => intro t h; exact h
  | succ n ih =>
    intro t h
    unfold GenerateOutputData_window
    lift_lets
    intro v
    refine steady_ite _ ?_ h
    apply ih
    exact steady_ite _ (steady_ite _ (steady_updVoice _ _ h) (steady_updVoice _ _ h))
      (steady_updVoice _ _ h)

theorem steady_GenerateOutputData_reload {s t : State} (index1 : Int) (h : Steady s t) :
    Steady s (GenerateOutputData_reload t index1) := by
  unfold GenerateOutputData_reload
  lift_lets
  intros
  exact steady_updVoice _ _ h

theorem steady_GenerateOutputData_voice {s : State} (index1 : Int) (a : State × Int × Int)
    (h : Steady s a.1) : Steady s (GenerateOutputData_voice index1 a).1 := by
  unfold GenerateOutputData_voice
  lift_lets
  intros
  split
  · dsimp only
    exact steady_updVoice _ _ h
  · dsimp only
    exact steady_updVoice _ _ (steady_ite _ (steady_GenerateOutputData_reload _ h)
      (steady_GenerateOutputData_window _ _ _ _ h))

theorem steady_GenerateOutputData_reverb {s : State} (a : State × Int × Int)
    (h : Steady s a.1) : Steady s (GenerateOutputData_reverb a).1 := by
  unfold GenerateOutputData_reverb
  exact ⟨h.phase, h.ticks, h.rate, h.base, h.time2, h.ev, h.drum⟩

theorem steady_GenerateOutputData_sample {s t : State} (m : Int) (h : Steady s t) :
    Steady s (GenerateOutputData_sample t m).1 := by
  unfold GenerateOutputData_sample
  lift_lets
  intro a b
  have ha : Steady s a.1 :=
    forRange_keeps GenerateOutputData_voice (fun x => Steady s x.1) 0 (m + 1)
      (fun i x _ _ hx => steady_GenerateOutputData_voice i x hx) (t, 0, 0) h
  show Steady s b.1
  show Steady s (if a.1.is_reverb_enabled = 1 then GenerateOutputData_reverb a else a).1
  split
  · exact steady_GenerateOutputData_reverb a ha
  · exact ha

theorem steady_DefragmentVoices_loop {s : State} :
    ∀ (n : Nat) (index1 index2 : Int) (t : State), Steady s t →
    Steady s (DefragmentVoices_loop n index1 index2 t) := by
  intro n
  induction n with
  | zero => intro index1 index2 t h; exact h
  | succ n ih =>
    intro index1 index2 t h
    unfold DefragmentVoices_loop
    split
    · exact ih _ _ _ h
    · lift_lets
      intro j0
      split
      · exact h
      · apply ih
        exact steady_updVoice _ _ (steady_setVoices _ h)

theorem steady_DefragmentVoices {s t : State} (h : Steady s t) :
    Steady s (DefragmentVoices t) := by
  unfold DefragmentVoices
  exact steady_DefragmentVoices_loop _ _ _ _ h

theorem steady_GenerateOutputData {s t : State} (mem : Int → Int) (p o1 o2 : Int)
    (h : Steady s t) : Steady s (GenerateOutputData t mem p o1 o2).1 := by
  unfold GenerateOutputData
  lift_lets
  intro s1 m
  exact forRange_keeps _ (fun x : State × (Int → Int) => Steady s x.1) o1 o2
    (fun i x _ _ hx => steady_GenerateOutputData_sample _ hx) (s1, mem)
    (steady_DefragmentVoices h)

theorem steady_setPolyphony {s t : State} (a : Int) (h : Steady s t) :
    Steady s { t with current_polyphony := a } :=
  ⟨h.phase, h.ticks, h.rate, h.base, h.time2, h.ev, h.drum⟩

theorem steady_setIndices {s t : State} (a b : Int) (h : Steady s t) :
    Steady s { t with midi_data_read_index := a, midi_data_write_index := b } :=
  ⟨h.phase, h.ticks, h.rate, h.base, h.time2, h.ev, h.drum⟩

theorem steady_setRead {s t : State} (a : Int) (h : Steady s t) :
    Steady s { t with midi_data_read_index := a } :=
  ⟨h.phase, h.ticks, h.rate, h.base, h.time2, h.ev, h.drum⟩

theorem steady_GetValue {s t : State} (h : Steady s t) :
    Steady s (GetValueFromMidiDataBuffer t).1 := by
  unfold GetValueFromMidiDataBuffer
  split
  · exact h
  · split
    · exact steady_setRead _ h
    · lift_lets
      intro time_2
      split
      · exact steady_setIndices 0 0 (steady_AllVoicesSoundsOff h)
      · split
        · exact h
        · exact steady_setRead _ h

theorem steady_free {s t : State} (vi : Int) (c : Prop) [Decidable c] (h : Steady s t) :
    Steady s (if c then t.updVoice vi (fun w => { w with note_number := 255 }) else t) :=
  steady_ite _ (steady_updVoice _ _ h) h

theorem steady_Reduce_loop1 {s : State} (mv : Int) : ∀ (n : Nat) (i a : Int) (t : State)
    (r : State × Int × Bool), ReduceActiveVoices_loop1 mv n i a t = some r →
    Steady s t → Steady s r.1 := by
  intro n
  induction n with
  | zero => intro i a t r hr; simp [ReduceActiveVoices_loop1] at hr
  | succ n ih =>
    intro i a t r hr h
    unfold ReduceActiveVoices_loop1 at hr
    lift_lets at hr
    extract_lets w freed s1 active1 at hr
    have h1 : Steady s s1 := steady_free _ _ h
    split at hr
    · simp only [Option.some.injEq] at hr
      subst hr
      exact steady_setPolyphony _ h1
    · split at hr
      · exact ih _ _ _ _ hr h1
      · simp only [Option.some.injEq] at hr
        subst hr
        exact h1

theorem steady_Reduce_loop2 {s : State} (mv : Int) : ∀ (n : Nat) (i a : Int) (t r : State),
    ReduceActiveVoices_loop2 mv n i a t = some r → Steady s t → Steady s r := by
  intro n
  induction n with
  | zero => intro i a t r hr; simp [ReduceActiveVoices_loop2] at hr
  | succ n ih =>
    intro i a t r hr h
    unfold ReduceActiveVoices_loop2 at hr
    lift_lets at hr
    extract_lets freed s1 active1 at hr
    have h1 : Steady s s1 := steady_free _ _ h
    split at hr
    · simp only [Option.some.injEq] at hr
      subst hr
      exact steady_setPolyphony _ h1
    · split at hr
      · simp only [Option.some.injEq] at hr
        subst hr
        exact h1
      · exact ih _ _ _ _ hr h1

theorem steady_ReduceActiveVoices {s t r : State} (mv : Int)
    (hr : ReduceActiveVoices t mv = some r) (h : Steady s t) : Steady s r := by
  unfold ReduceActiveVoices at hr
  split at hr
  · simp only [Option.some.injEq] at hr
    subst hr
    exact h
  · split at hr
    · lift_lets at hr
      extract_lets index2a index2 active_voices at hr
      split at hr
      · simp at hr
      · rename_i s1 a1 heq
        simp only [Option.some.injEq] at hr
        subst hr
        exact steady_Reduce_loop1 mv _ _ _ _ _ heq h
      · rename_i s1 a1 heq
        have h1 : Steady s s1 := steady_Reduce_loop1 mv _ _ _ _ _ heq h
        exact steady_Reduce_loop2 mv _ _ _ _ _ hr h1
    · simp only [Option.some.injEq] at hr
      subst hr
      refine steady_setPolyphony 0 ?_
      exact steady_forRange _ _ _ _ (fun i u hu => steady_updVoice _ _ hu) h

theorem steady_SetMaximumVoices {s t r : State} (mv : Int)
    (hr : SetMaximumVoices t mv = some r) (h : Steady s t) : Steady s r := by
  unfold SetMaximumVoices at hr
  refine opt_map hr (fun t1 h1 => ?_)
  have a := steady_DefragmentVoices (steady_ReduceActiveVoices mv h1 h)
  have b : Steady s { (DefragmentVoices t1) with maximum_polyphony := mv } :=
    ⟨a.phase, a.ticks, a.rate, a.base, a.time2, a.ev, a.drum⟩
  have c := steady_forRange mv MAX_VOICES
    (fun index u => State.updVoice u index (fun w => { w with note_number := 255 })) _
    (fun i u hu => steady_updVoice _ _ hu) b
  exact ⟨c.phase, c.ticks, c.rate, c.base, c.time2, c.ev, c.drum⟩

theorem steady_setNew {s t : State} (a : Int) (h : Steady s t) :
    Steady s { t with maximum_polyphony_new_value := a } :=
  ⟨h.phase, h.ticks, h.rate, h.base, h.time2, h.ev, h.drum⟩

theorem steady_SystemExclusive {s t : State} (h : SystemExclusive s = some t) :
    Steady s t := by
  unfold SystemExclusive at h
  have f0 := steady_refl s
  refine opt_ite h
    (opt_some _ t (steady_forRange _ _ _ _ (fun i u hu => steady_ProgramChange _ _ hu)
      (steady_forRange _ _ _ _ (fun i u hu => steady_ResetChannel _ hu)
        (steady_AllVoicesSoundsOff f0)))) (fun h2 => ?_)
  refine opt_ite h2 (fun h3 => ?_) (opt_some _ t f0)
  refine opt_ite h3
    (fun hm => opt_map hm (fun r hr => steady_setNew 24 (steady_SetMaximumVoices _ hr f0)))
    (fun h4 => ?_)
  refine opt_ite h4
    (fun hm => opt_map hm (fun r hr => steady_setNew 32 (steady_SetMaximumVoices _ hr f0)))
    (fun h5 => ?_)
  refine opt_ite h5
    (fun hm => opt_map hm (fun r hr => steady_setNew 48 (steady_SetMaximumVoices _ hr f0)))
    (fun h6 => ?_)
  refine opt_ite h6
    (opt_some _ t ⟨rfl, rfl, rfl, rfl, rfl, ⟨rfl, rfl, rfl, rfl⟩, fun hs => hs.1⟩) (fun h7 => ?_)
  refine opt_ite h7 (opt_some _ t (steady_DisableReverb f0)) (fun h8 => ?_)
  refine opt_ite h8 (opt_some _ t (steady_SetReverbShift _ (steady_EnableReverb f0)))
    (fun h9 => ?_)
  refine opt_ite h9 (opt_some _ t (steady_SetReverbShift _ (steady_EnableReverb f0)))
    (fun h10 => ?_)
  exact opt_ite h10 (opt_some _ t ⟨rfl, rfl, rfl, rfl, rfl, ⟨rfl, rfl, rfl, rfl⟩, fun hs => hs.1⟩)
    (opt_some _ t f0)

/-- Every entry of `drum_kit_numbers` is one of 0 to 7 (and so is the 0 that stands for a
place outside the table). -/
theorem drum_kit_range (i : Int) :
    0 ≤ tableAt drum_kit_numbers i ∧ tableAt drum_kit_numbers i ≤ 7 := by
  unfold tableAt
  split
  · rename_i h
    by_cases h8 : i.toNat < 8
    · have : ∀ k : Nat, k < 8 → 0 ≤ drum_kit_numbers.getD k 0 ∧ drum_kit_numbers.getD k 0 ≤ 7 := by
        decide
      exact this _ h8
    · have e : drum_kit_numbers.getD i.toNat 0 = 0 := by
        rw [List.getD_eq_default]
        show 8 ≤ i.toNat
        omega
      rw [e]
      omega
  · omega

/-- The `switch` of the dispatcher is a steady step; `event_length` is put to 0 behind it. -/
theorem dispatch_steady {s t : State} (h : ProcessMidiData_dispatch s = some t) :
    ∃ u, Steady s u ∧ t = { u with event_length := 0 } := by
  unfold ProcessMidiData_dispatch at h
  have f0 := steady_refl s
  refine opt_map (P := fun x => ∃ u, Steady s u ∧ x = { u with event_length := 0 }) h
    (fun u hu => ⟨u, ?_, rfl⟩)
  refine opt_ite hu (opt_some _ u (steady_NoteOff f0)) (fun h2 => ?_)
  refine opt_ite h2
    (fun ha => opt_ite ha
      (fun hb => opt_ite hb (opt_some _ u (steady_NoteOn 1 (steady_NoteOn 0 f0)))
        (opt_some _ u (steady_NoteOn 0 f0)))
      (opt_some _ u (steady_NoteOff f0))) (fun h3 => ?_)
  refine opt_ite h3 (opt_some _ u (steady_ControlChange f0)) (fun h4 => ?_)
  by_cases e : s.event_type = 192
  · rw [if_pos e] at h4
    by_cases d : s.event_data 0 % 16 = DRUM_CHANNEL
    · rw [if_pos d] at h4
      split at h4
      · exact opt_some _ u f0 h4
      · exact opt_some _ u (steady_ProgramChange _ _
          (steady_updChannel _ _ f0 (fun _ _ => drum_kit_range _))) h4
    · rw [if_neg d] at h4
      refine opt_some _ u (steady_ProgramChange _ _ ?_) h4
      refine ⟨rfl, rfl, rfl, rfl, rfl, ⟨rfl, rfl, rfl, rfl⟩, fun hs => ?_⟩
      have a := hs.1
      have p := hs.2 e
      unfold DrumRange at a ⊢
      rw [← p] at d
      simp only [State.updChannel, Function.update_noteq (fun x => d x.symm)]
      exact a
  · rw [if_neg e] at h4
    refine opt_ite h4 (opt_some _ u (steady_updChannel _ _ f0 (fun _ hc => hc))) (fun h6 => ?_)
    refine opt_ite h6 (opt_some _ u (steady_updChannel _ _ f0 (fun _ hc => hc))) (fun h7 => ?_)
    exact opt_ite h7 steady_SystemExclusive (opt_some _ u f0)

/-! ### The dispatcher, byte by byte -/

theorem paced_refl (s : State) : Paced s s := ⟨rfl, rfl, rfl, rfl, rfl, fun h => h⟩

theorem paced_trans {s t u : State} (h1 : Paced s t) (h2 : Paced t u) : Paced s u :=
  ⟨h2.phase.trans h1.phase, h2.ticks.trans h1.ticks, h2.rate.trans h1.rate,
    h2.base.trans h1.base, h2.time2.trans h1.time2, fun h => h2.drum (h1.drum h)⟩

theorem drumOk_of_inv {s : State} (h : DrumInv s) : DrumOk s :=
  ⟨h.1, fun e => (h.2 e).1⟩

theorem paced_of_steady {s t : State} (h : Steady s t) : Paced s t := by
  refine ⟨h.phase, h.ticks, h.rate, h.base, h.time2, fun hs => ⟨h.drum (drumOk_of_inv hs), ?_⟩⟩
  intro e
  rw [h.ev.1] at e
  rw [h.ev.2.2.1, h.ev.2.1, h.ev.2.2.2]
  exact hs.2 e

theorem paced_dispatch {s t : State} (h : ProcessMidiData_dispatch s = some t)
    (hl : s.event_type = 192 →
      s.channel_data_ptr = s.event_data 0 % 16 ∧ s.event_data 0 / 16 % 16 = 12) :
    t.processing_phase = s.processing_phase ∧ t.dword_C0000000 = s.dword_C0000000
    ∧ t.dword_C0000004 = s.dword_C0000004 ∧ t.dword_C0000008 = s.dword_C0000008
    ∧ t.system_time_2 = s.system_time_2 ∧ t.event_data = s.event_data
    ∧ (DrumRange s → DrumInv t) := by
  obtain ⟨u, hu, e⟩ := dispatch_steady h
  subst e
  refine ⟨hu.phase, hu.ticks, hu.rate, hu.base, hu.time2, hu.ev.2.1, fun hr => ?_⟩
  refine ⟨hu.drum ⟨hr, fun e => (hl e).1⟩, fun e => ?_⟩
  have e' : s.event_type = 192 := hu.ev.1 ▸ e
  refine ⟨?_, ?_, rfl⟩
  · show u.channel_data_ptr = u.event_data 0 % 16
    rw [hu.ev.2.2.1, hu.ev.2.1]
    exact (hl e').1
  · show u.event_data 0 / 16 % 16 = 12
    rw [hu.ev.2.1]
    exact (hl e').2

/-- The body of the loop of `ProcessMidiData` for a byte that is not a status byte, with the
new length `n`. -/
theorem byte_low (s : State) (v n : Int) (h1 : ¬ v > 247) (h2 : v ≠ 247)
    (h3 : ¬ v / 128 % 2 ≠ 0) (hn : i32 (s.event_length + 1) = n) :
    ProcessMidiData_byte s v
      = if n ≥ 32 then some { s with event_length := n }
        else if Function.update s.event_data n v 0 = 240 then
          some { s with event_length := n, event_data := Function.update s.event_data n v }
        else if s.event_type ≠ 192 ∧ s.event_type ≠ 208 ∧ n ≠ 2 then
          some { s with event_length := n, event_data := Function.update s.event_data n v }
        else
          ProcessMidiData_dispatch { s with
            event_length := n, event_data := Function.update s.event_data n v } := by
  subst hn
  unfold ProcessMidiData_byte
  rw [if_neg h1, if_neg h2, if_neg h3]

/-- The body of the loop of `ProcessMidiData` for a status byte. -/
theorem byte_high (s : State) (v : Int) (h1 : ¬ v > 247) (h2 : v ≠ 247)
    (h3 : v / 128 % 2 ≠ 0) :
    ProcessMidiData_byte s v = some { s with
      event_length := 0,
      event_type := v / 16 % 16 * 16,
      event_data := Function.update s.event_data 0 v,
      channel_data_ptr := v % 16,
      stru6_ptr := v % 16 } := by
  unfold ProcessMidiData_byte
  rw [if_neg h1, if_neg h2, if_pos h3]

/-- A change of `event_length` and of `event_data` outside a Program Change. -/
theorem paced_store (s : State) (n : Int) (e : Int → Int) (h : s.event_type ≠ 192) :
    Paced s { s with event_length := n, event_data := e } :=
  ⟨rfl, rfl, rfl, rfl, rfl, fun hs => ⟨hs.1, fun x => absurd x h⟩⟩

theorem paced_count (s : State) (n : Int) (h : s.event_type ≠ 192) :
    Paced s { s with event_length := n } :=
  ⟨rfl, rfl, rfl, rfl, rfl, fun hs => ⟨hs.1, fun x => absurd x h⟩⟩

/-- The clock fields behind a byte. -/
theorem byte_clock {s t : State} (v : Int) (h : ProcessMidiData_byte s v = some t) :
    SameClock s t := by
  have dis : ∀ x : State, SameClock s x → ProcessMidiData_dispatch x = some t →
      SameClock s t := by
    intro x hx hd
    obtain ⟨u, hu, eq⟩ := dispatch_steady hd
    subst eq
    exact ⟨hu.phase.trans hx.phase, hu.ticks.trans hx.ticks, hu.rate.trans hx.rate,
      hu.base.trans hx.base, hu.time2.trans hx.time2⟩
  have same : ∀ x : State, some x = some t → SameClock s x → SameClock s t := by
    intro x hx hc
    simp only [Option.some.injEq] at hx
    subst hx
    exact hc
  by_cases h1 : v > 247
  · unfold ProcessMidiData_byte at h
    rw [if_pos h1] at h
    exact same _ h ⟨rfl, rfl, rfl, rfl, rfl⟩
  by_cases h2 : v = 247
  · unfold ProcessMidiData_byte at h
    rw [if_neg h1, if_pos h2] at h
    exact opt_ite h (fun hx => same _ hx ⟨rfl, rfl, rfl, rfl, rfl⟩)
      (dis s ⟨rfl, rfl, rfl, rfl, rfl⟩)
  by_cases h3 : v / 128 % 2 ≠ 0
  · rw [byte_high s v h1 h2 h3] at h
    exact same _ h ⟨rfl, rfl, rfl, rfl, rfl⟩
  rw [byte_low s v _ h1 h2 h3 rfl] at h
  refine opt_ite h (fun hx => same _ hx ⟨rfl, rfl, rfl, rfl, rfl⟩) (fun h5 => ?_)
  refine opt_ite h5 (fun hx => same _ hx ⟨rfl, rfl, rfl, rfl, rfl⟩) (fun h6 => ?_)
  exact opt_ite h6 (fun hx => same _ hx ⟨rfl, rfl, rfl, rfl, rfl⟩)
    (dis _ ⟨rfl, rfl, rfl, rfl, rfl⟩)

/-- The invariant `DrumInv` behind a byte. -/
theorem byte_drum {s t : State} (v : Int) (h : ProcessMidiData_byte s v = some t)
    (hs : DrumInv s) : DrumInv t := by
  by_cases h1 : v > 247
  · unfold ProcessMidiData_byte at h
    rw [if_pos h1] at h
    simp only [Option.some.injEq] at h
    subst h
    exact hs
  by_cases h2 : v = 247
  · unfold ProcessMidiData_byte at h
    rw [if_neg h1, if_pos h2] at h
    by_cases c0 : s.event_data 0 ≠ 240
    · rw [if_pos c0] at h
      simp only [Option.some.injEq] at h
      subst h
      exact hs
    · rw [if_neg c0] at h
      have k := paced_dispatch h (fun e => ⟨(hs.2 e).1, (hs.2 e).2.1⟩)
      exact k.2.2.2.2.2.2 hs.1
  by_cases h3 : v / 128 % 2 ≠ 0
  · rw [byte_high s v h1 h2 h3] at h
    simp only [Option.some.injEq] at h
    subst h
    refine ⟨hs.1, fun e => ⟨?_, ?_, rfl⟩⟩
    · show v % 16 = Function.update s.event_data 0 v 0 % 16
      rw [Function.update_same]
    · show Function.update s.event_data 0 v 0 / 16 % 16 = 12
      rw [Function.update_same]
      have e' : v / 16 % 16 * 16 = 192 := e
      omega
  rw [byte_low s v _ h1 h2 h3 rfl] at h
  by_cases e : s.event_type = 192
  · obtain ⟨p1, p2, p3⟩ := hs.2 e
    have l1 : i32 (s.event_length + 1) = 1 := by rw [p3]; decide
    rw [l1] at h
    have hz : Function.update s.event_data 1 v 0 = s.event_data 0 :=
      Function.update_noteq (by decide) _ _
    rw [if_neg (by decide), if_neg (by rw [hz]; omega), if_neg (fun x => x.1 e)] at h
    have k := paced_dispatch h (fun _ => ⟨by
      show s.channel_data_ptr = Function.update s.event_data 1 v 0 % 16
      rw [hz]; exact p1, by
      show Function.update s.event_data 1 v 0 / 16 % 16 = 12
      rw [hz]; exact p2⟩)
    exact k.2.2.2.2.2.2 hs.1
  · refine opt_ite h (opt_some _ t ((paced_count s _ e).drum hs)) (fun h4 => ?_)
    refine opt_ite h4 (opt_some _ t ((paced_store s _ _ e).drum hs)) (fun h5 => ?_)
    refine opt_ite h5 (opt_some _ t ((paced_store s _ _ e).drum hs)) (fun h6 => ?_)
    have k := paced_dispatch h6 (fun x => absurd x e)
    exact k.2.2.2.2.2.2 hs.1

theorem paced_byte {s t : State} (v : Int) (h : ProcessMidiData_byte s v = some t) :
    Paced s t := by
  have c := byte_clock v h
  exact ⟨c.phase, c.ticks, c.rate, c.base, c.time2, byte_drum v h⟩

theorem paced_loop : ∀ (n : Nat) (s t : State), ProcessMidiData_loop n s = some t →
    Paced s t := by
  intro n
  induction n with
  | zero => intro s t h; simp [ProcessMidiData_loop] at h
  | succ n ih =>
    intro s t h
    unfold ProcessMidiData_loop at h
    have hg : Paced s (GetValueFromMidiDataBuffer s).1 :=
      paced_of_steady (steady_GetValue (steady_refl s))
    refine opt_ite h (opt_some _ t hg) (fun h2 => ?_)
    cases hb : ProcessMidiData_byte (GetValueFromMidiDataBuffer s).1
        (GetValueFromMidiDataBuffer s).2 with
    | none => rw [hb] at h2; simp at h2
    | some s1 =>
      rw [hb] at h2
      exact paced_trans hg (paced_trans (paced_byte _ hb) (ih s1 t h2))

theorem paced_ProcessMidiData {s t : State} (h : ProcessMidiData s = some t) : Paced s t :=
  paced_loop 13108 s t h

theorem paced_bytes : ∀ (bs : List Int) (s t : State), ProcessMidiData_bytes s bs = some t →
    Paced s t := by
  intro bs
  induction bs with
  | nil =>
    intro s t h
    exact opt_some _ t (paced_refl s) h
  | cons b bs ih =>
    intro s t h
    unfold ProcessMidiData_bytes at h
    refine opt_ite h (opt_some _ t (paced_refl s)) (fun h2 => ?_)
    cases hb : ProcessMidiData_byte s b with
    | none => rw [hb] at h2; simp at h2
    | some s1 =>
      rw [hb] at h2
      exact paced_trans (paced_byte _ hb) (ih s1 t h2)
/-! ## The tick scheduler -/

theorem steady_ProcessPhase (s : State) : Steady (ProcessPhase_count s) (ProcessPhase s) := by
  unfold ProcessPhase ProcessPhase_count
  lift_lets
  intro phase s1
  have h1 : Steady s1 s1 := steady_refl s1
  have h2 : Steady s1 (sub_C0037140 s1) := steady_sub_C0037140 h1
  exact steady_ite _ (steady_phase0 _ h2) (steady_ite _ (steady_sub_C0036FE0 h2)
    (steady_ite _ h2 (steady_ite _ (steady_ProcessPhase_pitch h2)
    (steady_ite _ (steady_sub_C0037140 (steady_phase4 _ h1))
    (steady_ite _ (steady_sub_C0036FE0 h2) (steady_ite _ h2
    (steady_ite _ (steady_ProcessPhase_pitch h2) h1)))))))

theorem clock_keeps (s : State) (c t1 : Int) :
    (VLSG_FillOutputBuffer_clock s c t1).processing_phase = s.processing_phase
    ∧ (VLSG_FillOutputBuffer_clock s c t1).channel_data = s.channel_data
    ∧ (VLSG_FillOutputBuffer_clock s c t1).event_type = s.event_type
    ∧ (VLSG_FillOutputBuffer_clock s c t1).event_data = s.event_data
    ∧ (VLSG_FillOutputBuffer_clock s c t1).channel_data_ptr = s.channel_data_ptr
    ∧ (VLSG_FillOutputBuffer_clock s c t1).event_length = s.event_length := by
  unfold VLSG_FillOutputBuffer_clock
  lift_lets
  intro restart value1 time2 s1 s2
  have e1 : s1.processing_phase = s.processing_phase ∧ s1.channel_data = s.channel_data
      ∧ s1.event_type = s.event_type ∧ s1.event_data = s.event_data
      ∧ s1.channel_data_ptr = s.channel_data_ptr ∧ s1.event_length = s.event_length := by
    show (if restart then _ else s).processing_phase = _
      ∧ (if restart then _ else s).channel_data = _
      ∧ (if restart then _ else s).event_type = _ ∧ (if restart then _ else s).event_data = _
      ∧ (if restart then _ else s).channel_data_ptr = _
      ∧ (if restart then _ else s).event_length = _
    split <;> exact ⟨rfl, rfl, rfl, rfl, rfl, rfl⟩
  split
  · exact e1
  · exact e1

theorem drumInv_congr {s t : State} (h1 : t.channel_data = s.channel_data)
    (h2 : t.event_type = s.event_type) (h3 : t.event_data = s.event_data)
    (h4 : t.channel_data_ptr = s.channel_data_ptr) (h5 : t.event_length = s.event_length)
    (hs : DrumInv s) : DrumInv t := by
  unfold DrumInv DrumRange at hs ⊢
  rw [h1, h2, h3, h4, h5]
  exact hs

theorem steady_governor {s r : State} (t1 t4 : Int)
    (h : VLSG_FillOutputBuffer_governor s t1 t4 = some r) : Steady s r := by
  unfold VLSG_FillOutputBuffer_governor at h
  lift_lets at h
  extract_lets s1 dt s2 at h
  have h2 : Steady s s2 := ⟨rfl, rfl, rfl, rfl, rfl, ⟨rfl, rfl, rfl, rfl⟩, fun hs => hs.1⟩
  refine opt_ite h (fun a => steady_SetMaximumVoices _ a h2) (fun b => ?_)
  refine opt_ite b (fun c => opt_ite c (fun a => steady_SetMaximumVoices _ a h2)
    (fun a => steady_SetMaximumVoices _ a h2)) (fun a => ?_)
  exact opt_some _ r h2 a

/-- One pass of the loop of `VLSG_FillOutputBuffer`: the synthesis of the pass leaves the
clock words as they are and counts the phase on by one. -/
theorem pass_clock {s s1 : State} (mem : Int → Int) (p off off2 : Int)
    (hm : ProcessMidiData s = some s1) :
    (GenerateOutputData (ProcessPhase s1) mem p off off2).1.processing_phase
        = u32 (s.processing_phase + 1)
    ∧ (GenerateOutputData (ProcessPhase s1) mem p off off2).1.dword_C0000000
        = s.dword_C0000000
    ∧ (GenerateOutputData (ProcessPhase s1) mem p off off2).1.dword_C0000004
        = s.dword_C0000004
    ∧ (GenerateOutputData (ProcessPhase s1) mem p off off2).1.dword_C0000008
        = s.dword_C0000008
    ∧ (GenerateOutputData (ProcessPhase s1) mem p off off2).1.system_time_2 = s.system_time_2
    ∧ (DrumInv s → DrumInv (GenerateOutputData (ProcessPhase s1) mem p off off2).1) := by
  have a := paced_ProcessMidiData hm
  have b := steady_ProcessPhase s1
  have c := steady_GenerateOutputData mem p off off2 b
  have d := paced_of_steady c
  refine ⟨?_, d.ticks.trans a.ticks, d.rate.trans a.rate, d.base.trans a.base,
    d.time2.trans a.time2, fun hs => d.drum ?_⟩
  · rw [d.phase]
    show u32 (s1.processing_phase + 1) = _
    rw [a.phase]
  · exact drumInv_congr rfl rfl rfl rfl rfl (a.drum hs)

/-- The clock words and the phase counter behind `n` passes of the loop of
`VLSG_FillOutputBuffer`. -/
theorem fill_loop_clock (p : Int) : ∀ (n : Nat) (off : Int) (s : State) (mem : Int → Int)
    (r : State × (Int → Int)), VLSG_FillOutputBuffer_loop p n off s mem = some r →
    r.1.dword_C0000004 = s.dword_C0000004 ∧ r.1.dword_C0000008 = s.dword_C0000008
    ∧ r.1.system_time_2 = s.system_time_2 ∧ (DrumInv s → DrumInv r.1)
    ∧ (n = 0 → r.1 = s)
    ∧ (1 ≤ n → r.1.processing_phase = u32 (s.processing_phase + n)
        ∧ r.1.dword_C0000000 = u32 (s.dword_C0000000 + n)
        ∧ r.1.system_time_1
            = u32 (u32 (u32 (s.dword_C0000000 + n) * s.dword_C0000004) / 512
                + s.dword_C0000008)) := by
  intro n
  induction n with
  | zero =>
    intro off s mem r h
    simp only [VLSG_FillOutputBuffer_loop, Option.some.injEq] at h
    subst h
    exact ⟨rfl, rfl, rfl, fun hs => hs, fun _ => rfl, fun h => absurd h (by decide)⟩
  | succ n ih =>
    intro off s mem r h
    cases hm : ProcessMidiData s with
    | none =>
      unfold VLSG_FillOutputBuffer_loop at h
      rw [hm] at h
      simp at h
    | some s1 =>
      rw [fill_loop_succ p n off s s1 mem hm _ rfl] at h
      obtain ⟨q1, q2, q3, q4, q5, q6⟩ := pass_clock mem p off
        (u32 (off + (ProcessPhase s1).output_size_para)) hm
      generalize GenerateOutputData (ProcessPhase s1) mem p off
        (u32 (off + (ProcessPhase s1).output_size_para)) = A at h q1 q2 q3 q4 q5 q6
      obtain ⟨i1, i2, i3, i4, i5, i6⟩ := ih _ _ _ _ h
      refine ⟨i1.trans q3, i2.trans q4, i3.trans q5,
        fun hs => i4 (drumInv_congr rfl rfl rfl rfl rfl (q6 hs)),
        fun h0 => absurd h0 (by omega), fun _ => ?_⟩
      by_cases hn : n = 0
      · subst hn
        rw [i5 rfl]
        refine ⟨?_, ?_, ?_⟩
        · show A.1.processing_phase = _
          rw [q1]; rfl
        · show u32 (A.1.dword_C0000000 + 1) = _
          rw [q2]; rfl
        · show u32 (u32 (u32 (A.1.dword_C0000000 + 1) * A.1.dword_C0000004) / 512
            + A.1.dword_C0000008) = _
          rw [q2, q3, q4]; rfl
      · obtain ⟨j1, j2, j3⟩ := i6 (by omega)
        refine ⟨?_, ?_, ?_⟩
        · rw [j1]
          show u32 (A.1.processing_phase + n) = _
          rw [q1]
          unfold u32
          push_cast
          omega
        · rw [j2]
          show u32 (u32 (A.1.dword_C0000000 + 1) + n) = _
          rw [q2]
          unfold u32
          push_cast
          omega
        · rw [j3]
          show u32 (u32 (u32 (u32 (A.1.dword_C0000000 + 1) + n) * A.1.dword_C0000004) / 512
            + A.1.dword_C0000008) = _
          rw [q2, q3, q4]
          have e : u32 (u32 (s.dword_C0000000 + 1) + (n : Int))
              = u32 (s.dword_C0000000 + ((n + 1 : Nat) : Int)) := by
            unfold u32
            push_cast
            omega
          rw [e]

/-- The phase counter behind a callback: it has been counted on four times. -/
theorem fill_phase {s : State} {mem : Int → Int} {c t1 t4 : Int}
    {r : State × (Int → Int) × Int} (h : VLSG_FillOutputBuffer s mem c t1 t4 = some r) :
    r.1.processing_phase = u32 (s.processing_phase + 4)
    ∧ (DrumInv s → DrumInv r.1) := by
  unfold VLSG_FillOutputBuffer at h
  lift_lets at h
  extract_lets s1 output_ptr at h
  split at h
  · simp at h
  · rename_i q hq
    split at h
    · simp at h
    · rename_i s2 hg
      simp only [Option.some.injEq] at h
      subst h
      obtain ⟨k1, k2, k3, k4, k5, k6⟩ := clock_keeps s c t1
      obtain ⟨_, _, _, l4, _, l6⟩ := fill_loop_clock output_ptr 4 0 s1 mem q hq
      have g := steady_governor t1 t4 hg
      refine ⟨?_, fun hs => (paced_of_steady g).drum (l4 (drumInv_congr k2 k3 k4 k5 k6 hs))⟩
      show s2.processing_phase = _
      rw [g.phase, (l6 (by decide)).1]
      show u32 (s1.processing_phase + 4) = _
      have : s1.processing_phase = s.processing_phase := k1
      rw [this]

theorem steady_InitializeStructures (s : State) : Steady s (InitializeStructures s).1 := by
  rw [InitializeStructures_eq]
  refine steady_forRange _ _ _ _ (fun i u hu => steady_ProgramChange _ _ hu) ?_
  refine steady_forRange _ _ _ _ (fun i u hu => steady_ResetChannel _ hu) ?_
  exact steady_forRange _ _ _ _ (fun i u hu => steady_updVoice _ _ hu) (steady_refl s)

theorem event_setC4 (x : State) (v K : Int) (h : x.event_type = K) :
    ({ x with dword_C0000004 := v } : State).event_type = K := h

theorem init_event (x : State) (h : x.event_type = 0) :
    (InitializeStructures x).1.event_type = 0 :=
  ((steady_InitializeStructures x).ev.1).trans h

theorem start_drumInv (s0 : State) : DrumInv (VLSG_PlaybackStart s0).1 := by
  have h := (start_defaults s0).2 DRUM_CHANNEL (by decide) (by decide)
  have hp : ((VLSG_PlaybackStart s0).1.channel_data DRUM_CHANNEL).program_change = 0 := h.1
  have he : (VLSG_PlaybackStart s0).1.event_type = 0 := by
    rw [PlaybackStart_eq]
    exact event_setC4 _ _ _ (init_event _ rfl)
  refine ⟨?_, fun e => ?_⟩
  · unfold DrumRange
    rw [hp]
    decide
  · rw [he] at e
    exact absurd e (by decide)

theorem addMidi_drumInv (bytes : List Int) : ∀ s : State, DrumInv s →
    DrumInv (VLSG_AddMidiData s bytes) := by
  induction bytes with
  | nil => intro s h; exact h
  | cons b rest ih =>
    intro s h
    rw [addMidi_cons]
    exact ih _ (drumInv_congr (s := s) rfl rfl rfl rfl rfl h)

theorem reachable_drumInv {s0 s : State} (h : Reachable s0 s) : DrumInv s := by
  induction h with
  | start => exact start_drumInv s0
  | add s bytes _ ih => exact addMidi_drumInv bytes s ih
  | fill s mem counter time1 time4 r _ hf ih => exact (fill_phase hf).2 ih

/-- With the program of the drum channel in 0..7, `StartPlayingVoice` scans the pairs of
`dword_C0032988` from the first entry. -/
theorem StartPlayingVoice_first (s : State) (vi ci si base : Int) (h : DrumOk s) :
    StartPlayingVoice s vi ci si base = StartPlayingVoice_fromFirst s vi ci si base := by
  have key : ∀ x : State, Steady s x →
      (if (x.channel_data DRUM_CHANNEL).program_change ≠ 135 then (0 : Int) else 38) = 0 := by
    intro x hx
    have r := hx.drum h
    unfold DrumRange at r
    rw [if_pos (by omega)]
  have h0 := steady_refl s
  unfold StartPlayingVoice StartPlayingVoice_fromFirst
  lift_lets
  intro data s1 r1 r2 r3 r4 r5 r6 r7 r8 r9 r10 field_00 s2 v value3 channel_num_2 note value2a
    value2 s3 s4 value4 value5 value6a value6 s5 s6 s7 s8 v8 q1d q2d s9 start q1 value8a value8 q2
  have H1 : Steady s s1 := steady_updVoice _ _ h0
  have H2 : Steady s s2 := steady_updVoice _ _ (steady_400 (steady_400 (steady_400 (steady_400
    (steady_400 (steady_400 (steady_400 (steady_420 _ (steady_A0 _ _
      (steady_sub_C0034970 _ _ H1))))))))))
  have H3 : Steady s s3 := steady_updVoice _ _ H2
  have H4 : Steady s s4 := steady_sub_C0036C20 _ (steady_sub_C0034890 _ _ H3)
  have H5 : Steady s s5 := steady_updVoice _ _ H4
  have H6 : Steady s s6 := steady_sub_C0036B00 _ (steady_sub_C0036A80 _ H5)
  have H7 : Steady s s7 := steady_ite _ (steady_updVoice _ _ H6) H6
  have H8 : Steady s s8 := steady_ite _ (steady_updVoice _ _ H7) H7
  have H9 : Steady s s9 := steady_sub_C0036A20 _ (steady_updVoice _ _
    (steady_420 _ (steady_A0 _ _ H8)))
  have e : start = 0 := key s9 H9
  intro start1
  rw [e]

theorem drum_kits_inj (k j : Int) (hk : 0 ≤ k ∧ k < 8) (hj : 0 ≤ j ∧ j < 8)
    (h : tableAt drum_kits k = tableAt drum_kits j) : tableAt drum_kit_numbers j = k := by
  obtain ⟨a, b⟩ := hk
  obtain ⟨c, d⟩ := hj
  interval_cases k <;> interval_cases j <;>
    first
    | rfl
    | (exfalso; revert h; decide)

theorem channels_setLength (x : State) (n : Int) :
    ({ x with event_length := n } : State).channel_data = x.channel_data := rfl

/-- The case `0xC0` of the dispatcher on the drum channel: a data byte found in `drum_kits`
stores the number of the kit, any other data byte leaves the channel blocks. -/
theorem dispatch_drum_program (u : State) (h1 : u.event_type = 192)
    (h2 : u.event_data 0 % 16 = DRUM_CHANNEL) (h3 : u.channel_data_ptr = DRUM_CHANNEL) :
    ∃ t, ProcessMidiData_dispatch u = some t
      ∧ (∀ k, 0 ≤ k → k < 8 → tableAt drum_kits k = u.event_data 1 →
          (t.channel_data DRUM_CHANNEL).program_change = k)
      ∧ ((∀ k, 0 ≤ k → k < 8 → tableAt drum_kits k ≠ u.event_data 1) →
          t.channel_data = u.channel_data) := by
  unfold ProcessMidiData_dispatch
  rw [if_neg (by omega), if_neg (by omega), if_neg (by omega), if_pos h1, if_pos h2]
  obtain ⟨f1, f2⟩ := findFirst_spec (fun i => decide (tableAt drum_kits i = u.event_data 1)) 8 0
  cases hf : findFirst (fun i => decide (tableAt drum_kits i = u.event_data 1)) 8 0 with
  | none =>
    refine ⟨_, rfl, fun k a b c => ?_, fun _ => rfl⟩
    have := f2 hf k a (by simpa using b)
    simp only [decide_eq_false_iff_not] at this
    exact absurd c this
  | some k0 =>
    obtain ⟨⟨a0, b0⟩, c0, _⟩ := f1 k0 hf
    simp only [decide_eq_true_eq] at c0
    have b1 : k0 < 8 := by simpa using b0
    refine ⟨{ ProgramChange (u.updChannel u.channel_data_ptr (fun c => { c with
        program_change := tableAt drum_kit_numbers k0 })) u.stru6_ptr
        (tableAt drum_kit_numbers k0) with event_length := 0 }, rfl,
      fun k a b c => ?_, fun hn => absurd c0 (hn k0 a0 b1)⟩
    rw [channels_setLength, ProgramChange_channels, h3]
    simp only [State.updChannel, Function.update_same]
    exact drum_kits_inj k k0 ⟨a, b⟩ ⟨a0, b1⟩ (c.trans c0.symm)

/-- The message `C9 d` (Program Change on the drum channel) in any state. -/
theorem bytes_drum_program (s : State) (d : Int) (hd : 0 ≤ d ∧ d ≤ 127) :
    ∃ t, ProcessMidiData_bytes s [201, d] = some t
      ∧ (∀ k, 0 ≤ k → k < 8 → tableAt drum_kits k = d →
          (t.channel_data DRUM_CHANNEL).program_change = k)
      ∧ ((∀ k, 0 ≤ k → k < 8 → tableAt drum_kits k ≠ d) →
          t.channel_data = s.channel_data) := by
  obtain ⟨t, e, p, q⟩ := dispatch_drum_program
    { s with
      event_length := 0 + 1,
      event_type := 201 / 16 % 16 * 16,
      event_data := Function.update (Function.update s.event_data 0 201) (0 + 1) d,
      channel_data_ptr := 201 % 16,
      stru6_ptr := 201 % 16 } rfl (by
        show Function.update (Function.update s.event_data 0 201) (0 + 1) d 0 % 16 = DRUM_CHANNEL
        rw [Function.update_noteq (by decide), Function.update_same]
        decide) rfl
  have ed : Function.update (Function.update s.event_data 0 201) (0 + 1) d 1 = d :=
    Function.update_same _ _ _
  refine ⟨t, ?_, fun k a b c => p k a b (c.trans ed.symm), fun hn => q (fun k a b => ?_)⟩
  · rw [bytes_cons _ _ _ (by decide), byte_status s 201 (by decide) (by decide),
      Option.some_bind, bytes_cons _ _ _ (by omega),
      byte_last _ 201 d 0 (by decide) hd (by simp) rfl rfl
        (Or.inl ⟨by decide, by decide, rfl⟩)]
    show (ProcessMidiData_dispatch _).bind _ = _
    rw [e]
    rfl
  · show tableAt drum_kits k ≠ Function.update (Function.update s.event_data 0 201) (0 + 1) d 1
    rw [ed]
    exact hn k a b

/-- Claim C40. In every state `s` that the module goes through after `VLSG_PlaybackStart` (by
calls of `VLSG_AddMidiData` with any bytes and by callbacks), the program number of the drum
channel is in 0..7, so it is not 135; the same holds behind any sequence of bytes given to the
dispatcher in `s`, and in all these states `StartPlayingVoice` does what
`StartPlayingVoice_fromFirst` does, which scans `dword_C0032988` from entry 0. A Program
Change on the drum channel (`C9 d`) stores the index `k` of the kit when `d` is
`drum_kits[k]`, one of 0, 8, 16, 24, 25, 32, 40, 48, and leaves the channel blocks as they are
for any other data byte `d`. -/
theorem C40_drum_program (s0 s : State) (hr : Reachable s0 s) :
    (0 ≤ (s.channel_data DRUM_CHANNEL).program_change
      ∧ (s.channel_data DRUM_CHANNEL).program_change ≤ 7)
    ∧ (s.channel_data DRUM_CHANNEL).program_change ≠ 135
    ∧ (∀ bs t, ProcessMidiData_bytes s bs = some t →
        (0 ≤ (t.channel_data DRUM_CHANNEL).program_change
          ∧ (t.channel_data DRUM_CHANNEL).program_change ≤ 7)
        ∧ ∀ vi ci si base,
          StartPlayingVoice t vi ci si base = StartPlayingVoice_fromFirst t vi ci si base)
    ∧ drum_kits = [0, 8, 16, 24, 25, 32, 40, 48]
    ∧ (∀ d, 0 ≤ d → d ≤ 127 → ∃ t, ProcessMidiData_bytes s [201, d] = some t
        ∧ (∀ k, 0 ≤ k → k < 8 → tableAt drum_kits k = d →
            (t.channel_data DRUM_CHANNEL).program_change = k)
        ∧ ((∀ k, 0 ≤ k → k < 8 → tableAt drum_kits k ≠ d) →
            t.channel_data = s.channel_data)) := by
  have h := reachable_drumInv hr
  have r : DrumRange s := h.1
  unfold DrumRange at r
  refine ⟨r, by omega, fun bs t hb => ?_, rfl, fun d a b => bytes_drum_program s d ⟨a, b⟩⟩
  have ht := (paced_bytes bs s t hb).drum h
  exact ⟨ht.1, fun vi ci si base => StartPlayingVoice_first t vi ci si base (drumOk_of_inv ht)⟩

/-- Witness of C40: the module in play has a drum program in 0..7, and the Program Change
`C9 19` stores the index 4 of the kit 25. -/
theorem C40_drum_program_witness :
    (0 ≤ (playingModule.channel_data DRUM_CHANNEL).program_change
      ∧ (playingModule.channel_data DRUM_CHANNEL).program_change ≤ 7)
    ∧ (∃ t, ProcessMidiData_bytes playingModule [201, 25] = some t
        ∧ (t.channel_data DRUM_CHANNEL).program_change = 4) := by
  have h := C40_drum_program (VLSG_SetParameter C4_module PARAMETER_Polyphony 16).1
    playingModule (Reachable.start)
  obtain ⟨t, e, p, _⟩ := h.2.2.2.2 25 (by decide) (by decide)
  exact ⟨h.1, t, e, p 4 (by decide) (by decide) (by decide)⟩

/-! ## The clock of the synthesizer (C35) -/

theorem SetMaximumVoices_time {t r : State} (mv : Int) (hr : SetMaximumVoices t mv = some r) :
    r.system_time_1 = t.system_time_1 := by
  unfold SetMaximumVoices at hr
  refine opt_map (P := fun x => x.system_time_1 = t.system_time_1) hr (fun t1 h1 => ?_)
  have a := frame_DefragmentVoices (frame_ReduceActiveVoices mv h1 (frame_refl t))
  have b : ({ (DefragmentVoices t1) with maximum_polyphony := mv } : State).system_time_1
      = t.system_time_1 := a.env.2.2.2.2.1
  exact forRange_keeps
    (fun index u => State.updVoice u index (fun w => { w with note_number := 255 }))
    (fun u : State => u.system_time_1 = t.system_time_1) mv MAX_VOICES
    (fun i u _ _ hu => hu) _ b

theorem governor_time {s r : State} (t1 t4 : Int)
    (h : VLSG_FillOutputBuffer_governor s t1 t4 = some r) :
    r.system_time_1 = s.system_time_1 := by
  unfold VLSG_FillOutputBuffer_governor at h
  lift_lets at h
  extract_lets s1 dt s2 at h
  have h2 : s2.system_time_1 = s.system_time_1 := rfl
  refine opt_ite (P := fun x => x.system_time_1 = s.system_time_1) h
    (fun a => (SetMaximumVoices_time _ a).trans h2) (fun b => ?_)
  refine opt_ite (P := fun x => x.system_time_1 = s.system_time_1) b
    (fun c => opt_ite (P := fun x => x.system_time_1 = s.system_time_1) c
      (fun a => (SetMaximumVoices_time _ a).trans h2)
      (fun a => (SetMaximumVoices_time _ a).trans h2)) (fun a => ?_)
  simp only [Option.some.injEq] at a
  rw [← a]
  exact h2

/-- The first part of `VLSG_FillOutputBuffer`, by cases: the clock is restarted, left as it
is, or corrected. -/
theorem clock_step (s : State) (c t1 : Int) :
    (ClockRestart s c t1 →
      (VLSG_FillOutputBuffer_clock s c t1).dword_C0000000 = 0
      ∧ (VLSG_FillOutputBuffer_clock s c t1).dword_C0000004 = s.dword_C0000004
      ∧ (VLSG_FillOutputBuffer_clock s c t1).dword_C0000008 = t1
      ∧ (VLSG_FillOutputBuffer_clock s c t1).system_time_1 = t1)
    ∧ (¬ ClockRestart s c t1 → s.dword_C0000000 < 512 →
      (VLSG_FillOutputBuffer_clock s c t1).dword_C0000000 = s.dword_C0000000
      ∧ (VLSG_FillOutputBuffer_clock s c t1).dword_C0000004 = s.dword_C0000004
      ∧ (VLSG_FillOutputBuffer_clock s c t1).dword_C0000008 = s.dword_C0000008
      ∧ (VLSG_FillOutputBuffer_clock s c t1).system_time_1 = s.system_time_1)
    ∧ (¬ ClockRestart s c t1 → s.dword_C0000000 ≥ 512 →
      (VLSG_FillOutputBuffer_clock s c t1).dword_C0000000 = 0
      ∧ (VLSG_FillOutputBuffer_clock s c t1).dword_C0000008
          = u32 (s.dword_C0000008 + s.dword_C0000004)
      ∧ (VLSG_FillOutputBuffer_clock s c t1).system_time_1 = s.system_time_1) := by
  unfold ClockRestart
  refine ⟨fun h => ?_, fun h hc => ?_, fun h hc => ?_⟩
  · unfold VLSG_FillOutputBuffer_clock
    simp only [if_pos h]
    rw [if_neg (by decide)]
    exact ⟨rfl, rfl, rfl, rfl⟩
  · unfold VLSG_FillOutputBuffer_clock
    simp only [if_neg h]
    rw [if_neg (by omega)]
    exact ⟨rfl, rfl, rfl, rfl⟩
  · unfold VLSG_FillOutputBuffer_clock
    simp only [if_neg h]
    rw [if_pos hc]
    exact ⟨rfl, rfl, rfl⟩

/-- The loop of `VLSG_FillOutputBuffer` that returns with `n + 1` passes returns with `n`. -/
theorem fill_loop_shorter (p : Int) : ∀ (n : Nat) (off : Int) (s : State) (mem : Int → Int)
    (r : State × (Int → Int)), VLSG_FillOutputBuffer_loop p (n + 1) off s mem = some r →
    ∃ q, VLSG_FillOutputBuffer_loop p n off s mem = some q := by
  intro n
  induction n with
  | zero => intro off s mem r _; exact ⟨(s, mem), rfl⟩
  | succ n ih =>
    intro off s mem r h
    cases hm : ProcessMidiData s with
    | none =>
      unfold VLSG_FillOutputBuffer_loop at h
      rw [hm] at h
      simp at h
    | some s1 =>
      rw [fill_loop_succ p (n + 1) off s s1 mem hm _ rfl] at h
      rw [fill_loop_succ p n off s s1 mem hm _ rfl]
      exact ih _ _ _ _ h

/-- What a callback that returns leaves of the clock: the count of passes has gone up by 4
from the state behind the first part, and `system_time_1` is the value of the last pass. -/
theorem fill_clock {s : State} {mem : Int → Int} {c t1 t4 : Int}
    {r : State × (Int → Int) × Int} (h : VLSG_FillOutputBuffer s mem c t1 t4 = some r) :
    ∃ q, VLSG_FillOutputBuffer_loop ((VLSG_FillOutputBuffer_clock s c t1).output_data_ptr
          + u32 (u32 (c % 16 * (VLSG_FillOutputBuffer_clock s c t1).output_size_para) * 16))
        4 0 (VLSG_FillOutputBuffer_clock s c t1) mem = some q
      ∧ r.1.dword_C0000000 = q.1.dword_C0000000
      ∧ r.1.dword_C0000004 = q.1.dword_C0000004
      ∧ r.1.dword_C0000008 = q.1.dword_C0000008
      ∧ r.1.system_time_1 = q.1.system_time_1 := by
  unfold VLSG_FillOutputBuffer at h
  lift_lets at h
  extract_lets s1 output_ptr at h
  split at h
  · simp at h
  · rename_i q hq
    split at h
    · simp at h
    · rename_i s2 hg
      simp only [Option.some.injEq] at h
      subst h
      have g := steady_governor _ _ hg
      exact ⟨q, hq, g.ticks, g.rate, g.base, governor_time _ _ hg⟩

/-- The value of the clock behind `k` passes, when nothing wraps: it is the sum of the base
and of the 512th part of the product of the count and the rate. -/
theorem clock_value (c d b k n : Int) (hc : 0 ≤ c) (hk : 0 ≤ k) (hkn : k ≤ n)
    (hd : 0 ≤ d) (hb : 0 ≤ b) (h1 : (c + n) * d < 4294967296)
    (h2 : (c + n) * d / 512 + b < 4294967296) (hcu : c + n < 4294967296) :
    u32 (u32 (u32 (c + k) * d) / 512 + b) = (c * d + k * d) / 512 + b
    ∧ (c * d + k * d) / 512 + b ≤ (c * d + n * d) / 512 + b := by
  have e1 : (c + n) * d = c * d + n * d := by ring
  have e2 : (c + k) * d = c * d + k * d := by ring
  have e3 : k * d ≤ n * d := Int.mul_le_mul_of_nonneg_right hkn hd
  have e4 : 0 ≤ c * d := Int.mul_nonneg hc hd
  have e5 : 0 ≤ k * d := Int.mul_nonneg hk hd
  rw [e1] at h1 h2
  have u1 : u32 (c + k) = c + k := by unfold u32; omega
  rw [u1, e2]
  generalize c * d = m at *
  generalize k * d = x at *
  generalize n * d = y at *
  unfold u32
  omega

theorem clock_value0 (c d b : Int) (hc : 0 ≤ c) (hd : 0 ≤ d) (hb : 0 ≤ b)
    (h1 : (c + 0) * d < 4294967296) (h2 : (c + 0) * d / 512 + b < 4294967296) :
    u32 (u32 (c * d) / 512 + b) = (c * d + 0 * d) / 512 + b := by
  have e1 : (c + 0) * d = c * d := by ring
  have e2 : 0 * d = 0 := by ring
  have e4 : 0 ≤ c * d := Int.mul_nonneg hc hd
  rw [e1] at h1 h2
  rw [e2]
  generalize c * d = m at *
  unfold u32
  omega

theorem clock_mono (m d b j k : Int) (hd : 0 ≤ d) (hjk : j ≤ k) :
    (m + j * d) / 512 + b ≤ (m + k * d) / 512 + b := by
  have e3 : j * d ≤ k * d := Int.mul_le_mul_of_nonneg_right hjk hd
  generalize j * d = x at *
  generalize k * d = y at *
  omega

/-- The state in which the loop of a callback starts: the count of passes is a multiple of 4
up to 508, and `system_time_1` is in step with it, when the call restarts the clock or the
clock was in step before the call. -/
theorem clock_entry (s : State) (c t1 : Int)
    (hs : ClockRestart s c t1 ∨ (ClockOk s ∧ NoWrap s 0)) :
    0 ≤ (VLSG_FillOutputBuffer_clock s c t1).dword_C0000000
    ∧ (VLSG_FillOutputBuffer_clock s c t1).dword_C0000000 ≤ 508
    ∧ (VLSG_FillOutputBuffer_clock s c t1).dword_C0000000 % 4 = 0
    ∧ (VLSG_FillOutputBuffer_clock s c t1).system_time_1
        = ((VLSG_FillOutputBuffer_clock s c t1).dword_C0000000
            * (VLSG_FillOutputBuffer_clock s c t1).dword_C0000004
          + 0 * (VLSG_FillOutputBuffer_clock s c t1).dword_C0000004) / 512
          + (VLSG_FillOutputBuffer_clock s c t1).dword_C0000008 := by
  obtain ⟨k1, k2, k3⟩ := clock_step s c t1
  by_cases hr : ClockRestart s c t1
  · obtain ⟨a, _, b, d⟩ := k1 hr
    rw [a, b, d]
    refine ⟨by decide, by decide, by decide, ?_⟩
    simp
  · obtain ⟨⟨c1, c2, c3, c4⟩, n1, n2, n3, n4⟩ := hs.resolve_left hr
    by_cases hlt : s.dword_C0000000 < 512
    · obtain ⟨a, a2, b, d⟩ := k2 hr hlt
      rw [a, a2, b, d]
      refine ⟨c2, by omega, c4, ?_⟩
      rw [c1]
      exact clock_value0 _ _ _ c2 n1 n2 n3 n4
    · obtain ⟨a, b, d⟩ := k3 hr (by omega)
      rw [a, b, d]
      refine ⟨by decide, by decide, by decide, ?_⟩
      have e : s.dword_C0000000 = 512 := by omega
      rw [c1]
      rw [e] at n3 n4 ⊢
      simp only [zero_mul, add_zero, Int.zero_ediv, zero_add]
      unfold u32
      omega

/-- The values of `system_time_1` behind the passes of a loop that starts in a state `x`
whose clock does not wrap within 4 passes. -/
theorem loop_time (p : Int) (x : State) (mem : Int → Int) (n : Nat) (k : Int)
    (q : State × (Int → Int)) (hq : VLSG_FillOutputBuffer_loop p n 0 x mem = some q)
    (hn : 1 ≤ n) (hk : (n : Int) = k) (hk4 : k ≤ 4)
    (hc : 0 ≤ x.dword_C0000000 ∧ x.dword_C0000000 ≤ 508) (hw : NoWrap x 4) :
    q.1.system_time_1
      = (x.dword_C0000000 * x.dword_C0000004 + k * x.dword_C0000004) / 512
        + x.dword_C0000008 := by
  obtain ⟨w1, w2, w3, w4⟩ := hw
  have v := ((fill_loop_clock p n 0 x mem q hq).2.2.2.2.2 hn).2.2
  rw [hk] at v
  rw [v]
  exact (clock_value _ _ _ k 4 hc.1 (by omega) hk4 w1 w2 w3 w4 (by omega)).1

/-- Claim C35 (amended). A callback that returns, and whose clock arithmetic does not wrap
(`NoWrap` of the state behind the first part of the call), in a state `s` whose clock is in
step (`ClockOk`, `NoWrap`) or with a call that restarts the clock (`ClockRestart`: the counter
is 0, or the reading `time1` is not within 200 ms after `system_time_1`, which is so when
the reading is behind `system_time_1`): the four passes of the loop return (the states `q1`,
`q2`, `q3` and `q4` behind 1, 2, 3 and 4 passes), `system_time_1` at the return is that of
`q4`, and it does not decrease from the entry of the loop to `q1`, `q2`, `q3` and `q4`. When
the call does not restart the clock, the entry value is the value before the call, so
`system_time_1` at the return is not below it; when the call restarts the clock, the entry
value is `time1` and the value at the return is `time1 + 4 * dword_C0000004 / 512`,
whatever `system_time_1` was. The clock is in step behind the call. -/
theorem C35_synthesizer_clock (s : State) (mem : Int → Int) (c t1 t4 : Int)
    (r : State × (Int → Int) × Int)
    (hf : VLSG_FillOutputBuffer s mem c t1 t4 = some r)
    (hs : ClockRestart s c t1 ∨ (ClockOk s ∧ NoWrap s 0))
    (hw : NoWrap (VLSG_FillOutputBuffer_clock s c t1) 4) :
    ∃ q1 q2 q3 q4 : State × (Int → Int),
      VLSG_FillOutputBuffer_loop ((VLSG_FillOutputBuffer_clock s c t1).output_data_ptr
          + u32 (u32 (c % 16 * (VLSG_FillOutputBuffer_clock s c t1).output_size_para) * 16))
        1 0 (VLSG_FillOutputBuffer_clock s c t1) mem = some q1
      ∧ VLSG_FillOutputBuffer_loop ((VLSG_FillOutputBuffer_clock s c t1).output_data_ptr
          + u32 (u32 (c % 16 * (VLSG_FillOutputBuffer_clock s c t1).output_size_para) * 16))
        2 0 (VLSG_FillOutputBuffer_clock s c t1) mem = some q2
      ∧ VLSG_FillOutputBuffer_loop ((VLSG_FillOutputBuffer_clock s c t1).output_data_ptr
          + u32 (u32 (c % 16 * (VLSG_FillOutputBuffer_clock s c t1).output_size_para) * 16))
        3 0 (VLSG_FillOutputBuffer_clock s c t1) mem = some q3
      ∧ VLSG_FillOutputBuffer_loop ((VLSG_FillOutputBuffer_clock s c t1).output_data_ptr
          + u32 (u32 (c % 16 * (VLSG_FillOutputBuffer_clock s c t1).output_size_para) * 16))
        4 0 (VLSG_FillOutputBuffer_clock s c t1) mem = some q4
      ∧ r.1.system_time_1 = q4.1.system_time_1
      ∧ (VLSG_FillOutputBuffer_clock s c t1).system_time_1 ≤ q1.1.system_time_1
      ∧ q1.1.system_time_1 ≤ q2.1.system_time_1
      ∧ q2.1.system_time_1 ≤ q3.1.system_time_1
      ∧ q3.1.system_time_1 ≤ q4.1.system_time_1
      ∧ (¬ ClockRestart s c t1 →
          (VLSG_FillOutputBuffer_clock s c t1).system_time_1 = s.system_time_1
          ∧ s.system_time_1 ≤ r.1.system_time_1)
      ∧ (ClockRestart s c t1 →
          (VLSG_FillOutputBuffer_clock s c t1).system_time_1 = t1
          ∧ r.1.system_time_1 = t1 + 4 * s.dword_C0000004 / 512)
      ∧ ClockOk r.1 ∧ NoWrap r.1 0 := by
  obtain ⟨q4, hq4, e0, e1, e2, e3⟩ := fill_clock hf
  obtain ⟨q3, hq3⟩ := fill_loop_shorter _ 3 0 _ mem q4 hq4
  obtain ⟨q2, hq2⟩ := fill_loop_shorter _ 2 0 _ mem q3 hq3
  obtain ⟨q1, hq1⟩ := fill_loop_shorter _ 1 0 _ mem q2 hq2
  obtain ⟨b1, b2, b3, b4⟩ := clock_entry s c t1 hs
  have v1 := loop_time _ _ mem 1 1 q1 hq1 (by decide) rfl (by decide) ⟨b1, b2⟩ hw
  have v2 := loop_time _ _ mem 2 2 q2 hq2 (by decide) rfl (by decide) ⟨b1, b2⟩ hw
  have v3 := loop_time _ _ mem 3 3 q3 hq3 (by decide) rfl (by decide) ⟨b1, b2⟩ hw
  have v4 := loop_time _ _ mem 4 4 q4 hq4 (by decide) rfl (by decide) ⟨b1, b2⟩ hw
  obtain ⟨f1, f2, f3, f4, f5, f6⟩ := fill_loop_clock _ 4 0 _ mem q4 hq4
  obtain ⟨g1, g2, g3⟩ := f6 (by decide)
  obtain ⟨w1, w2, w3, w4⟩ := hw
  obtain ⟨k1, k2, k3⟩ := clock_step s c t1
  have m01 := clock_mono ((VLSG_FillOutputBuffer_clock s c t1).dword_C0000000
    * (VLSG_FillOutputBuffer_clock s c t1).dword_C0000004) _
    (VLSG_FillOutputBuffer_clock s c t1).dword_C0000008 0 1 w1 (by decide)
  have m12 := clock_mono ((VLSG_FillOutputBuffer_clock s c t1).dword_C0000000
    * (VLSG_FillOutputBuffer_clock s c t1).dword_C0000004) _
    (VLSG_FillOutputBuffer_clock s c t1).dword_C0000008 1 2 w1 (by decide)
  have m23 := clock_mono ((VLSG_FillOutputBuffer_clock s c t1).dword_C0000000
    * (VLSG_FillOutputBuffer_clock s c t1).dword_C0000004) _
    (VLSG_FillOutputBuffer_clock s c t1).dword_C0000008 2 3 w1 (by decide)
  have m34 := clock_mono ((VLSG_FillOutputBuffer_clock s c t1).dword_C0000000
    * (VLSG_FillOutputBuffer_clock s c t1).dword_C0000004) _
    (VLSG_FillOutputBuffer_clock s c t1).dword_C0000008 3 4 w1 (by decide)
  have m04 := clock_mono ((VLSG_FillOutputBuffer_clock s c t1).dword_C0000000
    * (VLSG_FillOutputBuffer_clock s c t1).dword_C0000004) _
    (VLSG_FillOutputBuffer_clock s c t1).dword_C0000008 0 4 w1 (by decide)
  have u4 : u32 ((VLSG_FillOutputBuffer_clock s c t1).dword_C0000000 + ((4 : Nat) : Int))
      = (VLSG_FillOutputBuffer_clock s c t1).dword_C0000000 + 4 := by
    unfold u32
    push_cast
    omega
  refine ⟨q1, q2, q3, q4, hq1, hq2, hq3, hq4, e3, ?_, ?_, ?_, ?_, ?_, ?_, ?_, ?_⟩
  · rw [v1, b4]; exact m01
  · rw [v1, v2]; exact m12
  · rw [v2, v3]; exact m23
  · rw [v3, v4]; exact m34
  · intro hr
    have a : (VLSG_FillOutputBuffer_clock s c t1).system_time_1 = s.system_time_1 := by
      by_cases hlt : s.dword_C0000000 < 512
      · exact (k2 hr hlt).2.2.2
      · exact (k3 hr (by omega)).2.2
    refine ⟨a, ?_⟩
    rw [← a, e3, v4, b4]
    exact m04
  · intro hr
    obtain ⟨a, a2, b, d⟩ := k1 hr
    refine ⟨d, ?_⟩
    rw [e3, v4, a, a2, b]
    simp only [zero_mul, zero_add]
    omega
  · refine ⟨?_, ?_, ?_, ?_⟩
    · rw [e3, e0, e1, e2, g3, g2, f1, f2]
    · rw [e0, g2, u4]; omega
    · rw [e0, g2, u4]; omega
    · rw [e0, g2, u4]; omega
  · refine ⟨?_, ?_, ?_, ?_⟩
    · rw [e1, f1]; exact w1
    · rw [e2, f2]; exact w2
    · rw [e0, e1, g2, f1, u4, add_zero]; exact w3
    · rw [e0, e1, e2, g2, f1, f2, u4, add_zero]; exact w4

theorem start_rate (s0 : State) : (VLSG_PlaybackStart s0).1.dword_C0000004 = 2972 := by
  rw [PlaybackStart_eq]

/-- A callback in a live state that restarts the clock: the clock words behind it. -/
theorem fill_clock_restart (s : State) (mem : Int → Int) (c t1 t4 d : Int) (hl : Live s)
    (hd : s.dword_C0000004 = d) (hk : ClockRestart s c t1) :
    ∃ r, VLSG_FillOutputBuffer s mem c t1 t4 = some r ∧ Live r.1
      ∧ r.1.dword_C0000000 = u32 (0 + 4) ∧ r.1.dword_C0000004 = d
      ∧ r.1.dword_C0000008 = t1
      ∧ r.1.system_time_1 = u32 (u32 (u32 (0 + 4) * d) / 512 + t1) := by
  obtain ⟨r, hr, hlr⟩ := fill_returns s mem c t1 t4 hl
  obtain ⟨q4, hq4, e0, e1, e2, e3⟩ := fill_clock hr
  obtain ⟨f1, f2, _, _, _, f6⟩ := fill_loop_clock _ 4 0 _ mem q4 hq4
  obtain ⟨_, g2, g3⟩ := f6 (by decide)
  obtain ⟨a, a2, b, _⟩ := (clock_step s c t1).1 hk
  refine ⟨r, hr, hlr, ?_, ?_, ?_, ?_⟩
  · rw [e0, g2, a]; rfl
  · rw [e1, f1, a2, hd]
  · rw [e2, f2, b]
  · rw [e3, g3, a, a2, b, hd]; rfl

/-- A callback in a live state that goes on with the clock: the clock words behind it. -/
theorem fill_clock_next (s : State) (mem : Int → Int) (c t1 t4 c0 d b : Int) (hl : Live s)
    (hc : s.dword_C0000000 = c0) (hd : s.dword_C0000004 = d) (hb : s.dword_C0000008 = b)
    (hlt : c0 < 512) (hk : ¬ ClockRestart s c t1) :
    ∃ r, VLSG_FillOutputBuffer s mem c t1 t4 = some r ∧ Live r.1
      ∧ r.1.dword_C0000000 = u32 (c0 + 4) ∧ r.1.dword_C0000004 = d
      ∧ r.1.dword_C0000008 = b
      ∧ r.1.system_time_1 = u32 (u32 (u32 (c0 + 4) * d) / 512 + b) := by
  obtain ⟨r, hr, hlr⟩ := fill_returns s mem c t1 t4 hl
  obtain ⟨q4, hq4, e0, e1, e2, e3⟩ := fill_clock hr
  obtain ⟨f1, f2, _, _, _, f6⟩ := fill_loop_clock _ 4 0 _ mem q4 hq4
  obtain ⟨_, g2, g3⟩ := f6 (by decide)
  obtain ⟨a, a2, b', _⟩ := (clock_step s c t1).2.1 hk (by omega)
  refine ⟨r, hr, hlr, ?_, ?_, ?_, ?_⟩
  · rw [e0, g2, a, hc]; rfl
  · rw [e1, f1, a2, hd]
  · rw [e2, f2, b', hb]
  · rw [e3, g3, a, a2, b', hc, hd, hb]; rfl

theorem runFills_cons (s : State) (mem : Int → Int) (c t1 t4 : Int)
    (rest : List (Int × Int × Int)) (r : State × (Int → Int) × Int)
    (h : VLSG_FillOutputBuffer s mem c t1 t4 = some r) :
    runFills s mem ((c, t1, t4) :: rest) = runFills r.1 r.2.1 rest := by
  rw [runFills]
  dsimp only
  rw [h]

/-- Counterexample to C35. The module in play is called five times with the counters 0 to 4
and the readings 1000, 1023, 1046, 1069 and 1092 of the clock: `system_time_1` is 1116
behind the fifth call. A sixth call with the counter 5 and the reading 1092 again (the
readings do not decrease) finds the reading 24 ms behind `system_time_1`, restarts the clock
and leaves `system_time_1` = 1115, which is less than 1116. -/
theorem C35_counterexample :
    (runFills playingModule (fun _ => 0) C35_calls).map (fun r => r.1.system_time_1)
      = some 1116
    ∧ (runFills playingModule (fun _ => 0) (C35_calls ++ [(5, 1092, 1092)])).map
        (fun r => r.1.system_time_1) = some 1115 := by
  obtain ⟨r1, h1, l1, c1, d1, b1, s1⟩ := fill_clock_restart playingModule (fun _ => 0)
    0 1000 1000 2972 playing_live (start_rate _) (Or.inl rfl)
  have c1' : r1.1.dword_C0000000 = 4 := c1.trans (by decide)
  have s1' : r1.1.system_time_1 = 1023 := s1.trans (by decide)
  obtain ⟨r2, h2, l2, c2, d2, b2, s2⟩ := fill_clock_next r1.1 r1.2.1 1 1023 1023 4 2972 1000
    l1 c1' d1 b1 (by decide) (by unfold ClockRestart; rw [s1']; decide)
  have c2' : r2.1.dword_C0000000 = 8 := c2.trans (by decide)
  have s2' : r2.1.system_time_1 = 1046 := s2.trans (by decide)
  obtain ⟨r3, h3, l3, c3, d3, b3, s3⟩ := fill_clock_next r2.1 r2.2.1 2 1046 1046 8 2972 1000
    l2 c2' d2 b2 (by decide) (by unfold ClockRestart; rw [s2']; decide)
  have c3' : r3.1.dword_C0000000 = 12 := c3.trans (by decide)
  have s3' : r3.1.system_time_1 = 1069 := s3.trans (by decide)
  obtain ⟨r4, h4, l4, c4, d4, b4, s4⟩ := fill_clock_next r3.1 r3.2.1 3 1069 1069 12 2972 1000
    l3 c3' d3 b3 (by decide) (by unfold ClockRestart; rw [s3']; decide)
  have c4' : r4.1.dword_C0000000 = 16 := c4.trans (by decide)
  have s4' : r4.1.system_time_1 = 1092 := s4.trans (by decide)
  obtain ⟨r5, h5, l5, c5, d5, b5, s5⟩ := fill_clock_next r4.1 r4.2.1 4 1092 1092 16 2972 1000
    l4 c4' d4 b4 (by decide) (by unfold ClockRestart; rw [s4']; decide)
  have s5' : r5.1.system_time_1 = 1116 := s5.trans (by decide)
  obtain ⟨r6, h6, _, _, _, _, s6⟩ := fill_clock_restart r5.1 r5.2.1 5 1092 1092 2972 l5 d5
    (by unfold ClockRestart; rw [s5']; decide)
  have s6' : r6.1.system_time_1 = 1115 := s6.trans (by decide)
  constructor
  · unfold C35_calls
    rw [runFills_cons _ _ _ _ _ _ _ h1, runFills_cons _ _ _ _ _ _ _ h2,
      runFills_cons _ _ _ _ _ _ _ h3, runFills_cons _ _ _ _ _ _ _ h4,
      runFills_cons _ _ _ _ _ _ _ h5]
    show some r5.1.system_time_1 = some 1116
    rw [s5']
  · unfold C35_calls
    rw [List.cons_append, List.cons_append, List.cons_append, List.cons_append,
      List.cons_append, List.nil_append,
      runFills_cons _ _ _ _ _ _ _ h1, runFills_cons _ _ _ _ _ _ _ h2,
      runFills_cons _ _ _ _ _ _ _ h3, runFills_cons _ _ _ _ _ _ _ h4,
      runFills_cons _ _ _ _ _ _ _ h5, runFills_cons _ _ _ _ _ _ _ h6]
    show some r6.1.system_time_1 = some 1115
    rw [s6']

/-- Witness of C35: the first callback of the module in play, with the counter 0 and the
reading 1000, leaves `system_time_1` = 1000 + 4 * 2972 / 512. -/
theorem C35_synthesizer_clock_witness :
    ∃ r, VLSG_FillOutputBuffer playingModule (fun _ => 0) 0 1000 1000 = some r
      ∧ r.1.system_time_1 = 1000 + 4 * playingModule.dword_C0000004 / 512
      ∧ ClockOk r.1 := by
  obtain ⟨r, hr, _⟩ := fill_returns playingModule (fun _ => 0) 0 1000 1000 playing_live
  obtain ⟨a, a2, b, _⟩ := (clock_step playingModule 0 1000).1 (Or.inl rfl)
  have hw : NoWrap (VLSG_FillOutputBuffer_clock playingModule 0 1000) 4 := by
    unfold NoWrap
    rw [a, a2, b, show playingModule.dword_C0000004 = 2972 from start_rate _]
    decide
  obtain ⟨_, _, _, _, _, _, _, _, _, _, _, _, _, _, h, k, _⟩ :=
    C35_synthesizer_clock playingModule (fun _ => 0) 0 1000 1000 r hr (Or.inl (Or.inl rfl)) hw
  exact ⟨r, hr, (h (Or.inl rfl)).2, k⟩

/-! ## The bound of the event buffer (C36) -/

theorem eventKept_refl (s : State) (k : Int) (h0 : 0 ≤ s.event_length) (hk : 0 ≤ k) :
    EventKept k s s :=
  ⟨fun _ _ => rfl, h0, by omega⟩

theorem eventKept_trans {a b c : State} {j k : Int} (h1 : EventKept j a b)
    (h2 : EventKept k b c) : EventKept (j + k) a c := by
  obtain ⟨p1, p2, p3⟩ := h1
  obtain ⟨q1, q2, q3⟩ := h2
  exact ⟨fun i hi => (q1 i hi).trans (p1 i hi), q2, by omega⟩

/-- The dispatcher leaves `event_data` and sets `event_length` to 0. -/
theorem eventKept_dispatch {s t : State} (h : ProcessMidiData_dispatch s = some t) :
    t.event_data = s.event_data ∧ t.event_length = 0 := by
  obtain ⟨u, hu, e⟩ := dispatch_steady h
  subst e
  exact ⟨hu.ev.2.1, rfl⟩

/-- One byte taken by the loop of `ProcessMidiData`, while `event_length` is below
`INT32_MAX`: a place of `event_data` outside 0 to 31 is not written. -/
theorem byte_bound {s t : State} (v : Int) (h : ProcessMidiData_byte s v = some t)
    (h0 : 0 ≤ s.event_length) (hl : s.event_length < 2147483647) : EventKept 1 s t := by
  by_cases h1 : v > 247
  · unfold ProcessMidiData_byte at h
    rw [if_pos h1] at h
    exact opt_some _ t (eventKept_refl s 1 h0 (by decide)) h
  by_cases h2 : v = 247
  · unfold ProcessMidiData_byte at h
    rw [if_neg h1, if_pos h2] at h
    by_cases c0 : s.event_data 0 ≠ 240
    · rw [if_pos c0] at h
      exact opt_some _ t (eventKept_refl s 1 h0 (by decide)) h
    · rw [if_neg c0] at h
      obtain ⟨a, b⟩ := eventKept_dispatch h
      exact ⟨fun i _ => by rw [a], by omega, by omega⟩
  by_cases h3 : v / 128 % 2 ≠ 0
  · rw [byte_high s v h1 h2 h3] at h
    refine opt_some (P := fun x => EventKept 1 s x) _ t ⟨fun i hi => ?_, le_refl _, ?_⟩ h
    · exact Function.update_noteq (by omega) _ _
    · show (0 : Int) ≤ s.event_length + 1
      omega
  · have e1 : i32 (s.event_length + 1) = s.event_length + 1 := by unfold i32; omega
    rw [byte_low s v (s.event_length + 1) h1 h2 h3 e1] at h
    have k1 : EventKept 1 s { s with event_length := s.event_length + 1 } :=
      ⟨fun _ _ => rfl, by show (0 : Int) ≤ s.event_length + 1; omega, le_refl _⟩
    by_cases c1 : s.event_length + 1 ≥ 32
    · rw [if_pos c1] at h
      exact opt_some _ t k1 h
    · rw [if_neg c1] at h
      have k2 : EventKept 1 s { s with
          event_length := s.event_length + 1,
          event_data := Function.update s.event_data (s.event_length + 1) v } :=
        ⟨fun i hi => Function.update_noteq (by omega) _ _,
          by show (0 : Int) ≤ s.event_length + 1; omega, le_refl _⟩
      refine opt_ite (P := fun x => EventKept 1 s x) h (opt_some _ t k2) (fun h4 => ?_)
      refine opt_ite (P := fun x => EventKept 1 s x) h4 (opt_some _ t k2) (fun h5 => ?_)
      obtain ⟨a, b⟩ := eventKept_dispatch h5
      refine ⟨fun i hi => ?_, by omega, by omega⟩
      rw [a]
      exact Function.update_noteq (by omega) _ _

theorem bytes_bound : ∀ (bs : List Int) (s t : State), ProcessMidiData_bytes s bs = some t →
    0 ≤ s.event_length → s.event_length + bs.length < 2147483648 →
    EventKept bs.length s t := by
  intro bs
  induction bs with
  | nil =>
    intro s t h h0 _
    exact opt_some _ t (eventKept_refl s _ h0 (by simp)) h
  | cons b bs ih =>
    intro s t h h0 hl
    rw [List.length_cons] at hl ⊢
    push_cast at hl ⊢
    unfold ProcessMidiData_bytes at h
    refine opt_ite (P := fun x => EventKept ((bs.length : Int) + 1) s x) h
      (opt_some _ t (eventKept_refl s _ h0 (by omega))) (fun h2 => ?_)
    cases hb : ProcessMidiData_byte s b with
    | none => rw [hb] at h2; simp at h2
    | some s1 =>
      rw [hb] at h2
      have k1 := byte_bound b hb h0 (by omega)
      have k2 := ih s1 t h2 k1.2.1 (by have := k1.2.2; omega)
      have k3 := eventKept_trans k1 k2
      rw [add_comm] at k3
      exact k3

theorem loop_bound : ∀ (n : Nat) (s t : State), ProcessMidiData_loop n s = some t →
    0 ≤ s.event_length → s.event_length + n < 2147483648 → EventKept n s t := by
  intro n
  induction n with
  | zero => intro s t h; simp [ProcessMidiData_loop] at h
  | succ n ih =>
    intro s t h h0 hl
    push_cast at hl ⊢
    unfold ProcessMidiData_loop at h
    have g := (steady_GetValue (steady_refl s)).ev
    have hg : EventKept 0 s (GetValueFromMidiDataBuffer s).1 :=
      ⟨fun i _ => by rw [g.2.1], by rw [g.2.2.2]; exact h0, by rw [g.2.2.2]; omega⟩
    refine opt_ite (P := fun x => EventKept ((n : Int) + 1) s x) h
      (opt_some _ t ⟨hg.1, hg.2.1, by have := hg.2.2; omega⟩) (fun h2 => ?_)
    cases hb : ProcessMidiData_byte (GetValueFromMidiDataBuffer s).1
        (GetValueFromMidiDataBuffer s).2 with
    | none => rw [hb] at h2; simp at h2
    | some s1 =>
      rw [hb] at h2
      have k1 := byte_bound _ hb hg.2.1 (by have := hg.2.2; omega)
      have k2 := ih s1 t h2 k1.2.1 (by have := k1.2.2; have := hg.2.2; omega)
      have k3 := eventKept_trans hg (eventKept_trans k1 k2)
      rw [zero_add, add_comm] at k3
      exact k3

/-- The content of `event_data` when the dispatcher has taken `F0 ds`: the bytes of `ds`
behind the 31st are not in it. -/
theorem sysex_stored (s : State) (ds : List Int) :
    (sysexState s ds).event_data = (sysexState s (ds.take 31)).event_data
    ∧ (sysexState s ds).event_data 0 = 240
    ∧ (∀ k : Int, 1 ≤ k → k ≤ 31 → k ≤ ds.length →
        (sysexState s ds).event_data k = ds.getD (k - 1).toNat 0)
    ∧ (∀ k : Int, k < 0 ∨ 32 ≤ k → (sysexState s ds).event_data k = s.event_data k) := by
  refine ⟨?_, ?_, ?_, ?_⟩
  · funext k
    show storeData (Function.update s.event_data 0 240) 0 ds k
      = storeData (Function.update s.event_data 0 240) 0 (ds.take 31) k
    rw [storeData_get, storeData_get, List.length_take]
    by_cases hk : 0 < k ∧ k ≤ 0 + (ds.length : Int) ∧ k < 32
    · rw [if_pos hk, if_pos (by omega)]
      have hlt : (k - 0 - 1).toNat < 31 := by omega
      rw [List.getD_eq_getElem?_getD, List.getD_eq_getElem?_getD,
        List.getElem?_take_of_lt hlt]
    · rw [if_neg hk, if_neg (by omega)]
  · show storeData (Function.update s.event_data 0 240) 0 ds 0 = 240
    rw [storeData_zero _ _ _ (le_refl _), Function.update_same]
  · intro k k1 k2 k3
    show storeData (Function.update s.event_data 0 240) 0 ds k = _
    rw [storeData_get, if_pos (by omega), show k - 0 - 1 = k - 1 by ring]
  · intro k hk
    show storeData (Function.update s.event_data 0 240) 0 ds k = _
    rw [storeData_get, if_neg (by omega), Function.update_noteq (by omega)]

/-- A system exclusive message of `INT32_MAX` data bytes and one more: `event_length` wraps
to `INT32_MIN`, which is below 32, and the byte is stored at that place. -/
theorem sysex_overflow (s : State) (n : Nat) (v : Int) (hn : (n : Int) = 2147483647)
    (hv : 0 ≤ v ∧ v ≤ 127) :
    ProcessMidiData_bytes s (240 :: (List.replicate n 0 ++ [v]))
      = some { s with
          event_length := -2147483648,
          event_type := 240,
          event_data := Function.update
            (storeData (Function.update s.event_data 0 240) 0 (List.replicate n 0))
            (-2147483648) v,
          channel_data_ptr := 0,
          stru6_ptr := 0 } := by
  have hd : ∀ d ∈ List.replicate n (0 : Int), 0 ≤ d ∧ d ≤ 127 := by
    intro d hd
    rw [List.eq_of_mem_replicate hd]
    decide
  have hlen : ((List.replicate n (0 : Int)).length : Int) = 2147483647 := by
    rw [List.length_replicate, hn]
  rw [bytes_cons _ _ _ (by decide), byte_status s 240 (by decide) (by decide),
    Option.some_bind, bytes_sysex (List.replicate n 0) _ [v] hd
      (by simp) (le_refl _) (by
        show (0 : Int) + ((List.replicate n (0 : Int)).length : Int) < 2147483648
        rw [hlen]
        decide),
    bytes_cons _ _ _ (by omega),
    byte_low _ v (-2147483648) (by omega) (by omega) (by omega) (by
      show i32 ((0 : Int) + ((List.replicate n (0 : Int)).length : Int) + 1) = -2147483648
      rw [hlen]
      decide),
    if_neg (by decide), if_pos]
  · rfl
  · rw [Function.update_noteq (by decide)]
    show storeData (Function.update s.event_data 0 240) 0 (List.replicate n 0) 0 = 240
    rw [storeData_zero _ _ _ (le_refl _), Function.update_same]

theorem length_setC4 (x : State) (v K : Int) (h : x.event_length = K) :
    ({ x with dword_C0000004 := v } : State).event_length = K := h

theorem data_setC4 (x : State) (v : Int) (e : Int → Int) (h : x.event_data = e) :
    ({ x with dword_C0000004 := v } : State).event_data = e := h

theorem start_length (s0 : State) : (VLSG_PlaybackStart s0).1.event_length = 0 := by
  rw [PlaybackStart_eq]
  exact length_setC4 _ _ _ ((steady_InitializeStructures _).ev.2.2.2.trans rfl)

theorem start_data (s0 : State) : (VLSG_PlaybackStart s0).1.event_data = s0.event_data := by
  rw [PlaybackStart_eq]
  exact data_setC4 _ _ _ ((steady_InitializeStructures _).ev.2.1.trans rfl)

/-- The bound of the event buffer for the messages that the `int32_t` counter
`event_length` can count. The loop of `ProcessMidiData` on the bytes `bs`, in a state whose
`event_length` is not negative, writes `event_data` at the places 0 to 31 only, as long as
`event_length` stays below `2^31` (it goes up by 1 at most with each byte): every other
place holds what it held. The same is so for `ProcessMidiData` on the ring buffer, which
takes 13108 bytes at most. For a system exclusive message `F0 ds F7` of fewer than `2^31`
data bytes, the data bytes behind the 31st are not stored (`event_data` is what the first
31 data bytes alone would leave: `F0` at the place 0, the data byte `k` at the place `k`,
nothing at a place of 32 or more), and at `F7` the dispatcher calls `SystemExclusive` in the
state `sysexState s ds` that holds this content. -/
theorem event_buffer_bound (s : State) (bs : List Int) (t : State)
    (hb : ProcessMidiData_bytes s bs = some t) (h0 : 0 ≤ s.event_length)
    (hl : s.event_length + bs.length < 2147483648) :
    (∀ i : Int, i < 0 ∨ 32 ≤ i → t.event_data i = s.event_data i)
    ∧ (∀ u, ProcessMidiData s = some u → s.event_length + 13108 < 2147483648 →
        ∀ i : Int, i < 0 ∨ 32 ≤ i → u.event_data i = s.event_data i)
    ∧ (∀ ds rest : List Int, (∀ d ∈ ds, 0 ≤ d ∧ d ≤ 127) → (ds.length : Int) < 2147483648 →
        ProcessMidiData_bytes s (240 :: (ds ++ 247 :: rest))
          = ((SystemExclusive (sysexState s ds)).map
              (fun x => { x with event_length := 0 })).bind
              (fun x => ProcessMidiData_bytes x rest)
        ∧ (sysexState s ds).event_data = (sysexState s (ds.take 31)).event_data
        ∧ (sysexState s ds).event_data 0 = 240
        ∧ (∀ k : Int, 1 ≤ k → k ≤ 31 → k ≤ ds.length →
            (sysexState s ds).event_data k = ds.getD (k - 1).toNat 0)
        ∧ (∀ k : Int, k < 0 ∨ 32 ≤ k → (sysexState s ds).event_data k = s.event_data k)) := by
  refine ⟨(bytes_bound bs s t hb h0 hl).1, fun u hu hm => ?_, fun ds rest hd hm => ?_⟩
  · exact (loop_bound 13108 s u hu h0 (by push_cast; omega)).1
  · obtain ⟨a, b, c, d⟩ := sysex_stored s ds
    refine ⟨?_, a, b, c, d⟩
    rw [bytes_sysex_message s ds rest hd hm]
    show (ProcessMidiData_dispatch (sysexState s ds)).bind _ = _
    rw [dispatch_sysex _ rfl]

/-- The bound of the event buffer in the module in play: the status byte `90` is taken, and
of a system exclusive message with 40 data bytes 7 the first 31 are stored, at the places 1
to 31, and no place behind 31 is written. -/
theorem event_buffer_bound_sysex :
    (∃ t, ProcessMidiData_bytes playingModule [144] = some t
      ∧ ∀ i : Int, i < 0 ∨ 32 ≤ i → t.event_data i = playingModule.event_data i)
    ∧ (sysexState playingModule (List.replicate 40 7)).event_data
        = (sysexState playingModule (List.replicate 31 7)).event_data
    ∧ (sysexState playingModule (List.replicate 40 7)).event_data 31 = 7
    ∧ (∀ k : Int, k < 0 ∨ 32 ≤ k →
        (sysexState playingModule (List.replicate 40 7)).event_data k
          = playingModule.event_data k) := by
  have h : ProcessMidiData_bytes playingModule [144] = some { playingModule with
      event_length := 0,
      event_type := 144 / 16 % 16 * 16,
      event_data := Function.update playingModule.event_data 0 144,
      channel_data_ptr := 144 % 16,
      stru6_ptr := 144 % 16 } := by
    rw [bytes_cons _ _ _ (by decide), byte_status _ 144 (by decide) (by decide)]
    rfl
  have h0 : playingModule.event_length = 0 := start_length _
  obtain ⟨a, _, c⟩ := event_buffer_bound playingModule [144] _ h (by rw [h0])
    (by rw [h0]; decide)
  obtain ⟨_, c1, _, c3, c4⟩ := c (List.replicate 40 7) []
    (fun d hd => by rw [List.eq_of_mem_replicate hd]; omega) (by decide)
  exact ⟨⟨_, h, a⟩, c1, (c3 31 (by omega) (by omega) (by decide)).trans (by decide), c4⟩

/-- Claim C36 at the input on which the guard `event_length >= 32` fails. The module in
play takes the system exclusive message that starts with `F0` and `2^31 - 1` data bytes 0,
then the data byte 5: the `int32_t` counter `event_length` is incremented at `INT32_MAX` and
goes to `INT32_MIN`, the test `event_length >= 32` is false, and the byte 5 is stored at
`event_data[-2147483648]`, a place outside the 32 bytes of the array. -/
theorem C36_event_length_overflow :
    (ProcessMidiData_bytes playingModule (240 :: (List.replicate 2147483647 0 ++ [5]))).map
        (fun t => (t.event_length, t.event_data (-2147483648)))
      = some (-2147483648, 5)
    ∧ playingModule.event_data (-2147483648) = 0 := by
  constructor
  · rw [sysex_overflow playingModule 2147483647 5 (by norm_num) (by decide)]
    rw [Option.map_some']
    dsimp only
    rw [Function.update_same]
  · have e : playingModule.event_data = fun _ => 0 := by
      unfold playingModule
      rw [start_data]
      rfl
    rw [e]

/-! ## A record that is not complete (C37) -/

/-- The call with 1 to 4 bytes pending: no byte is delivered and the read index goes to the
write index. -/
theorem getValue_short (s : State) (h : ringOk s) (h1 : 1 ≤ pendingBytes s)
    (h4 : pendingBytes s ≤ 4) :
    GetValueFromMidiDataBuffer s
      = ({ s with midi_data_read_index := s.midi_data_write_index }, 255) := by
  have h0 : ¬ s.midi_data_write_index = s.midi_data_read_index := by
    obtain ⟨a1, a2, a3, a4⟩ := h
    unfold pendingBytes at h1
    omega
  unfold GetValueFromMidiDataBuffer
  rw [if_neg h0, time_loop_short s h h1 (by omega)]

/-- Five bytes written behind the read index: they are the four bytes of the time stamp and
the MIDI byte of the pending record. -/
theorem stored_five (s : State) (b x1 x2 x3 x4 : Int) (rest : List Int) (h : ringOk s)
    (hs : StoredBytes s.midi_data_buffer s.midi_data_read_index
      (b :: x1 :: x2 :: x3 :: x4 :: rest)) :
    recordTime s = b + 256 * x1 + 65536 * x2 + 16777216 * x3 ∧ recordByte s = x4 := by
  obtain ⟨h1, h2, _, _⟩ := h
  simp only [StoredBytes] at hs
  obtain ⟨s0, s1, s2, s3, s4, _⟩ := hs
  have a0 : (s.midi_data_read_index + 0) % 65536 = s.midi_data_read_index % 65536 := by omega
  have a2 : (s.midi_data_read_index + 1 + 1) = s.midi_data_read_index + 2 := by ring
  have a3 : (s.midi_data_read_index + 2 + 1) = s.midi_data_read_index + 3 := by ring
  have a4 : (s.midi_data_read_index + 3 + 1) = s.midi_data_read_index + 4 := by ring
  rw [a2] at s2
  rw [a2, a3] at s3
  rw [a2, a3, a4] at s4
  unfold recordTime recordByte pendingByte
  rw [a0, s0, s1, s2, s3, s4]
  exact ⟨rfl, rfl⟩

/-- Claim C37. With 1 to 4 bytes pending in the ring buffer, `GetValueFromMidiDataBuffer`
returns `0xFF` and sets the read index to the write index, so that nothing is pending. A
byte `b` written after that is at the read index, where the next call expects the low byte
of a time stamp: alone it is taken in the same way (`0xFF`, and the read index moves behind
it), and with four or more bytes `x1`, `x2`, `x3`, `x4` written behind it the pending record
has the time stamp `b + 256 * x1 + 65536 * x2 + 16777216 * x3` and the MIDI byte `x4`. -/
theorem C37_partial_record (s : State) (h : ringOk s) (h1 : 1 ≤ pendingBytes s)
    (h4 : pendingBytes s ≤ 4) :
    GetValueFromMidiDataBuffer s
      = ({ s with midi_data_read_index := s.midi_data_write_index }, 255)
    ∧ (GetValueFromMidiDataBuffer s).1.midi_data_read_index
        = (GetValueFromMidiDataBuffer s).1.midi_data_write_index
    ∧ pendingBytes (GetValueFromMidiDataBuffer s).1 = 0
    ∧ (∀ b : Int, 0 ≤ b → b < 256 →
        pendingBytes (VLSG_AddMidiData (GetValueFromMidiDataBuffer s).1 [b]) = 1
        ∧ pendingByte (VLSG_AddMidiData (GetValueFromMidiDataBuffer s).1 [b]) 0 = b
        ∧ GetValueFromMidiDataBuffer (VLSG_AddMidiData (GetValueFromMidiDataBuffer s).1 [b])
          = ({ VLSG_AddMidiData (GetValueFromMidiDataBuffer s).1 [b] with
              midi_data_read_index
                := (VLSG_AddMidiData (GetValueFromMidiDataBuffer s).1 [b]).midi_data_write_index },
            255))
    ∧ (∀ (b x1 x2 x3 x4 : Int) (rest : List Int),
        (∀ c ∈ b :: x1 :: x2 :: x3 :: x4 :: rest, 0 ≤ c ∧ c < 256) →
        5 + (rest.length : Int) < 65536 →
        pendingBytes (VLSG_AddMidiData (GetValueFromMidiDataBuffer s).1
            (b :: x1 :: x2 :: x3 :: x4 :: rest)) = 5 + rest.length
        ∧ recordTime (VLSG_AddMidiData (GetValueFromMidiDataBuffer s).1
            (b :: x1 :: x2 :: x3 :: x4 :: rest))
          = b + 256 * x1 + 65536 * x2 + 16777216 * x3
        ∧ recordByte (VLSG_AddMidiData (GetValueFromMidiDataBuffer s).1
            (b :: x1 :: x2 :: x3 :: x4 :: rest)) = x4) := by
  have e := getValue_short s h h1 h4
  obtain ⟨r1, r2⟩ := ring_read_write s h
  obtain ⟨a1, a2, a3, a4⟩ := h
  refine ⟨e, ?_⟩
  have e1 : (GetValueFromMidiDataBuffer s).1
      = { s with midi_data_read_index := s.midi_data_write_index } := by rw [e]
  rw [e1]
  refine ⟨rfl, r2, fun b hb0 hb1 => ?_, fun b x1 x2 x3 x4 rest hc hlen => ?_⟩
  · generalize hx : ({ s with midi_data_read_index := s.midi_data_write_index } : State) = x
    have xr : x.midi_data_read_index = s.midi_data_write_index := by rw [← hx]
    have xw : x.midi_data_write_index = s.midi_data_write_index := by rw [← hx]
    have hrd := (addMidi_read [b] x).1
    have hwr := addMidi_write [b] x (by rw [xw]; exact a3) (by rw [xw]; exact a4)
    have hst := addMidi_stored [b] x (by rw [xw]; exact a3) (by rw [xw]; exact a4)
      (by simp) (by
        intro c hc
        simp only [List.mem_singleton] at hc
        subst hc
        exact ⟨hb0, hb1⟩)
    simp only [List.length_singleton, Nat.cast_one] at hwr
    have hok : ringOk (VLSG_AddMidiData x [b]) :=
      ⟨by rw [hrd, xr]; exact a3, by rw [hrd, xr]; exact a4, by rw [hwr]; omega,
        by rw [hwr]; omega⟩
    have hp : pendingBytes (VLSG_AddMidiData x [b]) = 1 := by
      unfold pendingBytes
      rw [hwr, hrd, xr, xw]
      omega
    refine ⟨hp, ?_, getValue_short _ hok (by omega) (by omega)⟩
    unfold pendingByte
    rw [hrd, xr]
    simp only [StoredBytes] at hst
    rw [xw] at hst
    have a0 : (s.midi_data_write_index + 0) % 65536 = s.midi_data_write_index % 65536 := by
      omega
    rw [a0]
    exact hst.1
  · generalize hx : ({ s with midi_data_read_index := s.midi_data_write_index } : State) = x
    have xr : x.midi_data_read_index = s.midi_data_write_index := by rw [← hx]
    have xw : x.midi_data_write_index = s.midi_data_write_index := by rw [← hx]
    have hl : ((b :: x1 :: x2 :: x3 :: x4 :: rest).length : Int) = 5 + rest.length := by
      simp only [List.length_cons, Nat.cast_add, Nat.cast_one]
      omega
    have hrd := (addMidi_read (b :: x1 :: x2 :: x3 :: x4 :: rest) x).1
    have hwr := addMidi_write (b :: x1 :: x2 :: x3 :: x4 :: rest) x
      (by rw [xw]; exact a3) (by rw [xw]; exact a4)
    have hst := addMidi_stored (b :: x1 :: x2 :: x3 :: x4 :: rest) x
      (by rw [xw]; exact a3) (by rw [xw]; exact a4) (by rw [hl]; omega) hc
    rw [hl] at hwr
    have hok : ringOk (VLSG_AddMidiData x (b :: x1 :: x2 :: x3 :: x4 :: rest)) :=
      ⟨by rw [hrd, xr]; exact a3, by rw [hrd, xr]; exact a4, by rw [hwr]; omega,
        by rw [hwr]; omega⟩
    refine ⟨?_, stored_five _ b x1 x2 x3 x4 rest hok (by rw [hrd, xr, ← xw]; exact hst)⟩
    unfold pendingBytes
    rw [hwr, hrd, xr, xw]
    omega

/-- Witness of C37: two bytes of a time stamp written into the empty buffer of the module as
loaded. -/
theorem C37_partial_record_witness :
    ringOk (VLSG_AddMidiData (zeroState (fun _ => 0)) [232, 3])
    ∧ pendingBytes (VLSG_AddMidiData (zeroState (fun _ => 0)) [232, 3]) = 2
    ∧ (GetValueFromMidiDataBuffer (VLSG_AddMidiData (zeroState (fun _ => 0)) [232, 3])).2
        = 255
    ∧ pendingBytes
        (GetValueFromMidiDataBuffer (VLSG_AddMidiData (zeroState (fun _ => 0)) [232, 3])).1
        = 0 := by
  have hr : ringOk (VLSG_AddMidiData (zeroState (fun _ => 0)) [232, 3]) := by
    unfold ringOk
    decide
  have hp : pendingBytes (VLSG_AddMidiData (zeroState (fun _ => 0)) [232, 3]) = 2 := by
    decide
  have h := C37_partial_record (VLSG_AddMidiData (zeroState (fun _ => 0)) [232, 3]) hr
    (by rw [hp]; decide) (by rw [hp]; decide)
  exact ⟨hr, hp, by rw [h.1], h.2.2.1⟩

/-! ## The end of the amplitude envelope (C33) -/

/-- What `sub_C0036B00` does to the note of voice `vi`: the word it stores in `field_4E` is a
16-bit word, and the voice is freed when this word is the number of the segment and
`field_52` is 0; the note is left as it is otherwise. -/
theorem sub_C0036B00_note (s : State) (vi : Int) :
    0 ≤ ((sub_C0036B00 s vi).voice_data vi).field_4E
    ∧ ((sub_C0036B00 s vi).voice_data vi).field_4E < 65536
    ∧ (((sub_C0036B00 s vi).voice_data vi).field_4E = (s.voice_data vi).vflags / 8 % 8
        ∧ (s.voice_data vi).field_52 = 0 →
      ((sub_C0036B00 s vi).voice_data vi).note_number = 255)
    ∧ (¬ (((sub_C0036B00 s vi).voice_data vi).field_4E = (s.voice_data vi).vflags / 8 % 8
        ∧ (s.voice_data vi).field_52 = 0) →
      ((sub_C0036B00 s vi).voice_data vi).note_number = (s.voice_data vi).note_number) := by
  unfold sub_C0036B00
  lift_lets
  intro v r1 r2 w offset1 offset2 r3 value1 value2 s4 r5 value3
  have ew : w = s.voice_data vi := rfl
  have e3 : r3.1.voice_data vi = s.voice_data vi := rfl
  have e4 : (s4.voice_data vi).field_4E = value2 := by
    show ((r3.1.updVoice vi _).voice_data vi).field_4E = value2
    rw [updVoice_same]
  have n4 : (s4.voice_data vi).note_number = (s.voice_data vi).note_number := by
    show ((r3.1.updVoice vi _).voice_data vi).note_number = _
    rw [updVoice_same, e3]
  have hr : 0 ≤ value2 ∧ value2 < 65536 := by
    show 0 ≤ u16 _ ∧ u16 _ < 65536
    unfold u16
    omega
  rw [ew]
  by_cases c : (s.voice_data vi).vflags / 8 % 8 = value2 ∧ (s.voice_data vi).field_52 = 0
  · rw [if_pos c]
    have f : ((s4.updVoice vi (fun w => { w with note_number := 255 })).voice_data vi).field_4E
        = value2 := by
      rw [updVoice_same]
      exact e4
    rw [f]
    refine ⟨hr.1, hr.2, fun _ => ?_, fun h => absurd ⟨c.1.symm, c.2⟩ h⟩
    rw [updVoice_same]
  · rw [if_neg c]
    have e5 : r5.1.voice_data vi = s4.voice_data vi := rfl
    have f : ((r5.1.updVoice vi (fun w => { w with
        vflags := u16 (w.vflags % 8 + w.vflags / 64 % 4 * 64 + w.field_4E % 8 * 8),
        field_50 := value3 })).voice_data vi).field_4E = value2 := by
      rw [updVoice_same, e5]
      exact e4
    rw [f]
    refine ⟨hr.1, hr.2, fun h => absurd ⟨h.1.symm, h.2⟩ c, fun _ => ?_⟩
    rw [updVoice_same, e5]
    exact n4

/-- Claim C33 (amended). `sub_C0036B00` stores in `field_4E` the word fetched for the
segment, with the high byte (the target level) scaled by `field_62` and the low byte (the
number of the segment that follows) as in the ROM. The voice is freed (`note_number` = 255)
when the current value `field_52` is 0, the scaled target level is 0 and the low byte is the
number of the current segment (bits 3 to 5 of `vflags`); in every other case, also with
`field_52` = 0 and the scaled target level 0, the note of the voice is left as it is. -/
theorem C33_envelope_termination (s : State) (vi : Int) :
    ((s.voice_data vi).field_52 = 0
        ∧ ((sub_C0036B00 s vi).voice_data vi).field_4E / 256 % 256 * 256 = 0
        ∧ ((sub_C0036B00 s vi).voice_data vi).field_4E % 256 = (s.voice_data vi).vflags / 8 % 8 →
      ((sub_C0036B00 s vi).voice_data vi).note_number = 255)
    ∧ ((s.voice_data vi).field_52 ≠ 0
        ∨ ((sub_C0036B00 s vi).voice_data vi).field_4E / 256 % 256 * 256 ≠ 0
        ∨ ((sub_C0036B00 s vi).voice_data vi).field_4E % 256 ≠ (s.voice_data vi).vflags / 8 % 8 →
      ((sub_C0036B00 s vi).voice_data vi).note_number = (s.voice_data vi).note_number) := by
  obtain ⟨a, b, c, d⟩ := sub_C0036B00_note s vi
  refine ⟨fun h => c ⟨by omega, h.1⟩, fun h => d (fun k => ?_)⟩
  obtain ⟨k1, k2⟩ := k
  omega

set_option maxRecDepth 100000 in
/-- Counterexample to C33 as stated: voice 0 of `C33_state` has the current value
`field_52` = 0, and the word that `sub_C0036B00` fetches from the ROM (every byte is 1: the
word is `0x0101`) has the scaled target level 0; its low byte is 1 and the voice is at
segment 0, so the voice is not freed: it keeps the note 60. -/
theorem C33_counterexample :
    (C33_state.voice_data 0).field_52 = 0
    ∧ (C33_state.voice_data 0).note_number = 60
    ∧ ((sub_C0036B00 C33_state 0).voice_data 0).field_4E / 256 % 256 * 256 = 0
    ∧ ((sub_C0036B00 C33_state 0).voice_data 0).field_4E = 1
    ∧ ((sub_C0036B00 C33_state 0).voice_data 0).note_number = 60 := by
  decide

set_option maxRecDepth 100000 in
/-- Witness of the amended C33: voice 0 of the module in play after the Note On `90 3C 64`
is at segment 1 with `field_52` = 0, the word fetched is `0x0101`, and the voice is
freed. -/
theorem C33_envelope_termination_witness :
    (C19_state.voice_data 0).note_number = 60
    ∧ (C19_state.voice_data 0).vflags / 8 % 8 = 1
    ∧ ((sub_C0036B00 C19_state 0).voice_data 0).note_number = 255 :=
  ⟨by decide, by decide,
    (C33_envelope_termination C19_state 0).1 ⟨by decide, by decide, by decide⟩⟩

/-! ## The search for a voice is total and in bounds (C38) -/

theorem scan_spec (p : Int → Bool) : ∀ (n : Nat) (index : Int),
    (FindAvailableVoice_scan p n index).1 = findFirst p n index
    ∧ ∀ i ∈ (FindAvailableVoice_scan p n index).2, index ≤ i ∧ i < index + n := by
  intro n
  induction n with
  | zero =>
    intro index
    exact ⟨rfl, fun i hi => by simp [FindAvailableVoice_scan] at hi⟩
  | succ n ih =>
    intro index
    obtain ⟨a, b⟩ := ih (index + 1)
    unfold FindAvailableVoice_scan findFirst
    by_cases hp : p index = true
    · rw [if_pos hp, if_pos hp]
      refine ⟨rfl, fun i hi => ?_⟩
      simp only [List.mem_singleton] at hi
      subst hi
      push_cast
      omega
    · rw [if_neg hp, if_neg hp]
      refine ⟨a, fun i hi => ?_⟩
      simp only [List.mem_cons] at hi
      push_cast
      rcases hi with hi | hi
      · omega
      · have := b i hi
        omega

/-- A walk over a ring of one slot or more, from a slot of the ring: it is over within the
passes that are left on the ring, it finds what `findOnRing` finds, and it reads slots of the
ring only. -/
theorem walk_spec (s : State) (p : Int → Bool) (index1 : Int)
    (h1 : 0 ≤ index1 ∧ index1 < s.maximum_polyphony) :
    ∀ (n m : Nat) (index : Int), 0 ≤ index ∧ index < s.maximum_polyphony →
      s.maximum_polyphony ≤ ringPos s.maximum_polyphony index1 index + n →
      s.maximum_polyphony ≤ ringPos s.maximum_polyphony index1 index + m →
      ∃ reads, FindAvailableVoice_walk s p index1 n index
          = some (findOnRing s p index1 m index, reads)
        ∧ ∀ i ∈ reads, 0 ≤ i ∧ i < s.maximum_polyphony := by
  intro n
  induction n with
  | zero =>
    intro m index hi hn _
    have := ringPos_range s.maximum_polyphony index1 index h1 hi
    simp only [Nat.cast_zero, add_zero] at hn
    omega
  | succ n ih =>
    intro m index hi hn hm
    have hr := ringPos_range s.maximum_polyphony index1 index h1 hi
    cases m with
    | zero =>
      simp only [Nat.cast_zero, add_zero] at hm
      omega
    | succ m =>
      obtain ⟨k1, k2⟩ := ringPos_next s index1 index h1 hi
      unfold FindAvailableVoice_walk findOnRing
      by_cases hp : p index = true
      · rw [if_pos hp, if_pos hp]
        refine ⟨[index], rfl, fun i hi' => ?_⟩
        simp only [List.mem_singleton] at hi'
        subst hi'
        exact hi
      · rw [if_neg hp, if_neg hp]
        by_cases hx : nextIndex s index ≠ index1
        · rw [if_pos hx, if_pos hx]
          obtain ⟨e, e1, e2⟩ := k1 hx
          push_cast at hn hm
          obtain ⟨reads, hw, hrd⟩ := ih m (nextIndex s index) ⟨e1, e2⟩ (by omega) (by omega)
          rw [hw]
          refine ⟨index :: reads, rfl, fun i hi' => ?_⟩
          simp only [List.mem_cons] at hi'
          rcases hi' with hi' | hi'
          · subst hi'
            exact hi
          · exact hrd i hi'
        · rw [if_neg hx, if_neg hx]
          refine ⟨[index], rfl, fun i hi' => ?_⟩
          simp only [List.mem_singleton] at hi'
          subst hi'
          exact hi

/-- A walk over the ring of a pool without slots: one pass, at slot 0. -/
theorem walk_empty (s : State) (p : Int → Bool) (hm : s.maximum_polyphony ≤ 0) (n m : Nat) :
    ∃ reads, FindAvailableVoice_walk s p 0 (n + 1) 0
        = some (findOnRing s p 0 (m + 1) 0, reads)
      ∧ ∀ i ∈ reads, i = 0 := by
  have e : nextIndex s 0 = 0 := by
    unfold nextIndex
    rw [if_pos (by omega)]
  unfold FindAvailableVoice_walk findOnRing
  by_cases hp : p 0 = true
  · rw [if_pos hp, if_pos hp]
    exact ⟨[0], rfl, fun i hi => by simpa using hi⟩
  · rw [if_neg hp, if_neg hp, if_neg (by rw [e]; exact fun h => h rfl),
      if_neg (by rw [e]; exact fun h => h rfl)]
    exact ⟨[0], rfl, fun i hi => by simpa using hi⟩

/-- A walk of enough passes from the slot `index1` of `FindAvailableVoice`, when that slot is
not negative. -/
theorem walk_start (s : State) (p : Int → Bool) (index1 : Int) (fuel : Nat)
    (h1 : 0 ≤ index1 ∧ index1 < max 1 s.maximum_polyphony)
    (h0 : s.maximum_polyphony ≤ 0 → index1 = 0)
    (hf : max 1 s.maximum_polyphony ≤ fuel) :
    ∃ reads, FindAvailableVoice_walk s p index1 fuel index1
        = some (findOnRing s p index1 (max 1 s.maximum_polyphony).toNat index1, reads)
      ∧ ∀ i ∈ reads, 0 ≤ i ∧ i < max 1 s.maximum_polyphony := by
  by_cases hm : s.maximum_polyphony ≤ 0
  · have e0 := h0 hm
    subst e0
    have e1 : (max 1 s.maximum_polyphony).toNat = 0 + 1 := by omega
    obtain ⟨k, hk⟩ : ∃ k : Nat, fuel = k + 1 := ⟨fuel - 1, by omega⟩
    rw [e1, hk]
    obtain ⟨reads, a, b⟩ := walk_empty s p hm k 0
    exact ⟨reads, a, fun i hi => by rw [b i hi]; omega⟩
  · have e : max 1 s.maximum_polyphony = s.maximum_polyphony := by omega
    rw [e] at h1 hf ⊢
    have z : ringPos s.maximum_polyphony index1 index1 = 0 := by
      unfold ringPos
      rw [if_pos (le_refl _)]
      omega
    exact walk_spec s p index1 h1 fuel s.maximum_polyphony.toNat index1 h1
      (by rw [z]; omega) (by rw [z]; omega)

/-- The run of `FindAvailableVoice` with enough passes, when the slot `index1` is not
negative: it returns the slot of `FindAvailableVoice_index` and reads slots of the ring
only. -/
theorem run_spec (s : State) (fuel : Nat) (hm : 0 ≤ s.maximum_polyphony)
    (hr : 0 ≤ i32 (u32 (s.recent_voice_index + 1)))
    (hf : max 1 s.maximum_polyphony ≤ fuel) :
    ∃ reads, FindAvailableVoice_run s fuel = some (FindAvailableVoice_index s, reads)
      ∧ ∀ i ∈ reads, 0 ≤ i ∧ i < max 1 s.maximum_polyphony := by
  unfold FindAvailableVoice_run FindAvailableVoice_index
  lift_lets
  intro i1a i1 r2 ring
  have h1 : 0 ≤ i1 ∧ i1 < max 1 s.maximum_polyphony := by
    show 0 ≤ (if i1a ≥ s.maximum_polyphony then 0 else i1a)
      ∧ (if i1a ≥ s.maximum_polyphony then 0 else i1a) < max 1 s.maximum_polyphony
    split <;> omega
  have h0 : s.maximum_polyphony ≤ 0 → i1 = 0 := by
    intro h
    show (if i1a ≥ s.maximum_polyphony then 0 else i1a) = 0
    rw [if_pos (by omega)]
  obtain ⟨a, b⟩ := scan_spec (fun i => decide ((s.voice_data i).note_number = 255))
    s.maximum_polyphony.toNat 0
  have b2 : ∀ i ∈ r2.2, 0 ≤ i ∧ i < max 1 s.maximum_polyphony := by
    intro i hi
    have := b i hi
    omega
  obtain ⟨reads3, w3, rd3⟩ := walk_start s
    (fun i => decide ((s.voice_data i).vflags / 128 % 2 ≠ 0)) i1 fuel h1 h0 hf
  obtain ⟨reads4, w4, rd4⟩ := walk_start s
    (fun i => decide ((s.voice_data i).channel_num_2 - (s.voice_data i).channel_num_2 % 2
      = 2 * DRUM_CHANNEL)) i1 fuel h1 h0 hf
  have a2 : r2.1 = findFirst (fun i => decide ((s.voice_data i).note_number = 255))
    s.maximum_polyphony.toNat 0 := a
  rw [a2, w3, w4]
  cases findFirst (fun i => decide ((s.voice_data i).note_number = 255))
      s.maximum_polyphony.toNat 0 with
  | some k => exact ⟨r2.2, rfl, b2⟩
  | none =>
    cases findOnRing s (fun i => decide ((s.voice_data i).vflags / 128 % 2 ≠ 0)) i1 ring i1 with
    | some k =>
      refine ⟨r2.2 ++ reads3, rfl, fun i hi => ?_⟩
      rcases List.mem_append.mp hi with hi | hi
      · exact b2 i hi
      · exact rd3 i hi
    | none =>
      have rd : ∀ i ∈ r2.2 ++ reads3 ++ reads4, 0 ≤ i ∧ i < max 1 s.maximum_polyphony := by
        intro i hi
        rcases List.mem_append.mp hi with hi | hi
        · rcases List.mem_append.mp hi with hi | hi
          · exact b2 i hi
          · exact rd3 i hi
        · exact rd4 i hi
      cases findOnRing s (fun i => decide ((s.voice_data i).channel_num_2
          - (s.voice_data i).channel_num_2 % 2 = 2 * DRUM_CHANNEL)) i1 ring i1 with
      | some k => exact ⟨_, rfl, rd⟩
      | none => exact ⟨_, rfl, rd⟩

theorem index_nonneg (s : State) (hr : 0 ≤ i32 (u32 (s.recent_voice_index + 1))) :
    0 ≤ FindAvailableVoice_index s := by
  unfold FindAvailableVoice_index
  lift_lets
  intro index1a index1 ring
  have h0 : 0 ≤ index1 := by
    show 0 ≤ (if index1a ≥ s.maximum_polyphony then 0 else index1a)
    split <;> omega
  split
  · rename_i index2 heq
    have := findFirst_lt _ _ _ _ heq
    omega
  · split
    · rename_i index3 heq
      exact findOnRing_nonneg s _ index1 ring index1 index3 h0 heq
    · split
      · rename_i index4 heq
        exact findOnRing_nonneg s _ index1 ring index1 index4 h0 heq
      · exact h0

/-- In every state of the running module (`Live`, which `reachable_live` proves of every
state behind `VLSG_PlaybackStart`) the pool has 64 slots at most and `recent_voice_index`
is a slot number, so that `index1 = (int)(recent_voice_index + 1)` is not negative. -/
theorem live_cursor {s : State} (h : Live s) :
    (0 ≤ s.maximum_polyphony ∧ s.maximum_polyphony ≤ 64)
    ∧ 0 ≤ i32 (u32 (s.recent_voice_index + 1)) := by
  have r := live_recent h
  refine ⟨?_, ?_⟩
  · rcases h with h | h
    · obtain ⟨⟨_, b, c, d, _⟩, _⟩ := h
      omega
    · obtain ⟨_, b, c, _⟩ := h
      omega
  · unfold i32 u32
    omega

/-- Claim C38. For every voice array, every `maximum_polyphony` in [0, 64] and every
`recent_voice_index` for which `index1 = (int)(recent_voice_index + 1)` is not negative
(every value below `2^31 - 1`, so every slot number, which is all that the program stores
there: `live_cursor`), `FindAvailableVoice` terminates: with `max(1, maximum_polyphony)`
passes or more allowed to each of its two walks, the run returns. The slot returned is the
slot of the model `FindAvailableVoice`, it lies in `[0, max(1, maximum_polyphony))`, hence
below 64, and every slot whose voice is read lies in `[0, max(1, maximum_polyphony))`. -/
theorem C38_find_total (s : State) (fuel : Nat)
    (hm : 0 ≤ s.maximum_polyphony ∧ s.maximum_polyphony ≤ 64)
    (hr : 0 ≤ i32 (u32 (s.recent_voice_index + 1)))
    (hf : max 1 s.maximum_polyphony ≤ fuel) :
    ∃ reads, FindAvailableVoice_run s fuel = some ((FindAvailableVoice s).2, reads)
      ∧ 0 ≤ (FindAvailableVoice s).2
      ∧ (FindAvailableVoice s).2 < max 1 s.maximum_polyphony
      ∧ (FindAvailableVoice s).2 < 64
      ∧ ∀ i ∈ reads, 0 ≤ i ∧ i < max 1 s.maximum_polyphony := by
  obtain ⟨reads, a, b⟩ := run_spec s fuel hm.1 hr hf
  have c := FindAvailableVoice_index_lt s
  have e : (FindAvailableVoice s).2 = FindAvailableVoice_index s := rfl
  rw [e]
  exact ⟨reads, a, index_nonneg s hr, c, by have := hm.2; omega, b⟩

set_option maxRecDepth 100000 in
/-- Witness of C38: the module in play, whose pool and cursor are in range by the invariant
of the running module, with 24 passes. -/
theorem C38_find_total_witness :
    Live playingModule
    ∧ ∃ reads, FindAvailableVoice_run playingModule 24
        = some ((FindAvailableVoice playingModule).2, reads)
      ∧ (FindAvailableVoice playingModule).2 < 64 := by
  obtain ⟨reads, a, _, _, d, _⟩ := C38_find_total playingModule 24
    (live_cursor playing_live).1 (live_cursor playing_live).2 (by decide)
  exact ⟨playing_live, reads, a, d⟩

/-! ## The loops of `ReduceActiveVoices` and the order of the slots (C31) -/

theorem loop1_step (mv : Int) (n : Nat) (index a : Int) (s : State) :
    ReduceActiveVoices_loop1 mv (n + 1) index a s
      = if (s.voice_data index).note_number ≠ 255 ∧ (s.voice_data index).vflags / 128 % 2 ≠ 0
        then
          if a - 1 ≤ mv then
            some ({ s.updVoice index (fun w => { w with note_number := 255 }) with
              current_polyphony := a - 1 }, a - 1, true)
          else if u32 (nextIndex s index) ≠ s.recent_voice_index then
            ReduceActiveVoices_loop1 mv n (nextIndex s index) (a - 1)
              (s.updVoice index (fun w => { w with note_number := 255 }))
          else some (s.updVoice index (fun w => { w with note_number := 255 }), a - 1, false)
        else
          if u32 (nextIndex s index) ≠ s.recent_voice_index then
            ReduceActiveVoices_loop1 mv n (nextIndex s index) a s
          else some (s, a, false) := by
  rw [ReduceActiveVoices_loop1]
  by_cases h : (s.voice_data index).note_number ≠ 255
      ∧ (s.voice_data index).vflags / 128 % 2 ≠ 0
  · simp only [h, if_true, true_and, and_self, not_false_eq_true, ne_eq]
  · simp only [h, if_false, false_and]

theorem loop2_step (mv : Int) (n : Nat) (index a : Int) (s : State) :
    ReduceActiveVoices_loop2 mv (n + 1) index a s
      = if (s.voice_data index).note_number ≠ 255 then
          if a - 1 ≤ mv then
            some { s.updVoice index (fun w => { w with note_number := 255 }) with
              current_polyphony := a - 1 }
          else if u32 (nextIndex s index) = s.recent_voice_index then
            some (s.updVoice index (fun w => { w with note_number := 255 }))
          else
            ReduceActiveVoices_loop2 mv n (nextIndex s index) (a - 1)
              (s.updVoice index (fun w => { w with note_number := 255 }))
        else
          if u32 (nextIndex s index) = s.recent_voice_index then some s
          else ReduceActiveVoices_loop2 mv n (nextIndex s index) a s := by
  rw [ReduceActiveVoices_loop2]
  by_cases h : (s.voice_data index).note_number ≠ 255
  · simp only [h, if_true, true_and, not_false_eq_true, ne_eq]
  · simp only [h, if_false, false_and]

theorem ringFrom_congr (s t : State) (h : t.maximum_polyphony = s.maximum_polyphony) :
    ∀ (n : Nat) (index : Int), ringFrom t n index = ringFrom s n index := by
  intro n
  induction n with
  | zero => intro index; rfl
  | succ n ih =>
    intro index
    have e : nextIndex t index = nextIndex s index := by
      unfold nextIndex
      rw [h]
    rw [ringFrom, ringFrom, e, ih]

/-- One step on the ring towards `r`: the number of the slots that are left before `r`. -/
theorem ring_step (s : State) (r index : Int) (d : Nat)
    (hr : 0 ≤ r ∧ r < s.maximum_polyphony) (hm : s.maximum_polyphony ≤ 64)
    (hi : 0 ≤ index ∧ index < s.maximum_polyphony)
    (hd : (if index < r then r - index else r - index + s.maximum_polyphony) = d + 1) :
    (0 ≤ nextIndex s index ∧ nextIndex s index < s.maximum_polyphony)
    ∧ u32 (nextIndex s index) = nextIndex s index
    ∧ (d = 0 → nextIndex s index = r)
    ∧ (d ≠ 0 → nextIndex s index ≠ r
        ∧ ∃ k : Nat, d = k + 1
          ∧ (if nextIndex s index < r then r - nextIndex s index
             else r - nextIndex s index + s.maximum_polyphony) = k + 1) := by
  have hn : nextIndex s index = if index + 1 ≥ s.maximum_polyphony then 0 else index + 1 := rfl
  have b : 0 ≤ nextIndex s index ∧ nextIndex s index < s.maximum_polyphony := by
    rw [hn]
    split <;> omega
  refine ⟨b, by unfold u32; omega, fun h0 => ?_, fun h0 => ?_⟩
  · rw [hn]
    subst h0
    split at hd <;> split <;> omega
  · obtain ⟨k, hk⟩ : ∃ k : Nat, d = k + 1 := ⟨d - 1, by omega⟩
    subst hk
    rw [hn]
    push_cast at hd
    refine ⟨?_, k, rfl, ?_⟩
    · split at hd <;> split <;> omega
    · split at hd <;> split <;> split <;> omega

/-- The first loop of `ReduceActiveVoices`, from a slot that is `d + 1` slots before
`recent_voice_index`: it frees what `freeFirst` frees among the voices with the note-off
flag on these slots, with `max 1 (a - mv)` voices to free. -/
theorem Reduce_loop1_order (mv r m : Int) (hr : 0 ≤ r ∧ r < m) (hm : m ≤ 64) :
    ∀ (d n : Nat) (index a : Int) (s : State) (q : State × Int),
    s.recent_voice_index = r → s.maximum_polyphony = m → 0 ≤ index ∧ index < m → index ≠ r →
    (if index < r then r - index else r - index + m) = d + 1 → d + 1 ≤ n →
    freeFirst (fun w => decide (w.note_number ≠ 255 ∧ w.vflags / 128 % 2 ≠ 0))
      (ringFrom s (d + 1) index) (max 1 (a - mv)) s = q →
    ReduceActiveVoices_loop1 mv n index a s
      = some (if q.2 ≤ 0 then
          ({ q.1 with current_polyphony := a - (max 1 (a - mv) - q.2) },
            a - (max 1 (a - mv) - q.2), true)
        else (q.1, a - (max 1 (a - mv) - q.2), false)) := by
  intro d
  induction d with
  | zero =>
    intro n index a s q hs1 hs2 hi hne hd hn hq
    obtain ⟨n, rfl⟩ : ∃ k : Nat, n = k + 1 := ⟨n - 1, by omega⟩
    obtain ⟨_, e2, e3, _⟩ := ring_step s r index 0 (by rw [hs2]; exact hr) (by rw [hs2]; exact hm)
      (by rw [hs2]; exact hi) (by rw [hs2]; exact hd)
    have e4 := e3 rfl
    rw [loop1_step, e2, e4, hs1]
    simp only [ringFrom, freeFirst] at hq
    rw [if_neg (by omega)] at hq
    by_cases hp : (s.voice_data index).note_number ≠ 255
        ∧ (s.voice_data index).vflags / 128 % 2 ≠ 0
    · rw [if_pos hp]
      rw [if_pos (by simpa using hp)] at hq
      subst hq
      simp only [ne_eq, not_true_eq_false, if_false]
      by_cases hle : a - 1 ≤ mv
      · rw [if_pos hle, if_pos (by omega)]
        have e : a - (max 1 (a - mv) - (max 1 (a - mv) - 1)) = a - 1 := by omega
        rw [e]
      · rw [if_neg hle, if_neg (by omega)]
        have e : a - (max 1 (a - mv) - (max 1 (a - mv) - 1)) = a - 1 := by omega
        rw [e]
    · rw [if_neg hp]
      rw [if_neg (by simpa using hp)] at hq
      subst hq
      simp only [ne_eq, not_true_eq_false, if_false]
      rw [if_neg (by omega)]
      have e : a - (max 1 (a - mv) - max 1 (a - mv)) = a := by omega
      rw [e]
  | succ d ih =>
    intro n index a s q hs1 hs2 hi hne hd hn hq
    obtain ⟨n, rfl⟩ : ∃ k : Nat, n = k + 1 := ⟨n - 1, by omega⟩
    obtain ⟨e1, e2, _, e4⟩ := ring_step s r index (d + 1) (by rw [hs2]; exact hr)
      (by rw [hs2]; exact hm) (by rw [hs2]; exact hi) (by rw [hs2]; exact hd)
    obtain ⟨e5, k, hk, e6⟩ := e4 (by omega)
    have hkd : k = d := by omega
    subst hkd
    rw [hs2] at e1 e6
    rw [loop1_step, e2, hs1]
    rw [ringFrom, freeFirst, if_neg (by omega)] at hq
    by_cases hp : (s.voice_data index).note_number ≠ 255
        ∧ (s.voice_data index).vflags / 128 % 2 ≠ 0
    · rw [if_pos hp]
      rw [if_pos (by simpa using hp)] at hq
      by_cases hle : a - 1 ≤ mv
      · rw [if_pos hle]
        have hb : max 1 (a - mv) - 1 = 0 := by omega
        rw [hb] at hq
        rw [ringFrom, freeFirst, if_pos (le_refl _)] at hq
        subst hq
        rw [if_pos (le_refl _)]
        have e : a - (max 1 (a - mv) - 0) = a - 1 := by omega
        rw [e]
      · rw [if_neg hle, if_pos e5]
        have hb : max 1 (a - mv) - 1 = max 1 (a - 1 - mv) := by omega
        rw [hb, ← ringFrom_congr s (s.updVoice index (fun w => { w with note_number := 255 }))
          rfl] at hq
        rw [ih n (nextIndex s index) (a - 1)
          (s.updVoice index (fun w => { w with note_number := 255 })) q hs1 hs2 e1 e5 e6
          (by omega) hq]
        have e : a - 1 - (max 1 (a - 1 - mv) - q.2) = a - (max 1 (a - mv) - q.2) := by omega
        rw [e]
    · rw [if_neg hp, if_pos e5]
      rw [if_neg (by simpa using hp)] at hq
      exact ih n (nextIndex s index) a s q hs1 hs2 e1 e5 e6 (by omega) hq

/-- The second loop of `ReduceActiveVoices`, from a slot that is `d + 1` slots before
`recent_voice_index`: it frees what `freeFirst` frees among the active voices on these
slots, with `max 1 (a - mv)` voices to free. -/
theorem Reduce_loop2_order (mv r m : Int) (hr : 0 ≤ r ∧ r < m) (hm : m ≤ 64) :
    ∀ (d n : Nat) (index a : Int) (s : State) (q : State × Int),
    s.recent_voice_index = r → s.maximum_polyphony = m → 0 ≤ index ∧ index < m → index ≠ r →
    (if index < r then r - index else r - index + m) = d + 1 → d + 1 ≤ n →
    freeFirst (fun w => decide (w.note_number ≠ 255))
      (ringFrom s (d + 1) index) (max 1 (a - mv)) s = q →
    ReduceActiveVoices_loop2 mv n index a s
      = some (if q.2 ≤ 0 then
          { q.1 with current_polyphony := a - (max 1 (a - mv) - q.2) }
        else q.1) := by
  intro d
  induction d with
  | zero =>
    intro n index a s q hs1 hs2 hi hne hd hn hq
    obtain ⟨n, rfl⟩ : ∃ k : Nat, n = k + 1 := ⟨n - 1, by omega⟩
    obtain ⟨_, e2, e3, _⟩ := ring_step s r index 0 (by rw [hs2]; exact hr) (by rw [hs2]; exact hm)
      (by rw [hs2]; exact hi) (by rw [hs2]; exact hd)
    have e4 := e3 rfl
    rw [loop2_step, e2, e4, hs1]
    simp only [ringFrom, freeFirst] at hq
    rw [if_neg (by omega)] at hq
    by_cases hp : (s.voice_data index).note_number ≠ 255
    · rw [if_pos hp]
      rw [if_pos (by simpa using hp)] at hq
      subst hq
      simp only [if_true]
      by_cases hle : a - 1 ≤ mv
      · rw [if_pos hle, if_pos (by omega)]
        have e : a - (max 1 (a - mv) - (max 1 (a - mv) - 1)) = a - 1 := by omega
        rw [e]
      · rw [if_neg hle, if_neg (by omega)]
    · rw [if_neg hp]
      rw [if_neg (by simpa using hp)] at hq
      subst hq
      simp only [if_true]
      rw [if_neg (by omega)]
  | succ d ih =>
    intro n index a s q hs1 hs2 hi hne hd hn hq
    obtain ⟨n, rfl⟩ : ∃ k : Nat, n = k + 1 := ⟨n - 1, by omega⟩
    obtain ⟨e1, e2, _, e4⟩ := ring_step s r index (d + 1) (by rw [hs2]; exact hr)
      (by rw [hs2]; exact hm) (by rw [hs2]; exact hi) (by rw [hs2]; exact hd)
    obtain ⟨e5, k, hk, e6⟩ := e4 (by omega)
    have hkd : k = d := by omega
    subst hkd
    rw [hs2] at e1 e6
    rw [loop2_step, e2, hs1]
    rw [ringFrom, freeFirst, if_neg (by omega)] at hq
    by_cases hp : (s.voice_data index).note_number ≠ 255
    · rw [if_pos hp]
      rw [if_pos (by simpa using hp)] at hq
      by_cases hle : a - 1 ≤ mv
      · rw [if_pos hle]
        have hb : max 1 (a - mv) - 1 = 0 := by omega
        rw [hb] at hq
        rw [ringFrom, freeFirst, if_pos (le_refl _)] at hq
        subst hq
        rw [if_pos (le_refl _)]
        have e : a - (max 1 (a - mv) - 0) = a - 1 := by omega
        rw [e]
      · rw [if_neg hle, if_neg e5]
        have hb : max 1 (a - mv) - 1 = max 1 (a - 1 - mv) := by omega
        rw [hb, ← ringFrom_congr s (s.updVoice index (fun w => { w with note_number := 255 }))
          rfl] at hq
        rw [ih n (nextIndex s index) (a - 1)
          (s.updVoice index (fun w => { w with note_number := 255 })) q hs1 hs2 e1 e5 e6
          (by omega) hq]
        have e : a - 1 - (max 1 (a - 1 - mv) - q.2) = a - (max 1 (a - mv) - q.2) := by omega
        rw [e]
    · rw [if_neg hp, if_neg e5]
      rw [if_neg (by simpa using hp)] at hq
      exact ih n (nextIndex s index) a s q hs1 hs2 e1 e5 e6 (by omega) hq

/-! ## What `freeFirst` frees, and the count of the active voices -/

theorem activeVoices_congr (s t : State) (m : Int) (h : t.voice_data = s.voice_data) :
    activeVoices t 0 m = activeVoices s 0 m := by
  rw [activeVoices_slots, activeVoices_slots,
    activeSlots_congr s t _ 0 (fun i _ _ => by rw [h])]

/-- A voice of the pool that is freed makes the count of the active voices one less. -/
theorem activeVoices_free (s : State) (i m : Int) (hi : 0 ≤ i ∧ i < m)
    (ha : (s.voice_data i).note_number ≠ 255) :
    activeVoices (s.updVoice i (fun w => { w with note_number := 255 })) 0 m
      = activeVoices s 0 m - 1 := by
  obtain ⟨d, hd⟩ : ∃ d : Nat, (m - 0).toNat = i.toNat + (1 + d) :=
    ⟨(m - 0).toNat - i.toNat - 1, by omega⟩
  have ei : (0 : Int) + (i.toNat : Int) = i := by omega
  have o : ∀ j, j ≠ i →
      (s.updVoice i (fun w => { w with note_number := 255 })).voice_data j = s.voice_data j := by
    intro j hj
    simp only [State.updVoice, Function.update_noteq hj]
  have f : ((s.updVoice i (fun w => { w with note_number := 255 })).voice_data i).note_number
      = 255 := by
    rw [updVoice_same]
  rw [activeVoices_slots, activeVoices_slots, hd, activeSlots_append, activeSlots_append,
    activeSlots_append s, activeSlots_append s, ei,
    activeSlots_congr s _ i.toNat 0 (fun j a b => o j (by omega)),
    activeSlots_congr s _ d (i + ((1 : Nat) : Int)) (fun j a b => o j (by push_cast at a; omega))]
  have e1 : activeSlots (s.updVoice i (fun w => { w with note_number := 255 })) 1 i = [] := by
    simp only [activeSlots, f, ne_eq, not_true_eq_false, if_false]
  have e2 : activeSlots s 1 i = [i] := by
    simp only [activeSlots, ha, ne_eq, not_false_eq_true, if_true]
  rw [e1, e2]
  simp only [List.length_append, List.length_nil, List.length_cons, List.length_singleton]
  push_cast
  omega

/-- When every slot of the pool but `r` is free, one voice at most is active. -/
theorem activeVoices_le_one (s : State) (m r : Int)
    (h : ∀ i, 0 ≤ i → i < m → i ≠ r → (s.voice_data i).note_number = 255) :
    activeVoices s 0 m ≤ 1 := by
  rw [activeVoices_slots]
  have hm := activeSlots_mem s (m - 0).toNat 0
  have hs := activeSlots_sorted s (m - 0).toNat 0
  have hall : ∀ x ∈ activeSlots s (m - 0).toNat 0, x = r := by
    intro x hx
    obtain ⟨⟨a, b⟩, c⟩ := (hm x).mp hx
    by_contra hne
    exact c (h x a (by omega) hne)
  generalize activeSlots s (m - 0).toNat 0 = l at hs hall
  match l, hs, hall with
  | [], _, _ => simp
  | [_], _, _ => simp
  | x :: y :: rest, hs, hall =>
    exfalso
    have e1 := hall x (List.mem_cons_self _ _)
    have e2 := hall y (List.mem_cons_of_mem _ (List.mem_cons_self _ _))
    have := (List.pairwise_cons.mp hs).1 y (List.mem_cons_self _ _)
    omega

theorem freeFirst_done (p : Voice_Data → Bool) (l : List Int) (b : Int) (s : State)
    (h : b ≤ 0) : freeFirst p l b s = (s, b) := by
  cases l with
  | nil => rfl
  | cons i rest => rw [freeFirst, if_pos h]

/-- What `freeFirst` does, for a test `p` that only active voices pass, on slots of the
pool. -/
theorem freeFirst_spec (p : Voice_Data → Bool) (m : Int)
    (hp : ∀ w : Voice_Data, w.note_number = 255 → p w = false) :
    ∀ (l : List Int) (b : Int) (s : State), (∀ i ∈ l, 0 ≤ i ∧ i < m) → 0 ≤ b →
      (0 ≤ (freeFirst p l b s).2 ∧ (freeFirst p l b s).2 ≤ b)
      ∧ activeVoices (freeFirst p l b s).1 0 m
          = activeVoices s 0 m - (b - (freeFirst p l b s).2)
      ∧ (freeFirst p l b s).1.maximum_polyphony = s.maximum_polyphony
      ∧ (freeFirst p l b s).1.recent_voice_index = s.recent_voice_index
      ∧ (∀ j, (freeFirst p l b s).1.voice_data j = s.voice_data j
          ∨ (j ∈ l ∧ p (s.voice_data j) = true
            ∧ (freeFirst p l b s).1.voice_data j
              = { s.voice_data j with note_number := 255 }))
      ∧ (0 < (freeFirst p l b s).2 →
          ∀ i ∈ l, p ((freeFirst p l b s).1.voice_data i) = false)
      ∧ ((freeFirst p l b s).2 = b → (freeFirst p l b s).1 = s) := by
  intro l
  induction l with
  | nil =>
    intro b s _ hb
    exact ⟨⟨hb, le_refl _⟩, by show activeVoices s 0 m = activeVoices s 0 m - (b - b); omega,
      rfl, rfl, fun _ => Or.inl rfl, fun _ i hi => absurd hi (List.not_mem_nil _),
      fun _ => rfl⟩
  | cons i rest ih =>
    intro b s hl hb
    have hrest : ∀ j ∈ rest, 0 ≤ j ∧ j < m := fun j hj => hl j (List.mem_cons_of_mem _ hj)
    have hi := hl i (List.mem_cons_self _ _)
    by_cases h0 : b ≤ 0
    · rw [freeFirst_done p _ b s h0]
      exact ⟨⟨hb, le_refl _⟩, by show activeVoices s 0 m = activeVoices s 0 m - (b - b); omega,
        rfl, rfl, fun _ => Or.inl rfl, fun h => absurd h (by show ¬ 0 < b; omega), fun _ => rfl⟩
    · rw [freeFirst, if_neg h0]
      by_cases hpi : p (s.voice_data i) = true
      · rw [if_pos hpi]
        have ha : (s.voice_data i).note_number ≠ 255 := by
          intro h
          rw [hp _ h] at hpi
          exact absurd hpi (by decide)
        obtain ⟨a1, a2, a3, a4, a5, a6, a7⟩ :=
          ih (b - 1) (s.updVoice i (fun w => { w with note_number := 255 })) hrest (by omega)
        have f : ∀ j, ((freeFirst p rest (b - 1)
            (s.updVoice i (fun w => { w with note_number := 255 }))).1.voice_data j).note_number
            = 255
            ∨ (freeFirst p rest (b - 1)
              (s.updVoice i (fun w => { w with note_number := 255 }))).1.voice_data j
              = s.voice_data j := by
          intro j
          rcases a5 j with h | ⟨_, _, h⟩
          · by_cases e : j = i
            · subst e
              left
              rw [h, updVoice_same]
            · right
              rw [h]
              simp only [State.updVoice, Function.update_noteq e]
          · left
            rw [h]
        refine ⟨⟨a1.1, by omega⟩, ?_, a3, a4, fun j => ?_, fun h j hj => ?_, fun h => ?_⟩
        · rw [a2, activeVoices_free s i m hi ha]
          omega
        · by_cases e : j = i
          · subst e
            right
            refine ⟨List.mem_cons_self _ _, hpi, ?_⟩
            rcases a5 j with h | ⟨_, _, h⟩
            · rw [h, updVoice_same]
            · rw [h, updVoice_same]
          · rcases a5 j with h | ⟨h1, h2, h3⟩
            · left
              rw [h]
              simp only [State.updVoice, Function.update_noteq e]
            · right
              have o : (s.updVoice i (fun w => { w with note_number := 255 })).voice_data j
                  = s.voice_data j := by
                simp only [State.updVoice, Function.update_noteq e]
              rw [o] at h2 h3
              exact ⟨List.mem_cons_of_mem _ h1, h2, h3⟩
        · rcases List.mem_cons.mp hj with e | e
          · subst e
            rcases a5 j with h' | ⟨_, _, h'⟩
            · rw [h', updVoice_same]
              exact hp _ rfl
            · rw [h']
              exact hp _ rfl
          · exact a6 h j e
        · exfalso
          omega
      · rw [if_neg hpi]
        obtain ⟨a1, a2, a3, a4, a5, a6, a7⟩ := ih b s hrest hb
        refine ⟨a1, a2, a3, a4, fun j => ?_, fun h j hj => ?_, a7⟩
        · rcases a5 j with h | ⟨h1, h2, h3⟩
          · exact Or.inl h
          · exact Or.inr ⟨List.mem_cons_of_mem _ h1, h2, h3⟩
        · rcases List.mem_cons.mp hj with e | e
          · subst e
            rcases a5 j with h' | ⟨_, _, h'⟩
            · rw [h']
              simpa using hpi
            · rw [h']
              exact hp _ rfl
          · exact a6 h j e

theorem freeFirst_none (p : Voice_Data → Bool) : ∀ (l : List Int) (b : Int) (s : State),
    (∀ i ∈ l, p (s.voice_data i) = false) → freeFirst p l b s = (s, b) := by
  intro l
  induction l with
  | nil => intro b s _; rfl
  | cons i rest ih =>
    intro b s h
    rw [freeFirst]
    split
    · rfl
    · rw [h i (List.mem_cons_self _ _)]
      simp only [Bool.false_eq_true, if_false]
      exact ih b s (fun j hj => h j (List.mem_cons_of_mem _ hj))

theorem freeFirst_freedBy (p : Voice_Data → Bool) (m : Int)
    (hp : ∀ w : Voice_Data, w.note_number = 255 → p w = false)
    (l : List Int) (b : Int) (s : State) (hl : ∀ i ∈ l, 0 ≤ i ∧ i < m) (hb : 0 ≤ b) :
    FreedBy p l m b s (freeFirst p l b s) := by
  obtain ⟨⟨a1, a2⟩, a3, a4, a5, a6, a7, a8⟩ := freeFirst_spec p m hp l b s hl hb
  exact ⟨a1, a2, a3, a4, a5, a6, a7, a8, freeFirst_none p l b s⟩

/-! ## `ReduceActiveVoices`: how many voices are freed, and which (C31) -/

/-- The slots of a walk from a slot that is `d + 1` slots before `r`: the slots of the pool
that are `d + 1` slots before `r` at most. -/
theorem ringFrom_mem (s : State) (r : Int) (hr : 0 ≤ r ∧ r < s.maximum_polyphony)
    (hm : s.maximum_polyphony ≤ 64) :
    ∀ (d : Nat) (index : Int), 0 ≤ index ∧ index < s.maximum_polyphony →
      (if index < r then r - index else r - index + s.maximum_polyphony) = d + 1 →
      ∀ i, i ∈ ringFrom s (d + 1) index
        ↔ (0 ≤ i ∧ i < s.maximum_polyphony)
          ∧ (if i < r then r - i else r - i + s.maximum_polyphony) ≤ d + 1 := by
  intro d
  induction d with
  | zero =>
    intro index hi hd i
    simp only [ringFrom, List.mem_singleton, Nat.cast_zero, zero_add]
    simp only [Nat.cast_zero, zero_add] at hd
    constructor
    · intro e
      subst e
      exact ⟨hi, by omega⟩
    · rintro ⟨h1, h2⟩
      split at hd <;> split at h2 <;> omega
  | succ d ih =>
    intro index hi hd i
    obtain ⟨e1, _, _, e4⟩ := ring_step s r index (d + 1) hr hm hi hd
    obtain ⟨_, k, hk, e6⟩ := e4 (by omega)
    have hkd : k = d := by omega
    subst hkd
    rw [ringFrom, List.mem_cons, ih (nextIndex s index) e1 e6 i]
    push_cast at hd ⊢
    constructor
    · rintro (e | ⟨h1, h2⟩)
      · subst e
        exact ⟨hi, by omega⟩
      · exact ⟨h1, by omega⟩
    · rintro ⟨h1, h2⟩
      by_cases e : i = index
      · exact Or.inl e
      · right
        refine ⟨h1, ?_⟩
        split at hd <;> split at h2 <;> split <;> omega

/-- The slot at place `k` of a walk from `index`, within one turn. -/
theorem ringFrom_get (s : State) : ∀ (n : Nat) (index : Int) (k : Nat),
    0 ≤ index ∧ index < s.maximum_polyphony → k < n → (k : Int) < s.maximum_polyphony →
    (ringFrom s n index).getD k 0
      = if index + k < s.maximum_polyphony then index + k
        else index + k - s.maximum_polyphony := by
  intro n
  induction n with
  | zero => intro index k _ hk; omega
  | succ n ih =>
    intro index k hi hk hkm
    rw [ringFrom]
    cases k with
    | zero =>
      simp only [List.getD_cons_zero, Nat.cast_zero, add_zero]
      rw [if_pos hi.2]
    | succ k =>
      have hn : nextIndex s index
          = if index + 1 ≥ s.maximum_polyphony then 0 else index + 1 := rfl
      have b : 0 ≤ nextIndex s index ∧ nextIndex s index < s.maximum_polyphony := by
        rw [hn]
        split <;> omega
      rw [List.getD_cons_succ, ih (nextIndex s index) k b (by omega) (by push_cast at hkm; omega),
        hn]
      push_cast at hkm ⊢
      split <;> split <;> split <;> omega

/-- The call of `ReduceActiveVoices` in the range of C31: it returns, and its voices are those
of `ReduceActiveVoices_order`. -/
theorem ReduceActiveVoices_order_eq (s : State) (n : Int)
    (hn : 0 < n ∧ n < s.maximum_polyphony) (hm : s.maximum_polyphony ≤ 64)
    (hr : 0 ≤ s.recent_voice_index ∧ s.recent_voice_index < s.maximum_polyphony) :
    ∃ t, ReduceActiveVoices s n = some t
      ∧ t.voice_data = (ReduceActiveVoices_order s n).1.voice_data := by
  obtain ⟨d, hd⟩ : ∃ d : Nat, s.maximum_polyphony.toNat - 1 = d + 1 :=
    ⟨s.maximum_polyphony.toNat - 2, by omega⟩
  have e1 : i32 (u32 (s.recent_voice_index + 1)) = s.recent_voice_index + 1 := by
    unfold i32 u32
    omega
  have est : FindAvailableVoice_start s
      = if s.recent_voice_index + 1 ≥ s.maximum_polyphony then 0
        else s.recent_voice_index + 1 := by
    show (if i32 (u32 (s.recent_voice_index + 1)) ≥ s.maximum_polyphony then 0
      else i32 (u32 (s.recent_voice_index + 1))) = _
    rw [e1]
  have b0 : 0 ≤ FindAvailableVoice_start s ∧ FindAvailableVoice_start s < s.maximum_polyphony := by
    rw [est]
    split <;> omega
  have b2 : FindAvailableVoice_start s ≠ s.recent_voice_index := by
    rw [est]
    split <;> omega
  have b3 : (if FindAvailableVoice_start s < s.recent_voice_index
      then s.recent_voice_index - FindAvailableVoice_start s
      else s.recent_voice_index - FindAvailableVoice_start s + s.maximum_polyphony)
      = ((d : Nat) : Int) + 1 := by
    rw [est]
    split <;> split <;> omega
  have hslots : ∀ i ∈ ringFrom s (d + 1) (FindAvailableVoice_start s),
      0 ≤ i ∧ i < s.maximum_polyphony :=
    fun i hi => ((ringFrom_mem s s.recent_voice_index hr hm d _ b0 b3 i).mp hi).1
  obtain ⟨⟨f1, f2⟩, _, f4, f5, _, _, _⟩ := freeFirst_spec
    (fun w => decide (w.note_number ≠ 255 ∧ w.vflags / 128 % 2 ≠ 0)) s.maximum_polyphony
    (fun w hw => by simp [hw]) (ringFrom s (d + 1) (FindAvailableVoice_start s))
    (max 1 (activeVoices s 0 s.maximum_polyphony - n)) s hslots (by omega)
  have l1 := Reduce_loop1_order n s.recent_voice_index s.maximum_polyphony hr hm d
    s.maximum_polyphony.toNat (FindAvailableVoice_start s)
    (activeVoices s 0 s.maximum_polyphony) s _ rfl rfl b0 b2 b3 (by omega) rfl
  have eo : ReduceActiveVoices_order s n
      = freeFirst (fun w => decide (w.note_number ≠ 255))
          (ringFrom s (d + 1) (FindAvailableVoice_start s))
          (freeFirst (fun w => decide (w.note_number ≠ 255 ∧ w.vflags / 128 % 2 ≠ 0))
            (ringFrom s (d + 1) (FindAvailableVoice_start s))
            (max 1 (activeVoices s 0 s.maximum_polyphony - n)) s).2
          (freeFirst (fun w => decide (w.note_number ≠ 255 ∧ w.vflags / 128 % 2 ≠ 0))
            (ringFrom s (d + 1) (FindAvailableVoice_start s))
            (max 1 (activeVoices s 0 s.maximum_polyphony - n)) s).1 := by
    unfold ReduceActiveVoices_order
    rw [hd]
  rw [eo]
  generalize freeFirst (fun w => decide (w.note_number ≠ 255 ∧ w.vflags / 128 % 2 ≠ 0))
    (ringFrom s (d + 1) (FindAvailableVoice_start s))
    (max 1 (activeVoices s 0 s.maximum_polyphony - n)) s = q1 at f1 f2 f4 f5 l1 ⊢
  have er : ReduceActiveVoices s n
      = match ReduceActiveVoices_loop1 n s.maximum_polyphony.toNat (FindAvailableVoice_start s)
          (activeVoices s 0 s.maximum_polyphony) s with
        | none => none
        | some (s1, _, true) => some s1
        | some (s1, active1, false) =>
          ReduceActiveVoices_loop2 n s.maximum_polyphony.toNat (FindAvailableVoice_start s)
            active1 s1 := by
    unfold ReduceActiveVoices
    rw [if_neg (by omega), if_pos (by omega)]
    rfl
  rw [er, l1]
  by_cases hq : q1.2 ≤ 0
  · rw [if_pos hq, freeFirst_done _ _ _ _ hq]
    exact ⟨_, rfl, rfl⟩
  · rw [if_neg hq]
    simp only
    have hb : max 1 (activeVoices s 0 s.maximum_polyphony
        - (max 1 (activeVoices s 0 s.maximum_polyphony - n) - q1.2) - n) = q1.2 := by omega
    have l2 := Reduce_loop2_order n s.recent_voice_index s.maximum_polyphony hr hm d
      s.maximum_polyphony.toNat (FindAvailableVoice_start s)
      (activeVoices s 0 s.maximum_polyphony
        - (max 1 (activeVoices s 0 s.maximum_polyphony - n) - q1.2)) q1.1 _ f5 f4 b0 b2 b3
      (by omega) rfl
    rw [l2, hb, ringFrom_congr s q1.1 f4]
    split
    · exact ⟨_, rfl, rfl⟩
    · exact ⟨_, rfl, rfl⟩

/-- The voices that are left, in terms of what the two passes of `freeFirst` have freed. -/
theorem order_props (s t : State) (n : Int) (l : List Int) (q1 q2 : State × Int)
    (hn : 0 < n ∧ n < s.maximum_polyphony)
    (hin : ∀ i, (0 ≤ i ∧ i < s.maximum_polyphony) → i ≠ s.recent_voice_index → i ∈ l)
    (hout : s.recent_voice_index ∉ l) (hslots : ∀ i ∈ l, 0 ≤ i ∧ i < s.maximum_polyphony)
    (h1 : FreedBy (fun w => decide (w.note_number ≠ 255 ∧ w.vflags / 128 % 2 ≠ 0)) l
      s.maximum_polyphony (max 1 (activeVoices s 0 s.maximum_polyphony - n)) s q1)
    (h2 : FreedBy (fun w => decide (w.note_number ≠ 255)) l s.maximum_polyphony q1.2 q1.1 q2)
    (hv : t.voice_data = q2.1.voice_data) :
    activeVoices t 0 s.maximum_polyphony
        = activeVoices s 0 s.maximum_polyphony
          - (max 1 (activeVoices s 0 s.maximum_polyphony - n) - q2.2)
    ∧ (activeVoices s 0 s.maximum_polyphony > n →
        q2.2 = 0 ∧ activeVoices t 0 s.maximum_polyphony = n)
    ∧ (activeVoices s 0 s.maximum_polyphony ≤ n →
        (q2.2 = 0
          ↔ ∃ i, (0 ≤ i ∧ i < s.maximum_polyphony) ∧ i ≠ s.recent_voice_index
            ∧ (s.voice_data i).note_number ≠ 255))
    ∧ activeVoices t 0 s.maximum_polyphony ≤ n
    ∧ t.voice_data s.recent_voice_index = s.voice_data s.recent_voice_index
    ∧ (∀ j, t.voice_data j = s.voice_data j
        ∨ ((s.voice_data j).note_number ≠ 255
          ∧ t.voice_data j = { s.voice_data j with note_number := 255 })) := by
  obtain ⟨f1, f2, f3, f4, f5, f6, f7, f8, f9⟩ := h1
  obtain ⟨g1, g2, g3, g4, g5, g6, g7, g8, g9⟩ := h2
  have hcount : activeVoices t 0 s.maximum_polyphony
      = activeVoices s 0 s.maximum_polyphony
        - (max 1 (activeVoices s 0 s.maximum_polyphony - n) - q2.2) := by
    rw [activeVoices_congr q2.1 t _ hv, g3, f3]
    omega
  have hzero : activeVoices s 0 s.maximum_polyphony > n → q2.2 = 0 := by
    intro ha
    by_contra hne
    have hpos : 0 < q2.2 := by omega
    have hle := activeVoices_le_one q2.1 s.maximum_polyphony s.recent_voice_index
      (fun i i0 i1 ine => by
        have := g7 hpos i (hin i ⟨i0, i1⟩ ine)
        simpa using this)
    rw [g3, f3] at hle
    omega
  have hall : ∀ j, t.voice_data j = s.voice_data j
      ∨ ((j ∈ l ∧ (s.voice_data j).note_number ≠ 255)
        ∧ t.voice_data j = { s.voice_data j with note_number := 255 }) := by
    intro j
    rw [hv]
    rcases g6 j with h | ⟨h1, h2, h3⟩
    · rcases f6 j with k | ⟨k1, k2, k3⟩
      · exact Or.inl (h.trans k)
      · right
        simp only [decide_eq_true_eq] at k2
        exact ⟨⟨k1, k2.1⟩, h.trans k3⟩
    · right
      simp only [decide_eq_true_eq] at h2
      rcases f6 j with k | ⟨k1, k2, k3⟩
      · rw [k] at h2 h3
        exact ⟨⟨h1, h2⟩, h3⟩
      · rw [k3] at h2
        exact absurd rfl h2
  refine ⟨hcount, fun ha => ⟨hzero ha, ?_⟩, fun ha => ⟨fun hz => ?_, fun hex => ?_⟩,
    ?_, ?_, fun j => ?_⟩
  · rw [hcount, hzero ha]
    omega
  · by_contra hno
    have hnone : ∀ i ∈ l, (s.voice_data i).note_number = 255 := by
      intro i hi
      by_contra hact
      refine hno ⟨i, hslots i hi, ?_, hact⟩
      intro e
      rw [e] at hi
      exact hout hi
    have e1 := f9 (fun i hi => by simp [hnone i hi])
    rw [e1] at g9
    have e2 := g9 (fun i hi => by simp [hnone i hi])
    rw [e2] at hz
    have : (max 1 (activeVoices s 0 s.maximum_polyphony - n)) = 0 := hz
    omega
  · obtain ⟨i, hi, hne, hact⟩ := hex
    by_contra hnz
    have hpos : 0 < q2.2 := by omega
    have hb : max 1 (activeVoices s 0 s.maximum_polyphony - n) = 1 := by omega
    rw [hb] at f2 f8
    have e2 : q2.1 = q1.1 := g8 (by omega)
    have e1 : q1.1 = s := f8 (by omega)
    have := g7 hpos i (hin i hi hne)
    rw [e2, e1] at this
    simp only [decide_eq_false_iff_not, not_not] at this
    exact hact this
  · rw [hcount]
    by_cases ha : activeVoices s 0 s.maximum_polyphony > n
    · rw [hzero ha]
      omega
    · omega
  · rcases hall s.recent_voice_index with h | ⟨⟨h, _⟩, _⟩
    · exact h
    · exact absurd h hout
  · rcases hall j with h | ⟨⟨_, h1⟩, h2⟩
    · exact Or.inl h
    · exact Or.inr ⟨h1, h2⟩

/-- Claim C31 (amended). `ReduceActiveVoices(n)` for `0 < n < maximum_polyphony <= 64` and
`recent_voice_index < maximum_polyphony`, with `a` voices active in the pool on entry. The
call returns. Its voices are those of `ReduceActiveVoices_order`: `max 1 (a - n)` voices are
to be freed, and they are taken from the slots in circular order from
`recent_voice_index + 1` on (the slot at place `k` is `recent_voice_index + 1 + k`, less
`maximum_polyphony` when that is reached; the slot `recent_voice_index` itself is not among
them and keeps its voice), first among the active voices with the note-off flag, then among
the other active voices. When `a > n`, exactly `a - n` voices are freed and `n` remain
active. When `a <= n` one voice is freed all the same, unless no voice is active in a slot
other than `recent_voice_index`. In every case `n` voices at most remain active, and a voice
is either as it was or was active and has been freed. -/
theorem C31_reduce_order (s : State) (n : Int)
    (hn : 0 < n ∧ n < s.maximum_polyphony) (hm : s.maximum_polyphony ≤ 64)
    (hr : 0 ≤ s.recent_voice_index ∧ s.recent_voice_index < s.maximum_polyphony) :
    ∃ t, ReduceActiveVoices s n = some t
      ∧ t.voice_data = (ReduceActiveVoices_order s n).1.voice_data
      ∧ activeVoices t 0 s.maximum_polyphony
          = activeVoices s 0 s.maximum_polyphony
            - (max 1 (activeVoices s 0 s.maximum_polyphony - n)
              - (ReduceActiveVoices_order s n).2)
      ∧ (activeVoices s 0 s.maximum_polyphony > n →
          (ReduceActiveVoices_order s n).2 = 0
          ∧ activeVoices t 0 s.maximum_polyphony = n)
      ∧ (activeVoices s 0 s.maximum_polyphony ≤ n →
          ((ReduceActiveVoices_order s n).2 = 0
            ↔ ∃ i, (0 ≤ i ∧ i < s.maximum_polyphony) ∧ i ≠ s.recent_voice_index
              ∧ (s.voice_data i).note_number ≠ 255))
      ∧ activeVoices t 0 s.maximum_polyphony ≤ n
      ∧ t.voice_data s.recent_voice_index = s.voice_data s.recent_voice_index
      ∧ (∀ j, t.voice_data j = s.voice_data j
          ∨ ((s.voice_data j).note_number ≠ 255
            ∧ t.voice_data j = { s.voice_data j with note_number := 255 }))
      ∧ (∀ k : Nat, (k : Int) < s.maximum_polyphony - 1 →
          (ringFrom s (s.maximum_polyphony.toNat - 1) (FindAvailableVoice_start s)).getD k 0
            = if s.recent_voice_index + 1 + k < s.maximum_polyphony
              then s.recent_voice_index + 1 + k
              else s.recent_voice_index + 1 + k - s.maximum_polyphony) := by
  obtain ⟨t, ht, hv⟩ := ReduceActiveVoices_order_eq s n hn hm hr
  obtain ⟨d, hd⟩ : ∃ d : Nat, s.maximum_polyphony.toNat - 1 = d + 1 :=
    ⟨s.maximum_polyphony.toNat - 2, by omega⟩
  have e1 : i32 (u32 (s.recent_voice_index + 1)) = s.recent_voice_index + 1 := by
    unfold i32 u32
    omega
  have est : FindAvailableVoice_start s
      = if s.recent_voice_index + 1 ≥ s.maximum_polyphony then 0
        else s.recent_voice_index + 1 := by
    show (if i32 (u32 (s.recent_voice_index + 1)) ≥ s.maximum_polyphony then 0
      else i32 (u32 (s.recent_voice_index + 1))) = _
    rw [e1]
  have b0 : 0 ≤ FindAvailableVoice_start s ∧ FindAvailableVoice_start s < s.maximum_polyphony := by
    rw [est]
    split <;> omega
  have b3 : (if FindAvailableVoice_start s < s.recent_voice_index
      then s.recent_voice_index - FindAvailableVoice_start s
      else s.recent_voice_index - FindAvailableVoice_start s + s.maximum_polyphony)
      = ((d : Nat) : Int) + 1 := by
    rw [est]
    split <;> split <;> omega
  have hmem := ringFrom_mem s s.recent_voice_index hr hm d _ b0 b3
  have hin : ∀ i, (0 ≤ i ∧ i < s.maximum_polyphony) → i ≠ s.recent_voice_index →
      i ∈ ringFrom s (d + 1) (FindAvailableVoice_start s) := by
    intro i hi hne
    refine (hmem i).mpr ⟨hi, ?_⟩
    split <;> omega
  have hout : s.recent_voice_index ∉ ringFrom s (d + 1) (FindAvailableVoice_start s) := by
    intro h
    have := ((hmem _).mp h).2
    rw [if_neg (lt_irrefl _)] at this
    omega
  have hslots : ∀ i ∈ ringFrom s (d + 1) (FindAvailableVoice_start s),
      0 ≤ i ∧ i < s.maximum_polyphony := fun i hi => ((hmem i).mp hi).1
  have eo : ReduceActiveVoices_order s n
      = freeFirst (fun w => decide (w.note_number ≠ 255))
          (ringFrom s (d + 1) (FindAvailableVoice_start s))
          (freeFirst (fun w => decide (w.note_number ≠ 255 ∧ w.vflags / 128 % 2 ≠ 0))
            (ringFrom s (d + 1) (FindAvailableVoice_start s))
            (max 1 (activeVoices s 0 s.maximum_polyphony - n)) s).2
          (freeFirst (fun w => decide (w.note_number ≠ 255 ∧ w.vflags / 128 % 2 ≠ 0))
            (ringFrom s (d + 1) (FindAvailableVoice_start s))
            (max 1 (activeVoices s 0 s.maximum_polyphony - n)) s).1 := by
    unfold ReduceActiveVoices_order
    rw [hd]
  have h1 := freeFirst_freedBy
    (fun w => decide (w.note_number ≠ 255 ∧ w.vflags / 128 % 2 ≠ 0)) s.maximum_polyphony
    (fun w hw => by simp [hw]) (ringFrom s (d + 1) (FindAvailableVoice_start s))
    (max 1 (activeVoices s 0 s.maximum_polyphony - n)) s hslots (by omega)
  obtain ⟨q1, hq1⟩ : ∃ q, freeFirst
      (fun w => decide (w.note_number ≠ 255 ∧ w.vflags / 128 % 2 ≠ 0))
      (ringFrom s (d + 1) (FindAvailableVoice_start s))
      (max 1 (activeVoices s 0 s.maximum_polyphony - n)) s = q := ⟨_, rfl⟩
  rw [hq1] at h1 eo
  have h2 := freeFirst_freedBy
    (fun w => decide (w.note_number ≠ 255)) s.maximum_polyphony
    (fun w hw => by simp [hw]) (ringFrom s (d + 1) (FindAvailableVoice_start s))
    q1.2 q1.1 hslots h1.lo
  obtain ⟨q2, hq2⟩ : ∃ q, freeFirst (fun w => decide (w.note_number ≠ 255))
      (ringFrom s (d + 1) (FindAvailableVoice_start s)) q1.2 q1.1 = q := ⟨_, rfl⟩
  rw [hq2] at h2 eo
  rw [eo] at hv ⊢
  obtain ⟨p1, p2, p3, p4, p5, p6⟩ := order_props s t n _ q1 q2 hn hin hout hslots h1 h2 hv
  refine ⟨t, ht, hv, p1, p2, p3, p4, p5, p6, fun k hk => ?_⟩
  rw [hd, ringFrom_get s _ _ k b0 (by omega) (by omega), est]
  split_ifs <;> omega

set_option maxRecDepth 100000 in
/-- Witness of the amended C31: two voices play in `C31_state`, and `ReduceActiveVoices(1)`
leaves one of them. -/
theorem C31_reduce_order_witness :
    activeVoices C31_state 0 C31_state.maximum_polyphony = 2
    ∧ ∃ t, ReduceActiveVoices C31_state 1 = some t
      ∧ activeVoices t 0 C31_state.maximum_polyphony = 1 := by
  obtain ⟨t, ht, _, _, h, _⟩ := C31_reduce_order C31_state 1 (by decide) (by decide) (by decide)
  exact ⟨by decide, t, ht, (h (by decide)).2⟩

set_option maxRecDepth 100000 in
/-- Counterexample to C31 as stated: in `C31_state` the pool has 24 slots,
`recent_voice_index` is 1 and `a` = 2 voices are active (the notes 60 and 62 in the slots 0
and 1). `ReduceActiveVoices(5)` should free no voice, as `a <= 5` already; the second loop
frees the voice in slot 0, and one voice is left. -/
theorem C31_counterexample :
    C31_state.maximum_polyphony = 24
    ∧ C31_state.recent_voice_index = 1
    ∧ activeVoices C31_state 0 24 = 2
    ∧ (C31_state.voice_data 0).note_number = 60
    ∧ (ReduceActiveVoices C31_state 5).map
        (fun t => ((t.voice_data 0).note_number, (t.voice_data 1).note_number,
          activeVoices t 0 24)) = some (255, 62, 1) := by
  decide
/-! ## The range of the amplitude envelope -/

theorem kept_refl (vi : Int) (s : State) : EnvKept vi s s :=
  ⟨rfl, rfl, rfl, rfl, rfl, Or.inl rfl⟩

theorem kept_trans {vi : Int} {s t u : State} (h1 : EnvKept vi s t) (h2 : EnvKept vi t u) :
    EnvKept vi s u := by
  refine ⟨h2.f4E.trans h1.f4E, h2.f50.trans h1.f50, h2.f52.trans h1.f52, h2.f62.trans h1.f62,
    h2.f28.trans h1.f28, ?_⟩
  rcases h2.note with h | h
  · rw [h]; exact h1.note
  · exact Or.inr h

theorem kept_ite {vi : Int} {s a b : State} (c : Prop) [Decidable c] (ha : EnvKept vi s a)
    (hb : EnvKept vi s b) : EnvKept vi s (if c then a else b) := by
  split
  · exact ha
  · exact hb

/-- A change of the voice `j` that keeps the envelope fields, and the note or frees the
voice. -/
theorem kept_updVoice {s t : State} (vi j : Int) (g : Voice_Data → Voice_Data)
    (h : EnvKept vi s t)
    (hg : ∀ w : Voice_Data, (g w).field_4E = w.field_4E ∧ (g w).field_50 = w.field_50
      ∧ (g w).field_52 = w.field_52 ∧ (g w).field_62 = w.field_62
      ∧ (g w).field_28 = w.field_28
      ∧ ((g w).note_number = w.note_number ∨ (g w).note_number = 255)) :
    EnvKept vi s (t.updVoice j g) := by
  by_cases e : vi = j
  · subst e
    obtain ⟨g1, g2, g3, g4, g5, g6⟩ := hg (t.voice_data vi)
    refine ⟨?_, ?_, ?_, ?_, ?_, ?_⟩
    · rw [updVoice_same, g1]; exact h.f4E
    · rw [updVoice_same, g2]; exact h.f50
    · rw [updVoice_same, g3]; exact h.f52
    · rw [updVoice_same, g4]; exact h.f62
    · rw [updVoice_same, g5]; exact h.f28
    · rw [updVoice_same]
      rcases g6 with g6 | g6
      · rw [g6]; exact h.note
      · exact Or.inr g6
  · have k : (t.updVoice j g).voice_data vi = t.voice_data vi := by
      simp only [State.updVoice, Function.update_noteq e]
    exact ⟨by rw [k]; exact h.f4E, by rw [k]; exact h.f50, by rw [k]; exact h.f52,
      by rw [k]; exact h.f62, by rw [k]; exact h.f28, by rw [k]; exact h.note⟩

theorem kept_A0 {s t : State} (vi a b : Int) (h : EnvKept vi s t) :
    EnvKept vi s (sub_C00373A0 t a b).1 :=
  ⟨h.f4E, h.f50, h.f52, h.f62, h.f28, h.note⟩

theorem kept_400 {s t : State} (vi : Int) (h : EnvKept vi s t) :
    EnvKept vi s (sub_C0037400 t).1 :=
  ⟨h.f4E, h.f50, h.f52, h.f62, h.f28, h.note⟩

theorem kept_420 {s t : State} (vi a : Int) (h : EnvKept vi s t) :
    EnvKept vi s (sub_C0037420 t a).1 :=
  ⟨h.f4E, h.f50, h.f52, h.f62, h.f28, h.note⟩

theorem kept_sub_C0034890 {s t : State} (vi j a : Int) (h : EnvKept vi s t) :
    EnvKept vi s (sub_C0034890 t j a) := by
  unfold sub_C0034890
  lift_lets
  intros
  exact kept_updVoice _ _ _ h (fun _ => ⟨rfl, rfl, rfl, rfl, rfl, Or.inl rfl⟩)

theorem kept_sub_C0034970 {s t : State} (vi u a : Int) (h : EnvKept vi s t) :
    EnvKept vi s (sub_C0034970 t u a).1 := by
  unfold sub_C0034970
  exact kept_420 _ _ (kept_A0 _ _ _ h)

theorem kept_sub_C0036A20 {s t : State} (vi j : Int) (h : EnvKept vi s t) :
    EnvKept vi s (sub_C0036A20 t j) := by
  unfold sub_C0036A20
  exact kept_updVoice _ _ _ h (fun _ => ⟨rfl, rfl, rfl, rfl, rfl, Or.inl rfl⟩)

theorem kept_sub_C0036A80 {s t : State} (vi j : Int) (h : EnvKept vi s t) :
    EnvKept vi s (sub_C0036A80 t j) := by
  unfold sub_C0036A80
  lift_lets
  intro v r1 r2 w offset1 offset2 r3 r4
  exact kept_updVoice _ _ _ (kept_400 _ (kept_updVoice _ _ _
    (kept_420 _ _ (kept_A0 _ _ _ (kept_sub_C0034970 _ _ _ h)))
    (fun _ => ⟨rfl, rfl, rfl, rfl, rfl, Or.inl rfl⟩)))
    (fun _ => ⟨rfl, rfl, rfl, rfl, rfl, Or.inl rfl⟩)

theorem kept_sub_C0036C20 {s t : State} (vi j : Int) (h : EnvKept vi s t) :
    EnvKept vi s (sub_C0036C20 t j) := by
  unfold sub_C0036C20
  lift_lets
  intros
  exact kept_sub_C0036A20 _ _ (kept_updVoice _ _ _ h
    (fun _ => ⟨rfl, rfl, rfl, rfl, rfl, Or.inl rfl⟩))

theorem kept_forRange (f : Int → State → State) (lo hi vi : Int) (s t : State)
    (hf : ∀ i u, EnvKept vi u (f i u)) (h : EnvKept vi s t) :
    EnvKept vi s (forRange lo hi f t) :=
  forRange_keeps f (fun u => EnvKept vi s u) lo hi
    (fun i u _ _ hq => kept_trans hq (hf i u)) t h

theorem kept_drums (vi j : Int) :
    ∀ (n : Nat) (p : Int) (s t : State), EnvKept vi s t →
      EnvKept vi s (StartPlayingVoice_drums j n p t) := by
  intro n
  induction n with
  | zero => intro p s t h; exact h
  | succ n ih =>
    intro p s t h
    unfold StartPlayingVoice_drums
    split
    · exact h
    · refine ih _ _ _ (kept_ite _ h ?_)
      refine kept_forRange _ _ _ _ _ _ ?_ h
      intro i u
      beta_reduce
      lift_lets
      intro w
      exact kept_ite _ (kept_updVoice _ _ _ (kept_refl vi u)
        (fun _ => ⟨rfl, rfl, rfl, rfl, rfl, Or.inr rfl⟩)) (kept_refl vi u)

/-- The envelope ranges go with the envelope fields. -/
theorem env_kept {vi : Int} {s t : State} {w0 : Voice_Data} (k : EnvKept vi s t)
    (h : EnvelopeOk w0 (s.voice_data vi)) : EnvelopeOk w0 (t.voice_data vi) := by
  refine ⟨?_, ?_, ?_, ?_, ?_⟩
  · rw [k.f62]; exact h.velocity
  · rw [k.f4E]; exact h.target
  · rw [k.f52]; exact h.value
  · rw [k.f50]
    rcases h.rate with r | r
    · exact Or.inl r
    · rcases k.note with n | n
      · exact Or.inr ⟨by rw [n]; exact r.1, r.2⟩
      · exact Or.inr ⟨n, r.2⟩
  · rw [k.f28]; exact h.level
/-- The linear interpolation between two table entries `a ≤ b`. -/
theorem interpolate_range (a b m : Int) (ha : 0 ≤ a) (hab : a ≤ b) (hb : b ≤ 32768)
    (h0 : 0 ≤ m) (h1 : m < 2048) :
    0 ≤ a + i32 ((b - a) * m) / 2048 ∧ a + i32 ((b - a) * m) / 2048 ≤ b := by
  have p0 : 0 ≤ (b - a) * m := Int.mul_nonneg (by omega) h0
  have p1 : (b - a) * m ≤ (b - a) * 2048 := Int.mul_le_mul_of_nonneg_left (by omega) (by omega)
  rw [i32_id _ (by omega) (by omega)]
  generalize (b - a) * m = p at p0 p1
  omega

/-- The exponential table is increasing up to its last entry 32768. -/
theorem word_C00342D0_mono (k : Int) (h0 : 0 ≤ k) (h1 : k ≤ 15) :
    0 ≤ tableAt word_C00342D0 k ∧ tableAt word_C00342D0 k ≤ tableAt word_C00342D0 (k + 1)
    ∧ tableAt word_C00342D0 (k + 1) ≤ 32768 := by
  interval_cases k <;> decide

/-- The interpolation of `sub_C0037140` in the exponential table, for a value in
`[0, 0x7E00]`: the index is at most 15 and the result is in `[0, 32768]`. -/
theorem level_range (x : Int) (h0 : 0 ≤ x) (h1 : x ≤ 32256) :
    0 ≤ sub_C0037140_level x ∧ sub_C0037140_level x ≤ 32768 := by
  unfold sub_C0037140_level
  lift_lets
  intro index2
  have hk : 0 ≤ index2 ∧ index2 ≤ 15 := by
    show 0 ≤ x % 32768 / 2048 ∧ x % 32768 / 2048 ≤ 15
    omega
  have hm : 0 ≤ x % 2048 ∧ x % 2048 < 2048 := by omega
  obtain ⟨t0, t1, t2⟩ := word_C00342D0_mono index2 hk.1 hk.2
  have := interpolate_range _ _ _ t0 t1 t2 hm.1 hm.2
  omega

/-- A left shift of a value below 64 by at most 13 places is not negative. -/
theorem shl32_small (a n : Int) (a0 : 0 ≤ a) (a1 : a < 64) (n0 : 0 ≤ n) (n1 : n ≤ 13) :
    0 ≤ shl32 a n := by
  have e : shiftFactor n ∈ [1, 2, 4, 8, 16, 32, 64, 128, 256, 512, 1024, 2048, 4096, 8192] := by
    interval_cases n <;> decide
  unfold shl32
  generalize shiftFactor n = f at e
  simp only [List.mem_cons, List.mem_singleton, List.not_mem_nil, or_false] at e
  rcases e with e | e | e | e | e | e | e | e | e | e | e | e | e | e <;> subst e <;>
    rw [i32_id _ (by omega) (by omega)] <;> omega

/-- The rate of `sub_C0036B00` from a byte is in `[0, 0x7FFF]`. -/
theorem rate_range (v : Int) (h0 : 0 ≤ v) (h1 : v ≤ 255) :
    0 ≤ sub_C0036B00_rate v ∧ sub_C0036B00_rate v ≤ 32767 := by
  unfold sub_C0036B00_rate
  lift_lets
  intro value3
  have h3 : 0 ≤ value3 := by
    show 0 ≤ (if v / 32 % 8 * 32 = 32 then v % 32 * 256
      else if v / 32 % 8 * 32 ≠ 0 then shl32 (v % 32 + 32) (v / 32 + 6)
      else shl32 (v % 4) (v / 4))
    split
    · omega
    · split
      · exact shl32_small _ _ (by omega) (by omega) (by omega) (by omega)
      · exact shl32_small _ _ (by omega) (by omega) (by omega) (by omega)
  split <;> omega

/-- The word read by `sub_C0037400` has 16 bits. -/
theorem sub_C0037400_range (s : State) :
    0 ≤ (sub_C0037400 s).2 / 256 ∧ (sub_C0037400 s).2 / 256 ≤ 255 := by
  show 0 ≤ READ_LE_UINT16 s s.rom_offset / 256 ∧ READ_LE_UINT16 s s.rom_offset / 256 ≤ 255
  unfold READ_LE_UINT16 romByte u8
  omega
/-- The target stored by `sub_C0036B00`, for a velocity factor in `[0, 127]` and a 16-bit
word `v` of the ROM: its high byte is at most `0x7E`. -/
theorem target_range (f v : Int) (f0 : 0 ≤ f) (f1 : f ≤ 127) :
    u16 (f * (u16 v / 256) / 256 % 256 * 256 + u16 v % 256) / 256 % 256 * 256 ≤ 32256 := by
  have hv : 0 ≤ u16 v / 256 ∧ u16 v / 256 ≤ 255 := by
    unfold u16
    omega
  have hl : 0 ≤ u16 v % 256 ∧ u16 v % 256 < 256 := by omega
  have p0 : 0 ≤ f * (u16 v / 256) := Int.mul_nonneg f0 hv.1
  have p1 : f * (u16 v / 256) ≤ 127 * 255 :=
    Int.mul_le_mul f1 hv.2 hv.1 (by omega)
  generalize f * (u16 v / 256) = p at p0 p1
  generalize u16 v % 256 = l at hl
  unfold u16
  omega

/-- What `sub_C0036B00` does to the amplitude envelope of its voice: the value, `field_28`
and the velocity factor stay, the note stays or the voice is freed, the new target is at
most `0x7E00` for a velocity factor in `[0, 127]`, and either a rate in `[0, 0x7FFF]` is
stored or the voice is freed with the rate it had. -/
theorem sub_C0036B00_envelope (s : State) (vi : Int) :
    ((sub_C0036B00 s vi).voice_data vi).field_52 = (s.voice_data vi).field_52
    ∧ ((sub_C0036B00 s vi).voice_data vi).field_28 = (s.voice_data vi).field_28
    ∧ ((sub_C0036B00 s vi).voice_data vi).field_62 = (s.voice_data vi).field_62
    ∧ (((sub_C0036B00 s vi).voice_data vi).note_number = (s.voice_data vi).note_number
      ∨ ((sub_C0036B00 s vi).voice_data vi).note_number = 255)
    ∧ (0 ≤ (s.voice_data vi).field_62 ∧ (s.voice_data vi).field_62 ≤ 127 →
      ((sub_C0036B00 s vi).voice_data vi).field_4E / 256 % 256 * 256 ≤ 32256)
    ∧ ((0 ≤ ((sub_C0036B00 s vi).voice_data vi).field_50
        ∧ ((sub_C0036B00 s vi).voice_data vi).field_50 ≤ 32767)
      ∨ (((sub_C0036B00 s vi).voice_data vi).note_number = 255
        ∧ ((sub_C0036B00 s vi).voice_data vi).field_50 = (s.voice_data vi).field_50)) := by
  unfold sub_C0036B00
  lift_lets
  intro v r1 r2 w offset1 offset2 r3 value1 value2 s4 r5 value3
  have ew : w = s.voice_data vi := rfl
  have e3 : r3.1.voice_data vi = s.voice_data vi := rfl
  have e4 : s4.voice_data vi = { s.voice_data vi with field_4E := value2 } := by
    show (r3.1.updVoice vi _).voice_data vi = _
    rw [updVoice_same, e3]
  have ht : 0 ≤ (s.voice_data vi).field_62 ∧ (s.voice_data vi).field_62 ≤ 127 →
      value2 / 256 % 256 * 256 ≤ 32256 := by
    intro h
    show u16 (w.field_62 * (u16 r3.2 / 256) / 256 % 256 * 256 + u16 r3.2 % 256)
      / 256 % 256 * 256 ≤ 32256
    rw [ew]
    exact target_range _ _ h.1 h.2
  split
  · rw [updVoice_same, e4]
    exact ⟨rfl, rfl, rfl, Or.inr rfl, ht, Or.inr ⟨rfl, rfl⟩⟩
  · have e5 : r5.1.voice_data vi = s4.voice_data vi := rfl
    rw [updVoice_same, e5, e4]
    refine ⟨rfl, rfl, rfl, Or.inl rfl, ht, Or.inl ?_⟩
    have hb := sub_C0037400_range s4
    exact rate_range _ hb.1 hb.2

/-- The envelope ranges of the voice `vi` hold after `sub_C0036B00` for any voice `j`. -/
theorem env_sub_C0036B00 {w0 : Voice_Data} (s : State) (vi j : Int)
    (h : EnvelopeOk w0 (s.voice_data vi)) :
    EnvelopeOk w0 ((sub_C0036B00 s j).voice_data vi) := by
  by_cases e : vi = j
  · subst e
    obtain ⟨b52, b28, b62, bn, bt, br⟩ := sub_C0036B00_envelope s vi
    refine ⟨?_, bt h.velocity, ?_, ?_, ?_⟩
    · rw [b62]; exact h.velocity
    · rw [b52]; exact h.value
    · rcases br with r | r
      · exact Or.inl r
      · rcases h.rate with q | q
        · exact Or.inl (by rw [r.2]; exact q)
        · exact Or.inr ⟨r.1, r.2.trans q.2⟩
    · rw [b28]; exact h.level
  · rw [(one_sub_C0036B00 j (one_refl j s)).other vi e]
    exact h

/-- The envelope ranges of the voice `vi` hold after a change of the voice `j` that keeps
them. -/
theorem env_updVoice {w0 : Voice_Data} (s : State) (vi j : Int) (g : Voice_Data → Voice_Data)
    (h : EnvelopeOk w0 (s.voice_data vi))
    (hg : EnvelopeOk w0 (s.voice_data vi) → EnvelopeOk w0 (g (s.voice_data vi))) :
    EnvelopeOk w0 ((s.updVoice j g).voice_data vi) := by
  by_cases e : vi = j
  · subst e
    rw [updVoice_same]
    exact hg h
  · have k : (s.updVoice j g).voice_data vi = s.voice_data vi := by
      simp only [State.updVoice, Function.update_noteq e]
    rw [k]
    exact h

theorem env_VoiceSoundOff {w0 : Voice_Data} (s : State) (vi j : Int)
    (h : EnvelopeOk w0 (s.voice_data vi)) :
    EnvelopeOk w0 ((VoiceSoundOff s j).voice_data vi) := by
  unfold VoiceSoundOff
  lift_lets
  intro s1
  refine env_kept (kept_sub_C0036A80 vi j (kept_refl vi _)) (env_sub_C0036B00 _ _ _ ?_)
  refine env_updVoice _ _ _ _ h ?_
  intro k
  exact ⟨k.velocity, k.target, k.value, Or.inl ⟨show (0 : Int) ≤ 32767 by omega, show (32767 : Int) ≤ 32767 by omega⟩,
    k.level⟩

theorem env_VoiceNoteOff {w0 : Voice_Data} (s : State) (vi j : Int)
    (h : EnvelopeOk w0 (s.voice_data vi)) :
    EnvelopeOk w0 ((VoiceNoteOff s j).voice_data vi) := by
  unfold VoiceNoteOff
  lift_lets
  intro s1
  have h1 : EnvelopeOk w0 (s1.voice_data vi) :=
    env_updVoice _ _ _ _ h (fun k => ⟨k.velocity, k.target, k.value, k.rate, k.level⟩)
  split
  · intro s2
    refine env_kept (kept_sub_C0036A80 vi j (kept_refl vi _)) (env_sub_C0036B00 _ _ _ ?_)
    exact env_updVoice _ _ _ _ h1 (fun k => ⟨k.velocity, k.target, k.value, k.rate, k.level⟩)
  · exact h1
/-- The voice started by `StartPlayingVoice`: the velocity factor is clamped to `[0, 127]`,
the value starts at 0, the target is the one stored by `sub_C0036B00`, the rate is stored by
`sub_C0036B00` unless it frees the voice at once, and `field_28` is not written. -/
theorem StartPlayingVoice_envelope (s : State) (vi ci si base : Int) :
    EnvelopeOk (s.voice_data vi) ((StartPlayingVoice s vi ci si base).voice_data vi)
    ∧ ((StartPlayingVoice s vi ci si base).voice_data vi).field_28
      = (s.voice_data vi).field_28 := by
  unfold StartPlayingVoice
  lift_lets
  intro data s1 r1 r2 r3 r4 r5 r6 r7 r8 r9 r10 field_00 s2 v value3 channel_num_2 note value2a
    value2 s3 s4 value4 value5 value6a value6 s5 s6 s7 s8 v8 q1d q2d s9 start q1 value8a value8 q2
  have H1 : EnvKept vi s s1 := kept_updVoice _ _ _ (kept_refl vi s)
    (fun _ => ⟨rfl, rfl, rfl, rfl, rfl, Or.inl rfl⟩)
  have H2 : EnvKept vi s s2 := kept_updVoice _ _ _ (kept_400 _ (kept_400 _ (kept_400 _
    (kept_400 _ (kept_400 _ (kept_400 _ (kept_400 _ (kept_420 _ _ (kept_A0 _ _ _
      (kept_sub_C0034970 _ _ _ H1)))))))))) (fun _ => ⟨rfl, rfl, rfl, rfl, rfl, Or.inl rfl⟩)
  have H3 : EnvKept vi s s3 := kept_updVoice _ _ _ H2
    (fun _ => ⟨rfl, rfl, rfl, rfl, rfl, Or.inl rfl⟩)
  have H4 : EnvKept vi s s4 := kept_sub_C0036C20 _ _ (kept_sub_C0034890 _ _ _ H3)
  have e5 : s5.voice_data vi = { s4.voice_data vi with
      field_62 := if value6 > 127 then 127 else if value6 ≤ 0 then 0 else value6,
      field_4C := 0, field_2C := 0, field_52 := 0, vflags := 0, field_4E := 0 } := by
    show (s4.updVoice vi _).voice_data vi = _
    rw [updVoice_same]
  have v5 : 0 ≤ (s5.voice_data vi).field_62 ∧ (s5.voice_data vi).field_62 ≤ 127 := by
    rw [e5]
    show 0 ≤ (if value6 > 127 then 127 else if value6 ≤ 0 then 0 else value6)
      ∧ (if value6 > 127 then 127 else if value6 ≤ 0 then 0 else value6) ≤ 127
    split_ifs <;> omega
  have f5 : (s5.voice_data vi).field_52 = 0 := by rw [e5]
  have r5 : (s5.voice_data vi).field_50 = (s.voice_data vi).field_50 := by
    rw [e5]; exact H4.f50
  have l5 : (s5.voice_data vi).field_28 = (s.voice_data vi).field_28 := by
    rw [e5]; exact H4.f28
  have K5 : EnvKept vi s5 (sub_C0036A80 s5 vi) := kept_sub_C0036A80 vi vi (kept_refl vi s5)
  obtain ⟨b52, b28, b62, bn, bt, br⟩ := sub_C0036B00_envelope (sub_C0036A80 s5 vi) vi
  have E6 : EnvelopeOk (s.voice_data vi) (s6.voice_data vi)
      ∧ (s6.voice_data vi).field_28 = (s.voice_data vi).field_28 := by
    refine ⟨⟨?_, ?_, ?_, ?_, ?_⟩, ?_⟩
    · show 0 ≤ ((sub_C0036B00 (sub_C0036A80 s5 vi) vi).voice_data vi).field_62 ∧ _
      rw [b62, K5.f62]; exact v5
    · exact bt (by rw [K5.f62]; exact v5)
    · show 0 ≤ ((sub_C0036B00 (sub_C0036A80 s5 vi) vi).voice_data vi).field_52 ∧ _
      rw [b52, K5.f52, f5]
      omega
    · rcases br with r | r
      · exact Or.inl r
      · exact Or.inr ⟨r.1, r.2.trans (K5.f50.trans r5)⟩
    · exact Or.inr (b28.trans (K5.f28.trans l5))
    · exact b28.trans (K5.f28.trans l5)
  have H7 : EnvKept vi s6 s7 := kept_ite _ (kept_updVoice _ _ _ (kept_refl vi s6)
    (fun _ => ⟨rfl, rfl, rfl, rfl, rfl, Or.inl rfl⟩)) (kept_refl vi s6)
  have H8 : EnvKept vi s6 s8 := kept_ite _ (kept_updVoice _ _ _ H7
    (fun _ => ⟨rfl, rfl, rfl, rfl, rfl, Or.inl rfl⟩)) H7
  have H9 : EnvKept vi s6 s9 := kept_sub_C0036A20 _ _ (kept_updVoice _ _ _
    (kept_420 _ _ (kept_A0 _ _ _ H8)) (fun _ => ⟨rfl, rfl, rfl, rfl, rfl, Or.inl rfl⟩))
  have fin : ∀ t : State, EnvKept vi s6 t →
      EnvelopeOk (s.voice_data vi) (t.voice_data vi)
      ∧ (t.voice_data vi).field_28 = (s.voice_data vi).field_28 :=
    fun t k => ⟨env_kept k E6.1, k.f28.trans E6.2⟩
  split
  · exact fin _ (kept_drums vi vi 37 start s6 s9 H9)
  · exact fin _ (kept_sub_C0036A20 _ _ (kept_updVoice _ _ _
      (kept_420 _ _ (kept_A0 _ _ _ H8)) (fun _ => ⟨rfl, rfl, rfl, rfl, rfl, Or.inl rfl⟩)))

/-- A change of the voice `i` leaves the record of another voice. -/
theorem updVoice_apart (t : State) (i j : Int) (g : Voice_Data → Voice_Data)
    (h : j ≠ i) : (t.updVoice i g).voice_data j = t.voice_data j := by
  simp only [State.updVoice, Function.update_noteq h]

/-- One amplitude step `sub_C0037140` keeps the envelope of the voice `vi` in its ranges;
for an active voice of the pool the new value lies between the old value and the target,
and `field_28` is the table value of the new value, in `[0, 32768]`. -/
theorem sub_C0037140_envelope {w0 : Voice_Data} (s : State) (vi : Int)
    (h : EnvelopeOk w0 (s.voice_data vi)) :
    EnvelopeOk w0 ((sub_C0037140 s).voice_data vi)
    ∧ (0 ≤ vi ∧ vi < s.maximum_polyphony → (s.voice_data vi).note_number ≠ 255 →
      min (s.voice_data vi).field_52 ((s.voice_data vi).field_4E / 256 % 256 * 256)
          ≤ ((sub_C0037140 s).voice_data vi).field_52
        ∧ ((sub_C0037140 s).voice_data vi).field_52
          ≤ max (s.voice_data vi).field_52 ((s.voice_data vi).field_4E / 256 % 256 * 256)
        ∧ ((sub_C0037140 s).voice_data vi).field_28
          = sub_C0037140_level ((sub_C0037140 s).voice_data vi).field_52
        ∧ 0 ≤ ((sub_C0037140 s).voice_data vi).field_28
        ∧ ((sub_C0037140 s).voice_data vi).field_28 ≤ 32768) := by
  have key : ∀ f : Int → State → State,
      (∀ i t j, j ≠ i → (f i t).voice_data j = t.voice_data j) →
      (∀ t, t.voice_data vi = s.voice_data vi →
        EnvelopeOk w0 ((f vi t).voice_data vi)
        ∧ ((s.voice_data vi).note_number ≠ 255 →
          min (s.voice_data vi).field_52 ((s.voice_data vi).field_4E / 256 % 256 * 256)
              ≤ ((f vi t).voice_data vi).field_52
            ∧ ((f vi t).voice_data vi).field_52
              ≤ max (s.voice_data vi).field_52 ((s.voice_data vi).field_4E / 256 % 256 * 256)
            ∧ ((f vi t).voice_data vi).field_28
              = sub_C0037140_level ((f vi t).voice_data vi).field_52
            ∧ 0 ≤ ((f vi t).voice_data vi).field_28
            ∧ ((f vi t).voice_data vi).field_28 ≤ 32768)) →
      EnvelopeOk w0 ((forRange 0 s.maximum_polyphony f s).voice_data vi)
      ∧ (0 ≤ vi ∧ vi < s.maximum_polyphony → (s.voice_data vi).note_number ≠ 255 →
        min (s.voice_data vi).field_52 ((s.voice_data vi).field_4E / 256 % 256 * 256)
            ≤ ((forRange 0 s.maximum_polyphony f s).voice_data vi).field_52
          ∧ ((forRange 0 s.maximum_polyphony f s).voice_data vi).field_52
            ≤ max (s.voice_data vi).field_52 ((s.voice_data vi).field_4E / 256 % 256 * 256)
          ∧ ((forRange 0 s.maximum_polyphony f s).voice_data vi).field_28
            = sub_C0037140_level ((forRange 0 s.maximum_polyphony f s).voice_data vi).field_52
          ∧ 0 ≤ ((forRange 0 s.maximum_polyphony f s).voice_data vi).field_28
          ∧ ((forRange 0 s.maximum_polyphony f s).voice_data vi).field_28 ≤ 32768) := by
    intro f hloc hstep
    by_cases hin : 0 ≤ vi ∧ vi < s.maximum_polyphony
    · have r := forRange_voice f 0 s.maximum_polyphony vi
        (fun w1 => EnvelopeOk w0 w1
          ∧ ((s.voice_data vi).note_number ≠ 255 →
            min (s.voice_data vi).field_52 ((s.voice_data vi).field_4E / 256 % 256 * 256)
                ≤ w1.field_52
              ∧ w1.field_52
                ≤ max (s.voice_data vi).field_52 ((s.voice_data vi).field_4E / 256 % 256 * 256)
              ∧ w1.field_28 = sub_C0037140_level w1.field_52
              ∧ 0 ≤ w1.field_28 ∧ w1.field_28 ≤ 32768))
        s hin.1 hin.2 hloc hstep
      exact ⟨r.1, fun _ hn => r.2 hn⟩
    · rw [forRange_voice_out f 0 s.maximum_polyphony vi s (by omega) hloc]
      exact ⟨h, fun c => absurd c hin⟩
  unfold sub_C0037140
  refine key _ ?_ ?_
  · intro i t j hj
    beta_reduce
    lift_lets
    intro w value2 value3 value1 choice t1
    split
    · rfl
    · rw [updVoice_apart _ _ _ _ hj]
      show (if choice = true then _ else _ : State).voice_data j = _
      split
      · rw [(one_sub_C0036B00 i (one_refl i _)).other j hj, updVoice_apart _ _ _ _ hj]
      · rw [updVoice_apart _ _ _ _ hj]
  · intro t et
    beta_reduce
    lift_lets
    intro w value2 value3 value1 choice t1
    have ew : w = s.voice_data vi := et
    by_cases hn : w.note_number = 255
    · rw [if_pos hn, et]
      exact ⟨h, fun c => absurd (ew ▸ hn) c⟩
    · rw [if_neg hn]
      have hr : 0 ≤ w.field_50 ∧ w.field_50 ≤ 32767 := by
        rw [ew]
        rcases h.rate with r | r
        · exact r
        · exact absurd (ew ▸ r.1) hn
      have hv : 0 ≤ w.field_52 ∧ w.field_52 ≤ 32256 := by rw [ew]; exact h.value
      have ht : 0 ≤ value3 ∧ value3 ≤ 32256 := by
        refine ⟨?_, ?_⟩
        · show 0 ≤ w.field_4E / 256 % 256 * 256
          omega
        · show w.field_4E / 256 % 256 * 256 ≤ 32256
          rw [ew]; exact h.target
      have e3 : (s.voice_data vi).field_4E / 256 % 256 * 256 = value3 := by
        rw [← ew]
      rw [e3, ← ew]
      have last : EnvKept vi t1 (t1.updVoice vi (fun w => { w with
          field_38 := i32 (w.field_28 * w.field_64) / 16384 })) :=
        kept_updVoice vi vi _ (kept_refl vi t1)
          (fun _ => ⟨rfl, rfl, rfl, rfl, rfl, Or.inl rfl⟩)
      have fin : EnvelopeOk w0 (t1.voice_data vi)
          ∧ min w.field_52 value3 ≤ (t1.voice_data vi).field_52
          ∧ (t1.voice_data vi).field_52 ≤ max w.field_52 value3
          ∧ (t1.voice_data vi).field_28 = sub_C0037140_level (t1.voice_data vi).field_52
          ∧ 0 ≤ (t1.voice_data vi).field_28 ∧ (t1.voice_data vi).field_28 ≤ 32768 := by
        have upd : ∀ x : Int, 0 ≤ x → x ≤ 32256 →
            EnvelopeOk w0 ((t.updVoice vi (fun w => { w with
              field_52 := i16 x, field_28 := sub_C0037140_level x })).voice_data vi)
            ∧ ((t.updVoice vi (fun w => { w with
              field_52 := i16 x, field_28 := sub_C0037140_level x })).voice_data vi).field_52 = x
            ∧ ((t.updVoice vi (fun w => { w with
              field_52 := i16 x, field_28 := sub_C0037140_level x })).voice_data vi).field_28
                = sub_C0037140_level x := by
          intro x x0 x1
          have ei : i16 x = x := by unfold i16; omega
          rw [updVoice_same, et]
          refine ⟨⟨h.velocity, h.target, ?_, h.rate, Or.inl (level_range x x0 x1)⟩, ei, rfl⟩
          show 0 ≤ i16 x ∧ i16 x ≤ 32256
          rw [ei]
          exact ⟨x0, x1⟩
        by_cases hc : choice = true
        · have e1 : t1 = sub_C0036B00 (t.updVoice vi (fun w => { w with
              field_52 := i16 value3, field_28 := sub_C0037140_level value3 })) vi := if_pos hc
          obtain ⟨u1, u2, u3⟩ := upd value3 ht.1 ht.2
          obtain ⟨b52, b28, _, _, _, _⟩ := sub_C0036B00_envelope (t.updVoice vi (fun w => { w with
              field_52 := i16 value3, field_28 := sub_C0037140_level value3 })) vi
          have lv := level_range value3 ht.1 ht.2
          rw [e1]
          refine ⟨env_sub_C0036B00 _ vi vi u1, ?_, ?_, ?_, ?_, ?_⟩
          · rw [b52, u2]; omega
          · rw [b52, u2]; omega
          · rw [b52, b28, u2, u3]
          · rw [b28, u3]; exact lv.1
          · rw [b28, u3]; exact lv.2
        · have e1 : t1 = t.updVoice vi (fun w => { w with
              field_52 := i16 value1, field_28 := sub_C0037140_level value1 }) := if_neg hc
          have hb : min w.field_52 value3 ≤ value1 ∧ value1 ≤ max w.field_52 value3 := by
            have hc2 : ¬ (if value3 > w.field_52 then decide (value3 ≤ value1)
                else decide (value3 ≥ value1)) = true := hc
            have ev : value1 = if value3 > w.field_52 then
                  if w.field_52 + w.field_50 > 32767 then 32767 else w.field_52 + w.field_50
                else
                  if w.field_52 - w.field_50 < -32767 then -32767
                  else w.field_52 - w.field_50 := rfl
            generalize value1 = y at hc2 ev
            generalize value3 = z at hc2 ev ht
            split_ifs at hc2 ev <;> simp only [decide_eq_true_eq] at hc2 <;> omega
          have hy : 0 ≤ value1 ∧ value1 ≤ 32256 := by omega
          obtain ⟨u1, u2, u3⟩ := upd value1 hy.1 hy.2
          have lv := level_range value1 hy.1 hy.2
          rw [e1]
          refine ⟨u1, ?_, ?_, ?_, ?_, ?_⟩
          · rw [u2]; exact hb.1
          · rw [u2]; exact hb.2
          · rw [u2, u3]
          · rw [u3]; exact lv.1
          · rw [u3]; exact lv.2
      refine ⟨env_kept last fin.1, fun _ => ?_⟩
      rw [last.f52, last.f28]
      exact fin.2
/-- The envelope of the voice `vi` is in its ranges in every state of a run. -/
theorem run_envelope (vi : Int) (s0 s : State) (hr : EnvelopeRun vi s0 s) :
    EnvelopeOk (s0.voice_data vi) (s.voice_data vi) := by
  induction hr with
  | start ci si base => exact (StartPlayingVoice_envelope _ vi ci si base).1
  | step _ ih => exact (sub_C0037140_envelope _ vi ih).1
  | retarget j _ ih => exact env_sub_C0036B00 _ vi j ih
  | soundOff j _ ih => exact env_VoiceSoundOff _ vi j ih
  | noteOff j _ ih => exact env_VoiceNoteOff _ vi j ih
  | again u ci si base _ e50 e28 ih =>
    obtain ⟨k, f28⟩ := StartPlayingVoice_envelope u vi ci si base
    refine ⟨k.velocity, k.target, k.value, ?_, ?_⟩
    · rcases k.rate with r | r
      · exact Or.inl r
      · rcases ih.rate with q | q
        · exact Or.inl (by rw [r.2, e50]; exact q)
        · exact Or.inr ⟨r.1, r.2.trans (e50.trans q.2)⟩
    · rw [f28]
      rcases e28 with e | e
      · rw [e]; exact ih.level
      · rw [e]; exact Or.inl ⟨by omega, by omega⟩

/-- Claim C39 (amplitude envelope range). For every state, hence every ROM content, and
every voice `vi`: after a start of the voice by `StartPlayingVoice` and any number of
amplitude steps `sub_C0037140`, of retargetings by `sub_C0036B00`, `VoiceSoundOff` and
`VoiceNoteOff` (of any voice) and of further starts, the target `field_4E & 0xFF00` is at
most `0x7E00`, the value `field_52` is in `[0, 0x7E00]` and its table index `field_52 >> 11`
is at most 15. The rate `field_50` is in `[0, 0x7FFF]`, the only other case being a free
voice for which no rate has been stored since the first start, whose `field_50` is then the
one the record had before that start; so the rate is in range whenever the voice is active,
and always when it was in range before the first start, as it is in the zeroed pool.
`field_28` is in `[0, 32768]` or still the one the record had before the first start, which
`StartPlayingVoice` does not write. One more amplitude step on an active voice of the pool
puts the value between its old value and the target, never past the target, and stores in
`field_28` the table value of the new value, in `[0, 32768]`. -/
theorem C39_envelope_range (vi : Int) (s0 s : State) (hr : EnvelopeRun vi s0 s) :
    (s.voice_data vi).field_4E / 256 % 256 * 256 ≤ 32256
    ∧ (0 ≤ (s.voice_data vi).field_52 ∧ (s.voice_data vi).field_52 ≤ 32256)
    ∧ (0 ≤ (s.voice_data vi).field_52 / 2048 ∧ (s.voice_data vi).field_52 / 2048 ≤ 15)
    ∧ ((0 ≤ (s.voice_data vi).field_50 ∧ (s.voice_data vi).field_50 ≤ 32767)
      ∨ ((s.voice_data vi).note_number = 255
        ∧ (s.voice_data vi).field_50 = (s0.voice_data vi).field_50))
    ∧ ((s.voice_data vi).note_number ≠ 255 →
      0 ≤ (s.voice_data vi).field_50 ∧ (s.voice_data vi).field_50 ≤ 32767)
    ∧ (0 ≤ (s0.voice_data vi).field_50 ∧ (s0.voice_data vi).field_50 ≤ 32767 →
      0 ≤ (s.voice_data vi).field_50 ∧ (s.voice_data vi).field_50 ≤ 32767)
    ∧ ((0 ≤ (s.voice_data vi).field_28 ∧ (s.voice_data vi).field_28 ≤ 32768)
      ∨ (s.voice_data vi).field_28 = (s0.voice_data vi).field_28)
    ∧ (0 ≤ (s0.voice_data vi).field_28 ∧ (s0.voice_data vi).field_28 ≤ 32768 →
      0 ≤ (s.voice_data vi).field_28 ∧ (s.voice_data vi).field_28 ≤ 32768)
    ∧ (0 ≤ vi ∧ vi < s.maximum_polyphony → (s.voice_data vi).note_number ≠ 255 →
      min (s.voice_data vi).field_52 ((s.voice_data vi).field_4E / 256 % 256 * 256)
          ≤ ((sub_C0037140 s).voice_data vi).field_52
        ∧ ((sub_C0037140 s).voice_data vi).field_52
          ≤ max (s.voice_data vi).field_52 ((s.voice_data vi).field_4E / 256 % 256 * 256)
        ∧ ((sub_C0037140 s).voice_data vi).field_28
          = sub_C0037140_level ((sub_C0037140 s).voice_data vi).field_52
        ∧ 0 ≤ ((sub_C0037140 s).voice_data vi).field_28
        ∧ ((sub_C0037140 s).voice_data vi).field_28 ≤ 32768) := by
  have k := run_envelope vi s0 s hr
  have v := k.value
  refine ⟨k.target, v, by omega, k.rate, ?_, ?_, k.level, ?_,
    (sub_C0037140_envelope s vi k).2⟩
  · intro hn
    rcases k.rate with r | r
    · exact r
    · exact absurd r.1 hn
  · intro h0
    rcases k.rate with r | r
    · exact r
    · rw [r.2]; exact h0
  · intro h0
    rcases k.level with r | r
    · exact r
    · rw [r]; exact h0

set_option maxRecDepth 100000 in
/-- Witness of C39: voice 0 of the module in play, whose record is still the zeroed one
(`field_50` = 0 and `field_28` = 0), is started and taken through one amplitude step; the
target, the value, the rate and `field_28` are in their ranges. -/
theorem C39_envelope_range_witness :
    EnvelopeRun 0 playingModule (sub_C0037140 (StartPlayingVoice playingModule 0 0 0 0))
    ∧ (playingModule.voice_data 0).field_50 = 0
    ∧ (playingModule.voice_data 0).field_28 = 0
    ∧ ((sub_C0037140 (StartPlayingVoice playingModule 0 0 0 0)).voice_data 0).field_4E
        / 256 % 256 * 256 ≤ 32256
    ∧ (0 ≤ ((sub_C0037140 (StartPlayingVoice playingModule 0 0 0 0)).voice_data 0).field_52
      ∧ ((sub_C0037140 (StartPlayingVoice playingModule 0 0 0 0)).voice_data 0).field_52
        ≤ 32256)
    ∧ (0 ≤ ((sub_C0037140 (StartPlayingVoice playingModule 0 0 0 0)).voice_data 0).field_50
      ∧ ((sub_C0037140 (StartPlayingVoice playingModule 0 0 0 0)).voice_data 0).field_50
        ≤ 32767)
    ∧ (0 ≤ ((sub_C0037140 (StartPlayingVoice playingModule 0 0 0 0)).voice_data 0).field_28
      ∧ ((sub_C0037140 (StartPlayingVoice playingModule 0 0 0 0)).voice_data 0).field_28
        ≤ 32768) := by
  have e50 : (playingModule.voice_data 0).field_50 = 0 := by decide
  have e28 : (playingModule.voice_data 0).field_28 = 0 := by decide
  obtain ⟨a, b, _, _, _, c, _, d, _⟩ := C39_envelope_range 0 playingModule _
    (EnvelopeRun.step (EnvelopeRun.start playingModule 0 0 0))
  exact ⟨EnvelopeRun.step (EnvelopeRun.start playingModule 0 0 0), e50, e28, a, b,
    c (by rw [e50]; omega), d (by rw [e28]; omega)⟩
end VLSG
